import Mathlib

/-!
# Registry security-descriptor store (ntos/config/cmse.c)

A shallow embedding of the security routines of the configuration manager:
the reference-counted, deduplicating store of security cells, the per-hive
ring of security cells and the security cache, together with the routines
`CmpSetSecurityDescriptorInfo`, `CmpAssignSecurityDescriptor`,
`CmpFreeSecurityDescriptor`, `CmpInsertSecurityCellList` and
`CmpRemoveSecurityCellList`.

Hive cells are kept in association lists keyed by cell index; a pointer into
the hive is the cell index it was obtained from, and every read through a
pointer is a lookup in the current hive.  The collaborators of the module that
live in other files (the cell store, the security cache, the descriptor
primitive) are modelled from the specification; where they can fail, the
failure is decided by the per-call environment `Env`.
-/

set_option autoImplicit false

/-! ## Basic types -/

/-- A hive cell index (`HCELL_INDEX`, a 32-bit value). -/
abbrev HCELL_INDEX := Nat

/-- The nil cell index. -/
def HCELL_NIL : HCELL_INDEX := 0xFFFFFFFF

/-- An `NTSTATUS` value, a signed 32-bit integer. -/
abbrev NTSTATUS := Int

def STATUS_SUCCESS : NTSTATUS := 0
def STATUS_UNSUCCESSFUL : NTSTATUS := 0xC0000001 - 0x100000000
def STATUS_ACCESS_DENIED : NTSTATUS := 0xC0000022 - 0x100000000
def STATUS_BUFFER_TOO_SMALL : NTSTATUS := 0xC0000023 - 0x100000000
def STATUS_INSUFFICIENT_RESOURCES : NTSTATUS := 0xC000009A - 0x100000000
def STATUS_KEY_DELETED : NTSTATUS := 0xC000017C - 0x100000000
def STATUS_NO_LOG_SPACE : NTSTATUS := 0xC000017D - 0x100000000

/-- The macro `NT_SUCCESS(Status)`: the status is not negative. -/
def NT_SUCCESS (Status : NTSTATUS) : Bool := decide (0 ≤ Status)

/-- How a routine ends: it returns a status, or the system bugchecks. -/
inductive Outcome where
  | Returned (Status : NTSTATUS)
  | BugCheck (Code : Nat) (Parameter : Nat)
deriving DecidableEq, Repr

/-- Storage type `Stable` of a cell. -/
def Stable : Nat := 0

/-- Storage type `Volatile` of a cell. -/
def Volatile : Nat := 1

/-- Modelled from the spec: the cell store's `get_type(index)`, whose macro
`HvGetCellType` is declared in the hive header; the storage type is the top
bit of the 32-bit cell index. -/
def HvGetCellType (Cell : HCELL_INDEX) : Nat := (Cell / 0x80000000) % 2

/-- Node flag `KEY_HIVE_ENTRY`: the node is the root of a hive. -/
def KEY_HIVE_ENTRY : Nat := 0x0004

/-- The signature `CM_KEY_SECURITY_SIGNATURE` ("sk"). -/
def CM_KEY_SECURITY_SIGNATURE : Nat := 0x6b73

/-- Modelled from the spec: `FIELD_OFFSET(CM_KEY_SECURITY, Descriptor)`, the
size of the header of a security cell (the type is declared in the hive
header): signature, reserved word, two links, count and length. -/
def CM_KEY_SECURITY_HEADER : Nat := 20

/-- A key node cell (`CM_KEY_NODE`), the fields this module uses. -/
structure CM_KEY_NODE where
  Flags : Nat
  LastWriteTime : Nat
  Parent : HCELL_INDEX
  Security : HCELL_INDEX
  SubKeyCounts : List Nat := [0, 0]
deriving DecidableEq, Repr

/-- A security cell (`CM_KEY_SECURITY`); `Descriptor` is the storage that
follows the header. -/
structure CM_KEY_SECURITY where
  Signature : Nat
  Flink : HCELL_INDEX
  Blink : HCELL_INDEX
  ReferenceCount : Nat
  DescriptorLength : Nat
  Descriptor : List Nat
deriving DecidableEq, Repr

/-- A cached security descriptor (`CM_KEY_SECURITY_CACHE`); its list linkage
into a hash bucket is kept in `CMHIVE.SecurityHash`. -/
structure CM_KEY_SECURITY_CACHE where
  Cell : HCELL_INDEX
  ConvKey : Nat
  DescriptorLength : Nat
  Descriptor : List Nat
deriving DecidableEq, Repr

/-- What happened to a hive cell, in program order (most recent first in the log). -/
inductive CellEvent where
  | Dirty (Cell : HCELL_INDEX)
  | Write (Cell : HCELL_INDEX)
  | Allocate (Cell : HCELL_INDEX)
  | Free (Cell : HCELL_INDEX)
deriving DecidableEq, Repr

/-- A hive with its security cache (`CMHIVE`).

* `KeyNodes`, `SecurityCells`: the allocated key-node and security cells;
* `SecurityCache`: the array of pairs (cell index, cached security);
* `SecurityHash`: the links of the hash table, a pair (bucket, cell of the
  linked cache entry) per linked entry, the entries of one bucket in list
  order (an entry has one list linkage, so it is in one bucket at a time);
* `Log`: the cell-store events so far, most recent first;
* `ReleaseCellRoutine`: the release callback of the hive, `none` for `NULL`. -/
structure CMHIVE where
  KeyNodes : List (HCELL_INDEX × CM_KEY_NODE)
  SecurityCells : List (HCELL_INDEX × CM_KEY_SECURITY)
  SecurityCache : List (HCELL_INDEX × CM_KEY_SECURITY_CACHE)
  SecurityHash : List (Nat × HCELL_INDEX)
  Log : List CellEvent
  ReleaseCellRoutine : Option Nat := none
deriving DecidableEq, Repr

/-- A key control block (`CM_KEY_CONTROL_BLOCK`), the fields this module uses;
`CachedSecurity` points to a cache entry, named by the cell it shadows. -/
structure CM_KEY_CONTROL_BLOCK where
  KeyCell : HCELL_INDEX
  Delete : Bool
  KcbLastWriteTime : Nat
  CachedSecurity : Option HCELL_INDEX
deriving DecidableEq, Repr

/-- The collaborators' answers during one call.

* `MapOk c`: `HvGetCell` can map the bin of cell `c`;
* `DirtyOk c`: `HvMarkCellDirty` succeeds on `c`;
* `TrackOk c`: `HvTrackCellRef` succeeds on `c`;
* `PoolOk c`: the pool allocation for the cache entry of `c` succeeds;
* `AllocIndex size type`: the index the allocator picks for a new cell;
* `ReallocIndex cell size`: the index the allocator picks when resizing;
* `CmpSecConvKey`, `CmpSecHashTableSize`: the content hash and the table size;
* `SeSetSecurityDescriptorInfo info modification current`: the merge
  primitive, a status and the merged descriptor;
* `SystemTime`: what `KeQuerySystemTime` reads. -/
structure Env where
  MapOk : HCELL_INDEX → Bool
  DirtyOk : HCELL_INDEX → Bool
  TrackOk : HCELL_INDEX → Bool
  PoolOk : HCELL_INDEX → Bool
  AllocIndex : Nat → Nat → HCELL_INDEX
  ReallocIndex : HCELL_INDEX → Nat → HCELL_INDEX
  CmpSecConvKey : Nat → List Nat → Nat
  CmpSecHashTableSize : Nat
  SeSetSecurityDescriptorInfo : Nat → List Nat → List Nat → NTSTATUS × List Nat
  SystemTime : Nat

/-! ## Cell maps -/

section CellMap
variable {α : Type}

/-- The cell stored at an index, if the index is allocated. -/
def cmGet : List (HCELL_INDEX × α) → HCELL_INDEX → Option α
  | [], _ => none
  | (k, v) :: t, c => if k = c then some v else cmGet t c

/-- Write through a pointer to the cell at an index. -/
def cmModify : List (HCELL_INDEX × α) → HCELL_INDEX → (α → α) → List (HCELL_INDEX × α)
  | [], _, _ => []
  | (k, v) :: t, c, f => if k = c then (k, f v) :: t else (k, v) :: cmModify t c f

/-- Remove the cell at an index. -/
def cmErase : List (HCELL_INDEX × α) → HCELL_INDEX → List (HCELL_INDEX × α)
  | [], _ => []
  | (k, v) :: t, c => if k = c then cmErase t c else (k, v) :: cmErase t c

/-- The allocated indices. -/
def cmKeys (m : List (HCELL_INDEX × α)) : List HCELL_INDEX := m.map Prod.fst

end CellMap

/-! ## The cell store (external collaborator) -/

/-- The ULONG increment `Count += 1`. -/
def ULONG_INC (Count : Nat) : Nat := (Count + 1) % 4294967296

/-- The ULONG decrement `Count -= 1`. -/
def ULONG_DEC (Count : Nat) : Nat := (Count + 4294967295) % 4294967296

/-- Modelled from the spec: `RtlLengthSecurityDescriptor`, the size query of the
descriptor primitive; a self-relative descriptor is its bytes. -/
def RtlLengthSecurityDescriptor (Descriptor : List Nat) : Nat := Descriptor.length

/-- The macro `SECURITY_CELL_LENGTH`: the size of the hive cell that holds a
descriptor. -/
def SECURITY_CELL_LENGTH (Descriptor : List Nat) : Nat :=
  CM_KEY_SECURITY_HEADER + RtlLengthSecurityDescriptor Descriptor

/-- The bytes at `Destination` after `RtlCopyMemory(Destination, Source, Length)`. -/
def RtlCopyMemory (Destination Source : List Nat) (Length : Nat) : List Nat :=
  Source.take Length ++ Destination.drop Length

/-- Storage of a cell resized to `Length` bytes: the old bytes, cut or padded. -/
def ResizeStorage (Bytes : List Nat) (Length : Nat) : List Nat :=
  Bytes.take Length ++ List.replicate (Length - Bytes.length) 0

/-- Modelled from the spec: `get(index) -> ptr|null` of the cell store, for a
key node. -/
def HvGetCellNode (env : Env) (Hive : CMHIVE) (Cell : HCELL_INDEX) : Option CM_KEY_NODE :=
  if env.MapOk Cell then cmGet Hive.KeyNodes Cell else none

/-- Modelled from the spec: `get(index) -> ptr|null` of the cell store, for a
security cell. -/
def HvGetCellSecurity (env : Env) (Hive : CMHIVE) (Cell : HCELL_INDEX) :
    Option CM_KEY_SECURITY :=
  if env.MapOk Cell then cmGet Hive.SecurityCells Cell else none

/-- Modelled from the spec: `mark_dirty(index) -> bool` of the cell store;
`none` is FALSE, otherwise the hive with the cell marked. -/
def HvMarkCellDirty (env : Env) (Hive : CMHIVE) (Cell : HCELL_INDEX) : Option CMHIVE :=
  if env.DirtyOk Cell then some { Hive with Log := CellEvent.Dirty Cell :: Hive.Log } else none

/-- A store through a pointer to a security cell. -/
def WriteSecurity (Hive : CMHIVE) (Cell : HCELL_INDEX)
    (f : CM_KEY_SECURITY → CM_KEY_SECURITY) : CMHIVE :=
  { Hive with SecurityCells := cmModify Hive.SecurityCells Cell f,
              Log := CellEvent.Write Cell :: Hive.Log }

/-- A store through a pointer to a key node. -/
def WriteNode (Hive : CMHIVE) (Cell : HCELL_INDEX) (f : CM_KEY_NODE → CM_KEY_NODE) : CMHIVE :=
  { Hive with KeyNodes := cmModify Hive.KeyNodes Cell f,
              Log := CellEvent.Write Cell :: Hive.Log }

/-- Whether the allocator may hand out an index: a 32-bit index other than nil,
of the wanted storage type, not in use. -/
def CellIsFree (Hive : CMHIVE) (Cell : HCELL_INDEX) (CellType : Nat) : Bool :=
  decide (Cell < HCELL_NIL) && decide (HvGetCellType Cell = CellType) &&
    (cmGet Hive.SecurityCells Cell).isNone && (cmGet Hive.KeyNodes Cell).isNone

/-- Modelled from the spec: `allocate(size, type) -> index|Nil` of the cell
store.  The new cell is zeroed storage of the requested size. -/
def HvAllocateCell (env : Env) (Hive : CMHIVE) (NewSize : Nat) (CellType : Nat) :
    HCELL_INDEX × CMHIVE :=
  if CellIsFree Hive (env.AllocIndex NewSize CellType) CellType then
    (env.AllocIndex NewSize CellType,
     { Hive with
        SecurityCells :=
          (env.AllocIndex NewSize CellType,
            { Signature := 0, Flink := 0, Blink := 0, ReferenceCount := 0, DescriptorLength := 0,
              Descriptor := List.replicate (NewSize - CM_KEY_SECURITY_HEADER) 0 })
            :: Hive.SecurityCells,
        Log := CellEvent.Allocate (env.AllocIndex NewSize CellType) :: Hive.Log })
  else (HCELL_NIL, Hive)

/-- Modelled from the spec: `free(index)` of the cell store. -/
def HvFreeCell (Hive : CMHIVE) (Cell : HCELL_INDEX) : CMHIVE :=
  { Hive with SecurityCells := cmErase Hive.SecurityCells Cell,
              Log := CellEvent.Free Cell :: Hive.Log }

/-- Modelled from the spec: `reallocate(index, new_size) -> index|Nil` of the
cell store.  The cell keeps its contents, its storage resized; it may keep its
index or move to an index not in use. -/
def HvReallocateCell (env : Env) (Hive : CMHIVE) (Cell : HCELL_INDEX) (NewSize : Nat) :
    HCELL_INDEX × CMHIVE :=
  match cmGet Hive.SecurityCells Cell with
  | none => (HCELL_NIL, Hive)
  | some Old =>
    if env.ReallocIndex Cell NewSize = Cell ||
        CellIsFree Hive (env.ReallocIndex Cell NewSize) (HvGetCellType Cell) then
      (env.ReallocIndex Cell NewSize,
       { Hive with
          SecurityCells :=
            (env.ReallocIndex Cell NewSize,
              { Old with Descriptor :=
                  ResizeStorage Old.Descriptor (NewSize - CM_KEY_SECURITY_HEADER) })
              :: cmErase Hive.SecurityCells Cell,
          Log := CellEvent.Allocate (env.ReallocIndex Cell NewSize)
                  :: CellEvent.Free Cell :: Hive.Log })
    else (HCELL_NIL, Hive)

/-! ## The security cache (external collaborator) -/

/-- Modelled from the spec: `CmpFindSecurityCellCacheIndex`, the cache entry of
a cell index, if the cache has one. -/
def CmpFindSecurityCellCacheIndex (Hive : CMHIVE) (Cell : HCELL_INDEX) :
    Option CM_KEY_SECURITY_CACHE :=
  cmGet Hive.SecurityCache Cell

/-- The macro `CmpRemoveEntryList` on the list linkage of a cache entry. -/
def CmpRemoveEntryList (Hash : List (Nat × HCELL_INDEX)) (Cell : HCELL_INDEX) :
    List (Nat × HCELL_INDEX) :=
  Hash.filter (fun l => l.2 ≠ Cell)

/-- `InsertTailList` on the head of a bucket. -/
def InsertTailList (Hash : List (Nat × HCELL_INDEX)) (Bucket : Nat) (Cell : HCELL_INDEX) :
    List (Nat × HCELL_INDEX) :=
  Hash ++ [(Bucket, Cell)]

/-- The cache entries linked in a bucket, in list order. -/
def SecurityHashBucket (Hive : CMHIVE) (Bucket : Nat) : List HCELL_INDEX :=
  (Hive.SecurityHash.filter (fun l => l.1 = Bucket)).map Prod.snd

/-- The cache entry that shadows a security cell: a copy of its descriptor bytes
under their content hash. -/
def SecurityCacheEntry (env : Env) (Cell : HCELL_INDEX) (Security : CM_KEY_SECURITY) :
    CM_KEY_SECURITY_CACHE :=
  { Cell := Cell,
    ConvKey := env.CmpSecConvKey Security.DescriptorLength
      (Security.Descriptor.take Security.DescriptorLength),
    DescriptorLength := Security.DescriptorLength,
    Descriptor := Security.Descriptor.take Security.DescriptorLength }

/-- Modelled from the spec: `CmpAddSecurityCellToCache`, "insert a new
CacheEntry": shadow the bytes of the cell, hash them, link the entry at the
tail of its bucket.  It fails when the cell cannot be mapped or the pool is
exhausted. -/
def CmpAddSecurityCellToCache (env : Env) (Hive : CMHIVE) (Cell : HCELL_INDEX) :
    NTSTATUS × CMHIVE :=
  match HvGetCellSecurity env Hive Cell with
  | none => (STATUS_INSUFFICIENT_RESOURCES, Hive)
  | some Security =>
    if env.PoolOk Cell then
      (STATUS_SUCCESS,
       { Hive with
          SecurityCache :=
            (Cell, SecurityCacheEntry env Cell Security) :: cmErase Hive.SecurityCache Cell,
          SecurityHash :=
            InsertTailList (CmpRemoveEntryList Hive.SecurityHash Cell)
              ((SecurityCacheEntry env Cell Security).ConvKey % env.CmpSecHashTableSize)
              Cell })
    else (STATUS_INSUFFICIENT_RESOURCES, Hive)

/-- Modelled from the spec: `CmpRemoveFromSecurityCache`, remove the cache entry
of a cell and unlink it from its bucket. -/
def CmpRemoveFromSecurityCache (Hive : CMHIVE) (Cell : HCELL_INDEX) : CMHIVE :=
  { Hive with SecurityCache := cmErase Hive.SecurityCache Cell,
              SecurityHash := CmpRemoveEntryList Hive.SecurityHash Cell }

/-- Whether a cache entry matches a descriptor of a storage type. -/
def CacheEntryMatches (Cache : List (HCELL_INDEX × CM_KEY_SECURITY_CACHE)) (ConvKey : Nat)
    (Descriptor : List Nat) (CellType : Nat) (Cell : HCELL_INDEX) : Bool :=
  match cmGet Cache Cell with
  | none => false
  | some Cached =>
    decide (Cached.ConvKey = ConvKey) && decide (HvGetCellType Cached.Cell = CellType) &&
      decide (Cached.DescriptorLength = RtlLengthSecurityDescriptor Descriptor) &&
      decide (Cached.Descriptor = Descriptor)

/-- Modelled from the spec: `find_matching(descriptor_bytes, type)` (4.1):
hash the bytes, scan only that bucket, and take the first entry of the storage
type whose bytes are equal byte for byte.  No side effects. -/
def CmpFindMatchingDescriptorCell (env : Env) (Hive : CMHIVE) (SecurityDescriptor : List Nat)
    (CellType : Nat) : Option HCELL_INDEX :=
  (SecurityHashBucket Hive
      (env.CmpSecConvKey (RtlLengthSecurityDescriptor SecurityDescriptor) SecurityDescriptor
        % env.CmpSecHashTableSize)).find?
    (CacheEntryMatches Hive.SecurityCache
      (env.CmpSecConvKey (RtlLengthSecurityDescriptor SecurityDescriptor) SecurityDescriptor)
      SecurityDescriptor CellType)

/-- Modelled from the spec: `CmpAssignSecurityToKcb`, "refresh the owning
handle's cached CacheEntry pointer"; `none` is the fatal error of a cell that
has no cache entry. -/
def CmpAssignSecurityToKcb (Hive : CMHIVE) (Kcb : CM_KEY_CONTROL_BLOCK)
    (SecurityCell : HCELL_INDEX) : Option CM_KEY_CONTROL_BLOCK :=
  match CmpFindSecurityCellCacheIndex Hive SecurityCell with
  | none => none
  | some _ => some { Kcb with CachedSecurity := some SecurityCell }

/-! ## The routines of cmse.c -/

/-- Bugcheck code `REGISTRY_ERROR`. -/
def REGISTRY_ERROR : Nat := 0x51

/-- What `CmpSetSecurityDescriptorInfo` leaves behind: how it ended, the hive
and the key control block. -/
structure SetResult where
  Status : Outcome
  Hive : CMHIVE
  Kcb : CM_KEY_CONTROL_BLOCK
deriving DecidableEq, Repr

/-- `CmpGetKeySecurity`: the security cell of a key node and its index. -/
def CmpGetKeySecurity (env : Env) (Hive : CMHIVE) (Key : CM_KEY_NODE) :
    Option (CM_KEY_SECURITY × HCELL_INDEX) :=
  match HvGetCellSecurity env Hive Key.Security with
  | none => none
  | some Security => some (Security, Key.Security)

/-- `CmpRemoveSecurityCellList`: unlink a security cell from the ring of the
hive and drop its cache entry; nothing is done when one of the three cells
cannot be mapped. -/
def CmpRemoveSecurityCellList (env : Env) (Hive : CMHIVE) (SecurityCell : HCELL_INDEX) :
    CMHIVE :=
  match HvGetCellSecurity env Hive SecurityCell with
  | none => Hive
  | some Cell =>
    match HvGetCellSecurity env Hive Cell.Flink with
    | none => Hive
    | some _ =>
      match HvGetCellSecurity env Hive Cell.Blink with
      | none => Hive
      | some _ =>
        CmpRemoveFromSecurityCache
          (WriteSecurity
            (WriteSecurity Hive Cell.Flink (fun FlinkCell => { FlinkCell with Blink := Cell.Blink }))
            Cell.Blink (fun BlinkCell => { BlinkCell with Flink := Cell.Flink }))
          SecurityCell

/-- The end of `CmpInsertSecurityCellList` (lines 1972-1983): add the new cell to
the security cache. -/
def CmpInsertSecurityCellListCache (env : Env) (Hive : CMHIVE) (SecurityCell : HCELL_INDEX) :
    Bool × CMHIVE :=
  if NT_SUCCESS (CmpAddSecurityCellToCache env Hive SecurityCell).1 then
    (true, (CmpAddSecurityCellToCache env Hive SecurityCell).2)
  else (false, (CmpAddSecurityCellToCache env Hive SecurityCell).2)

/-- `CmpInsertSecurityCellList`: put a newly created security cell into the ring
of the hive, alone if it is volatile or belongs to the hive root, otherwise
right after the security cell of the parent node; then add it to the cache. -/
def CmpInsertSecurityCellList (env : Env) (Hive : CMHIVE) (NodeCell SecurityCell : HCELL_INDEX) :
    Bool × CMHIVE :=
  match HvGetCellSecurity env Hive SecurityCell with
  | none => (false, Hive)
  | some _ =>
  if env.TrackOk SecurityCell then
    if HvGetCellType SecurityCell = Volatile then
      CmpInsertSecurityCellListCache env
        (WriteSecurity Hive SecurityCell
          (fun Cell => { Cell with Flink := SecurityCell, Blink := SecurityCell }))
        SecurityCell
    else
      match HvGetCellNode env Hive NodeCell with
      | none => (false, Hive)
      | some Node =>
      if env.TrackOk NodeCell then
        if Node.Flags &&& KEY_HIVE_ENTRY ≠ 0 then
          CmpInsertSecurityCellListCache env
            (WriteSecurity Hive SecurityCell
              (fun Cell => { Cell with Flink := SecurityCell, Blink := SecurityCell }))
            SecurityCell
        else
          match HvGetCellNode env Hive Node.Parent with
          | none => (false, Hive)
          | some ParentNode =>
          if env.TrackOk Node.Parent then
            match HvGetCellSecurity env Hive ParentNode.Security with
            | none => (false, Hive)
            | some BlinkCell =>
            if env.TrackOk ParentNode.Security then
              match HvGetCellSecurity env Hive BlinkCell.Flink with
              | none => (false, Hive)
              | some FlinkCell =>
              if env.TrackOk BlinkCell.Flink then
                match HvMarkCellDirty env Hive ParentNode.Security with
                | none => (false, Hive)
                | some Hive1 =>
                match HvMarkCellDirty env Hive1 BlinkCell.Flink with
                | none => (false, Hive1)
                | some Hive2 =>
                  CmpInsertSecurityCellListCache env
                    (WriteSecurity
                      (WriteSecurity
                        (WriteSecurity
                          (WriteSecurity Hive2 SecurityCell
                            (fun Cell => { Cell with Flink := BlinkCell.Flink }))
                          SecurityCell (fun Cell => { Cell with Blink := FlinkCell.Blink }))
                        ParentNode.Security (fun Blink => { Blink with Flink := SecurityCell }))
                      BlinkCell.Flink (fun Flink => { Flink with Blink := SecurityCell }))
                    SecurityCell
              else (false, Hive)
            else (false, Hive)
          else (false, Hive)
      else (false, Hive)
  else (false, Hive)

/-- `CmpFreeSecurityDescriptor`: drop the reference a node holds on its security
cell; the cell is unlinked and freed when this was its only reference. -/
def CmpFreeSecurityDescriptor (env : Env) (Hive : CMHIVE) (Cell : HCELL_INDEX) : CMHIVE :=
  match HvGetCellNode env Hive Cell with
  | none => Hive
  | some Node =>
    match HvGetCellSecurity env Hive Node.Security with
    | none => Hive
    | some Security =>
      WriteNode
        (if Security.ReferenceCount = 1 then
          HvFreeCell (CmpRemoveSecurityCellList env Hive Node.Security) Node.Security
         else
          WriteSecurity Hive Node.Security
            (fun S => { S with ReferenceCount := ULONG_DEC S.ReferenceCount }))
        Cell (fun N => { N with Security := HCELL_NIL })

/-- The initial contents `CmpAssignSecurityDescriptor` writes into a new
security cell (lines 1126-1131). -/
def InitializeSecurityCell (SecurityDescriptor : List Nat) (Security : CM_KEY_SECURITY) :
    CM_KEY_SECURITY :=
  { Security with
    Signature := CM_KEY_SECURITY_SIGNATURE,
    ReferenceCount := 1,
    DescriptorLength := RtlLengthSecurityDescriptor SecurityDescriptor,
    Descriptor := RtlCopyMemory Security.Descriptor SecurityDescriptor
      (RtlLengthSecurityDescriptor SecurityDescriptor) }

/-- `CmpAssignSecurityDescriptor`: give a freshly created node (at index `Cell`)
its security descriptor, sharing an existing cell when one matches. -/
def CmpAssignSecurityDescriptor (env : Env) (Hive : CMHIVE) (Cell : HCELL_INDEX)
    (SecurityDescriptor : List Nat) : NTSTATUS × CMHIVE :=
  match HvMarkCellDirty env Hive Cell with
  | none => (STATUS_NO_LOG_SPACE, Hive)
  | some Hive1 =>
    match CmpFindMatchingDescriptorCell env Hive1 SecurityDescriptor (HvGetCellType Cell) with
    | none =>
      let Allocated :=
        HvAllocateCell env Hive1 (SECURITY_CELL_LENGTH SecurityDescriptor) (HvGetCellType Cell)
      if Allocated.1 = HCELL_NIL then (STATUS_INSUFFICIENT_RESOURCES, Allocated.2)
      else
        match HvGetCellSecurity env Allocated.2 Allocated.1 with
        | none => (STATUS_INSUFFICIENT_RESOURCES, HvFreeCell Allocated.2 Allocated.1)
        | some _ =>
          let Inserted :=
            CmpInsertSecurityCellList env
              (WriteSecurity Allocated.2 Allocated.1 (InitializeSecurityCell SecurityDescriptor))
              Cell Allocated.1
          if Inserted.1 then
            (STATUS_SUCCESS,
              WriteNode Inserted.2 Cell (fun Node => { Node with Security := Allocated.1 }))
          else (STATUS_NO_LOG_SPACE, HvFreeCell Inserted.2 Allocated.1)
    | some SecurityCell =>
      match HvMarkCellDirty env Hive1 SecurityCell with
      | none => (STATUS_NO_LOG_SPACE, Hive1)
      | some Hive2 =>
        match HvGetCellSecurity env Hive2 SecurityCell with
        | none => (STATUS_INSUFFICIENT_RESOURCES, Hive2)
        | some _ =>
          (STATUS_SUCCESS,
            WriteNode
              (WriteSecurity Hive2 SecurityCell
                (fun Security =>
                  { Security with ReferenceCount := ULONG_INC Security.ReferenceCount }))
              Cell (fun Node => { Node with Security := SecurityCell }))

/-- The common end of a set that changed the descriptor (lines 978-999): stamp
the node and the key control block, refresh the cached security of the block.
`NodeSecurity` is what `Node->Security` holds by then. -/
def SetSecurityDone (env : Env) (Hive : CMHIVE) (Key : CM_KEY_CONTROL_BLOCK)
    (NodeSecurity : HCELL_INDEX) : SetResult :=
  let Hive1 :=
    WriteNode Hive Key.KeyCell (fun Node => { Node with LastWriteTime := env.SystemTime })
  match CmpAssignSecurityToKcb Hive1 { Key with KcbLastWriteTime := env.SystemTime }
      NodeSecurity with
  | none =>
    { Status := Outcome.BugCheck REGISTRY_ERROR 3, Hive := Hive1,
      Kcb := { Key with KcbLastWriteTime := env.SystemTime } }
  | some Key1 => { Status := Outcome.Returned STATUS_SUCCESS, Hive := Hive1, Kcb := Key1 }

/-- Lines 663-685: point the node at the matching security cell and count the
new reference. -/
def SetSecurityRepoint (env : Env) (Hive : CMHIVE) (Key : CM_KEY_CONTROL_BLOCK)
    (MatchSecurityCell : HCELL_INDEX) : SetResult :=
  match HvGetCellSecurity env Hive MatchSecurityCell with
  | none =>
    { Status := Outcome.Returned STATUS_INSUFFICIENT_RESOURCES, Hive := Hive, Kcb := Key }
  | some _ =>
    if env.TrackOk MatchSecurityCell then
      SetSecurityDone env
        (WriteNode
          (WriteSecurity Hive MatchSecurityCell
            (fun Security =>
              { Security with ReferenceCount := ULONG_INC Security.ReferenceCount }))
          Key.KeyCell (fun Node => { Node with Security := MatchSecurityCell }))
        Key MatchSecurityCell
    else { Status := Outcome.Returned STATUS_INSUFFICIENT_RESOURCES, Hive := Hive, Kcb := Key }

/-- Lines 637-685: the merged descriptor matches another security cell; release
the current cell `Security` (at `SecurityCell`) and share the matching one. -/
def SetSecurityShareExisting (env : Env) (Hive : CMHIVE) (Key : CM_KEY_CONTROL_BLOCK)
    (SecurityCell : HCELL_INDEX) (Security : CM_KEY_SECURITY)
    (MatchSecurityCell : HCELL_INDEX) : SetResult :=
  match HvMarkCellDirty env Hive MatchSecurityCell with
  | none => { Status := Outcome.Returned STATUS_NO_LOG_SPACE, Hive := Hive, Kcb := Key }
  | some Hive1 =>
    if Security.ReferenceCount = 1 then
      match HvMarkCellDirty env Hive1 Security.Flink with
      | none => { Status := Outcome.Returned STATUS_NO_LOG_SPACE, Hive := Hive1, Kcb := Key }
      | some Hive2 =>
        match HvMarkCellDirty env Hive2 Security.Blink with
        | none => { Status := Outcome.Returned STATUS_NO_LOG_SPACE, Hive := Hive2, Kcb := Key }
        | some Hive3 =>
          SetSecurityRepoint env
            (HvFreeCell (CmpRemoveSecurityCellList env Hive3 SecurityCell) SecurityCell)
            Key MatchSecurityCell
    else
      SetSecurityRepoint env
        (WriteSecurity Hive1 SecurityCell
          (fun S => { S with ReferenceCount := ULONG_DEC S.ReferenceCount }))
        Key MatchSecurityCell

/-- Lines 691-787: no cell matches and the current cell is shared; allocate a
new cell, splice it into the ring after the current one, and point the node
at it. -/
def SetSecurityCopyOnWrite (env : Env) (Hive : CMHIVE) (Key : CM_KEY_CONTROL_BLOCK)
    (SecurityCell : HCELL_INDEX) (Security : CM_KEY_SECURITY)
    (DescriptorCopy : List Nat) : SetResult :=
  let Allocated :=
    HvAllocateCell env Hive (SECURITY_CELL_LENGTH DescriptorCopy) (HvGetCellType Key.KeyCell)
  let NewCell := Allocated.1
  if NewCell = HCELL_NIL then
    { Status := Outcome.Returned STATUS_INSUFFICIENT_RESOURCES, Hive := Allocated.2, Kcb := Key }
  else
    match HvMarkCellDirty env Allocated.2 Security.Flink with
    | none =>
      { Status := Outcome.Returned STATUS_NO_LOG_SPACE, Hive := Allocated.2, Kcb := Key }
    | some Hive1 =>
      let Hive2 :=
        WriteSecurity Hive1 SecurityCell
          (fun S => { S with ReferenceCount := ULONG_DEC S.ReferenceCount })
      match HvGetCellSecurity env Hive2 NewCell with
      | none =>
        { Status := Outcome.Returned STATUS_INSUFFICIENT_RESOURCES, Hive := Hive2, Kcb := Key }
      | some _ =>
        if env.TrackOk NewCell then
          let Hive3 :=
            WriteSecurity Hive2 NewCell
              (fun N => { N with Blink := SecurityCell, Flink := Security.Flink })
          match HvGetCellSecurity env Hive3 Security.Flink with
          | none =>
            { Status := Outcome.Returned STATUS_INSUFFICIENT_RESOURCES, Hive := Hive3,
              Kcb := Key }
          | some _ =>
            if env.TrackOk Security.Flink then
              let Hive4 :=
                WriteSecurity
                  (WriteSecurity Hive3 Security.Flink (fun F => { F with Blink := NewCell }))
                  SecurityCell (fun S => { S with Flink := NewCell })
              let Hive5 :=
                WriteSecurity Hive4 NewCell
                  (fun N =>
                    { N with
                      Signature := CM_KEY_SECURITY_SIGNATURE,
                      ReferenceCount := 1,
                      DescriptorLength := RtlLengthSecurityDescriptor DescriptorCopy,
                      Descriptor := RtlCopyMemory N.Descriptor DescriptorCopy
                        (RtlLengthSecurityDescriptor DescriptorCopy) })
              let Added := CmpAddSecurityCellToCache env Hive5 NewCell
              if NT_SUCCESS Added.1 then
                SetSecurityDone env
                  (WriteNode Added.2 Key.KeyCell (fun Node => { Node with Security := NewCell }))
                  Key NewCell
              else
                { Status := Outcome.Returned STATUS_INSUFFICIENT_RESOURCES, Hive := Added.2,
                  Kcb := Key }
            else
              { Status := Outcome.Returned STATUS_INSUFFICIENT_RESOURCES, Hive := Hive3,
                Kcb := Key }
        else
          { Status := Outcome.Returned STATUS_INSUFFICIENT_RESOURCES, Hive := Hive2, Kcb := Key }

/-- Lines 856-878: after a reallocation, make the forward neighbour (or the cell
itself, when it was alone) refer to the new index; `none` when the neighbour
cannot be mapped or tracked. -/
def SetSecurityFixFlink (env : Env) (Hive : CMHIVE) (OldCell SecurityCell : HCELL_INDEX)
    (Security : CM_KEY_SECURITY) : Option CMHIVE :=
  if Security.Flink = OldCell then
    some (WriteSecurity Hive SecurityCell (fun S => { S with Flink := SecurityCell }))
  else
    match HvGetCellSecurity env Hive Security.Flink with
    | none => none
    | some _ =>
      if env.TrackOk Security.Flink then
        some (WriteSecurity Hive Security.Flink (fun F => { F with Blink := SecurityCell }))
      else none

/-- Lines 880-902: the same for the backward neighbour. -/
def SetSecurityFixBlink (env : Env) (Hive : CMHIVE) (OldCell SecurityCell : HCELL_INDEX)
    (Security : CM_KEY_SECURITY) : Option CMHIVE :=
  if Security.Blink = OldCell then
    some (WriteSecurity Hive SecurityCell (fun S => { S with Blink := SecurityCell }))
  else
    match HvGetCellSecurity env Hive Security.Blink with
    | none => none
    | some _ =>
      if env.TrackOk Security.Blink then
        some (WriteSecurity Hive Security.Blink (fun B => { B with Flink := SecurityCell }))
      else none

/-- Lines 795-909, 937-939 and 959-973: no cell matches, the current cell is not
shared and the length changed; reallocate the cell, repair the ring, write the
descriptor and replace the cache entry. -/
def SetSecurityReallocate (env : Env) (Hive : CMHIVE) (Key : CM_KEY_CONTROL_BLOCK)
    (OldCell : HCELL_INDEX) (Security : CM_KEY_SECURITY)
    (DescriptorCopy : List Nat) : SetResult :=
  match HvMarkCellDirty env Hive Security.Flink with
  | none =>
    { Status := Outcome.Returned STATUS_INSUFFICIENT_RESOURCES, Hive := Hive, Kcb := Key }
  | some Hive1 =>
    match HvMarkCellDirty env Hive1 Security.Blink with
    | none =>
      { Status := Outcome.Returned STATUS_INSUFFICIENT_RESOURCES, Hive := Hive1, Kcb := Key }
    | some Hive2 =>
      let Reallocated :=
        HvReallocateCell env Hive2 OldCell (SECURITY_CELL_LENGTH DescriptorCopy)
      let SecurityCell := Reallocated.1
      if SecurityCell = HCELL_NIL then
        { Status := Outcome.Returned STATUS_INSUFFICIENT_RESOURCES, Hive := Reallocated.2,
          Kcb := Key }
      else
        let Hive3 :=
          WriteNode (CmpRemoveFromSecurityCache Reallocated.2 OldCell) Key.KeyCell
            (fun Node => { Node with Security := SecurityCell })
        match HvGetCellSecurity env Hive3 SecurityCell with
        | none =>
          { Status := Outcome.Returned STATUS_INSUFFICIENT_RESOURCES, Hive := Hive3, Kcb := Key }
        | some Security1 =>
          if env.TrackOk SecurityCell then
            match SetSecurityFixFlink env Hive3 OldCell SecurityCell Security1 with
            | none =>
              { Status := Outcome.Returned STATUS_INSUFFICIENT_RESOURCES, Hive := Hive3,
                Kcb := Key }
            | some Hive4 =>
              match cmGet Hive4.SecurityCells SecurityCell with
              | none =>
                { Status := Outcome.Returned STATUS_INSUFFICIENT_RESOURCES, Hive := Hive4,
                  Kcb := Key }
              | some Security2 =>
                match SetSecurityFixBlink env Hive4 OldCell SecurityCell Security2 with
                | none =>
                  { Status := Outcome.Returned STATUS_INSUFFICIENT_RESOURCES, Hive := Hive4,
                    Kcb := Key }
                | some Hive5 =>
                  let Hive6 :=
                    WriteSecurity
                      (WriteSecurity Hive5 SecurityCell
                        (fun S =>
                          { S with
                            DescriptorLength := RtlLengthSecurityDescriptor DescriptorCopy }))
                      SecurityCell
                      (fun S =>
                        { S with
                          Descriptor := RtlCopyMemory S.Descriptor DescriptorCopy
                            (RtlLengthSecurityDescriptor DescriptorCopy) })
                  let Added := CmpAddSecurityCellToCache env Hive6 SecurityCell
                  if NT_SUCCESS Added.1 then SetSecurityDone env Added.2 Key SecurityCell
                  else
                    { Status := Outcome.Returned STATUS_INSUFFICIENT_RESOURCES,
                      Hive := Added.2, Kcb := Key }
          else
            { Status := Outcome.Returned STATUS_INSUFFICIENT_RESOURCES, Hive := Hive3,
              Kcb := Key }

/-- Lines 910-958: no cell matches, the current cell is not shared and the
length is the same; overwrite the descriptor in the cell and in its cache
entry, and move the entry to the bucket of its new hash key. -/
def SetSecurityInPlace (env : Env) (Hive : CMHIVE) (Key : CM_KEY_CONTROL_BLOCK)
    (SecurityCell : HCELL_INDEX) (DescriptorCopy : List Nat) : SetResult :=
  match CmpFindSecurityCellCacheIndex Hive SecurityCell with
  | none => { Status := Outcome.BugCheck REGISTRY_ERROR 2, Hive := Hive, Kcb := Key }
  | some _ =>
    let DescriptorLength := RtlLengthSecurityDescriptor DescriptorCopy
    let Hive1 :=
      WriteSecurity Hive SecurityCell
        (fun S =>
          { S with Descriptor := RtlCopyMemory S.Descriptor DescriptorCopy DescriptorLength })
    let ConvKey := env.CmpSecConvKey DescriptorLength DescriptorCopy
    SetSecurityDone env
      { Hive1 with
        SecurityCache :=
          cmModify Hive1.SecurityCache SecurityCell
            (fun Cached =>
              { Cached with
                Descriptor := RtlCopyMemory Cached.Descriptor DescriptorCopy DescriptorLength,
                ConvKey := ConvKey }),
        SecurityHash :=
          InsertTailList (CmpRemoveEntryList Hive1.SecurityHash SecurityCell)
            (ConvKey % env.CmpSecHashTableSize) SecurityCell }
      Key SecurityCell

/-- Lines 614-975: store the merged descriptor `DescriptorCopy` for the node of
`Key`, whose current security cell is `Security` at index `SecurityCell`. -/
def SetSecurityStore (env : Env) (Hive : CMHIVE) (Key : CM_KEY_CONTROL_BLOCK)
    (SecurityCell : HCELL_INDEX) (Security : CM_KEY_SECURITY)
    (DescriptorCopy : List Nat) : SetResult :=
  match CmpFindMatchingDescriptorCell env Hive DescriptorCopy (HvGetCellType Key.KeyCell) with
  | some MatchSecurityCell =>
    if MatchSecurityCell = SecurityCell then
      { Status := Outcome.Returned STATUS_SUCCESS,
        Hive :=
          WriteNode Hive Key.KeyCell (fun N => { N with LastWriteTime := env.SystemTime }),
        Kcb := { Key with KcbLastWriteTime := env.SystemTime } }
    else SetSecurityShareExisting env Hive Key SecurityCell Security MatchSecurityCell
  | none =>
    if Security.ReferenceCount > 1 then
      SetSecurityCopyOnWrite env Hive Key SecurityCell Security DescriptorCopy
    else if RtlLengthSecurityDescriptor DescriptorCopy ≠ Security.DescriptorLength then
      SetSecurityReallocate env Hive Key SecurityCell Security DescriptorCopy
    else SetSecurityInPlace env Hive Key SecurityCell DescriptorCopy

/-- `CmpSetSecurityDescriptorInfo`: merge the requested fields over the current
descriptor of the node of `Key` and store the result, sharing, splitting,
overwriting or reallocating the security cell as needed. -/
def CmpSetSecurityDescriptorInfo (env : Env) (Hive : CMHIVE) (Key : CM_KEY_CONTROL_BLOCK)
    (SecurityInformation : Nat) (ModificationDescriptor : List Nat) : SetResult :=
  match HvGetCellNode env Hive Key.KeyCell with
  | none =>
    { Status := Outcome.Returned STATUS_INSUFFICIENT_RESOURCES, Hive := Hive, Kcb := Key }
  | some Node =>
    if env.TrackOk Key.KeyCell then
      match CmpGetKeySecurity env Hive Node with
      | none =>
        { Status := Outcome.Returned STATUS_INSUFFICIENT_RESOURCES, Hive := Hive, Kcb := Key }
      | some (Security, SecurityCell) =>
        if env.TrackOk SecurityCell then
          let Merged :=
            env.SeSetSecurityDescriptorInfo SecurityInformation ModificationDescriptor
              Security.Descriptor
          if NT_SUCCESS Merged.1 then
            match HvMarkCellDirty env Hive Key.KeyCell with
            | none =>
              { Status := Outcome.Returned STATUS_NO_LOG_SPACE, Hive := Hive, Kcb := Key }
            | some Hive1 =>
              match HvMarkCellDirty env Hive1 SecurityCell with
              | none =>
                { Status := Outcome.Returned STATUS_NO_LOG_SPACE, Hive := Hive1, Kcb := Key }
              | some Hive2 => SetSecurityStore env Hive2 Key SecurityCell Security Merged.2
          else { Status := Outcome.Returned Merged.1, Hive := Hive, Kcb := Key }
        else
          { Status := Outcome.Returned STATUS_INSUFFICIENT_RESOURCES, Hive := Hive, Kcb := Key }
    else { Status := Outcome.Returned STATUS_INSUFFICIENT_RESOURCES, Hive := Hive, Kcb := Key }

/-! ## The access checker

`CmpCheckKeyAccess` and `CmpDoAccessCheckOnSubtree` (lines 2069-2327). Both
only read the hive cells; what they do is kept in a trace, oldest event first. -/

/-- The collaborators of the access checker during one call.

* `ExAllocatePool size`: the paged-pool allocation of a descriptor buffer of
  `size` bytes succeeds;
* `SeQuerySecurityDescriptorInfo info length descriptor`: the query primitive
  on a buffer of `length` bytes, giving a status, the length it reports back
  and the bytes it leaves in the buffer;
* `SeAccessCheck descriptor desiredAccess previousMode`: the evaluation
  primitive, `true` when access is granted;
* `CmpFindSubKeyByNumber node number`: the cell of the subkey with that
  number, for the node at cell `node`, `HCELL_NIL` when it cannot be found;
* `CMP_MAX_REGISTRY_DEPTH`: the number of entries of the check stack;
* `CheckStackAllocated`: the pool allocation of the check stack succeeds.

Modelled from the spec: the primitives are declared outside this module;
`query_fields` reports buffer-too-small with the required length,
`evaluate_access` grants or denies, the depth bound is a configuration value. -/
structure AccessEnv where
  ExAllocatePool : Nat → Bool
  SeQuerySecurityDescriptorInfo : Nat → Nat → List Nat → NTSTATUS × Nat × List Nat
  SeAccessCheck : List Nat → Nat → Nat → Bool
  CmpFindSubKeyByNumber : HCELL_INDEX → Nat → HCELL_INDEX
  CMP_MAX_REGISTRY_DEPTH : Nat
  CheckStackAllocated : Bool

/-- `OWNER_SECURITY_INFORMATION`. -/
def OWNER_SECURITY_INFORMATION : Nat := 0x00000001

/-- `GROUP_SECURITY_INFORMATION`. -/
def GROUP_SECURITY_INFORMATION : Nat := 0x00000002

/-- `DACL_SECURITY_INFORMATION`. -/
def DACL_SECURITY_INFORMATION : Nat := 0x00000004

/-- `SACL_SECURITY_INFORMATION`. -/
def SACL_SECURITY_INFORMATION : Nat := 0x00000008

/-- What the access checker does, as far as the properties below look at it.

* `GetCell c r`: `HvGetCell` on cell `c` while the release routine of the hive
  is `r`;
* `AccessCheck c`: `SeAccessCheck` ran on the descriptor of the node at `c`;
* `StackRead i`, `StackWrite i`: an access to `CheckStack[i]`;
* `QueryDescriptor n`: `SeQuerySecurityDescriptorInfo` ran on a buffer of `n`
  bytes. -/
inductive CheckEvent where
  | GetCell (Cell : HCELL_INDEX) (ReleaseCellRoutine : Option Nat)
  | AccessCheck (NodeCell : HCELL_INDEX)
  | StackRead (Index : Int)
  | StackWrite (Index : Int)
  | QueryDescriptor (Length : Nat)
deriving DecidableEq, Repr

/-- The second half of `CmpCheckKeyAccess` (lines 2147-2188), once the first
query has answered `First`: query again on a buffer of the reported length if
the buffer was too small, then evaluate. -/
def CmpCheckKeyAccessQueried (acc : AccessEnv) (NodeCell : HCELL_INDEX)
    (PreviousMode DesiredAccess : Nat) (Security : CM_KEY_SECURITY)
    (First : NTSTATUS × Nat × List Nat) : NTSTATUS × List CheckEvent :=
  let SecurityInformation :=
    OWNER_SECURITY_INFORMATION ||| GROUP_SECURITY_INFORMATION |||
      DACL_SECURITY_INFORMATION ||| SACL_SECURITY_INFORMATION
  if First.1 = STATUS_BUFFER_TOO_SMALL ∧ acc.ExAllocatePool First.2.1 = false then
    (STATUS_INSUFFICIENT_RESOURCES, [])
  else
    let Query :=
      if First.1 = STATUS_BUFFER_TOO_SMALL then
        acc.SeQuerySecurityDescriptorInfo SecurityInformation First.2.1 Security.Descriptor
      else First
    let Again :=
      if First.1 = STATUS_BUFFER_TOO_SMALL then [CheckEvent.QueryDescriptor First.2.1] else []
    if NT_SUCCESS Query.1 = false then (Query.1, Again)
    else if acc.SeAccessCheck Query.2.2 DesiredAccess PreviousMode = true then
      (Query.1, Again ++ [CheckEvent.AccessCheck NodeCell])
    else (STATUS_ACCESS_DENIED, Again ++ [CheckEvent.AccessCheck NodeCell])

/-- `CmpCheckKeyAccess`: is `DesiredAccess` granted on the node at `NodeCell`,
by the descriptor stored in the hive. -/
def CmpCheckKeyAccess (env : Env) (acc : AccessEnv) (Hive : CMHIVE) (NodeCell : HCELL_INDEX)
    (PreviousMode DesiredAccess : Nat) : NTSTATUS × List CheckEvent :=
  match HvGetCellNode env Hive NodeCell with
  | none => (STATUS_INSUFFICIENT_RESOURCES, [CheckEvent.GetCell NodeCell Hive.ReleaseCellRoutine])
  | some Node =>
    match HvGetCellSecurity env Hive Node.Security with
    | none =>
      (STATUS_INSUFFICIENT_RESOURCES,
        [CheckEvent.GetCell NodeCell Hive.ReleaseCellRoutine,
         CheckEvent.GetCell Node.Security Hive.ReleaseCellRoutine])
    | some Security =>
      if acc.ExAllocatePool Security.DescriptorLength = false then
        (STATUS_INSUFFICIENT_RESOURCES,
          [CheckEvent.GetCell NodeCell Hive.ReleaseCellRoutine,
           CheckEvent.GetCell Node.Security Hive.ReleaseCellRoutine])
      else
        let Queried :=
          CmpCheckKeyAccessQueried acc NodeCell PreviousMode DesiredAccess Security
            (acc.SeQuerySecurityDescriptorInfo
              (OWNER_SECURITY_INFORMATION ||| GROUP_SECURITY_INFORMATION |||
                DACL_SECURITY_INFORMATION ||| SACL_SECURITY_INFORMATION)
              Security.DescriptorLength Security.Descriptor)
        (Queried.1,
          [CheckEvent.GetCell NodeCell Hive.ReleaseCellRoutine,
           CheckEvent.GetCell Node.Security Hive.ReleaseCellRoutine,
           CheckEvent.QueryDescriptor Security.DescriptorLength] ++ Queried.2)

/-- One entry of the check stack (`CMP_CHECK_REGISTRY_STACK_ENTRY`). -/
structure CMP_CHECK_REGISTRY_STACK_ENTRY where
  Cell : HCELL_INDEX
  ChildIndex : Nat
  CellChecked : Bool
deriving DecidableEq, Repr, Inhabited

/-- The local variables of `CmpDoAccessCheckOnSubtree` inside its loop, and
the trace so far. `StackIndex` is a `LONG`; it stays between `-1` and
`CMP_MAX_REGISTRY_DEPTH`. -/
structure WalkState where
  CheckStack : List CMP_CHECK_REGISTRY_STACK_ENTRY
  StackIndex : Int
  Status : NTSTATUS
  Trace : List CheckEvent
deriving DecidableEq, Repr

/-- The entry `CheckStack[StackIndex]`. -/
def WalkState.Top (s : WalkState) : CMP_CHECK_REGISTRY_STACK_ENTRY :=
  s.CheckStack.getD s.StackIndex.toNat default

/-- The first part of the loop body (lines 2255-2265): check the current cell
if that was not done yet. The flag says whether the body goes on. -/
def WalkCheckCell (env : Env) (acc : AccessEnv) (Hive : CMHIVE)
    (PreviousMode DesiredAccess : Nat) (s : WalkState) : Bool × WalkState :=
  if s.Top.CellChecked = false then
    let Checked := CmpCheckKeyAccess env acc Hive s.Top.Cell PreviousMode DesiredAccess
    (NT_SUCCESS Checked.1,
      { s with
        CheckStack := s.CheckStack.set s.StackIndex.toNat { s.Top with CellChecked := true },
        Status := Checked.1,
        Trace := s.Trace ++
          [CheckEvent.StackRead s.StackIndex, CheckEvent.StackWrite s.StackIndex,
           CheckEvent.StackRead s.StackIndex] ++ Checked.2 })
  else (true, { s with Trace := s.Trace ++ [CheckEvent.StackRead s.StackIndex] })

/-- The second part of the loop body (lines 2267-2316): go down to the next
subkey of the current cell, or back up when there is none left. The flag says
whether the loop goes on (`false` after a `break`). -/
def WalkDescend (env : Env) (acc : AccessEnv) (Hive : CMHIVE) (s : WalkState) :
    Bool × WalkState :=
  match HvGetCellNode env Hive s.Top.Cell with
  | none =>
    (false,
      { s with
        Status := STATUS_INSUFFICIENT_RESOURCES,
        Trace := s.Trace ++
          [CheckEvent.StackRead s.StackIndex,
           CheckEvent.GetCell s.Top.Cell Hive.ReleaseCellRoutine] })
  | some Node =>
    if s.Top.ChildIndex <
        (Node.SubKeyCounts.getD Stable 0 + Node.SubKeyCounts.getD Volatile 0) % 4294967296 then
      if acc.CmpFindSubKeyByNumber s.Top.Cell s.Top.ChildIndex = HCELL_NIL then
        (false,
          { s with
            Status := STATUS_INSUFFICIENT_RESOURCES,
            Trace := s.Trace ++
              [CheckEvent.StackRead s.StackIndex,
               CheckEvent.GetCell s.Top.Cell Hive.ReleaseCellRoutine,
               CheckEvent.StackRead s.StackIndex, CheckEvent.StackRead s.StackIndex] })
      else if s.StackIndex + 1 = (acc.CMP_MAX_REGISTRY_DEPTH : Int) then
        (false,
          { CheckStack :=
              s.CheckStack.set s.StackIndex.toNat
                { s.Top with ChildIndex := ULONG_INC s.Top.ChildIndex },
            StackIndex := s.StackIndex + 1,
            Status := STATUS_INSUFFICIENT_RESOURCES,
            Trace := s.Trace ++
              [CheckEvent.StackRead s.StackIndex,
               CheckEvent.GetCell s.Top.Cell Hive.ReleaseCellRoutine,
               CheckEvent.StackRead s.StackIndex, CheckEvent.StackRead s.StackIndex,
               CheckEvent.StackRead s.StackIndex, CheckEvent.StackWrite s.StackIndex] })
      else
        (true,
          { CheckStack :=
              (s.CheckStack.set s.StackIndex.toNat
                { s.Top with ChildIndex := ULONG_INC s.Top.ChildIndex }).set
                (s.StackIndex + 1).toNat
                { Cell := acc.CmpFindSubKeyByNumber s.Top.Cell s.Top.ChildIndex,
                  ChildIndex := 0,
                  CellChecked := false },
            StackIndex := s.StackIndex + 1,
            Status := s.Status,
            Trace := s.Trace ++
              [CheckEvent.StackRead s.StackIndex,
               CheckEvent.GetCell s.Top.Cell Hive.ReleaseCellRoutine,
               CheckEvent.StackRead s.StackIndex, CheckEvent.StackRead s.StackIndex,
               CheckEvent.StackRead s.StackIndex, CheckEvent.StackWrite s.StackIndex,
               CheckEvent.StackWrite (s.StackIndex + 1),
               CheckEvent.StackWrite (s.StackIndex + 1),
               CheckEvent.StackWrite (s.StackIndex + 1)] })
    else
      (true,
        { s with
          StackIndex := s.StackIndex - 1,
          Trace := s.Trace ++
            [CheckEvent.StackRead s.StackIndex,
             CheckEvent.GetCell s.Top.Cell Hive.ReleaseCellRoutine,
             CheckEvent.StackRead s.StackIndex] })

/-- The body of the loop of `CmpDoAccessCheckOnSubtree` (lines 2251-2317); the
flag is `false` when the body left the loop by `break`. -/
def WalkIteration (env : Env) (acc : AccessEnv) (Hive : CMHIVE)
    (PreviousMode DesiredAccess : Nat) (s : WalkState) : Bool × WalkState :=
  if (WalkCheckCell env acc Hive PreviousMode DesiredAccess s).1 = false then
    (false, (WalkCheckCell env acc Hive PreviousMode DesiredAccess s).2)
  else WalkDescend env acc Hive (WalkCheckCell env acc Hive PreviousMode DesiredAccess s).2

/-- The loop `while (StackIndex >= 0)`, run for at most `fuel` iterations;
`none` when the iterations do not suffice. -/
def WalkLoop (env : Env) (acc : AccessEnv) (Hive : CMHIVE) (PreviousMode DesiredAccess : Nat) :
    Nat → WalkState → Option WalkState
  | fuel, s =>
    if s.StackIndex < 0 then some s
    else
      match fuel with
      | 0 => none
      | fuel + 1 =>
        if (WalkIteration env acc Hive PreviousMode DesiredAccess s).1 = true then
          WalkLoop env acc Hive PreviousMode DesiredAccess fuel
            (WalkIteration env acc Hive PreviousMode DesiredAccess s).2
        else some (WalkIteration env acc Hive PreviousMode DesiredAccess s).2

/-- What `CmpDoAccessCheckOnSubtree` leaves: its status, the hive and the trace. -/
structure SubtreeCheck where
  Status : NTSTATUS
  Hive : CMHIVE
  Trace : List CheckEvent
deriving DecidableEq, Repr

/-- The state in which `CmpDoAccessCheckOnSubtree` enters its loop (lines
2236-2249). The pool memory of the stack is taken as zeroed; every entry is
written before it is read. -/
def WalkStart (acc : AccessEnv) (Cell : HCELL_INDEX) (CheckRoot : Bool) : WalkState :=
  { CheckStack :=
      (List.replicate acc.CMP_MAX_REGISTRY_DEPTH (default : CMP_CHECK_REGISTRY_STACK_ENTRY)).set 0
        { Cell := Cell, ChildIndex := 0, CellChecked := !CheckRoot },
    StackIndex := 0,
    Status := STATUS_INSUFFICIENT_RESOURCES,
    Trace := [CheckEvent.StackWrite 0, CheckEvent.StackWrite 0, CheckEvent.StackWrite 0] }

/-- `CmpDoAccessCheckOnSubtree`: check `DesiredAccess` on every node of the
subtree below `Cell`, the root itself only when `CheckRoot` is set; `none`
when `fuel` iterations of the loop do not suffice. -/
def CmpDoAccessCheckOnSubtree (env : Env) (acc : AccessEnv) (fuel : Nat) (HiveToCheck : CMHIVE)
    (Cell : HCELL_INDEX) (PreviousMode DesiredAccess : Nat) (CheckRoot : Bool) :
    Option SubtreeCheck :=
  if acc.CheckStackAllocated = false then
    some { Status := STATUS_INSUFFICIENT_RESOURCES, Hive := HiveToCheck, Trace := [] }
  else
    match WalkLoop env acc { HiveToCheck with ReleaseCellRoutine := none }
        PreviousMode DesiredAccess fuel (WalkStart acc Cell CheckRoot) with
    | none => none
    | some s =>
      some
        { Status := s.Status,
          Hive :=
            { { HiveToCheck with ReleaseCellRoutine := none } with
              ReleaseCellRoutine := HiveToCheck.ReleaseCellRoutine },
          Trace := s.Trace }

/-! ## The security method

`CmpSecurityMethod` is the entry point the object manager calls for a key
object.  Its locking is modelled by a trace of events in program order; the
routines it calls run as one step each, marked in the trace by an event with
the name of the routine. -/

/-- The operation codes of a security method (`SECURITY_OPERATION_CODE`), in
the order of the enumeration. -/
def SetSecurityDescriptor : Nat := 0

/-- Operation code of a query. -/
def QuerySecurityDescriptor : Nat := 1

/-- Operation code of a delete. -/
def DeleteSecurityDescriptor : Nat := 2

/-- Operation code of an assign. -/
def AssignSecurityDescriptor : Nat := 3

/-- The exception code of a read or write through a bad pointer. -/
def STATUS_ACCESS_VIOLATION : NTSTATUS := 0xC0000005 - 0x100000000

/-- Notify filter bit `REG_NOTIFY_CHANGE_ATTRIBUTES`. -/
def REG_NOTIFY_CHANGE_ATTRIBUTES : Nat := 0x00000002

/-- Notify filter bit `REG_NOTIFY_CHANGE_SECURITY`. -/
def REG_NOTIFY_CHANGE_SECURITY : Nat := 0x00000008

/-- Access right `KEY_NOTIFY`. -/
def KEY_NOTIFY : Nat := 0x0010

/-- Processor mode `UserMode`. -/
def UserMode : Nat := 1

/-- What the security method and the notify check do to the locks, and which
routines they call, in program order (oldest first in a trace).  An event has
the name of the routine called; the key control block of a KCB lock is named
by its address. -/
inductive MethodEvent where
  | CmpLockRegistry
  | CmpLockKCBShared (Kcb : Nat)
  | CmpLockKCBExclusive (Kcb : Nat)
  | CmpLockHiveFlusherShared
  | CmLockHiveSecurityExclusive
  | CmLockHiveSecurityShared
  | CmUnlockHiveSecurity
  | CmpUnlockHiveFlusher
  | CmpUnlockKCB (Kcb : Nat)
  | CmpUnlockRegistry
  | CmpSetSecurityDescriptorInfo
  | CmpQuerySecurityDescriptorInfo
  | CmpAssignSecurityDescriptorWrapper
  | CmpReportNotify (Filter : Nat)
  | SeAccessCheck
deriving DecidableEq, Repr

/-- The memory a call of the security method sees besides the hive.

* `KcbAt p`: the key control block read through the pointer `p`;
* `BufferFault`: the exception raised when the caller's buffer is accessed, if
  the buffer "should suddenly disappear" (`none`: it stays). -/
structure MethodEnv where
  KcbAt : Nat → CM_KEY_CONTROL_BLOCK
  BufferFault : Option NTSTATUS

/-- How a call inside a `try` ends: it completes with a status, the length
needed and the bytes stored in the buffer, or it raises an exception. -/
inductive QueryOutcome where
  | Completed (Status : NTSTATUS) (Length : Nat) (Buffer : List Nat)
  | Raised (ExceptionCode : NTSTATUS)
deriving DecidableEq, Repr

/-- `CmpQuerySecurityDescriptorInfo`: query the descriptor of the cache entry
`kcb->CachedSecurity`; no hive cell is read and no lock is taken.  A pointer
that names no cache entry faults when it is followed. -/
def CmpQuerySecurityDescriptorInfo (acc : AccessEnv) (menv : MethodEnv) (Hive : CMHIVE)
    (Kcb : CM_KEY_CONTROL_BLOCK) (SecurityInformation Length : Nat) : QueryOutcome :=
  match Kcb.CachedSecurity.bind (cmGet Hive.SecurityCache) with
  | none => QueryOutcome.Raised STATUS_ACCESS_VIOLATION
  | some CachedSecurity =>
    match menv.BufferFault with
    | some ExceptionCode => QueryOutcome.Raised ExceptionCode
    | none =>
      let Queried :=
        acc.SeQuerySecurityDescriptorInfo SecurityInformation Length CachedSecurity.Descriptor
      QueryOutcome.Completed Queried.1 Queried.2.1 Queried.2.2

/-- `CmpAssignSecurityDescriptorWrapper`: assign the descriptor to the node of
the block and refresh the cached security of the block.  The object header
(`ObAssignObjectSecurityDescriptor`) is outside the model. -/
def CmpAssignSecurityDescriptorWrapper (env : Env) (Hive : CMHIVE) (Kcb : CM_KEY_CONTROL_BLOCK)
    (SecurityDescriptor : List Nat) : SetResult :=
  match HvGetCellNode env Hive Kcb.KeyCell with
  | none =>
    { Status := Outcome.Returned STATUS_INSUFFICIENT_RESOURCES, Hive := Hive, Kcb := Kcb }
  | some TempNode =>
    let Assigned := CmpAssignSecurityDescriptor env Hive Kcb.KeyCell SecurityDescriptor
    if NT_SUCCESS Assigned.1 then
      match CmpAssignSecurityToKcb Assigned.2 Kcb
          ((cmGet Assigned.2.KeyNodes Kcb.KeyCell).getD TempNode).Security with
      | none => { Status := Outcome.BugCheck REGISTRY_ERROR 3, Hive := Assigned.2, Kcb := Kcb }
      | some Kcb1 => { Status := Outcome.Returned Assigned.1, Hive := Assigned.2, Kcb := Kcb1 }
    else { Status := Outcome.Returned Assigned.1, Hive := Assigned.2, Kcb := Kcb }

/-- The local `kcb` of `CmpSecurityMethod` after lines 316-336: the pointer of
the key body, without its low bit when a query finds the bit set. -/
def MethodKcb (KeyControlBlock OperationCode : Nat) : Nat :=
  if OperationCode = QuerySecurityDescriptor ∧ KeyControlBlock &&& 1 ≠ 0 then
    KeyControlBlock ^^^ 1
  else KeyControlBlock

/-- The local `UnlockKcb` of `CmpSecurityMethod` after lines 316-336. -/
def MethodUnlockKcb (KeyControlBlock OperationCode : Nat) : Bool :=
  if OperationCode = QuerySecurityDescriptor ∧ KeyControlBlock &&& 1 ≠ 0 then false else true

/-- Lines 315-336 of `CmpSecurityMethod`: the registry lock, then the lock of
the key control block. -/
def MethodLock (KeyControlBlock OperationCode : Nat) : List MethodEvent :=
  MethodEvent.CmpLockRegistry ::
    (if OperationCode = QuerySecurityDescriptor then
      if KeyControlBlock &&& 1 ≠ 0 then []
      else [MethodEvent.CmpLockKCBShared KeyControlBlock]
    else [MethodEvent.CmpLockKCBExclusive KeyControlBlock])

/-- What the guarded `switch` of `CmpSecurityMethod` (lines 362-454) leaves
behind: the status (or the bugcheck), the hive, the key control block, the
length and the bytes a query stored, its events, and `UnlockSecurity`. -/
structure MethodBody where
  Status : Outcome
  Hive : CMHIVE
  Kcb : CM_KEY_CONTROL_BLOCK
  Length : Nat
  Buffer : List Nat
  Trace : List MethodEvent
  UnlockSecurity : Bool
deriving DecidableEq, Repr

/-- Lines 362-454 of `CmpSecurityMethod`: the `switch` on the operation code
inside the `try`, with the handler that turns an exception into the status. -/
def MethodSwitch (env : Env) (acc : AccessEnv) (menv : MethodEnv) (Hive : CMHIVE)
    (Kcb : CM_KEY_CONTROL_BLOCK) (OperationCode SecurityInformation : Nat)
    (SecurityDescriptor : List Nat) (CapturedLength : Nat) : MethodBody :=
  if OperationCode = SetSecurityDescriptor then
    let Done := CmpSetSecurityDescriptorInfo env Hive Kcb SecurityInformation SecurityDescriptor
    match Done.Status with
    | Outcome.Returned Status =>
      if NT_SUCCESS Status then
        { Status := Done.Status, Hive := Done.Hive, Kcb := Done.Kcb, Length := CapturedLength,
          Buffer := [],
          Trace := [MethodEvent.CmpSetSecurityDescriptorInfo, MethodEvent.CmUnlockHiveSecurity,
            MethodEvent.CmpReportNotify
              (REG_NOTIFY_CHANGE_ATTRIBUTES ||| REG_NOTIFY_CHANGE_SECURITY)],
          UnlockSecurity := false }
      else
        { Status := Done.Status, Hive := Done.Hive, Kcb := Done.Kcb, Length := CapturedLength,
          Buffer := [], Trace := [MethodEvent.CmpSetSecurityDescriptorInfo],
          UnlockSecurity := true }
    | Outcome.BugCheck _ _ =>
      { Status := Done.Status, Hive := Done.Hive, Kcb := Done.Kcb, Length := CapturedLength,
        Buffer := [], Trace := [MethodEvent.CmpSetSecurityDescriptorInfo],
        UnlockSecurity := true }
  else if OperationCode = QuerySecurityDescriptor then
    match CmpQuerySecurityDescriptorInfo acc menv Hive Kcb SecurityInformation
        CapturedLength with
    | QueryOutcome.Completed Status Length Buffer =>
      { Status := Outcome.Returned Status, Hive := Hive, Kcb := Kcb, Length := Length,
        Buffer := Buffer, Trace := [MethodEvent.CmpQuerySecurityDescriptorInfo],
        UnlockSecurity := false }
    | QueryOutcome.Raised ExceptionCode =>
      { Status := Outcome.Returned ExceptionCode, Hive := Hive, Kcb := Kcb,
        Length := CapturedLength, Buffer := [],
        Trace := [MethodEvent.CmpQuerySecurityDescriptorInfo], UnlockSecurity := false }
  else if OperationCode = DeleteSecurityDescriptor then
    { Status := Outcome.Returned STATUS_UNSUCCESSFUL, Hive := Hive, Kcb := Kcb,
      Length := CapturedLength, Buffer := [], Trace := [], UnlockSecurity := true }
  else if OperationCode = AssignSecurityDescriptor then
    let Assigned := CmpAssignSecurityDescriptorWrapper env Hive Kcb SecurityDescriptor
    { Status := Assigned.Status, Hive := Assigned.Hive, Kcb := Assigned.Kcb,
      Length := CapturedLength, Buffer := [],
      Trace := [MethodEvent.CmpAssignSecurityDescriptorWrapper], UnlockSecurity := true }
  else
    { Status := Outcome.BugCheck REGISTRY_ERROR 1, Hive := Hive, Kcb := Kcb,
      Length := CapturedLength, Buffer := [], Trace := [], UnlockSecurity := true }

/-- Lines 456-465 of `CmpSecurityMethod`: the releases before the last
`return`. -/
def MethodUnlock (KeyControlBlock OperationCode : Nat) (UnlockSecurity : Bool) :
    List MethodEvent :=
  (if OperationCode ≠ QuerySecurityDescriptor then
    MethodEvent.CmpUnlockHiveFlusher ::
      (if UnlockSecurity then [MethodEvent.CmUnlockHiveSecurity] else [])
   else []) ++
  (if MethodUnlockKcb KeyControlBlock OperationCode then
    [MethodEvent.CmpUnlockKCB (MethodKcb KeyControlBlock OperationCode)]
   else []) ++
  [MethodEvent.CmpUnlockRegistry]

/-- What a call of `CmpSecurityMethod` leaves behind: how it ended, the hive,
the key control block it worked on, the length and the bytes a query stored,
and the trace of its events. -/
structure MethodResult where
  Status : Outcome
  Hive : CMHIVE
  Kcb : CM_KEY_CONTROL_BLOCK
  Length : Nat
  Buffer : List Nat
  Trace : List MethodEvent
deriving DecidableEq, Repr

/-- `CmpSecurityMethod`: the security method of key objects.  `KeyControlBlock`
is the pointer held by the key body, whose low bit a caller that already holds
the lock of the block may set.  After a bugcheck nothing more runs. -/
def CmpSecurityMethod (env : Env) (acc : AccessEnv) (menv : MethodEnv) (Hive : CMHIVE)
    (KeyControlBlock OperationCode SecurityInformation : Nat)
    (SecurityDescriptor : List Nat) (CapturedLength : Nat) : MethodResult :=
  let kcb := MethodKcb KeyControlBlock OperationCode
  if (menv.KcbAt kcb).Delete then
    { Status := Outcome.Returned STATUS_KEY_DELETED, Hive := Hive, Kcb := menv.KcbAt kcb,
      Length := CapturedLength, Buffer := [],
      Trace := MethodLock KeyControlBlock OperationCode ++
        (if MethodUnlockKcb KeyControlBlock OperationCode then [MethodEvent.CmpUnlockKCB kcb]
         else []) ++
        [MethodEvent.CmpUnlockRegistry] }
  else
    let Locked :=
      MethodLock KeyControlBlock OperationCode ++
        (if OperationCode ≠ QuerySecurityDescriptor then
          [MethodEvent.CmpLockHiveFlusherShared, MethodEvent.CmLockHiveSecurityExclusive]
         else [])
    let Body :=
      MethodSwitch env acc menv Hive (menv.KcbAt kcb) OperationCode SecurityInformation
        SecurityDescriptor CapturedLength
    match Body.Status with
    | Outcome.BugCheck _ _ =>
      { Status := Body.Status, Hive := Body.Hive, Kcb := Body.Kcb, Length := Body.Length,
        Buffer := Body.Buffer, Trace := Locked ++ Body.Trace }
    | Outcome.Returned _ =>
      { Status := Body.Status, Hive := Body.Hive, Kcb := Body.Kcb, Length := Body.Length,
        Buffer := Body.Buffer,
        Trace := Locked ++ Body.Trace ++
          MethodUnlock KeyControlBlock OperationCode Body.UnlockSecurity }

/-- What `CmpCheckNotifyAccess` leaves behind: its answer and the trace of its
events. -/
structure NotifyAccess where
  AccessAllowed : Bool
  Trace : List MethodEvent
deriving DecidableEq, Repr

/-- `CmpCheckNotifyAccess`: whether the subject of a notify block has
`KEY_NOTIFY` access to a node, judged on the cached descriptor of the security
cell of the node. -/
def CmpCheckNotifyAccess (acc : AccessEnv) (Hive : CMHIVE) (Node : CM_KEY_NODE) :
    NotifyAccess :=
  match CmpFindSecurityCellCacheIndex Hive Node.Security with
  | none =>
    { AccessAllowed := false,
      Trace := [MethodEvent.CmLockHiveSecurityShared, MethodEvent.CmUnlockHiveSecurity] }
  | some CachedSecurity =>
    { AccessAllowed := acc.SeAccessCheck CachedSecurity.Descriptor KEY_NOTIFY UserMode,
      Trace := [MethodEvent.CmLockHiveSecurityShared, MethodEvent.CmUnlockHiveSecurity,
        MethodEvent.SeAccessCheck] }
/-! ## The default descriptor of a hive root (lines 1482-1706) -/

/-- A security identifier: its identifier authority and its subauthorities. -/
structure SID where
  IdentifierAuthority : Nat
  SubAuthority : List Nat
deriving DecidableEq, Repr

/-- An access control entry: the header (`AceType`, `AceFlags`), the access mask
and the security identifier it is for. -/
structure ACE where
  AceType : Nat
  AceFlags : Nat
  Mask : Nat
  Sid : SID
deriving DecidableEq, Repr

/-- An access control list. -/
structure ACL where
  AclRevision : Nat
  AclSize : Nat
  Aces : List ACE
deriving DecidableEq, Repr

/-- A security descriptor in absolute form. -/
structure SECURITY_DESCRIPTOR where
  Revision : Nat
  Control : Nat
  Owner : Option SID
  Group : Option SID
  Sacl : Option ACL
  Dacl : Option ACL
deriving DecidableEq, Repr

/-- Identifier authority `SECURITY_WORLD_SID_AUTHORITY`. -/
def SECURITY_WORLD_SID_AUTHORITY : Nat := 1

/-- Identifier authority `SECURITY_NT_AUTHORITY`. -/
def SECURITY_NT_AUTHORITY : Nat := 5

/-- Relative identifier `SECURITY_WORLD_RID`. -/
def SECURITY_WORLD_RID : Nat := 0x00000000

/-- Relative identifier `SECURITY_RESTRICTED_CODE_RID`. -/
def SECURITY_RESTRICTED_CODE_RID : Nat := 0x0000000C

/-- Relative identifier `SECURITY_LOCAL_SYSTEM_RID`. -/
def SECURITY_LOCAL_SYSTEM_RID : Nat := 0x00000012

/-- Relative identifier `SECURITY_BUILTIN_DOMAIN_RID`. -/
def SECURITY_BUILTIN_DOMAIN_RID : Nat := 0x00000020

/-- Relative identifier `DOMAIN_ALIAS_RID_ADMINS`. -/
def DOMAIN_ALIAS_RID_ADMINS : Nat := 0x00000220

/-- Access mask `KEY_READ`. -/
def KEY_READ : Nat := 0x20019

/-- Access mask `KEY_ALL_ACCESS`. -/
def KEY_ALL_ACCESS : Nat := 0xF003F

/-- Entry type `ACCESS_ALLOWED_ACE_TYPE`. -/
def ACCESS_ALLOWED_ACE_TYPE : Nat := 0

/-- Entry flag `CONTAINER_INHERIT_ACE`. -/
def CONTAINER_INHERIT_ACE : Nat := 0x2

/-- Revision `ACL_REVISION`. -/
def ACL_REVISION : Nat := 2

/-- Revision `SECURITY_DESCRIPTOR_REVISION`. -/
def SECURITY_DESCRIPTOR_REVISION : Nat := 1

/-- Control bit `SE_DACL_PRESENT`. -/
def SE_DACL_PRESENT : Nat := 0x0004

/-- Control bit `SE_DACL_DEFAULTED`. -/
def SE_DACL_DEFAULTED : Nat := 0x0008

/-- The size `sizeof(ULONG)`. -/
def SIZEOF_ULONG : Nat := 4

/-- The size `sizeof(ACL)`. -/
def SIZEOF_ACL : Nat := 8

/-- The size `sizeof(ACCESS_ALLOWED_ACE)`: header, mask and the first word of
the identifier. -/
def SIZEOF_ACCESS_ALLOWED_ACE : Nat := 12

/-- The size `sizeof(SECURITY_DESCRIPTOR)` of the 32-bit layout. -/
def SIZEOF_SECURITY_DESCRIPTOR : Nat := 20

/-- Modelled from the spec: `RtlLengthRequiredSid` of the descriptor primitive,
the size of an identifier with so many subauthorities. -/
def RtlLengthRequiredSid (SubAuthorityCount : Nat) : Nat := 8 + 4 * SubAuthorityCount

/-- Modelled from the spec: `SeLengthSid` of the descriptor primitive. -/
def SeLengthSid (Sid : SID) : Nat := 8 + 4 * Sid.SubAuthority.length

/-- What the pool and the descriptor primitive answer while the root descriptor
is built.  `ExAllocatePool n size` tells whether the `n`-th allocation (of
`size` bytes) succeeds; the other fields give the status of the primitive of
that name on its arguments. -/
structure RootEnv where
  ExAllocatePool : Nat → Nat → Bool
  RtlInitializeSid : Nat → Nat → NTSTATUS
  RtlCreateAcl : Nat → Nat → NTSTATUS
  RtlAddAccessAllowedAce : ACL → Nat → Nat → SID → NTSTATUS
  RtlCreateSecurityDescriptor : Nat → NTSTATUS
  RtlSetDaclSecurityDescriptor : SECURITY_DESCRIPTOR → Bool → Option ACL → Bool → NTSTATUS

/-- Modelled from the spec: the identifier `RtlInitializeSid` leaves on
success, with the subauthorities still to be filled in. -/
def InitializedSid (IdentifierAuthority SubAuthorityCount : Nat) : SID :=
  { IdentifierAuthority := IdentifierAuthority,
    SubAuthority := List.replicate SubAuthorityCount 0 }

/-- The store `*(RtlSubAuthoritySid(Sid, SubAuthority)) = Value`. -/
def SetSubAuthority (Sid : SID) (SubAuthority Value : Nat) : SID :=
  { Sid with SubAuthority := Sid.SubAuthority.set SubAuthority Value }

/-- Modelled from the spec: `RtlAddAccessAllowedAce` of the descriptor
primitive: on success an access-allowed entry for the identifier, with the mask
and no flags, is appended to the list; on failure the list is left as it is. -/
def RtlAddAccessAllowedAce (renv : RootEnv) (Acl : ACL) (AceRevision AccessMask : Nat)
    (Sid : SID) : NTSTATUS × ACL :=
  if NT_SUCCESS (renv.RtlAddAccessAllowedAce Acl AceRevision AccessMask Sid) then
    (renv.RtlAddAccessAllowedAce Acl AceRevision AccessMask Sid,
     { Acl with
       Aces := Acl.Aces ++
         [{ AceType := ACCESS_ALLOWED_ACE_TYPE, AceFlags := 0, Mask := AccessMask,
            Sid := Sid }] })
  else (renv.RtlAddAccessAllowedAce Acl AceRevision AccessMask Sid, Acl)

/-- The statements `RtlGetAce(Acl, AceIndex, &AceHeader); AceHeader->AceFlags |=
Flags` on the entries of a list. -/
def OrAceFlags : List ACE → Nat → Nat → List ACE
  | [], _, _ => []
  | Ace :: Rest, 0, Flags => { Ace with AceFlags := Ace.AceFlags ||| Flags } :: Rest
  | Ace :: Rest, AceIndex + 1, Flags => Ace :: OrAceFlags Rest AceIndex Flags

/-- The same statements on an access control list. -/
def AclOrAceFlags (Acl : ACL) (AceIndex Flags : Nat) : ACL :=
  { Acl with Aces := OrAceFlags Acl.Aces AceIndex Flags }

/-- Modelled from the spec: the descriptor `RtlCreateSecurityDescriptor` leaves
on success: the revision, no control bits, no owner, group or lists. -/
def CreatedSecurityDescriptor (Revision : Nat) : SECURITY_DESCRIPTOR :=
  { Revision := Revision, Control := 0, Owner := none, Group := none, Sacl := none,
    Dacl := none }

/-- Modelled from the spec: `RtlSetDaclSecurityDescriptor` of the descriptor
primitive.  On success with `DaclPresent` the present bit is set, the list is
stored, and the defaulted bit is set or cleared as asked; without
`DaclPresent` the present bit is cleared. -/
def RtlSetDaclSecurityDescriptor (renv : RootEnv) (SecurityDescriptor : SECURITY_DESCRIPTOR)
    (DaclPresent : Bool) (Dacl : Option ACL) (DaclDefaulted : Bool) :
    NTSTATUS × SECURITY_DESCRIPTOR :=
  if NT_SUCCESS
      (renv.RtlSetDaclSecurityDescriptor SecurityDescriptor DaclPresent Dacl DaclDefaulted) then
    (renv.RtlSetDaclSecurityDescriptor SecurityDescriptor DaclPresent Dacl DaclDefaulted,
     if DaclPresent then
       { SecurityDescriptor with
         Control :=
           if DaclDefaulted then
             (SecurityDescriptor.Control ||| SE_DACL_PRESENT) ||| SE_DACL_DEFAULTED
           else
             (SecurityDescriptor.Control ||| SE_DACL_PRESENT) &&&
               (0xFFFF ^^^ SE_DACL_DEFAULTED),
         Dacl := Dacl }
     else
       { SecurityDescriptor with
         Control := SecurityDescriptor.Control &&& (0xFFFF ^^^ SE_DACL_PRESENT) })
  else
    (renv.RtlSetDaclSecurityDescriptor SecurityDescriptor DaclPresent Dacl DaclDefaulted,
     SecurityDescriptor)

/-- How `CmpHiveRootSecurityDescriptor` ends: it returns the descriptor, or the
system bugchecks with `CM_BUGCHECK(REGISTRY_ERROR, ALLOCATE_SECURITY_DESCRIPTOR,
Site, Status, 0)`. -/
inductive RootOutcome where
  | Returned (SecurityDescriptor : SECURITY_DESCRIPTOR)
  | BugCheckAllocateSecurityDescriptor (Code : Nat) (Site : Nat) (Status : NTSTATUS)
deriving DecidableEq, Repr

/-- The four identifiers `CmpHiveRootSecurityDescriptor` builds (lines
1529-1554). -/
structure RootSids where
  WorldSid : SID
  RestrictedSid : SID
  SystemSid : SID
  AdminSid : SID
deriving DecidableEq, Repr

/-- The identifiers after `RtlInitializeSid` and the stores of the relative
identifiers (lines 1541-1554). -/
def RootSidsBuilt : RootSids :=
  { WorldSid :=
      SetSubAuthority (InitializedSid SECURITY_WORLD_SID_AUTHORITY 1) 0 SECURITY_WORLD_RID,
    RestrictedSid :=
      SetSubAuthority (InitializedSid SECURITY_NT_AUTHORITY 1) 0 SECURITY_RESTRICTED_CODE_RID,
    SystemSid :=
      SetSubAuthority (InitializedSid SECURITY_NT_AUTHORITY 1) 0 SECURITY_LOCAL_SYSTEM_RID,
    AdminSid :=
      SetSubAuthority
        (SetSubAuthority (InitializedSid SECURITY_NT_AUTHORITY 2) 0
          SECURITY_BUILTIN_DOMAIN_RID)
        1 DOMAIN_ALIAS_RID_ADMINS }

/-- The four chained `RtlAddAccessAllowedAce` calls (lines 1600-1621): each is
made only if the one before succeeded. -/
def RootAddAces (renv : RootEnv) (Acl : ACL) (Sids : RootSids) : NTSTATUS × ACL :=
  let First := RtlAddAccessAllowedAce renv Acl ACL_REVISION KEY_ALL_ACCESS Sids.SystemSid
  let Second :=
    if NT_SUCCESS First.1 then
      RtlAddAccessAllowedAce renv First.2 ACL_REVISION KEY_ALL_ACCESS Sids.AdminSid
    else First
  let Third :=
    if NT_SUCCESS Second.1 then
      RtlAddAccessAllowedAce renv Second.2 ACL_REVISION KEY_READ Sids.WorldSid
    else Second
  if NT_SUCCESS Third.1 then
    RtlAddAccessAllowedAce renv Third.2 ACL_REVISION KEY_READ Sids.RestrictedSid
  else Third

/-- The routine `CmpHiveRootSecurityDescriptor`: allocate and initialize the
default security descriptor of a system-created key, or bugcheck. -/
def CmpHiveRootSecurityDescriptor (renv : RootEnv) : RootOutcome :=
  if !(renv.ExAllocatePool 0 (RtlLengthRequiredSid 1) &&
        renv.ExAllocatePool 1 (RtlLengthRequiredSid 1) &&
        renv.ExAllocatePool 2 (RtlLengthRequiredSid 1) &&
        renv.ExAllocatePool 3 (RtlLengthRequiredSid 2)) then
    RootOutcome.BugCheckAllocateSecurityDescriptor REGISTRY_ERROR 1 0
  else if !(NT_SUCCESS (renv.RtlInitializeSid SECURITY_WORLD_SID_AUTHORITY 1) &&
        NT_SUCCESS (renv.RtlInitializeSid SECURITY_NT_AUTHORITY 1) &&
        NT_SUCCESS (renv.RtlInitializeSid SECURITY_NT_AUTHORITY 1) &&
        NT_SUCCESS (renv.RtlInitializeSid SECURITY_NT_AUTHORITY 2)) then
    RootOutcome.BugCheckAllocateSecurityDescriptor REGISTRY_ERROR 2 0
  else
    let Sids := RootSidsBuilt
    let AceLength :=
      ((SeLengthSid Sids.WorldSid - SIZEOF_ULONG + SIZEOF_ACCESS_ALLOWED_ACE) +
        (SeLengthSid Sids.RestrictedSid - SIZEOF_ULONG + SIZEOF_ACCESS_ALLOWED_ACE) +
        (SeLengthSid Sids.SystemSid - SIZEOF_ULONG + SIZEOF_ACCESS_ALLOWED_ACE) +
        (SeLengthSid Sids.AdminSid - SIZEOF_ULONG + SIZEOF_ACCESS_ALLOWED_ACE)) % 4294967296
    let AclLength := (AceLength + SIZEOF_ACL) % 4294967296
    if !renv.ExAllocatePool 4 AclLength then
      RootOutcome.BugCheckAllocateSecurityDescriptor REGISTRY_ERROR 3 0
    else if !NT_SUCCESS (renv.RtlCreateAcl AclLength ACL_REVISION) then
      RootOutcome.BugCheckAllocateSecurityDescriptor REGISTRY_ERROR 4
        (renv.RtlCreateAcl AclLength ACL_REVISION)
    else
      let Added :=
        RootAddAces renv { AclRevision := ACL_REVISION, AclSize := AclLength, Aces := [] } Sids
      if !NT_SUCCESS Added.1 then
        RootOutcome.BugCheckAllocateSecurityDescriptor REGISTRY_ERROR 5 Added.1
      else
        let Acl :=
          AclOrAceFlags
            (AclOrAceFlags
              (AclOrAceFlags (AclOrAceFlags Added.2 0 CONTAINER_INHERIT_ACE) 1
                CONTAINER_INHERIT_ACE)
              2 CONTAINER_INHERIT_ACE)
            3 CONTAINER_INHERIT_ACE
        if !renv.ExAllocatePool 5 ((SIZEOF_SECURITY_DESCRIPTOR + AclLength) % 4294967296) then
          RootOutcome.BugCheckAllocateSecurityDescriptor REGISTRY_ERROR 6 0
        else if !NT_SUCCESS (renv.RtlCreateSecurityDescriptor SECURITY_DESCRIPTOR_REVISION) then
          RootOutcome.BugCheckAllocateSecurityDescriptor REGISTRY_ERROR 7
            (renv.RtlCreateSecurityDescriptor SECURITY_DESCRIPTOR_REVISION)
        else
          let Set :=
            RtlSetDaclSecurityDescriptor renv
              (CreatedSecurityDescriptor SECURITY_DESCRIPTOR_REVISION) true (some Acl) false
          if !NT_SUCCESS Set.1 then
            RootOutcome.BugCheckAllocateSecurityDescriptor REGISTRY_ERROR 8 Set.1
          else RootOutcome.Returned Set.2

/-- The identifier of Local System, S-1-5-18. -/
def LocalSystemSid : SID :=
  { IdentifierAuthority := SECURITY_NT_AUTHORITY, SubAuthority := [SECURITY_LOCAL_SYSTEM_RID] }

/-- The identifier of the builtin Administrators, S-1-5-32-544. -/
def AdministratorsSid : SID :=
  { IdentifierAuthority := SECURITY_NT_AUTHORITY,
    SubAuthority := [SECURITY_BUILTIN_DOMAIN_RID, DOMAIN_ALIAS_RID_ADMINS] }

/-- The identifier of World, S-1-1-0. -/
def WorldSid : SID :=
  { IdentifierAuthority := SECURITY_WORLD_SID_AUTHORITY, SubAuthority := [SECURITY_WORLD_RID] }

/-- The identifier of Restricted Code, S-1-5-12. -/
def RestrictedCodeSid : SID :=
  { IdentifierAuthority := SECURITY_NT_AUTHORITY,
    SubAuthority := [SECURITY_RESTRICTED_CODE_RID] }

/-- An access-allowed entry. -/
def AccessAllowed (AceFlags Mask : Nat) (Sid : SID) : ACE :=
  { AceType := ACCESS_ALLOWED_ACE_TYPE, AceFlags := AceFlags, Mask := Mask, Sid := Sid }

/-- The four entries of the root descriptor, in their order, with the given
flags. -/
def RootAces (AceFlags : Nat) : List ACE :=
  [AccessAllowed AceFlags KEY_ALL_ACCESS LocalSystemSid,
   AccessAllowed AceFlags KEY_ALL_ACCESS AdministratorsSid,
   AccessAllowed AceFlags KEY_READ WorldSid,
   AccessAllowed AceFlags KEY_READ RestrictedCodeSid]

/-- Some allocation or some construction step of the root descriptor fails:
one of the six pool allocations (four identifiers of 12, 12, 12 and 16 bytes,
the list of 92 bytes, the descriptor of 112 bytes) or one of the calls of the
descriptor primitive (initialize the identifiers, create the list, add the
four entries, create the descriptor, set its DACL). -/
def RootFailure (renv : RootEnv) : Bool :=
  !(renv.ExAllocatePool 0 12 && renv.ExAllocatePool 1 12 && renv.ExAllocatePool 2 12 &&
    renv.ExAllocatePool 3 16 &&
    NT_SUCCESS (renv.RtlInitializeSid SECURITY_WORLD_SID_AUTHORITY 1) &&
    NT_SUCCESS (renv.RtlInitializeSid SECURITY_NT_AUTHORITY 1) &&
    NT_SUCCESS (renv.RtlInitializeSid SECURITY_NT_AUTHORITY 2) &&
    renv.ExAllocatePool 4 92 &&
    NT_SUCCESS (renv.RtlCreateAcl 92 ACL_REVISION) &&
    NT_SUCCESS
      (renv.RtlAddAccessAllowedAce
        { AclRevision := ACL_REVISION, AclSize := 92, Aces := [] }
        ACL_REVISION KEY_ALL_ACCESS LocalSystemSid) &&
    NT_SUCCESS
      (renv.RtlAddAccessAllowedAce
        { AclRevision := ACL_REVISION, AclSize := 92, Aces := (RootAces 0).take 1 }
        ACL_REVISION KEY_ALL_ACCESS AdministratorsSid) &&
    NT_SUCCESS
      (renv.RtlAddAccessAllowedAce
        { AclRevision := ACL_REVISION, AclSize := 92, Aces := (RootAces 0).take 2 }
        ACL_REVISION KEY_READ WorldSid) &&
    NT_SUCCESS
      (renv.RtlAddAccessAllowedAce
        { AclRevision := ACL_REVISION, AclSize := 92, Aces := (RootAces 0).take 3 }
        ACL_REVISION KEY_READ RestrictedCodeSid) &&
    renv.ExAllocatePool 5 112 &&
    NT_SUCCESS (renv.RtlCreateSecurityDescriptor SECURITY_DESCRIPTOR_REVISION) &&
    NT_SUCCESS
      (renv.RtlSetDaclSecurityDescriptor
        (CreatedSecurityDescriptor SECURITY_DESCRIPTOR_REVISION) true
        (some { AclRevision := ACL_REVISION, AclSize := 92,
                Aces := RootAces CONTAINER_INHERIT_ACE })
        false))

/-- An environment in which every allocation and every primitive succeeds. -/
def ExampleRootEnv : RootEnv where
  ExAllocatePool := fun _ _ => true
  RtlInitializeSid := fun _ _ => STATUS_SUCCESS
  RtlCreateAcl := fun _ _ => STATUS_SUCCESS
  RtlAddAccessAllowedAce := fun _ _ _ _ => STATUS_SUCCESS
  RtlCreateSecurityDescriptor := fun _ => STATUS_SUCCESS
  RtlSetDaclSecurityDescriptor := fun _ _ _ _ => STATUS_SUCCESS

/-- An environment in which the pool has no room for the access control list. -/
def ExampleRootEnvNoAcl : RootEnv :=
  { ExampleRootEnv with ExAllocatePool := fun n _ => n != 4 }

/-! ## Auxiliary definitions for the statements -/

/-- The hive after the two dirty marks of line 608 in
`CmpSetSecurityDescriptorInfo`. -/
def SetSecurityDirtied (Hive : CMHIVE) (Key : CM_KEY_CONTROL_BLOCK)
    (SecurityCell : HCELL_INDEX) : CMHIVE :=
  { Hive with Log := CellEvent.Dirty SecurityCell :: CellEvent.Dirty Key.KeyCell :: Hive.Log }

/-- What an in-place set of the descriptor `D` on the security cell `SecurityCell`
of the node at `KeyCell` leaves: the node still points to the cell; no cell was
allocated or freed and every cell is as before, but for the bytes of that cell;
its cache entry shadows `D` under the content hash of `D`; and the entry is
linked in the bucket of that hash and in no other. -/
def InPlaceOutcome (env : Env) (Before : CMHIVE) (KeyCell SecurityCell : HCELL_INDEX)
    (D : List Nat) (After : CMHIVE) : Prop :=
  (cmGet After.KeyNodes KeyCell).map CM_KEY_NODE.Security = some SecurityCell ∧
  (∀ c, cmGet After.SecurityCells c =
    (cmGet Before.SecurityCells c).map
      (fun X => if c = SecurityCell then { X with Descriptor := D } else X)) ∧
  (∃ e, cmGet Before.SecurityCache SecurityCell = some e ∧
    cmGet After.SecurityCache SecurityCell =
      some { e with Descriptor := D,
                    ConvKey := env.CmpSecConvKey (RtlLengthSecurityDescriptor D) D }) ∧
  (∀ b, (b, SecurityCell) ∈ After.SecurityHash ↔
    b = env.CmpSecConvKey (RtlLengthSecurityDescriptor D) D % env.CmpSecHashTableSize)

/-- The security cells after the copy-on-write branch of a set (lines 698-766):
the new cell `N` allocated, the count of the old cell `SecurityCell` dropped,
`N` spliced after it, and `N` initialised with the descriptor `D`. -/
def CopyOnWriteCells (Cells : List (HCELL_INDEX × CM_KEY_SECURITY)) (N SecurityCell : HCELL_INDEX)
    (S : CM_KEY_SECURITY) (D : List Nat) : List (HCELL_INDEX × CM_KEY_SECURITY) :=
  cmModify
    (cmModify
      (cmModify
        (cmModify
          (cmModify
            ((N, { Signature := 0, Flink := 0, Blink := 0, ReferenceCount := 0,
                   DescriptorLength := 0,
                   Descriptor :=
                    List.replicate (SECURITY_CELL_LENGTH D - CM_KEY_SECURITY_HEADER) 0 })
              :: Cells)
            SecurityCell (fun X => { X with ReferenceCount := ULONG_DEC X.ReferenceCount }))
          N (fun X => { X with Blink := SecurityCell, Flink := S.Flink }))
        S.Flink (fun F => { F with Blink := N }))
      SecurityCell (fun X => { X with Flink := N }))
    N (fun X =>
        { X with
          Signature := CM_KEY_SECURITY_SIGNATURE,
          ReferenceCount := 1,
          DescriptorLength := RtlLengthSecurityDescriptor D,
          Descriptor := RtlCopyMemory X.Descriptor D (RtlLengthSecurityDescriptor D) })

/-- The hive with one more cell marked dirty. -/
def Dirtied (Hive : CMHIVE) (Cell : HCELL_INDEX) : CMHIVE :=
  { Hive with Log := CellEvent.Dirty Cell :: Hive.Log }

/-- The hive with a new, zeroed security cell of `Size` bytes at index `N`. -/
def WithNewCell (Hive : CMHIVE) (N : HCELL_INDEX) (Size : Nat) : CMHIVE :=
  { Hive with
    SecurityCells :=
      (N, { Signature := 0, Flink := 0, Blink := 0, ReferenceCount := 0, DescriptorLength := 0,
            Descriptor := List.replicate (Size - CM_KEY_SECURITY_HEADER) 0 })
        :: Hive.SecurityCells,
    Log := CellEvent.Allocate N :: Hive.Log }

/-- The hive after lines 638-661 of a set that shares an existing cell: the
matching cell and, when the old cell `S` held its last reference, its two
neighbours marked dirty; the old cell unlinked and freed, or its count lowered. -/
def ShareExistingReleased (env : Env) (Hive : CMHIVE) (SecurityCell : HCELL_INDEX)
    (S : CM_KEY_SECURITY) (MatchSecurityCell : HCELL_INDEX) : CMHIVE :=
  if S.ReferenceCount = 1 then
    HvFreeCell
      (CmpRemoveSecurityCellList env
        (Dirtied (Dirtied (Dirtied Hive MatchSecurityCell) S.Flink) S.Blink) SecurityCell)
      SecurityCell
  else
    WriteSecurity (Dirtied Hive MatchSecurityCell) SecurityCell
      (fun X => { X with ReferenceCount := ULONG_DEC X.ReferenceCount })

/-- The hive after the cell at `Old`, whose contents are `S`, has been
reallocated to `New` with `Size` bytes. -/
def Reallocated (Hive : CMHIVE) (Old New : HCELL_INDEX) (S : CM_KEY_SECURITY) (Size : Nat) :
    CMHIVE :=
  { Hive with
    SecurityCells :=
      (New, { S with Descriptor := ResizeStorage S.Descriptor (Size - CM_KEY_SECURITY_HEADER) })
        :: cmErase Hive.SecurityCells Old,
    Log := CellEvent.Allocate New :: CellEvent.Free Old :: Hive.Log }

/-- The security cells after the reallocating branch of a set (lines 810-939):
the cell `S` moved from `Old` to `New`, the references of its ring neighbours
(or its own, when it is alone) redirected to `New`, its length and bytes set to
those of `D`. -/
def ReallocatedCells (Cells : List (HCELL_INDEX × CM_KEY_SECURITY)) (Old New : HCELL_INDEX)
    (S : CM_KEY_SECURITY) (D : List Nat) : List (HCELL_INDEX × CM_KEY_SECURITY) :=
  cmModify
    (cmModify
      (cmModify
        (cmModify
          ((New, { S with Descriptor :=
                    ResizeStorage S.Descriptor (SECURITY_CELL_LENGTH D - CM_KEY_SECURITY_HEADER) })
            :: cmErase Cells Old)
          (if S.Flink = Old then New else S.Flink)
          (fun X => if S.Flink = Old then { X with Flink := New } else { X with Blink := New }))
        (if S.Blink = Old then New else S.Blink)
        (fun X => if S.Blink = Old then { X with Blink := New } else { X with Flink := New }))
      New (fun X => { X with DescriptorLength := RtlLengthSecurityDescriptor D }))
    New (fun X =>
      { X with Descriptor := RtlCopyMemory X.Descriptor D (RtlLengthSecurityDescriptor D) })

/-- Ring link consistency: following `Flink` and then `Blink`, or `Blink` and
then `Flink`, from a live security cell leads back to it (so the neighbours of
a live cell are live). -/
def RingLinked (Hive : CMHIVE) : Prop :=
  ∀ c S, cmGet Hive.SecurityCells c = some S →
    (∃ F, cmGet Hive.SecurityCells S.Flink = some F ∧ F.Blink = c) ∧
    (∃ B, cmGet Hive.SecurityCells S.Blink = some B ∧ B.Flink = c)

/-- A cell reference after the cell at `Old` has moved to `New`. -/
def RenameCell (Old New x : HCELL_INDEX) : HCELL_INDEX := if x = Old then New else x

/-! ## Example data -/

/-- An environment in which every collaborator succeeds: the allocator hands
out `1000 + size`, a reallocation moves the cell up by `size`, the hash of a
descriptor is the sum of its bytes in a table of 4 buckets, and the merge
primitive returns the modification descriptor. -/
def ExampleEnv : Env where
  MapOk := fun _ => true
  DirtyOk := fun _ => true
  TrackOk := fun _ => true
  PoolOk := fun _ => true
  AllocIndex := fun sz _ => 1000 + sz
  ReallocIndex := fun c sz => c + sz
  CmpSecConvKey := fun _ d => d.sum
  CmpSecHashTableSize := 4
  SeSetSecurityDescriptorInfo := fun _ m _ => (STATUS_SUCCESS, m)
  SystemTime := 77

/-- A hive whose root (cell 32) and its subkey (cell 40) share the security cell
1023 with descriptor `[1, 2, 3]`; the subkey at cell 48 has no security yet. -/
def ExampleHiveShared : CMHIVE where
  KeyNodes :=
    [(32, { Flags := 4, LastWriteTime := 0, Parent := 0, Security := 1023 }),
     (40, { Flags := 0, LastWriteTime := 0, Parent := 32, Security := 1023 }),
     (48, { Flags := 0, LastWriteTime := 0, Parent := 32, Security := HCELL_NIL })]
  SecurityCells :=
    [(1023, { Signature := CM_KEY_SECURITY_SIGNATURE, Flink := 1023, Blink := 1023,
              ReferenceCount := 2, DescriptorLength := 3, Descriptor := [1, 2, 3] })]
  SecurityCache :=
    [(1023, { Cell := 1023, ConvKey := 6, DescriptorLength := 3, Descriptor := [1, 2, 3] })]
  SecurityHash := [(2, 1023)]
  Log := []

/-- A hive whose root (cell 32) has the security cell 1023 and whose subkey
(cell 40) has the private security cell 1022, both in one ring. -/
def ExampleHiveSplit : CMHIVE where
  KeyNodes :=
    [(32, { Flags := 4, LastWriteTime := 0, Parent := 0, Security := 1023 }),
     (40, { Flags := 0, LastWriteTime := 0, Parent := 32, Security := 1022 }),
     (48, { Flags := 0, LastWriteTime := 0, Parent := 32, Security := HCELL_NIL })]
  SecurityCells :=
    [(1022, { Signature := CM_KEY_SECURITY_SIGNATURE, Flink := 1023, Blink := 1023,
              ReferenceCount := 1, DescriptorLength := 2, Descriptor := [9, 9] }),
     (1023, { Signature := CM_KEY_SECURITY_SIGNATURE, Flink := 1022, Blink := 1022,
              ReferenceCount := 1, DescriptorLength := 3, Descriptor := [1, 2, 3] })]
  SecurityCache :=
    [(1022, { Cell := 1022, ConvKey := 18, DescriptorLength := 2, Descriptor := [9, 9] }),
     (1023, { Cell := 1023, ConvKey := 6, DescriptorLength := 3, Descriptor := [1, 2, 3] })]
  SecurityHash := [(2, 1023), (2, 1022)]
  Log := []

/-- The key control block of the subkey at cell 40. -/
def ExampleKcb : CM_KEY_CONTROL_BLOCK :=
  { KeyCell := 40, Delete := false, KcbLastWriteTime := 0, CachedSecurity := none }

/-- Cache consistency: every live security cell has a cache entry for its index
whose length and shadow bytes are those of the cell, and every cache entry
belongs to a live security cell. -/
def CacheConsistent (Hive : CMHIVE) : Prop :=
  (∀ c S, cmGet Hive.SecurityCells c = some S →
    ∃ e, cmGet Hive.SecurityCache c = some e ∧ e.Cell = c ∧
      e.DescriptorLength = S.DescriptorLength ∧ e.Descriptor = S.Descriptor) ∧
  (∀ c e, cmGet Hive.SecurityCache c = some e → (cmGet Hive.SecurityCells c).isSome = true)

/-- The count, length and bytes of a security cell (all but its ring links). -/
def CellContents (X : CM_KEY_SECURITY) : Nat × Nat × List Nat :=
  (X.ReferenceCount, X.DescriptorLength, X.Descriptor)

/-- The number of key nodes whose `Security` field holds the index `c`. -/
def ReferencesTo (Hive : CMHIVE) (c : HCELL_INDEX) : Nat :=
  Hive.KeyNodes.countP (fun e => decide (e.2.Security = c))

/-- Reference-count conservation.  The key nodes have distinct cell indices and
there are fewer than 2^32 of them; `HCELL_NIL` is not a security cell; the
`ReferenceCount` of every live security cell is the number of key nodes whose
`Security` field holds its index, and is not 0; and no key node refers to an
index (other than `HCELL_NIL`) that is not a live security cell. -/
def RefCountsConserved (Hive : CMHIVE) : Prop :=
  (cmKeys Hive.KeyNodes).Nodup ∧ Hive.KeyNodes.length < 4294967296 ∧
  cmGet Hive.SecurityCells HCELL_NIL = none ∧
  (∀ c S, cmGet Hive.SecurityCells c = some S →
    S.ReferenceCount = ReferencesTo Hive c ∧ 0 < S.ReferenceCount) ∧
  (∀ c, c ≠ HCELL_NIL → cmGet Hive.SecurityCells c = none → ReferencesTo Hive c = 0)

/-- An operation of the descriptor store on a hive. -/
inductive StoreOp where
  | Assign (Cell : HCELL_INDEX) (SecurityDescriptor : List Nat)
  | Set (Key : CM_KEY_CONTROL_BLOCK) (SecurityInformation : Nat)
      (ModificationDescriptor : List Nat)
  | Release (Cell : HCELL_INDEX)

/-- Whether `CmpFreeSecurityDescriptor` could map every cell it asks for: the
node, its security cell and, when that cell is to be unlinked, its two ring
neighbours.  Otherwise the release is given up part-way ("Sorry, we cannot free
the descriptor"). -/
def ReleaseMapped (env : Env) (Hive : CMHIVE) (Cell : HCELL_INDEX) : Bool :=
  match HvGetCellNode env Hive Cell with
  | none => false
  | some Node =>
    match HvGetCellSecurity env Hive Node.Security with
    | none => false
    | some Security =>
      if Security.ReferenceCount = 1 then
        (HvGetCellSecurity env Hive Security.Flink).isSome &&
          (HvGetCellSecurity env Hive Security.Blink).isSome
      else true

/-- The hive a successful operation leaves, `none` when the operation fails.
An assign is made on a node whose `Security` is `HCELL_NIL` (the assertion at
line 1073) and succeeds when it returns STATUS_SUCCESS, and so does a set; a
release returns nothing and succeeds when it could map its cells. -/
def StoreOp.Successful (env : Env) (Hive : CMHIVE) : StoreOp → Option CMHIVE
  | StoreOp.Assign Cell SecurityDescriptor =>
    if (cmGet Hive.KeyNodes Cell).map CM_KEY_NODE.Security = some HCELL_NIL ∧
        (CmpAssignSecurityDescriptor env Hive Cell SecurityDescriptor).1 = STATUS_SUCCESS then
      some (CmpAssignSecurityDescriptor env Hive Cell SecurityDescriptor).2
    else none
  | StoreOp.Set Key SecurityInformation ModificationDescriptor =>
    if (CmpSetSecurityDescriptorInfo env Hive Key SecurityInformation
          ModificationDescriptor).Status = Outcome.Returned STATUS_SUCCESS then
      some (CmpSetSecurityDescriptorInfo env Hive Key SecurityInformation
        ModificationDescriptor).Hive
    else none
  | StoreOp.Release Cell =>
    if ReleaseMapped env Hive Cell then some (CmpFreeSecurityDescriptor env Hive Cell)
    else none

/-- The ring links (`Flink`, `Blink`) of the live cell at an index. -/
def LinksOf (Cells : List (HCELL_INDEX × CM_KEY_SECURITY)) (c : HCELL_INDEX) :
    Option (HCELL_INDEX × HCELL_INDEX) :=
  (cmGet Cells c).map (fun X => (X.Flink, X.Blink))

/-- Ring link consistency of a table of links: the forward neighbour of a live
cell is live and points back to it, and so does the backward neighbour. -/
def LinkedRing (L : HCELL_INDEX → Option (HCELL_INDEX × HCELL_INDEX)) : Prop :=
  ∀ c f b, L c = some (f, b) → (∃ x, L f = some (x, c)) ∧ (∃ y, L b = some (c, y))

/-- The length and bytes of the live cell at an index: what the cache is to
shadow. -/
def ShadowOf (Cells : List (HCELL_INDEX × CM_KEY_SECURITY)) (c : HCELL_INDEX) :
    Option (Nat × List Nat) :=
  (cmGet Cells c).map (fun X => (X.DescriptorLength, X.Descriptor))

/-- A well-formed store: the counts are right, the ring links are consistent
and the cache is consistent. -/
def StoreWellFormed (Hive : CMHIVE) : Prop :=
  RefCountsConserved Hive ∧ RingLinked Hive ∧ CacheConsistent Hive

/-- A sequence of operations, each with the environment it runs in, all of them
successful: the hive they leave, `none` when one of them fails. -/
def RunOps : List (Env × StoreOp) → CMHIVE → Option CMHIVE
  | [], Hive => some Hive
  | (env, op) :: rest, Hive =>
    match op.Successful env Hive with
    | none => none
    | some Next => RunOps rest Next

/-- A cell that has been marked dirty can be mapped ("dirty means PIN"). -/
def DirtyMeansPinned (env : Env) : Prop :=
  ∀ c, env.DirtyOk c = true → env.MapOk c = true

/-- The ways an operation of the store rewrites the table of ring links, other
than by starting a new ring: not at all; by taking the cell `c` out, its two
neighbours joined; by splicing the new cell `n` in right after the cell `p`; by
moving the cell at `o` to the index `n`, every reference to it following. -/
inductive RingChange (L L1 : HCELL_INDEX → Option (HCELL_INDEX × HCELL_INDEX)) : Prop where
  | same (h1 : ∀ k, L1 k = L k)
  | unlink (c f b : HCELL_INDEX) (hc : L c = some (f, b))
      (h1 : ∀ k, L1 k = if k = c then none else
        (L k).map (fun p => (if k = b then f else p.1, if k = f then b else p.2)))
  | splice (n p f b : HCELL_INDEX) (hn : L n = none) (hp : L p = some (f, b))
      (h1 : ∀ k, L1 k = if k = n then some (f, p) else
        (L k).map (fun q => (if k = p then n else q.1, if k = f then n else q.2)))
  | rename (o n f b : HCELL_INDEX) (ho : L o = some (f, b)) (hn : n = o ∨ L n = none)
      (h1 : ∀ k, L1 k =
        if k = n then some (if f = o then n else f, if b = o then n else b)
        else if k = o then none
        else (L k).map (fun q => (if k = b then n else q.1, if k = f then n else q.2)))

/-- One step along `Flink`. -/
def FlinkStep (L : HCELL_INDEX → Option (HCELL_INDEX × HCELL_INDEX)) (a b : HCELL_INDEX) :
    Prop :=
  ∃ y, L a = some (b, y)

/-- Ring closure of a table of links: every live cell is reached from every
other live cell by following `Flink` a finite number of times. -/
def ClosedRing (L : HCELL_INDEX → Option (HCELL_INDEX × HCELL_INDEX)) : Prop :=
  ∀ a b, (L a).isSome = true → (L b).isSome = true → Relation.ReflTransGen (FlinkStep L) a b

/-- Ring closure of the security cells of a hive. -/
def RingClosed (Hive : CMHIVE) : Prop := ClosedRing (LinksOf Hive.SecurityCells)

/-- Whether an operation creates a security cell that `CmpInsertSecurityCellList`
makes a ring of its own: an assign that finds no matching cell, for a volatile
node or for the root node of the hive (`KEY_HIVE_ENTRY`). -/
def StartsOwnRing (env : Env) (Hive : CMHIVE) : StoreOp → Bool
  | StoreOp.Assign Cell SecurityDescriptor =>
    (CmpFindMatchingDescriptorCell env Hive SecurityDescriptor (HvGetCellType Cell)).isNone &&
      (decide (HvGetCellType Cell = Volatile) ||
        match cmGet Hive.KeyNodes Cell with
        | some Node => decide (Node.Flags &&& KEY_HIVE_ENTRY ≠ 0)
        | none => false)
  | _ => false

/-- No operation of the sequence starts a ring of its own while the hive has
other security cells. -/
def NoSeparateRing : List (Env × StoreOp) → CMHIVE → Bool
  | [], _ => true
  | (env, op) :: rest, Hive =>
    (!StartsOwnRing env Hive op || Hive.SecurityCells.isEmpty) &&
    match op.Successful env Hive with
    | none => true
    | some Next => NoSeparateRing rest Next

/-- An environment like `ExampleEnv` whose allocator hands out an index of the
storage type asked for. -/
def ExampleEnvTyped : Env :=
  { ExampleEnv with AllocIndex := fun sz t => t * 0x80000000 + 1000 + sz }

/-- A hive without security cells: the root (cell 32), a stable subkey (cell 40)
and a volatile subkey (cell 0x80000020), none with security yet. -/
def ExampleHiveFresh : CMHIVE where
  KeyNodes :=
    [(32, { Flags := 4, LastWriteTime := 0, Parent := 0, Security := HCELL_NIL }),
     (40, { Flags := 0, LastWriteTime := 0, Parent := 32, Security := HCELL_NIL }),
     (0x80000020, { Flags := 0, LastWriteTime := 0, Parent := 32, Security := HCELL_NIL })]
  SecurityCells := []
  SecurityCache := []
  SecurityHash := []
  Log := []

/-! ## Vocabulary of the access-check properties -/

/-- The number of subkeys of a node as the walk computes it, a `ULONG` sum. -/
def SubKeyCount (Node : CM_KEY_NODE) : Nat :=
  (Node.SubKeyCounts.getD Stable 0 + Node.SubKeyCounts.getD Volatile 0) % 4294967296

/-- The subtree below cell `c` is a finite key tree of at most `d` levels whose
node cells can all be mapped and whose subkeys can all be found. -/
def TreeWithin (env : Env) (acc : AccessEnv) (Hive : CMHIVE) : Nat → HCELL_INDEX → Bool
  | 0, _ => false
  | d + 1, c =>
    match HvGetCellNode env Hive c with
    | none => false
    | some Node =>
      (List.range' 0 (SubKeyCount Node)).all
        (fun i =>
          acc.CmpFindSubKeyByNumber c i != HCELL_NIL &&
            TreeWithin env acc Hive d (acc.CmpFindSubKeyByNumber c i))

/-- The nodes of the subtree below cell `c` in pre-order, down to `d` levels. -/
def SubtreeCells (env : Env) (acc : AccessEnv) (Hive : CMHIVE) : Nat → HCELL_INDEX → List HCELL_INDEX
  | 0, _ => []
  | d + 1, c =>
    c ::
      match HvGetCellNode env Hive c with
      | none => []
      | some Node =>
        (List.range' 0 (SubKeyCount Node)).flatMap
          (fun i => SubtreeCells env acc Hive d (acc.CmpFindSubKeyByNumber c i))

/-- The pre-order of the subtrees below the subkeys number `j`, `j + 1`, ...,
`n - 1` of the node at cell `c`, each down to `d` levels. -/
def SubtreeCellsFrom (env : Env) (acc : AccessEnv) (Hive : CMHIVE) (d : Nat) (c : HCELL_INDEX)
    (j n : Nat) : List HCELL_INDEX :=
  (List.range' j (n - j)).flatMap
    (fun i => SubtreeCells env acc Hive d (acc.CmpFindSubKeyByNumber c i))

/-- Checking the nodes of a list in order and stopping at the first check that
fails: whether all checks succeeded, and the status held at the end (`Status`
when the list is empty). -/
def CheckAll (check : HCELL_INDEX → NTSTATUS) : List HCELL_INDEX → NTSTATUS → Bool × NTSTATUS
  | [], Status => (true, Status)
  | c :: rest, _ =>
    if NT_SUCCESS (check c) = true then CheckAll check rest (check c) else (false, check c)

/-- The nodes on which a trace ran the access evaluation, in the order of the
evaluations. -/
def AccessChecks : List CheckEvent → List HCELL_INDEX
  | [] => []
  | CheckEvent.AccessCheck c :: rest => c :: AccessChecks rest
  | _ :: rest => AccessChecks rest

/-- The evaluations made when the nodes of a list are checked in order up to
the first check that fails. -/
def ChecksOf (check : HCELL_INDEX → NTSTATUS × List CheckEvent) :
    List HCELL_INDEX → List HCELL_INDEX
  | [] => []
  | c :: rest =>
    AccessChecks (check c).2 ++ (if NT_SUCCESS (check c).1 = true then ChecksOf check rest else [])

/-- The rest of the loop of `CmpDoAccessCheckOnSubtree` from the middle of an
iteration, after the current cell was checked. -/
def WalkRest (env : Env) (acc : AccessEnv) (Hive : CMHIVE) (PreviousMode DesiredAccess : Nat)
    (fuel : Nat) (s : WalkState) : Option WalkState :=
  if (WalkDescend env acc Hive s).1 = true then
    WalkLoop env acc Hive PreviousMode DesiredAccess fuel (WalkDescend env acc Hive s).2
  else some (WalkDescend env acc Hive s).2

/-- A run `run` of the loop from state `s`, whose current stack index is `k`,
checks the nodes of `L` in order: if all checks succeed it comes back to the
loop in a state `t` one level up, with the stack below level `k` as it was,
otherwise it ends in `t`; `t` holds the status of `CheckAll` and the
evaluations of `ChecksOf`. -/
def WalkChecks (env : Env) (acc : AccessEnv) (Hive : CMHIVE) (PreviousMode DesiredAccess : Nat)
    (run : Nat → WalkState → Option WalkState) (s : WalkState) (k : Nat)
    (L : List HCELL_INDEX) : Prop :=
  ∃ N t,
    (∀ fuel, run (fuel + N) s =
      if (CheckAll (fun c => (CmpCheckKeyAccess env acc Hive c PreviousMode DesiredAccess).1)
            L s.Status).1 = true then
        WalkLoop env acc Hive PreviousMode DesiredAccess fuel t
      else some t) ∧
    t.Status =
      (CheckAll (fun c => (CmpCheckKeyAccess env acc Hive c PreviousMode DesiredAccess).1)
        L s.Status).2 ∧
    AccessChecks t.Trace =
      AccessChecks s.Trace ++
        ChecksOf (fun c => CmpCheckKeyAccess env acc Hive c PreviousMode DesiredAccess) L ∧
    ((CheckAll (fun c => (CmpCheckKeyAccess env acc Hive c PreviousMode DesiredAccess).1)
        L s.Status).1 = true →
      t.StackIndex = (k : Int) - 1 ∧ t.CheckStack.length = s.CheckStack.length ∧
        ∀ i, i < k → t.CheckStack.getD i default = s.CheckStack.getD i default)

/-- Every access to the check stack in the trace is to an entry of the stack. -/
def StackAccessesWithin (Depth : Nat) (Trace : List CheckEvent) : Prop :=
  ∀ i : Int,
    (CheckEvent.StackRead i ∈ Trace ∨ CheckEvent.StackWrite i ∈ Trace) →
      0 ≤ i ∧ i < (Depth : Int)

/-- Every cell access in the trace was made while the hive had no release
routine. -/
def CellsStayPinned (Trace : List CheckEvent) : Prop :=
  ∀ c r, CheckEvent.GetCell c r ∈ Trace → r = none

/-- The security information of a full descriptor: owner, group, DACL and SACL. -/
def FULL_SECURITY_INFORMATION : Nat :=
  OWNER_SECURITY_INFORMATION ||| GROUP_SECURITY_INFORMATION |||
    DACL_SECURITY_INFORMATION ||| SACL_SECURITY_INFORMATION

/-- The last answer of the query for the full descriptor of a security cell:
that of the query on a buffer of the stored length, or, when that one reports
a buffer too small, that of a second query on a buffer of the reported length. -/
def FullDescriptorQuery (acc : AccessEnv) (Security : CM_KEY_SECURITY) :
    NTSTATUS × Nat × List Nat :=
  if (acc.SeQuerySecurityDescriptorInfo FULL_SECURITY_INFORMATION Security.DescriptorLength
        Security.Descriptor).1 = STATUS_BUFFER_TOO_SMALL then
    acc.SeQuerySecurityDescriptorInfo FULL_SECURITY_INFORMATION
      (acc.SeQuerySecurityDescriptorInfo FULL_SECURITY_INFORMATION Security.DescriptorLength
        Security.Descriptor).2.1
      Security.Descriptor
  else
    acc.SeQuerySecurityDescriptorInfo FULL_SECURITY_INFORMATION Security.DescriptorLength
      Security.Descriptor

/-- The buffers the check of a security cell asks for can be allocated: the one
of the stored length and, when the first query reports a buffer too small, the
one of the reported length. -/
def BuffersAllocated (acc : AccessEnv) (Security : CM_KEY_SECURITY) : Bool :=
  acc.ExAllocatePool Security.DescriptorLength &&
    (decide ((acc.SeQuerySecurityDescriptorInfo FULL_SECURITY_INFORMATION
        Security.DescriptorLength Security.Descriptor).1 ≠ STATUS_BUFFER_TOO_SMALL) ||
      acc.ExAllocatePool
        (acc.SeQuerySecurityDescriptorInfo FULL_SECURITY_INFORMATION Security.DescriptorLength
          Security.Descriptor).2.1)

/-- The query primitive does not itself answer `STATUS_ACCESS_DENIED`. -/
def QueryNeverDenies (acc : AccessEnv) : Prop :=
  ∀ info length descriptor,
    (acc.SeQuerySecurityDescriptorInfo info length descriptor).1 ≠ STATUS_ACCESS_DENIED

/-- A successful answer of the query primitive is `STATUS_SUCCESS`. -/
def QuerySucceedsPlainly (acc : AccessEnv) : Prop :=
  ∀ info length descriptor,
    NT_SUCCESS (acc.SeQuerySecurityDescriptorInfo info length descriptor).1 = true →
      (acc.SeQuerySecurityDescriptorInfo info length descriptor).1 = STATUS_SUCCESS

/-! ## Example data of the access checker -/

/-- An environment of the access checker in which allocations succeed, the
query returns the stored descriptor when the buffer holds it, access is
granted by every descriptor whose first byte is not 0, and the key tree is
the root 32 with subkeys 40 and 48, 40 with the subkey 56; the stack has 4
entries. -/
def ExampleAccessEnv : AccessEnv where
  ExAllocatePool := fun _ => true
  SeQuerySecurityDescriptorInfo := fun _ length descriptor =>
    if length < descriptor.length then (STATUS_BUFFER_TOO_SMALL, descriptor.length, [])
    else (STATUS_SUCCESS, descriptor.length, descriptor)
  SeAccessCheck := fun descriptor _ _ => descriptor.headD 0 != 0
  CmpFindSubKeyByNumber := fun node number =>
    if node = 32 ∧ number = 0 then 40
    else if node = 32 ∧ number = 1 then 48
    else if node = 40 ∧ number = 0 then 56
    else HCELL_NIL
  CMP_MAX_REGISTRY_DEPTH := 4
  CheckStackAllocated := true

/-- A hive with the key tree of `ExampleAccessEnv`: the nodes 32, 40 and 48
share the security cell 1023, whose descriptor grants access; the node 56 has
the security cell 1022, whose descriptor denies it. The hive has a release
routine. -/
def ExampleTreeHive : CMHIVE where
  KeyNodes :=
    [(32, { Flags := 4, LastWriteTime := 0, Parent := 0, Security := 1023,
            SubKeyCounts := [2, 0] }),
     (40, { Flags := 0, LastWriteTime := 0, Parent := 32, Security := 1023,
            SubKeyCounts := [1, 0] }),
     (48, { Flags := 0, LastWriteTime := 0, Parent := 32, Security := 1023 }),
     (56, { Flags := 0, LastWriteTime := 0, Parent := 40, Security := 1022 })]
  SecurityCells :=
    [(1022, { Signature := CM_KEY_SECURITY_SIGNATURE, Flink := 1023, Blink := 1023,
              ReferenceCount := 1, DescriptorLength := 2, Descriptor := [0, 9] }),
     (1023, { Signature := CM_KEY_SECURITY_SIGNATURE, Flink := 1022, Blink := 1022,
              ReferenceCount := 3, DescriptorLength := 3, Descriptor := [1, 2, 3] })]
  SecurityCache :=
    [(1022, { Cell := 1022, ConvKey := 9, DescriptorLength := 2, Descriptor := [0, 9] }),
     (1023, { Cell := 1023, ConvKey := 6, DescriptorLength := 3, Descriptor := [1, 2, 3] })]
  SecurityHash := [(1, 1022), (2, 1023)]
  Log := []
  ReleaseCellRoutine := some 1

/-- The environment of `ExampleAccessEnv` with a check stack of 2 entries, one
fewer than the key tree has levels. -/
def ExampleAccessEnvShallow : AccessEnv :=
  { ExampleAccessEnv with CMP_MAX_REGISTRY_DEPTH := 2 }

/-- An environment like `ExampleEnv` in which the pool allocation for a cache
entry fails. -/
def ExampleEnvNoPool : Env :=
  { ExampleEnv with PoolOk := fun _ => false }

/-- An environment like `ExampleEnv` in which cell 1020 cannot be marked dirty. -/
def ExampleEnvNoLog : Env :=
  { ExampleEnv with DirtyOk := fun c => c != 1020 }

/-- A hive whose root (cell 32) and its subkey (cell 40) share the security cell
1023, in one ring with the security cell 1020 of the subkey at cell 48. -/
def ExampleHivePair : CMHIVE where
  KeyNodes :=
    [(32, { Flags := 4, LastWriteTime := 0, Parent := 0, Security := 1023 }),
     (40, { Flags := 0, LastWriteTime := 0, Parent := 32, Security := 1023 }),
     (48, { Flags := 0, LastWriteTime := 0, Parent := 32, Security := 1020 })]
  SecurityCells :=
    [(1020, { Signature := CM_KEY_SECURITY_SIGNATURE, Flink := 1023, Blink := 1023,
              ReferenceCount := 1, DescriptorLength := 2, Descriptor := [9, 9] }),
     (1023, { Signature := CM_KEY_SECURITY_SIGNATURE, Flink := 1020, Blink := 1020,
              ReferenceCount := 2, DescriptorLength := 3, Descriptor := [1, 2, 3] })]
  SecurityCache :=
    [(1020, { Cell := 1020, ConvKey := 18, DescriptorLength := 2, Descriptor := [9, 9] }),
     (1023, { Cell := 1023, ConvKey := 6, DescriptorLength := 3, Descriptor := [1, 2, 3] })]
  SecurityHash := [(2, 1023), (2, 1020)]
  Log := []

/-- An event of the walk is in order for a stack of `Depth` entries and the
release routine `R`: a stack access is to an entry of the stack, a cell access
is made while the hive has the release routine `R`. -/
def WalkEventOk (Depth : Nat) (R : Option Nat) : CheckEvent → Prop
  | CheckEvent.StackRead i => 0 ≤ i ∧ i < (Depth : Int)
  | CheckEvent.StackWrite i => 0 ≤ i ∧ i < (Depth : Int)
  | CheckEvent.GetCell _ r => r = R
  | CheckEvent.AccessCheck _ => True
  | CheckEvent.QueryDescriptor _ => True

/-- The weight of the check-stack entries below level `k` in the measure of the
walk: an entry at level `i` that has `ChildIndex` subkeys behind it weighs
`(2^32 - ChildIndex) * (2^32 + 2)^(Depth - 1 - i)`. -/
def StackPotential (Depth : Nat) (CheckStack : List CMP_CHECK_REGISTRY_STACK_ENTRY) : Nat → Nat
  | 0 => 0
  | k + 1 =>
    StackPotential Depth CheckStack k +
      (4294967296 - (CheckStack.getD k default).ChildIndex) * 4294967298 ^ (Depth - 1 - k)

/-- A measure of what the loop of the walk has left to do: it is 0 when the loop
is over and goes down with every iteration after which the loop goes on. -/
def WalkMeasure (Depth : Nat) (s : WalkState) : Nat :=
  StackPotential Depth s.CheckStack (s.StackIndex + 1).toNat + (s.StackIndex + 1).toNat

/-- A number of iterations that suffices for every walk with a check stack of
`CMP_MAX_REGISTRY_DEPTH` entries. -/
def WalkFuel (acc : AccessEnv) : Nat :=
  4294967296 * 4294967298 ^ (acc.CMP_MAX_REGISTRY_DEPTH - 1) + 1

/-! ## Vocabulary of the security-method properties -/

/-- Whether an event takes a lock. -/
def MethodEvent.Acquires : MethodEvent → Bool
  | MethodEvent.CmpLockRegistry => true
  | MethodEvent.CmpLockKCBShared _ => true
  | MethodEvent.CmpLockKCBExclusive _ => true
  | MethodEvent.CmpLockHiveFlusherShared => true
  | MethodEvent.CmLockHiveSecurityExclusive => true
  | MethodEvent.CmLockHiveSecurityShared => true
  | _ => false

/-- Whether an event takes or releases the lock of a key control block. -/
def MethodEvent.OnKcbLock : MethodEvent → Bool
  | MethodEvent.CmpLockKCBShared _ => true
  | MethodEvent.CmpLockKCBExclusive _ => true
  | MethodEvent.CmpUnlockKCB _ => true
  | _ => false

/-- The event of the routine that serves a set or an assign. -/
def MutationCall (OperationCode : Nat) : MethodEvent :=
  if OperationCode = SetSecurityDescriptor then MethodEvent.CmpSetSecurityDescriptorInfo
  else MethodEvent.CmpAssignSecurityDescriptorWrapper

/-- The memory of the examples: at address 64 the block of the key at cell 40,
whose cached security is the entry of cell 1023; at address 128 the block of
the key at cell 48, which has no cached security; at every other address the
block of a deleted key. -/
def ExampleMethodEnv : MethodEnv where
  KcbAt := fun p =>
    if p = 64 then
      { KeyCell := 40, Delete := false, KcbLastWriteTime := 0, CachedSecurity := some 1023 }
    else if p = 128 then
      { KeyCell := 48, Delete := false, KcbLastWriteTime := 0, CachedSecurity := none }
    else { KeyCell := 56, Delete := true, KcbLastWriteTime := 0, CachedSecurity := none }
  BufferFault := none

/-- The hive `ExampleHiveSplit` without the cache entry of the security cell
1022. -/
def ExampleHiveNoEntry : CMHIVE :=
  { ExampleHiveSplit with
    SecurityCache :=
      [(1023, { Cell := 1023, ConvKey := 6, DescriptorLength := 3, Descriptor := [1, 2, 3] })],
    SecurityHash := [(2, 1023)] }

/-- The environment of `ExampleAccessEnv` in which the check stack cannot be
allocated. -/
def ExampleAccessEnvNoStack : AccessEnv :=
  { ExampleAccessEnv with CheckStackAllocated := false }

/-- An environment like `ExampleEnv` in which cell 56 cannot be mapped. -/
def ExampleEnvNoMap : Env :=
  { ExampleEnv with MapOk := fun c => c != 56 }

/-- The locks of the registry this module takes; the lock of a key control
block is named by the address of the block. -/
inductive CmLock where
  | Registry
  | Kcb (Kcb : Nat)
  | HiveFlusher
  | HiveSecurity
deriving DecidableEq, Repr

/-- The lock an event takes, if it takes one. -/
def MethodEvent.Acquired : MethodEvent → Option CmLock
  | MethodEvent.CmpLockRegistry => some CmLock.Registry
  | MethodEvent.CmpLockKCBShared k => some (CmLock.Kcb k)
  | MethodEvent.CmpLockKCBExclusive k => some (CmLock.Kcb k)
  | MethodEvent.CmpLockHiveFlusherShared => some CmLock.HiveFlusher
  | MethodEvent.CmLockHiveSecurityExclusive => some CmLock.HiveSecurity
  | MethodEvent.CmLockHiveSecurityShared => some CmLock.HiveSecurity
  | _ => none

/-- The lock an event releases, if it releases one. -/
def MethodEvent.Released : MethodEvent → Option CmLock
  | MethodEvent.CmpUnlockRegistry => some CmLock.Registry
  | MethodEvent.CmpUnlockKCB k => some (CmLock.Kcb k)
  | MethodEvent.CmpUnlockHiveFlusher => some CmLock.HiveFlusher
  | MethodEvent.CmUnlockHiveSecurity => some CmLock.HiveSecurity
  | _ => none

/-- The locks held after a trace that starts with the locks `Held` (most
recently taken first): an acquisition adds its lock, a release takes one
holding of its lock away; `none` when the trace releases a lock that is not
held. -/
def HeldAfter : List CmLock → List MethodEvent → Option (List CmLock)
  | Held, [] => some Held
  | Held, e :: Rest =>
    match e.Acquired with
    | some l => HeldAfter (l :: Held) Rest
    | none =>
      match e.Released with
      | some l => if l ∈ Held then HeldAfter (Held.erase l) Rest else none
      | none => HeldAfter Held Rest

/-- Whether an event is a change notification. -/
def MethodEvent.IsNotify : MethodEvent → Bool
  | MethodEvent.CmpReportNotify _ => true
  | _ => false

/-- Whether the set routine, run for a request, returns a success status. -/
def SetSucceeds (env : Env) (Hive : CMHIVE) (Kcb : CM_KEY_CONTROL_BLOCK)
    (SecurityInformation : Nat) (SecurityDescriptor : List Nat) : Bool :=
  match (CmpSetSecurityDescriptorInfo env Hive Kcb SecurityInformation
      SecurityDescriptor).Status with
  | Outcome.Returned Status => NT_SUCCESS Status
  | Outcome.BugCheck _ _ => false

/-- The descriptor queries of a trace, each by the length of its buffer, in
program order. -/
def Queries : List CheckEvent → List Nat
  | [] => []
  | CheckEvent.QueryDescriptor n :: rest => n :: Queries rest
  | _ :: rest => Queries rest

/-! ## Vocabulary of the dirty-before-write property -/

/-- Whether, in a piece of the log (most recent event first), every write to a
cell comes after a dirty mark of that cell or after the allocation of that
cell. -/
def DirtyBeforeWrite : List CellEvent → Bool
  | [] => true
  | CellEvent.Write c :: Earlier =>
    (decide (CellEvent.Dirty c ∈ Earlier) || decide (CellEvent.Allocate c ∈ Earlier)) &&
      DirtyBeforeWrite Earlier
  | _ :: Earlier => DirtyBeforeWrite Earlier

/-- The log of the hive extends the log `Base` by events among which every
write to a cell comes after a dirty mark or the allocation of that cell, and
the cells of `Marked` have been marked dirty or allocated since `Base`. -/
def Tracked (Base : List CellEvent) (Hive : CMHIVE) (Marked : List HCELL_INDEX) : Prop :=
  ∃ New, Hive.Log = New ++ Base ∧ DirtyBeforeWrite New = true ∧
    ∀ c, c ∈ Marked → CellEvent.Dirty c ∈ New ∨ CellEvent.Allocate c ∈ New

/-- Dirty before write, for a call that takes the hive from `Before` to
`After`: among the events the call added to the log, every write to a cell
comes after a dirty mark of the cell or after its allocation. -/
def WritesCovered (Before After : CMHIVE) : Prop :=
  ∃ New, After.Log = New ++ Before.Log ∧ DirtyBeforeWrite New = true

/-! ## Vocabulary of the properties across nodes -/

/-- The `Security` field of the key node at a cell. -/
def SecurityOf (Hive : CMHIVE) (Cell : HCELL_INDEX) : Option HCELL_INDEX :=
  (cmGet Hive.KeyNodes Cell).map CM_KEY_NODE.Security

/-- An environment like `ExampleEnv` in which cell 1023 cannot be marked dirty. -/
def ExampleEnvNoNeighbourLog : Env :=
  { ExampleEnv with DirtyOk := fun c => c != 1023 }

/-- The key control block of the subkey at cell 40 of `ExampleHiveSplit`, with
its cached security. -/
def ExampleKcbCached : CM_KEY_CONTROL_BLOCK :=
  { KeyCell := 40, Delete := false, KcbLastWriteTime := 0, CachedSecurity := some 1022 }
/-! ## Vocabulary of descriptor uniqueness -/

/-- Descriptor uniqueness: no two distinct live security cells of one storage
type hold the same descriptor (the same length and the same bytes). -/
def DescriptorsUnique (Hive : CMHIVE) : Prop :=
  ∀ a b p, ShadowOf Hive.SecurityCells a = some p → ShadowOf Hive.SecurityCells b = some p →
    HvGetCellType a = HvGetCellType b → a = b

/-- The matching routine finds a cell exactly when a live security cell of the
storage type holds the descriptor byte for byte. -/
def MatchingExact (env : Env) (Hive : CMHIVE) : Prop :=
  ∀ D t, (CmpFindMatchingDescriptorCell env Hive D t).isSome = true ↔
    ∃ c, HvGetCellType c = t ∧
      ShadowOf Hive.SecurityCells c = some (RtlLengthSecurityDescriptor D, D)

/-- Every key node that refers to a live security cell refers to one of its own
storage type (the cell was allocated with the type of the node, lines 1109 and
698, and a reallocation keeps the type). -/
def TypedReferences (Hive : CMHIVE) : Prop :=
  ∀ k N S, cmGet Hive.KeyNodes k = some N → cmGet Hive.SecurityCells N.Security = some S →
    HvGetCellType N.Security = HvGetCellType k

/-- Every live security cell stores as many descriptor bytes as its
`DescriptorLength` says. -/
def DescriptorsSized (Hive : CMHIVE) : Prop :=
  ∀ c S, cmGet Hive.SecurityCells c = some S → S.Descriptor.length = S.DescriptorLength

/-! ## Vocabulary of the termination property -/

/-- The iterations of the loop of `CmpDoAccessCheckOnSubtree`: the states in
which the body of the loop is entered, in order, for at most `fuel`
iterations.  It follows `WalkLoop` step by step. -/
def WalkIterations (env : Env) (acc : AccessEnv) (Hive : CMHIVE)
    (PreviousMode DesiredAccess : Nat) : Nat → WalkState → List WalkState
  | fuel, s =>
    if s.StackIndex < 0 then []
    else
      match fuel with
      | 0 => []
      | fuel + 1 =>
        s ::
          (if (WalkIteration env acc Hive PreviousMode DesiredAccess s).1 = true then
            WalkIterations env acc Hive PreviousMode DesiredAccess fuel
              (WalkIteration env acc Hive PreviousMode DesiredAccess s).2
          else [])

/-- What is on top of the check stack when the iterations are entered: the
cell, and whether it was checked before. -/
def IterationTops (Iterations : List WalkState) : List (HCELL_INDEX × Bool) :=
  Iterations.map (fun s => (s.Top.Cell, s.Top.CellChecked))

/-- The number of iterations entered with the cell on top of the check stack. -/
def IterationsOnTop (Iterations : List WalkState) (Cell : HCELL_INDEX) : Nat :=
  (IterationTops Iterations).countP (fun e => decide (e.1 = Cell))

/-- The number of iterations that call `CmpCheckKeyAccess` on the cell: those
entered with the cell on top of the check stack and not checked before (line
2255). -/
def ChecksOnCell (Iterations : List WalkState) (Cell : HCELL_INDEX) : Nat :=
  (IterationTops Iterations).countP (fun e => decide (e.1 = Cell) && !e.2)

/-- The tops of the check stack in the iterations of a complete walk through
the subtree below cell `c`, down to `d` levels, when the walk enters the
subtree with `CellChecked` set to `b`: the node itself, and after the walk
through each of its subkeys the node again. -/
def TopsOf (env : Env) (acc : AccessEnv) (Hive : CMHIVE) :
    Nat → HCELL_INDEX → Bool → List (HCELL_INDEX × Bool)
  | 0, _, _ => []
  | d + 1, c, b =>
    (c, b) ::
      match HvGetCellNode env Hive c with
      | none => []
      | some Node =>
        (List.range' 0 (SubKeyCount Node)).flatMap
          (fun i =>
            TopsOf env acc Hive d (acc.CmpFindSubKeyByNumber c i) false ++ [(c, true)])

/-- The tops of the check stack in the walk through the subkeys number `j`,
`j + 1`, ..., `n - 1` of the node at cell `c`. -/
def TopsFrom (env : Env) (acc : AccessEnv) (Hive : CMHIVE) (d : Nat) (c : HCELL_INDEX)
    (j n : Nat) : List (HCELL_INDEX × Bool) :=
  (List.range' j (n - j)).flatMap
    (fun i => TopsOf env acc Hive d (acc.CmpFindSubKeyByNumber c i) false ++ [(c, true)])

/-- The iterations from state `s`, whose stack index is `k`, follow the list
`L` of tops: they stop within `L`, or they go through all of `L` and go on
from a state `t` one level up, with the stack below level `k` as it was. -/
def WalkFollows (env : Env) (acc : AccessEnv) (Hive : CMHIVE) (PreviousMode DesiredAccess : Nat)
    (fuel : Nat) (s : WalkState) (k : Nat) (L : List (HCELL_INDEX × Bool)) : Prop :=
  IterationTops (WalkIterations env acc Hive PreviousMode DesiredAccess fuel s) <+: L ∨
  ∃ rest t,
    IterationTops (WalkIterations env acc Hive PreviousMode DesiredAccess fuel s) =
      L ++ IterationTops (WalkIterations env acc Hive PreviousMode DesiredAccess rest t) ∧
    t.StackIndex = (k : Int) - 1 ∧ t.CheckStack.length = s.CheckStack.length ∧
    ∀ i, i < k → t.CheckStack.getD i default = s.CheckStack.getD i default

/-! ## Cell maps: lookup after an update -/

section CellMapLemmas
variable {α : Type}

@[simp] theorem cmGet_nil (c : HCELL_INDEX) : cmGet ([] : List (HCELL_INDEX × α)) c = none := rfl

theorem cmGet_cons (k : HCELL_INDEX) (v : α) (t : List (HCELL_INDEX × α)) (c : HCELL_INDEX) :
    cmGet ((k, v) :: t) c = if k = c then some v else cmGet t c := rfl

theorem cmGet_cmModify (m : List (HCELL_INDEX × α)) (c : HCELL_INDEX) (f : α → α)
    (k : HCELL_INDEX) :
    cmGet (cmModify m c f) k = if k = c then (cmGet m c).map f else cmGet m k := by
  induction m with
  | nil => simp [cmModify]
  | cons e t ih =>
    obtain ⟨a, v⟩ := e
    by_cases hac : a = c
    · by_cases hk : k = c
      · simp [cmModify, cmGet_cons, hac, hk]
      · have : ¬ c = k := fun h => hk h.symm
        simp [cmModify, cmGet_cons, hac, hk, this]
    · by_cases hk : k = c
      · subst hk
        simp [cmModify, cmGet_cons, hac, ih]
      · by_cases hak : a = k
        · simp [cmModify, cmGet_cons, hac, hk, hak]
        · simp [cmModify, cmGet_cons, hac, hk, hak, ih]

theorem cmGet_cmErase (m : List (HCELL_INDEX × α)) (c k : HCELL_INDEX) :
    cmGet (cmErase m c) k = if k = c then none else cmGet m k := by
  induction m with
  | nil => simp [cmErase]
  | cons e t ih =>
    obtain ⟨a, v⟩ := e
    by_cases hac : a = c
    · by_cases hk : k = c
      · subst hk
        simp [cmErase, hac, ih]
      · have : ¬ c = k := fun h => hk h.symm
        simp [cmErase, cmGet_cons, hac, hk, ih, this]
    · by_cases hk : k = c
      · subst hk
        simp [cmErase, cmGet_cons, hac, ih]
      · by_cases hak : a = k
        · simp [cmErase, cmGet_cons, hac, hk, hak]
        · simp [cmErase, cmGet_cons, hac, hk, hak, ih]

theorem cmKeys_cmModify (m : List (HCELL_INDEX × α)) (c : HCELL_INDEX) (f : α → α) :
    cmKeys (cmModify m c f) = cmKeys m := by
  induction m with
  | nil => rfl
  | cons e t ih =>
    obtain ⟨a, v⟩ := e
    by_cases hac : a = c
    · simp [cmModify, cmKeys, hac]
    · have ih' : List.map Prod.fst (cmModify t c f) = List.map Prod.fst t := ih
      simp [cmModify, cmKeys, hac, ih']

theorem cmModify_cmModify (m : List (HCELL_INDEX × α)) (c : HCELL_INDEX) (f g : α → α) :
    cmModify (cmModify m c f) c g = cmModify m c (fun x => g (f x)) := by
  induction m with
  | nil => rfl
  | cons e t ih =>
    obtain ⟨a, v⟩ := e
    by_cases hac : a = c
    · simp [cmModify, hac]
    · simp [cmModify, hac, ih]

theorem cmGet_isSome_iff_mem_keys (m : List (HCELL_INDEX × α)) (c : HCELL_INDEX) :
    (cmGet m c).isSome = true ↔ c ∈ cmKeys m := by
  induction m with
  | nil => simp [cmKeys]
  | cons e t ih =>
    obtain ⟨a, v⟩ := e
    by_cases hac : a = c
    · simp [cmGet_cons, cmKeys, hac]
    · have hca : ¬ c = a := fun h => hac h.symm
      have ih' : (cmGet t c).isSome = true ↔ c ∈ List.map Prod.fst t := ih
      simp [cmGet_cons, cmKeys, hac, hca, ih']

end CellMapLemmas

/-! ## Projections of the primitive steps -/

@[simp] theorem WriteSecurity_KeyNodes (h : CMHIVE) (c : HCELL_INDEX)
    (f : CM_KEY_SECURITY → CM_KEY_SECURITY) : (WriteSecurity h c f).KeyNodes = h.KeyNodes := rfl

@[simp] theorem WriteSecurity_SecurityCells (h : CMHIVE) (c : HCELL_INDEX)
    (f : CM_KEY_SECURITY → CM_KEY_SECURITY) :
    (WriteSecurity h c f).SecurityCells = cmModify h.SecurityCells c f := rfl

@[simp] theorem WriteSecurity_SecurityCache (h : CMHIVE) (c : HCELL_INDEX)
    (f : CM_KEY_SECURITY → CM_KEY_SECURITY) :
    (WriteSecurity h c f).SecurityCache = h.SecurityCache := rfl

@[simp] theorem WriteSecurity_SecurityHash (h : CMHIVE) (c : HCELL_INDEX)
    (f : CM_KEY_SECURITY → CM_KEY_SECURITY) :
    (WriteSecurity h c f).SecurityHash = h.SecurityHash := rfl

@[simp] theorem WriteNode_KeyNodes (h : CMHIVE) (c : HCELL_INDEX)
    (f : CM_KEY_NODE → CM_KEY_NODE) : (WriteNode h c f).KeyNodes = cmModify h.KeyNodes c f := rfl

@[simp] theorem WriteNode_SecurityCells (h : CMHIVE) (c : HCELL_INDEX)
    (f : CM_KEY_NODE → CM_KEY_NODE) : (WriteNode h c f).SecurityCells = h.SecurityCells := rfl

@[simp] theorem WriteNode_SecurityCache (h : CMHIVE) (c : HCELL_INDEX)
    (f : CM_KEY_NODE → CM_KEY_NODE) : (WriteNode h c f).SecurityCache = h.SecurityCache := rfl

@[simp] theorem WriteNode_SecurityHash (h : CMHIVE) (c : HCELL_INDEX)
    (f : CM_KEY_NODE → CM_KEY_NODE) : (WriteNode h c f).SecurityHash = h.SecurityHash := rfl

@[simp] theorem HvFreeCell_KeyNodes (h : CMHIVE) (c : HCELL_INDEX) :
    (HvFreeCell h c).KeyNodes = h.KeyNodes := rfl

@[simp] theorem HvFreeCell_SecurityCells (h : CMHIVE) (c : HCELL_INDEX) :
    (HvFreeCell h c).SecurityCells = cmErase h.SecurityCells c := rfl

@[simp] theorem HvFreeCell_SecurityCache (h : CMHIVE) (c : HCELL_INDEX) :
    (HvFreeCell h c).SecurityCache = h.SecurityCache := rfl

@[simp] theorem HvFreeCell_SecurityHash (h : CMHIVE) (c : HCELL_INDEX) :
    (HvFreeCell h c).SecurityHash = h.SecurityHash := rfl

@[simp] theorem CmpRemoveFromSecurityCache_KeyNodes (h : CMHIVE) (c : HCELL_INDEX) :
    (CmpRemoveFromSecurityCache h c).KeyNodes = h.KeyNodes := rfl

@[simp] theorem CmpRemoveFromSecurityCache_SecurityCells (h : CMHIVE) (c : HCELL_INDEX) :
    (CmpRemoveFromSecurityCache h c).SecurityCells = h.SecurityCells := rfl

@[simp] theorem CmpRemoveFromSecurityCache_SecurityCache (h : CMHIVE) (c : HCELL_INDEX) :
    (CmpRemoveFromSecurityCache h c).SecurityCache = cmErase h.SecurityCache c := rfl

@[simp] theorem CmpRemoveFromSecurityCache_SecurityHash (h : CMHIVE) (c : HCELL_INDEX) :
    (CmpRemoveFromSecurityCache h c).SecurityHash = CmpRemoveEntryList h.SecurityHash c := rfl

/-- The matching routine reads the cache and the hash table only. -/
theorem CmpFindMatchingDescriptorCell_congr (env : Env) (h1 h2 : CMHIVE) (d : List Nat)
    (t : Nat) (hc : h1.SecurityCache = h2.SecurityCache)
    (hh : h1.SecurityHash = h2.SecurityHash) :
    CmpFindMatchingDescriptorCell env h1 d t = CmpFindMatchingDescriptorCell env h2 d t := by
  simp [CmpFindMatchingDescriptorCell, SecurityHashBucket, hc, hh]

theorem HvMarkCellDirty_eq_some (env : Env) (h h1 : CMHIVE) (c : HCELL_INDEX)
    (hd : HvMarkCellDirty env h c = some h1) :
    env.DirtyOk c = true ∧ h1 = { h with Log := CellEvent.Dirty c :: h.Log } := by
  unfold HvMarkCellDirty at hd
  split at hd
  · rename_i hc
    exact ⟨hc, by injection hd with hd; exact hd.symm⟩
  · exact absurd hd (by simp)

theorem NT_SUCCESS_STATUS_SUCCESS : NT_SUCCESS STATUS_SUCCESS = true := by decide

theorem NT_SUCCESS_INSUFFICIENT : NT_SUCCESS STATUS_INSUFFICIENT_RESOURCES = false := by decide

theorem STATUS_INSUFFICIENT_RESOURCES_ne : STATUS_INSUFFICIENT_RESOURCES ≠ STATUS_SUCCESS := by
  decide

theorem STATUS_NO_LOG_SPACE_ne : STATUS_NO_LOG_SPACE ≠ STATUS_SUCCESS := by decide

theorem not_NT_SUCCESS_ne (s : NTSTATUS) (h : NT_SUCCESS s = false) : s ≠ STATUS_SUCCESS := by
  intro hs
  subst hs
  simp [NT_SUCCESS_STATUS_SUCCESS] at h

@[simp] theorem Dirtied_KeyNodes (h : CMHIVE) (c : HCELL_INDEX) :
    (Dirtied h c).KeyNodes = h.KeyNodes := rfl

@[simp] theorem Dirtied_SecurityCells (h : CMHIVE) (c : HCELL_INDEX) :
    (Dirtied h c).SecurityCells = h.SecurityCells := rfl

@[simp] theorem Dirtied_SecurityCache (h : CMHIVE) (c : HCELL_INDEX) :
    (Dirtied h c).SecurityCache = h.SecurityCache := rfl

@[simp] theorem Dirtied_SecurityHash (h : CMHIVE) (c : HCELL_INDEX) :
    (Dirtied h c).SecurityHash = h.SecurityHash := rfl

@[simp] theorem WithNewCell_KeyNodes (h : CMHIVE) (n sz : Nat) :
    (WithNewCell h n sz).KeyNodes = h.KeyNodes := rfl

@[simp] theorem WithNewCell_SecurityCells (h : CMHIVE) (n sz : Nat) :
    (WithNewCell h n sz).SecurityCells =
      (n, { Signature := 0, Flink := 0, Blink := 0, ReferenceCount := 0, DescriptorLength := 0,
            Descriptor := List.replicate (sz - CM_KEY_SECURITY_HEADER) 0 })
        :: h.SecurityCells := rfl

@[simp] theorem WithNewCell_SecurityCache (h : CMHIVE) (n sz : Nat) :
    (WithNewCell h n sz).SecurityCache = h.SecurityCache := rfl

@[simp] theorem WithNewCell_SecurityHash (h : CMHIVE) (n sz : Nat) :
    (WithNewCell h n sz).SecurityHash = h.SecurityHash := rfl

theorem HvMarkCellDirty_of_ok (env : Env) (h : CMHIVE) (c : HCELL_INDEX)
    (hd : env.DirtyOk c = true) : HvMarkCellDirty env h c = some (Dirtied h c) := by
  simp [HvMarkCellDirty, hd, Dirtied]

theorem HvMarkCellDirty_of_not_ok (env : Env) (h : CMHIVE) (c : HCELL_INDEX)
    (hd : env.DirtyOk c = false) : HvMarkCellDirty env h c = none := by
  simp [HvMarkCellDirty, hd]

theorem HvAllocateCell_of_free (env : Env) (h : CMHIVE) (sz t : Nat)
    (hf : CellIsFree h (env.AllocIndex sz t) t = true) :
    HvAllocateCell env h sz t = (env.AllocIndex sz t, WithNewCell h (env.AllocIndex sz t) sz) := by
  simp [HvAllocateCell, hf, WithNewCell]

theorem HvAllocateCell_of_not_free (env : Env) (h : CMHIVE) (sz t : Nat)
    (hf : CellIsFree h (env.AllocIndex sz t) t = false) :
    HvAllocateCell env h sz t = (HCELL_NIL, h) := by
  simp [HvAllocateCell, hf]

theorem HvGetCellSecurity_of_ok (env : Env) (h : CMHIVE) (c : HCELL_INDEX)
    (hm : env.MapOk c = true) : HvGetCellSecurity env h c = cmGet h.SecurityCells c := by
  simp [HvGetCellSecurity, hm]

theorem HvGetCellSecurity_of_not_ok (env : Env) (h : CMHIVE) (c : HCELL_INDEX)
    (hm : env.MapOk c = false) : HvGetCellSecurity env h c = none := by
  simp [HvGetCellSecurity, hm]

theorem HvGetCellNode_of_ok (env : Env) (h : CMHIVE) (c : HCELL_INDEX)
    (hm : env.MapOk c = true) : HvGetCellNode env h c = cmGet h.KeyNodes c := by
  simp [HvGetCellNode, hm]

theorem HvGetCellNode_of_not_ok (env : Env) (h : CMHIVE) (c : HCELL_INDEX)
    (hm : env.MapOk c = false) : HvGetCellNode env h c = none := by
  simp [HvGetCellNode, hm]

theorem Outcome_insufficient_ne :
    Outcome.Returned STATUS_INSUFFICIENT_RESOURCES ≠ Outcome.Returned STATUS_SUCCESS := by
  decide

theorem Outcome_no_log_space_ne :
    Outcome.Returned STATUS_NO_LOG_SPACE ≠ Outcome.Returned STATUS_SUCCESS := by
  decide

theorem Outcome_bugcheck_ne (a b : Nat) :
    Outcome.BugCheck a b ≠ Outcome.Returned STATUS_SUCCESS := by
  intro h; cases h

theorem cmGet_cmModify_eq_none {α : Type} (m : List (HCELL_INDEX × α)) (c : HCELL_INDEX)
    (f : α → α) (k : HCELL_INDEX) : cmGet (cmModify m c f) k = none ↔ cmGet m k = none := by
  rw [cmGet_cmModify]
  by_cases hk : k = c
  · subst hk
    simp
  · simp [hk]

theorem cmGet_mem {α : Type} (m : List (HCELL_INDEX × α)) (c : HCELL_INDEX) (v : α)
    (h : cmGet m c = some v) : (c, v) ∈ m := by
  induction m with
  | nil => simp at h
  | cons e t ih =>
    obtain ⟨a, w⟩ := e
    by_cases hac : a = c
    · subst hac
      simp [cmGet_cons] at h
      subst h
      simp
    · simp [cmGet_cons, hac] at h
      exact List.mem_cons_of_mem _ (ih h)

/-- Ring link consistency, checked entry by entry. -/
theorem RingLinked_of_forall_mem (h : CMHIVE)
    (H : ∀ e ∈ h.SecurityCells,
      (cmGet h.SecurityCells e.2.Flink).map CM_KEY_SECURITY.Blink = some e.1 ∧
      (cmGet h.SecurityCells e.2.Blink).map CM_KEY_SECURITY.Flink = some e.1) :
    RingLinked h := by
  intro c S hc
  obtain ⟨h1, h2⟩ := H _ (cmGet_mem _ _ _ hc)
  constructor
  · cases hF : cmGet h.SecurityCells S.Flink with
    | none => simp [hF] at h1
    | some F => exact ⟨F, rfl, by simpa [hF] using h1⟩
  · cases hB : cmGet h.SecurityCells S.Blink with
    | none => simp [hB] at h2
    | some B => exact ⟨B, rfl, by simpa [hB] using h2⟩



@[simp] theorem SetSecurityDirtied_KeyNodes (h : CMHIVE) (k : CM_KEY_CONTROL_BLOCK)
    (c : HCELL_INDEX) : (SetSecurityDirtied h k c).KeyNodes = h.KeyNodes := rfl

@[simp] theorem SetSecurityDirtied_SecurityCells (h : CMHIVE) (k : CM_KEY_CONTROL_BLOCK)
    (c : HCELL_INDEX) : (SetSecurityDirtied h k c).SecurityCells = h.SecurityCells := rfl

@[simp] theorem SetSecurityDirtied_SecurityCache (h : CMHIVE) (k : CM_KEY_CONTROL_BLOCK)
    (c : HCELL_INDEX) : (SetSecurityDirtied h k c).SecurityCache = h.SecurityCache := rfl

@[simp] theorem SetSecurityDirtied_SecurityHash (h : CMHIVE) (k : CM_KEY_CONTROL_BLOCK)
    (c : HCELL_INDEX) : (SetSecurityDirtied h k c).SecurityHash = h.SecurityHash := rfl

/-- When every step before line 614 succeeds, the set routine is its store step. -/
theorem CmpSetSecurityDescriptorInfo_eq_store (env : Env) (h : CMHIVE)
    (Key : CM_KEY_CONTROL_BLOCK) (info : Nat) (md : List Nat)
    (Node : CM_KEY_NODE) (S : CM_KEY_SECURITY)
    (hnode : cmGet h.KeyNodes Key.KeyCell = some Node)
    (hsec : cmGet h.SecurityCells Node.Security = some S)
    (hmapN : env.MapOk Key.KeyCell = true) (htrackN : env.TrackOk Key.KeyCell = true)
    (hmapS : env.MapOk Node.Security = true) (htrackS : env.TrackOk Node.Security = true)
    (hmerge : NT_SUCCESS (env.SeSetSecurityDescriptorInfo info md S.Descriptor).1 = true)
    (hdirtyN : env.DirtyOk Key.KeyCell = true) (hdirtyS : env.DirtyOk Node.Security = true) :
    CmpSetSecurityDescriptorInfo env h Key info md =
      SetSecurityStore env (SetSecurityDirtied h Key Node.Security) Key Node.Security S
        (env.SeSetSecurityDescriptorInfo info md S.Descriptor).2 := by
  simp [CmpSetSecurityDescriptorInfo, HvGetCellNode, CmpGetKeySecurity, HvGetCellSecurity,
    HvMarkCellDirty, hnode, hsec, hmapN, htrackN, hmapS, htrackS, hmerge, hdirtyN, hdirtyS,
    SetSecurityDirtied]

/-- A successful set went through every step before line 614. -/
theorem CmpSetSecurityDescriptorInfo_of_success (env : Env) (h : CMHIVE)
    (Key : CM_KEY_CONTROL_BLOCK) (info : Nat) (md : List Nat)
    (hok : (CmpSetSecurityDescriptorInfo env h Key info md).Status
      = Outcome.Returned STATUS_SUCCESS) :
    ∃ Node S, cmGet h.KeyNodes Key.KeyCell = some Node ∧
      cmGet h.SecurityCells Node.Security = some S ∧
      env.MapOk Key.KeyCell = true ∧ env.MapOk Node.Security = true ∧
      env.DirtyOk Key.KeyCell = true ∧ env.DirtyOk Node.Security = true ∧
      CmpSetSecurityDescriptorInfo env h Key info md =
        SetSecurityStore env (SetSecurityDirtied h Key Node.Security) Key Node.Security S
          (env.SeSetSecurityDescriptorInfo info md S.Descriptor).2 := by
  have hI := STATUS_INSUFFICIENT_RESOURCES_ne
  have hL := STATUS_NO_LOG_SPACE_ne
  cases hmapN : env.MapOk Key.KeyCell with
  | false => simp [CmpSetSecurityDescriptorInfo, HvGetCellNode, hmapN, hI] at hok
  | true =>
  cases hnode : cmGet h.KeyNodes Key.KeyCell with
  | none => simp [CmpSetSecurityDescriptorInfo, HvGetCellNode, hmapN, hnode, hI] at hok
  | some Node =>
  cases htrackN : env.TrackOk Key.KeyCell with
  | false => simp [CmpSetSecurityDescriptorInfo, HvGetCellNode, hmapN, hnode, htrackN, hI] at hok
  | true =>
  cases hmapS : env.MapOk Node.Security with
  | false =>
    simp [CmpSetSecurityDescriptorInfo, HvGetCellNode, CmpGetKeySecurity, HvGetCellSecurity,
      hmapN, hnode, htrackN, hmapS, hI] at hok
  | true =>
  cases hsec : cmGet h.SecurityCells Node.Security with
  | none =>
    simp [CmpSetSecurityDescriptorInfo, HvGetCellNode, CmpGetKeySecurity, HvGetCellSecurity,
      hmapN, hnode, htrackN, hmapS, hsec, hI] at hok
  | some S =>
  cases htrackS : env.TrackOk Node.Security with
  | false =>
    simp [CmpSetSecurityDescriptorInfo, HvGetCellNode, CmpGetKeySecurity, HvGetCellSecurity,
      hmapN, hnode, htrackN, hmapS, hsec, htrackS, hI] at hok
  | true =>
  cases hmerge : NT_SUCCESS (env.SeSetSecurityDescriptorInfo info md S.Descriptor).1 with
  | false =>
    simp [CmpSetSecurityDescriptorInfo, HvGetCellNode, CmpGetKeySecurity, HvGetCellSecurity,
      hmapN, hnode, htrackN, hmapS, hsec, htrackS, hmerge] at hok
    exact absurd hok (not_NT_SUCCESS_ne _ hmerge)
  | true =>
  cases hdirtyN : env.DirtyOk Key.KeyCell with
  | false =>
    simp [CmpSetSecurityDescriptorInfo, HvGetCellNode, CmpGetKeySecurity, HvGetCellSecurity,
      HvMarkCellDirty, hmapN, hnode, htrackN, hmapS, hsec, htrackS, hmerge, hdirtyN, hL] at hok
  | true =>
  cases hdirtyS : env.DirtyOk Node.Security with
  | false =>
    simp [CmpSetSecurityDescriptorInfo, HvGetCellNode, CmpGetKeySecurity, HvGetCellSecurity,
      HvMarkCellDirty, hmapN, hnode, htrackN, hmapS, hsec, htrackS, hmerge, hdirtyN, hdirtyS,
      hL] at hok
  | true =>
    exact ⟨Node, S, rfl, hsec, rfl, hmapS, rfl, hdirtyS,
      CmpSetSecurityDescriptorInfo_eq_store env h Key info md Node S hnode hsec hmapN htrackN
        hmapS htrackS hmerge hdirtyN hdirtyS⟩

@[simp] theorem CmpFindMatchingDescriptorCell_SetSecurityDirtied (env : Env) (h : CMHIVE)
    (k : CM_KEY_CONTROL_BLOCK) (c : HCELL_INDEX) (d : List Nat) (t : Nat) :
    CmpFindMatchingDescriptorCell env (SetSecurityDirtied h k c) d t
      = CmpFindMatchingDescriptorCell env h d t :=
  CmpFindMatchingDescriptorCell_congr env _ _ d t rfl rfl

/-- What a set that reached its common end leaves behind. -/
theorem SetSecurityDone_of_success (env : Env) (H : CMHIVE) (Key : CM_KEY_CONTROL_BLOCK)
    (c : HCELL_INDEX)
    (hok : (SetSecurityDone env H Key c).Status = Outcome.Returned STATUS_SUCCESS) :
    (cmGet H.SecurityCache c).isSome = true ∧
    (SetSecurityDone env H Key c).Hive =
      WriteNode H Key.KeyCell (fun Node => { Node with LastWriteTime := env.SystemTime }) ∧
    (SetSecurityDone env H Key c).Kcb =
      { Key with KcbLastWriteTime := env.SystemTime, CachedSecurity := some c } := by
  cases hc : cmGet H.SecurityCache c with
  | none =>
    simp [SetSecurityDone, CmpAssignSecurityToKcb, CmpFindSecurityCellCacheIndex, hc] at hok
  | some e =>
    simp [SetSecurityDone, CmpAssignSecurityToKcb, CmpFindSecurityCellCacheIndex, hc]


theorem RtlCopyMemory_exact (dst src : List Nat) (hlen : dst.length ≤ src.length) :
    RtlCopyMemory dst src (RtlLengthSecurityDescriptor src) = src := by
  simp [RtlCopyMemory, RtlLengthSecurityDescriptor, List.drop_eq_nil_iff, hlen]

/-- What a successful in-place overwrite leaves behind. -/
theorem SetSecurityInPlace_of_success (env : Env) (H : CMHIVE) (Key : CM_KEY_CONTROL_BLOCK)
    (c : HCELL_INDEX) (D : List Nat)
    (hok : (SetSecurityInPlace env H Key c D).Status = Outcome.Returned STATUS_SUCCESS) :
    (cmGet H.SecurityCache c).isSome = true ∧
    (SetSecurityInPlace env H Key c D).Hive.KeyNodes =
      cmModify H.KeyNodes Key.KeyCell (fun N => { N with LastWriteTime := env.SystemTime }) ∧
    (SetSecurityInPlace env H Key c D).Hive.SecurityCells =
      cmModify H.SecurityCells c
        (fun S =>
          { S with
            Descriptor := RtlCopyMemory S.Descriptor D (RtlLengthSecurityDescriptor D) }) ∧
    (SetSecurityInPlace env H Key c D).Hive.SecurityCache =
      cmModify H.SecurityCache c
        (fun Cached =>
          { Cached with
            Descriptor := RtlCopyMemory Cached.Descriptor D (RtlLengthSecurityDescriptor D),
            ConvKey := env.CmpSecConvKey (RtlLengthSecurityDescriptor D) D }) ∧
    (SetSecurityInPlace env H Key c D).Hive.SecurityHash =
      InsertTailList (CmpRemoveEntryList H.SecurityHash c)
        (env.CmpSecConvKey (RtlLengthSecurityDescriptor D) D % env.CmpSecHashTableSize) c ∧
    (SetSecurityInPlace env H Key c D).Kcb =
      { Key with KcbLastWriteTime := env.SystemTime, CachedSecurity := some c } := by
  cases hc : cmGet H.SecurityCache c with
  | none => simp [SetSecurityInPlace, CmpFindSecurityCellCacheIndex, hc] at hok
  | some e =>
    simp only [SetSecurityInPlace, CmpFindSecurityCellCacheIndex, hc] at hok ⊢
    obtain ⟨_, h2, h3⟩ := SetSecurityDone_of_success env _ Key c hok
    rw [h2, h3]
    simp

/-- The in-place branch of a successful set, as list updates of the hive. -/
theorem set_in_place_effect (env : Env) (h : CMHIVE) (Key : CM_KEY_CONTROL_BLOCK)
    (info : Nat) (md : List Nat) (Node : CM_KEY_NODE) (S : CM_KEY_SECURITY) (D : List Nat)
    (hnode : cmGet h.KeyNodes Key.KeyCell = some Node)
    (hsec : cmGet h.SecurityCells Node.Security = some S)
    (hD : (env.SeSetSecurityDescriptorInfo info md S.Descriptor).2 = D)
    (hnomatch : CmpFindMatchingDescriptorCell env h D (HvGetCellType Key.KeyCell) = none)
    (hrc : ¬ 1 < S.ReferenceCount)
    (hlen : RtlLengthSecurityDescriptor D = S.DescriptorLength)
    (hok : (CmpSetSecurityDescriptorInfo env h Key info md).Status
      = Outcome.Returned STATUS_SUCCESS) :
    (cmGet h.SecurityCache Node.Security).isSome = true ∧
    (CmpSetSecurityDescriptorInfo env h Key info md).Hive.KeyNodes =
      cmModify h.KeyNodes Key.KeyCell (fun N => { N with LastWriteTime := env.SystemTime }) ∧
    (CmpSetSecurityDescriptorInfo env h Key info md).Hive.SecurityCells =
      cmModify h.SecurityCells Node.Security
        (fun X =>
          { X with
            Descriptor := RtlCopyMemory X.Descriptor D (RtlLengthSecurityDescriptor D) }) ∧
    (CmpSetSecurityDescriptorInfo env h Key info md).Hive.SecurityCache =
      cmModify h.SecurityCache Node.Security
        (fun Cached =>
          { Cached with
            Descriptor := RtlCopyMemory Cached.Descriptor D (RtlLengthSecurityDescriptor D),
            ConvKey := env.CmpSecConvKey (RtlLengthSecurityDescriptor D) D }) ∧
    (CmpSetSecurityDescriptorInfo env h Key info md).Hive.SecurityHash =
      InsertTailList (CmpRemoveEntryList h.SecurityHash Node.Security)
        (env.CmpSecConvKey (RtlLengthSecurityDescriptor D) D % env.CmpSecHashTableSize)
        Node.Security ∧
    (CmpSetSecurityDescriptorInfo env h Key info md).Kcb =
      { Key with KcbLastWriteTime := env.SystemTime,
                 CachedSecurity := some Node.Security } := by
  obtain ⟨Node', S', hnode', hsec', _, _, _, _, heq⟩ :=
    CmpSetSecurityDescriptorInfo_of_success env h Key info md hok
  rw [hnode] at hnode'
  cases hnode'
  rw [hsec] at hsec'
  cases hsec'
  rw [hD] at heq
  have hst : SetSecurityStore env (SetSecurityDirtied h Key Node.Security) Key Node.Security S D
      = SetSecurityInPlace env (SetSecurityDirtied h Key Node.Security) Key Node.Security D := by
    simp [SetSecurityStore, hnomatch, hrc, hlen]
  rw [heq, hst] at hok ⊢
  simpa using SetSecurityInPlace_of_success env _ Key Node.Security D hok

/-- One in-place set, stated on lookups. -/
theorem set_in_place_outcome (env : Env) (h : CMHIVE) (Key : CM_KEY_CONTROL_BLOCK)
    (info : Nat) (md : List Nat) (Node : CM_KEY_NODE) (S : CM_KEY_SECURITY)
    (e : CM_KEY_SECURITY_CACHE) (D : List Nat)
    (hnode : cmGet h.KeyNodes Key.KeyCell = some Node)
    (hsec : cmGet h.SecurityCells Node.Security = some S)
    (hcache : cmGet h.SecurityCache Node.Security = some e)
    (hshadow : e.Descriptor = S.Descriptor)
    (hwf : S.Descriptor.length = S.DescriptorLength)
    (hD : (env.SeSetSecurityDescriptorInfo info md S.Descriptor).2 = D)
    (hnomatch : CmpFindMatchingDescriptorCell env h D (HvGetCellType Key.KeyCell) = none)
    (hrc : ¬ 1 < S.ReferenceCount)
    (hlen : RtlLengthSecurityDescriptor D = S.DescriptorLength)
    (hok : (CmpSetSecurityDescriptorInfo env h Key info md).Status
      = Outcome.Returned STATUS_SUCCESS) :
    InPlaceOutcome env h Key.KeyCell Node.Security D
      (CmpSetSecurityDescriptorInfo env h Key info md).Hive := by
  obtain ⟨_, hN, hC, hK, hH, _⟩ :=
    set_in_place_effect env h Key info md Node S D hnode hsec hD hnomatch hrc hlen hok
  have hle : S.Descriptor.length ≤ D.length := by
    have : D.length = S.DescriptorLength := hlen
    omega
  have hcopy : RtlCopyMemory S.Descriptor D (RtlLengthSecurityDescriptor D) = D :=
    RtlCopyMemory_exact _ _ hle
  have hcopy' : RtlCopyMemory e.Descriptor D (RtlLengthSecurityDescriptor D) = D := by
    rw [hshadow]; exact hcopy
  refine ⟨?_, ?_, ?_, ?_⟩
  · rw [hN, cmGet_cmModify]
    simp [hnode]
  · intro c
    rw [hC, cmGet_cmModify]
    by_cases hc : c = Node.Security
    · subst hc
      simp [hsec, hcopy]
    · simp [hc]
  · refine ⟨e, hcache, ?_⟩
    rw [hK, cmGet_cmModify]
    simp [hcache, hcopy']
  · intro b
    rw [hH]
    simp [InsertTailList, CmpRemoveEntryList]

/-- What a successful addition to the security cache leaves behind. -/
theorem CmpAddSecurityCellToCache_of_success (env : Env) (H : CMHIVE) (c : HCELL_INDEX)
    (hok : NT_SUCCESS (CmpAddSecurityCellToCache env H c).1 = true) :
    ∃ S, cmGet H.SecurityCells c = some S ∧ env.MapOk c = true ∧
      (CmpAddSecurityCellToCache env H c).2.KeyNodes = H.KeyNodes ∧
      (CmpAddSecurityCellToCache env H c).2.SecurityCells = H.SecurityCells ∧
      (CmpAddSecurityCellToCache env H c).2.SecurityCache =
        (c, SecurityCacheEntry env c S) :: cmErase H.SecurityCache c ∧
      (CmpAddSecurityCellToCache env H c).2.SecurityHash =
        InsertTailList (CmpRemoveEntryList H.SecurityHash c)
          ((SecurityCacheEntry env c S).ConvKey % env.CmpSecHashTableSize) c := by
  have hI := NT_SUCCESS_INSUFFICIENT
  cases hm : env.MapOk c with
  | false => simp [CmpAddSecurityCellToCache, HvGetCellSecurity, hm, hI] at hok
  | true =>
  cases hs : cmGet H.SecurityCells c with
  | none => simp [CmpAddSecurityCellToCache, HvGetCellSecurity, hm, hs, hI] at hok
  | some S =>
  cases hp : env.PoolOk c with
  | false => simp [CmpAddSecurityCellToCache, HvGetCellSecurity, hm, hs, hp, hI] at hok
  | true =>
    exact ⟨S, rfl, rfl, by simp [CmpAddSecurityCellToCache, HvGetCellSecurity, hm, hs, hp]⟩

/-- What a successful allocation leaves behind. -/
theorem HvAllocateCell_ne_nil (env : Env) (H : CMHIVE) (sz t : Nat)
    (hne : (HvAllocateCell env H sz t).1 ≠ HCELL_NIL) :
    CellIsFree H (env.AllocIndex sz t) t = true ∧
    (HvAllocateCell env H sz t).1 = env.AllocIndex sz t ∧
    (HvAllocateCell env H sz t).2.KeyNodes = H.KeyNodes ∧
    (HvAllocateCell env H sz t).2.SecurityCells =
      (env.AllocIndex sz t,
        { Signature := 0, Flink := 0, Blink := 0, ReferenceCount := 0, DescriptorLength := 0,
          Descriptor := List.replicate (sz - CM_KEY_SECURITY_HEADER) 0 }) :: H.SecurityCells ∧
    (HvAllocateCell env H sz t).2.SecurityCache = H.SecurityCache ∧
    (HvAllocateCell env H sz t).2.SecurityHash = H.SecurityHash := by
  cases hf : CellIsFree H (env.AllocIndex sz t) t with
  | false => simp [HvAllocateCell, hf] at hne
  | true => simp [HvAllocateCell, hf]

theorem CellIsFree_spec (H : CMHIVE) (c : HCELL_INDEX) (t : Nat)
    (hf : CellIsFree H c t = true) :
    c < HCELL_NIL ∧ HvGetCellType c = t ∧ cmGet H.SecurityCells c = none ∧
      cmGet H.KeyNodes c = none := by
  simpa [CellIsFree, and_assoc] using hf
/-- What a successful copy-on-write branch leaves behind. -/
theorem SetSecurityCopyOnWrite_of_success (env : Env) (H : CMHIVE) (Key : CM_KEY_CONTROL_BLOCK)
    (SC : HCELL_INDEX) (S F : CM_KEY_SECURITY) (D : List Nat) (N : HCELL_INDEX)
    (hN : env.AllocIndex (SECURITY_CELL_LENGTH D) (HvGetCellType Key.KeyCell) = N)
    (hS : cmGet H.SecurityCells SC = some S)
    (hF : cmGet H.SecurityCells S.Flink = some F)
    (hok : (SetSecurityCopyOnWrite env H Key SC S D).Status = Outcome.Returned STATUS_SUCCESS) :
    CellIsFree H N (HvGetCellType Key.KeyCell) = true ∧
    (∃ X, cmGet (CopyOnWriteCells H.SecurityCells N SC S D) N = some X ∧
      (SetSecurityCopyOnWrite env H Key SC S D).Hive.SecurityCache =
        (N, SecurityCacheEntry env N X) :: cmErase H.SecurityCache N ∧
      (SetSecurityCopyOnWrite env H Key SC S D).Hive.SecurityHash =
        InsertTailList (CmpRemoveEntryList H.SecurityHash N)
          ((SecurityCacheEntry env N X).ConvKey % env.CmpSecHashTableSize) N) ∧
    (SetSecurityCopyOnWrite env H Key SC S D).Hive.KeyNodes =
      cmModify (cmModify H.KeyNodes Key.KeyCell (fun Node => { Node with Security := N }))
        Key.KeyCell (fun Node => { Node with LastWriteTime := env.SystemTime }) ∧
    (SetSecurityCopyOnWrite env H Key SC S D).Hive.SecurityCells =
      CopyOnWriteCells H.SecurityCells N SC S D ∧
    (SetSecurityCopyOnWrite env H Key SC S D).Kcb =
      { Key with KcbLastWriteTime := env.SystemTime, CachedSecurity := some N } := by
  have hI := Outcome_insufficient_ne
  have hL := Outcome_no_log_space_ne
  cases hfree : CellIsFree H N (HvGetCellType Key.KeyCell) with
  | false => simp [SetSecurityCopyOnWrite, HvAllocateCell, hN, hfree, hI] at hok
  | true =>
  obtain ⟨hlt, _, hnone, _⟩ := CellIsFree_spec H N _ hfree
  have hNnil : N ≠ HCELL_NIL := Nat.ne_of_lt hlt
  have hNS : N ≠ SC := by
    intro h; rw [h, hS] at hnone; cases hnone
  have hNF : N ≠ S.Flink := by
    intro h; rw [h, hF] at hnone; cases hnone
  have hSN : SC ≠ N := fun h => hNS h.symm
  have hFN : S.Flink ≠ N := fun h => hNF h.symm
  have hA := HvAllocateCell_of_free env H (SECURITY_CELL_LENGTH D) (HvGetCellType Key.KeyCell)
    (by rw [hN]; exact hfree)
  rw [hN] at hA
  cases hd : env.DirtyOk S.Flink with
  | false =>
    simp [SetSecurityCopyOnWrite, hA, hNnil, HvMarkCellDirty_of_not_ok _ _ _ hd, hL] at hok
  | true =>
  have hD1 := fun h => HvMarkCellDirty_of_ok env h _ hd
  cases hm : env.MapOk N with
  | false =>
    simp [SetSecurityCopyOnWrite, hA, hNnil, hD1, HvGetCellSecurity_of_not_ok _ _ _ hm, hI]
      at hok
  | true =>
  have hG1 := fun h => HvGetCellSecurity_of_ok env h _ hm
  cases ht : env.TrackOk N with
  | false =>
    simp [SetSecurityCopyOnWrite, hA, hNnil, hD1, hG1, cmGet_cmModify, cmGet_cons, hNS, ht, hI]
      at hok
  | true =>
  cases hm2 : env.MapOk S.Flink with
  | false =>
    simp [SetSecurityCopyOnWrite, hA, hNnil, hD1, hG1, cmGet_cmModify, cmGet_cons, hNS, ht,
      HvGetCellSecurity_of_not_ok _ _ _ hm2, hI] at hok
  | true =>
  have hG2 := fun h => HvGetCellSecurity_of_ok env h _ hm2
  by_cases hFS : S.Flink = SC
  · cases ht2 : env.TrackOk S.Flink with
    | false =>
      simp [SetSecurityCopyOnWrite, hA, hNnil, hD1, hG1, hG2, cmGet_cmModify, cmGet_cons,
        hNF, hFN, hF, hFS.symm, ht, ht2, hI] at hok
    | true =>
    cases hp : env.PoolOk N with
    | false =>
      simp [SetSecurityCopyOnWrite, hA, hNnil, hD1, hG1, hG2, cmGet_cmModify, cmGet_cons,
        hNF, hFN, hF, hFS.symm, ht, ht2, hI, CmpAddSecurityCellToCache, hp,
        NT_SUCCESS_INSUFFICIENT] at hok
    | true =>
      refine ⟨rfl, ?_⟩
      simp [SetSecurityCopyOnWrite, hA, hNnil, hD1, hG1, hG2, cmGet_cmModify, cmGet_cons,
        hNF, hFN, hF, hFS.symm, ht, ht2, CmpAddSecurityCellToCache, hp,
        NT_SUCCESS_STATUS_SUCCESS, SetSecurityDone, CmpAssignSecurityToKcb,
        CmpFindSecurityCellCacheIndex, CopyOnWriteCells]
  · cases ht2 : env.TrackOk S.Flink with
    | false =>
      simp [SetSecurityCopyOnWrite, hA, hNnil, hD1, hG1, hG2, cmGet_cmModify, cmGet_cons,
        hNF, hFN, hF, hFS, hNS, hSN, hS, ht, ht2, hI] at hok
    | true =>
    cases hp : env.PoolOk N with
    | false =>
      simp [SetSecurityCopyOnWrite, hA, hNnil, hD1, hG1, hG2, cmGet_cmModify, cmGet_cons,
        hNF, hFN, hF, hFS, hNS, hSN, hS, ht, ht2, hI, CmpAddSecurityCellToCache, hp,
        NT_SUCCESS_INSUFFICIENT] at hok
    | true =>
      refine ⟨rfl, ?_⟩
      simp [SetSecurityCopyOnWrite, hA, hNnil, hD1, hG1, hG2, cmGet_cmModify, cmGet_cons,
        hNF, hFN, hF, hFS, hNS, hSN, hS, ht, ht2, CmpAddSecurityCellToCache, hp,
        NT_SUCCESS_STATUS_SUCCESS, SetSecurityDone, CmpAssignSecurityToKcb,
        CmpFindSecurityCellCacheIndex, CopyOnWriteCells]

/-- The security cells after the copy-on-write branch, cell by cell. -/
theorem cmGet_CopyOnWriteCells (cells : List (HCELL_INDEX × CM_KEY_SECURITY))
    (N SC : HCELL_INDEX) (S F : CM_KEY_SECURITY) (D : List Nat)
    (hN : cmGet cells N = none) (hS : cmGet cells SC = some S)
    (hF : cmGet cells S.Flink = some F) (c : HCELL_INDEX) :
    cmGet (CopyOnWriteCells cells N SC S D) c =
      if c = N then
        some { Signature := CM_KEY_SECURITY_SIGNATURE, Flink := S.Flink, Blink := SC,
               ReferenceCount := 1, DescriptorLength := RtlLengthSecurityDescriptor D,
               Descriptor := D }
      else
        (cmGet cells c).map (fun X =>
          { X with
            ReferenceCount := if c = SC then ULONG_DEC X.ReferenceCount else X.ReferenceCount,
            Flink := if c = SC then N else X.Flink,
            Blink := if c = S.Flink then N else X.Blink }) := by
  have hNS : N ≠ SC := by
    intro h; rw [h, hS] at hN; cases hN
  have hNF : N ≠ S.Flink := by
    intro h; rw [h, hF] at hN; cases hN
  have hSN : SC ≠ N := fun h => hNS h.symm
  have hFN : S.Flink ≠ N := fun h => hNF h.symm
  have hcopy : RtlCopyMemory
      (List.replicate (SECURITY_CELL_LENGTH D - CM_KEY_SECURITY_HEADER) 0) D
      (RtlLengthSecurityDescriptor D) = D := by
    apply RtlCopyMemory_exact
    simp [SECURITY_CELL_LENGTH, RtlLengthSecurityDescriptor]
  by_cases hcN : c = N
  · subst hcN
    simp [CopyOnWriteCells, cmGet_cmModify, cmGet_cons, hNS, hNF, hcopy]
  · have hNc : ¬ N = c := fun h => hcN h.symm
    by_cases hcS : c = SC
    · subst hcS
      by_cases hFS : S.Flink = c
      · simp [CopyOnWriteCells, cmGet_cmModify, cmGet_cons, hcN, hNc, hFS, hS]
      · have hSF : ¬ c = S.Flink := fun h => hFS h.symm
        simp [CopyOnWriteCells, cmGet_cmModify, cmGet_cons, hcN, hNc, hFS, hSF, hS]
    · by_cases hcF : c = S.Flink
      · subst hcF
        simp [CopyOnWriteCells, cmGet_cmModify, cmGet_cons, hcN, hNc, hcS, hF]
      · cases hc : cmGet cells c <;>
          simp [CopyOnWriteCells, cmGet_cmModify, cmGet_cons, hcN, hNc, hcS, hcF, hc]

theorem ULONG_DEC_eq (n : Nat) (h1 : 0 < n) (h2 : n < 4294967296) : ULONG_DEC n = n - 1 := by
  unfold ULONG_DEC
  omega

theorem ULONG_INC_eq (n : Nat) (h : n < 4294967295) : ULONG_INC n = n + 1 := by
  unfold ULONG_INC
  omega

/-- The copy-on-write branch of a successful set, as updates of the hive. -/
theorem set_copy_on_write_effect (env : Env) (h : CMHIVE) (Key : CM_KEY_CONTROL_BLOCK)
    (info : Nat) (md : List Nat) (Node : CM_KEY_NODE) (S F : CM_KEY_SECURITY) (D : List Nat)
    (N : HCELL_INDEX)
    (hnode : cmGet h.KeyNodes Key.KeyCell = some Node)
    (hsec : cmGet h.SecurityCells Node.Security = some S)
    (hflink : cmGet h.SecurityCells S.Flink = some F)
    (hD : (env.SeSetSecurityDescriptorInfo info md S.Descriptor).2 = D)
    (hN : env.AllocIndex (SECURITY_CELL_LENGTH D) (HvGetCellType Key.KeyCell) = N)
    (hnomatch : CmpFindMatchingDescriptorCell env h D (HvGetCellType Key.KeyCell) = none)
    (hshared : 1 < S.ReferenceCount)
    (hok : (CmpSetSecurityDescriptorInfo env h Key info md).Status
      = Outcome.Returned STATUS_SUCCESS) :
    CellIsFree h N (HvGetCellType Key.KeyCell) = true ∧
    (∃ X, cmGet (CopyOnWriteCells h.SecurityCells N Node.Security S D) N = some X ∧
      (CmpSetSecurityDescriptorInfo env h Key info md).Hive.SecurityCache =
        (N, SecurityCacheEntry env N X) :: cmErase h.SecurityCache N ∧
      (CmpSetSecurityDescriptorInfo env h Key info md).Hive.SecurityHash =
        InsertTailList (CmpRemoveEntryList h.SecurityHash N)
          ((SecurityCacheEntry env N X).ConvKey % env.CmpSecHashTableSize) N) ∧
    (CmpSetSecurityDescriptorInfo env h Key info md).Hive.KeyNodes =
      cmModify (cmModify h.KeyNodes Key.KeyCell (fun Node => { Node with Security := N }))
        Key.KeyCell (fun Node => { Node with LastWriteTime := env.SystemTime }) ∧
    (CmpSetSecurityDescriptorInfo env h Key info md).Hive.SecurityCells =
      CopyOnWriteCells h.SecurityCells N Node.Security S D ∧
    (CmpSetSecurityDescriptorInfo env h Key info md).Kcb =
      { Key with KcbLastWriteTime := env.SystemTime, CachedSecurity := some N } := by
  obtain ⟨Node', S', hnode', hsec', _, _, _, _, heq⟩ :=
    CmpSetSecurityDescriptorInfo_of_success env h Key info md hok
  rw [hnode] at hnode'
  cases hnode'
  rw [hsec] at hsec'
  cases hsec'
  rw [hD] at heq
  have hst : SetSecurityStore env (SetSecurityDirtied h Key Node.Security) Key Node.Security S D
      = SetSecurityCopyOnWrite env (SetSecurityDirtied h Key Node.Security) Key Node.Security
          S D := by
    simp [SetSecurityStore, hnomatch, hshared]
  rw [heq, hst] at hok ⊢
  have := SetSecurityCopyOnWrite_of_success env (SetSecurityDirtied h Key Node.Security) Key
    Node.Security S F D N hN (by simpa using hsec) (by simpa using hflink) hok
  simpa [CellIsFree] using this


/-- What a successful repointing of the node leaves behind. -/
theorem SetSecurityRepoint_of_success (env : Env) (H : CMHIVE) (Key : CM_KEY_CONTROL_BLOCK)
    (M : HCELL_INDEX)
    (hok : (SetSecurityRepoint env H Key M).Status = Outcome.Returned STATUS_SUCCESS) :
    env.MapOk M = true ∧ (cmGet H.SecurityCells M).isSome = true ∧
    (cmGet H.SecurityCache M).isSome = true ∧
    (SetSecurityRepoint env H Key M).Hive =
      WriteNode
        (WriteNode
          (WriteSecurity H M
            (fun Security =>
              { Security with ReferenceCount := ULONG_INC Security.ReferenceCount }))
          Key.KeyCell (fun Node => { Node with Security := M }))
        Key.KeyCell (fun Node => { Node with LastWriteTime := env.SystemTime }) ∧
    (SetSecurityRepoint env H Key M).Kcb =
      { Key with KcbLastWriteTime := env.SystemTime, CachedSecurity := some M } := by
  have hI := Outcome_insufficient_ne
  cases hm : env.MapOk M with
  | false => simp [SetSecurityRepoint, HvGetCellSecurity_of_not_ok _ _ _ hm, hI] at hok
  | true =>
  cases hc : cmGet H.SecurityCells M with
  | none => simp [SetSecurityRepoint, HvGetCellSecurity_of_ok _ _ _ hm, hc, hI] at hok
  | some X =>
  cases ht : env.TrackOk M with
  | false => simp [SetSecurityRepoint, HvGetCellSecurity_of_ok _ _ _ hm, hc, ht, hI] at hok
  | true =>
    simp only [SetSecurityRepoint, HvGetCellSecurity_of_ok _ _ _ hm, hc, ht, if_true] at hok ⊢
    obtain ⟨h1, h2, h3⟩ := SetSecurityDone_of_success env _ Key M hok
    rw [h2, h3]
    exact ⟨trivial, rfl, by simpa using h1, rfl, rfl⟩

/-- What a successful sharing of an existing cell leaves behind. -/
theorem SetSecurityShareExisting_of_success (env : Env) (H : CMHIVE)
    (Key : CM_KEY_CONTROL_BLOCK) (SC : HCELL_INDEX) (S : CM_KEY_SECURITY) (M : HCELL_INDEX)
    (hok : (SetSecurityShareExisting env H Key SC S M).Status
      = Outcome.Returned STATUS_SUCCESS) :
    env.DirtyOk M = true ∧
    (S.ReferenceCount = 1 → env.DirtyOk S.Flink = true ∧ env.DirtyOk S.Blink = true) ∧
    env.MapOk M = true ∧
    (cmGet (ShareExistingReleased env H SC S M).SecurityCells M).isSome = true ∧
    (cmGet (ShareExistingReleased env H SC S M).SecurityCache M).isSome = true ∧
    (SetSecurityShareExisting env H Key SC S M).Hive =
      WriteNode
        (WriteNode
          (WriteSecurity (ShareExistingReleased env H SC S M) M
            (fun Security =>
              { Security with ReferenceCount := ULONG_INC Security.ReferenceCount }))
          Key.KeyCell (fun Node => { Node with Security := M }))
        Key.KeyCell (fun Node => { Node with LastWriteTime := env.SystemTime }) ∧
    (SetSecurityShareExisting env H Key SC S M).Kcb =
      { Key with KcbLastWriteTime := env.SystemTime, CachedSecurity := some M } := by
  have hL := Outcome_no_log_space_ne
  cases hd : env.DirtyOk M with
  | false => simp [SetSecurityShareExisting, HvMarkCellDirty_of_not_ok _ _ _ hd, hL] at hok
  | true =>
  by_cases hrc : S.ReferenceCount = 1
  · cases hdF : env.DirtyOk S.Flink with
    | false =>
      simp [SetSecurityShareExisting, HvMarkCellDirty_of_ok _ _ _ hd, hrc,
        HvMarkCellDirty_of_not_ok _ _ _ hdF, hL] at hok
    | true =>
    cases hdB : env.DirtyOk S.Blink with
    | false =>
      simp [SetSecurityShareExisting, HvMarkCellDirty_of_ok _ _ _ hd, hrc,
        HvMarkCellDirty_of_ok _ _ _ hdF, HvMarkCellDirty_of_not_ok _ _ _ hdB, hL] at hok
    | true =>
      simp only [SetSecurityShareExisting, HvMarkCellDirty_of_ok _ _ _ hd, hrc, if_true,
        HvMarkCellDirty_of_ok _ _ _ hdF, HvMarkCellDirty_of_ok _ _ _ hdB,
        ShareExistingReleased] at hok ⊢
      obtain ⟨h1, h2, h3, h4, h5⟩ := SetSecurityRepoint_of_success env _ Key M hok
      exact ⟨trivial, fun _ => ⟨trivial, trivial⟩, h1, h2, h3, h4, h5⟩
  · simp only [SetSecurityShareExisting, HvMarkCellDirty_of_ok _ _ _ hd, hrc, if_false,
      ShareExistingReleased] at hok ⊢
    obtain ⟨h1, h2, h3, h4, h5⟩ := SetSecurityRepoint_of_success env _ Key M hok
    exact ⟨trivial, fun hc => hc.elim, h1, h2, h3, h4, h5⟩

@[simp] theorem CmpRemoveSecurityCellList_KeyNodes (env : Env) (H : CMHIVE) (c : HCELL_INDEX) :
    (CmpRemoveSecurityCellList env H c).KeyNodes = H.KeyNodes := by
  unfold CmpRemoveSecurityCellList
  split
  · rfl
  · split
    · rfl
    · split <;> rfl

/-- The unlink takes place when the cell and its two neighbours can be mapped. -/
theorem CmpRemoveSecurityCellList_of_mapped (env : Env) (H : CMHIVE) (c : HCELL_INDEX)
    (S F B : CM_KEY_SECURITY)
    (hS : cmGet H.SecurityCells c = some S) (hF : cmGet H.SecurityCells S.Flink = some F)
    (hB : cmGet H.SecurityCells S.Blink = some B)
    (hmS : env.MapOk c = true) (hmF : env.MapOk S.Flink = true)
    (hmB : env.MapOk S.Blink = true) :
    CmpRemoveSecurityCellList env H c =
      CmpRemoveFromSecurityCache
        (WriteSecurity
          (WriteSecurity H S.Flink (fun FlinkCell => { FlinkCell with Blink := S.Blink }))
          S.Blink (fun BlinkCell => { BlinkCell with Flink := S.Flink }))
        c := by
  simp [CmpRemoveSecurityCellList, HvGetCellSecurity, hmS, hmF, hmB, hS, hF, hB]

/-- The two link stores of the unlink, cell by cell. -/
theorem cmGet_unlink (cells : List (HCELL_INDEX × CM_KEY_SECURITY)) (f b vf vb : HCELL_INDEX)
    (k : HCELL_INDEX) :
    cmGet
      (cmModify
        (cmModify cells f (fun FlinkCell => { FlinkCell with Blink := vb }))
        b (fun BlinkCell => { BlinkCell with Flink := vf })) k =
      (cmGet cells k).map (fun X =>
        { X with Flink := if k = b then vf else X.Flink,
                 Blink := if k = f then vb else X.Blink }) := by
  by_cases hB : k = b
  · subst hB
    by_cases hF : k = f
    · subst hF
      cases hk : cmGet cells k <;> simp [cmGet_cmModify, hk]
    · cases hk : cmGet cells k <;> simp [cmGet_cmModify, hk, hF]
  · by_cases hF : k = f
    · subst hF
      cases hk : cmGet cells k <;> simp [cmGet_cmModify, hk, hB]
    · cases hk : cmGet cells k <;> simp [cmGet_cmModify, hk, hB, hF]

/-- The branch of a successful set that shares an existing cell, as updates of
the hive. -/
theorem set_share_existing_effect (env : Env) (h : CMHIVE) (Key : CM_KEY_CONTROL_BLOCK)
    (info : Nat) (md : List Nat) (Node : CM_KEY_NODE) (S : CM_KEY_SECURITY) (D : List Nat)
    (M : HCELL_INDEX)
    (hnode : cmGet h.KeyNodes Key.KeyCell = some Node)
    (hsec : cmGet h.SecurityCells Node.Security = some S)
    (hD : (env.SeSetSecurityDescriptorInfo info md S.Descriptor).2 = D)
    (hmatch : CmpFindMatchingDescriptorCell env h D (HvGetCellType Key.KeyCell) = some M)
    (hne : M ≠ Node.Security)
    (hok : (CmpSetSecurityDescriptorInfo env h Key info md).Status
      = Outcome.Returned STATUS_SUCCESS) :
    env.MapOk Node.Security = true ∧
    (S.ReferenceCount = 1 → env.DirtyOk S.Flink = true ∧ env.DirtyOk S.Blink = true) ∧
    (cmGet (ShareExistingReleased env (SetSecurityDirtied h Key Node.Security) Node.Security S
      M).SecurityCells M).isSome = true ∧
    (CmpSetSecurityDescriptorInfo env h Key info md).Hive =
      WriteNode
        (WriteNode
          (WriteSecurity
            (ShareExistingReleased env (SetSecurityDirtied h Key Node.Security) Node.Security S M)
            M (fun Security =>
              { Security with ReferenceCount := ULONG_INC Security.ReferenceCount }))
          Key.KeyCell (fun Node => { Node with Security := M }))
        Key.KeyCell (fun Node => { Node with LastWriteTime := env.SystemTime }) ∧
    (CmpSetSecurityDescriptorInfo env h Key info md).Kcb =
      { Key with KcbLastWriteTime := env.SystemTime, CachedSecurity := some M } := by
  obtain ⟨Node', S', hnode', hsec', _, hmS, _, _, heq⟩ :=
    CmpSetSecurityDescriptorInfo_of_success env h Key info md hok
  rw [hnode] at hnode'
  cases hnode'
  rw [hsec] at hsec'
  cases hsec'
  rw [hD] at heq
  have hst : SetSecurityStore env (SetSecurityDirtied h Key Node.Security) Key Node.Security S D
      = SetSecurityShareExisting env (SetSecurityDirtied h Key Node.Security) Key Node.Security
          S M := by
    simp [SetSecurityStore, hmatch, hne]
  rw [heq, hst] at hok ⊢
  obtain ⟨_, h2, _, h4, _, h6, h7⟩ := SetSecurityShareExisting_of_success env _ Key _ S M hok
  exact ⟨hmS, h2, h4, h6, h7⟩

@[simp] theorem Reallocated_KeyNodes (h : CMHIVE) (o n : HCELL_INDEX) (S : CM_KEY_SECURITY)
    (sz : Nat) : (Reallocated h o n S sz).KeyNodes = h.KeyNodes := rfl

@[simp] theorem Reallocated_SecurityCells (h : CMHIVE) (o n : HCELL_INDEX)
    (S : CM_KEY_SECURITY) (sz : Nat) :
    (Reallocated h o n S sz).SecurityCells =
      (n, { S with Descriptor := ResizeStorage S.Descriptor (sz - CM_KEY_SECURITY_HEADER) })
        :: cmErase h.SecurityCells o := rfl

@[simp] theorem Reallocated_SecurityCache (h : CMHIVE) (o n : HCELL_INDEX)
    (S : CM_KEY_SECURITY) (sz : Nat) :
    (Reallocated h o n S sz).SecurityCache = h.SecurityCache := rfl

@[simp] theorem Reallocated_SecurityHash (h : CMHIVE) (o n : HCELL_INDEX)
    (S : CM_KEY_SECURITY) (sz : Nat) :
    (Reallocated h o n S sz).SecurityHash = h.SecurityHash := rfl

theorem HvReallocateCell_of_ok (env : Env) (h : CMHIVE) (c : HCELL_INDEX) (sz : Nat)
    (S : CM_KEY_SECURITY) (hS : cmGet h.SecurityCells c = some S)
    (hok : (env.ReallocIndex c sz = c ∨
      CellIsFree h (env.ReallocIndex c sz) (HvGetCellType c) = true)) :
    HvReallocateCell env h c sz =
      (env.ReallocIndex c sz, Reallocated h c (env.ReallocIndex c sz) S sz) := by
  rcases hok with hok | hok <;> simp [HvReallocateCell, hS, hok, Reallocated]

theorem HvReallocateCell_of_not_ok (env : Env) (h : CMHIVE) (c : HCELL_INDEX) (sz : Nat)
    (S : CM_KEY_SECURITY) (hS : cmGet h.SecurityCells c = some S)
    (hne : env.ReallocIndex c sz ≠ c)
    (hnf : CellIsFree h (env.ReallocIndex c sz) (HvGetCellType c) = false) :
    HvReallocateCell env h c sz = (HCELL_NIL, h) := by
  simp [HvReallocateCell, hS, hne, hnf]

theorem CellIsFree_congr (h1 h2 : CMHIVE) (c : HCELL_INDEX) (t : Nat)
    (hn : h1.KeyNodes = h2.KeyNodes) (hc : h1.SecurityCells = h2.SecurityCells) :
    CellIsFree h1 c t = CellIsFree h2 c t := by
  simp [CellIsFree, hn, hc]

/-- What a successful reallocating branch leaves behind. -/
theorem SetSecurityReallocate_of_success (env : Env) (H : CMHIVE) (Key : CM_KEY_CONTROL_BLOCK)
    (Old : HCELL_INDEX) (S F B : CM_KEY_SECURITY) (D : List Nat) (New : HCELL_INDEX)
    (hNew : env.ReallocIndex Old (SECURITY_CELL_LENGTH D) = New)
    (hS : cmGet H.SecurityCells Old = some S)
    (hF : cmGet H.SecurityCells S.Flink = some F)
    (hB : cmGet H.SecurityCells S.Blink = some B)
    (hok : (SetSecurityReallocate env H Key Old S D).Status = Outcome.Returned STATUS_SUCCESS) :
    (New = Old ∨ CellIsFree H New (HvGetCellType Old) = true) ∧
    (∃ X, cmGet (ReallocatedCells H.SecurityCells Old New S D) New = some X ∧
      (SetSecurityReallocate env H Key Old S D).Hive.SecurityCache =
        (New, SecurityCacheEntry env New X) :: cmErase (cmErase H.SecurityCache Old) New ∧
      (SetSecurityReallocate env H Key Old S D).Hive.SecurityHash =
        InsertTailList (CmpRemoveEntryList (CmpRemoveEntryList H.SecurityHash Old) New)
          ((SecurityCacheEntry env New X).ConvKey % env.CmpSecHashTableSize) New) ∧
    (SetSecurityReallocate env H Key Old S D).Hive.KeyNodes =
      cmModify (cmModify H.KeyNodes Key.KeyCell (fun Node => { Node with Security := New }))
        Key.KeyCell (fun Node => { Node with LastWriteTime := env.SystemTime }) ∧
    (SetSecurityReallocate env H Key Old S D).Hive.SecurityCells =
      ReallocatedCells H.SecurityCells Old New S D ∧
    (SetSecurityReallocate env H Key Old S D).Kcb =
      { Key with KcbLastWriteTime := env.SystemTime, CachedSecurity := some New } := by
  have hI := Outcome_insufficient_ne
  cases hdF : env.DirtyOk S.Flink with
  | false => simp [SetSecurityReallocate, HvMarkCellDirty_of_not_ok _ _ _ hdF, hI] at hok
  | true =>
  have hDF := fun h => HvMarkCellDirty_of_ok env h _ hdF
  cases hdB : env.DirtyOk S.Blink with
  | false => simp [SetSecurityReallocate, hDF, HvMarkCellDirty_of_not_ok _ _ _ hdB, hI] at hok
  | true =>
  have hDB := fun h => HvMarkCellDirty_of_ok env h _ hdB
  have hS' : cmGet (Dirtied (Dirtied H S.Flink) S.Blink).SecurityCells Old = some S := by
    simpa using hS
  have hfr : ∀ c t, CellIsFree (Dirtied (Dirtied H S.Flink) S.Blink) c t = CellIsFree H c t :=
    fun c t => CellIsFree_congr _ _ c t rfl rfl
  have hnew : New = Old ∨ CellIsFree H New (HvGetCellType Old) = true := by
    by_cases hsame : New = Old
    · exact Or.inl hsame
    · cases hfree : CellIsFree H New (HvGetCellType Old) with
      | true => exact Or.inr rfl
      | false =>
        have hR := HvReallocateCell_of_not_ok env _ Old (SECURITY_CELL_LENGTH D) S hS'
          (by rw [hNew]; exact hsame) (by rw [hNew, hfr]; exact hfree)
        simp [SetSecurityReallocate, hDF, hDB, hR, hI] at hok
  have hR := HvReallocateCell_of_ok env _ Old (SECURITY_CELL_LENGTH D) S hS'
    (by rw [hNew, hfr]; exact hnew)
  rw [hNew] at hR
  refine ⟨hnew, ?_⟩
  by_cases hNnil : New = HCELL_NIL
  · simp [SetSecurityReallocate, hDF, hDB, hR, hNnil, hI] at hok
  have hlive : ∀ k X, cmGet H.SecurityCells k = some X → k ≠ Old → New ≠ k := by
    intro k X hk hkO hc
    rcases hnew with hn | hn
    · exact hkO (hc.symm.trans hn)
    · have := (CellIsFree_spec H New _ hn).2.2.1
      rw [hc, hk] at this
      cases this
  cases hmN : env.MapOk New with
  | false =>
    simp [SetSecurityReallocate, hDF, hDB, hR, hNnil, HvGetCellSecurity_of_not_ok _ _ _ hmN, hI]
      at hok
  | true =>
  have hGN := fun h => HvGetCellSecurity_of_ok env h _ hmN
  cases htN : env.TrackOk New with
  | false =>
    simp [SetSecurityReallocate, hDF, hDB, hR, hNnil, hGN, cmGet_cons, htN, hI] at hok
  | true =>
  by_cases hFO : S.Flink = Old
  · by_cases hBO : S.Blink = Old
    · cases hpN : env.PoolOk New with
      | false =>
        simp [SetSecurityReallocate, hDF, hDB, hR, hNnil, hGN, htN, hI, SetSecurityFixFlink, SetSecurityFixBlink, cmGet_cons, cmGet_cmErase, cmGet_cmModify, hS, if_pos hFO, if_pos hBO, CmpAddSecurityCellToCache, hpN, NT_SUCCESS_INSUFFICIENT] at hok
      | true =>
      simp [SetSecurityReallocate, hDF, hDB, hR, hNnil, hGN, htN, SetSecurityFixFlink, SetSecurityFixBlink, cmGet_cons, cmGet_cmErase, cmGet_cmModify, hS, if_pos hFO, if_pos hBO, CmpAddSecurityCellToCache, hpN, NT_SUCCESS_STATUS_SUCCESS, SetSecurityDone,
        CmpAssignSecurityToKcb, CmpFindSecurityCellCacheIndex, ReallocatedCells]
    · have hNB : New ≠ S.Blink := hlive _ _ hB hBO
      cases hmB : env.MapOk S.Blink with
      | false =>
        simp [SetSecurityReallocate, hDF, hDB, hR, hNnil, hGN, htN, hI, SetSecurityFixFlink, SetSecurityFixBlink, cmGet_cons, cmGet_cmErase, cmGet_cmModify, hS, if_pos hFO, if_neg hBO, hB, hNB, hNB.symm, HvGetCellSecurity_of_not_ok _ _ _ hmB] at hok
      | true =>
      cases htB : env.TrackOk S.Blink with
      | false =>
        simp [SetSecurityReallocate, hDF, hDB, hR, hNnil, hGN, htN, hI, SetSecurityFixFlink, SetSecurityFixBlink, cmGet_cons, cmGet_cmErase, cmGet_cmModify, hS, if_pos hFO, if_neg hBO, hB, hNB, hNB.symm, HvGetCellSecurity_of_ok _ _ _ hmB, htB] at hok
      | true =>
      cases hpN : env.PoolOk New with
      | false =>
        simp [SetSecurityReallocate, hDF, hDB, hR, hNnil, hGN, htN, hI, SetSecurityFixFlink, SetSecurityFixBlink, cmGet_cons, cmGet_cmErase, cmGet_cmModify, hS, if_pos hFO, if_neg hBO, hB, hNB, hNB.symm, HvGetCellSecurity_of_ok _ _ _ hmB, htB, CmpAddSecurityCellToCache, hpN, NT_SUCCESS_INSUFFICIENT] at hok
      | true =>
      simp [SetSecurityReallocate, hDF, hDB, hR, hNnil, hGN, htN, SetSecurityFixFlink, SetSecurityFixBlink, cmGet_cons, cmGet_cmErase, cmGet_cmModify, hS, if_pos hFO, if_neg hBO, hB, hNB, hNB.symm, HvGetCellSecurity_of_ok _ _ _ hmB, htB, CmpAddSecurityCellToCache, hpN, NT_SUCCESS_STATUS_SUCCESS, SetSecurityDone,
        CmpAssignSecurityToKcb, CmpFindSecurityCellCacheIndex, ReallocatedCells]
  · by_cases hBO : S.Blink = Old
    · have hNF : New ≠ S.Flink := hlive _ _ hF hFO
      cases hmF : env.MapOk S.Flink with
      | false =>
        simp [SetSecurityReallocate, hDF, hDB, hR, hNnil, hGN, htN, hI, SetSecurityFixFlink, SetSecurityFixBlink, cmGet_cons, cmGet_cmErase, cmGet_cmModify, hS, if_neg hFO, hF, hNF, hNF.symm, if_pos hBO, HvGetCellSecurity_of_not_ok _ _ _ hmF] at hok
      | true =>
      cases htF : env.TrackOk S.Flink with
      | false =>
        simp [SetSecurityReallocate, hDF, hDB, hR, hNnil, hGN, htN, hI, SetSecurityFixFlink, SetSecurityFixBlink, cmGet_cons, cmGet_cmErase, cmGet_cmModify, hS, if_neg hFO, hF, hNF, hNF.symm, if_pos hBO, HvGetCellSecurity_of_ok _ _ _ hmF, htF] at hok
      | true =>
      cases hpN : env.PoolOk New with
      | false =>
        simp [SetSecurityReallocate, hDF, hDB, hR, hNnil, hGN, htN, hI, SetSecurityFixFlink, SetSecurityFixBlink, cmGet_cons, cmGet_cmErase, cmGet_cmModify, hS, if_neg hFO, hF, hNF, hNF.symm, if_pos hBO, HvGetCellSecurity_of_ok _ _ _ hmF, htF, CmpAddSecurityCellToCache, hpN, NT_SUCCESS_INSUFFICIENT] at hok
      | true =>
      simp [SetSecurityReallocate, hDF, hDB, hR, hNnil, hGN, htN, SetSecurityFixFlink, SetSecurityFixBlink, cmGet_cons, cmGet_cmErase, cmGet_cmModify, hS, if_neg hFO, hF, hNF, hNF.symm, if_pos hBO, HvGetCellSecurity_of_ok _ _ _ hmF, htF, CmpAddSecurityCellToCache, hpN, NT_SUCCESS_STATUS_SUCCESS, SetSecurityDone,
        CmpAssignSecurityToKcb, CmpFindSecurityCellCacheIndex, ReallocatedCells]
    · by_cases hBF : S.Blink = S.Flink
      · have hNF : New ≠ S.Flink := hlive _ _ hF hFO
        have hNB : New ≠ S.Blink := hlive _ _ hB hBO
        cases hmF : env.MapOk S.Flink with
        | false =>
          simp [SetSecurityReallocate, hDF, hDB, hR, hNnil, hGN, htN, hI, SetSecurityFixFlink, SetSecurityFixBlink, cmGet_cons, cmGet_cmErase, cmGet_cmModify, hS, if_neg hFO, hF, hNF, hNF.symm, if_neg hBO, hB, hNB, hNB.symm, if_pos hBF, HvGetCellSecurity_of_not_ok _ _ _ hmF] at hok
        | true =>
        cases htF : env.TrackOk S.Flink with
        | false =>
          simp [SetSecurityReallocate, hDF, hDB, hR, hNnil, hGN, htN, hI, SetSecurityFixFlink, SetSecurityFixBlink, cmGet_cons, cmGet_cmErase, cmGet_cmModify, hS, if_neg hFO, hF, hNF, hNF.symm, if_neg hBO, hB, hNB, hNB.symm, if_pos hBF, HvGetCellSecurity_of_ok _ _ _ hmF, htF] at hok
        | true =>
        cases hmB : env.MapOk S.Blink with
        | false =>
          simp [SetSecurityReallocate, hDF, hDB, hR, hNnil, hGN, htN, hI, SetSecurityFixFlink, SetSecurityFixBlink, cmGet_cons, cmGet_cmErase, cmGet_cmModify, hS, if_neg hFO, hF, hNF, hNF.symm, if_neg hBO, hB, hNB, hNB.symm, if_pos hBF, HvGetCellSecurity_of_ok _ _ _ hmF, htF, HvGetCellSecurity_of_not_ok _ _ _ hmB] at hok
        | true =>
        cases htB : env.TrackOk S.Blink with
        | false =>
          simp [SetSecurityReallocate, hDF, hDB, hR, hNnil, hGN, htN, hI, SetSecurityFixFlink, SetSecurityFixBlink, cmGet_cons, cmGet_cmErase, cmGet_cmModify, hS, if_neg hFO, hF, hNF, hNF.symm, if_neg hBO, hB, hNB, hNB.symm, if_pos hBF, HvGetCellSecurity_of_ok _ _ _ hmF, htF, HvGetCellSecurity_of_ok _ _ _ hmB, htB] at hok
        | true =>
        cases hpN : env.PoolOk New with
        | false =>
          simp [SetSecurityReallocate, hDF, hDB, hR, hNnil, hGN, htN, hI, SetSecurityFixFlink, SetSecurityFixBlink, cmGet_cons, cmGet_cmErase, cmGet_cmModify, hS, if_neg hFO, hF, hNF, hNF.symm, if_neg hBO, hB, hNB, hNB.symm, if_pos hBF, HvGetCellSecurity_of_ok _ _ _ hmF, htF, HvGetCellSecurity_of_ok _ _ _ hmB, htB, CmpAddSecurityCellToCache, hpN, NT_SUCCESS_INSUFFICIENT] at hok
        | true =>
        simp [SetSecurityReallocate, hDF, hDB, hR, hNnil, hGN, htN, SetSecurityFixFlink, SetSecurityFixBlink, cmGet_cons, cmGet_cmErase, cmGet_cmModify, hS, if_neg hFO, hF, hNF, hNF.symm, if_neg hBO, hB, hNB, hNB.symm, if_pos hBF, HvGetCellSecurity_of_ok _ _ _ hmF, htF, HvGetCellSecurity_of_ok _ _ _ hmB, htB, CmpAddSecurityCellToCache, hpN, NT_SUCCESS_STATUS_SUCCESS, SetSecurityDone,
          CmpAssignSecurityToKcb, CmpFindSecurityCellCacheIndex, ReallocatedCells]
      · have hNF : New ≠ S.Flink := hlive _ _ hF hFO
        have hNB : New ≠ S.Blink := hlive _ _ hB hBO
        cases hmF : env.MapOk S.Flink with
        | false =>
          simp [SetSecurityReallocate, hDF, hDB, hR, hNnil, hGN, htN, hI, SetSecurityFixFlink, SetSecurityFixBlink, cmGet_cons, cmGet_cmErase, cmGet_cmModify, hS, if_neg hFO, hF, hNF, hNF.symm, if_neg hBO, hB, hNB, hNB.symm, if_neg hBF, HvGetCellSecurity_of_not_ok _ _ _ hmF] at hok
        | true =>
        cases htF : env.TrackOk S.Flink with
        | false =>
          simp [SetSecurityReallocate, hDF, hDB, hR, hNnil, hGN, htN, hI, SetSecurityFixFlink, SetSecurityFixBlink, cmGet_cons, cmGet_cmErase, cmGet_cmModify, hS, if_neg hFO, hF, hNF, hNF.symm, if_neg hBO, hB, hNB, hNB.symm, if_neg hBF, HvGetCellSecurity_of_ok _ _ _ hmF, htF] at hok
        | true =>
        cases hmB : env.MapOk S.Blink with
        | false =>
          simp [SetSecurityReallocate, hDF, hDB, hR, hNnil, hGN, htN, hI, SetSecurityFixFlink, SetSecurityFixBlink, cmGet_cons, cmGet_cmErase, cmGet_cmModify, hS, if_neg hFO, hF, hNF, hNF.symm, if_neg hBO, hB, hNB, hNB.symm, if_neg hBF, HvGetCellSecurity_of_ok _ _ _ hmF, htF, HvGetCellSecurity_of_not_ok _ _ _ hmB] at hok
        | true =>
        cases htB : env.TrackOk S.Blink with
        | false =>
          simp [SetSecurityReallocate, hDF, hDB, hR, hNnil, hGN, htN, hI, SetSecurityFixFlink, SetSecurityFixBlink, cmGet_cons, cmGet_cmErase, cmGet_cmModify, hS, if_neg hFO, hF, hNF, hNF.symm, if_neg hBO, hB, hNB, hNB.symm, if_neg hBF, HvGetCellSecurity_of_ok _ _ _ hmF, htF, HvGetCellSecurity_of_ok _ _ _ hmB, htB] at hok
        | true =>
        cases hpN : env.PoolOk New with
        | false =>
          simp [SetSecurityReallocate, hDF, hDB, hR, hNnil, hGN, htN, hI, SetSecurityFixFlink, SetSecurityFixBlink, cmGet_cons, cmGet_cmErase, cmGet_cmModify, hS, if_neg hFO, hF, hNF, hNF.symm, if_neg hBO, hB, hNB, hNB.symm, if_neg hBF, HvGetCellSecurity_of_ok _ _ _ hmF, htF, HvGetCellSecurity_of_ok _ _ _ hmB, htB, CmpAddSecurityCellToCache, hpN, NT_SUCCESS_INSUFFICIENT] at hok
        | true =>
        simp [SetSecurityReallocate, hDF, hDB, hR, hNnil, hGN, htN, SetSecurityFixFlink, SetSecurityFixBlink, cmGet_cons, cmGet_cmErase, cmGet_cmModify, hS, if_neg hFO, hF, hNF, hNF.symm, if_neg hBO, hB, hNB, hNB.symm, if_neg hBF, HvGetCellSecurity_of_ok _ _ _ hmF, htF, HvGetCellSecurity_of_ok _ _ _ hmB, htB, CmpAddSecurityCellToCache, hpN, NT_SUCCESS_STATUS_SUCCESS, SetSecurityDone,
          CmpAssignSecurityToKcb, CmpFindSecurityCellCacheIndex, ReallocatedCells]

theorem ResizeStorage_length (d : List Nat) (n : Nat) : (ResizeStorage d n).length = n := by
  simp [ResizeStorage]
  omega

theorem RtlCopyMemory_resized (d D : List Nat) :
    RtlCopyMemory (ResizeStorage d (SECURITY_CELL_LENGTH D - CM_KEY_SECURITY_HEADER)) D
      (RtlLengthSecurityDescriptor D) = D := by
  apply RtlCopyMemory_exact
  rw [ResizeStorage_length]
  simp [SECURITY_CELL_LENGTH, RtlLengthSecurityDescriptor]

/-- The security cells after the reallocating branch, cell by cell. -/
theorem cmGet_ReallocatedCells (cells : List (HCELL_INDEX × CM_KEY_SECURITY))
    (Old New : HCELL_INDEX) (S F B : CM_KEY_SECURITY) (D : List Nat)
    (hS : cmGet cells Old = some S) (hF : cmGet cells S.Flink = some F)
    (hB : cmGet cells S.Blink = some B)
    (hnew : New = Old ∨ cmGet cells New = none) (k : HCELL_INDEX) :
    cmGet (ReallocatedCells cells Old New S D) k =
      if k = New then
        some { S with Flink := RenameCell Old New S.Flink, Blink := RenameCell Old New S.Blink,
                      DescriptorLength := RtlLengthSecurityDescriptor D, Descriptor := D }
      else if k = Old then none
      else
        (cmGet cells k).map (fun X =>
          { X with Flink := if k = S.Blink then New else X.Flink,
                   Blink := if k = S.Flink then New else X.Blink }) := by
  have hlive : ∀ j X, cmGet cells j = some X → j ≠ Old → New ≠ j := by
    intro j X hj hjO hc
    rcases hnew with hn | hn
    · exact hjO (hc.symm.trans hn)
    · rw [hc, hj] at hn
      cases hn
  have hcopy := RtlCopyMemory_resized S.Descriptor D
  by_cases hkN : k = New
  · subst hkN
    by_cases hFO : S.Flink = Old <;> by_cases hBO : S.Blink = Old
    · simp [ReallocatedCells, cmGet_cmModify, cmGet_cons, hFO, hBO, RenameCell, hcopy]
    · have hNB : k ≠ S.Blink := hlive _ _ hB hBO
      simp [ReallocatedCells, cmGet_cmModify, cmGet_cons, hFO, hBO, RenameCell, hcopy, hNB]
    · have hNF : k ≠ S.Flink := hlive _ _ hF hFO
      simp [ReallocatedCells, cmGet_cmModify, cmGet_cons, hFO, hBO, RenameCell, hcopy, hNF]
    · have hNF : k ≠ S.Flink := hlive _ _ hF hFO
      have hNB : k ≠ S.Blink := hlive _ _ hB hBO
      simp [ReallocatedCells, cmGet_cmModify, cmGet_cons, hFO, hBO, RenameCell, hcopy, hNF, hNB]
  · have hNk : ¬ New = k := fun hc => hkN hc.symm
    by_cases hkO : k = Old
    · subst hkO
      by_cases hFO : S.Flink = k <;> by_cases hBO : S.Blink = k
      · simp [ReallocatedCells, cmGet_cmModify, cmGet_cons, cmGet_cmErase, hFO, hBO, hkN, hNk]
      · have hkB : ¬ k = S.Blink := fun hc => hBO hc.symm
        simp [ReallocatedCells, cmGet_cmModify, cmGet_cons, cmGet_cmErase, hFO, hBO, hkN, hNk,
          hkB]
      · have hkF : ¬ k = S.Flink := fun hc => hFO hc.symm
        simp [ReallocatedCells, cmGet_cmModify, cmGet_cons, cmGet_cmErase, hFO, hBO, hkN, hNk,
          hkF]
      · have hkF : ¬ k = S.Flink := fun hc => hFO hc.symm
        have hkB : ¬ k = S.Blink := fun hc => hBO hc.symm
        simp [ReallocatedCells, cmGet_cmModify, cmGet_cons, cmGet_cmErase, hFO, hBO, hkN, hNk,
          hkF, hkB]
    · by_cases hFO : S.Flink = Old <;> by_cases hBO : S.Blink = Old
      · have hkF : ¬ k = S.Flink := by rw [hFO]; exact hkO
        have hkB : ¬ k = S.Blink := by rw [hBO]; exact hkO
        cases hk : cmGet cells k <;>
          simp [ReallocatedCells, cmGet_cmModify, cmGet_cons, cmGet_cmErase, if_pos hFO,
            if_pos hBO, hkN, hNk, hkO, hkF, hkB, hk]
      · have hkF : ¬ k = S.Flink := by rw [hFO]; exact hkO
        by_cases hkB : k = S.Blink
        · subst hkB
          simp [ReallocatedCells, cmGet_cmModify, cmGet_cons, cmGet_cmErase, if_pos hFO,
            if_neg hBO, hkN, hNk, hkO, hkF, hB]
        · cases hk : cmGet cells k <;>
            simp [ReallocatedCells, cmGet_cmModify, cmGet_cons, cmGet_cmErase, if_pos hFO,
              if_neg hBO, hkN, hNk, hkO, hkF, hkB, hk]
      · have hkB : ¬ k = S.Blink := by rw [hBO]; exact hkO
        by_cases hkF : k = S.Flink
        · subst hkF
          simp [ReallocatedCells, cmGet_cmModify, cmGet_cons, cmGet_cmErase, if_neg hFO,
            if_pos hBO, hkN, hNk, hkO, hkB, hF]
        · cases hk : cmGet cells k <;>
            simp [ReallocatedCells, cmGet_cmModify, cmGet_cons, cmGet_cmErase, if_neg hFO,
              if_pos hBO, hkN, hNk, hkO, hkF, hkB, hk]
      · by_cases hkF : k = S.Flink <;> by_cases hkB : k = S.Blink
        · have hBF : S.Blink = S.Flink := hkB.symm.trans hkF
          subst hkF
          simp [ReallocatedCells, cmGet_cmModify, cmGet_cons, cmGet_cmErase, if_neg hFO,
            if_neg hBO, hkN, hNk, hkO, hBF, hF]
        · subst hkF
          have hBF : ¬ S.Blink = S.Flink := fun hc => hkB hc.symm
          simp [ReallocatedCells, cmGet_cmModify, cmGet_cons, cmGet_cmErase, if_neg hFO,
            if_neg hBO, hkN, hNk, hkO, hBF, hkB, hF]
        · subst hkB
          simp [ReallocatedCells, cmGet_cmModify, cmGet_cons, cmGet_cmErase, if_neg hFO,
            if_neg hBO, hkN, hNk, hkO, hkF, hB]
        · cases hk : cmGet cells k <;>
            simp [ReallocatedCells, cmGet_cmModify, cmGet_cons, cmGet_cmErase, if_neg hFO,
              if_neg hBO, hkN, hNk, hkO, hkF, hkB, hk]

/-- The reallocating branch of a successful set, as updates of the hive. -/
theorem set_reallocate_effect (env : Env) (h : CMHIVE) (Key : CM_KEY_CONTROL_BLOCK)
    (info : Nat) (md : List Nat) (Node : CM_KEY_NODE) (S F B : CM_KEY_SECURITY) (D : List Nat)
    (New : HCELL_INDEX)
    (hnode : cmGet h.KeyNodes Key.KeyCell = some Node)
    (hsec : cmGet h.SecurityCells Node.Security = some S)
    (hflink : cmGet h.SecurityCells S.Flink = some F)
    (hblink : cmGet h.SecurityCells S.Blink = some B)
    (hD : (env.SeSetSecurityDescriptorInfo info md S.Descriptor).2 = D)
    (hNew : env.ReallocIndex Node.Security (SECURITY_CELL_LENGTH D) = New)
    (hnomatch : CmpFindMatchingDescriptorCell env h D (HvGetCellType Key.KeyCell) = none)
    (hrc : ¬ 1 < S.ReferenceCount)
    (hlen : RtlLengthSecurityDescriptor D ≠ S.DescriptorLength)
    (hok : (CmpSetSecurityDescriptorInfo env h Key info md).Status
      = Outcome.Returned STATUS_SUCCESS) :
    (New = Node.Security ∨ CellIsFree h New (HvGetCellType Node.Security) = true) ∧
    (∃ X, cmGet (ReallocatedCells h.SecurityCells Node.Security New S D) New = some X ∧
      (CmpSetSecurityDescriptorInfo env h Key info md).Hive.SecurityCache =
        (New, SecurityCacheEntry env New X)
          :: cmErase (cmErase h.SecurityCache Node.Security) New ∧
      (CmpSetSecurityDescriptorInfo env h Key info md).Hive.SecurityHash =
        InsertTailList (CmpRemoveEntryList (CmpRemoveEntryList h.SecurityHash Node.Security) New)
          ((SecurityCacheEntry env New X).ConvKey % env.CmpSecHashTableSize) New) ∧
    (CmpSetSecurityDescriptorInfo env h Key info md).Hive.KeyNodes =
      cmModify (cmModify h.KeyNodes Key.KeyCell (fun Node => { Node with Security := New }))
        Key.KeyCell (fun Node => { Node with LastWriteTime := env.SystemTime }) ∧
    (CmpSetSecurityDescriptorInfo env h Key info md).Hive.SecurityCells =
      ReallocatedCells h.SecurityCells Node.Security New S D ∧
    (CmpSetSecurityDescriptorInfo env h Key info md).Kcb =
      { Key with KcbLastWriteTime := env.SystemTime, CachedSecurity := some New } := by
  obtain ⟨Node', S', hnode', hsec', _, _, _, _, heq⟩ :=
    CmpSetSecurityDescriptorInfo_of_success env h Key info md hok
  rw [hnode] at hnode'
  cases hnode'
  rw [hsec] at hsec'
  cases hsec'
  rw [hD] at heq
  have hst : SetSecurityStore env (SetSecurityDirtied h Key Node.Security) Key Node.Security S D
      = SetSecurityReallocate env (SetSecurityDirtied h Key Node.Security) Key Node.Security
          S D := by
    simp [SetSecurityStore, hnomatch, hrc, hlen]
  rw [heq, hst] at hok ⊢
  have := SetSecurityReallocate_of_success env (SetSecurityDirtied h Key Node.Security) Key
    Node.Security S F B D New hNew (by simpa using hsec) (by simpa using hflink)
    (by simpa using hblink) hok
  simpa [CellIsFree] using this


/-- A cell the matching routine returns has a cache entry equal to the wanted
descriptor, of the wanted storage type. -/
theorem CmpFindMatchingDescriptorCell_some (env : Env) (h : CMHIVE) (D : List Nat) (t : Nat)
    (M : HCELL_INDEX) (hm : CmpFindMatchingDescriptorCell env h D t = some M) :
    ∃ e, cmGet h.SecurityCache M = some e ∧
      e.ConvKey = env.CmpSecConvKey (RtlLengthSecurityDescriptor D) D ∧
      HvGetCellType e.Cell = t ∧
      e.DescriptorLength = RtlLengthSecurityDescriptor D ∧ e.Descriptor = D := by
  unfold CmpFindMatchingDescriptorCell at hm
  have := List.find?_some hm
  unfold CacheEntryMatches at this
  cases hc : cmGet h.SecurityCache M with
  | none => simp [hc] at this
  | some e =>
    refine ⟨e, rfl, ?_⟩
    simpa [hc, and_assoc] using this

/-- The unlink changes ring links only: counts, lengths and bytes stay. -/
theorem CmpRemoveSecurityCellList_contents (env : Env) (H : CMHIVE) (c k : HCELL_INDEX) :
    (cmGet (CmpRemoveSecurityCellList env H c).SecurityCells k).map CellContents =
      (cmGet H.SecurityCells k).map CellContents := by
  unfold CmpRemoveSecurityCellList
  split
  · rfl
  · split
    · rfl
    · split
      · rfl
      · simp only [CmpRemoveFromSecurityCache_SecurityCells, WriteSecurity_SecurityCells,
          cmGet_unlink]
        cases hk : cmGet H.SecurityCells k <;> simp [CellContents]

/-- Counts, lengths and bytes after the release step of a sharing set. -/
theorem ShareExistingReleased_contents (env : Env) (H : CMHIVE) (SC : HCELL_INDEX)
    (S : CM_KEY_SECURITY) (M k : HCELL_INDEX) :
    (cmGet (ShareExistingReleased env H SC S M).SecurityCells k).map CellContents =
      if k = SC then
        (if S.ReferenceCount = 1 then none
         else (cmGet H.SecurityCells k).map (fun X =>
            (ULONG_DEC X.ReferenceCount, X.DescriptorLength, X.Descriptor)))
      else (cmGet H.SecurityCells k).map CellContents := by
  by_cases hrc : S.ReferenceCount = 1
  · simp only [ShareExistingReleased, hrc, if_true, HvFreeCell_SecurityCells, cmGet_cmErase]
    by_cases hk : k = SC
    · simp [hk]
    · simp only [hk, if_false]
      rw [CmpRemoveSecurityCellList_contents]
      simp
  · simp only [ShareExistingReleased, hrc, if_false, WriteSecurity_SecurityCells,
      Dirtied_SecurityCells, cmGet_cmModify]
    by_cases hk : k = SC
    · subst hk
      cases hc : cmGet H.SecurityCells k <;> simp [hc, CellContents]
    · simp [hk]

@[simp] theorem ShareExistingReleased_KeyNodes (env : Env) (H : CMHIVE) (SC : HCELL_INDEX)
    (S : CM_KEY_SECURITY) (M : HCELL_INDEX) :
    (ShareExistingReleased env H SC S M).KeyNodes = H.KeyNodes := by
  unfold ShareExistingReleased
  split <;> simp


@[simp] theorem CmpAddSecurityCellToCache_KeyNodes (env : Env) (H : CMHIVE) (c : HCELL_INDEX) :
    (CmpAddSecurityCellToCache env H c).2.KeyNodes = H.KeyNodes := by
  unfold CmpAddSecurityCellToCache
  split
  · rfl
  · split <;> rfl

@[simp] theorem CmpAddSecurityCellToCache_SecurityCells (env : Env) (H : CMHIVE)
    (c : HCELL_INDEX) :
    (CmpAddSecurityCellToCache env H c).2.SecurityCells = H.SecurityCells := by
  unfold CmpAddSecurityCellToCache
  split
  · rfl
  · split <;> rfl

@[simp] theorem CmpInsertSecurityCellListCache_KeyNodes (env : Env) (H : CMHIVE)
    (c : HCELL_INDEX) :
    (CmpInsertSecurityCellListCache env H c).2.KeyNodes = H.KeyNodes := by
  unfold CmpInsertSecurityCellListCache
  split <;> simp

@[simp] theorem CmpInsertSecurityCellListCache_SecurityCells (env : Env) (H : CMHIVE)
    (c : HCELL_INDEX) :
    (CmpInsertSecurityCellListCache env H c).2.SecurityCells = H.SecurityCells := by
  unfold CmpInsertSecurityCellListCache
  split <;> simp

theorem HvGetCellSecurity_eq_some (env : Env) (H : CMHIVE) (c : HCELL_INDEX)
    (X : CM_KEY_SECURITY) (h : HvGetCellSecurity env H c = some X) :
    env.MapOk c = true ∧ cmGet H.SecurityCells c = some X := by
  unfold HvGetCellSecurity at h
  split at h
  · exact ⟨by assumption, h⟩
  · cases h

theorem HvGetCellNode_eq_some (env : Env) (H : CMHIVE) (c : HCELL_INDEX)
    (X : CM_KEY_NODE) (h : HvGetCellNode env H c = some X) :
    env.MapOk c = true ∧ cmGet H.KeyNodes c = some X := by
  unfold HvGetCellNode at h
  split at h
  · exact ⟨by assumption, h⟩
  · cases h

/-- The ways `CmpInsertSecurityCellList` can end: a failure that leaves the hive
as it was but for dirty marks, the new cell made a ring of its own (volatile
cell, or cell of the hive root), or the new cell spliced in right after the
security cell of the parent node. -/
theorem CmpInsertSecurityCellList_cases (env : Env) (H : CMHIVE) (n c : HCELL_INDEX) :
    ((CmpInsertSecurityCellList env H n c).1 = false ∧
      (CmpInsertSecurityCellList env H n c).2.KeyNodes = H.KeyNodes ∧
      (CmpInsertSecurityCellList env H n c).2.SecurityCells = H.SecurityCells ∧
      (CmpInsertSecurityCellList env H n c).2.SecurityCache = H.SecurityCache ∧
      (CmpInsertSecurityCellList env H n c).2.SecurityHash = H.SecurityHash) ∨
    ((HvGetCellType c = Volatile ∨
        ∃ Node, cmGet H.KeyNodes n = some Node ∧ Node.Flags &&& KEY_HIVE_ENTRY ≠ 0) ∧
      CmpInsertSecurityCellList env H n c =
        CmpInsertSecurityCellListCache env
          (WriteSecurity H c (fun Cell => { Cell with Flink := c, Blink := c })) c) ∨
    (∃ Node ParentNode BlinkCell FlinkCell,
      HvGetCellType c ≠ Volatile ∧
      cmGet H.KeyNodes n = some Node ∧ Node.Flags &&& KEY_HIVE_ENTRY = 0 ∧
      cmGet H.KeyNodes Node.Parent = some ParentNode ∧
      cmGet H.SecurityCells ParentNode.Security = some BlinkCell ∧
      cmGet H.SecurityCells BlinkCell.Flink = some FlinkCell ∧
      env.DirtyOk ParentNode.Security = true ∧ env.DirtyOk BlinkCell.Flink = true ∧
      CmpInsertSecurityCellList env H n c =
        CmpInsertSecurityCellListCache env
          (WriteSecurity
            (WriteSecurity
              (WriteSecurity
                (WriteSecurity (Dirtied (Dirtied H ParentNode.Security) BlinkCell.Flink) c
                  (fun Cell => { Cell with Flink := BlinkCell.Flink }))
                c (fun Cell => { Cell with Blink := FlinkCell.Blink }))
              ParentNode.Security (fun Blink => { Blink with Flink := c }))
            BlinkCell.Flink (fun Flink => { Flink with Blink := c }))
          c) := by
  have hfail : ∀ r : Bool × CMHIVE, r = (false, H) →
      r.1 = false ∧ r.2.KeyNodes = H.KeyNodes ∧ r.2.SecurityCells = H.SecurityCells ∧
        r.2.SecurityCache = H.SecurityCache ∧ r.2.SecurityHash = H.SecurityHash := by
    intro r hr
    subst hr
    exact ⟨rfl, rfl, rfl, rfl, rfl⟩
  cases h1 : HvGetCellSecurity env H c with
  | none => exact Or.inl (hfail _ (by simp [CmpInsertSecurityCellList, h1]))
  | some X =>
  cases h2 : env.TrackOk c with
  | false => exact Or.inl (hfail _ (by simp [CmpInsertSecurityCellList, h1, h2]))
  | true =>
  by_cases h3 : HvGetCellType c = Volatile
  · exact Or.inr (Or.inl ⟨Or.inl h3, by simp [CmpInsertSecurityCellList, h1, h2, h3]⟩)
  cases h4 : HvGetCellNode env H n with
  | none => exact Or.inl (hfail _ (by simp [CmpInsertSecurityCellList, h1, h2, h3, h4]))
  | some Node =>
  cases h5 : env.TrackOk n with
  | false => exact Or.inl (hfail _ (by simp [CmpInsertSecurityCellList, h1, h2, h3, h4, h5]))
  | true =>
  by_cases h6 : Node.Flags &&& KEY_HIVE_ENTRY = 0
  swap
  · exact Or.inr (Or.inl ⟨Or.inr ⟨Node, (HvGetCellNode_eq_some _ _ _ _ h4).2, h6⟩,
      by simp [CmpInsertSecurityCellList, h1, h2, h3, h4, h5, h6]⟩)
  cases h7 : HvGetCellNode env H Node.Parent with
  | none =>
    exact Or.inl (hfail _ (by simp [CmpInsertSecurityCellList, h1, h2, h3, h4, h5, h6, h7]))
  | some ParentNode =>
  cases h8 : env.TrackOk Node.Parent with
  | false =>
    exact Or.inl (hfail _ (by simp [CmpInsertSecurityCellList, h1, h2, h3, h4, h5, h6, h7, h8]))
  | true =>
  cases h9 : HvGetCellSecurity env H ParentNode.Security with
  | none =>
    exact Or.inl (hfail _
      (by simp [CmpInsertSecurityCellList, h1, h2, h3, h4, h5, h6, h7, h8, h9]))
  | some BlinkCell =>
  cases h10 : env.TrackOk ParentNode.Security with
  | false =>
    exact Or.inl (hfail _
      (by simp [CmpInsertSecurityCellList, h1, h2, h3, h4, h5, h6, h7, h8, h9, h10]))
  | true =>
  cases h11 : HvGetCellSecurity env H BlinkCell.Flink with
  | none =>
    exact Or.inl (hfail _
      (by simp [CmpInsertSecurityCellList, h1, h2, h3, h4, h5, h6, h7, h8, h9, h10, h11]))
  | some FlinkCell =>
  cases h12 : env.TrackOk BlinkCell.Flink with
  | false =>
    exact Or.inl (hfail _
      (by simp [CmpInsertSecurityCellList, h1, h2, h3, h4, h5, h6, h7, h8, h9, h10, h11, h12]))
  | true =>
  cases h13 : env.DirtyOk ParentNode.Security with
  | false =>
    exact Or.inl (hfail _
      (by simp [CmpInsertSecurityCellList, h1, h2, h3, h4, h5, h6, h7, h8, h9, h10, h11, h12,
        HvMarkCellDirty_of_not_ok _ _ _ h13]))
  | true =>
  cases h14 : env.DirtyOk BlinkCell.Flink with
  | false =>
    refine Or.inl ?_
    have : CmpInsertSecurityCellList env H n c = (false, Dirtied H ParentNode.Security) := by
      simp [CmpInsertSecurityCellList, h1, h2, h3, h4, h5, h6, h7, h8, h9, h10, h11, h12,
        HvMarkCellDirty_of_ok _ _ _ h13, HvMarkCellDirty_of_not_ok _ _ _ h14]
    rw [this]
    exact ⟨rfl, rfl, rfl, rfl, rfl⟩
  | true =>
    refine Or.inr (Or.inr ⟨Node, ParentNode, BlinkCell, FlinkCell, h3,
      (HvGetCellNode_eq_some _ _ _ _ h4).2, h6, (HvGetCellNode_eq_some _ _ _ _ h7).2,
      (HvGetCellSecurity_eq_some _ _ _ _ h9).2, (HvGetCellSecurity_eq_some _ _ _ _ h11).2,
      h13, h14, ?_⟩)
    simp [CmpInsertSecurityCellList, h1, h2, h3, h4, h5, h6, h7, h8, h9, h10, h11, h12,
      HvMarkCellDirty_of_ok _ _ _ h13, HvMarkCellDirty_of_ok _ _ _ h14]

/-- What a successful `CmpAssignSecurityDescriptor` has done: shared a matching
cell, or created, inserted and referenced a new one. -/
theorem CmpAssignSecurityDescriptor_of_success (env : Env) (h : CMHIVE) (Cell : HCELL_INDEX)
    (D : List Nat)
    (hok : (CmpAssignSecurityDescriptor env h Cell D).1 = STATUS_SUCCESS) :
    env.DirtyOk Cell = true ∧
    ((∃ M X, CmpFindMatchingDescriptorCell env h D (HvGetCellType Cell) = some M ∧
        cmGet h.SecurityCells M = some X ∧ env.DirtyOk M = true ∧ env.MapOk M = true ∧
        (CmpAssignSecurityDescriptor env h Cell D).2 =
          WriteNode
            (WriteSecurity (Dirtied (Dirtied h Cell) M) M
              (fun Security =>
                { Security with ReferenceCount := ULONG_INC Security.ReferenceCount }))
            Cell (fun Node => { Node with Security := M })) ∨
     (CmpFindMatchingDescriptorCell env h D (HvGetCellType Cell) = none ∧
        CellIsFree h (env.AllocIndex (SECURITY_CELL_LENGTH D) (HvGetCellType Cell))
          (HvGetCellType Cell) = true ∧
        (CmpInsertSecurityCellList env
          (WriteSecurity
            (WithNewCell (Dirtied h Cell)
              (env.AllocIndex (SECURITY_CELL_LENGTH D) (HvGetCellType Cell))
              (SECURITY_CELL_LENGTH D))
            (env.AllocIndex (SECURITY_CELL_LENGTH D) (HvGetCellType Cell))
            (InitializeSecurityCell D))
          Cell (env.AllocIndex (SECURITY_CELL_LENGTH D) (HvGetCellType Cell))).1 = true ∧
        (CmpAssignSecurityDescriptor env h Cell D).2 =
          WriteNode
            (CmpInsertSecurityCellList env
              (WriteSecurity
                (WithNewCell (Dirtied h Cell)
                  (env.AllocIndex (SECURITY_CELL_LENGTH D) (HvGetCellType Cell))
                  (SECURITY_CELL_LENGTH D))
                (env.AllocIndex (SECURITY_CELL_LENGTH D) (HvGetCellType Cell))
                (InitializeSecurityCell D))
              Cell (env.AllocIndex (SECURITY_CELL_LENGTH D) (HvGetCellType Cell))).2
            Cell (fun Node =>
              { Node with
                Security := env.AllocIndex (SECURITY_CELL_LENGTH D) (HvGetCellType Cell) }))) := by
  have hI := STATUS_INSUFFICIENT_RESOURCES_ne
  have hL := STATUS_NO_LOG_SPACE_ne
  cases hd : env.DirtyOk Cell with
  | false =>
    simp [CmpAssignSecurityDescriptor, HvMarkCellDirty_of_not_ok _ _ _ hd, hL] at hok
  | true =>
  refine ⟨rfl, ?_⟩
  have hD1 := HvMarkCellDirty_of_ok env h _ hd
  have hfd : CmpFindMatchingDescriptorCell env (Dirtied h Cell) D (HvGetCellType Cell) =
      CmpFindMatchingDescriptorCell env h D (HvGetCellType Cell) :=
    CmpFindMatchingDescriptorCell_congr env _ _ D _ rfl rfl
  cases hfind : CmpFindMatchingDescriptorCell env h D (HvGetCellType Cell) with
  | some M =>
    refine Or.inl ?_
    rw [hfind] at hfd
    cases hdM : env.DirtyOk M with
    | false =>
      simp [CmpAssignSecurityDescriptor, hD1, hfd, HvMarkCellDirty_of_not_ok _ _ _ hdM, hL]
        at hok
    | true =>
    cases hmM : env.MapOk M with
    | false =>
      simp [CmpAssignSecurityDescriptor, hD1, hfd, HvMarkCellDirty_of_ok _ _ _ hdM,
        HvGetCellSecurity_of_not_ok _ _ _ hmM, hI] at hok
    | true =>
    cases hX : cmGet h.SecurityCells M with
    | none =>
      simp [CmpAssignSecurityDescriptor, hD1, hfd, HvMarkCellDirty_of_ok _ _ _ hdM,
        HvGetCellSecurity_of_ok _ _ _ hmM, hX, hI] at hok
    | some X =>
      refine ⟨M, X, rfl, hX, hdM, hmM, ?_⟩
      simp [CmpAssignSecurityDescriptor, hD1, hfd, HvMarkCellDirty_of_ok _ _ _ hdM,
        HvGetCellSecurity_of_ok _ _ _ hmM, hX]
  | none =>
    refine Or.inr ⟨rfl, ?_⟩
    rw [hfind] at hfd
    cases hfree : CellIsFree h (env.AllocIndex (SECURITY_CELL_LENGTH D) (HvGetCellType Cell))
        (HvGetCellType Cell) with
    | false =>
      have hA := HvAllocateCell_of_not_free env (Dirtied h Cell) (SECURITY_CELL_LENGTH D)
        (HvGetCellType Cell) hfree
      simp [CmpAssignSecurityDescriptor, hD1, hfd, hA, hI] at hok
    | true =>
    have hA := HvAllocateCell_of_free env (Dirtied h Cell) (SECURITY_CELL_LENGTH D)
      (HvGetCellType Cell) hfree
    have hNnil : env.AllocIndex (SECURITY_CELL_LENGTH D) (HvGetCellType Cell) ≠ HCELL_NIL :=
      Nat.ne_of_lt (CellIsFree_spec h _ _ hfree).1
    cases hm : env.MapOk (env.AllocIndex (SECURITY_CELL_LENGTH D) (HvGetCellType Cell)) with
    | false =>
      simp [CmpAssignSecurityDescriptor, hD1, hfd, hA, hNnil,
        HvGetCellSecurity_of_not_ok _ _ _ hm, hI] at hok
    | true =>
    cases hins : (CmpInsertSecurityCellList env
          (WriteSecurity
            (WithNewCell (Dirtied h Cell)
              (env.AllocIndex (SECURITY_CELL_LENGTH D) (HvGetCellType Cell))
              (SECURITY_CELL_LENGTH D))
            (env.AllocIndex (SECURITY_CELL_LENGTH D) (HvGetCellType Cell))
            (InitializeSecurityCell D))
          Cell (env.AllocIndex (SECURITY_CELL_LENGTH D) (HvGetCellType Cell))).1 with
    | false =>
      simp [CmpAssignSecurityDescriptor, hD1, hfd, hA, hNnil,
        HvGetCellSecurity_of_ok _ _ _ hm, cmGet_cons, hins, hL] at hok
    | true =>
      refine ⟨rfl, rfl, ?_⟩
      simp [CmpAssignSecurityDescriptor, hD1, hfd, hA, hNnil,
        HvGetCellSecurity_of_ok _ _ _ hm, cmGet_cons, hins]

/-! ## Reference counts -/

/-- Counting after a store through a pointer to one cell. -/
theorem countP_cmModify {α : Type} (p : HCELL_INDEX × α → Bool) (m : List (HCELL_INDEX × α))
    (k : HCELL_INDEX) (f : α → α) (v : α) (hk : cmGet m k = some v) :
    (cmModify m k f).countP p + (if p (k, v) then 1 else 0)
      = m.countP p + (if p (k, f v) then 1 else 0) := by
  induction m with
  | nil => simp at hk
  | cons e t ih =>
    obtain ⟨a, w⟩ := e
    by_cases hak : a = k
    · subst hak
      simp [cmGet_cons] at hk
      subst hk
      simp only [cmModify, if_true, List.countP_cons]
      omega
    · simp [cmGet_cons, hak] at hk
      have := ih hk
      simp only [cmModify, if_neg hak, List.countP_cons]
      omega

theorem cmModify_of_none {α : Type}
    (m : List (HCELL_INDEX × α)) (k : HCELL_INDEX) (f : α → α) (hk : cmGet m k = none) :
    cmModify m k f = m := by
  induction m with
  | nil => rfl
  | cons e t ih =>
    obtain ⟨a, w⟩ := e
    by_cases hak : a = k
    · simp [cmGet_cons, hak] at hk
    · simp [cmGet_cons, hak] at hk
      simp [cmModify, hak, ih hk]

/-- References after the `Security` field of one node changed from `a` to `b`. -/
theorem ReferencesTo_after_write (h h1 : CMHIVE) (kc : HCELL_INDEX) (g : CM_KEY_NODE → CM_KEY_NODE)
    (Node : CM_KEY_NODE) (hnode : cmGet h.KeyNodes kc = some Node)
    (hnodes : h1.KeyNodes = cmModify h.KeyNodes kc g) (c : HCELL_INDEX) :
    ReferencesTo h1 c + (if Node.Security = c then 1 else 0)
      = ReferencesTo h c + (if (g Node).Security = c then 1 else 0) := by
  unfold ReferencesTo
  rw [hnodes]
  have := countP_cmModify (fun e : HCELL_INDEX × CM_KEY_NODE => decide (e.2.Security = c))
    h.KeyNodes kc g Node hnode
  simpa using this

theorem ReferencesTo_le_length (h : CMHIVE) (c : HCELL_INDEX) :
    ReferencesTo h c ≤ h.KeyNodes.length :=
  List.countP_le_length _

/-- A node that does not refer to `c` is not among the references to `c`. -/
theorem ReferencesTo_lt_length (h : CMHIVE) (kc : HCELL_INDEX) (Node : CM_KEY_NODE)
    (hnode : cmGet h.KeyNodes kc = some Node) (c : HCELL_INDEX) (hne : Node.Security ≠ c) :
    ReferencesTo h c < h.KeyNodes.length := by
  unfold ReferencesTo
  apply lt_of_le_of_ne (List.countP_le_length _)
  intro hc
  have := (List.countP_eq_length.mp hc) (kc, Node) (cmGet_mem _ _ _ hnode)
  exact hne (by simpa using this)

theorem length_cmModify {α : Type} (m : List (HCELL_INDEX × α)) (c : HCELL_INDEX)
    (f : α → α) : (cmModify m c f).length = m.length := by
  have := congrArg List.length (cmKeys_cmModify m c f)
  simpa [cmKeys] using this

/-- Conservation of the reference counts across a step that moves the reference
of one node from the cell `a` to the cell `b`, lowering the count of `a` (or
freeing it when the count was 1) and raising the count of `b` (or creating it
with count 1). -/
theorem RefCountsConserved_step (h h1 : CMHIVE) (kc : HCELL_INDEX)
    (g : CM_KEY_NODE → CM_KEY_NODE) (Node : CM_KEY_NODE)
    (hinv : RefCountsConserved h)
    (hnode : cmGet h.KeyNodes kc = some Node)
    (hnodes : h1.KeyNodes = cmModify h.KeyNodes kc g)
    (hnil : cmGet h1.SecurityCells HCELL_NIL = none)
    (hrc : ∀ c, c ≠ HCELL_NIL →
      (cmGet h1.SecurityCells c).map CM_KEY_SECURITY.ReferenceCount =
        if Node.Security = (g Node).Security then
          (cmGet h.SecurityCells c).map CM_KEY_SECURITY.ReferenceCount
        else if c = Node.Security then
          (if (cmGet h.SecurityCells c).map CM_KEY_SECURITY.ReferenceCount = some 1 then none
           else (cmGet h.SecurityCells c).map (fun X => ULONG_DEC X.ReferenceCount))
        else if c = (g Node).Security then
          some (match cmGet h.SecurityCells c with
            | some X => ULONG_INC X.ReferenceCount
            | none => 1)
        else (cmGet h.SecurityCells c).map CM_KEY_SECURITY.ReferenceCount) :
    RefCountsConserved h1 := by
  obtain ⟨hnd, hlen, _, hlive, hdang⟩ := hinv
  have hcount := ReferencesTo_after_write h h1 kc g Node hnode hnodes
  refine ⟨?_, ?_, hnil, ?_, ?_⟩
  · rw [hnodes, cmKeys_cmModify]
    exact hnd
  · rw [hnodes, length_cmModify]
    exact hlen
  · intro c S1 hc1
    have hcnil : c ≠ HCELL_NIL := by
      intro hc
      rw [hc, hnil] at hc1
      cases hc1
    have hr := hrc c hcnil
    have hcnt := hcount c
    rw [hc1] at hr
    simp only [Option.map_some'] at hr
    by_cases hab : Node.Security = (g Node).Security
    · simp only [if_pos hab] at hr
      cases hc : cmGet h.SecurityCells c with
      | none => simp [hc] at hr
      | some S =>
        simp only [hc, Option.map_some', Option.some.injEq] at hr
        obtain ⟨h1', h2'⟩ := hlive c S hc
        rw [hab] at hcnt
        constructor <;> omega
    · simp only [if_neg hab] at hr
      by_cases hca : c = Node.Security
      · simp only [if_pos hca] at hr
        cases hc : cmGet h.SecurityCells c with
        | none => simp [hc] at hr
        | some S =>
          obtain ⟨h1', h2'⟩ := hlive c S hc
          have hle := ReferencesTo_le_length h c
          by_cases hS1 : S.ReferenceCount = 1
          · simp [hc, hS1] at hr
          · simp only [hc, Option.map_some', Option.some.injEq, hS1, if_false] at hr
            have hdec := ULONG_DEC_eq S.ReferenceCount h2' (by omega)
            have hcb : ¬ (g Node).Security = c := fun hx => hab (hca.symm.trans hx.symm)
            rw [if_pos hca.symm, if_neg hcb] at hcnt
            constructor <;> omega
      · simp only [if_neg hca] at hr
        have hac : ¬ Node.Security = c := fun hx => hca hx.symm
        by_cases hcb : c = (g Node).Security
        · simp only [if_pos hcb, Option.some.injEq] at hr
          rw [if_neg hac, if_pos hcb.symm] at hcnt
          cases hc : cmGet h.SecurityCells c with
          | none =>
            have := hdang c hcnil hc
            simp only [hc] at hr
            constructor <;> omega
          | some S =>
            obtain ⟨h1', h2'⟩ := hlive c S hc
            have hlt := ReferencesTo_lt_length h kc Node hnode c hac
            simp only [hc] at hr
            have hinc := ULONG_INC_eq S.ReferenceCount (by omega)
            constructor <;> omega
        · simp only [if_neg hcb] at hr
          have hbc : ¬ (g Node).Security = c := fun hx => hcb hx.symm
          rw [if_neg hac, if_neg hbc] at hcnt
          cases hc : cmGet h.SecurityCells c with
          | none => simp [hc] at hr
          | some S =>
            simp only [hc, Option.map_some', Option.some.injEq] at hr
            obtain ⟨h1', h2'⟩ := hlive c S hc
            constructor <;> omega
  · intro c hcnil hc1
    have hr := hrc c hcnil
    have hcnt := hcount c
    rw [hc1] at hr
    simp only [Option.map_none'] at hr
    by_cases hab : Node.Security = (g Node).Security
    · simp only [if_pos hab] at hr
      cases hc : cmGet h.SecurityCells c with
      | some S => simp [hc] at hr
      | none =>
        have := hdang c hcnil hc
        rw [hab] at hcnt
        omega
    · simp only [if_neg hab] at hr
      by_cases hca : c = Node.Security
      · have hcb : ¬ (g Node).Security = c := fun hx => hab (hca.symm.trans hx.symm)
        rw [if_pos hca.symm, if_neg hcb] at hcnt
        cases hc : cmGet h.SecurityCells c with
        | none =>
          have := hdang c hcnil hc
          omega
        | some S =>
          obtain ⟨h1', h2'⟩ := hlive c S hc
          by_cases hS1 : S.ReferenceCount = 1
          · omega
          · simp [if_pos hca, hc, hS1] at hr
      · simp only [if_neg hca] at hr
        have hac : ¬ Node.Security = c := fun hx => hca hx.symm
        by_cases hcb : c = (g Node).Security
        · simp [if_pos hcb] at hr
        · simp only [if_neg hcb] at hr
          have hbc : ¬ (g Node).Security = c := fun hx => hcb hx.symm
          rw [if_neg hac, if_neg hbc] at hcnt
          cases hc : cmGet h.SecurityCells c with
          | some S => simp [hc] at hr
          | none =>
            have := hdang c hcnil hc
            omega

theorem CellContents_rc (o : Option CM_KEY_SECURITY) :
    o.map CM_KEY_SECURITY.ReferenceCount = (o.map CellContents).map Prod.fst := by
  cases o <;> rfl

/-- A successful set conserves the reference counts. -/
theorem set_conserves_refcounts (env : Env) (h : CMHIVE) (Key : CM_KEY_CONTROL_BLOCK)
    (info : Nat) (md : List Nat)
    (hinv : RefCountsConserved h) (hring : RingLinked h)
    (hok : (CmpSetSecurityDescriptorInfo env h Key info md).Status
      = Outcome.Returned STATUS_SUCCESS) :
    RefCountsConserved (CmpSetSecurityDescriptorInfo env h Key info md).Hive := by
  obtain ⟨Node, S, hnode, hsec, _, _, _, _, heq⟩ :=
    CmpSetSecurityDescriptorInfo_of_success env h Key info md hok
  obtain ⟨⟨F, hflink, _⟩, ⟨B, hblink, _⟩⟩ := hring _ _ hsec
  have hnilh : cmGet h.SecurityCells HCELL_NIL = none := hinv.2.2.1
  have hSpos : 0 < S.ReferenceCount := (hinv.2.2.2.1 _ _ hsec).2
  have hSnil : Node.Security ≠ HCELL_NIL := by
    intro hc
    rw [hc, hnilh] at hsec
    cases hsec
  cases hfind : CmpFindMatchingDescriptorCell env h
      (env.SeSetSecurityDescriptorInfo info md S.Descriptor).2 (HvGetCellType Key.KeyCell) with
  | some M =>
    by_cases hM : M = Node.Security
    · apply RefCountsConserved_step h _ Key.KeyCell
        (fun N => { N with LastWriteTime := env.SystemTime }) Node hinv hnode
      · rw [heq]
        simp [SetSecurityStore, hfind, hM]
      · rw [heq]
        simpa [SetSecurityStore, hfind, hM] using hnilh
      · intro c _
        rw [heq]
        simp [SetSecurityStore, hfind, hM]
    · obtain ⟨_, _, hMlive, hHive, _⟩ :=
        set_share_existing_effect env h Key info md Node S _ M hnode hsec rfl hfind hM hok
      have hcont := ShareExistingReleased_contents env (SetSecurityDirtied h Key Node.Security)
        Node.Security S M
      simp only [SetSecurityDirtied_SecurityCells] at hcont
      apply RefCountsConserved_step h _ Key.KeyCell
        (fun N => { N with Security := M, LastWriteTime := env.SystemTime }) Node hinv hnode
      · rw [hHive]
        simp [cmModify_cmModify]
      · rw [hHive]
        have := hcont HCELL_NIL
        rw [if_neg (fun hc => hSnil hc.symm), hnilh] at this
        simp only [WriteNode_SecurityCells, WriteSecurity_SecurityCells]
        rw [cmGet_cmModify_eq_none]
        cases hx : cmGet (ShareExistingReleased env (SetSecurityDirtied h Key Node.Security)
            Node.Security S M).SecurityCells HCELL_NIL with
        | none => rfl
        | some X => simp [hx] at this
      · intro c _
        have hSM : ¬ Node.Security = M := fun hc => hM hc.symm
        rw [hHive]
        simp only [WriteNode_SecurityCells, WriteSecurity_SecurityCells, cmGet_cmModify,
          if_neg hSM]
        by_cases hcM : c = M
        · subst hcM
          have hc := hcont c
          rw [if_neg hM] at hc
          cases hx : cmGet (ShareExistingReleased env (SetSecurityDirtied h Key Node.Security)
              Node.Security S c).SecurityCells c with
          | none => simp [hx] at hMlive
          | some X =>
            cases hy : cmGet h.SecurityCells c with
            | none => simp [hx, hy] at hc
            | some Y =>
              simp only [hx, hy, Option.map_some', Option.some.injEq, CellContents,
                Prod.mk.injEq] at hc
              simp [hM, hc.1]
        · have hc := congrArg (Option.map Prod.fst) (hcont c)
          rw [← CellContents_rc] at hc
          simp only [if_neg hcM]
          rw [hc]
          by_cases hcS : c = Node.Security
          · subst hcS
            by_cases hS1 : S.ReferenceCount = 1
            · simp [hS1, hsec]
            · simp [hS1, hsec]
          · simp only [if_neg hcS]
            rw [← CellContents_rc]
  | none =>
    by_cases hrc : 1 < S.ReferenceCount
    · obtain ⟨hfree, _, hNodes, hCells, _⟩ :=
        set_copy_on_write_effect env h Key info md Node S F _ _ hnode hsec hflink rfl rfl hfind
          hrc hok
      obtain ⟨hlt, _, hnone, _⟩ := CellIsFree_spec h _ _ hfree
      have hget := cmGet_CopyOnWriteCells h.SecurityCells _ Node.Security S F
        (env.SeSetSecurityDescriptorInfo info md S.Descriptor).2 hnone hsec hflink
      have hNS : ¬ Node.Security = env.AllocIndex
          (SECURITY_CELL_LENGTH (env.SeSetSecurityDescriptorInfo info md S.Descriptor).2)
          (HvGetCellType Key.KeyCell) := by
        intro hc
        rw [← hc, hsec] at hnone
        cases hnone
      apply RefCountsConserved_step h _ Key.KeyCell
        (fun N => { N with
          Security := env.AllocIndex
            (SECURITY_CELL_LENGTH (env.SeSetSecurityDescriptorInfo info md S.Descriptor).2)
            (HvGetCellType Key.KeyCell),
          LastWriteTime := env.SystemTime }) Node hinv hnode
      · rw [hNodes]
        simp [cmModify_cmModify]
      · rw [hCells, hget]
        have : ¬ HCELL_NIL = env.AllocIndex
            (SECURITY_CELL_LENGTH (env.SeSetSecurityDescriptorInfo info md S.Descriptor).2)
            (HvGetCellType Key.KeyCell) := fun hc => (Nat.ne_of_lt hlt) hc.symm
        simp [this, hnilh]
      · intro c _
        rw [hCells, hget]
        simp only [if_neg hNS]
        by_cases hcN : c = env.AllocIndex
            (SECURITY_CELL_LENGTH (env.SeSetSecurityDescriptorInfo info md S.Descriptor).2)
            (HvGetCellType Key.KeyCell)
        · subst hcN
          have hcS : ¬ env.AllocIndex
            (SECURITY_CELL_LENGTH (env.SeSetSecurityDescriptorInfo info md S.Descriptor).2)
            (HvGetCellType Key.KeyCell) = Node.Security := fun hc => hNS hc.symm
          simp [hcS, hnone]
        · simp only [if_neg hcN]
          by_cases hcS : c = Node.Security
          · subst hcS
            have : S.ReferenceCount ≠ 1 := by omega
            simp [hsec, this]
          · cases hx : cmGet h.SecurityCells c <;> simp [hcS, hx]
    · by_cases hlen : RtlLengthSecurityDescriptor
          (env.SeSetSecurityDescriptorInfo info md S.Descriptor).2 = S.DescriptorLength
      · obtain ⟨_, hN, hC, _⟩ :=
          set_in_place_effect env h Key info md Node S _ hnode hsec rfl hfind hrc hlen hok
        apply RefCountsConserved_step h _ Key.KeyCell
          (fun N => { N with LastWriteTime := env.SystemTime }) Node hinv hnode hN
        · rw [hC, cmGet_cmModify_eq_none]
          exact hnilh
        · intro c _
          rw [hC, cmGet_cmModify]
          by_cases hcS : c = Node.Security
          · subst hcS
            simp [hsec]
          · simp [hcS]
      · obtain ⟨hnew, _, hNodes, hCells, _⟩ :=
          set_reallocate_effect env h Key info md Node S F B _ _ hnode hsec hflink hblink rfl
            rfl hfind hrc hlen hok
        have hS1 : S.ReferenceCount = 1 := by omega
        have hnew' : env.ReallocIndex Node.Security (SECURITY_CELL_LENGTH
              (env.SeSetSecurityDescriptorInfo info md S.Descriptor).2) = Node.Security ∨
            cmGet h.SecurityCells (env.ReallocIndex Node.Security (SECURITY_CELL_LENGTH
              (env.SeSetSecurityDescriptorInfo info md S.Descriptor).2)) = none := by
          rcases hnew with hn | hn
          · exact Or.inl hn
          · exact Or.inr (CellIsFree_spec h _ _ hn).2.2.1
        have hNewnil : ¬ HCELL_NIL = env.ReallocIndex Node.Security (SECURITY_CELL_LENGTH
              (env.SeSetSecurityDescriptorInfo info md S.Descriptor).2) := by
          rcases hnew with hn | hn
          · rw [hn]
            exact fun hc => hSnil hc.symm
          · have := (CellIsFree_spec h _ _ hn).1
            exact fun hc => (Nat.ne_of_lt this) hc.symm
        have hget := cmGet_ReallocatedCells h.SecurityCells Node.Security _ S F B
          (env.SeSetSecurityDescriptorInfo info md S.Descriptor).2 hsec hflink hblink hnew'
        apply RefCountsConserved_step h _ Key.KeyCell
          (fun N => { N with
            Security := env.ReallocIndex Node.Security (SECURITY_CELL_LENGTH
              (env.SeSetSecurityDescriptorInfo info md S.Descriptor).2),
            LastWriteTime := env.SystemTime }) Node hinv hnode
        · rw [hNodes]
          simp [cmModify_cmModify]
        · rw [hCells, hget]
          simp [hNewnil, hnilh, fun hc : HCELL_NIL = Node.Security => hSnil hc.symm]
        · intro c _
          rw [hCells, hget]
          by_cases hON : Node.Security = env.ReallocIndex Node.Security (SECURITY_CELL_LENGTH
              (env.SeSetSecurityDescriptorInfo info md S.Descriptor).2)
          · simp only [if_pos hON]
            by_cases hcN : c = env.ReallocIndex Node.Security (SECURITY_CELL_LENGTH
              (env.SeSetSecurityDescriptorInfo info md S.Descriptor).2)
            · rw [if_pos hcN, hcN, ← hON, hsec]
              rfl
            · have hcS : ¬ c = Node.Security := by rw [hON]; exact hcN
              cases hx : cmGet h.SecurityCells c <;> simp [hcN, hcS, hx]
          · simp only [if_neg hON]
            by_cases hcN : c = env.ReallocIndex Node.Security (SECURITY_CELL_LENGTH
              (env.SeSetSecurityDescriptorInfo info md S.Descriptor).2)
            · have hcS : ¬ c = Node.Security := by
                rw [hcN]
                exact fun hc => hON hc.symm
              have hnone : cmGet h.SecurityCells c = none := by
                rcases hnew' with hn | hn
                · exact absurd hn.symm hON
                · rw [hcN]
                  exact hn
              have hNO : ¬ env.ReallocIndex Node.Security (SECURITY_CELL_LENGTH
                (env.SeSetSecurityDescriptorInfo info md S.Descriptor).2) = Node.Security :=
                fun hc => hON hc.symm
              have hnone2 := hnone
              rw [hcN] at hnone2
              simp [hcN, hS1, hNO, hnone2]
            · by_cases hcS : c = Node.Security
              · subst hcS
                simp [hcN, hsec, hS1]
              · cases hx : cmGet h.SecurityCells c <;> simp [hcN, hcS, hx]

/-- A store that changes ring links only keeps count, length and bytes. -/
theorem cmGet_cmModify_contents (cells : List (HCELL_INDEX × CM_KEY_SECURITY))
    (c k : HCELL_INDEX) (f : CM_KEY_SECURITY → CM_KEY_SECURITY)
    (hf : ∀ X, CellContents (f X) = CellContents X) :
    (cmGet (cmModify cells c f) k).map CellContents = (cmGet cells k).map CellContents := by
  rw [cmGet_cmModify]
  by_cases hk : k = c
  · subst hk
    cases hx : cmGet cells k <;> simp [hf]
  · simp [hk]

/-- The insertion into the ring changes ring links only. -/
theorem CmpInsertSecurityCellList_contents (env : Env) (H : CMHIVE) (n c k : HCELL_INDEX) :
    (cmGet (CmpInsertSecurityCellList env H n c).2.SecurityCells k).map CellContents =
      (cmGet H.SecurityCells k).map CellContents := by
  rcases CmpInsertSecurityCellList_cases env H n c with
    ⟨_, _, hc, _⟩ | ⟨_, heq⟩ | ⟨Node, ParentNode, BlinkCell, FlinkCell, _, _, _, _, _, _, _, _, heq⟩
  · rw [hc]
  · rw [heq]
    simp only [CmpInsertSecurityCellListCache_SecurityCells, WriteSecurity_SecurityCells]
    exact cmGet_cmModify_contents _ _ _ _ (fun _ => rfl)
  · rw [heq]
    simp only [CmpInsertSecurityCellListCache_SecurityCells, WriteSecurity_SecurityCells,
      Dirtied_SecurityCells]
    refine (cmGet_cmModify_contents _ _ _ _ ?_).trans
      ((cmGet_cmModify_contents _ _ _ _ ?_).trans
        ((cmGet_cmModify_contents _ _ _ _ ?_).trans (cmGet_cmModify_contents _ _ _ _ ?_)))
    all_goals intro _; rfl

@[simp] theorem CmpInsertSecurityCellList_KeyNodes (env : Env) (H : CMHIVE)
    (n c : HCELL_INDEX) :
    (CmpInsertSecurityCellList env H n c).2.KeyNodes = H.KeyNodes := by
  rcases CmpInsertSecurityCellList_cases env H n c with
    ⟨_, hk, _⟩ | ⟨_, heq⟩ | ⟨Node, ParentNode, BlinkCell, FlinkCell, _, _, _, _, _, _, _, _, heq⟩
  · exact hk
  · rw [heq]
    simp
  · rw [heq]
    simp

/-- A successful assign conserves the reference counts. -/
theorem assign_conserves_refcounts (env : Env) (h : CMHIVE) (Cell : HCELL_INDEX)
    (D : List Nat) (hinv : RefCountsConserved h)
    (hnew : (cmGet h.KeyNodes Cell).map CM_KEY_NODE.Security = some HCELL_NIL)
    (hok : (CmpAssignSecurityDescriptor env h Cell D).1 = STATUS_SUCCESS) :
    RefCountsConserved (CmpAssignSecurityDescriptor env h Cell D).2 := by
  have hnilh : cmGet h.SecurityCells HCELL_NIL = none := hinv.2.2.1
  cases hnode : cmGet h.KeyNodes Cell with
  | none => rw [hnode] at hnew; cases hnew
  | some Node =>
  have hNS : Node.Security = HCELL_NIL := by
    rw [hnode] at hnew
    simpa using hnew
  obtain ⟨_, hcase⟩ := CmpAssignSecurityDescriptor_of_success env h Cell D hok
  rcases hcase with ⟨M, X, _, hX, _, _, heq⟩ | ⟨_, hfree, _, heq⟩
  · have hMnil : M ≠ HCELL_NIL := by
      intro hc
      rw [hc, hnilh] at hX
      cases hX
    apply RefCountsConserved_step h _ Cell (fun Node => { Node with Security := M }) Node hinv
      hnode
    · rw [heq]; rfl
    · rw [heq]
      simp only [WriteNode_SecurityCells, WriteSecurity_SecurityCells, Dirtied_SecurityCells]
      rw [cmGet_cmModify_eq_none]
      exact hnilh
    · intro c hc
      rw [heq]
      have hNM : ¬ HCELL_NIL = M := fun e => hMnil e.symm
      simp only [WriteNode_SecurityCells, WriteSecurity_SecurityCells, Dirtied_SecurityCells,
        cmGet_cmModify, hNS]
      by_cases hcM : c = M
      · subst hcM
        simp [hX, hNM, hc]
      · simp [hcM, hNM, hc]
  · obtain ⟨hlt, _, hnone, _⟩ := CellIsFree_spec h _ _ hfree
    have hNnil : env.AllocIndex (SECURITY_CELL_LENGTH D) (HvGetCellType Cell) ≠ HCELL_NIL :=
      Nat.ne_of_lt hlt
    have hcont := fun k => CmpInsertSecurityCellList_contents env
      (WriteSecurity
        (WithNewCell (Dirtied h Cell)
          (env.AllocIndex (SECURITY_CELL_LENGTH D) (HvGetCellType Cell))
          (SECURITY_CELL_LENGTH D))
        (env.AllocIndex (SECURITY_CELL_LENGTH D) (HvGetCellType Cell))
        (InitializeSecurityCell D))
      Cell (env.AllocIndex (SECURITY_CELL_LENGTH D) (HvGetCellType Cell)) k
    apply RefCountsConserved_step h _ Cell
      (fun Node => { Node with
        Security := env.AllocIndex (SECURITY_CELL_LENGTH D) (HvGetCellType Cell) }) Node hinv
      hnode
    · rw [heq]
      simp
    · rw [heq]
      have := hcont HCELL_NIL
      simp only [WriteNode_SecurityCells]
      cases hx : cmGet (CmpInsertSecurityCellList env
        (WriteSecurity
          (WithNewCell (Dirtied h Cell)
            (env.AllocIndex (SECURITY_CELL_LENGTH D) (HvGetCellType Cell))
            (SECURITY_CELL_LENGTH D))
          (env.AllocIndex (SECURITY_CELL_LENGTH D) (HvGetCellType Cell))
          (InitializeSecurityCell D))
        Cell (env.AllocIndex (SECURITY_CELL_LENGTH D) (HvGetCellType Cell))).2.SecurityCells
        HCELL_NIL with
      | none => rfl
      | some Y =>
        rw [hx] at this
        have hNN : ¬ HCELL_NIL = env.AllocIndex (SECURITY_CELL_LENGTH D) (HvGetCellType Cell) :=
          fun e => hNnil e.symm
        simp [cmGet_cmModify, cmGet_cons, hNnil, hNN, hnilh] at this
    · intro c hc
      rw [heq]
      simp only [WriteNode_SecurityCells, hNS]
      have hNN : ¬ HCELL_NIL = env.AllocIndex (SECURITY_CELL_LENGTH D) (HvGetCellType Cell) :=
        fun e => hNnil e.symm
      rw [CellContents_rc, hcont c, ← CellContents_rc, if_neg hNN, if_neg hc]
      by_cases hcN : c = env.AllocIndex (SECURITY_CELL_LENGTH D) (HvGetCellType Cell)
      · subst hcN
        simp [cmGet_cmModify, cmGet_cons, hnone, InitializeSecurityCell]
      · have hNc : ¬ env.AllocIndex (SECURITY_CELL_LENGTH D) (HvGetCellType Cell) = c :=
          fun e => hcN e.symm
        simp [cmGet_cmModify, cmGet_cons, hcN, hNc]

/-- Every release conserves the reference counts. -/
theorem free_conserves_refcounts (env : Env) (h : CMHIVE) (Cell : HCELL_INDEX)
    (hinv : RefCountsConserved h) :
    RefCountsConserved (CmpFreeSecurityDescriptor env h Cell) := by
  have hnilh : cmGet h.SecurityCells HCELL_NIL = none := hinv.2.2.1
  cases hn : HvGetCellNode env h Cell with
  | none =>
    have : CmpFreeSecurityDescriptor env h Cell = h := by
      simp [CmpFreeSecurityDescriptor, hn]
    rw [this]
    exact hinv
  | some Node =>
  cases hs : HvGetCellSecurity env h Node.Security with
  | none =>
    have : CmpFreeSecurityDescriptor env h Cell = h := by
      simp [CmpFreeSecurityDescriptor, hn, hs]
    rw [this]
    exact hinv
  | some S =>
  have hnode := (HvGetCellNode_eq_some _ _ _ _ hn).2
  have hsec := (HvGetCellSecurity_eq_some _ _ _ _ hs).2
  have hSnil : ¬ Node.Security = HCELL_NIL := by
    intro hc
    rw [hc, hnilh] at hsec
    cases hsec
  have heq : CmpFreeSecurityDescriptor env h Cell =
      WriteNode
        (if S.ReferenceCount = 1 then
          HvFreeCell (CmpRemoveSecurityCellList env h Node.Security) Node.Security
         else
          WriteSecurity h Node.Security
            (fun S => { S with ReferenceCount := ULONG_DEC S.ReferenceCount }))
        Cell (fun N => { N with Security := HCELL_NIL }) := by
    simp [CmpFreeSecurityDescriptor, hn, hs]
  rw [heq]
  apply RefCountsConserved_step h _ Cell (fun N => { N with Security := HCELL_NIL }) Node hinv
    hnode
  · by_cases h1 : S.ReferenceCount = 1 <;> simp [h1]
  · by_cases h1 : S.ReferenceCount = 1
    · simp only [if_pos h1, WriteNode_SecurityCells, HvFreeCell_SecurityCells, cmGet_cmErase]
      have := CmpRemoveSecurityCellList_contents env h Node.Security HCELL_NIL
      rw [hnilh] at this
      cases hx : cmGet (CmpRemoveSecurityCellList env h Node.Security).SecurityCells HCELL_NIL
      · simp
      · rw [hx] at this
        cases this
    · simp only [if_neg h1, WriteNode_SecurityCells, WriteSecurity_SecurityCells]
      rw [cmGet_cmModify_eq_none]
      exact hnilh
  · intro c hc
    simp only [if_neg hSnil]
    by_cases h1 : S.ReferenceCount = 1
    · simp only [if_pos h1, WriteNode_SecurityCells, HvFreeCell_SecurityCells, cmGet_cmErase]
      by_cases hcS : c = Node.Security
      · subst hcS
        simp [hsec, h1]
      · rw [if_neg hcS, if_neg hcS, if_neg hc, CellContents_rc,
          CmpRemoveSecurityCellList_contents, ← CellContents_rc]
    · simp only [if_neg h1, WriteNode_SecurityCells, WriteSecurity_SecurityCells,
        cmGet_cmModify]
      by_cases hcS : c = Node.Security
      · subst hcS
        simp [hsec, h1]
      · simp [hcS, hc]

/-- Reference-count conservation from checks over the entries of the hive. -/
theorem RefCountsConserved_of_forall_mem (h : CMHIVE)
    (hnd : (cmKeys h.KeyNodes).Nodup) (hlen : h.KeyNodes.length < 4294967296)
    (hnil : cmGet h.SecurityCells HCELL_NIL = none)
    (hlive : ∀ e ∈ h.SecurityCells,
      e.2.ReferenceCount = ReferencesTo h e.1 ∧ 0 < e.2.ReferenceCount)
    (hdang : ∀ e ∈ h.KeyNodes,
      e.2.Security = HCELL_NIL ∨ (cmGet h.SecurityCells e.2.Security).isSome = true) :
    RefCountsConserved h := by
  refine ⟨hnd, hlen, hnil, fun c S hc => hlive _ (cmGet_mem _ _ _ hc), ?_⟩
  intro c hc hnone
  unfold ReferencesTo
  rw [List.countP_eq_zero]
  intro e he
  rcases hdang e he with h1 | h1
  · simp only [h1, decide_eq_true_eq]
    exact fun x => hc x.symm
  · intro h2
    simp only [decide_eq_true_eq] at h2
    rw [h2, hnone] at h1
    cases h1

/-! ## Ring link consistency -/

/-- Taking a cell out of a linked ring, its two neighbours joined, leaves a
linked ring. -/
theorem LinkedRing_unlink (L L1 : HCELL_INDEX → Option (HCELL_INDEX × HCELL_INDEX))
    (c f b : HCELL_INDEX)
    (hL : LinkedRing L) (hc : L c = some (f, b))
    (h1 : ∀ k, L1 k = if k = c then none else
      (L k).map (fun p => (if k = b then f else p.1, if k = f then b else p.2))) :
    LinkedRing L1 := by
  intro k f1 b1 hk
  rw [h1] at hk
  by_cases hkc : k = c
  · simp [hkc] at hk
  rw [if_neg hkc] at hk
  cases hLk : L k with
  | none => simp [hLk] at hk
  | some p =>
  obtain ⟨f0, b0⟩ := p
  simp only [hLk, Option.map_some', Option.some.injEq, Prod.mk.injEq] at hk
  obtain ⟨hf1, hb1⟩ := hk
  obtain ⟨⟨x, hx⟩, ⟨y, hy⟩⟩ := hL c f b hc
  obtain ⟨⟨x0, hx0⟩, ⟨y0, hy0⟩⟩ := hL k f0 b0 hLk
  constructor
  · rw [h1]
    by_cases hkb : k = b
    · rw [if_pos hkb] at hf1
      subst hf1
      have hfc : ¬ f = c := by
        intro e
        rw [e, hc] at hx
        simp at hx
        simp_all
      simp [hfc, hx, hkb]
    · rw [if_neg hkb] at hf1
      subst hf1
      have hfc : ¬ f0 = c := by
        intro e
        rw [e, hc] at hx0
        simp at hx0
        simp_all
      have hff : ¬ f0 = f := by
        intro e
        rw [e, hx] at hx0
        simp at hx0
        simp_all
      simp [hfc, hff, hx0]
  · rw [h1]
    by_cases hkf : k = f
    · rw [if_pos hkf] at hb1
      subst hb1
      have hbc : ¬ b = c := by
        intro e
        rw [e, hc] at hy
        simp at hy
        simp_all
      simp [hbc, hy, hkf]
    · rw [if_neg hkf] at hb1
      subst hb1
      have hbc : ¬ b0 = c := by
        intro e
        rw [e, hc] at hy0
        simp at hy0
        simp_all
      have hbb : ¬ b0 = b := by
        intro e
        rw [e, hy] at hy0
        simp at hy0
        simp_all
      simp [hbc, hbb, hy0]

/-- Equal links, equal rings. -/
theorem LinkedRing_congr (L L1 : HCELL_INDEX → Option (HCELL_INDEX × HCELL_INDEX))
    (hL : LinkedRing L)
    (h1 : ∀ k, L1 k = L k) : LinkedRing L1 := by
  have : L1 = L := funext h1
  rw [this]
  exact hL

/-- A new cell linked to itself leaves the links consistent. -/
theorem LinkedRing_single (L L1 : HCELL_INDEX → Option (HCELL_INDEX × HCELL_INDEX))
    (n : HCELL_INDEX)
    (hL : LinkedRing L) (hn : L n = none)
    (h1 : ∀ k, L1 k = if k = n then some (n, n) else L k) : LinkedRing L1 := by
  intro k f1 b1 hk
  rw [h1] at hk
  by_cases hkn : k = n
  · rw [if_pos hkn] at hk
    simp only [Option.some.injEq, Prod.mk.injEq] at hk
    obtain ⟨hf, hb⟩ := hk
    subst hf hb
    subst hkn
    rw [h1]
    simp
  · rw [if_neg hkn] at hk
    obtain ⟨⟨x0, hx0⟩, ⟨y0, hy0⟩⟩ := hL k f1 b1 hk
    have hfn : ¬ f1 = n := by
      intro e
      rw [e, hn] at hx0
      cases hx0
    have hbn : ¬ b1 = n := by
      intro e
      rw [e, hn] at hy0
      cases hy0
    rw [h1, h1, if_neg hfn, if_neg hbn]
    exact ⟨⟨x0, hx0⟩, ⟨y0, hy0⟩⟩

/-- Splicing a new cell right after a live cell leaves the links consistent. -/
theorem LinkedRing_splice (L L1 : HCELL_INDEX → Option (HCELL_INDEX × HCELL_INDEX))
    (n p f b : HCELL_INDEX)
    (hL : LinkedRing L) (hn : L n = none) (hp : L p = some (f, b))
    (h1 : ∀ k, L1 k = if k = n then some (f, p) else
      (L k).map (fun q => (if k = p then n else q.1, if k = f then n else q.2))) :
    LinkedRing L1 := by
  obtain ⟨⟨x, hx⟩, ⟨y, hy⟩⟩ := hL p f b hp
  have hpn : ¬ p = n := by
    intro e
    rw [e, hn] at hp
    cases hp
  have hfn : ¬ f = n := by
    intro e
    rw [e, hn] at hx
    cases hx
  intro k f1 b1 hk
  rw [h1] at hk
  by_cases hkn : k = n
  · rw [if_pos hkn] at hk
    simp only [Option.some.injEq, Prod.mk.injEq] at hk
    obtain ⟨hf, hb⟩ := hk
    subst hf hb
    rw [h1, h1]
    simp [hfn, hpn, hx, hp, hkn]
  · rw [if_neg hkn] at hk
    cases hLk : L k with
    | none => simp [hLk] at hk
    | some q =>
    obtain ⟨f0, b0⟩ := q
    simp only [hLk, Option.map_some', Option.some.injEq, Prod.mk.injEq] at hk
    obtain ⟨hf1, hb1⟩ := hk
    obtain ⟨⟨x0, hx0⟩, ⟨y0, hy0⟩⟩ := hL k f0 b0 hLk
    constructor
    · rw [h1]
      by_cases hkp : k = p
      · rw [if_pos hkp] at hf1
        subst hf1
        simp [hkp]
      · rw [if_neg hkp] at hf1
        subst hf1
        have h0n : ¬ f0 = n := by
          intro e
          rw [e, hn] at hx0
          cases hx0
        have h0f : ¬ f0 = f := by
          intro e
          rw [e, hx] at hx0
          simp at hx0
          simp_all
        simp [h0n, h0f, hx0]
    · rw [h1]
      by_cases hkf : k = f
      · rw [if_pos hkf] at hb1
        subst hb1
        simp [hkf]
      · rw [if_neg hkf] at hb1
        subst hb1
        have h0n : ¬ b0 = n := by
          intro e
          rw [e, hn] at hy0
          cases hy0
        have h0p : ¬ b0 = p := by
          intro e
          rw [e, hp] at hy0
          simp at hy0
          simp_all
        simp [h0n, h0p, hy0]

/-- Moving a cell to another index, every reference to it following, leaves the
links consistent. -/
theorem LinkedRing_rename (L L1 : HCELL_INDEX → Option (HCELL_INDEX × HCELL_INDEX))
    (o n f b : HCELL_INDEX)
    (hL : LinkedRing L) (ho : L o = some (f, b)) (hn : n = o ∨ L n = none)
    (h1 : ∀ k, L1 k =
      if k = n then some (if f = o then n else f, if b = o then n else b)
      else if k = o then none
      else (L k).map (fun q => (if k = b then n else q.1, if k = f then n else q.2))) :
    LinkedRing L1 := by
  obtain ⟨⟨x, hx⟩, ⟨y, hy⟩⟩ := hL o f b ho
  have hnew : ∀ k v, L k = some v → ¬ k = o → ¬ k = n := by
    intro k v hk hko e
    rcases hn with hn | hn
    · exact hko (e.trans hn)
    · rw [e, hn] at hk
      cases hk
  have hfb : f = o ↔ b = o := by
    constructor
    · intro e
      rw [e, ho] at hx
      simp at hx
      exact hx.2
    · intro e
      rw [e, ho] at hy
      simp at hy
      exact hy.1
  intro k f1 b1 hk
  rw [h1] at hk
  by_cases hkn : k = n
  · rw [if_pos hkn] at hk
    simp only [Option.some.injEq, Prod.mk.injEq] at hk
    obtain ⟨hf, hb⟩ := hk
    subst hf hb
    by_cases hfo : f = o
    · have hbo := hfb.1 hfo
      rw [if_pos hfo, if_pos hbo, h1]
      simp [hkn, hfo, hbo]
    · have hbo : ¬ b = o := fun e => hfo (hfb.2 e)
      have hfn := hnew f _ hx hfo
      have hbn := hnew b _ hy hbo
      rw [if_neg hfo, if_neg hbo, h1, h1]
      simp [hfn, hbn, hfo, hbo, hx, hy, hkn]
  · rw [if_neg hkn] at hk
    by_cases hko : k = o
    · simp [hko] at hk
    rw [if_neg hko] at hk
    cases hLk : L k with
    | none => simp [hLk] at hk
    | some q =>
    obtain ⟨f0, b0⟩ := q
    simp only [hLk, Option.map_some', Option.some.injEq, Prod.mk.injEq] at hk
    obtain ⟨hf1, hb1⟩ := hk
    obtain ⟨⟨x0, hx0⟩, ⟨y0, hy0⟩⟩ := hL k f0 b0 hLk
    constructor
    · rw [h1]
      by_cases hkb : k = b
      · rw [if_pos hkb] at hf1
        subst hf1
        have hbo : ¬ b = o := fun e => hko (hkb.trans e)
        simp [hbo, hkb]
      · rw [if_neg hkb] at hf1
        subst hf1
        have h0o : ¬ f0 = o := by
          intro e
          rw [e, ho] at hx0
          simp at hx0
          simp_all
        have h0n := hnew f0 _ hx0 h0o
        have h0f : ¬ f0 = f := by
          intro e
          rw [e, hx] at hx0
          simp at hx0
          simp_all
        simp [h0n, h0o, h0f, hx0]
    · rw [h1]
      by_cases hkf : k = f
      · rw [if_pos hkf] at hb1
        subst hb1
        have hfo : ¬ f = o := fun e => hko (hkf.trans e)
        simp [hfo, hkf]
      · rw [if_neg hkf] at hb1
        subst hb1
        have h0o : ¬ b0 = o := by
          intro e
          rw [e, ho] at hy0
          simp at hy0
          simp_all
        have h0n := hnew b0 _ hy0 h0o
        have h0b : ¬ b0 = b := by
          intro e
          rw [e, hy] at hy0
          simp at hy0
          simp_all
        simp [h0n, h0o, h0b, hy0]

/-- Every change of the ring links an operation makes leaves them consistent. -/
theorem LinkedRing_change (L L1 : HCELL_INDEX → Option (HCELL_INDEX × HCELL_INDEX))
    (hL : LinkedRing L) (hch : RingChange L L1) : LinkedRing L1 := by
  cases hch with
  | same h1 => exact LinkedRing_congr L L1 hL h1
  | unlink c f b hc h1 => exact LinkedRing_unlink L L1 c f b hL hc h1
  | splice n p f b hn hp h1 => exact LinkedRing_splice L L1 n p f b hL hn hp h1
  | rename o n f b ho hn h1 => exact LinkedRing_rename L L1 o n f b hL ho hn h1

theorem RingLinked_iff (h : CMHIVE) : RingLinked h ↔ LinkedRing (LinksOf h.SecurityCells) := by
  constructor
  · intro hr c f b hc
    unfold LinksOf at hc
    cases hS : cmGet h.SecurityCells c with
    | none => simp [hS] at hc
    | some S =>
      simp only [hS, Option.map_some', Option.some.injEq, Prod.mk.injEq] at hc
      obtain ⟨⟨F, hF, hFb⟩, ⟨B, hB, hBf⟩⟩ := hr c S hS
      rw [hc.1] at hF
      rw [hc.2] at hB
      exact ⟨⟨F.Flink, by simp [LinksOf, hF, hFb]⟩, ⟨B.Blink, by simp [LinksOf, hB, hBf]⟩⟩
  · intro hl c S hS
    obtain ⟨⟨x, hx⟩, ⟨y, hy⟩⟩ := hl c S.Flink S.Blink (by simp [LinksOf, hS])
    unfold LinksOf at hx hy
    constructor
    · cases hF : cmGet h.SecurityCells S.Flink with
      | none => simp [hF] at hx
      | some F =>
        simp only [hF, Option.map_some', Option.some.injEq, Prod.mk.injEq] at hx
        exact ⟨F, rfl, hx.2⟩
    · cases hB : cmGet h.SecurityCells S.Blink with
      | none => simp [hB] at hy
      | some B =>
        simp only [hB, Option.map_some', Option.some.injEq, Prod.mk.injEq] at hy
        exact ⟨B, rfl, hy.1⟩

/-- A store that leaves the links of a cell alone leaves the table of links
alone. -/
theorem LinksOf_cmModify (cells : List (HCELL_INDEX × CM_KEY_SECURITY)) (c k : HCELL_INDEX)
    (f : CM_KEY_SECURITY → CM_KEY_SECURITY)
    (hf : ∀ X, ((f X).Flink, (f X).Blink) = (X.Flink, X.Blink)) :
    LinksOf (cmModify cells c f) k = LinksOf cells k := by
  unfold LinksOf
  rw [cmGet_cmModify]
  by_cases hk : k = c
  · subst hk
    cases hx : cmGet cells k <;> simp [hf]
  · simp [hk]

/-- A store to the other fields of a cell leaves the table of links alone. -/
theorem LinksOf_cmModify_keep (cells : List (HCELL_INDEX × CM_KEY_SECURITY)) (c k : HCELL_INDEX)
    (s r l : CM_KEY_SECURITY → Nat) (d : CM_KEY_SECURITY → List Nat) :
    LinksOf (cmModify cells c (fun X =>
      { Signature := s X, Flink := X.Flink, Blink := X.Blink, ReferenceCount := r X,
        DescriptorLength := l X, Descriptor := d X })) k = LinksOf cells k :=
  LinksOf_cmModify cells c k _ (fun _ => rfl)

/-- How a successful set changes the ring links. -/
theorem set_ring_change (env : Env) (h : CMHIVE) (Key : CM_KEY_CONTROL_BLOCK)
    (info : Nat) (md : List Nat) (hring : RingLinked h)
    (hpin : ∀ c, env.DirtyOk c = true → env.MapOk c = true)
    (hok : (CmpSetSecurityDescriptorInfo env h Key info md).Status
      = Outcome.Returned STATUS_SUCCESS) :
    RingChange (LinksOf h.SecurityCells)
      (LinksOf (CmpSetSecurityDescriptorInfo env h Key info md).Hive.SecurityCells) := by
  obtain ⟨Node, S, hnode, hsec, _, _, _, _, heq⟩ :=
    CmpSetSecurityDescriptorInfo_of_success env h Key info md hok
  obtain ⟨⟨F, hflink, _⟩, ⟨B, hblink, _⟩⟩ := hring _ _ hsec
  have hLS : LinksOf h.SecurityCells Node.Security = some (S.Flink, S.Blink) := by
    simp [LinksOf, hsec]
  cases hfind : CmpFindMatchingDescriptorCell env h
      (env.SeSetSecurityDescriptorInfo info md S.Descriptor).2 (HvGetCellType Key.KeyCell) with
  | some M =>
    by_cases hM : M = Node.Security
    · refine RingChange.same (fun k => ?_)
      rw [heq]
      simp [SetSecurityStore, hfind, hM, SetSecurityDone]
    · obtain ⟨hmS, hdFB, _, hHive, _⟩ :=
        set_share_existing_effect env h Key info md Node S _ M hnode hsec rfl hfind hM hok
      by_cases hrc : S.ReferenceCount = 1
      · obtain ⟨hdF, hdB⟩ := hdFB hrc
        have hrem := CmpRemoveSecurityCellList_of_mapped env
          (Dirtied (Dirtied (Dirtied (SetSecurityDirtied h Key Node.Security) M) S.Flink)
            S.Blink)
          Node.Security S F B (by simpa using hsec) (by simpa using hflink)
          (by simpa using hblink) hmS (hpin _ hdF) (hpin _ hdB)
        refine RingChange.unlink Node.Security S.Flink S.Blink hLS (fun k => ?_)
        rw [hHive]
        simp only [ShareExistingReleased, hrc, if_true, hrem, WriteNode_SecurityCells,
          WriteSecurity_SecurityCells, HvFreeCell_SecurityCells,
          CmpRemoveFromSecurityCache_SecurityCells, Dirtied_SecurityCells,
          SetSecurityDirtied_SecurityCells]
        rw [LinksOf_cmModify_keep]
        unfold LinksOf
        simp only [cmGet_cmErase, cmGet_unlink]
        by_cases hkS : k = Node.Security
        · simp [hkS]
        · cases hk : cmGet h.SecurityCells k <;> simp [hkS, hk]
      · refine RingChange.same (fun k => ?_)
        rw [hHive]
        simp only [ShareExistingReleased, hrc, if_false, WriteNode_SecurityCells,
          WriteSecurity_SecurityCells, Dirtied_SecurityCells,
          SetSecurityDirtied_SecurityCells]
        rw [LinksOf_cmModify_keep, LinksOf_cmModify_keep]
  | none =>
    by_cases hrc : 1 < S.ReferenceCount
    · obtain ⟨N, hN⟩ : ∃ N, env.AllocIndex (SECURITY_CELL_LENGTH
          (env.SeSetSecurityDescriptorInfo info md S.Descriptor).2)
          (HvGetCellType Key.KeyCell) = N := ⟨_, rfl⟩
      obtain ⟨hfree, _, _, hCells, _⟩ :=
        set_copy_on_write_effect env h Key info md Node S F _ N hnode hsec hflink rfl hN
          hfind hrc hok
      obtain ⟨_, _, hnone, _⟩ := CellIsFree_spec h _ _ hfree
      refine RingChange.splice N Node.Security S.Flink S.Blink
        (by simp [LinksOf, hnone]) hLS (fun k => ?_)
      rw [hCells]
      unfold LinksOf
      rw [cmGet_CopyOnWriteCells _ _ _ S F _ hnone hsec hflink]
      by_cases hkN : k = N
      · simp [hkN]
      · cases hk : cmGet h.SecurityCells k <;> simp [hkN, hk]
    · by_cases hlen : RtlLengthSecurityDescriptor
          (env.SeSetSecurityDescriptorInfo info md S.Descriptor).2 = S.DescriptorLength
      · obtain ⟨_, _, hC, _⟩ :=
          set_in_place_effect env h Key info md Node S _ hnode hsec rfl hfind hrc hlen hok
        refine RingChange.same (fun k => ?_)
        rw [hC, LinksOf_cmModify_keep]
      · obtain ⟨New, hNew⟩ : ∃ New, env.ReallocIndex Node.Security (SECURITY_CELL_LENGTH
            (env.SeSetSecurityDescriptorInfo info md S.Descriptor).2) = New := ⟨_, rfl⟩
        obtain ⟨hnew, _, _, hCells, _⟩ :=
          set_reallocate_effect env h Key info md Node S F B _ New hnode hsec hflink hblink rfl
            hNew hfind hrc hlen hok
        have hnew' : New = Node.Security ∨ cmGet h.SecurityCells New = none := by
          rcases hnew with hn | hn
          · exact Or.inl hn
          · exact Or.inr (CellIsFree_spec h _ _ hn).2.2.1
        refine RingChange.rename Node.Security New S.Flink S.Blink hLS
          (hnew'.imp id (fun e => by simp [LinksOf, e])) (fun k => ?_)
        rw [hCells]
        unfold LinksOf
        rw [cmGet_ReallocatedCells _ _ _ S F B _ hsec hflink hblink hnew']
        by_cases hkN : k = New
        · simp [hkN, RenameCell]
        · by_cases hkO : k = Node.Security
          · subst hkO
            simp [hkN]
          · cases hk : cmGet h.SecurityCells k <;> simp [hkN, hkO, hk]

/-- A successful set leaves the ring links consistent. -/
theorem set_preserves_ring (env : Env) (h : CMHIVE) (Key : CM_KEY_CONTROL_BLOCK)
    (info : Nat) (md : List Nat) (hring : RingLinked h)
    (hpin : ∀ c, env.DirtyOk c = true → env.MapOk c = true)
    (hok : (CmpSetSecurityDescriptorInfo env h Key info md).Status
      = Outcome.Returned STATUS_SUCCESS) :
    RingLinked (CmpSetSecurityDescriptorInfo env h Key info md).Hive :=
  (RingLinked_iff _).2
    (LinkedRing_change _ _ ((RingLinked_iff h).1 hring)
      (set_ring_change env h Key info md hring hpin hok))

/-- With the counts right, the security cell a key node refers to is live. -/
theorem RefCountsConserved_live (h : CMHIVE) (k : HCELL_INDEX) (Node : CM_KEY_NODE)
    (hinv : RefCountsConserved h) (hnode : cmGet h.KeyNodes k = some Node)
    (hne : Node.Security ≠ HCELL_NIL) :
    ∃ S, cmGet h.SecurityCells Node.Security = some S := by
  cases hS : cmGet h.SecurityCells Node.Security with
  | some S => exact ⟨S, rfl⟩
  | none =>
    have h0 := hinv.2.2.2.2 _ hne hS
    unfold ReferencesTo at h0
    rw [List.countP_eq_zero] at h0
    have := h0 _ (cmGet_mem _ _ _ hnode)
    simp at this

theorem CmpInsertSecurityCellListCache_fst (env : Env) (H : CMHIVE) (c : HCELL_INDEX) :
    (CmpInsertSecurityCellListCache env H c).1 = NT_SUCCESS (CmpAddSecurityCellToCache env H c).1 := by
  unfold CmpInsertSecurityCellListCache
  split
  · simp_all
  · simp_all

/-- How a successful assign changes the ring links: as the other operations
do, or by starting a ring of its own with the new cell. -/
theorem assign_ring_change (env : Env) (h : CMHIVE) (Cell : HCELL_INDEX) (D : List Nat)
    (hinv : RefCountsConserved h) (hring : RingLinked h)
    (hok : (CmpAssignSecurityDescriptor env h Cell D).1 = STATUS_SUCCESS) :
    RingChange (LinksOf h.SecurityCells)
        (LinksOf (CmpAssignSecurityDescriptor env h Cell D).2.SecurityCells) ∨
      (StartsOwnRing env h (StoreOp.Assign Cell D) = true ∧
        ∃ N, LinksOf h.SecurityCells N = none ∧
          ∀ k, LinksOf (CmpAssignSecurityDescriptor env h Cell D).2.SecurityCells k =
            if k = N then some (N, N) else LinksOf h.SecurityCells k) := by
  have hnilh : cmGet h.SecurityCells HCELL_NIL = none := hinv.2.2.1
  obtain ⟨_, hcase⟩ := CmpAssignSecurityDescriptor_of_success env h Cell D hok
  rcases hcase with ⟨M, X, _, hX, _, _, heq⟩ | ⟨hfind, hfree, hins, heq⟩
  · refine Or.inl (RingChange.same (fun k => ?_))
    rw [heq]
    simp only [WriteNode_SecurityCells, WriteSecurity_SecurityCells, Dirtied_SecurityCells]
    rw [LinksOf_cmModify_keep]
  · obtain ⟨N, hN⟩ : ∃ N, env.AllocIndex (SECURITY_CELL_LENGTH D) (HvGetCellType Cell) = N :=
      ⟨_, rfl⟩
    rw [hN] at hfree hins heq
    obtain ⟨hlt, htype, hnone, _⟩ := CellIsFree_spec h _ _ hfree
    have hNnil : N ≠ HCELL_NIL := Nat.ne_of_lt hlt
    rw [heq]
    simp only [WriteNode_SecurityCells]
    rcases CmpInsertSecurityCellList_cases env
      (WriteSecurity (WithNewCell (Dirtied h Cell) N (SECURITY_CELL_LENGTH D)) N
        (InitializeSecurityCell D)) Cell N with
      ⟨hf, _⟩ | ⟨hown, hi⟩ |
      ⟨Node, ParentNode, BlinkCell, FlinkCell, _, _, _, hPN, hB, hF, _, _, hi⟩
    · rw [hf] at hins
      cases hins
    · rw [hi]
      refine Or.inr ⟨?_, N, by simp [LinksOf, hnone], fun k => ?_⟩
      · simp only [WriteSecurity_KeyNodes, WithNewCell_KeyNodes, Dirtied_KeyNodes] at hown
        rcases hown with hv | ⟨Node, hNode, hflag⟩
        · rw [htype] at hv
          simp only [StartsOwnRing, hfind]
          simp [hv]
        · simp only [StartsOwnRing, hfind]
          simp [hNode, hflag]
      simp only [CmpInsertSecurityCellListCache_SecurityCells, WriteSecurity_SecurityCells,
        WithNewCell_SecurityCells, Dirtied_SecurityCells]
      unfold LinksOf
      by_cases hk : k = N
      · subst hk
        simp [cmGet_cmModify, cmGet_cons]
      · have hk2 : ¬ N = k := fun e => hk e.symm
        simp [cmGet_cmModify, cmGet_cons, hk, hk2]
    · simp only [WriteSecurity_KeyNodes, WithNewCell_KeyNodes, Dirtied_KeyNodes] at hPN
      simp only [WriteSecurity_SecurityCells, WithNewCell_SecurityCells, Dirtied_SecurityCells]
        at hB hF
      have hPnil : ParentNode.Security ≠ HCELL_NIL := by
        intro e
        rw [e] at hB
        have hNN : ¬ N = HCELL_NIL := hNnil
        have hNN2 : ¬ HCELL_NIL = N := fun e => hNnil e.symm
        simp [cmGet_cmModify, cmGet_cons, hNN, hNN2, hnilh] at hB
      obtain ⟨P0, hP0⟩ := RefCountsConserved_live h _ _ hinv hPN hPnil
      have hPN2 : ¬ ParentNode.Security = N := by
        intro e
        rw [e, hnone] at hP0
        cases hP0
      have hNP : ¬ N = ParentNode.Security := fun e => hPN2 e.symm
      have hBP : BlinkCell = P0 := by
        simp [cmGet_cmModify, cmGet_cons, hPN2, hNP, hP0] at hB
        exact hB.symm
      subst hBP
      obtain ⟨⟨F0, hF0, hF0b⟩, _⟩ := hring _ _ hP0
      have hFN : ¬ BlinkCell.Flink = N := by
        intro e
        rw [e, hnone] at hF0
        cases hF0
      have hNF : ¬ N = BlinkCell.Flink := fun e => hFN e.symm
      have hFF : FlinkCell = F0 := by
        simp [cmGet_cmModify, cmGet_cons, hFN, hNF, hF0] at hF
        exact hF.symm
      subst hFF
      rw [hi]
      refine Or.inl (RingChange.splice N ParentNode.Security BlinkCell.Flink BlinkCell.Blink
        (by simp [LinksOf, hnone]) (by simp [LinksOf, hP0]) (fun k => ?_))
      simp only [CmpInsertSecurityCellListCache_SecurityCells, WriteSecurity_SecurityCells,
        WithNewCell_SecurityCells, Dirtied_SecurityCells]
      unfold LinksOf
      by_cases hk : k = N
      · subst hk
        simp [cmGet_cmModify, cmGet_cons, hNP, hNF, hF0b]
      · have hk2 : ¬ N = k := fun e => hk e.symm
        by_cases hkP : k = ParentNode.Security
        · subst hkP
          by_cases hkF : ParentNode.Security = BlinkCell.Flink
          · simp [cmGet_cmModify, cmGet_cons, hk, hk2, ← hkF, hP0]
          · simp [cmGet_cmModify, cmGet_cons, hk, hk2, hkF, hP0]
        · by_cases hkF : k = BlinkCell.Flink
          · subst hkF
            simp [cmGet_cmModify, cmGet_cons, hk, hk2, hkP, hF0]
          · cases hx : cmGet h.SecurityCells k <;>
              simp [cmGet_cmModify, cmGet_cons, hk, hk2, hkP, hkF, hx]

/-- A successful assign leaves the ring links consistent. -/
theorem assign_preserves_ring (env : Env) (h : CMHIVE) (Cell : HCELL_INDEX) (D : List Nat)
    (hinv : RefCountsConserved h) (hring : RingLinked h)
    (hok : (CmpAssignSecurityDescriptor env h Cell D).1 = STATUS_SUCCESS) :
    RingLinked (CmpAssignSecurityDescriptor env h Cell D).2 := by
  rw [RingLinked_iff]
  rcases assign_ring_change env h Cell D hinv hring hok with hch | ⟨_, N, hN, h1⟩
  · exact LinkedRing_change _ _ ((RingLinked_iff h).1 hring) hch
  · exact LinkedRing_single _ _ N ((RingLinked_iff h).1 hring) hN h1

/-- What a release that could map its cells has done. -/
theorem CmpFreeSecurityDescriptor_of_mapped (env : Env) (h : CMHIVE) (Cell : HCELL_INDEX)
    (hmapped : ReleaseMapped env h Cell = true) :
    ∃ Node S, cmGet h.KeyNodes Cell = some Node ∧
      cmGet h.SecurityCells Node.Security = some S ∧
      ((S.ReferenceCount = 1 ∧
        (∃ F, cmGet h.SecurityCells S.Flink = some F) ∧
        (∃ B, cmGet h.SecurityCells S.Blink = some B) ∧
        CmpFreeSecurityDescriptor env h Cell =
          WriteNode
            (HvFreeCell
              (CmpRemoveFromSecurityCache
                (WriteSecurity
                  (WriteSecurity h S.Flink
                    (fun FlinkCell => { FlinkCell with Blink := S.Blink }))
                  S.Blink (fun BlinkCell => { BlinkCell with Flink := S.Flink }))
                Node.Security)
              Node.Security)
            Cell (fun N => { N with Security := HCELL_NIL })) ∨
       (S.ReferenceCount ≠ 1 ∧
        CmpFreeSecurityDescriptor env h Cell =
          WriteNode
            (WriteSecurity h Node.Security
              (fun S => { S with ReferenceCount := ULONG_DEC S.ReferenceCount }))
            Cell (fun N => { N with Security := HCELL_NIL }))) := by
  cases hn : HvGetCellNode env h Cell with
  | none => simp [ReleaseMapped, hn] at hmapped
  | some Node =>
  cases hs : HvGetCellSecurity env h Node.Security with
  | none => simp [ReleaseMapped, hn, hs] at hmapped
  | some S =>
  have hnode := (HvGetCellNode_eq_some _ _ _ _ hn).2
  obtain ⟨hmS, hsec⟩ := HvGetCellSecurity_eq_some _ _ _ _ hs
  refine ⟨Node, S, hnode, hsec, ?_⟩
  by_cases h1 : S.ReferenceCount = 1
  · refine Or.inl ⟨h1, ?_⟩
    cases hf : HvGetCellSecurity env h S.Flink with
    | none => simp [ReleaseMapped, hn, hs, h1, hf] at hmapped
    | some F =>
    cases hb : HvGetCellSecurity env h S.Blink with
    | none => simp [ReleaseMapped, hn, hs, h1, hb] at hmapped
    | some B =>
    obtain ⟨hmF, hF⟩ := HvGetCellSecurity_eq_some _ _ _ _ hf
    obtain ⟨hmB, hB⟩ := HvGetCellSecurity_eq_some _ _ _ _ hb
    refine ⟨⟨F, hF⟩, ⟨B, hB⟩, ?_⟩
    simp [CmpFreeSecurityDescriptor, hn, hs, h1,
      CmpRemoveSecurityCellList_of_mapped env h Node.Security S F B hsec hF hB hmS hmF hmB]
  · refine Or.inr ⟨h1, ?_⟩
    simp [CmpFreeSecurityDescriptor, hn, hs, h1]

/-- How a release that could map its cells changes the ring links. -/
theorem free_ring_change (env : Env) (h : CMHIVE) (Cell : HCELL_INDEX)
    (hmapped : ReleaseMapped env h Cell = true) :
    RingChange (LinksOf h.SecurityCells)
      (LinksOf (CmpFreeSecurityDescriptor env h Cell).SecurityCells) := by
  obtain ⟨Node, S, _, hsec, hcase⟩ := CmpFreeSecurityDescriptor_of_mapped env h Cell hmapped
  rcases hcase with ⟨_, _, _, heq⟩ | ⟨_, heq⟩
  · refine RingChange.unlink Node.Security S.Flink S.Blink (by simp [LinksOf, hsec])
      (fun k => ?_)
    rw [heq]
    simp only [WriteNode_SecurityCells, WriteSecurity_SecurityCells, HvFreeCell_SecurityCells,
      CmpRemoveFromSecurityCache_SecurityCells]
    unfold LinksOf
    simp only [cmGet_cmErase, cmGet_unlink]
    by_cases hkS : k = Node.Security
    · simp [hkS]
    · cases hk : cmGet h.SecurityCells k <;> simp [hkS, hk]
  · refine RingChange.same (fun k => ?_)
    rw [heq]
    simp only [WriteNode_SecurityCells, WriteSecurity_SecurityCells]
    rw [LinksOf_cmModify_keep]

/-- A release that could map its cells leaves the ring links consistent. -/
theorem free_preserves_ring (env : Env) (h : CMHIVE) (Cell : HCELL_INDEX)
    (hring : RingLinked h) (hmapped : ReleaseMapped env h Cell = true) :
    RingLinked (CmpFreeSecurityDescriptor env h Cell) :=
  (RingLinked_iff _).2
    (LinkedRing_change _ _ ((RingLinked_iff h).1 hring) (free_ring_change env h Cell hmapped))

/-! ## Ring closure -/

/-- Ring closure carries over along a map of indices that sends every step of
the old ring to a path of the new ring and reaches every live cell of the new
ring. -/
theorem ClosedRing_map (L L1 : HCELL_INDEX → Option (HCELL_INDEX × HCELL_INDEX))
    (g : HCELL_INDEX → HCELL_INDEX) (hc : ClosedRing L)
    (hstep : ∀ x y, FlinkStep L x y →
      Relation.ReflTransGen (FlinkStep L1) (g x) (g y))
    (hsurj : ∀ k, (L1 k).isSome = true → ∃ k0, (L k0).isSome = true ∧ g k0 = k) :
    ClosedRing L1 := by
  intro a b ha hb
  obtain ⟨a0, ha0, rfl⟩ := hsurj a ha
  obtain ⟨b0, hb0, rfl⟩ := hsurj b hb
  exact Relation.ReflTransGen.lift' g hstep (hc a0 b0 ha0 hb0)

theorem ClosedRing_unlink (L L1 : HCELL_INDEX → Option (HCELL_INDEX × HCELL_INDEX))
    (c f b : HCELL_INDEX) (hL : LinkedRing L) (hcl : ClosedRing L) (hc : L c = some (f, b))
    (h1 : ∀ k, L1 k = if k = c then none else
      (L k).map (fun p => (if k = b then f else p.1, if k = f then b else p.2))) :
    ClosedRing L1 := by
  obtain ⟨⟨x, hx⟩, ⟨y, hy⟩⟩ := hL c f b hc
  refine ClosedRing_map L L1 (fun k => if k = c then f else k) hcl ?_ ?_
  · rintro u v ⟨w, huv⟩
    by_cases huc : u = c
    · have hv : v = f := by
        rw [huc, hc] at huv
        simp only [Option.some.injEq, Prod.mk.injEq] at huv
        exact huv.1.symm
      rw [hv]
      simp only [huc, if_true, ite_self]
      exact Relation.ReflTransGen.refl
    · simp only [if_neg huc]
      by_cases hub : u = b
      · have hv : v = c := by
          rw [hub, hy] at huv
          simp only [Option.some.injEq, Prod.mk.injEq] at huv
          exact huv.1.symm
        rw [hv]
        simp only [if_true]
        refine Relation.ReflTransGen.single ⟨if u = f then b else w, ?_⟩
        rw [h1, if_neg huc, huv]
        simp [hub]
      · have hvc : ¬ v = c := by
          intro e
          obtain ⟨⟨z, hz⟩, _⟩ := hL u v w huv
          rw [e, hc] at hz
          simp only [Option.some.injEq, Prod.mk.injEq] at hz
          exact hub hz.2.symm
        simp only [if_neg hvc]
        refine Relation.ReflTransGen.single ⟨if u = f then b else w, ?_⟩
        rw [h1, if_neg huc, huv]
        simp [hub]
  · intro k hk
    rw [h1] at hk
    by_cases hkc : k = c
    · simp [hkc] at hk
    · rw [if_neg hkc] at hk
      refine ⟨k, ?_, by simp [hkc]⟩
      cases hLk : L k with
      | none => simp [hLk] at hk
      | some p => rfl

theorem ClosedRing_rename (L L1 : HCELL_INDEX → Option (HCELL_INDEX × HCELL_INDEX))
    (o n f b : HCELL_INDEX) (hL : LinkedRing L) (hcl : ClosedRing L) (ho : L o = some (f, b))
    (hn : n = o ∨ L n = none)
    (h1 : ∀ k, L1 k =
      if k = n then some (if f = o then n else f, if b = o then n else b)
      else if k = o then none
      else (L k).map (fun q => (if k = b then n else q.1, if k = f then n else q.2))) :
    ClosedRing L1 := by
  obtain ⟨⟨x, hx⟩, ⟨y, hy⟩⟩ := hL o f b ho
  have hnew : ∀ k v, L k = some v → ¬ k = o → ¬ k = n := by
    intro k v hk hko e
    rcases hn with hn | hn
    · exact hko (e.trans hn)
    · rw [e, hn] at hk
      cases hk
  refine ClosedRing_map L L1 (fun k => if k = o then n else k) hcl ?_ ?_
  · rintro u v ⟨w, huv⟩
    by_cases huo : u = o
    · have hv : v = f := by
        rw [huo, ho] at huv
        simp only [Option.some.injEq, Prod.mk.injEq] at huv
        exact huv.1.symm
      rw [hv]
      simp only [huo, if_true]
      refine Relation.ReflTransGen.single ⟨if b = o then n else b, ?_⟩
      rw [h1, if_pos rfl]
    · have hun := hnew u _ huv huo
      simp only [if_neg huo]
      by_cases hub : u = b
      · have hv : v = o := by
          rw [hub, hy] at huv
          simp only [Option.some.injEq, Prod.mk.injEq] at huv
          exact huv.1.symm
        rw [hv]
        simp only [if_true]
        refine Relation.ReflTransGen.single ⟨if u = f then n else w, ?_⟩
        rw [h1, if_neg hun, if_neg huo, huv]
        simp [hub]
      · have hvo : ¬ v = o := by
          intro e
          obtain ⟨⟨z, hz⟩, _⟩ := hL u v w huv
          rw [e, ho] at hz
          simp only [Option.some.injEq, Prod.mk.injEq] at hz
          exact hub hz.2.symm
        simp only [if_neg hvo]
        refine Relation.ReflTransGen.single ⟨if u = f then n else w, ?_⟩
        rw [h1, if_neg hun, if_neg huo, huv]
        simp [hub]
  · intro k hk
    by_cases hkn : k = n
    · exact ⟨o, by simp [ho], by simp [hkn]⟩
    · rw [h1, if_neg hkn] at hk
      by_cases hko : k = o
      · simp [hko] at hk
      · rw [if_neg hko] at hk
        refine ⟨k, ?_, by simp [hko]⟩
        cases hLk : L k with
        | none => simp [hLk] at hk
        | some p => rfl

theorem ClosedRing_splice (L L1 : HCELL_INDEX → Option (HCELL_INDEX × HCELL_INDEX))
    (n p f b : HCELL_INDEX) (hL : LinkedRing L) (hcl : ClosedRing L) (hn : L n = none)
    (hp : L p = some (f, b))
    (h1 : ∀ k, L1 k = if k = n then some (f, p) else
      (L k).map (fun q => (if k = p then n else q.1, if k = f then n else q.2))) :
    ClosedRing L1 := by
  obtain ⟨⟨x, hx⟩, _⟩ := hL p f b hp
  have hpn : ¬ p = n := by
    intro e
    rw [e, hn] at hp
    cases hp
  have hnf : Relation.ReflTransGen (FlinkStep L1) n f :=
    Relation.ReflTransGen.single ⟨p, by rw [h1, if_pos rfl]⟩
  have hpn1 : Relation.ReflTransGen (FlinkStep L1) p n :=
    Relation.ReflTransGen.single ⟨if p = f then n else b, by rw [h1, if_neg hpn, hp]; simp⟩
  have hlift : ∀ u v, Relation.ReflTransGen (FlinkStep L) u v →
      Relation.ReflTransGen (FlinkStep L1) u v := by
    intro u v huv
    refine Relation.ReflTransGen.lift' id ?_ huv
    rintro u v ⟨w, huv⟩
    by_cases hup : u = p
    · have hv : v = f := by
        rw [hup, hp] at huv
        simp only [Option.some.injEq, Prod.mk.injEq] at huv
        exact huv.1.symm
      rw [hv, hup]
      exact hpn1.trans hnf
    · have hun : ¬ u = n := by
        intro e
        rw [e, hn] at huv
        cases huv
      refine Relation.ReflTransGen.single ⟨if u = f then n else w, ?_⟩
      simp only [id]
      rw [h1, if_neg hun, huv]
      simp [hup]
  have hold : ∀ k, (L1 k).isSome = true → ¬ k = n → (L k).isSome = true := by
    intro k hk hkn
    rw [h1, if_neg hkn] at hk
    cases hLk : L k with
    | none => simp [hLk] at hk
    | some q => rfl
  intro a c ha hc
  by_cases han : a = n
  · by_cases hcn : c = n
    · rw [han, hcn]
    · rw [han]
      exact hnf.trans (hlift _ _ (hcl f c (by simp [hx]) (hold c hc hcn)))
  · by_cases hcn : c = n
    · rw [hcn]
      exact (hlift _ _ (hcl a p (hold a ha han) (by simp [hp]))).trans hpn1
    · exact hlift _ _ (hcl a c (hold a ha han) (hold c hc hcn))

theorem ClosedRing_congr (L L1 : HCELL_INDEX → Option (HCELL_INDEX × HCELL_INDEX))
    (hcl : ClosedRing L) (h1 : ∀ k, L1 k = L k) : ClosedRing L1 := by
  have : L1 = L := funext h1
  rw [this]
  exact hcl

/-- Every change of the ring links an operation makes, other than starting a
new ring, keeps the ring closed. -/
theorem ClosedRing_change (L L1 : HCELL_INDEX → Option (HCELL_INDEX × HCELL_INDEX))
    (hL : LinkedRing L) (hcl : ClosedRing L) (hch : RingChange L L1) : ClosedRing L1 := by
  cases hch with
  | same h1 => exact ClosedRing_congr L L1 hcl h1
  | unlink c f b hc h1 => exact ClosedRing_unlink L L1 c f b hL hcl hc h1
  | splice n p f b hn hp h1 => exact ClosedRing_splice L L1 n p f b hL hcl hn hp h1
  | rename o n f b ho hn h1 => exact ClosedRing_rename L L1 o n f b hL hcl ho hn h1

/-- A first cell, linked to itself, is a closed ring. -/
theorem ClosedRing_first (L L1 : HCELL_INDEX → Option (HCELL_INDEX × HCELL_INDEX))
    (n : HCELL_INDEX) (hempty : ∀ k, L k = none)
    (h1 : ∀ k, L1 k = if k = n then some (n, n) else L k) : ClosedRing L1 := by
  intro a b ha hb
  have key : ∀ k, (L1 k).isSome = true → k = n := by
    intro k hk
    by_contra hkn
    rw [h1, if_neg hkn, hempty] at hk
    cases hk
  rw [key a ha, key b hb]

/-! ## Cache consistency -/

/-- Cache consistency, index by index: what the cache holds for an index is the
shadow of what the security cells hold for it. -/
theorem CacheConsistent_iff (h : CMHIVE) :
    CacheConsistent h ↔
      ∀ c, (cmGet h.SecurityCache c).map (fun e => (e.Cell, e.DescriptorLength, e.Descriptor)) =
        (ShadowOf h.SecurityCells c).map (fun p => (c, p.1, p.2)) := by
  unfold ShadowOf
  constructor
  · intro hc c
    cases hS : cmGet h.SecurityCells c with
    | some S =>
      obtain ⟨e, he, h1, h2, h3⟩ := hc.1 c S hS
      simp [he, h1, h2, h3]
    | none =>
      cases he : cmGet h.SecurityCache c with
      | none => rfl
      | some e =>
        have := hc.2 c e he
        rw [hS] at this
        cases this
  · intro hp
    constructor
    · intro c S hS
      have := hp c
      rw [hS] at this
      cases he : cmGet h.SecurityCache c with
      | none => simp [he] at this
      | some e =>
        simp only [he, Option.map_some', Option.some.injEq, Prod.mk.injEq] at this
        exact ⟨e, rfl, this.1, this.2.1, this.2.2⟩
    · intro c e he
      have := hp c
      rw [he] at this
      cases hS : cmGet h.SecurityCells c with
      | none => simp [hS] at this
      | some S => rfl

/-- A store to the links or the count of a cell leaves the shadows alone. -/
theorem ShadowOf_cmModify_keep (cells : List (HCELL_INDEX × CM_KEY_SECURITY)) (c k : HCELL_INDEX)
    (s f b r : CM_KEY_SECURITY → Nat) :
    ShadowOf (cmModify cells c (fun X =>
      { Signature := s X, Flink := f X, Blink := b X, ReferenceCount := r X,
        DescriptorLength := X.DescriptorLength, Descriptor := X.Descriptor })) k
      = ShadowOf cells k := by
  unfold ShadowOf
  rw [cmGet_cmModify]
  by_cases hk : k = c
  · subst hk
    cases hx : cmGet cells k <;> simp
  · simp [hk]

theorem ShadowOf_cmErase (cells : List (HCELL_INDEX × CM_KEY_SECURITY)) (c k : HCELL_INDEX) :
    ShadowOf (cmErase cells c) k = if k = c then none else ShadowOf cells k := by
  unfold ShadowOf
  rw [cmGet_cmErase]
  by_cases hk : k = c <;> simp [hk]

/-- A successful set leaves the cache consistent. -/
theorem set_preserves_cache (env : Env) (h : CMHIVE) (Key : CM_KEY_CONTROL_BLOCK)
    (info : Nat) (md : List Nat) (hring : RingLinked h) (hcache : CacheConsistent h)
    (hpin : ∀ c, env.DirtyOk c = true → env.MapOk c = true)
    (hok : (CmpSetSecurityDescriptorInfo env h Key info md).Status
      = Outcome.Returned STATUS_SUCCESS) :
    CacheConsistent (CmpSetSecurityDescriptorInfo env h Key info md).Hive := by
  obtain ⟨Node, S, hnode, hsec, _, _, _, _, heq⟩ :=
    CmpSetSecurityDescriptorInfo_of_success env h Key info md hok
  obtain ⟨⟨F, hflink, _⟩, ⟨B, hblink, _⟩⟩ := hring _ _ hsec
  have hC := (CacheConsistent_iff h).1 hcache
  rw [CacheConsistent_iff]
  intro c
  have hCc := hC c
  cases hfind : CmpFindMatchingDescriptorCell env h
      (env.SeSetSecurityDescriptorInfo info md S.Descriptor).2 (HvGetCellType Key.KeyCell) with
  | some M =>
    by_cases hM : M = Node.Security
    · rw [heq]
      simpa [SetSecurityStore, hfind, hM, SetSecurityDone] using hCc
    · obtain ⟨hmS, hdFB, _, hHive, _⟩ :=
        set_share_existing_effect env h Key info md Node S _ M hnode hsec rfl hfind hM hok
      by_cases hrc : S.ReferenceCount = 1
      · obtain ⟨hdF, hdB⟩ := hdFB hrc
        have hrem := CmpRemoveSecurityCellList_of_mapped env
          (Dirtied (Dirtied (Dirtied (SetSecurityDirtied h Key Node.Security) M) S.Flink)
            S.Blink)
          Node.Security S F B (by simpa using hsec) (by simpa using hflink)
          (by simpa using hblink) hmS (hpin _ hdF) (hpin _ hdB)
        rw [hHive]
        simp only [ShareExistingReleased, hrc, if_true, hrem, WriteNode_SecurityCells,
          WriteSecurity_SecurityCells, HvFreeCell_SecurityCells,
          CmpRemoveFromSecurityCache_SecurityCells, Dirtied_SecurityCells,
          SetSecurityDirtied_SecurityCells, WriteNode_SecurityCache,
          WriteSecurity_SecurityCache, HvFreeCell_SecurityCache,
          CmpRemoveFromSecurityCache_SecurityCache, Dirtied_SecurityCache,
          SetSecurityDirtied_SecurityCache]
        rw [ShadowOf_cmModify_keep, ShadowOf_cmErase, ShadowOf_cmModify_keep,
          ShadowOf_cmModify_keep, cmGet_cmErase]
        by_cases hkS : c = Node.Security
        · simp [hkS]
        · simpa [hkS] using hCc
      · rw [hHive]
        simp only [ShareExistingReleased, hrc, if_false, WriteNode_SecurityCells,
          WriteSecurity_SecurityCells, Dirtied_SecurityCells,
          SetSecurityDirtied_SecurityCells, WriteNode_SecurityCache,
          WriteSecurity_SecurityCache, Dirtied_SecurityCache,
          SetSecurityDirtied_SecurityCache]
        rw [ShadowOf_cmModify_keep, ShadowOf_cmModify_keep]
        exact hCc
  | none =>
    by_cases hrc : 1 < S.ReferenceCount
    · obtain ⟨N, hN⟩ : ∃ N, env.AllocIndex (SECURITY_CELL_LENGTH
          (env.SeSetSecurityDescriptorInfo info md S.Descriptor).2)
          (HvGetCellType Key.KeyCell) = N := ⟨_, rfl⟩
      obtain ⟨hfree, ⟨X, hX, hCache, _⟩, _, hCells, _⟩ :=
        set_copy_on_write_effect env h Key info md Node S F _ N hnode hsec hflink rfl hN
          hfind hrc hok
      obtain ⟨_, _, hnone, _⟩ := CellIsFree_spec h _ _ hfree
      rw [cmGet_CopyOnWriteCells _ _ _ S F _ hnone hsec hflink, if_pos rfl] at hX
      rw [hCells, hCache]
      unfold ShadowOf
      rw [cmGet_CopyOnWriteCells _ _ _ S F _ hnone hsec hflink, cmGet_cons, cmGet_cmErase]
      by_cases hkN : c = N
      · subst hkN
        simp only [Option.some.injEq] at hX
        subst hX
        simp [SecurityCacheEntry, RtlLengthSecurityDescriptor]
      · have hNk : ¬ N = c := fun e => hkN e.symm
        unfold ShadowOf at hCc
        cases hk : cmGet h.SecurityCells c <;> simp [hkN, hNk, hk] at hCc ⊢ <;> exact hCc
    · by_cases hlen : RtlLengthSecurityDescriptor
          (env.SeSetSecurityDescriptorInfo info md S.Descriptor).2 = S.DescriptorLength
      · obtain ⟨_, _, hCl, hCa, _⟩ :=
          set_in_place_effect env h Key info md Node S _ hnode hsec rfl hfind hrc hlen hok
        rw [hCl, hCa]
        unfold ShadowOf at hCc ⊢
        rw [cmGet_cmModify, cmGet_cmModify]
        by_cases hkS : c = Node.Security
        · rw [hkS] at hCc ⊢
          rw [hsec] at hCc
          cases he : cmGet h.SecurityCache Node.Security with
          | none => simp [he] at hCc
          | some e =>
            simp [he] at hCc
            simp [he, hsec, hCc]
        · simpa [hkS] using hCc
      · obtain ⟨New, hNew⟩ : ∃ New, env.ReallocIndex Node.Security (SECURITY_CELL_LENGTH
            (env.SeSetSecurityDescriptorInfo info md S.Descriptor).2) = New := ⟨_, rfl⟩
        obtain ⟨hnew, ⟨X, hX, hCache, _⟩, _, hCells, _⟩ :=
          set_reallocate_effect env h Key info md Node S F B _ New hnode hsec hflink hblink rfl
            hNew hfind hrc hlen hok
        have hnew' : New = Node.Security ∨ cmGet h.SecurityCells New = none := by
          rcases hnew with hn | hn
          · exact Or.inl hn
          · exact Or.inr (CellIsFree_spec h _ _ hn).2.2.1
        rw [cmGet_ReallocatedCells _ _ _ S F B _ hsec hflink hblink hnew', if_pos rfl] at hX
        rw [hCells, hCache]
        unfold ShadowOf
        rw [cmGet_ReallocatedCells _ _ _ S F B _ hsec hflink hblink hnew', cmGet_cons,
          cmGet_cmErase, cmGet_cmErase]
        by_cases hkN : c = New
        · subst hkN
          simp only [Option.some.injEq] at hX
          subst hX
          simp [SecurityCacheEntry, RtlLengthSecurityDescriptor]
        · have hNk : ¬ New = c := fun e => hkN e.symm
          by_cases hkO : c = Node.Security
          · subst hkO
            simp [hkN, hNk]
          · unfold ShadowOf at hCc
            cases hk : cmGet h.SecurityCells c <;> simp [hkN, hNk, hkO, hk] at hCc ⊢ <;>
              exact hCc

theorem ShadowOf_of_contents (a b : List (HCELL_INDEX × CM_KEY_SECURITY)) (k : HCELL_INDEX)
    (hc : (cmGet a k).map CellContents = (cmGet b k).map CellContents) :
    ShadowOf a k = ShadowOf b k := by
  unfold ShadowOf
  cases ha : cmGet a k <;> cases hb : cmGet b k <;> simp [ha, hb, CellContents] at hc ⊢
  exact ⟨hc.2.1, hc.2.2⟩

theorem CmpInsertSecurityCellListCache_snd (env : Env) (H : CMHIVE) (c : HCELL_INDEX) :
    (CmpInsertSecurityCellListCache env H c).2 = (CmpAddSecurityCellToCache env H c).2 := by
  unfold CmpInsertSecurityCellListCache
  split <;> rfl

/-- The cache after a successful insertion of the cell `c`: an entry for `c`
that shadows it, put in front of the entries of the other cells. -/
theorem CmpInsertSecurityCellList_cache (env : Env) (H : CMHIVE) (n c : HCELL_INDEX)
    (hok : (CmpInsertSecurityCellList env H n c).1 = true) :
    ∃ S, cmGet H.SecurityCells c = some S ∧
      (cmGet (CmpInsertSecurityCellList env H n c).2.SecurityCache c).map
          (fun e => (e.Cell, e.DescriptorLength, e.Descriptor)) =
        some (c, S.DescriptorLength, S.Descriptor.take S.DescriptorLength) ∧
      ∀ k, k ≠ c →
        cmGet (CmpInsertSecurityCellList env H n c).2.SecurityCache k =
          cmGet H.SecurityCache k := by
  have key : ∀ H2 : CMHIVE,
      CmpInsertSecurityCellList env H n c = CmpInsertSecurityCellListCache env H2 c →
      H2.SecurityCache = H.SecurityCache →
      (∀ k, (cmGet H2.SecurityCells k).map CellContents =
        (cmGet H.SecurityCells k).map CellContents) →
      ∃ S, cmGet H.SecurityCells c = some S ∧
      (cmGet (CmpInsertSecurityCellList env H n c).2.SecurityCache c).map
          (fun e => (e.Cell, e.DescriptorLength, e.Descriptor)) =
        some (c, S.DescriptorLength, S.Descriptor.take S.DescriptorLength) ∧
      ∀ k, k ≠ c →
        cmGet (CmpInsertSecurityCellList env H n c).2.SecurityCache k =
          cmGet H.SecurityCache k := by
    intro H2 hi hcache hcont
    rw [hi, CmpInsertSecurityCellListCache_fst] at hok
    obtain ⟨S2, hS2, _, _, _, hC, _⟩ := CmpAddSecurityCellToCache_of_success env H2 c hok
    have hc2 := hcont c
    rw [hS2] at hc2
    cases hS : cmGet H.SecurityCells c with
    | none => simp [hS] at hc2
    | some S =>
      simp only [hS, Option.map_some', Option.some.injEq, CellContents, Prod.mk.injEq] at hc2
      refine ⟨S, rfl, ?_, ?_⟩
      · rw [hi, CmpInsertSecurityCellListCache_snd, hC]
        simp [cmGet_cons, SecurityCacheEntry, hc2.2.1, hc2.2.2]
      · intro k hk
        have hk2 : ¬ c = k := fun e => hk e.symm
        rw [hi, CmpInsertSecurityCellListCache_snd, hC, cmGet_cons, if_neg hk2, cmGet_cmErase,
          if_neg hk, hcache]
  rcases CmpInsertSecurityCellList_cases env H n c with
    ⟨hf, _⟩ | ⟨_, hi⟩ | ⟨Node, ParentNode, BlinkCell, FlinkCell, _, _, _, _, _, _, _, _, hi⟩
  · rw [hf] at hok
    cases hok
  · refine key _ hi rfl (fun k => ?_)
    simp only [WriteSecurity_SecurityCells]
    exact cmGet_cmModify_contents _ _ _ _ (fun _ => rfl)
  · refine key _ hi rfl (fun k => ?_)
    simp only [WriteSecurity_SecurityCells, Dirtied_SecurityCells]
    refine (cmGet_cmModify_contents _ _ _ _ ?_).trans
      ((cmGet_cmModify_contents _ _ _ _ ?_).trans
        ((cmGet_cmModify_contents _ _ _ _ ?_).trans (cmGet_cmModify_contents _ _ _ _ ?_)))
    all_goals intro _; rfl

/-- A successful assign leaves the cache consistent. -/
theorem assign_preserves_cache (env : Env) (h : CMHIVE) (Cell : HCELL_INDEX) (D : List Nat)
    (hcache : CacheConsistent h)
    (hok : (CmpAssignSecurityDescriptor env h Cell D).1 = STATUS_SUCCESS) :
    CacheConsistent (CmpAssignSecurityDescriptor env h Cell D).2 := by
  have hC := (CacheConsistent_iff h).1 hcache
  rw [CacheConsistent_iff]
  intro c
  have hCc := hC c
  obtain ⟨_, hcase⟩ := CmpAssignSecurityDescriptor_of_success env h Cell D hok
  rcases hcase with ⟨M, X, _, hX, _, _, heq⟩ | ⟨_, hfree, hins, heq⟩
  · rw [heq]
    simp only [WriteNode_SecurityCells, WriteSecurity_SecurityCells, Dirtied_SecurityCells,
      WriteNode_SecurityCache, WriteSecurity_SecurityCache, Dirtied_SecurityCache]
    rw [ShadowOf_cmModify_keep]
    exact hCc
  · obtain ⟨N, hN⟩ : ∃ N, env.AllocIndex (SECURITY_CELL_LENGTH D) (HvGetCellType Cell) = N :=
      ⟨_, rfl⟩
    rw [hN] at hfree hins heq
    obtain ⟨_, _, hnone, _⟩ := CellIsFree_spec h _ _ hfree
    obtain ⟨S, hS, hcN, hcK⟩ := CmpInsertSecurityCellList_cache env _ Cell N hins
    have hcont := CmpInsertSecurityCellList_contents env
      (WriteSecurity (WithNewCell (Dirtied h Cell) N (SECURITY_CELL_LENGTH D)) N
        (InitializeSecurityCell D)) Cell N c
    rw [heq]
    simp only [WriteNode_SecurityCells, WriteNode_SecurityCache]
    rw [ShadowOf_of_contents _ _ _ hcont]
    simp only [WriteSecurity_SecurityCells, WithNewCell_SecurityCells, Dirtied_SecurityCells,
      WriteSecurity_SecurityCache, WithNewCell_SecurityCache, Dirtied_SecurityCache]
      at hS hcK ⊢
    by_cases hk : c = N
    · subst hk
      rw [hcN]
      simp [cmGet_cmModify, cmGet_cons, InitializeSecurityCell] at hS
      subst hS
      have hexact : RtlCopyMemory
          (List.replicate (SECURITY_CELL_LENGTH D - CM_KEY_SECURITY_HEADER) 0) D
          D.length = D :=
        RtlCopyMemory_exact _ _ (by simp [SECURITY_CELL_LENGTH, RtlLengthSecurityDescriptor])
      simp [ShadowOf, cmGet_cmModify, cmGet_cons, InitializeSecurityCell, hexact,
        RtlLengthSecurityDescriptor]
    · have hk2 : ¬ N = c := fun e => hk e.symm
      rw [hcK c hk]
      unfold ShadowOf at hCc ⊢
      simpa [cmGet_cmModify, cmGet_cons, hk, hk2] using hCc

/-- A release that could map its cells leaves the cache consistent. -/
theorem free_preserves_cache (env : Env) (h : CMHIVE) (Cell : HCELL_INDEX)
    (hcache : CacheConsistent h) (hmapped : ReleaseMapped env h Cell = true) :
    CacheConsistent (CmpFreeSecurityDescriptor env h Cell) := by
  have hC := (CacheConsistent_iff h).1 hcache
  rw [CacheConsistent_iff]
  intro c
  have hCc := hC c
  obtain ⟨Node, S, _, hsec, hcase⟩ := CmpFreeSecurityDescriptor_of_mapped env h Cell hmapped
  rcases hcase with ⟨_, _, _, heq⟩ | ⟨_, heq⟩
  · rw [heq]
    simp only [WriteNode_SecurityCells, WriteSecurity_SecurityCells, HvFreeCell_SecurityCells,
      CmpRemoveFromSecurityCache_SecurityCells, WriteNode_SecurityCache,
      WriteSecurity_SecurityCache, HvFreeCell_SecurityCache,
      CmpRemoveFromSecurityCache_SecurityCache]
    rw [ShadowOf_cmErase, ShadowOf_cmModify_keep, ShadowOf_cmModify_keep, cmGet_cmErase]
    by_cases hkS : c = Node.Security
    · simp [hkS]
    · simpa [hkS] using hCc
  · rw [heq]
    simp only [WriteNode_SecurityCells, WriteSecurity_SecurityCells, WriteNode_SecurityCache,
      WriteSecurity_SecurityCache]
    rw [ShadowOf_cmModify_keep]
    exact hCc

/-! ## Sequences of operations -/

/-- Every successful operation keeps the store well-formed. -/
theorem StoreWellFormed_step (env : Env) (h h1 : CMHIVE) (op : StoreOp)
    (hwf : StoreWellFormed h) (hpin : DirtyMeansPinned env)
    (hstep : op.Successful env h = some h1) : StoreWellFormed h1 := by
  obtain ⟨hinv, hring, hcache⟩ := hwf
  cases op with
  | Assign Cell D =>
    simp only [StoreOp.Successful] at hstep
    split at hstep
    · rename_i hc
      simp only [Option.some.injEq] at hstep
      subst hstep
      exact ⟨assign_conserves_refcounts env h Cell D hinv hc.1 hc.2,
        assign_preserves_ring env h Cell D hinv hring hc.2,
        assign_preserves_cache env h Cell D hcache hc.2⟩
    · cases hstep
  | Set Key info md =>
    simp only [StoreOp.Successful] at hstep
    split at hstep
    · rename_i hc
      simp only [Option.some.injEq] at hstep
      subst hstep
      exact ⟨set_conserves_refcounts env h Key info md hinv hring hc,
        set_preserves_ring env h Key info md hring hpin hc,
        set_preserves_cache env h Key info md hring hcache hpin hc⟩
    · cases hstep
  | Release Cell =>
    simp only [StoreOp.Successful] at hstep
    split at hstep
    · rename_i hc
      simp only [Option.some.injEq] at hstep
      subst hstep
      exact ⟨free_conserves_refcounts env h Cell hinv,
        free_preserves_ring env h Cell hring hc,
        free_preserves_cache env h Cell hcache hc⟩
    · cases hstep

/-- Every sequence of successful operations keeps the store well-formed. -/
theorem StoreWellFormed_run (ops : List (Env × StoreOp)) :
    ∀ h h1 : CMHIVE, StoreWellFormed h → (∀ p ∈ ops, DirtyMeansPinned p.1) →
      RunOps ops h = some h1 → StoreWellFormed h1 := by
  induction ops with
  | nil =>
    intro h h1 hwf _ hrun
    simp only [RunOps, Option.some.injEq] at hrun
    subst hrun
    exact hwf
  | cons p rest ih =>
    intro h h1 hwf hpin hrun
    obtain ⟨env, op⟩ := p
    simp only [RunOps] at hrun
    cases hs : op.Successful env h with
    | none => simp [hs] at hrun
    | some h2 =>
      simp only [hs] at hrun
      exact ih h2 h1
        (StoreWellFormed_step env h h2 op hwf (hpin (env, op) (List.mem_cons_self _ _)) hs)
        (fun q hq => hpin q (List.mem_cons_of_mem _ hq)) hrun

/-- Cache consistency from checks over the entries of the hive. -/
theorem CacheConsistent_of_forall_mem (h : CMHIVE)
    (h1 : ∀ e ∈ h.SecurityCells,
      (cmGet h.SecurityCache e.1).map (fun x => (x.Cell, x.DescriptorLength, x.Descriptor)) =
        some (e.1, e.2.DescriptorLength, e.2.Descriptor))
    (h2 : ∀ e ∈ h.SecurityCache, (cmGet h.SecurityCells e.1).isSome = true) :
    CacheConsistent h := by
  constructor
  · intro c S hS
    have := h1 _ (cmGet_mem _ _ _ hS)
    cases he : cmGet h.SecurityCache c with
    | none => simp [he] at this
    | some e =>
      simp only [he, Option.map_some', Option.some.injEq, Prod.mk.injEq] at this
      exact ⟨e, rfl, this.1, this.2.1, this.2.2⟩
  · intro c e he
    exact h2 _ (cmGet_mem _ _ _ he)

theorem DirtyMeansPinned_ExampleEnv : DirtyMeansPinned ExampleEnv := fun _ _ => rfl

/-- Ring closure in terms of the security cells. -/
theorem RingClosed_iff (h : CMHIVE) :
    RingClosed h ↔
      ∀ a b A B, cmGet h.SecurityCells a = some A → cmGet h.SecurityCells b = some B →
        Relation.ReflTransGen
          (fun x y => ∃ X, cmGet h.SecurityCells x = some X ∧ X.Flink = y) a b := by
  have hrel : (fun x y => ∃ X, cmGet h.SecurityCells x = some X ∧ X.Flink = y) =
      FlinkStep (LinksOf h.SecurityCells) := by
    funext x y
    apply propext
    unfold FlinkStep LinksOf
    constructor
    · rintro ⟨X, hX, hf⟩
      exact ⟨X.Blink, by simp [hX, hf]⟩
    · rintro ⟨w, hw⟩
      cases hX : cmGet h.SecurityCells x with
      | none => simp [hX] at hw
      | some X =>
        simp only [hX, Option.map_some', Option.some.injEq, Prod.mk.injEq] at hw
        exact ⟨X, rfl, hw.1⟩
  rw [hrel]
  unfold RingClosed ClosedRing LinksOf
  constructor
  · intro hc a b A B hA hB
    exact hc a b (by simp [hA]) (by simp [hB])
  · intro hc a b ha hb
    cases hA : cmGet h.SecurityCells a with
    | none => simp [hA] at ha
    | some A =>
      cases hB : cmGet h.SecurityCells b with
      | none => simp [hB] at hb
      | some B => exact hc a b A B hA hB

/-- A successful operation that starts no ring of its own beside live cells
keeps the ring closed. -/
theorem RingClosed_step (env : Env) (h h1 : CMHIVE) (op : StoreOp)
    (hwf : StoreWellFormed h) (hclosed : RingClosed h) (hpin : DirtyMeansPinned env)
    (hone : StartsOwnRing env h op = true → h.SecurityCells = [])
    (hstep : op.Successful env h = some h1) : RingClosed h1 := by
  obtain ⟨hinv, hring, _⟩ := hwf
  have hL := (RingLinked_iff h).1 hring
  cases op with
  | Assign Cell D =>
    simp only [StoreOp.Successful] at hstep
    split at hstep
    · rename_i hc
      simp only [Option.some.injEq] at hstep
      subst hstep
      rcases assign_ring_change env h Cell D hinv hring hc.2 with hch | ⟨hown, N, _, h1⟩
      · exact ClosedRing_change _ _ hL hclosed hch
      · refine ClosedRing_first _ _ N (fun k => ?_) h1
        simp [LinksOf, hone hown]
    · cases hstep
  | Set Key info md =>
    simp only [StoreOp.Successful] at hstep
    split at hstep
    · rename_i hc
      simp only [Option.some.injEq] at hstep
      subst hstep
      exact ClosedRing_change _ _ hL hclosed (set_ring_change env h Key info md hring hpin hc)
    · cases hstep
  | Release Cell =>
    simp only [StoreOp.Successful] at hstep
    split at hstep
    · rename_i hc
      simp only [Option.some.injEq] at hstep
      subst hstep
      exact ClosedRing_change _ _ hL hclosed (free_ring_change env h Cell hc)
    · cases hstep

/-- Every sequence of successful operations none of which starts a ring of its
own beside live cells keeps the ring closed. -/
theorem RingClosed_run (ops : List (Env × StoreOp)) :
    ∀ h h1 : CMHIVE, StoreWellFormed h → RingClosed h → (∀ p ∈ ops, DirtyMeansPinned p.1) →
      NoSeparateRing ops h = true → RunOps ops h = some h1 → RingClosed h1 := by
  induction ops with
  | nil =>
    intro h h1 _ hcl _ _ hrun
    simp only [RunOps, Option.some.injEq] at hrun
    subst hrun
    exact hcl
  | cons p rest ih =>
    intro h h1 hwf hcl hpin hone hrun
    obtain ⟨env, op⟩ := p
    simp only [RunOps] at hrun
    simp only [NoSeparateRing, Bool.and_eq_true, Bool.or_eq_true, Bool.not_eq_true',
      List.isEmpty_iff] at hone
    cases hs : op.Successful env h with
    | none => simp [hs] at hrun
    | some h2 =>
      simp only [hs] at hrun hone
      have hp := hpin (env, op) (List.mem_cons_self _ _)
      have hown : StartsOwnRing env h op = true → h.SecurityCells = [] := by
        intro e
        rcases hone.1 with h0 | h0
        · rw [e] at h0
          cases h0
        · exact h0
      exact ih h2 h1 (StoreWellFormed_step env h h2 op hwf hp hs)
        (RingClosed_step env h h2 op hwf hcl hp hown hs)
        (fun q hq => hpin q (List.mem_cons_of_mem _ hq)) hone.2 hrun

/-- A hive without security cells has a closed ring. -/
theorem RingClosed_of_nil (h : CMHIVE) (hc : h.SecurityCells = []) : RingClosed h := by
  intro a b ha
  simp [LinksOf, hc] at ha

theorem DirtyMeansPinned_ExampleEnvTyped : DirtyMeansPinned ExampleEnvTyped := fun _ _ => rfl

/-! ## Sharing of equal descriptors -/

/-- The cache entry of a cell depends on its length and bytes only. -/
theorem SecurityCacheEntry_congr (env : Env) (c : HCELL_INDEX) (S1 S2 : CM_KEY_SECURITY)
    (h : CellContents S1 = CellContents S2) :
    SecurityCacheEntry env c S1 = SecurityCacheEntry env c S2 := by
  simp only [CellContents, Prod.mk.injEq] at h
  simp [SecurityCacheEntry, h.2.1, h.2.2]

/-- The cache and the hash table after a successful insertion of the cell `c`:
the entry of `c` in front of the cache, linked at the tail of its bucket. -/
theorem CmpInsertSecurityCellList_hash (env : Env) (H : CMHIVE) (n c : HCELL_INDEX)
    (hok : (CmpInsertSecurityCellList env H n c).1 = true) :
    ∃ S, cmGet H.SecurityCells c = some S ∧
      (CmpInsertSecurityCellList env H n c).2.SecurityCache =
        (c, SecurityCacheEntry env c S) :: cmErase H.SecurityCache c ∧
      (CmpInsertSecurityCellList env H n c).2.SecurityHash =
        InsertTailList (CmpRemoveEntryList H.SecurityHash c)
          ((SecurityCacheEntry env c S).ConvKey % env.CmpSecHashTableSize) c := by
  have key : ∀ H2 : CMHIVE,
      CmpInsertSecurityCellList env H n c = CmpInsertSecurityCellListCache env H2 c →
      H2.SecurityCache = H.SecurityCache → H2.SecurityHash = H.SecurityHash →
      (∀ k, (cmGet H2.SecurityCells k).map CellContents =
        (cmGet H.SecurityCells k).map CellContents) →
      ∃ S, cmGet H.SecurityCells c = some S ∧
      (CmpInsertSecurityCellList env H n c).2.SecurityCache =
        (c, SecurityCacheEntry env c S) :: cmErase H.SecurityCache c ∧
      (CmpInsertSecurityCellList env H n c).2.SecurityHash =
        InsertTailList (CmpRemoveEntryList H.SecurityHash c)
          ((SecurityCacheEntry env c S).ConvKey % env.CmpSecHashTableSize) c := by
    intro H2 hi hcache hhash hcont
    rw [hi, CmpInsertSecurityCellListCache_fst] at hok
    obtain ⟨S2, hS2, _, _, _, hC, hH⟩ := CmpAddSecurityCellToCache_of_success env H2 c hok
    have hc2 := hcont c
    rw [hS2] at hc2
    cases hS : cmGet H.SecurityCells c with
    | none => simp [hS] at hc2
    | some S =>
      simp only [hS, Option.map_some', Option.some.injEq] at hc2
      refine ⟨S, rfl, ?_, ?_⟩
      · rw [hi, CmpInsertSecurityCellListCache_snd, hC, hcache,
          SecurityCacheEntry_congr env c S2 S hc2]
      · rw [hi, CmpInsertSecurityCellListCache_snd, hH, hhash,
          SecurityCacheEntry_congr env c S2 S hc2]
  rcases CmpInsertSecurityCellList_cases env H n c with
    ⟨hf, _⟩ | ⟨_, hi⟩ | ⟨Node, ParentNode, BlinkCell, FlinkCell, _, _, _, _, _, _, _, _, hi⟩
  · rw [hf] at hok
    cases hok
  · refine key _ hi rfl rfl (fun k => ?_)
    simp only [WriteSecurity_SecurityCells]
    exact cmGet_cmModify_contents _ _ _ _ (fun _ => rfl)
  · refine key _ hi rfl rfl (fun k => ?_)
    simp only [WriteSecurity_SecurityCells, Dirtied_SecurityCells]
    refine (cmGet_cmModify_contents _ _ _ _ ?_).trans
      ((cmGet_cmModify_contents _ _ _ _ ?_).trans
        ((cmGet_cmModify_contents _ _ _ _ ?_).trans (cmGet_cmModify_contents _ _ _ _ ?_)))
    all_goals intro _; rfl

/-- After a cell holding `D` has been added to the cache because nothing
matched `D`, the matching routine finds that cell. -/
theorem CmpFindMatchingDescriptorCell_after_add (env env2 : Env) (h h1 : CMHIVE) (D : List Nat)
    (t : Nat) (N : HCELL_INDEX) (S : CM_KEY_SECURITY)
    (hkey : env2.CmpSecConvKey = env.CmpSecConvKey)
    (hsize : env2.CmpSecHashTableSize = env.CmpSecHashTableSize)
    (hnone : CmpFindMatchingDescriptorCell env h D t = none)
    (htype : HvGetCellType N = t)
    (hlen : S.DescriptorLength = RtlLengthSecurityDescriptor D) (hbytes : S.Descriptor = D)
    (hcache : h1.SecurityCache = (N, SecurityCacheEntry env N S) :: cmErase h.SecurityCache N)
    (hhash : h1.SecurityHash =
      InsertTailList (CmpRemoveEntryList h.SecurityHash N)
        ((SecurityCacheEntry env N S).ConvKey % env.CmpSecHashTableSize) N) :
    CmpFindMatchingDescriptorCell env2 h1 D t = some N := by
  have hentry : SecurityCacheEntry env N S =
      { Cell := N, ConvKey := env.CmpSecConvKey (RtlLengthSecurityDescriptor D) D,
        DescriptorLength := RtlLengthSecurityDescriptor D, Descriptor := D } := by
    simp [SecurityCacheEntry, hlen, hbytes, RtlLengthSecurityDescriptor]
  rw [hentry] at hcache hhash
  unfold CmpFindMatchingDescriptorCell SecurityHashBucket at hnone ⊢
  rw [List.find?_eq_none] at hnone
  rw [hhash, hcache, hkey, hsize]
  simp only [InsertTailList, CmpRemoveEntryList, List.filter_append, List.map_append,
    List.find?_append]
  have hold : List.find?
      (CacheEntryMatches
        ((N, { Cell := N, ConvKey := env.CmpSecConvKey (RtlLengthSecurityDescriptor D) D,
               DescriptorLength := RtlLengthSecurityDescriptor D, Descriptor := D })
          :: cmErase h.SecurityCache N)
        (env.CmpSecConvKey (RtlLengthSecurityDescriptor D) D) D t)
      (List.map Prod.snd
        (List.filter
          (fun l => decide (l.1 = env.CmpSecConvKey (RtlLengthSecurityDescriptor D) D
            % env.CmpSecHashTableSize))
          (List.filter (fun l => decide (l.2 ≠ N)) h.SecurityHash))) = none := by
    rw [List.find?_eq_none]
    intro k hk
    simp only [List.mem_map, List.mem_filter, decide_eq_true_eq] at hk
    obtain ⟨l, ⟨⟨hl, hlN⟩, hlb⟩, rfl⟩ := hk
    have hNl : ¬ N = l.2 := fun e => hlN e.symm
    have := hnone l.2 (by
      simp only [List.mem_map, List.mem_filter, decide_eq_true_eq]
      exact ⟨l, ⟨hl, hlb⟩, rfl⟩)
    simpa [CacheEntryMatches, cmGet_cons, cmGet_cmErase, hNl, hlN] using this
  rw [hold]
  simp [CacheEntryMatches, cmGet_cons, htype]

/-- The matching routine takes from the environment its hash function and the
size of its table only. -/
theorem CmpFindMatchingDescriptorCell_env (env env2 : Env) (h : CMHIVE) (D : List Nat) (t : Nat)
    (hkey : env2.CmpSecConvKey = env.CmpSecConvKey)
    (hsize : env2.CmpSecHashTableSize = env.CmpSecHashTableSize) :
    CmpFindMatchingDescriptorCell env2 h D t = CmpFindMatchingDescriptorCell env h D t := by
  simp [CmpFindMatchingDescriptorCell, hkey, hsize]

/-- What a successful assign leaves for the matching routine and in the key
nodes: the assigned node refers to a live cell that the matching routine now
finds for the same descriptor and storage type, and the other nodes are as
before. -/
theorem assign_then_match (env env2 : Env) (h : CMHIVE) (Cell : HCELL_INDEX) (D : List Nat)
    (hkey : env2.CmpSecConvKey = env.CmpSecConvKey)
    (hsize : env2.CmpSecHashTableSize = env.CmpSecHashTableSize)
    (hnode : (cmGet h.KeyNodes Cell).isSome = true)
    (hok : (CmpAssignSecurityDescriptor env h Cell D).1 = STATUS_SUCCESS) :
    ∃ M, CmpFindMatchingDescriptorCell env2 (CmpAssignSecurityDescriptor env h Cell D).2 D
          (HvGetCellType Cell) = some M ∧
      (cmGet (CmpAssignSecurityDescriptor env h Cell D).2.KeyNodes Cell).map
        CM_KEY_NODE.Security = some M ∧
      ∀ k, k ≠ Cell → cmGet (CmpAssignSecurityDescriptor env h Cell D).2.KeyNodes k =
        cmGet h.KeyNodes k := by
  cases hN : cmGet h.KeyNodes Cell with
  | none => simp [hN] at hnode
  | some Node =>
  obtain ⟨_, hcase⟩ := CmpAssignSecurityDescriptor_of_success env h Cell D hok
  rcases hcase with ⟨M, X, hfind, hX, _, _, heq⟩ | ⟨hfind, hfree, hins, heq⟩
  · refine ⟨M, ?_, ?_, ?_⟩
    · rw [heq, CmpFindMatchingDescriptorCell_env env env2 _ D _ hkey hsize]
      exact (CmpFindMatchingDescriptorCell_congr env _ h D _ rfl rfl).trans hfind
    · rw [heq]
      simp [cmGet_cmModify, hN]
    · intro k hk
      rw [heq]
      simp [cmGet_cmModify, hk]
  · obtain ⟨N, hNeq⟩ : ∃ N, env.AllocIndex (SECURITY_CELL_LENGTH D) (HvGetCellType Cell) = N :=
      ⟨_, rfl⟩
    rw [hNeq] at hfree hins heq
    obtain ⟨_, htype, _, _⟩ := CellIsFree_spec h _ _ hfree
    obtain ⟨S, hS, hcache, hhash⟩ := CmpInsertSecurityCellList_hash env _ Cell N hins
    simp only [WriteSecurity_SecurityCells, WithNewCell_SecurityCells, Dirtied_SecurityCells,
      WriteSecurity_SecurityCache, WithNewCell_SecurityCache, Dirtied_SecurityCache,
      WriteSecurity_SecurityHash, WithNewCell_SecurityHash, Dirtied_SecurityHash]
      at hS hcache hhash
    have hexact : RtlCopyMemory
        (List.replicate (SECURITY_CELL_LENGTH D - CM_KEY_SECURITY_HEADER) 0) D
        (RtlLengthSecurityDescriptor D) = D :=
      RtlCopyMemory_exact _ _ (by simp [SECURITY_CELL_LENGTH, RtlLengthSecurityDescriptor])
    simp only [cmGet_cmModify, cmGet_cons, if_true, Option.map_some', Option.some.injEq,
      InitializeSecurityCell, hexact] at hS
    refine ⟨N, ?_, ?_, ?_⟩
    · rw [heq]
      refine CmpFindMatchingDescriptorCell_after_add env env2 h _ D _ N S hkey hsize hfind htype
        (by rw [← hS]) (by rw [← hS]) ?_ ?_
      · simpa using hcache
      · simpa using hhash
    · rw [heq]
      simp [cmGet_cmModify, hN]
    · intro k hk
      rw [heq]
      simp [cmGet_cmModify, hk]

/-! ## The single-node check -/

theorem AccessChecks_append (a b : List CheckEvent) :
    AccessChecks (a ++ b) = AccessChecks a ++ AccessChecks b := by
  induction a with
  | nil => rfl
  | cons e rest ih => cases e <;> simp [AccessChecks, ih]

/-- What `CmpCheckKeyAccess` does once both cells are mapped. -/
theorem CmpCheckKeyAccess_mapped (env : Env) (acc : AccessEnv) (Hive : CMHIVE)
    (NodeCell : HCELL_INDEX) (pm da : Nat) (Node : CM_KEY_NODE) (S : CM_KEY_SECURITY)
    (hn : HvGetCellNode env Hive NodeCell = some Node)
    (hs : HvGetCellSecurity env Hive Node.Security = some S) :
    (BuffersAllocated acc S = false ∧
      (CmpCheckKeyAccess env acc Hive NodeCell pm da).1 = STATUS_INSUFFICIENT_RESOURCES ∧
      AccessChecks (CmpCheckKeyAccess env acc Hive NodeCell pm da).2 = []) ∨
    (BuffersAllocated acc S = true ∧ NT_SUCCESS (FullDescriptorQuery acc S).1 = false ∧
      (CmpCheckKeyAccess env acc Hive NodeCell pm da).1 = (FullDescriptorQuery acc S).1 ∧
      AccessChecks (CmpCheckKeyAccess env acc Hive NodeCell pm da).2 = []) ∨
    (BuffersAllocated acc S = true ∧ NT_SUCCESS (FullDescriptorQuery acc S).1 = true ∧
      acc.SeAccessCheck (FullDescriptorQuery acc S).2.2 da pm = true ∧
      (CmpCheckKeyAccess env acc Hive NodeCell pm da).1 = (FullDescriptorQuery acc S).1 ∧
      AccessChecks (CmpCheckKeyAccess env acc Hive NodeCell pm da).2 = [NodeCell]) ∨
    (BuffersAllocated acc S = true ∧ NT_SUCCESS (FullDescriptorQuery acc S).1 = true ∧
      acc.SeAccessCheck (FullDescriptorQuery acc S).2.2 da pm = false ∧
      (CmpCheckKeyAccess env acc Hive NodeCell pm da).1 = STATUS_ACCESS_DENIED ∧
      AccessChecks (CmpCheckKeyAccess env acc Hive NodeCell pm da).2 = [NodeCell]) := by
  have hinfo : OWNER_SECURITY_INFORMATION ||| GROUP_SECURITY_INFORMATION |||
      DACL_SECURITY_INFORMATION ||| SACL_SECURITY_INFORMATION = FULL_SECURITY_INFORMATION := rfl
  simp only [CmpCheckKeyAccess, hn, hs, CmpCheckKeyAccessQueried, hinfo, AccessChecks_append]
  cases ha : acc.ExAllocatePool S.DescriptorLength with
  | false => simp [BuffersAllocated, ha, AccessChecks]
  | true =>
    by_cases hb : (acc.SeQuerySecurityDescriptorInfo FULL_SECURITY_INFORMATION
        S.DescriptorLength S.Descriptor).1 = STATUS_BUFFER_TOO_SMALL
    · cases ha2 : acc.ExAllocatePool (acc.SeQuerySecurityDescriptorInfo
          FULL_SECURITY_INFORMATION S.DescriptorLength S.Descriptor).2.1 with
      | false => simp [BuffersAllocated, ha, hb, ha2, AccessChecks]
      | true =>
        cases hq : NT_SUCCESS (FullDescriptorQuery acc S).1 with
        | false =>
          have hq2 := hq
          simp only [FullDescriptorQuery, hb, if_true] at hq2
          simp [BuffersAllocated, FullDescriptorQuery, ha, hb, ha2, hq2, AccessChecks]
        | true =>
          have hq2 := hq
          simp only [FullDescriptorQuery, hb, if_true] at hq2
          cases he : acc.SeAccessCheck (FullDescriptorQuery acc S).2.2 da pm with
          | false =>
            have he2 := he
            simp only [FullDescriptorQuery, hb, if_true] at he2
            simp [BuffersAllocated, FullDescriptorQuery, ha, hb, ha2, hq2, he2, AccessChecks]
          | true =>
            have he2 := he
            simp only [FullDescriptorQuery, hb, if_true] at he2
            simp [BuffersAllocated, FullDescriptorQuery, ha, hb, ha2, hq2, he2, AccessChecks]
    · cases hq : NT_SUCCESS (FullDescriptorQuery acc S).1 with
      | false =>
        have hq2 := hq
        simp only [FullDescriptorQuery, hb, if_false] at hq2
        simp [BuffersAllocated, FullDescriptorQuery, ha, hb, hq2, AccessChecks]
      | true =>
        have hq2 := hq
        simp only [FullDescriptorQuery, hb, if_false] at hq2
        cases he : acc.SeAccessCheck (FullDescriptorQuery acc S).2.2 da pm with
        | false =>
          have he2 := he
          simp only [FullDescriptorQuery, hb, if_false] at he2
          simp [BuffersAllocated, FullDescriptorQuery, ha, hb, hq2, he2, AccessChecks]
        | true =>
          have he2 := he
          simp only [FullDescriptorQuery, hb, if_false] at he2
          simp [BuffersAllocated, FullDescriptorQuery, ha, hb, hq2, he2, AccessChecks]

/-- What `CmpCheckKeyAccess` does when the node cell cannot be mapped. -/
theorem CmpCheckKeyAccess_no_node (env : Env) (acc : AccessEnv) (Hive : CMHIVE)
    (NodeCell : HCELL_INDEX) (pm da : Nat) (hn : HvGetCellNode env Hive NodeCell = none) :
    (CmpCheckKeyAccess env acc Hive NodeCell pm da).1 = STATUS_INSUFFICIENT_RESOURCES ∧
      AccessChecks (CmpCheckKeyAccess env acc Hive NodeCell pm da).2 = [] := by
  simp [CmpCheckKeyAccess, hn, AccessChecks]

/-- What `CmpCheckKeyAccess` does when the security cell cannot be mapped. -/
theorem CmpCheckKeyAccess_no_security (env : Env) (acc : AccessEnv) (Hive : CMHIVE)
    (NodeCell : HCELL_INDEX) (pm da : Nat) (Node : CM_KEY_NODE)
    (hn : HvGetCellNode env Hive NodeCell = some Node)
    (hs : HvGetCellSecurity env Hive Node.Security = none) :
    (CmpCheckKeyAccess env acc Hive NodeCell pm da).1 = STATUS_INSUFFICIENT_RESOURCES ∧
      AccessChecks (CmpCheckKeyAccess env acc Hive NodeCell pm da).2 = [] := by
  simp [CmpCheckKeyAccess, hn, hs, AccessChecks]

theorem FullDescriptorQuery_ne_denied (acc : AccessEnv) (S : CM_KEY_SECURITY)
    (hquery : QueryNeverDenies acc) : (FullDescriptorQuery acc S).1 ≠ STATUS_ACCESS_DENIED := by
  unfold FullDescriptorQuery
  split
  · exact hquery _ _ _
  · exact hquery _ _ _

theorem STATUS_ACCESS_DENIED_ne : STATUS_ACCESS_DENIED ≠ STATUS_SUCCESS := by decide

theorem STATUS_INSUFFICIENT_RESOURCES_ne_denied :
    STATUS_INSUFFICIENT_RESOURCES ≠ STATUS_ACCESS_DENIED := by decide

theorem NT_SUCCESS_ACCESS_DENIED : NT_SUCCESS STATUS_ACCESS_DENIED = false := by decide

theorem QueryNeverDenies_ExampleAccessEnv : QueryNeverDenies ExampleAccessEnv := by
  intro info length descriptor
  simp only [ExampleAccessEnv]
  split
  · exact (by decide : STATUS_BUFFER_TOO_SMALL ≠ STATUS_ACCESS_DENIED)
  · exact (by decide : STATUS_SUCCESS ≠ STATUS_ACCESS_DENIED)


/-! ## The subtree walk -/

theorem getD_set_eq {α : Type} (l : List α) (i : Nat) (a d : α) (h : i < l.length) :
    (l.set i a).getD i d = a := by
  simp [List.getD_eq_getElem?_getD, List.getElem?_set, h]

theorem getD_set_ne {α : Type} (l : List α) (i j : Nat) (a d : α) (h : i ≠ j) :
    (l.set i a).getD j d = l.getD j d := by
  simp [List.getD_eq_getElem?_getD, List.getElem?_set, h]

theorem WalkLoop_done (env : Env) (acc : AccessEnv) (Hive : CMHIVE) (pm da : Nat)
    (fuel : Nat) (s : WalkState) (h : s.StackIndex < 0) :
    WalkLoop env acc Hive pm da fuel s = some s := by
  unfold WalkLoop
  simp [h]

theorem WalkLoop_succ (env : Env) (acc : AccessEnv) (Hive : CMHIVE) (pm da : Nat)
    (fuel : Nat) (s : WalkState) (h : 0 ≤ s.StackIndex) :
    WalkLoop env acc Hive pm da (fuel + 1) s =
      if (WalkIteration env acc Hive pm da s).1 = true then
        WalkLoop env acc Hive pm da fuel (WalkIteration env acc Hive pm da s).2
      else some (WalkIteration env acc Hive pm da s).2 := by
  rw [WalkLoop]
  simp [not_lt.2 h]

/-- An iteration of the loop on a cell that was checked before goes straight to
the second part of the body. -/
theorem WalkLoop_checked (env : Env) (acc : AccessEnv) (Hive : CMHIVE) (pm da : Nat)
    (fuel : Nat) (s : WalkState) (h : 0 ≤ s.StackIndex) (hc : s.Top.CellChecked = true) :
    WalkLoop env acc Hive pm da (fuel + 1) s =
      WalkRest env acc Hive pm da fuel
        { s with Trace := s.Trace ++ [CheckEvent.StackRead s.StackIndex] } := by
  rw [WalkLoop_succ _ _ _ _ _ _ _ h]
  simp [WalkIteration, WalkCheckCell, hc, WalkRest]

/-- An iteration of the loop on a cell that was not checked yet checks it, and
goes on to the second part of the body if the check succeeds. -/
theorem WalkLoop_unchecked (env : Env) (acc : AccessEnv) (Hive : CMHIVE) (pm da : Nat)
    (fuel : Nat) (s : WalkState) (h : 0 ≤ s.StackIndex) (hc : s.Top.CellChecked = false) :
    WalkLoop env acc Hive pm da (fuel + 1) s =
      if NT_SUCCESS (CmpCheckKeyAccess env acc Hive s.Top.Cell pm da).1 = true then
        WalkRest env acc Hive pm da fuel
          { s with
            CheckStack := s.CheckStack.set s.StackIndex.toNat { s.Top with CellChecked := true },
            Status := (CmpCheckKeyAccess env acc Hive s.Top.Cell pm da).1,
            Trace := s.Trace ++
              [CheckEvent.StackRead s.StackIndex, CheckEvent.StackWrite s.StackIndex,
               CheckEvent.StackRead s.StackIndex] ++
              (CmpCheckKeyAccess env acc Hive s.Top.Cell pm da).2 }
      else
        some
          { s with
            CheckStack := s.CheckStack.set s.StackIndex.toNat { s.Top with CellChecked := true },
            Status := (CmpCheckKeyAccess env acc Hive s.Top.Cell pm da).1,
            Trace := s.Trace ++
              [CheckEvent.StackRead s.StackIndex, CheckEvent.StackWrite s.StackIndex,
               CheckEvent.StackRead s.StackIndex] ++
              (CmpCheckKeyAccess env acc Hive s.Top.Cell pm da).2 } := by
  rw [WalkLoop_succ _ _ _ _ _ _ _ h]
  cases hs : NT_SUCCESS (CmpCheckKeyAccess env acc Hive s.Top.Cell pm da).1 <;>
    simp [WalkIteration, WalkCheckCell, hc, WalkRest, hs]

/-- The second part of the body on a node with no subkey left: go back up. -/
theorem WalkDescend_pop (env : Env) (acc : AccessEnv) (Hive : CMHIVE) (s : WalkState)
    (Node : CM_KEY_NODE) (hn : HvGetCellNode env Hive s.Top.Cell = some Node)
    (hj : SubKeyCount Node ≤ s.Top.ChildIndex) :
    WalkDescend env acc Hive s =
      (true,
        { s with
          StackIndex := s.StackIndex - 1,
          Trace := s.Trace ++
            [CheckEvent.StackRead s.StackIndex,
             CheckEvent.GetCell s.Top.Cell Hive.ReleaseCellRoutine,
             CheckEvent.StackRead s.StackIndex] }) := by
  have hj2 : ¬ s.Top.ChildIndex <
      (Node.SubKeyCounts.getD Stable 0 + Node.SubKeyCounts.getD Volatile 0) % 4294967296 :=
    not_lt.2 hj
  unfold WalkDescend
  simp only [hn]
  rw [if_neg hj2]

/-- The second part of the body on a node with a subkey left, below the depth
bound: push the subkey. -/
theorem WalkDescend_push (env : Env) (acc : AccessEnv) (Hive : CMHIVE) (s : WalkState)
    (Node : CM_KEY_NODE) (hn : HvGetCellNode env Hive s.Top.Cell = some Node)
    (hj : s.Top.ChildIndex < SubKeyCount Node)
    (hsub : acc.CmpFindSubKeyByNumber s.Top.Cell s.Top.ChildIndex ≠ HCELL_NIL)
    (hdepth : s.StackIndex + 1 ≠ (acc.CMP_MAX_REGISTRY_DEPTH : Int)) :
    WalkDescend env acc Hive s =
      (true,
        { CheckStack :=
            (s.CheckStack.set s.StackIndex.toNat
              { s.Top with ChildIndex := ULONG_INC s.Top.ChildIndex }).set
              (s.StackIndex + 1).toNat
              { Cell := acc.CmpFindSubKeyByNumber s.Top.Cell s.Top.ChildIndex,
                ChildIndex := 0,
                CellChecked := false },
          StackIndex := s.StackIndex + 1,
          Status := s.Status,
          Trace := s.Trace ++
            [CheckEvent.StackRead s.StackIndex,
             CheckEvent.GetCell s.Top.Cell Hive.ReleaseCellRoutine,
             CheckEvent.StackRead s.StackIndex, CheckEvent.StackRead s.StackIndex,
             CheckEvent.StackRead s.StackIndex, CheckEvent.StackWrite s.StackIndex,
             CheckEvent.StackWrite (s.StackIndex + 1),
             CheckEvent.StackWrite (s.StackIndex + 1),
             CheckEvent.StackWrite (s.StackIndex + 1)] }) := by
  have hj2 : s.Top.ChildIndex <
      (Node.SubKeyCounts.getD Stable 0 + Node.SubKeyCounts.getD Volatile 0) % 4294967296 := hj
  unfold WalkDescend
  simp only [hn]
  rw [if_pos hj2, if_neg hsub, if_neg hdepth]

/-- The second part of the body never leaves the loop with a success status
by `break`. -/
theorem WalkDescend_break (env : Env) (acc : AccessEnv) (Hive : CMHIVE) (s : WalkState)
    (h : (WalkDescend env acc Hive s).1 = false) :
    (WalkDescend env acc Hive s).2.Status = STATUS_INSUFFICIENT_RESOURCES := by
  unfold WalkDescend at h ⊢
  cases hn : HvGetCellNode env Hive s.Top.Cell with
  | none => rfl
  | some Node =>
    simp only [hn] at h ⊢
    by_cases hj : s.Top.ChildIndex <
        (Node.SubKeyCounts.getD Stable 0 + Node.SubKeyCounts.getD Volatile 0) % 4294967296
    · rw [if_pos hj] at h ⊢
      by_cases hsub : acc.CmpFindSubKeyByNumber s.Top.Cell s.Top.ChildIndex = HCELL_NIL
      · rw [if_pos hsub]
      · rw [if_neg hsub] at h ⊢
        by_cases hd : s.StackIndex + 1 = (acc.CMP_MAX_REGISTRY_DEPTH : Int)
        · rw [if_pos hd]
        · rw [if_neg hd] at h
          exact absurd h (by simp)
    · rw [if_neg hj] at h
      exact absurd h (by simp)

theorem CheckAll_append (check : HCELL_INDEX → NTSTATUS) (l1 l2 : List HCELL_INDEX)
    (st : NTSTATUS) :
    CheckAll check (l1 ++ l2) st =
      if (CheckAll check l1 st).1 = true then CheckAll check l2 (CheckAll check l1 st).2
      else CheckAll check l1 st := by
  induction l1 generalizing st with
  | nil => simp [CheckAll]
  | cons c rest ih =>
    simp only [List.cons_append, CheckAll]
    split
    · exact ih _
    · simp

theorem CheckAll_fst (check : HCELL_INDEX → NTSTATUS) (l : List HCELL_INDEX)
    (st st1 : NTSTATUS) : (CheckAll check l st).1 = (CheckAll check l st1).1 := by
  cases l with
  | nil => rfl
  | cons c rest => simp [CheckAll]

theorem ChecksOf_append (check : HCELL_INDEX → NTSTATUS × List CheckEvent)
    (l1 l2 : List HCELL_INDEX) (st : NTSTATUS) :
    ChecksOf check (l1 ++ l2) =
      ChecksOf check l1 ++
        (if (CheckAll (fun c => (check c).1) l1 st).1 = true then ChecksOf check l2 else []) := by
  induction l1 generalizing st with
  | nil => simp [ChecksOf, CheckAll]
  | cons c rest ih =>
    show ChecksOf check (c :: (rest ++ l2)) = _
    simp only [ChecksOf, CheckAll]
    by_cases hc : NT_SUCCESS (check c).1 = true
    · simp only [hc, if_true]
      rw [ih (check c).1]
      simp
    · simp only [hc, if_false]
      simp

theorem SubtreeCellsFrom_done (env : Env) (acc : AccessEnv) (Hive : CMHIVE) (d : Nat)
    (c : HCELL_INDEX) (j n : Nat) (h : n ≤ j) : SubtreeCellsFrom env acc Hive d c j n = [] := by
  simp [SubtreeCellsFrom, Nat.sub_eq_zero_of_le h]

theorem SubtreeCellsFrom_step (env : Env) (acc : AccessEnv) (Hive : CMHIVE) (d : Nat)
    (c : HCELL_INDEX) (j n : Nat) (h : j < n) :
    SubtreeCellsFrom env acc Hive d c j n =
      SubtreeCells env acc Hive d (acc.CmpFindSubKeyByNumber c j) ++
        SubtreeCellsFrom env acc Hive d c (j + 1) n := by
  unfold SubtreeCellsFrom
  have : n - j = (n - (j + 1)) + 1 := by omega
  rw [this, List.range'_succ]
  simp

theorem SubtreeCells_succ (env : Env) (acc : AccessEnv) (Hive : CMHIVE) (d : Nat)
    (c : HCELL_INDEX) (Node : CM_KEY_NODE) (hn : HvGetCellNode env Hive c = some Node) :
    SubtreeCells env acc Hive (d + 1) c =
      c :: SubtreeCellsFrom env acc Hive d c 0 (SubKeyCount Node) := by
  simp [SubtreeCells, hn, SubtreeCellsFrom]

theorem TreeWithin_succ (env : Env) (acc : AccessEnv) (Hive : CMHIVE) (d : Nat)
    (c : HCELL_INDEX) (h : TreeWithin env acc Hive (d + 1) c = true) :
    ∃ Node, HvGetCellNode env Hive c = some Node ∧
      ∀ i, i < SubKeyCount Node →
        acc.CmpFindSubKeyByNumber c i ≠ HCELL_NIL ∧
          TreeWithin env acc Hive d (acc.CmpFindSubKeyByNumber c i) = true := by
  unfold TreeWithin at h
  cases hn : HvGetCellNode env Hive c with
  | none => simp [hn] at h
  | some Node =>
    refine ⟨Node, rfl, fun i hi => ?_⟩
    simp only [hn, List.all_eq_true] at h
    have := h i (by simp [List.mem_range', hi])
    simpa using this

theorem WalkState_Top_eq (s : WalkState) (k : Nat) (h : s.StackIndex = (k : Int)) :
    s.Top = s.CheckStack.getD k default := by
  simp [WalkState.Top, h]

/-- Going back up from a node without a subkey left, in terms of the fields the walk
lemmas use. -/
theorem WalkDescend_pop_spec (env : Env) (acc : AccessEnv) (Hive : CMHIVE) (s : WalkState)
    (c : HCELL_INDEX) (j : Nat) (b : Bool) (Node : CM_KEY_NODE)
    (htop : s.Top = { Cell := c, ChildIndex := j, CellChecked := b })
    (hn : HvGetCellNode env Hive c = some Node) (hj : SubKeyCount Node ≤ j) :
    ∃ t, WalkDescend env acc Hive s = (true, t) ∧ t.StackIndex = s.StackIndex - 1 ∧
      t.CheckStack = s.CheckStack ∧ t.Status = s.Status ∧
      AccessChecks t.Trace = AccessChecks s.Trace := by
  have hc : s.Top.Cell = c := by rw [htop]
  have hi : s.Top.ChildIndex = j := by rw [htop]
  refine ⟨_, WalkDescend_pop env acc Hive s Node (by rw [hc]; exact hn) (by rw [hi]; exact hj),
    rfl, rfl, rfl, ?_⟩
  simp [AccessChecks_append, AccessChecks]

/-- Pushing the next subkey, in terms of the fields the walk lemmas use. -/
theorem WalkDescend_push_spec (env : Env) (acc : AccessEnv) (Hive : CMHIVE) (s : WalkState)
    (c : HCELL_INDEX) (j k : Nat) (b : Bool) (Node : CM_KEY_NODE)
    (hidx : s.StackIndex = (k : Int))
    (hlen : s.CheckStack.length = acc.CMP_MAX_REGISTRY_DEPTH)
    (htop : s.Top = { Cell := c, ChildIndex := j, CellChecked := b })
    (hn : HvGetCellNode env Hive c = some Node) (hj : j < SubKeyCount Node)
    (hsub : acc.CmpFindSubKeyByNumber c j ≠ HCELL_NIL)
    (hk : k + 1 < acc.CMP_MAX_REGISTRY_DEPTH) :
    ∃ t, WalkDescend env acc Hive s = (true, t) ∧ t.StackIndex = ((k + 1 : Nat) : Int) ∧
      t.CheckStack.length = acc.CMP_MAX_REGISTRY_DEPTH ∧
      t.Top = { Cell := acc.CmpFindSubKeyByNumber c j, ChildIndex := 0, CellChecked := false } ∧
      t.CheckStack.getD k default = { Cell := c, ChildIndex := j + 1, CellChecked := b } ∧
      (∀ i, i < k → t.CheckStack.getD i default = s.CheckStack.getD i default) ∧
      t.Status = s.Status ∧ AccessChecks t.Trace = AccessChecks s.Trace := by
  have hc : s.Top.Cell = c := by rw [htop]
  have hi : s.Top.ChildIndex = j := by rw [htop]
  have hb : s.Top.CellChecked = b := by rw [htop]
  have hjn : j < 4294967295 := by
    have : SubKeyCount Node < 4294967296 := Nat.mod_lt _ (by decide)
    omega
  have hdepth : s.StackIndex + 1 ≠ (acc.CMP_MAX_REGISTRY_DEPTH : Int) := by
    rw [hidx]
    omega
  have h1 : (s.StackIndex + 1).toNat = k + 1 := by
    rw [hidx]
    omega
  have h0 : s.StackIndex.toNat = k := by
    rw [hidx]
    omega
  refine ⟨_, WalkDescend_push env acc Hive s Node (by rw [hc]; exact hn)
    (by rw [hi]; exact hj) (by rw [hc, hi]; exact hsub) hdepth, ?_, ?_, ?_, ?_, ?_, rfl, ?_⟩
  · show s.StackIndex + 1 = ((k + 1 : Nat) : Int)
    rw [hidx]
    omega
  · simp [hlen]
  · rw [WalkState_Top_eq _ (k + 1) (by show s.StackIndex + 1 = ((k + 1 : Nat) : Int); rw [hidx]; omega)]
    show List.getD (List.set _ _ _) _ _ = _
    rw [h1, getD_set_eq _ _ _ _ (by simp [hlen]; omega), hc, hi]
  · show List.getD (List.set _ _ _) _ _ = _
    rw [h1, h0, getD_set_ne _ _ _ _ _ (by omega), getD_set_eq _ _ _ _ (by omega)]
    simp only [hc, hi, hb, ULONG_INC_eq _ hjn]
  · intro i hik
    show List.getD (List.set _ _ _) _ _ = _
    rw [h1, h0, getD_set_ne _ _ _ _ _ (by omega), getD_set_ne _ _ _ _ _ (by omega)]
  · simp [AccessChecks_append, AccessChecks]

/-- The first part of the body on a cell checked before, in terms of the fields the walk
lemmas use. -/
theorem WalkLoop_checked_spec (env : Env) (acc : AccessEnv) (Hive : CMHIVE) (pm da : Nat)
    (s : WalkState) (h : 0 ≤ s.StackIndex) (hc : s.Top.CellChecked = true) :
    ∃ t, (∀ fuel, WalkLoop env acc Hive pm da (fuel + 1) s = WalkRest env acc Hive pm da fuel t) ∧
      t.StackIndex = s.StackIndex ∧ t.CheckStack = s.CheckStack ∧ t.Status = s.Status ∧
      AccessChecks t.Trace = AccessChecks s.Trace := by
  refine ⟨_, fun fuel => WalkLoop_checked env acc Hive pm da fuel s h hc, rfl, rfl, rfl, ?_⟩
  simp [AccessChecks_append, AccessChecks]

/-- The first part of the body on a cell not checked yet, in terms of the fields the walk
lemmas use. -/
theorem WalkLoop_unchecked_spec (env : Env) (acc : AccessEnv) (Hive : CMHIVE) (pm da : Nat)
    (s : WalkState) (c : HCELL_INDEX) (j k : Nat)
    (hidx : s.StackIndex = (k : Int)) (hlen : k < s.CheckStack.length)
    (htop : s.Top = { Cell := c, ChildIndex := j, CellChecked := false }) :
    ∃ t,
      (∀ fuel, WalkLoop env acc Hive pm da (fuel + 1) s =
        if NT_SUCCESS (CmpCheckKeyAccess env acc Hive c pm da).1 = true then
          WalkRest env acc Hive pm da fuel t
        else some t) ∧
      t.StackIndex = (k : Int) ∧ t.CheckStack.length = s.CheckStack.length ∧
      t.Top = { Cell := c, ChildIndex := j, CellChecked := true } ∧
      (∀ i, i < k → t.CheckStack.getD i default = s.CheckStack.getD i default) ∧
      t.Status = (CmpCheckKeyAccess env acc Hive c pm da).1 ∧
      AccessChecks t.Trace =
        AccessChecks s.Trace ++ AccessChecks (CmpCheckKeyAccess env acc Hive c pm da).2 := by
  have hc : s.Top.Cell = c := by rw [htop]
  have hi : s.Top.ChildIndex = j := by rw [htop]
  have hb : s.Top.CellChecked = false := by rw [htop]
  have h0 : s.StackIndex.toNat = k := by
    rw [hidx]
    omega
  refine ⟨{ s with
      CheckStack := s.CheckStack.set s.StackIndex.toNat { s.Top with CellChecked := true },
      Status := (CmpCheckKeyAccess env acc Hive c pm da).1,
      Trace := s.Trace ++
        [CheckEvent.StackRead s.StackIndex, CheckEvent.StackWrite s.StackIndex,
         CheckEvent.StackRead s.StackIndex] ++
        (CmpCheckKeyAccess env acc Hive c pm da).2 },
    fun fuel => ?_, ?_, ?_, ?_, ?_, ?_, ?_⟩
  · have := WalkLoop_unchecked env acc Hive pm da fuel s (by rw [hidx]; omega) hb
    rw [hc] at this
    exact this
  · exact hidx
  · simp
  · show List.getD (List.set _ _ _) _ _ = _
    rw [h0, getD_set_eq _ _ _ _ hlen]
    simp only [hc, hi]
  · intro i hik
    show List.getD (List.set _ _ _) _ _ = _
    rw [h0, getD_set_ne _ _ _ _ _ (by omega)]
  · rfl
  · simp [AccessChecks_append, AccessChecks]

theorem WalkState_Top_congr (s t : WalkState) (hi : t.StackIndex = s.StackIndex)
    (hs : t.CheckStack = s.CheckStack) : t.Top = s.Top := by
  simp [WalkState.Top, hi, hs]

/-- The walk through the subkeys `j`, `j + 1`, ... of a node on the stack at
level `k`, given the walk through a subtree of at most `d` levels. -/
theorem WalkRest_children (env : Env) (acc : AccessEnv) (Hive : CMHIVE) (pm da : Nat) (d : Nat)
    (hA : ∀ (c : HCELL_INDEX) (k : Nat) (s : WalkState),
      TreeWithin env acc Hive d c = true → k + d ≤ acc.CMP_MAX_REGISTRY_DEPTH →
      s.StackIndex = (k : Int) → s.CheckStack.length = acc.CMP_MAX_REGISTRY_DEPTH →
      s.Top = { Cell := c, ChildIndex := 0, CellChecked := false } →
      WalkChecks env acc Hive pm da (WalkLoop env acc Hive pm da) s k
        (SubtreeCells env acc Hive d c))
    (c : HCELL_INDEX) (Node : CM_KEY_NODE) (hn : HvGetCellNode env Hive c = some Node)
    (hsub : ∀ i, i < SubKeyCount Node →
      acc.CmpFindSubKeyByNumber c i ≠ HCELL_NIL ∧
        TreeWithin env acc Hive d (acc.CmpFindSubKeyByNumber c i) = true)
    (k : Nat) (hk : k + d < acc.CMP_MAX_REGISTRY_DEPTH) (m : Nat) :
    ∀ (j : Nat) (s : WalkState), SubKeyCount Node - j = m →
      s.StackIndex = (k : Int) → s.CheckStack.length = acc.CMP_MAX_REGISTRY_DEPTH →
      s.Top = { Cell := c, ChildIndex := j, CellChecked := true } →
      WalkChecks env acc Hive pm da (WalkRest env acc Hive pm da) s k
        (SubtreeCellsFrom env acc Hive d c j (SubKeyCount Node)) := by
  induction m with
  | zero =>
    intro j s hm hidx hlen htop
    have hj : SubKeyCount Node ≤ j := by omega
    obtain ⟨t, hstep, hti, hts, htst, htr⟩ :=
      WalkDescend_pop_spec env acc Hive s c j true Node htop hn hj
    rw [SubtreeCellsFrom_done _ _ _ _ _ _ _ hj]
    refine ⟨0, t, fun fuel => ?_, ?_, ?_, fun _ => ⟨?_, ?_, ?_⟩⟩
    · simp [WalkRest, hstep, CheckAll]
    · simp [CheckAll, htst]
    · simp [ChecksOf, htr]
    · rw [hti, hidx]
    · rw [hts]
    · intro i _
      rw [hts]
  | succ m ih =>
    intro j s hm hidx hlen htop
    have hj : j < SubKeyCount Node := by omega
    obtain ⟨hnil, htree⟩ := hsub j hj
    have hd : d ≠ 0 := by
      rintro rfl
      simp [TreeWithin] at htree
    obtain ⟨s2, hstep, h2i, h2len, h2top, h2k, h2below, h2st, h2tr⟩ :=
      WalkDescend_push_spec env acc Hive s c j k true Node hidx hlen htop hn hj hnil (by omega)
    obtain ⟨N1, t1, hrun1, hst1, htr1, hok1⟩ :=
      hA _ (k + 1) s2 htree (by omega) h2i h2len h2top
    rw [h2st] at hrun1 hst1 hok1
    rw [h2tr] at htr1
    have hrest : ∀ fuel, WalkRest env acc Hive pm da fuel s =
        WalkLoop env acc Hive pm da fuel s2 := by
      intro fuel
      simp [WalkRest, hstep]
    rw [SubtreeCellsFrom_step _ _ _ _ _ _ _ hj]
    by_cases ok1 : (CheckAll (fun c => (CmpCheckKeyAccess env acc Hive c pm da).1)
        (SubtreeCells env acc Hive d (acc.CmpFindSubKeyByNumber c j)) s.Status).1 = true
    · obtain ⟨ht1i, ht1len, ht1below⟩ := hok1 ok1
      have ht1i2 : t1.StackIndex = (k : Int) := by
        rw [ht1i]
        push_cast
        omega
      have ht1top : t1.Top = { Cell := c, ChildIndex := j + 1, CellChecked := true } := by
        rw [WalkState_Top_eq t1 k ht1i2, ht1below k (by omega), h2k]
      obtain ⟨t1c, hloop, hci, hcs, hcst, hctr⟩ :=
        WalkLoop_checked_spec env acc Hive pm da t1 (by rw [ht1i2]; omega) (by rw [ht1top])
      obtain ⟨N2, t2, hrun2, hst2, htr2, hok2⟩ :=
        ih (j + 1) t1c (by omega) (hci.trans ht1i2) (by rw [hcs, ht1len, h2len])
          ((WalkState_Top_congr t1 t1c hci hcs).trans ht1top)
      rw [hcst, hst1] at hrun2 hst2 hok2
      rw [hctr, htr1] at htr2
      refine ⟨N2 + 1 + N1, t2, fun fuel => ?_, ?_, ?_, fun hok => ?_⟩
      · rw [hrest, ← Nat.add_assoc, hrun1, if_pos ok1, ← Nat.add_assoc, hloop, hrun2,
          CheckAll_append, if_pos ok1]
      · rw [hst2, CheckAll_append, if_pos ok1]
      · rw [htr2, ChecksOf_append _ _ _ s.Status, if_pos ok1, List.append_assoc]
      · rw [CheckAll_append, if_pos ok1] at hok
        obtain ⟨h2a, h2b, h2c⟩ := hok2 hok
        refine ⟨h2a, by rw [h2b, hcs, ht1len, h2len, hlen], fun i hik => ?_⟩
        rw [h2c i hik, hcs, ht1below i (by omega), h2below i hik]
    · refine ⟨N1, t1, fun fuel => ?_, ?_, ?_, fun hok => ?_⟩
      · rw [hrest, hrun1, if_neg ok1, CheckAll_append, if_neg ok1, if_neg ok1]
      · rw [hst1, CheckAll_append, if_neg ok1]
      · rw [htr1, ChecksOf_append _ _ _ s.Status, if_neg ok1, List.append_nil]
      · rw [CheckAll_append, if_neg ok1] at hok
        exact absurd hok ok1

/-- The walk through a subtree of at most `d` levels whose root is on the stack
at level `k`, not checked yet. -/
theorem WalkLoop_subtree (env : Env) (acc : AccessEnv) (Hive : CMHIVE) (pm da : Nat) (d : Nat) :
    ∀ (c : HCELL_INDEX) (k : Nat) (s : WalkState),
      TreeWithin env acc Hive d c = true → k + d ≤ acc.CMP_MAX_REGISTRY_DEPTH →
      s.StackIndex = (k : Int) → s.CheckStack.length = acc.CMP_MAX_REGISTRY_DEPTH →
      s.Top = { Cell := c, ChildIndex := 0, CellChecked := false } →
      WalkChecks env acc Hive pm da (WalkLoop env acc Hive pm da) s k
        (SubtreeCells env acc Hive d c) := by
  induction d with
  | zero =>
    intro c k s htree
    simp [TreeWithin] at htree
  | succ d ihd =>
    intro c k s htree hk hidx hlen htop
    obtain ⟨Node, hn, hsub⟩ := TreeWithin_succ env acc Hive d c htree
    obtain ⟨s1, hloop, h1i, h1len, h1top, h1below, h1st, h1tr⟩ :=
      WalkLoop_unchecked_spec env acc Hive pm da s c 0 k hidx (by rw [hlen]; omega) htop
    rw [SubtreeCells_succ env acc Hive d c Node hn]
    by_cases hc : NT_SUCCESS (CmpCheckKeyAccess env acc Hive c pm da).1 = true
    · obtain ⟨N, t, hrun, hst, htr, hok⟩ :=
        WalkRest_children env acc Hive pm da d ihd c Node hn hsub k (by omega)
          (SubKeyCount Node - 0) 0 s1 rfl h1i (by rw [h1len, hlen]) h1top
      rw [h1st] at hrun hst hok
      rw [h1tr] at htr
      refine ⟨N + 1, t, fun fuel => ?_, ?_, ?_, fun hall => ?_⟩
      · rw [← Nat.add_assoc, hloop, if_pos hc, hrun]
        simp only [CheckAll, hc, if_true]
      · rw [hst]
        simp only [CheckAll, hc, if_true]
      · rw [htr]
        simp only [ChecksOf, hc, if_true, List.append_assoc]
      · simp only [CheckAll, hc, if_true] at hall
        obtain ⟨ha, hb, hcc⟩ := hok hall
        refine ⟨ha, by rw [hb, h1len], fun i hik => ?_⟩
        rw [hcc i hik, h1below i hik]
    · refine ⟨1, s1, fun fuel => ?_, ?_, ?_, fun hall => ?_⟩
      · rw [hloop, if_neg hc]
        simp only [CheckAll, hc]
        simp
      · rw [h1st]
        simp only [CheckAll, hc]
        simp
      · rw [h1tr]
        simp only [ChecksOf, hc]
        simp
      · simp only [CheckAll, hc] at hall
        simp at hall

/-! ## The walk as a whole -/

theorem TreeWithin_release (env : Env) (acc : AccessEnv) (H : CMHIVE) (r : Option Nat) (d : Nat) :
    ∀ c, TreeWithin env acc { H with ReleaseCellRoutine := r } d c = TreeWithin env acc H d c := by
  induction d with
  | zero => intro c; rfl
  | succ d ih =>
    intro c
    have hn : HvGetCellNode env { H with ReleaseCellRoutine := r } c = HvGetCellNode env H c := rfl
    simp only [TreeWithin, hn, ih]

theorem SubtreeCells_release (env : Env) (acc : AccessEnv) (H : CMHIVE) (r : Option Nat)
    (d : Nat) :
    ∀ c, SubtreeCells env acc { H with ReleaseCellRoutine := r } d c =
      SubtreeCells env acc H d c := by
  induction d with
  | zero => intro c; rfl
  | succ d ih =>
    intro c
    have hn : HvGetCellNode env { H with ReleaseCellRoutine := r } c = HvGetCellNode env H c := rfl
    simp only [SubtreeCells, hn, ih]

/-- The release routine of the hive does not change the result of a check, nor
the evaluations it makes. -/
theorem CmpCheckKeyAccess_release (env : Env) (acc : AccessEnv) (H : CMHIVE) (r : Option Nat)
    (c : HCELL_INDEX) (pm da : Nat) :
    (CmpCheckKeyAccess env acc { H with ReleaseCellRoutine := r } c pm da).1 =
        (CmpCheckKeyAccess env acc H c pm da).1 ∧
      AccessChecks (CmpCheckKeyAccess env acc { H with ReleaseCellRoutine := r } c pm da).2 =
        AccessChecks (CmpCheckKeyAccess env acc H c pm da).2 := by
  have hn : HvGetCellNode env { H with ReleaseCellRoutine := r } c = HvGetCellNode env H c := rfl
  have hs : ∀ x, HvGetCellSecurity env { H with ReleaseCellRoutine := r } x =
      HvGetCellSecurity env H x := fun _ => rfl
  unfold CmpCheckKeyAccess
  rw [hn]
  cases HvGetCellNode env H c with
  | none => simp [AccessChecks]
  | some Node =>
    simp only [hs]
    cases HvGetCellSecurity env H Node.Security with
    | none => simp [AccessChecks]
    | some S =>
      simp only []
      split <;> simp [AccessChecks_append, AccessChecks]

theorem CheckAll_congr (f g : HCELL_INDEX → NTSTATUS) (h : ∀ c, f c = g c)
    (l : List HCELL_INDEX) (st : NTSTATUS) : CheckAll f l st = CheckAll g l st := by
  have : f = g := funext h
  rw [this]

theorem ChecksOf_congr (f g : HCELL_INDEX → NTSTATUS × List CheckEvent)
    (h : ∀ c, (f c).1 = (g c).1 ∧ AccessChecks (f c).2 = AccessChecks (g c).2)
    (l : List HCELL_INDEX) : ChecksOf f l = ChecksOf g l := by
  induction l with
  | nil => rfl
  | cons c rest ih => simp only [ChecksOf, (h c).1, (h c).2, ih]

theorem WalkStart_Top (acc : AccessEnv) (Cell : HCELL_INDEX) (CheckRoot : Bool)
    (h : 0 < acc.CMP_MAX_REGISTRY_DEPTH) :
    (WalkStart acc Cell CheckRoot).Top =
      { Cell := Cell, ChildIndex := 0, CellChecked := !CheckRoot } := by
  show List.getD (List.set _ _ _) _ _ = _
  exact getD_set_eq _ _ _ _ (by simpa using h)

theorem TreeWithin_pos (env : Env) (acc : AccessEnv) (H : CMHIVE) (d : Nat) (c : HCELL_INDEX)
    (h : TreeWithin env acc H d c = true) : 0 < d := by
  cases d with
  | zero => simp [TreeWithin] at h
  | succ d => omega

/-- The cells `CmpDoAccessCheckOnSubtree` is to check: the subtree in
pre-order, without its root when `CheckRoot` is not set. -/
theorem CmpDoAccessCheckOnSubtree_walk (env : Env) (acc : AccessEnv) (H : CMHIVE)
    (Cell : HCELL_INDEX) (pm da : Nat) (CheckRoot : Bool)
    (halloc : acc.CheckStackAllocated = true)
    (htree : TreeWithin env acc H acc.CMP_MAX_REGISTRY_DEPTH Cell = true) :
    ∃ N, ∀ fuel, N ≤ fuel →
      ∃ r, CmpDoAccessCheckOnSubtree env acc fuel H Cell pm da CheckRoot = some r ∧
        r.Status =
          (CheckAll (fun c => (CmpCheckKeyAccess env acc H c pm da).1)
            (if CheckRoot = true then SubtreeCells env acc H acc.CMP_MAX_REGISTRY_DEPTH Cell
             else (SubtreeCells env acc H acc.CMP_MAX_REGISTRY_DEPTH Cell).tail)
            STATUS_INSUFFICIENT_RESOURCES).2 ∧
        AccessChecks r.Trace =
          ChecksOf (fun c => CmpCheckKeyAccess env acc H c pm da)
            (if CheckRoot = true then SubtreeCells env acc H acc.CMP_MAX_REGISTRY_DEPTH Cell
             else (SubtreeCells env acc H acc.CMP_MAX_REGISTRY_DEPTH Cell).tail) ∧
        r.Hive = H := by
  have hpos := TreeWithin_pos env acc H _ Cell htree
  have htree1 : TreeWithin env acc { H with ReleaseCellRoutine := none }
      acc.CMP_MAX_REGISTRY_DEPTH Cell = true := by
    rw [TreeWithin_release]
    exact htree
  have hlen : (WalkStart acc Cell CheckRoot).CheckStack.length = acc.CMP_MAX_REGISTRY_DEPTH := by
    simp [WalkStart]
  have htop := WalkStart_Top acc Cell CheckRoot hpos
  have hkey : ∃ L, L = (if CheckRoot = true then
        SubtreeCells env acc { H with ReleaseCellRoutine := none } acc.CMP_MAX_REGISTRY_DEPTH Cell
      else (SubtreeCells env acc { H with ReleaseCellRoutine := none }
        acc.CMP_MAX_REGISTRY_DEPTH Cell).tail) ∧
      WalkChecks env acc { H with ReleaseCellRoutine := none } pm da
        (WalkLoop env acc { H with ReleaseCellRoutine := none } pm da)
        (WalkStart acc Cell CheckRoot) 0 L := by
    refine ⟨_, rfl, ?_⟩
    cases CheckRoot with
    | true =>
      exact WalkLoop_subtree env acc _ pm da _ Cell 0 _ htree1 (by omega) rfl hlen htop
    | false =>
      obtain ⟨d, hd⟩ : ∃ d, acc.CMP_MAX_REGISTRY_DEPTH = d + 1 := ⟨_, (Nat.succ_pred_eq_of_pos hpos).symm⟩
      rw [hd] at htree1
      obtain ⟨Node, hn, hsub⟩ := TreeWithin_succ env acc _ d Cell htree1
      obtain ⟨t, hloop, hti, hts, htst, httr⟩ :=
        WalkLoop_checked_spec env acc { H with ReleaseCellRoutine := none } pm da
          (WalkStart acc Cell false) (le_refl _) (by rw [htop]; rfl)
      obtain ⟨N, u, hrun, hst, htr, hok⟩ :=
        WalkRest_children env acc _ pm da d (WalkLoop_subtree env acc _ pm da d) Cell Node hn
          hsub 0 (by omega) (SubKeyCount Node - 0) 0 t rfl hti (by rw [hts]; exact hlen)
          ((WalkState_Top_congr _ t hti hts).trans htop)
      rw [htst] at hrun hst hok
      rw [httr] at htr
      have hL : (SubtreeCells env acc { H with ReleaseCellRoutine := none }
          acc.CMP_MAX_REGISTRY_DEPTH Cell).tail =
          SubtreeCellsFrom env acc { H with ReleaseCellRoutine := none } d Cell 0
            (SubKeyCount Node) := by
        rw [hd, SubtreeCells_succ env acc _ d Cell Node hn]
        rfl
      simp only [Bool.false_eq_true, if_false]
      rw [hL]
      refine ⟨N + 1, u, fun fuel => ?_, hst, htr, fun hall => ?_⟩
      · rw [← Nat.add_assoc, hloop, hrun]
      · obtain ⟨ha, hb, hc⟩ := hok hall
        exact ⟨ha, by rw [hb, hts], fun i hi => absurd hi (by omega)⟩
  obtain ⟨L, hL, N, t, hrun, hst, htr, hok⟩ := hkey
  have hLH : L = (if CheckRoot = true then
      SubtreeCells env acc H acc.CMP_MAX_REGISTRY_DEPTH Cell
    else (SubtreeCells env acc H acc.CMP_MAX_REGISTRY_DEPTH Cell).tail) := by
    rw [hL, SubtreeCells_release]
  have hend : ∀ fuel, WalkLoop env acc { H with ReleaseCellRoutine := none } pm da (fuel + N)
      (WalkStart acc Cell CheckRoot) = some t := by
    intro fuel
    rw [hrun]
    split
    · rename_i hall
      obtain ⟨ha, _, _⟩ := hok hall
      exact WalkLoop_done _ _ _ _ _ _ _ (by rw [ha]; omega)
    · rfl
  refine ⟨N, fun fuel hfuel => ?_⟩
  obtain ⟨f, rfl⟩ : ∃ f, fuel = f + N := ⟨fuel - N, by omega⟩
  refine ⟨{ Status := t.Status, Hive := H, Trace := t.Trace }, ?_, ?_, ?_, rfl⟩
  · simp [CmpDoAccessCheckOnSubtree, halloc, hend f]
  · show t.Status = _
    rw [hst, ← hLH]
    exact congrArg Prod.snd
      (CheckAll_congr _ _ (fun c => (CmpCheckKeyAccess_release env acc H none c pm da).1) _ _)
  · show AccessChecks t.Trace = _
    rw [htr, ← hLH]
    simp only [WalkStart, AccessChecks, List.nil_append]
    exact ChecksOf_congr _ _ (fun c => CmpCheckKeyAccess_release env acc H none c pm da) _

/-! ## What holds on every path of the walk -/

theorem CmpCheckKeyAccessQueried_kinds (acc : AccessEnv) (NodeCell : HCELL_INDEX) (pm da : Nat)
    (S : CM_KEY_SECURITY) (First : NTSTATUS × Nat × List Nat) :
    ∀ e, e ∈ (CmpCheckKeyAccessQueried acc NodeCell pm da S First).2 →
      e = CheckEvent.QueryDescriptor First.2.1 ∨ e = CheckEvent.AccessCheck NodeCell := by
  have hag : ∀ e, e ∈ (if First.1 = STATUS_BUFFER_TOO_SMALL then
      [CheckEvent.QueryDescriptor First.2.1] else []) →
      e = CheckEvent.QueryDescriptor First.2.1 := by
    intro e he
    by_cases hb : First.1 = STATUS_BUFFER_TOO_SMALL
    · rw [if_pos hb, List.mem_singleton] at he
      exact he
    · rw [if_neg hb] at he
      exact absurd he (by simp)
  intro e he
  unfold CmpCheckKeyAccessQueried at he
  dsimp only at he
  by_cases h1 : First.1 = STATUS_BUFFER_TOO_SMALL ∧ acc.ExAllocatePool First.2.1 = false
  · rw [if_pos h1] at he
    exact absurd he (by simp)
  · rw [if_neg h1] at he
    generalize (if First.1 = STATUS_BUFFER_TOO_SMALL then
      acc.SeQuerySecurityDescriptorInfo
        (OWNER_SECURITY_INFORMATION ||| GROUP_SECURITY_INFORMATION |||
          DACL_SECURITY_INFORMATION ||| SACL_SECURITY_INFORMATION)
        First.2.1 S.Descriptor
      else First) = Q at he
    by_cases h2 : NT_SUCCESS Q.1 = false
    · rw [if_pos h2] at he
      exact Or.inl (hag e he)
    · rw [if_neg h2] at he
      by_cases h3 : acc.SeAccessCheck Q.2.2 da pm = true
      · rw [if_pos h3] at he
        rcases List.mem_append.1 he with h | h
        · exact Or.inl (hag e h)
        · exact Or.inr (List.mem_singleton.1 h)
      · rw [if_neg h3] at he
        rcases List.mem_append.1 he with h | h
        · exact Or.inl (hag e h)
        · exact Or.inr (List.mem_singleton.1 h)

theorem CmpCheckKeyAccessQueried_events (acc : AccessEnv) (NodeCell : HCELL_INDEX) (pm da : Nat)
    (S : CM_KEY_SECURITY) (First : NTSTATUS × Nat × List Nat) (D : Nat) (R : Option Nat) :
    ∀ e, e ∈ (CmpCheckKeyAccessQueried acc NodeCell pm da S First).2 → WalkEventOk D R e := by
  intro e he
  rcases CmpCheckKeyAccessQueried_kinds acc NodeCell pm da S First e he with h | h
  · subst h
    trivial
  · subst h
    trivial

/-- A check accesses cells under the release routine of the hive, and no entry
of the check stack. -/
theorem CmpCheckKeyAccess_events (env : Env) (acc : AccessEnv) (Hive : CMHIVE)
    (c : HCELL_INDEX) (pm da : Nat) (D : Nat) :
    ∀ e, e ∈ (CmpCheckKeyAccess env acc Hive c pm da).2 →
      WalkEventOk D Hive.ReleaseCellRoutine e := by
  intro e he
  unfold CmpCheckKeyAccess at he
  cases hn : HvGetCellNode env Hive c with
  | none =>
    simp only [hn, List.mem_singleton] at he
    subst he
    rfl
  | some Node =>
    simp only [hn] at he
    cases hs : HvGetCellSecurity env Hive Node.Security with
    | none =>
      simp only [hs, List.mem_cons, List.mem_singleton, List.not_mem_nil, or_false] at he
      rcases he with rfl | rfl <;> rfl
    | some S =>
      simp only [hs] at he
      split at he
      · simp only [List.mem_cons, List.mem_singleton, List.not_mem_nil, or_false] at he
        rcases he with rfl | rfl <;> rfl
      · simp only [List.mem_append, List.mem_cons, List.mem_singleton, List.not_mem_nil,
          or_false] at he
        rcases he with (rfl | rfl | rfl) | he
        · rfl
        · rfl
        · trivial
        · exact CmpCheckKeyAccessQueried_events acc c pm da S _ D _ e he

/-- The first part of the loop body keeps the events in order. -/
theorem WalkCheckCell_ok (env : Env) (acc : AccessEnv) (Hive : CMHIVE) (pm da : Nat)
    (s : WalkState) (D : Nat) (h0 : 0 ≤ s.StackIndex) (h1 : s.StackIndex < (D : Int))
    (htr : ∀ e, e ∈ s.Trace → WalkEventOk D Hive.ReleaseCellRoutine e) :
    (WalkCheckCell env acc Hive pm da s).2.StackIndex = s.StackIndex ∧
      ∀ e, e ∈ (WalkCheckCell env acc Hive pm da s).2.Trace →
        WalkEventOk D Hive.ReleaseCellRoutine e := by
  have hr : WalkEventOk D Hive.ReleaseCellRoutine (CheckEvent.StackRead s.StackIndex) := ⟨h0, h1⟩
  have hw : WalkEventOk D Hive.ReleaseCellRoutine (CheckEvent.StackWrite s.StackIndex) :=
    ⟨h0, h1⟩
  unfold WalkCheckCell
  split
  · refine ⟨rfl, fun e he => ?_⟩
    simp only [List.mem_append, List.mem_cons, List.mem_singleton, List.not_mem_nil,
      or_false] at he
    rcases he with (he | rfl | rfl | rfl) | he
    · exact htr e he
    · exact hr
    · exact hw
    · exact hr
    · exact CmpCheckKeyAccess_events env acc Hive _ pm da D e he
  · refine ⟨rfl, fun e he => ?_⟩
    simp only [List.mem_append, List.mem_singleton] at he
    rcases he with he | rfl
    · exact htr e he
    · exact hr

/-- The second part of the loop body keeps the events in order, and the stack
index below the bound when the loop goes on. -/
theorem WalkDescend_ok (env : Env) (acc : AccessEnv) (Hive : CMHIVE) (s : WalkState)
    (h0 : 0 ≤ s.StackIndex) (h1 : s.StackIndex < (acc.CMP_MAX_REGISTRY_DEPTH : Int))
    (htr : ∀ e, e ∈ s.Trace →
      WalkEventOk acc.CMP_MAX_REGISTRY_DEPTH Hive.ReleaseCellRoutine e) :
    ((WalkDescend env acc Hive s).1 = true →
        (WalkDescend env acc Hive s).2.StackIndex < (acc.CMP_MAX_REGISTRY_DEPTH : Int)) ∧
      ∀ e, e ∈ (WalkDescend env acc Hive s).2.Trace →
        WalkEventOk acc.CMP_MAX_REGISTRY_DEPTH Hive.ReleaseCellRoutine e := by
  have hr : WalkEventOk acc.CMP_MAX_REGISTRY_DEPTH Hive.ReleaseCellRoutine
      (CheckEvent.StackRead s.StackIndex) := ⟨h0, h1⟩
  have hw : WalkEventOk acc.CMP_MAX_REGISTRY_DEPTH Hive.ReleaseCellRoutine
      (CheckEvent.StackWrite s.StackIndex) := ⟨h0, h1⟩
  have hg : ∀ c, WalkEventOk acc.CMP_MAX_REGISTRY_DEPTH Hive.ReleaseCellRoutine
      (CheckEvent.GetCell c Hive.ReleaseCellRoutine) := fun _ => rfl
  unfold WalkDescend
  cases hn : HvGetCellNode env Hive s.Top.Cell with
  | none =>
    refine ⟨fun h => absurd h (by simp), fun e he => ?_⟩
    simp only [List.mem_append, List.mem_cons, List.mem_singleton, List.not_mem_nil,
      or_false] at he
    rcases he with he | rfl | rfl
    · exact htr e he
    · exact hr
    · exact hg _
  | some Node =>
    simp only []
    by_cases hj : s.Top.ChildIndex <
        (Node.SubKeyCounts.getD Stable 0 + Node.SubKeyCounts.getD Volatile 0) % 4294967296
    · rw [if_pos hj]
      by_cases hsub : acc.CmpFindSubKeyByNumber s.Top.Cell s.Top.ChildIndex = HCELL_NIL
      · rw [if_pos hsub]
        refine ⟨fun h => absurd h (by simp), fun e he => ?_⟩
        simp only [List.mem_append, List.mem_cons, List.mem_singleton, List.not_mem_nil,
          or_false] at he
        rcases he with he | rfl | rfl | rfl | rfl
        · exact htr e he
        · exact hr
        · exact hg _
        · exact hr
        · exact hr
      · rw [if_neg hsub]
        by_cases hd : s.StackIndex + 1 = (acc.CMP_MAX_REGISTRY_DEPTH : Int)
        · rw [if_pos hd]
          refine ⟨fun h => absurd h (by simp), fun e he => ?_⟩
          simp only [List.mem_append, List.mem_cons, List.mem_singleton, List.not_mem_nil,
            or_false] at he
          rcases he with he | rfl | rfl | rfl | rfl | rfl | rfl
          · exact htr e he
          · exact hr
          · exact hg _
          · exact hr
          · exact hr
          · exact hr
          · exact hw
        · rw [if_neg hd]
          have hw1 : WalkEventOk acc.CMP_MAX_REGISTRY_DEPTH Hive.ReleaseCellRoutine
              (CheckEvent.StackWrite (s.StackIndex + 1)) := ⟨by omega, by omega⟩
          refine ⟨fun _ => ?_, fun e he => ?_⟩
          · show s.StackIndex + 1 < _
            omega
          · simp only [List.mem_append, List.mem_cons, List.mem_singleton, List.not_mem_nil,
              or_false] at he
            rcases he with he | rfl | rfl | rfl | rfl | rfl | rfl | rfl | rfl | rfl
            · exact htr e he
            · exact hr
            · exact hg _
            · exact hr
            · exact hr
            · exact hr
            · exact hw
            · exact hw1
            · exact hw1
            · exact hw1
    · rw [if_neg hj]
      refine ⟨fun _ => ?_, fun e he => ?_⟩
      · show s.StackIndex - 1 < _
        omega
      · simp only [List.mem_append, List.mem_cons, List.mem_singleton, List.not_mem_nil,
          or_false] at he
        rcases he with he | rfl | rfl | rfl
        · exact htr e he
        · exact hr
        · exact hg _
        · exact hr

/-- On every path of the loop the events stay in order. -/
theorem WalkLoop_ok (env : Env) (acc : AccessEnv) (Hive : CMHIVE) (pm da : Nat) (fuel : Nat) :
    ∀ (s t : WalkState), WalkLoop env acc Hive pm da fuel s = some t →
      s.StackIndex < (acc.CMP_MAX_REGISTRY_DEPTH : Int) →
      (∀ e, e ∈ s.Trace → WalkEventOk acc.CMP_MAX_REGISTRY_DEPTH Hive.ReleaseCellRoutine e) →
      ∀ e, e ∈ t.Trace → WalkEventOk acc.CMP_MAX_REGISTRY_DEPTH Hive.ReleaseCellRoutine e := by
  induction fuel with
  | zero =>
    intro s t hrun h1 htr
    by_cases hneg : s.StackIndex < 0
    · rw [WalkLoop_done _ _ _ _ _ _ _ hneg] at hrun
      cases hrun
      exact htr
    · unfold WalkLoop at hrun
      simp [hneg] at hrun
  | succ fuel ih =>
    intro s t hrun h1 htr
    by_cases hneg : s.StackIndex < 0
    · rw [WalkLoop_done _ _ _ _ _ _ _ hneg] at hrun
      cases hrun
      exact htr
    · have h0 : 0 ≤ s.StackIndex := not_lt.1 hneg
      rw [WalkLoop_succ _ _ _ _ _ _ _ h0] at hrun
      obtain ⟨hci, hctr⟩ := WalkCheckCell_ok env acc Hive pm da s _ h0 h1 htr
      have hiter : ((WalkIteration env acc Hive pm da s).1 = true →
            (WalkIteration env acc Hive pm da s).2.StackIndex <
              (acc.CMP_MAX_REGISTRY_DEPTH : Int)) ∧
          ∀ e, e ∈ (WalkIteration env acc Hive pm da s).2.Trace →
            WalkEventOk acc.CMP_MAX_REGISTRY_DEPTH Hive.ReleaseCellRoutine e := by
        unfold WalkIteration
        split
        · exact ⟨fun h => by simp_all, hctr⟩
        · exact WalkDescend_ok env acc Hive _ (by rw [hci]; exact h0) (by rw [hci]; exact h1)
            hctr
      by_cases hgo : (WalkIteration env acc Hive pm da s).1 = true
      · rw [if_pos hgo] at hrun
        exact ih _ t hrun (hiter.1 hgo) hiter.2
      · rw [if_neg hgo] at hrun
        cases hrun
        exact hiter.2

theorem CMHIVE_restore (H : CMHIVE) :
    { { H with ReleaseCellRoutine := none } with ReleaseCellRoutine := H.ReleaseCellRoutine } =
      H := by
  cases H
  rfl

/-- On every return path of `CmpDoAccessCheckOnSubtree` the hive is as at
entry, every stack access was to an entry of the stack and every cell access
was made without a release routine. -/
theorem CmpDoAccessCheckOnSubtree_ok (env : Env) (acc : AccessEnv) (fuel : Nat) (H : CMHIVE)
    (Cell : HCELL_INDEX) (pm da : Nat) (CheckRoot : Bool) (r : SubtreeCheck)
    (hpos : 0 < acc.CMP_MAX_REGISTRY_DEPTH)
    (hrun : CmpDoAccessCheckOnSubtree env acc fuel H Cell pm da CheckRoot = some r) :
    r.Hive = H ∧ ∀ e, e ∈ r.Trace → WalkEventOk acc.CMP_MAX_REGISTRY_DEPTH none e := by
  unfold CmpDoAccessCheckOnSubtree at hrun
  by_cases ha : acc.CheckStackAllocated = false
  · rw [if_pos ha] at hrun
    cases hrun
    exact ⟨rfl, fun e he => absurd he (by simp)⟩
  · rw [if_neg ha] at hrun
    cases hw : WalkLoop env acc { H with ReleaseCellRoutine := none } pm da fuel
        (WalkStart acc Cell CheckRoot) with
    | none => simp [hw] at hrun
    | some t =>
      simp only [hw, Option.some.injEq] at hrun
      subst hrun
      refine ⟨CMHIVE_restore H, ?_⟩
      have hstart : ∀ e, e ∈ (WalkStart acc Cell CheckRoot).Trace →
          WalkEventOk acc.CMP_MAX_REGISTRY_DEPTH none e := by
        intro e he
        simp only [WalkStart, List.mem_cons, List.mem_singleton, List.not_mem_nil,
          or_false, or_self] at he
        subst he
        exact ⟨le_refl _, by exact_mod_cast hpos⟩
      exact WalkLoop_ok env acc { H with ReleaseCellRoutine := none } pm da fuel _ t hw
        (by show (0 : Int) < _; exact_mod_cast hpos) hstart

/-! ## The status and the evaluations of a list of checks -/

/-- When every check succeeds, all are made and the status is a success. -/
theorem CheckAll_of_all (check : HCELL_INDEX → NTSTATUS) (l : List HCELL_INDEX) :
    ∀ st, (∀ c, c ∈ l → NT_SUCCESS (check c) = true) →
      (CheckAll check l st).1 = true ∧
        (NT_SUCCESS st = true ∨ l ≠ [] → NT_SUCCESS (CheckAll check l st).2 = true) ∧
        ((∀ c, c ∈ l → check c = STATUS_SUCCESS) → st = STATUS_SUCCESS ∨ l ≠ [] →
          (CheckAll check l st).2 = STATUS_SUCCESS) := by
  induction l with
  | nil =>
    intro st _
    refine ⟨rfl, fun h => ?_, fun _ h => ?_⟩
    · rcases h with h | h
      · exact h
      · exact absurd rfl h
    · rcases h with h | h
      · exact h
      · exact absurd rfl h
  | cons c rest ih =>
    intro st hall
    have hc : NT_SUCCESS (check c) = true := hall c (List.mem_cons_self _ _)
    obtain ⟨h1, h2, h3⟩ := ih (check c) (fun x hx => hall x (List.mem_cons_of_mem _ hx))
    simp only [CheckAll, hc, if_true]
    exact ⟨h1, fun _ => h2 (Or.inl hc),
      fun hs _ => h3 (fun x hx => hs x (List.mem_cons_of_mem _ hx))
        (Or.inl (hs c (List.mem_cons_self _ _)))⟩

/-- The checks stop at the first one that fails, with its status. -/
theorem CheckAll_of_first_failure (check : HCELL_INDEX → NTSTATUS) (pre post : List HCELL_INDEX)
    (x : HCELL_INDEX) (st : NTSTATUS) (hpre : ∀ c, c ∈ pre → NT_SUCCESS (check c) = true)
    (hx : NT_SUCCESS (check x) = false) :
    CheckAll check (pre ++ x :: post) st = (false, check x) := by
  rw [CheckAll_append, if_pos (CheckAll_of_all check pre st hpre).1]
  simp [CheckAll, hx]

/-- A list on which some check fails has a first node whose check fails. -/
theorem exists_first_failure (check : HCELL_INDEX → NTSTATUS) (l : List HCELL_INDEX)
    (h : ¬ ∀ c, c ∈ l → NT_SUCCESS (check c) = true) :
    ∃ pre x post, l = pre ++ x :: post ∧ (∀ c, c ∈ pre → NT_SUCCESS (check c) = true) ∧
      NT_SUCCESS (check x) = false := by
  induction l with
  | nil => exact absurd (fun c hc => absurd hc (by simp)) h
  | cons a rest ih =>
    by_cases ha : NT_SUCCESS (check a) = true
    · have hrest : ¬ ∀ c, c ∈ rest → NT_SUCCESS (check c) = true := by
        intro hall
        apply h
        intro c hc
        rcases List.mem_cons.1 hc with rfl | hc
        · exact ha
        · exact hall c hc
      obtain ⟨pre, x, post, hl, hpre, hx⟩ := ih hrest
      refine ⟨a :: pre, x, post, by rw [hl]; rfl, fun c hc => ?_, hx⟩
      rcases List.mem_cons.1 hc with rfl | hc
      · exact ha
      · exact hpre c hc
    · exact ⟨[], a, rest, rfl, fun c hc => absurd hc (by simp), by simpa using ha⟩

/-- The evaluations of a list of checks that all succeed with one evaluation each. -/
theorem ChecksOf_of_all (check : HCELL_INDEX → NTSTATUS × List CheckEvent)
    (l : List HCELL_INDEX)
    (hall : ∀ c, c ∈ l → NT_SUCCESS (check c).1 = true ∧ AccessChecks (check c).2 = [c]) :
    ChecksOf check l = l := by
  induction l with
  | nil => rfl
  | cons a rest ih =>
    obtain ⟨h1, h2⟩ := hall a (List.mem_cons_self _ _)
    simp only [ChecksOf, h1, h2, if_true, ih (fun c hc => hall c (List.mem_cons_of_mem _ hc))]
    rfl

/-- The evaluations of a list of checks up to the first one that fails. -/
theorem ChecksOf_of_first_failure (check : HCELL_INDEX → NTSTATUS × List CheckEvent)
    (pre post : List HCELL_INDEX) (x : HCELL_INDEX)
    (hpre : ∀ c, c ∈ pre → NT_SUCCESS (check c).1 = true ∧ AccessChecks (check c).2 = [c])
    (hx : NT_SUCCESS (check x).1 = false) :
    ChecksOf check (pre ++ x :: post) = pre ++ AccessChecks (check x).2 := by
  rw [ChecksOf_append _ _ _ STATUS_SUCCESS,
    if_pos (CheckAll_of_all _ pre _ (fun c hc => (hpre c hc).1)).1, ChecksOf_of_all _ _ hpre]
  simp [ChecksOf, hx]

/-- A check that succeeds has run the evaluation, once, on its node. -/
theorem CmpCheckKeyAccess_success_evaluates (env : Env) (acc : AccessEnv) (Hive : CMHIVE)
    (c : HCELL_INDEX) (pm da : Nat)
    (h : NT_SUCCESS (CmpCheckKeyAccess env acc Hive c pm da).1 = true) :
    AccessChecks (CmpCheckKeyAccess env acc Hive c pm da).2 = [c] := by
  have hI := NT_SUCCESS_INSUFFICIENT
  have hD := NT_SUCCESS_ACCESS_DENIED
  cases hn : HvGetCellNode env Hive c with
  | none =>
    rw [(CmpCheckKeyAccess_no_node env acc Hive c pm da hn).1, hI] at h
    exact absurd h (by simp)
  | some Node =>
    cases hs : HvGetCellSecurity env Hive Node.Security with
    | none =>
      rw [(CmpCheckKeyAccess_no_security env acc Hive c pm da Node hn hs).1, hI] at h
      exact absurd h (by simp)
    | some S =>
      rcases CmpCheckKeyAccess_mapped env acc Hive c pm da Node S hn hs with
        ⟨_, h1, _⟩ | ⟨_, hq, h1, _⟩ | ⟨_, _, _, _, h2⟩ | ⟨_, _, _, h1, _⟩
      · rw [h1, hI] at h
        exact absurd h (by simp)
      · rw [h1, hq] at h
        exact absurd h (by simp)
      · exact h2
      · rw [h1, hD] at h
        exact absurd h (by simp)

/-- When a successful answer of the query primitive is `STATUS_SUCCESS`, so is
that of a check. -/
theorem CmpCheckKeyAccess_success_plain (env : Env) (acc : AccessEnv) (Hive : CMHIVE)
    (c : HCELL_INDEX) (pm da : Nat) (hquery : QuerySucceedsPlainly acc)
    (h : NT_SUCCESS (CmpCheckKeyAccess env acc Hive c pm da).1 = true) :
    (CmpCheckKeyAccess env acc Hive c pm da).1 = STATUS_SUCCESS := by
  have hI := NT_SUCCESS_INSUFFICIENT
  have hD := NT_SUCCESS_ACCESS_DENIED
  cases hn : HvGetCellNode env Hive c with
  | none =>
    rw [(CmpCheckKeyAccess_no_node env acc Hive c pm da hn).1, hI] at h
    exact absurd h (by simp)
  | some Node =>
    cases hs : HvGetCellSecurity env Hive Node.Security with
    | none =>
      rw [(CmpCheckKeyAccess_no_security env acc Hive c pm da Node hn hs).1, hI] at h
      exact absurd h (by simp)
    | some S =>
      rcases CmpCheckKeyAccess_mapped env acc Hive c pm da Node S hn hs with
        ⟨_, h1, _⟩ | ⟨_, hq, h1, _⟩ | ⟨_, hq, _, h1, _⟩ | ⟨_, _, _, h1, _⟩
      · rw [h1, hI] at h
        exact absurd h (by simp)
      · rw [h1, hq] at h
        exact absurd h (by simp)
      · rw [h1]
        unfold FullDescriptorQuery at hq ⊢
        split
        · rename_i hb
          rw [if_pos hb] at hq
          exact hquery _ _ _ hq
        · rename_i hb
          rw [if_neg hb] at hq
          exact hquery _ _ _ hq
      · rw [h1, hD] at h
        exact absurd h (by simp)

theorem QuerySucceedsPlainly_ExampleAccessEnv : QuerySucceedsPlainly ExampleAccessEnv := by
  intro info length descriptor
  simp only [ExampleAccessEnv]
  split
  · intro h
    exact absurd (show NT_SUCCESS STATUS_BUFFER_TOO_SMALL = true from h) (by decide)
  · intro _
    rfl

/-! ## Cell accesses under the release routine of the hive -/

theorem pinned_append (R : Option Nat) (t ext : List CheckEvent)
    (ht : ∀ c r, CheckEvent.GetCell c r ∈ t → r = R)
    (hext : ∀ c r, CheckEvent.GetCell c r ∈ ext → r = R) :
    ∀ c r, CheckEvent.GetCell c r ∈ t ++ ext → r = R := by
  intro c r h
  rcases List.mem_append.1 h with h | h
  · exact ht c r h
  · exact hext c r h

theorem CmpCheckKeyAccess_pinned (env : Env) (acc : AccessEnv) (Hive : CMHIVE)
    (x : HCELL_INDEX) (pm da : Nat) :
    ∀ c r, CheckEvent.GetCell c r ∈ (CmpCheckKeyAccess env acc Hive x pm da).2 →
      r = Hive.ReleaseCellRoutine := by
  intro c r h
  exact CmpCheckKeyAccess_events env acc Hive x pm da 0 _ h

theorem WalkCheckCell_pinned (env : Env) (acc : AccessEnv) (Hive : CMHIVE) (pm da : Nat)
    (s : WalkState)
    (htr : ∀ c r, CheckEvent.GetCell c r ∈ s.Trace → r = Hive.ReleaseCellRoutine) :
    ∀ c r, CheckEvent.GetCell c r ∈ (WalkCheckCell env acc Hive pm da s).2.Trace →
      r = Hive.ReleaseCellRoutine := by
  unfold WalkCheckCell
  split
  · exact pinned_append _ _ _
      (pinned_append _ _ _ htr (by intro c r h; simp at h))
      (CmpCheckKeyAccess_pinned env acc Hive _ pm da)
  · exact pinned_append _ _ _ htr (by intro c r h; simp at h)

theorem WalkDescend_pinned (env : Env) (acc : AccessEnv) (Hive : CMHIVE) (s : WalkState)
    (htr : ∀ c r, CheckEvent.GetCell c r ∈ s.Trace → r = Hive.ReleaseCellRoutine) :
    ∀ c r, CheckEvent.GetCell c r ∈ (WalkDescend env acc Hive s).2.Trace →
      r = Hive.ReleaseCellRoutine := by
  unfold WalkDescend
  cases hn : HvGetCellNode env Hive s.Top.Cell with
  | none =>
    exact pinned_append _ _ _ htr (by intro c r h; simp at h; exact h.2)
  | some Node =>
    simp only []
    by_cases hj : s.Top.ChildIndex <
        (Node.SubKeyCounts.getD Stable 0 + Node.SubKeyCounts.getD Volatile 0) % 4294967296
    · rw [if_pos hj]
      by_cases hsub : acc.CmpFindSubKeyByNumber s.Top.Cell s.Top.ChildIndex = HCELL_NIL
      · rw [if_pos hsub]
        exact pinned_append _ _ _ htr (by intro c r h; simp at h; exact h.2)
      · rw [if_neg hsub]
        by_cases hd : s.StackIndex + 1 = (acc.CMP_MAX_REGISTRY_DEPTH : Int)
        · rw [if_pos hd]
          exact pinned_append _ _ _ htr (by intro c r h; simp at h; exact h.2)
        · rw [if_neg hd]
          exact pinned_append _ _ _ htr (by intro c r h; simp at h; exact h.2)
    · rw [if_neg hj]
      exact pinned_append _ _ _ htr (by intro c r h; simp at h; exact h.2)

/-- On every path of the loop each cell access is made under the release
routine the hive has during the loop. -/
theorem WalkLoop_pinned (env : Env) (acc : AccessEnv) (Hive : CMHIVE) (pm da : Nat)
    (fuel : Nat) :
    ∀ (s t : WalkState), WalkLoop env acc Hive pm da fuel s = some t →
      (∀ c r, CheckEvent.GetCell c r ∈ s.Trace → r = Hive.ReleaseCellRoutine) →
      ∀ c r, CheckEvent.GetCell c r ∈ t.Trace → r = Hive.ReleaseCellRoutine := by
  induction fuel with
  | zero =>
    intro s t hrun htr
    by_cases hneg : s.StackIndex < 0
    · rw [WalkLoop_done _ _ _ _ _ _ _ hneg] at hrun
      cases hrun
      exact htr
    · unfold WalkLoop at hrun
      simp [hneg] at hrun
  | succ fuel ih =>
    intro s t hrun htr
    by_cases hneg : s.StackIndex < 0
    · rw [WalkLoop_done _ _ _ _ _ _ _ hneg] at hrun
      cases hrun
      exact htr
    · rw [WalkLoop_succ _ _ _ _ _ _ _ (not_lt.1 hneg)] at hrun
      have hiter : ∀ c r, CheckEvent.GetCell c r ∈
          (WalkIteration env acc Hive pm da s).2.Trace → r = Hive.ReleaseCellRoutine := by
        unfold WalkIteration
        split
        · exact WalkCheckCell_pinned env acc Hive pm da s htr
        · exact WalkDescend_pinned env acc Hive _ (WalkCheckCell_pinned env acc Hive pm da s htr)
      by_cases hgo : (WalkIteration env acc Hive pm da s).1 = true
      · rw [if_pos hgo] at hrun
        exact ih _ t hrun hiter
      · rw [if_neg hgo] at hrun
        cases hrun
        exact hiter

/-- On every return path of `CmpDoAccessCheckOnSubtree` the hive is as at
entry and every cell access was made without a release routine. -/
theorem CmpDoAccessCheckOnSubtree_pinned (env : Env) (acc : AccessEnv) (fuel : Nat) (H : CMHIVE)
    (Cell : HCELL_INDEX) (pm da : Nat) (CheckRoot : Bool) (r : SubtreeCheck)
    (hrun : CmpDoAccessCheckOnSubtree env acc fuel H Cell pm da CheckRoot = some r) :
    r.Hive = H ∧ CellsStayPinned r.Trace := by
  unfold CmpDoAccessCheckOnSubtree at hrun
  by_cases ha : acc.CheckStackAllocated = false
  · rw [if_pos ha] at hrun
    cases hrun
    exact ⟨rfl, fun c r h => absurd h (by simp)⟩
  · rw [if_neg ha] at hrun
    cases hw : WalkLoop env acc { H with ReleaseCellRoutine := none } pm da fuel
        (WalkStart acc Cell CheckRoot) with
    | none => simp [hw] at hrun
    | some t =>
      simp only [hw, Option.some.injEq] at hrun
      subst hrun
      exact ⟨CMHIVE_restore H,
        WalkLoop_pinned env acc { H with ReleaseCellRoutine := none } pm da fuel _ t hw
          (by intro c r h; simp [WalkStart] at h)⟩

/-- An iteration on a node at the last level of the stack that has a subkey
left ends the loop with a failure status. -/
theorem WalkLoop_at_bound (env : Env) (acc : AccessEnv) (Hive : CMHIVE) (pm da : Nat)
    (s : WalkState) (hpos : 0 < acc.CMP_MAX_REGISTRY_DEPTH)
    (hidx : s.StackIndex = (acc.CMP_MAX_REGISTRY_DEPTH : Int) - 1)
    (hsub : (HvGetCellNode env Hive s.Top.Cell).all
      (fun Node => decide (s.Top.ChildIndex < SubKeyCount Node)) = true) (fuel : Nat) :
    ∃ t, WalkLoop env acc Hive pm da (fuel + 1) s = some t ∧ NT_SUCCESS t.Status = false := by
  have h0 : 0 ≤ s.StackIndex := by
    rw [hidx]
    omega
  rw [WalkLoop_succ _ _ _ _ _ _ _ h0]
  have hsame : (WalkCheckCell env acc Hive pm da s).2.Top.Cell = s.Top.Cell ∧
      (WalkCheckCell env acc Hive pm da s).2.Top.ChildIndex = s.Top.ChildIndex ∧
      (WalkCheckCell env acc Hive pm da s).2.StackIndex = s.StackIndex ∧
      ((WalkCheckCell env acc Hive pm da s).1 = false →
        NT_SUCCESS (WalkCheckCell env acc Hive pm da s).2.Status = false) := by
    unfold WalkCheckCell
    split
    · refine ⟨?_, ?_, rfl, fun h => h⟩
      · show CMP_CHECK_REGISTRY_STACK_ENTRY.Cell (List.getD (List.set _ _ _) _ _) = _
        by_cases hlen : s.StackIndex.toNat < s.CheckStack.length
        · rw [getD_set_eq _ _ _ _ hlen]
        · rw [List.set_eq_of_length_le (not_lt.1 hlen)]
          rfl
      · show CMP_CHECK_REGISTRY_STACK_ENTRY.ChildIndex (List.getD (List.set _ _ _) _ _) = _
        by_cases hlen : s.StackIndex.toNat < s.CheckStack.length
        · rw [getD_set_eq _ _ _ _ hlen]
        · rw [List.set_eq_of_length_le (not_lt.1 hlen)]
          rfl
    · exact ⟨rfl, rfl, rfl, fun h => absurd h (by simp)⟩
  obtain ⟨hc, hi, hx, hfail⟩ := hsame
  unfold WalkIteration
  by_cases hchk : (WalkCheckCell env acc Hive pm da s).1 = false
  · rw [if_pos hchk]
    exact ⟨(WalkCheckCell env acc Hive pm da s).2, by simp, hfail hchk⟩
  · rw [if_neg hchk]
    have hbreak : (WalkDescend env acc Hive (WalkCheckCell env acc Hive pm da s).2).1 = false := by
      unfold WalkDescend
      rw [hc, hi, hx]
      cases hn : HvGetCellNode env Hive s.Top.Cell with
      | none => rfl
      | some Node =>
        rw [hn] at hsub
        have hj : s.Top.ChildIndex <
            (Node.SubKeyCounts.getD Stable 0 + Node.SubKeyCounts.getD Volatile 0) %
              4294967296 := by
          simpa [SubKeyCount] using hsub
        simp only []
        rw [if_pos hj]
        by_cases hnil : acc.CmpFindSubKeyByNumber s.Top.Cell s.Top.ChildIndex = HCELL_NIL
        · rw [if_pos hnil]
        · rw [if_neg hnil, if_pos (by rw [hidx]; omega)]
    refine ⟨(WalkDescend env acc Hive (WalkCheckCell env acc Hive pm da s).2).2, ?_, ?_⟩
    · rw [hbreak]
      simp
    · rw [WalkDescend_break env acc Hive _ hbreak]
      exact NT_SUCCESS_INSUFFICIENT

theorem SubtreeCells_ne_nil (env : Env) (acc : AccessEnv) (H : CMHIVE) (d : Nat)
    (c : HCELL_INDEX) (hd : 0 < d) : ∃ rest, SubtreeCells env acc H d c = c :: rest := by
  cases d with
  | zero => omega
  | succ d => exact ⟨_, rfl⟩

/-! ## The walk always ends -/

theorem StackPotential_congr (D : Nat) (s1 s2 : List CMP_CHECK_REGISTRY_STACK_ENTRY) (k : Nat)
    (h : ∀ i, i < k → s1.getD i default = s2.getD i default) :
    StackPotential D s1 k = StackPotential D s2 k := by
  induction k with
  | zero => rfl
  | succ k ih =>
    simp only [StackPotential]
    rw [ih (fun i hi => h i (by omega)), h k (by omega)]

theorem StackPotential_set (D : Nat) (s : List CMP_CHECK_REGISTRY_STACK_ENTRY) (k j : Nat)
    (e : CMP_CHECK_REGISTRY_STACK_ENTRY) (h : k ≤ j) :
    StackPotential D (s.set j e) k = StackPotential D s k :=
  StackPotential_congr D _ _ k (fun i hi => getD_set_ne _ _ _ _ _ (by omega))

/-- The first part of the loop body leaves the measure as it is. -/
theorem WalkCheckCell_measure (env : Env) (acc : AccessEnv) (Hive : CMHIVE) (pm da : Nat)
    (s : WalkState) (D : Nat) (h0 : 0 ≤ s.StackIndex) :
    (WalkCheckCell env acc Hive pm da s).2.StackIndex = s.StackIndex ∧
      (WalkCheckCell env acc Hive pm da s).2.CheckStack.length = s.CheckStack.length ∧
      WalkMeasure D (WalkCheckCell env acc Hive pm da s).2 = WalkMeasure D s := by
  unfold WalkCheckCell
  split
  · refine ⟨rfl, by simp, ?_⟩
    obtain ⟨k, hk⟩ : ∃ k : Nat, s.StackIndex = (k : Int) := ⟨s.StackIndex.toNat, by omega⟩
    have h1 : (s.StackIndex + 1).toNat = k + 1 := by omega
    have h2 : s.StackIndex.toNat = k := by omega
    simp only [WalkMeasure, h1, h2, StackPotential]
    rw [StackPotential_set D _ k k _ (le_refl _)]
    by_cases hlen : k < s.CheckStack.length
    · rw [getD_set_eq _ _ _ _ hlen]
      simp [WalkState.Top, h2]
    · rw [List.set_eq_of_length_le (not_lt.1 hlen)]
  · exact ⟨rfl, rfl, rfl⟩

theorem pow_step (k D : Nat) (h : k + 1 < D) :
    4294967298 ^ (D - 1 - k) = 4294967298 * 4294967298 ^ (D - 1 - (k + 1)) := by
  have : D - 1 - k = (D - 1 - (k + 1)) + 1 := by omega
  rw [this, pow_succ, Nat.mul_comm]

/-- The second part of the loop body, when the loop goes on after it, keeps
the stack index below the bound and the length of the stack, and lowers the
measure. -/
theorem WalkDescend_measure (env : Env) (acc : AccessEnv) (Hive : CMHIVE) (s : WalkState)
    (h0 : 0 ≤ s.StackIndex) (h1 : s.StackIndex < (acc.CMP_MAX_REGISTRY_DEPTH : Int))
    (hlen : s.CheckStack.length = acc.CMP_MAX_REGISTRY_DEPTH)
    (hgo : (WalkDescend env acc Hive s).1 = true) :
    (WalkDescend env acc Hive s).2.StackIndex < (acc.CMP_MAX_REGISTRY_DEPTH : Int) ∧
      (WalkDescend env acc Hive s).2.CheckStack.length = acc.CMP_MAX_REGISTRY_DEPTH ∧
      WalkMeasure acc.CMP_MAX_REGISTRY_DEPTH (WalkDescend env acc Hive s).2 <
        WalkMeasure acc.CMP_MAX_REGISTRY_DEPTH s := by
  obtain ⟨k, hk⟩ : ∃ k : Nat, s.StackIndex = (k : Int) := ⟨s.StackIndex.toNat, by omega⟩
  have hk1 : (s.StackIndex + 1).toNat = k + 1 := by omega
  have hk0 : s.StackIndex.toNat = k := by omega
  have hkD : k < acc.CMP_MAX_REGISTRY_DEPTH := by omega
  unfold WalkDescend at hgo ⊢
  cases hn : HvGetCellNode env Hive s.Top.Cell with
  | none =>
    rw [hn] at hgo
    exact absurd hgo (by simp)
  | some Node =>
    simp only [hn] at hgo ⊢
    by_cases hj : s.Top.ChildIndex <
        (Node.SubKeyCounts.getD Stable 0 + Node.SubKeyCounts.getD Volatile 0) % 4294967296
    · rw [if_pos hj] at hgo ⊢
      by_cases hsub : acc.CmpFindSubKeyByNumber s.Top.Cell s.Top.ChildIndex = HCELL_NIL
      · rw [if_pos hsub] at hgo
        exact absurd hgo (by simp)
      · rw [if_neg hsub] at hgo ⊢
        by_cases hd : s.StackIndex + 1 = (acc.CMP_MAX_REGISTRY_DEPTH : Int)
        · rw [if_pos hd] at hgo
          exact absurd hgo (by simp)
        · rw [if_neg hd]
          have hkD1 : k + 1 < acc.CMP_MAX_REGISTRY_DEPTH := by omega
          have hc : s.Top.ChildIndex < 4294967295 := by
            have : (Node.SubKeyCounts.getD Stable 0 + Node.SubKeyCounts.getD Volatile 0) %
                4294967296 < 4294967296 := Nat.mod_lt _ (by decide)
            omega
          have htop : s.Top = s.CheckStack.getD k default := WalkState_Top_eq s k hk
          refine ⟨by show s.StackIndex + 1 < _; omega, by simp [hlen], ?_⟩
          have h2 : (s.StackIndex + 1 + 1).toNat = k + 2 := by omega
          simp only [WalkMeasure, h2, hk1, hk0, StackPotential]
          rw [StackPotential_set _ _ k (k + 1) _ (by omega),
            StackPotential_set _ _ k k _ (le_refl _),
            getD_set_eq _ _ _ _ (by simp [hlen]; omega),
            getD_set_ne _ _ _ _ _ (by omega : k + 1 ≠ k),
            getD_set_eq _ _ _ _ (by omega), ← htop]
          simp only [ULONG_INC_eq _ hc, Nat.sub_zero]
          rw [pow_step k _ hkD1]
          have hpos : 0 < 4294967298 ^ (acc.CMP_MAX_REGISTRY_DEPTH - 1 - (k + 1)) :=
            Nat.pow_pos (by decide)
          generalize 4294967298 ^ (acc.CMP_MAX_REGISTRY_DEPTH - 1 - (k + 1)) = P at hpos ⊢
          generalize StackPotential acc.CMP_MAX_REGISTRY_DEPTH s.CheckStack k = Q
          obtain ⟨m, hm⟩ : ∃ m, 4294967296 - s.Top.ChildIndex = m + 2 :=
            ⟨4294967296 - s.Top.ChildIndex - 2, by omega⟩
          have hm1 : 4294967296 - (s.Top.ChildIndex + 1) = m + 1 := by omega
          rw [hm, hm1]
          nlinarith
    · rw [if_neg hj]
      refine ⟨by show s.StackIndex - 1 < _; omega, hlen, ?_⟩
      have h2 : (s.StackIndex - 1 + 1).toNat = k := by omega
      simp only [WalkMeasure, h2, hk1, StackPotential]
      omega

/-- An iteration after which the loop goes on keeps the stack index below the
bound and the length of the stack, and lowers the measure. -/
theorem WalkIteration_measure (env : Env) (acc : AccessEnv) (Hive : CMHIVE) (pm da : Nat)
    (s : WalkState) (h0 : 0 ≤ s.StackIndex)
    (h1 : s.StackIndex < (acc.CMP_MAX_REGISTRY_DEPTH : Int))
    (hlen : s.CheckStack.length = acc.CMP_MAX_REGISTRY_DEPTH)
    (hgo : (WalkIteration env acc Hive pm da s).1 = true) :
    (WalkIteration env acc Hive pm da s).2.StackIndex < (acc.CMP_MAX_REGISTRY_DEPTH : Int) ∧
      (WalkIteration env acc Hive pm da s).2.CheckStack.length = acc.CMP_MAX_REGISTRY_DEPTH ∧
      WalkMeasure acc.CMP_MAX_REGISTRY_DEPTH (WalkIteration env acc Hive pm da s).2 <
        WalkMeasure acc.CMP_MAX_REGISTRY_DEPTH s := by
  obtain ⟨hi, hl, hm⟩ := WalkCheckCell_measure env acc Hive pm da s
    acc.CMP_MAX_REGISTRY_DEPTH h0
  unfold WalkIteration at hgo ⊢
  by_cases hc : (WalkCheckCell env acc Hive pm da s).1 = false
  · rw [if_pos hc] at hgo
    exact absurd hgo (by simp)
  · rw [if_neg hc] at hgo ⊢
    have := WalkDescend_measure env acc Hive _ (by rw [hi]; exact h0) (by rw [hi]; exact h1)
      (by rw [hl]; exact hlen) hgo
    rw [hm] at this
    exact this

/-- The loop ends within as many iterations as the measure of its state. -/
theorem WalkLoop_ends (env : Env) (acc : AccessEnv) (Hive : CMHIVE) (pm da : Nat) (fuel : Nat) :
    ∀ s : WalkState, WalkMeasure acc.CMP_MAX_REGISTRY_DEPTH s ≤ fuel →
      s.StackIndex < (acc.CMP_MAX_REGISTRY_DEPTH : Int) →
      s.CheckStack.length = acc.CMP_MAX_REGISTRY_DEPTH →
      ∃ t, WalkLoop env acc Hive pm da fuel s = some t := by
  induction fuel with
  | zero =>
    intro s hm h1 hlen
    have hneg : s.StackIndex < 0 := by
      unfold WalkMeasure at hm
      omega
    exact ⟨s, WalkLoop_done _ _ _ _ _ _ _ hneg⟩
  | succ fuel ih =>
    intro s hm h1 hlen
    by_cases hneg : s.StackIndex < 0
    · exact ⟨s, WalkLoop_done _ _ _ _ _ _ _ hneg⟩
    · have h0 : 0 ≤ s.StackIndex := not_lt.1 hneg
      rw [WalkLoop_succ _ _ _ _ _ _ _ h0]
      by_cases hgo : (WalkIteration env acc Hive pm da s).1 = true
      · rw [if_pos hgo]
        obtain ⟨hi, hl, hlt⟩ := WalkIteration_measure env acc Hive pm da s h0 h1 hlen hgo
        exact ih _ (by omega) hi hl
      · rw [if_neg hgo]
        exact ⟨_, rfl⟩

/-- More iterations than needed do not change the result of the loop. -/
theorem WalkLoop_mono (env : Env) (acc : AccessEnv) (Hive : CMHIVE) (pm da : Nat) (fuel : Nat) :
    ∀ (s t : WalkState) (more : Nat), WalkLoop env acc Hive pm da fuel s = some t →
      WalkLoop env acc Hive pm da (fuel + more) s = some t := by
  induction fuel with
  | zero =>
    intro s t more h
    by_cases hneg : s.StackIndex < 0
    · rw [WalkLoop_done _ _ _ _ _ _ _ hneg] at h ⊢
      exact h
    · unfold WalkLoop at h
      simp [hneg] at h
  | succ fuel ih =>
    intro s t more h
    by_cases hneg : s.StackIndex < 0
    · rw [WalkLoop_done _ _ _ _ _ _ _ hneg] at h ⊢
      exact h
    · have h0 : 0 ≤ s.StackIndex := not_lt.1 hneg
      rw [WalkLoop_succ _ _ _ _ _ _ _ h0] at h
      rw [show fuel + 1 + more = (fuel + more) + 1 by omega, WalkLoop_succ _ _ _ _ _ _ _ h0]
      by_cases hgo : (WalkIteration env acc Hive pm da s).1 = true
      · rw [if_pos hgo] at h ⊢
        exact ih _ t more h
      · rw [if_neg hgo] at h ⊢
        exact h

theorem WalkMeasure_WalkStart (acc : AccessEnv) (Cell : HCELL_INDEX) (CheckRoot : Bool)
    (hpos : 0 < acc.CMP_MAX_REGISTRY_DEPTH) :
    WalkMeasure acc.CMP_MAX_REGISTRY_DEPTH (WalkStart acc Cell CheckRoot) = WalkFuel acc := by
  have h1 : ((WalkStart acc Cell CheckRoot).StackIndex + 1).toNat = 1 := rfl
  have h2 : (WalkStart acc Cell CheckRoot).CheckStack.getD 0 default =
      { Cell := Cell, ChildIndex := 0, CellChecked := !CheckRoot } :=
    getD_set_eq _ _ _ _ (by simpa using hpos)
  simp only [WalkMeasure, h1, StackPotential, h2, WalkFuel, Nat.sub_zero]
  omega

/-- `CmpDoAccessCheckOnSubtree` returns: `WalkFuel` iterations of its loop
suffice, whatever the hive holds. -/
theorem CmpDoAccessCheckOnSubtree_returns (env : Env) (acc : AccessEnv) (H : CMHIVE)
    (Cell : HCELL_INDEX) (pm da : Nat) (CheckRoot : Bool)
    (hpos : 0 < acc.CMP_MAX_REGISTRY_DEPTH) (fuel : Nat) (hfuel : WalkFuel acc ≤ fuel) :
    ∃ r, CmpDoAccessCheckOnSubtree env acc fuel H Cell pm da CheckRoot = some r := by
  unfold CmpDoAccessCheckOnSubtree
  by_cases ha : acc.CheckStackAllocated = false
  · rw [if_pos ha]
    exact ⟨_, rfl⟩
  · rw [if_neg ha]
    obtain ⟨t, ht⟩ := WalkLoop_ends env acc { H with ReleaseCellRoutine := none } pm da fuel
      (WalkStart acc Cell CheckRoot)
      (by rw [WalkMeasure_WalkStart acc Cell CheckRoot hpos]; exact hfuel)
      (by show (0 : Int) < _; exact_mod_cast hpos) (by simp [WalkStart])
    rw [ht]
    exact ⟨_, rfl⟩

/-- More iterations than needed do not change what `CmpDoAccessCheckOnSubtree`
returns. -/
theorem CmpDoAccessCheckOnSubtree_mono (env : Env) (acc : AccessEnv) (fuel more : Nat)
    (H : CMHIVE) (Cell : HCELL_INDEX) (pm da : Nat) (CheckRoot : Bool) (r : SubtreeCheck)
    (hrun : CmpDoAccessCheckOnSubtree env acc fuel H Cell pm da CheckRoot = some r) :
    CmpDoAccessCheckOnSubtree env acc (fuel + more) H Cell pm da CheckRoot = some r := by
  unfold CmpDoAccessCheckOnSubtree at hrun ⊢
  by_cases ha : acc.CheckStackAllocated = false
  · rw [if_pos ha] at hrun ⊢
    exact hrun
  · rw [if_neg ha] at hrun ⊢
    cases hw : WalkLoop env acc { H with ReleaseCellRoutine := none } pm da fuel
        (WalkStart acc Cell CheckRoot) with
    | none => simp [hw] at hrun
    | some t =>
      rw [WalkLoop_mono _ _ _ _ _ _ _ t more hw]
      rw [hw] at hrun
      exact hrun

/-- On a finite key tree within the depth bound, `WalkFuel` iterations give the
result of `CmpDoAccessCheckOnSubtree`: the status and the evaluations of the
checks of the subtree in pre-order, without the root when `CheckRoot` is not
set. -/
theorem CmpDoAccessCheckOnSubtree_result (env : Env) (acc : AccessEnv) (H : CMHIVE)
    (Cell : HCELL_INDEX) (pm da : Nat) (CheckRoot : Bool)
    (halloc : acc.CheckStackAllocated = true)
    (htree : TreeWithin env acc H acc.CMP_MAX_REGISTRY_DEPTH Cell = true)
    (fuel : Nat) (hfuel : WalkFuel acc ≤ fuel) :
    ∃ r, CmpDoAccessCheckOnSubtree env acc fuel H Cell pm da CheckRoot = some r ∧
      r.Status =
        (CheckAll (fun c => (CmpCheckKeyAccess env acc H c pm da).1)
          (if CheckRoot = true then SubtreeCells env acc H acc.CMP_MAX_REGISTRY_DEPTH Cell
           else (SubtreeCells env acc H acc.CMP_MAX_REGISTRY_DEPTH Cell).tail)
          STATUS_INSUFFICIENT_RESOURCES).2 ∧
      AccessChecks r.Trace =
        ChecksOf (fun c => CmpCheckKeyAccess env acc H c pm da)
          (if CheckRoot = true then SubtreeCells env acc H acc.CMP_MAX_REGISTRY_DEPTH Cell
           else (SubtreeCells env acc H acc.CMP_MAX_REGISTRY_DEPTH Cell).tail) ∧
      r.Hive = H := by
  have hpos := TreeWithin_pos env acc H _ Cell htree
  obtain ⟨r, hr⟩ := CmpDoAccessCheckOnSubtree_returns env acc H Cell pm da CheckRoot hpos fuel
    hfuel
  obtain ⟨N, hN⟩ := CmpDoAccessCheckOnSubtree_walk env acc H Cell pm da CheckRoot halloc htree
  obtain ⟨r1, hr1, hprops⟩ := hN (fuel + N) (by omega)
  have := CmpDoAccessCheckOnSubtree_mono env acc fuel N H Cell pm da CheckRoot r hr
  rw [this] at hr1
  cases hr1
  exact ⟨r, hr, hprops⟩

/-! ## The descriptor queries of a check -/

theorem Queries_append (l1 l2 : List CheckEvent) :
    Queries (l1 ++ l2) = Queries l1 ++ Queries l2 := by
  induction l1 with
  | nil => rfl
  | cons e rest ih =>
    cases e <;> simp [Queries, ih]

/-- The queries after the first one: one more, on a buffer of the length the
first query reported, when the first buffer was too small and the second buffer
is allocated. -/
theorem Queries_CmpCheckKeyAccessQueried (acc : AccessEnv) (NodeCell : HCELL_INDEX)
    (pm da : Nat) (S : CM_KEY_SECURITY) (First : NTSTATUS × Nat × List Nat) :
    Queries (CmpCheckKeyAccessQueried acc NodeCell pm da S First).2 =
      if First.1 = STATUS_BUFFER_TOO_SMALL ∧ acc.ExAllocatePool First.2.1 = true then
        [First.2.1]
      else [] := by
  have hag : Queries (if First.1 = STATUS_BUFFER_TOO_SMALL then
      [CheckEvent.QueryDescriptor First.2.1] else []) =
      if First.1 = STATUS_BUFFER_TOO_SMALL then [First.2.1] else [] := by
    by_cases hb : First.1 = STATUS_BUFFER_TOO_SMALL
    · rw [if_pos hb, if_pos hb]
      rfl
    · rw [if_neg hb, if_neg hb]
      rfl
  unfold CmpCheckKeyAccessQueried
  dsimp only
  by_cases h1 : First.1 = STATUS_BUFFER_TOO_SMALL ∧ acc.ExAllocatePool First.2.1 = false
  · rw [if_pos h1, if_neg (by rw [h1.2]; simp)]
    rfl
  · rw [if_neg h1]
    have hrhs : (if First.1 = STATUS_BUFFER_TOO_SMALL ∧ acc.ExAllocatePool First.2.1 = true then
        [First.2.1] else []) = if First.1 = STATUS_BUFFER_TOO_SMALL then [First.2.1] else [] := by
      by_cases hb : First.1 = STATUS_BUFFER_TOO_SMALL
      · have ha : acc.ExAllocatePool First.2.1 = true := by
          cases hx : acc.ExAllocatePool First.2.1 with
          | true => rfl
          | false => exact absurd ⟨hb, hx⟩ h1
        rw [if_pos ⟨hb, ha⟩, if_pos hb]
      · rw [if_neg (fun h => hb h.1), if_neg hb]
    rw [hrhs]
    generalize (if First.1 = STATUS_BUFFER_TOO_SMALL then
      acc.SeQuerySecurityDescriptorInfo
        (OWNER_SECURITY_INFORMATION ||| GROUP_SECURITY_INFORMATION |||
          DACL_SECURITY_INFORMATION ||| SACL_SECURITY_INFORMATION)
        First.2.1 S.Descriptor
      else First) = Q
    by_cases h2 : NT_SUCCESS Q.1 = false
    · rw [if_pos h2]
      exact hag
    · rw [if_neg h2]
      by_cases h3 : acc.SeAccessCheck Q.2.2 da pm = true
      · rw [if_pos h3]
        show Queries (_ ++ _) = _
        rw [Queries_append, hag]
        simp [Queries]
      · rw [if_neg h3]
        show Queries (_ ++ _) = _
        rw [Queries_append, hag]
        simp [Queries]

/-- The queries of a check whose node and security cell are mapped and whose
first buffer is allocated. -/
theorem Queries_CmpCheckKeyAccess (env : Env) (acc : AccessEnv) (Hive : CMHIVE)
    (NodeCell : HCELL_INDEX) (pm da : Nat) (Node : CM_KEY_NODE) (S : CM_KEY_SECURITY)
    (hn : HvGetCellNode env Hive NodeCell = some Node)
    (hs : HvGetCellSecurity env Hive Node.Security = some S)
    (ha : acc.ExAllocatePool S.DescriptorLength = true) :
    Queries (CmpCheckKeyAccess env acc Hive NodeCell pm da).2 =
      S.DescriptorLength ::
        (if (acc.SeQuerySecurityDescriptorInfo FULL_SECURITY_INFORMATION S.DescriptorLength
              S.Descriptor).1 = STATUS_BUFFER_TOO_SMALL ∧
            acc.ExAllocatePool (acc.SeQuerySecurityDescriptorInfo FULL_SECURITY_INFORMATION
              S.DescriptorLength S.Descriptor).2.1 = true then
          [(acc.SeQuerySecurityDescriptorInfo FULL_SECURITY_INFORMATION S.DescriptorLength
              S.Descriptor).2.1]
        else []) := by
  unfold CmpCheckKeyAccess
  simp only [hn, hs]
  rw [if_neg (by rw [ha]; simp)]
  show Queries (_ ++ _) = _
  rw [Queries_append, Queries_CmpCheckKeyAccessQueried]
  rfl

/-- A check makes at most two queries. -/
theorem Queries_CmpCheckKeyAccess_le (env : Env) (acc : AccessEnv) (Hive : CMHIVE)
    (NodeCell : HCELL_INDEX) (pm da : Nat) :
    (Queries (CmpCheckKeyAccess env acc Hive NodeCell pm da).2).length ≤ 2 := by
  cases hn : HvGetCellNode env Hive NodeCell with
  | none =>
    unfold CmpCheckKeyAccess
    simp only [hn]
    simp [Queries]
  | some Node =>
    cases hs : HvGetCellSecurity env Hive Node.Security with
    | none =>
      unfold CmpCheckKeyAccess
      simp only [hn, hs]
      simp [Queries]
    | some S =>
      by_cases ha : acc.ExAllocatePool S.DescriptorLength = true
      · rw [Queries_CmpCheckKeyAccess env acc Hive NodeCell pm da Node S hn hs ha]
        split <;> simp
      · unfold CmpCheckKeyAccess
        simp only [hn, hs]
        rw [if_pos (by simpa using ha)]
        simp [Queries]

/-! ## The security method: its paths -/

theorem MethodKcb_tagged (P : Nat) (h : P &&& 1 ≠ 0) :
    MethodKcb P QuerySecurityDescriptor = P ^^^ 1 := by
  unfold MethodKcb
  rw [if_pos ⟨rfl, h⟩]

theorem MethodKcb_untagged (P Op : Nat) (h : Op ≠ QuerySecurityDescriptor ∨ P &&& 1 = 0) :
    MethodKcb P Op = P := by
  unfold MethodKcb
  rw [if_neg]
  rintro ⟨h1, h2⟩
  rcases h with h | h
  · exact h h1
  · exact h2 h

theorem MethodUnlockKcb_tagged (P : Nat) (h : P &&& 1 ≠ 0) :
    MethodUnlockKcb P QuerySecurityDescriptor = false := by
  unfold MethodUnlockKcb
  rw [if_pos ⟨rfl, h⟩]

theorem MethodUnlockKcb_untagged (P Op : Nat) (h : Op ≠ QuerySecurityDescriptor ∨ P &&& 1 = 0) :
    MethodUnlockKcb P Op = true := by
  unfold MethodUnlockKcb
  rw [if_neg]
  rintro ⟨h1, h2⟩
  rcases h with h | h
  · exact h h1
  · exact h2 h

theorem MethodLock_tagged (P : Nat) (h : P &&& 1 ≠ 0) :
    MethodLock P QuerySecurityDescriptor = [MethodEvent.CmpLockRegistry] := by
  unfold MethodLock
  rw [if_pos rfl, if_pos h]

theorem MethodLock_shared (P : Nat) (h : P &&& 1 = 0) :
    MethodLock P QuerySecurityDescriptor =
      [MethodEvent.CmpLockRegistry, MethodEvent.CmpLockKCBShared P] := by
  unfold MethodLock
  rw [if_pos rfl, if_neg (by rw [h]; exact fun h => h rfl)]

theorem MethodLock_exclusive (P Op : Nat) (h : Op ≠ QuerySecurityDescriptor) :
    MethodLock P Op = [MethodEvent.CmpLockRegistry, MethodEvent.CmpLockKCBExclusive P] := by
  unfold MethodLock
  rw [if_neg h]

/-- The deleted-key exit of the security method. -/
theorem CmpSecurityMethod_deleted (env : Env) (acc : AccessEnv) (menv : MethodEnv)
    (Hive : CMHIVE) (P Op Info : Nat) (D : List Nat) (Len : Nat)
    (hdel : (menv.KcbAt (MethodKcb P Op)).Delete = true) :
    CmpSecurityMethod env acc menv Hive P Op Info D Len =
      { Status := Outcome.Returned STATUS_KEY_DELETED, Hive := Hive,
        Kcb := menv.KcbAt (MethodKcb P Op), Length := Len, Buffer := [],
        Trace := MethodLock P Op ++
          (if MethodUnlockKcb P Op then [MethodEvent.CmpUnlockKCB (MethodKcb P Op)] else []) ++
          [MethodEvent.CmpUnlockRegistry] } := by
  unfold CmpSecurityMethod
  simp only [hdel, if_true]
/-- The path of the security method on a key that is not deleted. -/
theorem CmpSecurityMethod_live (env : Env) (acc : AccessEnv) (menv : MethodEnv)
    (Hive : CMHIVE) (P Op Info : Nat) (D : List Nat) (Len : Nat)
    (hlive : (menv.KcbAt (MethodKcb P Op)).Delete = false) :
    (CmpSecurityMethod env acc menv Hive P Op Info D Len).Status =
        (MethodSwitch env acc menv Hive (menv.KcbAt (MethodKcb P Op)) Op Info D Len).Status ∧
      (CmpSecurityMethod env acc menv Hive P Op Info D Len).Hive =
        (MethodSwitch env acc menv Hive (menv.KcbAt (MethodKcb P Op)) Op Info D Len).Hive ∧
      (CmpSecurityMethod env acc menv Hive P Op Info D Len).Kcb =
        (MethodSwitch env acc menv Hive (menv.KcbAt (MethodKcb P Op)) Op Info D Len).Kcb ∧
      (CmpSecurityMethod env acc menv Hive P Op Info D Len).Length =
        (MethodSwitch env acc menv Hive (menv.KcbAt (MethodKcb P Op)) Op Info D Len).Length ∧
      (CmpSecurityMethod env acc menv Hive P Op Info D Len).Buffer =
        (MethodSwitch env acc menv Hive (menv.KcbAt (MethodKcb P Op)) Op Info D Len).Buffer ∧
      (CmpSecurityMethod env acc menv Hive P Op Info D Len).Trace =
        MethodLock P Op ++
          (if Op ≠ QuerySecurityDescriptor then
            [MethodEvent.CmpLockHiveFlusherShared, MethodEvent.CmLockHiveSecurityExclusive]
           else []) ++
          (MethodSwitch env acc menv Hive (menv.KcbAt (MethodKcb P Op)) Op Info D Len).Trace ++
          (match (MethodSwitch env acc menv Hive (menv.KcbAt (MethodKcb P Op)) Op Info D
              Len).Status with
            | Outcome.Returned _ =>
              MethodUnlock P Op
                (MethodSwitch env acc menv Hive (menv.KcbAt (MethodKcb P Op)) Op Info D
                  Len).UnlockSecurity
            | Outcome.BugCheck _ _ => []) := by
  unfold CmpSecurityMethod
  simp only [hlive, Bool.false_eq_true, if_false]
  cases (MethodSwitch env acc menv Hive (menv.KcbAt (MethodKcb P Op)) Op Info D Len).Status with
  | Returned s => exact ⟨rfl, rfl, rfl, rfl, rfl, rfl⟩
  | BugCheck a b => exact ⟨rfl, rfl, rfl, rfl, rfl, by simp⟩

/-- The `switch` on a set request. -/
theorem MethodSwitch_set (env : Env) (acc : AccessEnv) (menv : MethodEnv) (Hive : CMHIVE)
    (Kcb : CM_KEY_CONTROL_BLOCK) (Info : Nat) (D : List Nat) (Len : Nat) :
    (MethodSwitch env acc menv Hive Kcb SetSecurityDescriptor Info D Len).Status =
        (CmpSetSecurityDescriptorInfo env Hive Kcb Info D).Status ∧
      (MethodSwitch env acc menv Hive Kcb SetSecurityDescriptor Info D Len).Hive =
        (CmpSetSecurityDescriptorInfo env Hive Kcb Info D).Hive ∧
      (MethodSwitch env acc menv Hive Kcb SetSecurityDescriptor Info D Len).Kcb =
        (CmpSetSecurityDescriptorInfo env Hive Kcb Info D).Kcb ∧
      (MethodSwitch env acc menv Hive Kcb SetSecurityDescriptor Info D Len).Trace =
        (if SetSucceeds env Hive Kcb Info D then
          [MethodEvent.CmpSetSecurityDescriptorInfo, MethodEvent.CmUnlockHiveSecurity,
            MethodEvent.CmpReportNotify
              (REG_NOTIFY_CHANGE_ATTRIBUTES ||| REG_NOTIFY_CHANGE_SECURITY)]
         else [MethodEvent.CmpSetSecurityDescriptorInfo]) ∧
      (MethodSwitch env acc menv Hive Kcb SetSecurityDescriptor Info D Len).UnlockSecurity =
        !SetSucceeds env Hive Kcb Info D := by
  unfold MethodSwitch SetSucceeds
  simp only [if_true]
  cases hs : (CmpSetSecurityDescriptorInfo env Hive Kcb Info D).Status with
  | Returned s =>
    by_cases hok : NT_SUCCESS s = true
    · simp [hok]
    · simp [hok]
  | BugCheck a b => simp

/-- The `switch` on a query request. -/
theorem MethodSwitch_query (env : Env) (acc : AccessEnv) (menv : MethodEnv) (Hive : CMHIVE)
    (Kcb : CM_KEY_CONTROL_BLOCK) (Info : Nat) (D : List Nat) (Len : Nat) :
    (∃ s, (MethodSwitch env acc menv Hive Kcb QuerySecurityDescriptor Info D Len).Status =
        Outcome.Returned s) ∧
      (MethodSwitch env acc menv Hive Kcb QuerySecurityDescriptor Info D Len).Hive = Hive ∧
      (MethodSwitch env acc menv Hive Kcb QuerySecurityDescriptor Info D Len).Kcb = Kcb ∧
      (MethodSwitch env acc menv Hive Kcb QuerySecurityDescriptor Info D Len).Trace =
        [MethodEvent.CmpQuerySecurityDescriptorInfo] := by
  unfold MethodSwitch
  rw [if_neg (by decide : ¬ QuerySecurityDescriptor = SetSecurityDescriptor), if_pos rfl]
  cases CmpQuerySecurityDescriptorInfo acc menv Hive Kcb Info Len with
  | Completed s l b => exact ⟨⟨s, rfl⟩, rfl, rfl, rfl⟩
  | Raised c => exact ⟨⟨c, rfl⟩, rfl, rfl, rfl⟩

/-- The `switch` on a delete request. -/
theorem MethodSwitch_delete (env : Env) (acc : AccessEnv) (menv : MethodEnv) (Hive : CMHIVE)
    (Kcb : CM_KEY_CONTROL_BLOCK) (Info : Nat) (D : List Nat) (Len : Nat) :
    MethodSwitch env acc menv Hive Kcb DeleteSecurityDescriptor Info D Len =
      { Status := Outcome.Returned STATUS_UNSUCCESSFUL, Hive := Hive, Kcb := Kcb,
        Length := Len, Buffer := [], Trace := [], UnlockSecurity := true } := by
  unfold MethodSwitch
  rw [if_neg (by decide : ¬ DeleteSecurityDescriptor = SetSecurityDescriptor),
    if_neg (by decide : ¬ DeleteSecurityDescriptor = QuerySecurityDescriptor), if_pos rfl]

/-- The `switch` on an assign request. -/
theorem MethodSwitch_assign (env : Env) (acc : AccessEnv) (menv : MethodEnv) (Hive : CMHIVE)
    (Kcb : CM_KEY_CONTROL_BLOCK) (Info : Nat) (D : List Nat) (Len : Nat) :
    MethodSwitch env acc menv Hive Kcb AssignSecurityDescriptor Info D Len =
      { Status := (CmpAssignSecurityDescriptorWrapper env Hive Kcb D).Status,
        Hive := (CmpAssignSecurityDescriptorWrapper env Hive Kcb D).Hive,
        Kcb := (CmpAssignSecurityDescriptorWrapper env Hive Kcb D).Kcb,
        Length := Len, Buffer := [],
        Trace := [MethodEvent.CmpAssignSecurityDescriptorWrapper], UnlockSecurity := true } := by
  unfold MethodSwitch
  rw [if_neg (by decide : ¬ AssignSecurityDescriptor = SetSecurityDescriptor),
    if_neg (by decide : ¬ AssignSecurityDescriptor = QuerySecurityDescriptor),
    if_neg (by decide : ¬ AssignSecurityDescriptor = DeleteSecurityDescriptor), if_pos rfl]

/-- The `switch` on an operation code that is none of the four. -/
theorem MethodSwitch_other (env : Env) (acc : AccessEnv) (menv : MethodEnv) (Hive : CMHIVE)
    (Kcb : CM_KEY_CONTROL_BLOCK) (Op Info : Nat) (D : List Nat) (Len : Nat)
    (h0 : Op ≠ SetSecurityDescriptor) (h1 : Op ≠ QuerySecurityDescriptor)
    (h2 : Op ≠ DeleteSecurityDescriptor) (h3 : Op ≠ AssignSecurityDescriptor) :
    MethodSwitch env acc menv Hive Kcb Op Info D Len =
      { Status := Outcome.BugCheck REGISTRY_ERROR 1, Hive := Hive, Kcb := Kcb,
        Length := Len, Buffer := [], Trace := [], UnlockSecurity := true } := by
  unfold MethodSwitch
  rw [if_neg h0, if_neg h1, if_neg h2, if_neg h3]

/-- The events of the `switch` take no lock, and none is on the lock of a key
control block. -/
theorem MethodSwitch_events (env : Env) (acc : AccessEnv) (menv : MethodEnv) (Hive : CMHIVE)
    (Kcb : CM_KEY_CONTROL_BLOCK) (Op Info : Nat) (D : List Nat) (Len : Nat) :
    ∀ e, e ∈ (MethodSwitch env acc menv Hive Kcb Op Info D Len).Trace →
      e.Acquires = false ∧ e.OnKcbLock = false ∧ e.Acquired = none := by
  intro e he
  by_cases h0 : Op = SetSecurityDescriptor
  · subst h0
    rw [(MethodSwitch_set env acc menv Hive Kcb Info D Len).2.2.2.1] at he
    by_cases hs : SetSucceeds env Hive Kcb Info D = true
    · rw [if_pos hs] at he
      simp only [List.mem_cons, List.mem_singleton, List.not_mem_nil, or_false] at he
      rcases he with rfl | rfl | rfl <;> exact ⟨rfl, rfl, rfl⟩
    · rw [if_neg hs] at he
      rw [List.mem_singleton] at he
      subst he
      exact ⟨rfl, rfl, rfl⟩
  · by_cases h1 : Op = QuerySecurityDescriptor
    · subst h1
      rw [(MethodSwitch_query env acc menv Hive Kcb Info D Len).2.2.2, List.mem_singleton] at he
      subst he
      exact ⟨rfl, rfl, rfl⟩
    · by_cases h2 : Op = DeleteSecurityDescriptor
      · subst h2
        rw [MethodSwitch_delete] at he
        exact absurd he (by simp)
      · by_cases h3 : Op = AssignSecurityDescriptor
        · subst h3
          rw [MethodSwitch_assign] at he
          simp only [List.mem_singleton] at he
          subst he
          exact ⟨rfl, rfl, rfl⟩
        · rw [MethodSwitch_other env acc menv Hive Kcb Op Info D Len h0 h1 h2 h3] at he
          exact absurd he (by simp)
/-- The deleted-key exit of a query that finds the tag bit set. -/
theorem CmpSecurityMethod_deleted_tagged (env : Env) (acc : AccessEnv) (menv : MethodEnv)
    (Hive : CMHIVE) (P Info : Nat) (D : List Nat) (Len : Nat)
    (hdel : (menv.KcbAt (MethodKcb P QuerySecurityDescriptor)).Delete = true)
    (htag : P &&& 1 ≠ 0) :
    (CmpSecurityMethod env acc menv Hive P QuerySecurityDescriptor Info D Len).Trace =
      [MethodEvent.CmpLockRegistry, MethodEvent.CmpUnlockRegistry] := by
  rw [CmpSecurityMethod_deleted env acc menv Hive P _ Info D Len hdel]
  show MethodLock P _ ++ _ ++ _ = _
  rw [MethodLock_tagged P htag, MethodUnlockKcb_tagged P htag]
  rfl
/-- The trace of a set request on a key that is not deleted. -/
theorem CmpSecurityMethod_set_trace (env : Env) (acc : AccessEnv) (menv : MethodEnv)
    (Hive : CMHIVE) (P Info : Nat) (D : List Nat) (Len : Nat)
    (hlive : (menv.KcbAt P).Delete = false) :
    (SetSucceeds env Hive (menv.KcbAt P) Info D = true →
      (CmpSecurityMethod env acc menv Hive P SetSecurityDescriptor Info D Len).Trace =
        [MethodEvent.CmpLockRegistry, MethodEvent.CmpLockKCBExclusive P,
         MethodEvent.CmpLockHiveFlusherShared, MethodEvent.CmLockHiveSecurityExclusive,
         MethodEvent.CmpSetSecurityDescriptorInfo, MethodEvent.CmUnlockHiveSecurity,
         MethodEvent.CmpReportNotify
           (REG_NOTIFY_CHANGE_ATTRIBUTES ||| REG_NOTIFY_CHANGE_SECURITY),
         MethodEvent.CmpUnlockHiveFlusher, MethodEvent.CmpUnlockKCB P,
         MethodEvent.CmpUnlockRegistry]) ∧
    (SetSucceeds env Hive (menv.KcbAt P) Info D = false →
      (CmpSecurityMethod env acc menv Hive P SetSecurityDescriptor Info D Len).Trace =
        [MethodEvent.CmpLockRegistry, MethodEvent.CmpLockKCBExclusive P,
         MethodEvent.CmpLockHiveFlusherShared, MethodEvent.CmLockHiveSecurityExclusive,
         MethodEvent.CmpSetSecurityDescriptorInfo] ++
        (match (CmpSetSecurityDescriptorInfo env Hive (menv.KcbAt P) Info D).Status with
          | Outcome.Returned _ =>
            [MethodEvent.CmpUnlockHiveFlusher, MethodEvent.CmUnlockHiveSecurity,
             MethodEvent.CmpUnlockKCB P, MethodEvent.CmpUnlockRegistry]
          | Outcome.BugCheck _ _ => [])) := by
  have hq : SetSecurityDescriptor ≠ QuerySecurityDescriptor := by decide
  have hk : MethodKcb P SetSecurityDescriptor = P := MethodKcb_untagged P _ (Or.inl hq)
  have hlive1 : (menv.KcbAt (MethodKcb P SetSecurityDescriptor)).Delete = false := by
    rw [hk]; exact hlive
  have hT := (CmpSecurityMethod_live env acc menv Hive P SetSecurityDescriptor Info D Len
    hlive1).2.2.2.2.2
  obtain ⟨hS, _, _, htr, hu⟩ := MethodSwitch_set env acc menv Hive (menv.KcbAt P) Info D Len
  rw [hk, MethodLock_exclusive P _ hq, if_pos hq, htr, hu, hS] at hT
  have hUn : ∀ b, MethodUnlock P SetSecurityDescriptor b =
      MethodEvent.CmpUnlockHiveFlusher ::
        ((if b then [MethodEvent.CmUnlockHiveSecurity] else []) ++
          [MethodEvent.CmpUnlockKCB P, MethodEvent.CmpUnlockRegistry]) := by
    intro b
    unfold MethodUnlock
    rw [if_pos hq, MethodUnlockKcb_untagged P _ (Or.inl hq), hk]
    simp
  constructor
  · intro hs
    rw [hT, hs, if_pos rfl]
    have hret : ∃ s, (CmpSetSecurityDescriptorInfo env Hive (menv.KcbAt P) Info D).Status =
        Outcome.Returned s := by
      unfold SetSucceeds at hs
      cases hx : (CmpSetSecurityDescriptorInfo env Hive (menv.KcbAt P) Info D).Status with
      | Returned s => exact ⟨s, rfl⟩
      | BugCheck a b => rw [hx] at hs; cases hs
    obtain ⟨s, hs1⟩ := hret
    rw [hs1]
    simp [hUn]
  · intro hs
    rw [hT, hs, if_neg (by simp)]
    cases hx : (CmpSetSecurityDescriptorInfo env Hive (menv.KcbAt P) Info D).Status with
    | Returned s => simp [hUn]
    | BugCheck a b => simp

/-- The trace of an assign request on a key that is not deleted. -/
theorem CmpSecurityMethod_assign_trace (env : Env) (acc : AccessEnv) (menv : MethodEnv)
    (Hive : CMHIVE) (P Info : Nat) (D : List Nat) (Len : Nat)
    (hlive : (menv.KcbAt P).Delete = false) :
    (CmpSecurityMethod env acc menv Hive P AssignSecurityDescriptor Info D Len).Trace =
      [MethodEvent.CmpLockRegistry, MethodEvent.CmpLockKCBExclusive P,
       MethodEvent.CmpLockHiveFlusherShared, MethodEvent.CmLockHiveSecurityExclusive,
       MethodEvent.CmpAssignSecurityDescriptorWrapper] ++
      (match (CmpSecurityMethod env acc menv Hive P AssignSecurityDescriptor Info D
          Len).Status with
        | Outcome.Returned _ =>
          [MethodEvent.CmpUnlockHiveFlusher, MethodEvent.CmUnlockHiveSecurity,
           MethodEvent.CmpUnlockKCB P, MethodEvent.CmpUnlockRegistry]
        | Outcome.BugCheck _ _ => []) := by
  have hq : AssignSecurityDescriptor ≠ QuerySecurityDescriptor := by decide
  have hk : MethodKcb P AssignSecurityDescriptor = P := MethodKcb_untagged P _ (Or.inl hq)
  have hlive1 : (menv.KcbAt (MethodKcb P AssignSecurityDescriptor)).Delete = false := by
    rw [hk]; exact hlive
  obtain ⟨hS, _, _, _, _, hT⟩ := CmpSecurityMethod_live env acc menv Hive P
    AssignSecurityDescriptor Info D Len hlive1
  rw [hS, hT, hk, MethodLock_exclusive P _ hq, if_pos hq, MethodSwitch_assign]
  cases hx : (CmpAssignSecurityDescriptorWrapper env Hive (menv.KcbAt P) D).Status with
  | Returned s =>
    unfold MethodUnlock
    rw [if_pos hq, MethodUnlockKcb_untagged P _ (Or.inl hq), hk]
    simp
  | BugCheck a b => simp

/-- The trace of a delete request on a key that is not deleted. -/
theorem CmpSecurityMethod_delete_trace (env : Env) (acc : AccessEnv) (menv : MethodEnv)
    (Hive : CMHIVE) (P Info : Nat) (D : List Nat) (Len : Nat)
    (hlive : (menv.KcbAt P).Delete = false) :
    (CmpSecurityMethod env acc menv Hive P DeleteSecurityDescriptor Info D Len).Trace =
      [MethodEvent.CmpLockRegistry, MethodEvent.CmpLockKCBExclusive P,
       MethodEvent.CmpLockHiveFlusherShared, MethodEvent.CmLockHiveSecurityExclusive,
       MethodEvent.CmpUnlockHiveFlusher, MethodEvent.CmUnlockHiveSecurity,
       MethodEvent.CmpUnlockKCB P, MethodEvent.CmpUnlockRegistry] := by
  have hq : DeleteSecurityDescriptor ≠ QuerySecurityDescriptor := by decide
  have hk : MethodKcb P DeleteSecurityDescriptor = P := MethodKcb_untagged P _ (Or.inl hq)
  have hlive1 : (menv.KcbAt (MethodKcb P DeleteSecurityDescriptor)).Delete = false := by
    rw [hk]; exact hlive
  rw [(CmpSecurityMethod_live env acc menv Hive P DeleteSecurityDescriptor Info D Len
    hlive1).2.2.2.2.2, hk, MethodLock_exclusive P _ hq, if_pos hq, MethodSwitch_delete]
  unfold MethodUnlock
  rw [if_pos hq, MethodUnlockKcb_untagged P _ (Or.inl hq), hk]
  simp

/-- An unknown operation code on a key that is not deleted ends in the
bugcheck. -/
theorem CmpSecurityMethod_other (env : Env) (acc : AccessEnv) (menv : MethodEnv)
    (Hive : CMHIVE) (P Op Info : Nat) (D : List Nat) (Len : Nat)
    (h0 : Op ≠ SetSecurityDescriptor) (h1 : Op ≠ QuerySecurityDescriptor)
    (h2 : Op ≠ DeleteSecurityDescriptor) (h3 : Op ≠ AssignSecurityDescriptor)
    (hlive : (menv.KcbAt P).Delete = false) :
    (CmpSecurityMethod env acc menv Hive P Op Info D Len).Status =
        Outcome.BugCheck REGISTRY_ERROR 1 ∧
      (CmpSecurityMethod env acc menv Hive P Op Info D Len).Trace =
        [MethodEvent.CmpLockRegistry, MethodEvent.CmpLockKCBExclusive P,
         MethodEvent.CmpLockHiveFlusherShared, MethodEvent.CmLockHiveSecurityExclusive] := by
  have hk : MethodKcb P Op = P := MethodKcb_untagged P _ (Or.inl h1)
  have hlive1 : (menv.KcbAt (MethodKcb P Op)).Delete = false := by
    rw [hk]; exact hlive
  obtain ⟨hS, _, _, _, _, hT⟩ := CmpSecurityMethod_live env acc menv Hive P Op Info D Len hlive1
  rw [hS, hT, hk, MethodLock_exclusive P _ h1, if_pos h1,
    MethodSwitch_other env acc menv Hive _ Op Info D Len h0 h1 h2 h3]
  exact ⟨rfl, by simp⟩

/-- The four chained additions, call by call. -/
theorem RootAddAces_eq (renv : RootEnv) :
    RootAddAces renv { AclRevision := ACL_REVISION, AclSize := 92, Aces := [] }
      { WorldSid := WorldSid, RestrictedSid := RestrictedCodeSid, SystemSid := LocalSystemSid,
        AdminSid := AdministratorsSid } =
    if NT_SUCCESS
        (renv.RtlAddAccessAllowedAce
        { AclRevision := ACL_REVISION, AclSize := 92, Aces := [] }
        ACL_REVISION KEY_ALL_ACCESS LocalSystemSid) then
      if NT_SUCCESS
          (renv.RtlAddAccessAllowedAce
          { AclRevision := ACL_REVISION, AclSize := 92,
            Aces :=
              [{ AceType := ACCESS_ALLOWED_ACE_TYPE, AceFlags := 0, Mask := KEY_ALL_ACCESS, Sid := LocalSystemSid }] }
          ACL_REVISION KEY_ALL_ACCESS AdministratorsSid) then
        if NT_SUCCESS
            (renv.RtlAddAccessAllowedAce
            { AclRevision := ACL_REVISION, AclSize := 92,
              Aces :=
                [{ AceType := ACCESS_ALLOWED_ACE_TYPE, AceFlags := 0, Mask := KEY_ALL_ACCESS, Sid := LocalSystemSid },
                 { AceType := ACCESS_ALLOWED_ACE_TYPE, AceFlags := 0, Mask := KEY_ALL_ACCESS, Sid := AdministratorsSid }] }
            ACL_REVISION KEY_READ WorldSid) then
          if NT_SUCCESS
              (renv.RtlAddAccessAllowedAce
              { AclRevision := ACL_REVISION, AclSize := 92,
                Aces :=
                  [{ AceType := ACCESS_ALLOWED_ACE_TYPE, AceFlags := 0, Mask := KEY_ALL_ACCESS, Sid := LocalSystemSid },
                   { AceType := ACCESS_ALLOWED_ACE_TYPE, AceFlags := 0, Mask := KEY_ALL_ACCESS, Sid := AdministratorsSid },
                   { AceType := ACCESS_ALLOWED_ACE_TYPE, AceFlags := 0, Mask := KEY_READ, Sid := WorldSid }] }
              ACL_REVISION KEY_READ RestrictedCodeSid) then
            (renv.RtlAddAccessAllowedAce
              { AclRevision := ACL_REVISION, AclSize := 92,
                Aces :=
                  [{ AceType := ACCESS_ALLOWED_ACE_TYPE, AceFlags := 0, Mask := KEY_ALL_ACCESS, Sid := LocalSystemSid },
                   { AceType := ACCESS_ALLOWED_ACE_TYPE, AceFlags := 0, Mask := KEY_ALL_ACCESS, Sid := AdministratorsSid },
                   { AceType := ACCESS_ALLOWED_ACE_TYPE, AceFlags := 0, Mask := KEY_READ, Sid := WorldSid }] }
              ACL_REVISION KEY_READ RestrictedCodeSid,
             { AclRevision := ACL_REVISION, AclSize := 92,
               Aces :=
                 [{ AceType := ACCESS_ALLOWED_ACE_TYPE, AceFlags := 0, Mask := KEY_ALL_ACCESS, Sid := LocalSystemSid },
                  { AceType := ACCESS_ALLOWED_ACE_TYPE, AceFlags := 0, Mask := KEY_ALL_ACCESS, Sid := AdministratorsSid },
                  { AceType := ACCESS_ALLOWED_ACE_TYPE, AceFlags := 0, Mask := KEY_READ, Sid := WorldSid },
                  { AceType := ACCESS_ALLOWED_ACE_TYPE, AceFlags := 0, Mask := KEY_READ, Sid := RestrictedCodeSid }] })
          else
            (renv.RtlAddAccessAllowedAce
              { AclRevision := ACL_REVISION, AclSize := 92,
                Aces :=
                  [{ AceType := ACCESS_ALLOWED_ACE_TYPE, AceFlags := 0, Mask := KEY_ALL_ACCESS, Sid := LocalSystemSid },
                   { AceType := ACCESS_ALLOWED_ACE_TYPE, AceFlags := 0, Mask := KEY_ALL_ACCESS, Sid := AdministratorsSid },
                   { AceType := ACCESS_ALLOWED_ACE_TYPE, AceFlags := 0, Mask := KEY_READ, Sid := WorldSid }] }
              ACL_REVISION KEY_READ RestrictedCodeSid,
             { AclRevision := ACL_REVISION, AclSize := 92,
               Aces :=
                 [{ AceType := ACCESS_ALLOWED_ACE_TYPE, AceFlags := 0, Mask := KEY_ALL_ACCESS, Sid := LocalSystemSid },
                  { AceType := ACCESS_ALLOWED_ACE_TYPE, AceFlags := 0, Mask := KEY_ALL_ACCESS, Sid := AdministratorsSid },
                  { AceType := ACCESS_ALLOWED_ACE_TYPE, AceFlags := 0, Mask := KEY_READ, Sid := WorldSid }] })
        else
          (renv.RtlAddAccessAllowedAce
            { AclRevision := ACL_REVISION, AclSize := 92,
              Aces :=
                [{ AceType := ACCESS_ALLOWED_ACE_TYPE, AceFlags := 0, Mask := KEY_ALL_ACCESS, Sid := LocalSystemSid },
                 { AceType := ACCESS_ALLOWED_ACE_TYPE, AceFlags := 0, Mask := KEY_ALL_ACCESS, Sid := AdministratorsSid }] }
            ACL_REVISION KEY_READ WorldSid,
           { AclRevision := ACL_REVISION, AclSize := 92,
             Aces :=
               [{ AceType := ACCESS_ALLOWED_ACE_TYPE, AceFlags := 0, Mask := KEY_ALL_ACCESS, Sid := LocalSystemSid },
                { AceType := ACCESS_ALLOWED_ACE_TYPE, AceFlags := 0, Mask := KEY_ALL_ACCESS, Sid := AdministratorsSid }] })
      else
        (renv.RtlAddAccessAllowedAce
          { AclRevision := ACL_REVISION, AclSize := 92,
            Aces :=
              [{ AceType := ACCESS_ALLOWED_ACE_TYPE, AceFlags := 0, Mask := KEY_ALL_ACCESS, Sid := LocalSystemSid }] }
          ACL_REVISION KEY_ALL_ACCESS AdministratorsSid,
         { AclRevision := ACL_REVISION, AclSize := 92,
           Aces :=
             [{ AceType := ACCESS_ALLOWED_ACE_TYPE, AceFlags := 0, Mask := KEY_ALL_ACCESS, Sid := LocalSystemSid }] })
    else
      (renv.RtlAddAccessAllowedAce
        { AclRevision := ACL_REVISION, AclSize := 92, Aces := [] }
        ACL_REVISION KEY_ALL_ACCESS LocalSystemSid,
       { AclRevision := ACL_REVISION, AclSize := 92, Aces := [] }) := by
  simp only [RootAddAces, RtlAddAccessAllowedAce, List.nil_append, List.cons_append,
    List.singleton_append]
  generalize
      renv.RtlAddAccessAllowedAce
        { AclRevision := ACL_REVISION, AclSize := 92, Aces := [] }
        ACL_REVISION KEY_ALL_ACCESS LocalSystemSid = s1
  rcases Bool.eq_false_or_eq_true (NT_SUCCESS s1) with c1 | c1
  swap
  · simp only [c1, Bool.false_eq_true, if_false]
  simp only [c1, if_true, List.nil_append, List.cons_append, List.singleton_append]
  generalize
      renv.RtlAddAccessAllowedAce
        { AclRevision := ACL_REVISION, AclSize := 92,
          Aces :=
            [{ AceType := ACCESS_ALLOWED_ACE_TYPE, AceFlags := 0, Mask := KEY_ALL_ACCESS, Sid := LocalSystemSid }] }
        ACL_REVISION KEY_ALL_ACCESS AdministratorsSid = s2
  rcases Bool.eq_false_or_eq_true (NT_SUCCESS s2) with c2 | c2
  swap
  · simp only [c2, Bool.false_eq_true, if_false]
  simp only [c2, if_true, List.nil_append, List.cons_append, List.singleton_append]
  generalize
      renv.RtlAddAccessAllowedAce
        { AclRevision := ACL_REVISION, AclSize := 92,
          Aces :=
            [{ AceType := ACCESS_ALLOWED_ACE_TYPE, AceFlags := 0, Mask := KEY_ALL_ACCESS, Sid := LocalSystemSid },
             { AceType := ACCESS_ALLOWED_ACE_TYPE, AceFlags := 0, Mask := KEY_ALL_ACCESS, Sid := AdministratorsSid }] }
        ACL_REVISION KEY_READ WorldSid = s3
  rcases Bool.eq_false_or_eq_true (NT_SUCCESS s3) with c3 | c3
  swap
  · simp only [c3, Bool.false_eq_true, if_false]
  simp only [c3, if_true, List.nil_append, List.cons_append, List.singleton_append]

/-! ## Ring links under insertion and unlinking -/

/-- A successful insert found the new cell mapped. -/
theorem CmpInsertSecurityCellList_live (env : Env) (H : CMHIVE) (n c : HCELL_INDEX)
    (hok : (CmpInsertSecurityCellList env H n c).1 = true) :
    ∃ X, cmGet H.SecurityCells c = some X := by
  cases h1 : HvGetCellSecurity env H c with
  | none =>
    have : CmpInsertSecurityCellList env H n c = (false, H) := by
      simp [CmpInsertSecurityCellList, h1]
    rw [this] at hok
    cases hok
  | some X => exact ⟨X, (HvGetCellSecurity_eq_some _ _ _ _ h1).2⟩

/-- A successful insert of a new cell into a ring whose links are consistent
leaves the links consistent: the cell alone, or spliced in after the security
cell of the parent node. -/
theorem CmpInsertSecurityCellList_ring (env : Env) (H : CMHIVE) (n c : HCELL_INDEX)
    (hold : LinkedRing (LinksOf (cmErase H.SecurityCells c)))
    (hpar : ∀ Node ParentNode, cmGet H.KeyNodes n = some Node →
      cmGet H.KeyNodes Node.Parent = some ParentNode → ParentNode.Security ≠ c)
    (hok : (CmpInsertSecurityCellList env H n c).1 = true) :
    RingLinked (CmpInsertSecurityCellList env H n c).2 := by
  obtain ⟨X, hX⟩ := CmpInsertSecurityCellList_live env H n c hok
  have hLc : LinksOf (cmErase H.SecurityCells c) c = none := by
    simp [LinksOf, cmGet_cmErase]
  have hLk : ∀ k, k ≠ c → LinksOf (cmErase H.SecurityCells c) k = LinksOf H.SecurityCells k := by
    intro k hk
    simp [LinksOf, cmGet_cmErase, hk]
  rw [RingLinked_iff]
  rcases CmpInsertSecurityCellList_cases env H n c with
    ⟨hf, _⟩ | ⟨_, hi⟩ | ⟨Node, ParentNode, BlinkCell, FlinkCell, _, hN, _, hPN, hB, hF, _, _, hi⟩
  · rw [hf] at hok
    cases hok
  · rw [hi]
    refine LinkedRing_single _ _ c hold hLc (fun k => ?_)
    simp only [CmpInsertSecurityCellListCache_SecurityCells, WriteSecurity_SecurityCells]
    by_cases hk : k = c
    · subst hk
      simp [LinksOf, cmGet_cmModify, hX]
    · rw [if_neg hk, hLk k hk]
      simp [LinksOf, cmGet_cmModify, hk]
  · have hPc : ParentNode.Security ≠ c := hpar Node ParentNode hN hPN
    have hLp : LinksOf (cmErase H.SecurityCells c) ParentNode.Security =
        some (BlinkCell.Flink, BlinkCell.Blink) := by
      rw [hLk _ hPc]
      simp [LinksOf, hB]
    obtain ⟨⟨x, hx⟩, _⟩ := hold _ _ _ hLp
    have hFc : BlinkCell.Flink ≠ c := by
      intro e
      rw [e, hLc] at hx
      cases hx
    have hFb : FlinkCell.Blink = ParentNode.Security := by
      rw [hLk _ hFc] at hx
      simp [LinksOf, hF] at hx
      exact hx.2
    rw [hi]
    refine LinkedRing_splice _ _ c ParentNode.Security BlinkCell.Flink BlinkCell.Blink hold hLc
      hLp (fun k => ?_)
    simp only [CmpInsertSecurityCellListCache_SecurityCells, WriteSecurity_SecurityCells,
      Dirtied_SecurityCells]
    have hcP : ¬ c = ParentNode.Security := fun e => hPc e.symm
    have hcF : ¬ c = BlinkCell.Flink := fun e => hFc e.symm
    by_cases hk : k = c
    · subst hk
      simp [LinksOf, cmGet_cmModify, hX, hcP, hcF, hFb]
    · rw [if_neg hk, hLk k hk]
      unfold LinksOf
      by_cases hkP : k = ParentNode.Security
      · subst hkP
        by_cases hkF : ParentNode.Security = BlinkCell.Flink
        · simp [cmGet_cmModify, hk, ← hkF, hB]
        · simp [cmGet_cmModify, hk, hkF, hB]
      · by_cases hkF : k = BlinkCell.Flink
        · subst hkF
          simp [cmGet_cmModify, hk, hkP, hF]
        · cases hx : cmGet H.SecurityCells k <;> simp [cmGet_cmModify, hk, hkP, hkF, hx]

/-- Unlinking a cell whose neighbours can be mapped and freeing it leaves the
links consistent. -/
theorem unlink_free_ring (env : Env) (H : CMHIVE) (c : HCELL_INDEX) (S : CM_KEY_SECURITY)
    (hring : RingLinked H) (hS : cmGet H.SecurityCells c = some S)
    (hmS : env.MapOk c = true) (hmF : env.MapOk S.Flink = true)
    (hmB : env.MapOk S.Blink = true) :
    RingLinked (HvFreeCell (CmpRemoveSecurityCellList env H c) c) := by
  obtain ⟨⟨F, hF, _⟩, ⟨B, hB, _⟩⟩ := hring c S hS
  rw [CmpRemoveSecurityCellList_of_mapped env H c S F B hS hF hB hmS hmF hmB, RingLinked_iff]
  refine LinkedRing_unlink _ _ c S.Flink S.Blink ((RingLinked_iff H).1 hring)
    (by simp [LinksOf, hS]) (fun k => ?_)
  simp only [HvFreeCell_SecurityCells, CmpRemoveFromSecurityCache_SecurityCells,
    WriteSecurity_SecurityCells]
  unfold LinksOf
  simp only [cmGet_cmErase, cmGet_unlink]
  by_cases hkS : k = c
  · simp [hkS]
  · cases hk : cmGet H.SecurityCells k <;> simp [hkS, hk]

/-! ## Dirty marks before writes -/

theorem Tracked_start (H : CMHIVE) : Tracked H.Log H [] :=
  ⟨[], rfl, rfl, fun c hc => absurd hc (by simp)⟩

theorem Tracked_covered (Base : CMHIVE) (H : CMHIVE) (M : List HCELL_INDEX)
    (h : Tracked Base.Log H M) : WritesCovered Base H := by
  obtain ⟨New, h1, h2, _⟩ := h
  exact ⟨New, h1, h2⟩

theorem Tracked_weaken (B : List CellEvent) (H : CMHIVE) (M M2 : List HCELL_INDEX)
    (h : Tracked B H M) (hsub : ∀ c, c ∈ M2 → c ∈ M) : Tracked B H M2 := by
  obtain ⟨New, h1, h2, h3⟩ := h
  exact ⟨New, h1, h2, fun c hc => h3 c (hsub c hc)⟩

theorem Tracked_log (B : List CellEvent) (H H2 : CMHIVE) (M : List HCELL_INDEX)
    (h : Tracked B H M) (hlog : H2.Log = H.Log) : Tracked B H2 M := by
  obtain ⟨New, h1, h2, h3⟩ := h
  exact ⟨New, hlog.trans h1, h2, h3⟩

theorem Tracked_event (B : List CellEvent) (H H2 : CMHIVE) (M : List HCELL_INDEX)
    (e : CellEvent) (h : Tracked B H M) (hlog : H2.Log = e :: H.Log)
    (he : ∀ c, e = CellEvent.Write c → c ∈ M) : Tracked B H2 M := by
  obtain ⟨New, h1, h2, h3⟩ := h
  refine ⟨e :: New, by rw [hlog, h1]; rfl, ?_, fun c hc => ?_⟩
  · cases e with
    | Write c =>
      have hm := h3 c (he c rfl)
      simp only [DirtyBeforeWrite, h2, Bool.and_true, Bool.or_eq_true, decide_eq_true_eq]
      exact hm
    | Dirty c => exact h2
    | Allocate c => exact h2
    | Free c => exact h2
  · rcases h3 c hc with h | h
    · exact Or.inl (List.mem_cons_of_mem _ h)
    · exact Or.inr (List.mem_cons_of_mem _ h)

theorem Tracked_mark (B : List CellEvent) (H H2 : CMHIVE) (M : List HCELL_INDEX)
    (c : HCELL_INDEX) (h : Tracked B H M)
    (hlog : H2.Log = CellEvent.Dirty c :: H.Log ∨ H2.Log = CellEvent.Allocate c :: H.Log) :
    Tracked B H2 (c :: M) := by
  obtain ⟨New, h1, h2, h3⟩ := h
  rcases hlog with hlog | hlog
  · refine ⟨CellEvent.Dirty c :: New, by rw [hlog, h1]; rfl, h2, fun x hx => ?_⟩
    rcases List.mem_cons.1 hx with rfl | hx
    · exact Or.inl (List.mem_cons_self _ _)
    · rcases h3 x hx with h | h
      · exact Or.inl (List.mem_cons_of_mem _ h)
      · exact Or.inr (List.mem_cons_of_mem _ h)
  · refine ⟨CellEvent.Allocate c :: New, by rw [hlog, h1]; rfl, h2, fun x hx => ?_⟩
    rcases List.mem_cons.1 hx with rfl | hx
    · exact Or.inr (List.mem_cons_self _ _)
    · rcases h3 x hx with h | h
      · exact Or.inl (List.mem_cons_of_mem _ h)
      · exact Or.inr (List.mem_cons_of_mem _ h)

theorem Tracked_dirty (env : Env) (B : List CellEvent) (H H1 : CMHIVE) (M : List HCELL_INDEX)
    (c : HCELL_INDEX) (h : Tracked B H M) (hd : HvMarkCellDirty env H c = some H1) :
    Tracked B H1 (c :: M) := by
  unfold HvMarkCellDirty at hd
  split at hd
  · cases hd
    exact Tracked_mark B H _ M c h (Or.inl rfl)
  · cases hd

theorem Tracked_WriteSecurity (B : List CellEvent) (H : CMHIVE) (M : List HCELL_INDEX)
    (c : HCELL_INDEX) (f : CM_KEY_SECURITY → CM_KEY_SECURITY) (h : Tracked B H M)
    (hc : c ∈ M) : Tracked B (WriteSecurity H c f) M :=
  Tracked_event B H _ M (CellEvent.Write c) h rfl (fun x hx => by cases hx; exact hc)

theorem Tracked_WriteNode (B : List CellEvent) (H : CMHIVE) (M : List HCELL_INDEX)
    (c : HCELL_INDEX) (f : CM_KEY_NODE → CM_KEY_NODE) (h : Tracked B H M)
    (hc : c ∈ M) : Tracked B (WriteNode H c f) M :=
  Tracked_event B H _ M (CellEvent.Write c) h rfl (fun x hx => by cases hx; exact hc)

theorem Tracked_HvFreeCell (B : List CellEvent) (H : CMHIVE) (M : List HCELL_INDEX)
    (c : HCELL_INDEX) (h : Tracked B H M) : Tracked B (HvFreeCell H c) M :=
  Tracked_event B H _ M (CellEvent.Free c) h rfl (fun x hx => by cases hx)

theorem Tracked_HvAllocateCell (env : Env) (B : List CellEvent) (H : CMHIVE)
    (M : List HCELL_INDEX) (sz t : Nat) (h : Tracked B H M) :
    Tracked B (HvAllocateCell env H sz t).2 M ∧
      ((HvAllocateCell env H sz t).1 ≠ HCELL_NIL →
        Tracked B (HvAllocateCell env H sz t).2 ((HvAllocateCell env H sz t).1 :: M)) := by
  unfold HvAllocateCell
  split
  · have key := Tracked_mark B H
      { H with
        SecurityCells :=
          (env.AllocIndex sz t,
            { Signature := 0, Flink := 0, Blink := 0, ReferenceCount := 0, DescriptorLength := 0,
              Descriptor := List.replicate (sz - CM_KEY_SECURITY_HEADER) 0 })
            :: H.SecurityCells,
        Log := CellEvent.Allocate (env.AllocIndex sz t) :: H.Log } M (env.AllocIndex sz t) h
      (Or.inr rfl)
    exact ⟨Tracked_weaken _ _ _ _ key (fun c hc => List.mem_cons_of_mem _ hc), fun _ => key⟩
  · exact ⟨h, fun hne => absurd rfl hne⟩

theorem Tracked_HvReallocateCell (env : Env) (B : List CellEvent) (H : CMHIVE)
    (M : List HCELL_INDEX) (c : HCELL_INDEX) (sz : Nat) (h : Tracked B H M) :
    Tracked B (HvReallocateCell env H c sz).2 M ∧
      ((HvReallocateCell env H c sz).1 ≠ HCELL_NIL →
        Tracked B (HvReallocateCell env H c sz).2 ((HvReallocateCell env H c sz).1 :: M)) := by
  unfold HvReallocateCell
  split
  · exact ⟨h, fun hne => absurd rfl hne⟩
  · rename_i Old hOld
    split
    · have h1 : Tracked B (HvFreeCell H c) M := Tracked_HvFreeCell B H M c h
      have key := Tracked_mark B (HvFreeCell H c)
        { H with
          SecurityCells :=
            (env.ReallocIndex c sz,
              { Old with Descriptor :=
                  ResizeStorage Old.Descriptor (sz - CM_KEY_SECURITY_HEADER) })
              :: cmErase H.SecurityCells c,
          Log := CellEvent.Allocate (env.ReallocIndex c sz) :: CellEvent.Free c :: H.Log }
        M (env.ReallocIndex c sz) h1 (Or.inr rfl)
      exact ⟨Tracked_weaken _ _ _ _ key (fun c hc => List.mem_cons_of_mem _ hc), fun _ => key⟩
    · exact ⟨h, fun hne => absurd rfl hne⟩

theorem CmpAddSecurityCellToCache_Log (env : Env) (H : CMHIVE) (c : HCELL_INDEX) :
    (CmpAddSecurityCellToCache env H c).2.Log = H.Log := by
  unfold CmpAddSecurityCellToCache
  split
  · rfl
  · split <;> rfl

theorem Tracked_SetSecurityDone (env : Env) (B : List CellEvent) (H : CMHIVE)
    (M : List HCELL_INDEX) (Key : CM_KEY_CONTROL_BLOCK) (c : HCELL_INDEX)
    (h : Tracked B H M) (hK : Key.KeyCell ∈ M) :
    Tracked B (SetSecurityDone env H Key c).Hive M := by
  have h1 := Tracked_WriteNode B H M Key.KeyCell
    (fun Node => { Node with LastWriteTime := env.SystemTime }) h hK
  unfold SetSecurityDone
  dsimp only
  split <;> exact h1

theorem Tracked_nil (B : List CellEvent) (H : CMHIVE) (M : List HCELL_INDEX)
    (h : Tracked B H M) : Tracked B H [] :=
  Tracked_weaken B H M [] h (fun c hc => absurd hc (by simp))

theorem Tracked_CmpRemoveSecurityCellList (env : Env) (B : List CellEvent) (H : CMHIVE)
    (M : List HCELL_INDEX) (c : HCELL_INDEX) (h : Tracked B H M)
    (hn : ∀ Cell, cmGet H.SecurityCells c = some Cell → Cell.Flink ∈ M ∧ Cell.Blink ∈ M) :
    Tracked B (CmpRemoveSecurityCellList env H c) M := by
  unfold CmpRemoveSecurityCellList
  cases hC : HvGetCellSecurity env H c with
  | none => exact h
  | some Cell =>
    obtain ⟨hF, hB⟩ := hn Cell (HvGetCellSecurity_eq_some _ _ _ _ hC).2
    dsimp only
    split
    · exact h
    · split
      · exact h
      · exact Tracked_log B
          (WriteSecurity
            (WriteSecurity H Cell.Flink (fun FlinkCell => { FlinkCell with Blink := Cell.Blink }))
            Cell.Blink (fun BlinkCell => { BlinkCell with Flink := Cell.Flink })) _ M
          (Tracked_WriteSecurity B _ M _ _ (Tracked_WriteSecurity B H M _ _ h hF) hB) rfl

theorem Tracked_SetSecurityRepoint (env : Env) (B : List CellEvent) (H : CMHIVE)
    (M : List HCELL_INDEX) (Key : CM_KEY_CONTROL_BLOCK) (Match : HCELL_INDEX)
    (h : Tracked B H M) (hK : Key.KeyCell ∈ M) (hM : Match ∈ M) :
    Tracked B (SetSecurityRepoint env H Key Match).Hive M := by
  unfold SetSecurityRepoint
  split
  · exact h
  · split
    · exact Tracked_SetSecurityDone env B _ M Key Match
        (Tracked_WriteNode B _ M _ _ (Tracked_WriteSecurity B H M _ _ h hM) hK) hK
    · exact h

theorem Tracked_SetSecurityShareExisting (env : Env) (B : List CellEvent) (H : CMHIVE)
    (M : List HCELL_INDEX) (Key : CM_KEY_CONTROL_BLOCK) (SecurityCell : HCELL_INDEX)
    (Security : CM_KEY_SECURITY) (Match : HCELL_INDEX)
    (h : Tracked B H M) (hK : Key.KeyCell ∈ M) (hS : SecurityCell ∈ M)
    (hcell : cmGet H.SecurityCells SecurityCell = some Security) :
    Tracked B (SetSecurityShareExisting env H Key SecurityCell Security Match).Hive [] := by
  unfold SetSecurityShareExisting
  cases hd1 : HvMarkCellDirty env H Match with
  | none => exact Tracked_nil B _ M h
  | some H1 =>
    have t1 := Tracked_dirty env B H H1 M Match h hd1
    have e1 := (HvMarkCellDirty_eq_some env H H1 Match hd1).2
    dsimp only
    split
    · cases hd2 : HvMarkCellDirty env H1 Security.Flink with
      | none => exact Tracked_nil B _ _ t1
      | some H2 =>
        have t2 := Tracked_dirty env B H1 H2 _ _ t1 hd2
        have e2 := (HvMarkCellDirty_eq_some env H1 H2 _ hd2).2
        dsimp only
        cases hd3 : HvMarkCellDirty env H2 Security.Blink with
        | none => exact Tracked_nil B _ _ t2
        | some H3 =>
          have t3 := Tracked_dirty env B H2 H3 _ _ t2 hd3
          have e3 := (HvMarkCellDirty_eq_some env H2 H3 _ hd3).2
          dsimp only
          have hcell3 : cmGet H3.SecurityCells SecurityCell = some Security := by
            rw [e3, e2, e1]
            exact hcell
          refine Tracked_nil B _ _ (Tracked_SetSecurityRepoint env B _ _ Key Match
            (Tracked_HvFreeCell B _ _ _
              (Tracked_CmpRemoveSecurityCellList env B H3 _ SecurityCell t3 ?_)) ?_ ?_)
          · intro Cell hC
            rw [hcell3] at hC
            cases hC
            simp
          · simp [hK]
          · simp
    · refine Tracked_nil B _ _ (Tracked_SetSecurityRepoint env B _ _ Key Match
        (Tracked_WriteSecurity B H1 _ SecurityCell _ t1 ?_) ?_ ?_)
      · simp [hS]
      · simp [hK]
      · simp

theorem Tracked_SetSecurityCopyOnWrite (env : Env) (B : List CellEvent) (H : CMHIVE)
    (M : List HCELL_INDEX) (Key : CM_KEY_CONTROL_BLOCK) (SecurityCell : HCELL_INDEX)
    (Security : CM_KEY_SECURITY) (D : List Nat)
    (h : Tracked B H M) (hK : Key.KeyCell ∈ M) (hS : SecurityCell ∈ M) :
    Tracked B (SetSecurityCopyOnWrite env H Key SecurityCell Security D).Hive [] := by
  unfold SetSecurityCopyOnWrite
  dsimp only
  obtain ⟨ta, tb⟩ := Tracked_HvAllocateCell env B H M (SECURITY_CELL_LENGTH D)
    (HvGetCellType Key.KeyCell) h
  generalize HvAllocateCell env H (SECURITY_CELL_LENGTH D) (HvGetCellType Key.KeyCell) = A
    at ta tb ⊢
  by_cases hnil : A.1 = HCELL_NIL
  · rw [if_pos hnil]
    exact Tracked_nil B _ _ ta
  · rw [if_neg hnil]
    have t0 := tb hnil
    cases hd1 : HvMarkCellDirty env A.2 Security.Flink with
    | none => exact Tracked_nil B _ _ ta
    | some H1 =>
      have t1 := Tracked_dirty env B A.2 H1 _ _ t0 hd1
      dsimp only
      have hN : A.1 ∈ Security.Flink :: A.1 :: M := by simp
      have hS1 : SecurityCell ∈ Security.Flink :: A.1 :: M := by simp [hS]
      have hK1 : Key.KeyCell ∈ Security.Flink :: A.1 :: M := by simp [hK]
      have hF1 : Security.Flink ∈ Security.Flink :: A.1 :: M := by simp
      have t2 := Tracked_WriteSecurity B H1 _ SecurityCell
        (fun S => { S with ReferenceCount := ULONG_DEC S.ReferenceCount }) t1 hS1
      split
      · exact Tracked_nil B _ _ t2
      · split
        · have t3 := Tracked_WriteSecurity B _ _ A.1
            (fun N => { N with Blink := SecurityCell, Flink := Security.Flink }) t2 hN
          split
          · exact Tracked_nil B _ _ t3
          · split
            · have t4 := Tracked_WriteSecurity B _ _ SecurityCell
                (fun S => { S with Flink := A.1 })
                (Tracked_WriteSecurity B _ _ Security.Flink
                  (fun F => { F with Blink := A.1 }) t3 hF1) hS1
              have t5 := Tracked_WriteSecurity B _ _ A.1
                (fun N =>
                  { N with
                    Signature := CM_KEY_SECURITY_SIGNATURE,
                    ReferenceCount := 1,
                    DescriptorLength := RtlLengthSecurityDescriptor D,
                    Descriptor := RtlCopyMemory N.Descriptor D
                      (RtlLengthSecurityDescriptor D) }) t4 hN
              have t6 := Tracked_log B _ _ _ t5 (CmpAddSecurityCellToCache_Log env _ A.1)
              split
              · exact Tracked_nil B _ _ (Tracked_SetSecurityDone env B _ _ Key A.1
                  (Tracked_WriteNode B _ _ Key.KeyCell _ t6 hK1) hK1)
              · exact Tracked_nil B _ _ t6
            · exact Tracked_nil B _ _ t3
        · exact Tracked_nil B _ _ t2

theorem Tracked_SetSecurityInPlace (env : Env) (B : List CellEvent) (H : CMHIVE)
    (M : List HCELL_INDEX) (Key : CM_KEY_CONTROL_BLOCK) (SecurityCell : HCELL_INDEX)
    (D : List Nat)
    (h : Tracked B H M) (hK : Key.KeyCell ∈ M) (hS : SecurityCell ∈ M) :
    Tracked B (SetSecurityInPlace env H Key SecurityCell D).Hive [] := by
  unfold SetSecurityInPlace
  split
  · exact Tracked_nil B _ _ h
  · dsimp only
    refine Tracked_nil B _ _ (Tracked_SetSecurityDone env B _ M Key SecurityCell
      (Tracked_log B _ _ M (Tracked_WriteSecurity B H M SecurityCell
        (fun S =>
          { S with Descriptor := RtlCopyMemory S.Descriptor D (RtlLengthSecurityDescriptor D) })
        h hS) rfl) hK)

theorem Tracked_SetSecurityFixFlink (env : Env) (B : List CellEvent) (H H4 : CMHIVE)
    (M : List HCELL_INDEX) (OldCell SecurityCell : HCELL_INDEX) (Security : CM_KEY_SECURITY)
    (h : Tracked B H M) (hN : SecurityCell ∈ M) (hF : Security.Flink ∈ M)
    (hfix : SetSecurityFixFlink env H OldCell SecurityCell Security = some H4) :
    Tracked B H4 M ∧
      ∀ S2, cmGet H4.SecurityCells SecurityCell = some S2 →
        S2.Blink = SecurityCell ∨
          ∃ S1, cmGet H.SecurityCells SecurityCell = some S1 ∧ S2.Blink = S1.Blink := by
  unfold SetSecurityFixFlink at hfix
  split at hfix
  · cases hfix
    refine ⟨Tracked_WriteSecurity B H M _ _ h hN, fun S2 hS2 => Or.inr ?_⟩
    simp only [WriteSecurity_SecurityCells, cmGet_cmModify, if_true] at hS2
    cases hx : cmGet H.SecurityCells SecurityCell with
    | none => simp [hx] at hS2
    | some S1 =>
      simp only [hx, Option.map_some', Option.some.injEq] at hS2
      exact ⟨S1, rfl, by rw [← hS2]⟩
  · split at hfix
    · cases hfix
    · split at hfix
      · cases hfix
        refine ⟨Tracked_WriteSecurity B H M _ _ h hF, fun S2 hS2 => ?_⟩
        simp only [WriteSecurity_SecurityCells, cmGet_cmModify] at hS2
        by_cases hk : SecurityCell = Security.Flink
        · rw [if_pos hk] at hS2
          obtain ⟨a, _, ha⟩ := Option.map_eq_some'.1 hS2
          exact Or.inl (by rw [← ha])
        · rw [if_neg hk] at hS2
          exact Or.inr ⟨S2, hS2, rfl⟩
      · cases hfix

theorem Tracked_SetSecurityFixBlink (env : Env) (B : List CellEvent) (H H5 : CMHIVE)
    (M : List HCELL_INDEX) (OldCell SecurityCell : HCELL_INDEX) (Security : CM_KEY_SECURITY)
    (h : Tracked B H M) (hN : SecurityCell ∈ M) (hB : Security.Blink ∈ M)
    (hfix : SetSecurityFixBlink env H OldCell SecurityCell Security = some H5) :
    Tracked B H5 M := by
  unfold SetSecurityFixBlink at hfix
  split at hfix
  · cases hfix
    exact Tracked_WriteSecurity B H M _ _ h hN
  · split at hfix
    · cases hfix
    · split at hfix
      · cases hfix
        exact Tracked_WriteSecurity B H M _ _ h hB
      · cases hfix

theorem Tracked_SetSecurityReallocate (env : Env) (B : List CellEvent) (H : CMHIVE)
    (M : List HCELL_INDEX) (Key : CM_KEY_CONTROL_BLOCK) (OldCell : HCELL_INDEX)
    (Security : CM_KEY_SECURITY) (D : List Nat)
    (h : Tracked B H M) (hK : Key.KeyCell ∈ M)
    (hcell : cmGet H.SecurityCells OldCell = some Security) :
    Tracked B (SetSecurityReallocate env H Key OldCell Security D).Hive [] := by
  unfold SetSecurityReallocate
  cases hd1 : HvMarkCellDirty env H Security.Flink with
  | none => exact Tracked_nil B _ _ h
  | some H1 =>
    have t1 := Tracked_dirty env B H H1 _ _ h hd1
    have e1 := (HvMarkCellDirty_eq_some env H H1 _ hd1).2
    dsimp only
    cases hd2 : HvMarkCellDirty env H1 Security.Blink with
    | none => exact Tracked_nil B _ _ t1
    | some H2 =>
      have t2 := Tracked_dirty env B H1 H2 _ _ t1 hd2
      have e2 := (HvMarkCellDirty_eq_some env H1 H2 _ hd2).2
      have hcell2 : cmGet H2.SecurityCells OldCell = some Security := by
        rw [e2, e1]
        exact hcell
      dsimp only
      obtain ⟨ta, tb⟩ := Tracked_HvReallocateCell env B H2 _ OldCell (SECURITY_CELL_LENGTH D) t2
      have hR : ∀ S1, (HvReallocateCell env H2 OldCell (SECURITY_CELL_LENGTH D)).1 ≠ HCELL_NIL →
          cmGet (HvReallocateCell env H2 OldCell (SECURITY_CELL_LENGTH D)).2.SecurityCells
            (HvReallocateCell env H2 OldCell (SECURITY_CELL_LENGTH D)).1 = some S1 →
          S1.Flink = Security.Flink ∧ S1.Blink = Security.Blink := by
        intro S1 hne hS1
        unfold HvReallocateCell at hne hS1
        simp only [hcell2] at hne hS1
        split at hS1
        · simp only [cmGet_cons, if_true, Option.some.injEq] at hS1
          rw [← hS1]
          exact ⟨rfl, rfl⟩
        · rename_i hno
          rw [if_neg hno] at hne
          exact absurd rfl hne
      generalize HvReallocateCell env H2 OldCell (SECURITY_CELL_LENGTH D) = R at ta tb hR ⊢
      by_cases hnil : R.1 = HCELL_NIL
      · rw [if_pos hnil]
        exact Tracked_nil B _ _ ta
      · rw [if_neg hnil]
        have t3 := tb hnil
        have hN : R.1 ∈ R.1 :: Security.Blink :: Security.Flink :: M := by simp
        have hK3 : Key.KeyCell ∈ R.1 :: Security.Blink :: Security.Flink :: M := by simp [hK]
        have t4 := Tracked_WriteNode B (CmpRemoveFromSecurityCache R.2 OldCell) _ Key.KeyCell
          (fun Node => { Node with Security := R.1 }) (Tracked_log B R.2 _ _ t3 rfl) hK3
        cases hS1 : HvGetCellSecurity env
            (WriteNode (CmpRemoveFromSecurityCache R.2 OldCell) Key.KeyCell
              (fun Node => { Node with Security := R.1 })) R.1 with
        | none => exact Tracked_nil B _ _ t4
        | some Security1 =>
          have hS1c := (HvGetCellSecurity_eq_some _ _ _ _ hS1).2
          obtain ⟨hf1, hb1⟩ := hR Security1 hnil hS1c
          dsimp only
          split
          · cases hfix : SetSecurityFixFlink env
                (WriteNode (CmpRemoveFromSecurityCache R.2 OldCell) Key.KeyCell
                  (fun Node => { Node with Security := R.1 })) OldCell R.1 Security1 with
            | none => exact Tracked_nil B _ _ t4
            | some H4 =>
              obtain ⟨t5, hS2⟩ := Tracked_SetSecurityFixFlink env B _ H4 _ OldCell R.1 Security1
                t4 hN (by rw [hf1]; simp) hfix
              dsimp only
              cases hS2c : cmGet H4.SecurityCells R.1 with
              | none => exact Tracked_nil B _ _ t5
              | some Security2 =>
                dsimp only
                have hB2 : Security2.Blink ∈ R.1 :: Security.Blink :: Security.Flink :: M := by
                  rcases hS2 Security2 hS2c with e | ⟨S1, hS1x, e⟩
                  · rw [e]
                    simp
                  · rw [hS1c] at hS1x
                    cases hS1x
                    rw [e, hb1]
                    simp
                cases hfix2 : SetSecurityFixBlink env H4 OldCell R.1 Security2 with
                | none => exact Tracked_nil B _ _ t5
                | some H5 =>
                  have t6 := Tracked_SetSecurityFixBlink env B H4 H5 _ OldCell R.1 Security2 t5
                    hN hB2 hfix2
                  dsimp only
                  have t7 := Tracked_WriteSecurity B _ _ R.1
                    (fun S =>
                      { S with
                        Descriptor := RtlCopyMemory S.Descriptor D
                          (RtlLengthSecurityDescriptor D) })
                    (Tracked_WriteSecurity B H5 _ R.1
                      (fun S => { S with DescriptorLength := RtlLengthSecurityDescriptor D })
                      t6 hN) hN
                  have t8 := Tracked_log B _ _ _ t7 (CmpAddSecurityCellToCache_Log env _ R.1)
                  split
                  · exact Tracked_nil B _ _ (Tracked_SetSecurityDone env B _ _ Key R.1 t8 hK3)
                  · exact Tracked_nil B _ _ t8
          · exact Tracked_nil B _ _ t4

theorem Tracked_SetSecurityStore (env : Env) (B : List CellEvent) (H : CMHIVE)
    (M : List HCELL_INDEX) (Key : CM_KEY_CONTROL_BLOCK) (SecurityCell : HCELL_INDEX)
    (Security : CM_KEY_SECURITY) (D : List Nat)
    (h : Tracked B H M) (hK : Key.KeyCell ∈ M) (hS : SecurityCell ∈ M)
    (hcell : cmGet H.SecurityCells SecurityCell = some Security) :
    Tracked B (SetSecurityStore env H Key SecurityCell Security D).Hive [] := by
  unfold SetSecurityStore
  split
  · split
    · exact Tracked_nil B _ _ (Tracked_WriteNode B H M _ _ h hK)
    · exact Tracked_SetSecurityShareExisting env B H M Key SecurityCell Security _ h hK hS hcell
  · split
    · exact Tracked_SetSecurityCopyOnWrite env B H M Key SecurityCell Security D h hK hS
    · split
      · exact Tracked_SetSecurityReallocate env B H M Key SecurityCell Security D h hK hcell
      · exact Tracked_SetSecurityInPlace env B H M Key SecurityCell D h hK hS

/-- Every exit of the set routine leaves the writes it made covered. -/
theorem Tracked_CmpSetSecurityDescriptorInfo (env : Env) (H : CMHIVE)
    (Key : CM_KEY_CONTROL_BLOCK) (info : Nat) (md : List Nat) :
    Tracked H.Log (CmpSetSecurityDescriptorInfo env H Key info md).Hive [] := by
  have h0 := Tracked_start H
  unfold CmpSetSecurityDescriptorInfo
  cases hn : HvGetCellNode env H Key.KeyCell with
  | none => exact h0
  | some Node =>
    dsimp only
    split
    · cases hs : CmpGetKeySecurity env H Node with
      | none => exact h0
      | some p =>
        obtain ⟨Security, SecurityCell⟩ := p
        have hcell : cmGet H.SecurityCells SecurityCell = some Security := by
          unfold CmpGetKeySecurity at hs
          cases hx : HvGetCellSecurity env H Node.Security with
          | none => simp [hx] at hs
          | some S =>
            simp only [hx, Option.some.injEq, Prod.mk.injEq] at hs
            rw [← hs.1, ← hs.2]
            exact (HvGetCellSecurity_eq_some _ _ _ _ hx).2
        dsimp only
        split
        · split
          · cases hd1 : HvMarkCellDirty env H Key.KeyCell with
            | none => exact h0
            | some H1 =>
              have t1 := Tracked_dirty env H.Log H H1 _ _ h0 hd1
              have e1 := (HvMarkCellDirty_eq_some env H H1 _ hd1).2
              dsimp only
              cases hd2 : HvMarkCellDirty env H1 SecurityCell with
              | none => exact Tracked_nil _ _ _ t1
              | some H2 =>
                have t2 := Tracked_dirty env H.Log H1 H2 _ _ t1 hd2
                have e2 := (HvMarkCellDirty_eq_some env H1 H2 _ hd2).2
                dsimp only
                refine Tracked_SetSecurityStore env H.Log H2 _ Key SecurityCell Security _ t2
                  (by simp) (by simp) ?_
                rw [e2, e1]
                exact hcell
          · exact h0
        · exact h0
    · exact h0

/-- The log after `CmpInsertSecurityCellList`: as it was or with one dirty mark
more when the routine fails before its writes; otherwise that of one of the two
ways of linking the cell. -/
theorem CmpInsertSecurityCellList_log_cases (env : Env) (H : CMHIVE) (n c : HCELL_INDEX) :
    (CmpInsertSecurityCellList env H n c).2.Log = H.Log ∨
    (∃ p, (CmpInsertSecurityCellList env H n c).2.Log = CellEvent.Dirty p :: H.Log) ∨
    (CmpInsertSecurityCellList env H n c =
        CmpInsertSecurityCellListCache env
          (WriteSecurity H c (fun Cell => { Cell with Flink := c, Blink := c })) c) ∨
    (∃ ParentNode BlinkCell FlinkCell : CM_KEY_SECURITY,
      CmpInsertSecurityCellList env H n c =
        CmpInsertSecurityCellListCache env
          (WriteSecurity
            (WriteSecurity
              (WriteSecurity
                (WriteSecurity (Dirtied (Dirtied H ParentNode.Flink) BlinkCell.Flink) c
                  (fun Cell => { Cell with Flink := BlinkCell.Flink }))
                c (fun Cell => { Cell with Blink := FlinkCell.Blink }))
              ParentNode.Flink (fun Blink => { Blink with Flink := c }))
            BlinkCell.Flink (fun Flink => { Flink with Blink := c }))
          c) := by
  rcases CmpInsertSecurityCellList_cases env H n c with
    _ | ⟨_, hi⟩ | ⟨Node, ParentNode, BlinkCell, FlinkCell, _, _, _, _, _, _, _, _, hi⟩
  · cases h1 : HvGetCellSecurity env H c with
    | none => exact Or.inl (by simp [CmpInsertSecurityCellList, h1])
    | some X =>
    cases h2 : env.TrackOk c with
    | false => exact Or.inl (by simp [CmpInsertSecurityCellList, h1, h2])
    | true =>
    by_cases h3 : HvGetCellType c = Volatile
    · exact Or.inr (Or.inr (Or.inl (by simp [CmpInsertSecurityCellList, h1, h2, h3])))
    cases h4 : HvGetCellNode env H n with
    | none => exact Or.inl (by simp [CmpInsertSecurityCellList, h1, h2, h3, h4])
    | some Node =>
    cases h5 : env.TrackOk n with
    | false => exact Or.inl (by simp [CmpInsertSecurityCellList, h1, h2, h3, h4, h5])
    | true =>
    by_cases h6 : Node.Flags &&& KEY_HIVE_ENTRY = 0
    swap
    · exact Or.inr (Or.inr (Or.inl
        (by simp [CmpInsertSecurityCellList, h1, h2, h3, h4, h5, h6])))
    cases h7 : HvGetCellNode env H Node.Parent with
    | none => exact Or.inl (by simp [CmpInsertSecurityCellList, h1, h2, h3, h4, h5, h6, h7])
    | some ParentNode =>
    cases h8 : env.TrackOk Node.Parent with
    | false => exact Or.inl (by simp [CmpInsertSecurityCellList, h1, h2, h3, h4, h5, h6, h7, h8])
    | true =>
    cases h9 : HvGetCellSecurity env H ParentNode.Security with
    | none =>
      exact Or.inl (by simp [CmpInsertSecurityCellList, h1, h2, h3, h4, h5, h6, h7, h8, h9])
    | some BlinkCell =>
    cases h10 : env.TrackOk ParentNode.Security with
    | false =>
      exact Or.inl
        (by simp [CmpInsertSecurityCellList, h1, h2, h3, h4, h5, h6, h7, h8, h9, h10])
    | true =>
    cases h11 : HvGetCellSecurity env H BlinkCell.Flink with
    | none =>
      exact Or.inl
        (by simp [CmpInsertSecurityCellList, h1, h2, h3, h4, h5, h6, h7, h8, h9, h10, h11])
    | some FlinkCell =>
    cases h12 : env.TrackOk BlinkCell.Flink with
    | false =>
      exact Or.inl
        (by simp [CmpInsertSecurityCellList, h1, h2, h3, h4, h5, h6, h7, h8, h9, h10, h11, h12])
    | true =>
    cases h13 : env.DirtyOk ParentNode.Security with
    | false =>
      exact Or.inl
        (by simp [CmpInsertSecurityCellList, h1, h2, h3, h4, h5, h6, h7, h8, h9, h10, h11, h12,
          HvMarkCellDirty_of_not_ok _ _ _ h13])
    | true =>
    cases h14 : env.DirtyOk BlinkCell.Flink with
    | false =>
      refine Or.inr (Or.inl ⟨ParentNode.Security, ?_⟩)
      have : CmpInsertSecurityCellList env H n c = (false, Dirtied H ParentNode.Security) := by
        simp [CmpInsertSecurityCellList, h1, h2, h3, h4, h5, h6, h7, h8, h9, h10, h11, h12,
          HvMarkCellDirty_of_ok _ _ _ h13, HvMarkCellDirty_of_not_ok _ _ _ h14]
      rw [this]
      rfl
    | true =>
      refine Or.inr (Or.inr (Or.inr
        ⟨{ BlinkCell with Flink := ParentNode.Security }, BlinkCell, FlinkCell, ?_⟩))
      simp [CmpInsertSecurityCellList, h1, h2, h3, h4, h5, h6, h7, h8, h9, h10, h11, h12,
        HvMarkCellDirty_of_ok _ _ _ h13, HvMarkCellDirty_of_ok _ _ _ h14]
  · exact Or.inr (Or.inr (Or.inl hi))
  · exact Or.inr (Or.inr (Or.inr
      ⟨{ BlinkCell with Flink := ParentNode.Security }, BlinkCell, FlinkCell, hi⟩))

theorem Tracked_CmpInsertSecurityCellList (env : Env) (B : List CellEvent) (H : CMHIVE)
    (M : List HCELL_INDEX) (n c : HCELL_INDEX) (h : Tracked B H M) (hc : c ∈ M) :
    Tracked B (CmpInsertSecurityCellList env H n c).2 M := by
  have hcache : ∀ H2 : CMHIVE, Tracked B H2 M →
      Tracked B (CmpInsertSecurityCellListCache env H2 c).2 M := by
    intro H2 h2
    rw [CmpInsertSecurityCellListCache_snd]
    exact Tracked_log B _ _ _ h2 (CmpAddSecurityCellToCache_Log env _ c)
  rcases CmpInsertSecurityCellList_log_cases env H n c with
    hl | ⟨p, hl⟩ | hi | ⟨P, BlinkCell, FlinkCell, hi⟩
  · exact Tracked_log B H _ M h hl
  · exact Tracked_event B H _ M (CellEvent.Dirty p) h hl (fun x hx => by cases hx)
  · rw [hi]
    exact hcache _ (Tracked_WriteSecurity B H M c _ h hc)
  · rw [hi]
    have t1 : Tracked B (Dirtied H P.Flink) (P.Flink :: M) :=
      Tracked_mark B H _ M _ h (Or.inl rfl)
    have t2 : Tracked B (Dirtied (Dirtied H P.Flink) BlinkCell.Flink)
        (BlinkCell.Flink :: P.Flink :: M) :=
      Tracked_mark B _ _ _ _ t1 (Or.inl rfl)
    have hc2 : c ∈ BlinkCell.Flink :: P.Flink :: M := by simp [hc]
    have t3 := Tracked_WriteSecurity B _ _ BlinkCell.Flink
      (fun Flink => { Flink with Blink := c })
      (Tracked_WriteSecurity B _ _ P.Flink
        (fun Blink => { Blink with Flink := c })
        (Tracked_WriteSecurity B _ _ c
          (fun Cell => { Cell with Blink := FlinkCell.Blink })
          (Tracked_WriteSecurity B _ _ c
            (fun Cell => { Cell with Flink := BlinkCell.Flink }) t2 hc2)
          hc2)
        (by simp)) (by simp)
    rw [CmpInsertSecurityCellListCache_snd]
    exact Tracked_weaken B _ _ M
      (Tracked_log B _ _ _ t3 (CmpAddSecurityCellToCache_Log env _ c))
      (fun x hx => List.mem_cons_of_mem _ (List.mem_cons_of_mem _ hx))

/-- Every exit of the assign routine leaves the writes it made covered. -/
theorem Tracked_CmpAssignSecurityDescriptor (env : Env) (H : CMHIVE) (Cell : HCELL_INDEX)
    (D : List Nat) : Tracked H.Log (CmpAssignSecurityDescriptor env H Cell D).2 [] := by
  have h0 := Tracked_start H
  unfold CmpAssignSecurityDescriptor
  cases hd1 : HvMarkCellDirty env H Cell with
  | none => exact h0
  | some H1 =>
    have t1 := Tracked_dirty env H.Log H H1 _ _ h0 hd1
    dsimp only
    cases hm : CmpFindMatchingDescriptorCell env H1 D (HvGetCellType Cell) with
    | none =>
      dsimp only
      obtain ⟨ta, tb⟩ := Tracked_HvAllocateCell env H.Log H1 _ (SECURITY_CELL_LENGTH D)
        (HvGetCellType Cell) t1
      generalize HvAllocateCell env H1 (SECURITY_CELL_LENGTH D) (HvGetCellType Cell) = A
        at ta tb ⊢
      by_cases hnil : A.1 = HCELL_NIL
      · rw [if_pos hnil]
        exact Tracked_nil _ _ _ ta
      · rw [if_neg hnil]
        have t2 := tb hnil
        split
        · exact Tracked_nil _ _ _ (Tracked_HvFreeCell _ _ _ _ t2)
        · have t3 := Tracked_WriteSecurity H.Log A.2 _ A.1 (InitializeSecurityCell D) t2
            (List.mem_cons_self _ _)
          have t4 := Tracked_CmpInsertSecurityCellList env H.Log _ _ Cell A.1 t3
            (List.mem_cons_self _ _)
          split
          · exact Tracked_nil _ _ _
              (Tracked_WriteNode H.Log _ _ Cell _ t4
                (List.mem_cons_of_mem _ (List.mem_cons_self _ _)))
          · exact Tracked_nil _ _ _ (Tracked_HvFreeCell _ _ _ _ t4)
    | some SecurityCell =>
      dsimp only
      cases hd2 : HvMarkCellDirty env H1 SecurityCell with
      | none => exact Tracked_nil _ _ _ t1
      | some H2 =>
        have t2 := Tracked_dirty env H.Log H1 H2 _ _ t1 hd2
        dsimp only
        split
        · exact Tracked_nil _ _ _ t2
        · exact Tracked_nil _ _ _
            (Tracked_WriteNode H.Log _ _ Cell _
              (Tracked_WriteSecurity H.Log H2 _ SecurityCell _ t2 (List.mem_cons_self _ _))
              (List.mem_cons_of_mem _ (List.mem_cons_self _ _)))

/-- What a successful set leaves, branch by branch, in terms of the node
pointers, the cached security of the key control block and the shadows (length
and bytes) of the security cells.  `c1` is the cell of the node afterwards. -/
theorem set_shadow_cases (env : Env) (h : CMHIVE) (Key : CM_KEY_CONTROL_BLOCK)
    (info : Nat) (md : List Nat) (Node : CM_KEY_NODE) (S : CM_KEY_SECURITY) (D : List Nat)
    (hnode : cmGet h.KeyNodes Key.KeyCell = some Node)
    (hsec : cmGet h.SecurityCells Node.Security = some S)
    (hring : RingLinked h)
    (hD : (env.SeSetSecurityDescriptorInfo info md S.Descriptor).2 = D)
    (hok : (CmpSetSecurityDescriptorInfo env h Key info md).Status
      = Outcome.Returned STATUS_SUCCESS) :
    ∃ c1,
      SecurityOf (CmpSetSecurityDescriptorInfo env h Key info md).Hive Key.KeyCell = some c1 ∧
      (∀ k, k ≠ Key.KeyCell →
        cmGet (CmpSetSecurityDescriptorInfo env h Key info md).Hive.KeyNodes k =
          cmGet h.KeyNodes k) ∧
      ((CmpSetSecurityDescriptorInfo env h Key info md).Kcb.CachedSecurity = some c1 ∨
        (c1 = Node.Security ∧
          (CmpSetSecurityDescriptorInfo env h Key info md).Kcb.CachedSecurity =
            Key.CachedSecurity)) ∧
      ((CmpFindMatchingDescriptorCell env h D (HvGetCellType Key.KeyCell) = some c1 ∧
          ∀ k, ShadowOf (CmpSetSecurityDescriptorInfo env h Key info md).Hive.SecurityCells k =
            if k = Node.Security ∧ c1 ≠ Node.Security ∧ S.ReferenceCount = 1 then none
            else ShadowOf h.SecurityCells k) ∨
        (CmpFindMatchingDescriptorCell env h D (HvGetCellType Key.KeyCell) = none ∧
          1 < S.ReferenceCount ∧ cmGet h.SecurityCells c1 = none ∧
          HvGetCellType c1 = HvGetCellType Key.KeyCell ∧
          ∀ k, ShadowOf (CmpSetSecurityDescriptorInfo env h Key info md).Hive.SecurityCells k =
            if k = c1 then some (RtlLengthSecurityDescriptor D, D)
            else ShadowOf h.SecurityCells k) ∨
        (CmpFindMatchingDescriptorCell env h D (HvGetCellType Key.KeyCell) = none ∧
          ¬ 1 < S.ReferenceCount ∧ RtlLengthSecurityDescriptor D = S.DescriptorLength ∧
          c1 = Node.Security ∧
          ∀ k, ShadowOf (CmpSetSecurityDescriptorInfo env h Key info md).Hive.SecurityCells k =
            if k = Node.Security then
              some (S.DescriptorLength,
                RtlCopyMemory S.Descriptor D (RtlLengthSecurityDescriptor D))
            else ShadowOf h.SecurityCells k) ∨
        (CmpFindMatchingDescriptorCell env h D (HvGetCellType Key.KeyCell) = none ∧
          ¬ 1 < S.ReferenceCount ∧
          (c1 = Node.Security ∨
            (cmGet h.SecurityCells c1 = none ∧
              HvGetCellType c1 = HvGetCellType Node.Security)) ∧
          ∀ k, ShadowOf (CmpSetSecurityDescriptorInfo env h Key info md).Hive.SecurityCells k =
            if k = c1 then some (RtlLengthSecurityDescriptor D, D)
            else if k = Node.Security then none
            else ShadowOf h.SecurityCells k)) := by
  subst hD
  obtain ⟨Node', S', hnode', hsec', hmN, hmS0, hdN, hdS, heq⟩ :=
    CmpSetSecurityDescriptorInfo_of_success env h Key info md hok
  rw [hnode] at hnode'
  cases hnode'
  rw [hsec] at hsec'
  cases hsec'
  obtain ⟨⟨F, hflink, _⟩, ⟨B, hblink, _⟩⟩ := hring _ _ hsec
  have hnodes2 : ∀ (c : HCELL_INDEX) (k : HCELL_INDEX), k ≠ Key.KeyCell →
      cmGet (cmModify (cmModify h.KeyNodes Key.KeyCell
          (fun Node : CM_KEY_NODE => { Node with Security := c }))
        Key.KeyCell (fun Node => { Node with LastWriteTime := env.SystemTime })) k =
        cmGet h.KeyNodes k := by
    intro c k hk
    simp [cmGet_cmModify, hk]
  have hnode2 : ∀ (c : HCELL_INDEX),
      (cmGet (cmModify (cmModify h.KeyNodes Key.KeyCell
          (fun Node : CM_KEY_NODE => { Node with Security := c }))
        Key.KeyCell (fun Node => { Node with LastWriteTime := env.SystemTime }))
        Key.KeyCell).map CM_KEY_NODE.Security = some c := by
    intro c
    simp [cmGet_cmModify, hnode]
  cases hfind : CmpFindMatchingDescriptorCell env h
      (env.SeSetSecurityDescriptorInfo info md S.Descriptor).2 (HvGetCellType Key.KeyCell) with
  | some M =>
    by_cases hM : M = Node.Security
    · subst hM
      have hst : CmpSetSecurityDescriptorInfo env h Key info md =
          { Status := Outcome.Returned STATUS_SUCCESS,
            Hive := WriteNode (SetSecurityDirtied h Key Node.Security) Key.KeyCell
              (fun N => { N with LastWriteTime := env.SystemTime }),
            Kcb := { Key with KcbLastWriteTime := env.SystemTime } } := by
        rw [heq]
        simp [SetSecurityStore, hfind]
      rw [hst]
      refine ⟨Node.Security, ?_, ?_, Or.inr ⟨rfl, rfl⟩, Or.inl ⟨rfl, fun k => ?_⟩⟩
      · simp [SecurityOf, cmGet_cmModify, hnode]
      · intro k hk
        simp [cmGet_cmModify, hk]
      · simp
    · obtain ⟨hmS, hdFB, _, hHive, hKcb⟩ :=
        set_share_existing_effect env h Key info md Node S _ M hnode hsec rfl hfind hM hok
      refine ⟨M, ?_, ?_, Or.inl (by rw [hKcb]), Or.inl ⟨rfl, fun k => ?_⟩⟩
      · rw [hHive]
        simp only [SecurityOf, WriteNode_KeyNodes, WriteSecurity_KeyNodes,
          ShareExistingReleased_KeyNodes, SetSecurityDirtied_KeyNodes]
        exact hnode2 M
      · intro k hk
        rw [hHive]
        simp only [WriteNode_KeyNodes, WriteSecurity_KeyNodes,
          ShareExistingReleased_KeyNodes, SetSecurityDirtied_KeyNodes]
        exact hnodes2 M k hk
      · rw [hHive]
        simp only [WriteNode_SecurityCells, WriteSecurity_SecurityCells]
        rw [ShadowOf_cmModify_keep]
        have hcont := ShareExistingReleased_contents env
          (SetSecurityDirtied h Key Node.Security) Node.Security S M k
        simp only [SetSecurityDirtied_SecurityCells] at hcont
        have hsh : ∀ a b : List (HCELL_INDEX × CM_KEY_SECURITY),
            ShadowOf a k = ((cmGet a k).map CellContents).map (fun p => (p.2.1, p.2.2)) := by
          intro a b
          unfold ShadowOf
          cases cmGet a k <;> simp [CellContents]
        rw [hsh _ h.SecurityCells, hcont, hsh h.SecurityCells h.SecurityCells]
        by_cases hk : k = Node.Security
        · by_cases hrc : S.ReferenceCount = 1
          · simp [hk, hrc, hM]
          · subst hk
            simp [hrc, hsec, CellContents]
        · simp [hk]
  | none =>
    by_cases hrc : 1 < S.ReferenceCount
    · obtain ⟨N, hN⟩ : ∃ N, env.AllocIndex (SECURITY_CELL_LENGTH
          (env.SeSetSecurityDescriptorInfo info md S.Descriptor).2)
          (HvGetCellType Key.KeyCell) = N := ⟨_, rfl⟩
      obtain ⟨hfree, _, hNodes, hCells, hKcb⟩ :=
        set_copy_on_write_effect env h Key info md Node S F _ N hnode hsec hflink rfl hN
          hfind hrc hok
      obtain ⟨_, htype, hnone, _⟩ := CellIsFree_spec h _ _ hfree
      refine ⟨N, ?_, ?_, Or.inl (by rw [hKcb]),
        Or.inr (Or.inl ⟨rfl, hrc, hnone, htype, fun k => ?_⟩)⟩
      · rw [SecurityOf, hNodes]
        exact hnode2 N
      · intro k hk
        rw [hNodes]
        exact hnodes2 N k hk
      · rw [hCells]
        unfold ShadowOf
        rw [cmGet_CopyOnWriteCells _ _ _ S F _ hnone hsec hflink]
        by_cases hkN : k = N
        · simp [hkN]
        · cases hk : cmGet h.SecurityCells k <;> simp [hkN, hk]
    · by_cases hlen : RtlLengthSecurityDescriptor
          (env.SeSetSecurityDescriptorInfo info md S.Descriptor).2 = S.DescriptorLength
      · obtain ⟨_, hNodes, hCl, _, _, hKcb⟩ :=
          set_in_place_effect env h Key info md Node S _ hnode hsec rfl hfind hrc hlen hok
        refine ⟨Node.Security, ?_, ?_, Or.inl (by rw [hKcb]),
          Or.inr (Or.inr (Or.inl ⟨rfl, hrc, hlen, rfl, fun k => ?_⟩))⟩
        · rw [SecurityOf, hNodes]
          simp [cmGet_cmModify, hnode]
        · intro k hk
          rw [hNodes]
          simp [cmGet_cmModify, hk]
        · rw [hCl]
          unfold ShadowOf
          rw [cmGet_cmModify]
          by_cases hkS : k = Node.Security
          · subst hkS
            simp [hsec]
          · simp [hkS]
      · obtain ⟨New, hNew⟩ : ∃ New, env.ReallocIndex Node.Security (SECURITY_CELL_LENGTH
            (env.SeSetSecurityDescriptorInfo info md S.Descriptor).2) = New := ⟨_, rfl⟩
        obtain ⟨hnew, _, hNodes, hCells, hKcb⟩ :=
          set_reallocate_effect env h Key info md Node S F B _ New hnode hsec hflink hblink rfl
            hNew hfind hrc hlen hok
        have hnew' : New = Node.Security ∨ cmGet h.SecurityCells New = none := by
          rcases hnew with hn | hn
          · exact Or.inl hn
          · exact Or.inr (CellIsFree_spec h _ _ hn).2.2.1
        have hnew2 : New = Node.Security ∨
            (cmGet h.SecurityCells New = none ∧
              HvGetCellType New = HvGetCellType Node.Security) := by
          rcases hnew with hn | hn
          · exact Or.inl hn
          · exact Or.inr ⟨(CellIsFree_spec h _ _ hn).2.2.1, (CellIsFree_spec h _ _ hn).2.1⟩
        refine ⟨New, ?_, ?_, Or.inl (by rw [hKcb]),
          Or.inr (Or.inr (Or.inr ⟨rfl, hrc, hnew2, fun k => ?_⟩))⟩
        · rw [SecurityOf, hNodes]
          exact hnode2 New
        · intro k hk
          rw [hNodes]
          exact hnodes2 New k hk
        · rw [hCells]
          unfold ShadowOf
          rw [cmGet_ReallocatedCells _ _ _ S F B _ hsec hflink hblink hnew']
          by_cases hkN : k = New
          · simp [hkN]
          · by_cases hkO : k = Node.Security
            · simp [hkN, hkO]
            · cases hk : cmGet h.SecurityCells k <;> simp [hkN, hkO, hk]

/-- After a successful set on a store with a consistent cache, the cell of the
node holds the merged descriptor, with its length. -/
theorem set_shadow_of_node (env : Env) (h : CMHIVE) (Key : CM_KEY_CONTROL_BLOCK)
    (info : Nat) (md : List Nat) (Node : CM_KEY_NODE) (S : CM_KEY_SECURITY) (D : List Nat)
    (hnode : cmGet h.KeyNodes Key.KeyCell = some Node)
    (hsec : cmGet h.SecurityCells Node.Security = some S)
    (hcache : CacheConsistent h) (hring : RingLinked h)
    (hwf : S.Descriptor.length = S.DescriptorLength)
    (hD : (env.SeSetSecurityDescriptorInfo info md S.Descriptor).2 = D)
    (hok : (CmpSetSecurityDescriptorInfo env h Key info md).Status
      = Outcome.Returned STATUS_SUCCESS) :
    ∃ c1,
      SecurityOf (CmpSetSecurityDescriptorInfo env h Key info md).Hive Key.KeyCell = some c1 ∧
      ((CmpSetSecurityDescriptorInfo env h Key info md).Kcb.CachedSecurity = some c1 ∨
        (c1 = Node.Security ∧
          (CmpSetSecurityDescriptorInfo env h Key info md).Kcb.CachedSecurity =
            Key.CachedSecurity)) ∧
      ShadowOf (CmpSetSecurityDescriptorInfo env h Key info md).Hive.SecurityCells c1 =
        some (RtlLengthSecurityDescriptor D, D) := by
  obtain ⟨c1, hc1, _, hkcb, hcase⟩ :=
    set_shadow_cases env h Key info md Node S D hnode hsec hring hD hok
  refine ⟨c1, hc1, hkcb, ?_⟩
  rcases hcase with ⟨hfind, hsh⟩ | ⟨_, _, _, _, hsh⟩ | ⟨_, _, hlen, hc, hsh⟩ | ⟨_, _, _, hsh⟩
  · obtain ⟨e, he, _, _, helen, hedesc⟩ :=
      CmpFindMatchingDescriptorCell_some env h D _ c1 hfind
    have hC := (CacheConsistent_iff h).1 hcache c1
    rw [he] at hC
    rw [hsh c1, if_neg (fun hx => hx.2.1 hx.1)]
    cases hs : ShadowOf h.SecurityCells c1 with
    | none => simp [hs] at hC
    | some p =>
      simp only [hs, Option.map_some', Option.some.injEq, Prod.mk.injEq] at hC
      obtain ⟨p1, p2⟩ := p
      simp only at hC
      rw [← hC.2.1, ← hC.2.2, helen, hedesc]
  · rw [hsh c1, if_pos rfl]
  · rw [hsh c1, if_pos hc, ← hlen, RtlCopyMemory_exact _ _ (by
      rw [hwf, ← hlen]
      exact le_refl _)]
  · rw [hsh c1, if_pos rfl]

/-- A list with two distinct members has at least two elements. -/
theorem two_le_length_of_mem {α : Type} (l : List α) (x y : α) (hxy : x ≠ y)
    (hx : x ∈ l) (hy : y ∈ l) : 2 ≤ l.length := by
  match l, hx, hy with
  | [], hx, _ => simp at hx
  | [z], hx, hy =>
    simp only [List.mem_singleton] at hx hy
    exact absurd (hx.trans hy.symm) hxy
  | _ :: _ :: _, _, _ => simp

/-- Two distinct key nodes with one security cell make at least two references
to it. -/
theorem ReferencesTo_two (h : CMHIVE) (a b : HCELL_INDEX) (A B : CM_KEY_NODE) (hab : a ≠ b)
    (hA : cmGet h.KeyNodes a = some A) (hB : cmGet h.KeyNodes b = some B)
    (hs : B.Security = A.Security) : 2 ≤ ReferencesTo h A.Security := by
  unfold ReferencesTo
  rw [List.countP_eq_length_filter]
  apply two_le_length_of_mem _ (a, A) (b, B)
  · intro hc
    exact hab (congrArg Prod.fst hc)
  · exact List.mem_filter.2 ⟨cmGet_mem _ _ _ hA, by simp⟩
  · exact List.mem_filter.2 ⟨cmGet_mem _ _ _ hB, by simp [hs]⟩

/-- Uniqueness survives when cells only disappear. -/
theorem DescriptorsUnique_of_sub (h h1 : CMHIVE)
    (hsh : ∀ k, ShadowOf h1.SecurityCells k = ShadowOf h.SecurityCells k ∨
      ShadowOf h1.SecurityCells k = none)
    (huniq : DescriptorsUnique h) : DescriptorsUnique h1 := by
  intro a b p ha hb ht
  rcases hsh a with ea | ea
  · rcases hsh b with eb | eb
    · exact huniq a b p (ea ▸ ha) (eb ▸ hb) ht
    · rw [eb] at hb
      cases hb
  · rw [ea] at ha
    cases ha

/-- Uniqueness survives when one cell takes a descriptor that no cell of its
storage type held, and the other cells stay or disappear. -/
theorem DescriptorsUnique_of_new (h h1 : CMHIVE) (N : HCELL_INDEX) (p : Nat × List Nat)
    (hsh : ∀ k, k ≠ N → ShadowOf h1.SecurityCells k = ShadowOf h.SecurityCells k ∨
      ShadowOf h1.SecurityCells k = none)
    (hN : ShadowOf h1.SecurityCells N = some p)
    (hno : ∀ c, HvGetCellType c = HvGetCellType N → ShadowOf h.SecurityCells c ≠ some p)
    (huniq : DescriptorsUnique h) : DescriptorsUnique h1 := by
  have key : ∀ b q, b ≠ N → ShadowOf h1.SecurityCells N = some q →
      ShadowOf h1.SecurityCells b = some q → HvGetCellType b = HvGetCellType N → False := by
    intro b q hbN hq hb ht
    rw [hN] at hq
    cases hq
    rcases hsh b hbN with eb | eb
    · exact hno b ht (eb ▸ hb)
    · rw [eb] at hb
      cases hb
  intro a b q ha hb ht
  by_cases haN : a = N
  · by_cases hbN : b = N
    · rw [haN, hbN]
    · subst haN
      exact (key b q hbN ha hb ht.symm).elim
  · by_cases hbN : b = N
    · subst hbN
      exact (key a q haN hb ha ht).elim
    · rcases hsh a haN with ea | ea
      · rcases hsh b hbN with eb | eb
        · exact huniq a b q (ea ▸ ha) (eb ▸ hb) ht
        · rw [eb] at hb
          cases hb
      · rw [ea] at ha
        cases ha

/-- When the matching routine is exact and finds nothing, no live cell of the
type holds the descriptor. -/
theorem MatchingExact_none (env : Env) (h : CMHIVE) (D : List Nat) (t : Nat)
    (hmatch : MatchingExact env h) (hfind : CmpFindMatchingDescriptorCell env h D t = none)
    (c : HCELL_INDEX) (ht : HvGetCellType c = t) :
    ShadowOf h.SecurityCells c ≠ some (RtlLengthSecurityDescriptor D, D) := by
  intro hc
  have := (hmatch D t).2 ⟨c, ht, hc⟩
  rw [hfind] at this
  cases this

/-- What a successful assign leaves in the shadows of the security cells. -/
theorem assign_shadow_cases (env : Env) (h : CMHIVE) (Cell : HCELL_INDEX) (D : List Nat)
    (hok : (CmpAssignSecurityDescriptor env h Cell D).1 = STATUS_SUCCESS) :
    ((∃ M, CmpFindMatchingDescriptorCell env h D (HvGetCellType Cell) = some M) ∧
      ∀ k, ShadowOf (CmpAssignSecurityDescriptor env h Cell D).2.SecurityCells k =
        ShadowOf h.SecurityCells k) ∨
    (CmpFindMatchingDescriptorCell env h D (HvGetCellType Cell) = none ∧
      ∃ N, HvGetCellType N = HvGetCellType Cell ∧ cmGet h.SecurityCells N = none ∧
        ∀ k, ShadowOf (CmpAssignSecurityDescriptor env h Cell D).2.SecurityCells k =
          if k = N then some (RtlLengthSecurityDescriptor D, D)
          else ShadowOf h.SecurityCells k) := by
  obtain ⟨_, hcase⟩ := CmpAssignSecurityDescriptor_of_success env h Cell D hok
  rcases hcase with ⟨M, X, hfind, hX, _, _, heq⟩ | ⟨hfind, hfree, hins, heq⟩
  · left
    refine ⟨⟨M, hfind⟩, fun k => ?_⟩
    rw [heq]
    simp only [WriteNode_SecurityCells, WriteSecurity_SecurityCells, Dirtied_SecurityCells]
    rw [ShadowOf_cmModify_keep]
  · right
    refine ⟨hfind, ?_⟩
    obtain ⟨N, hN⟩ : ∃ N, env.AllocIndex (SECURITY_CELL_LENGTH D) (HvGetCellType Cell) = N :=
      ⟨_, rfl⟩
    rw [hN] at hfree hins heq
    obtain ⟨_, htype, hnone, _⟩ := CellIsFree_spec h _ _ hfree
    refine ⟨N, htype, hnone, fun k => ?_⟩
    have hcont := CmpInsertSecurityCellList_contents env
      (WriteSecurity (WithNewCell (Dirtied h Cell) N (SECURITY_CELL_LENGTH D)) N
        (InitializeSecurityCell D)) Cell N k
    rw [heq]
    simp only [WriteNode_SecurityCells]
    rw [ShadowOf_of_contents _ _ _ hcont]
    simp only [WriteSecurity_SecurityCells, WithNewCell_SecurityCells, Dirtied_SecurityCells]
    by_cases hk : k = N
    · subst hk
      have hexact : RtlCopyMemory
          (List.replicate (SECURITY_CELL_LENGTH D - CM_KEY_SECURITY_HEADER) 0) D
          D.length = D :=
        RtlCopyMemory_exact _ _ (by simp [SECURITY_CELL_LENGTH, RtlLengthSecurityDescriptor])
      simp [ShadowOf, cmGet_cmModify, cmGet_cons, InitializeSecurityCell, hexact,
        RtlLengthSecurityDescriptor]
    · have hk2 : ¬ N = k := fun e => hk e.symm
      rw [if_neg hk]
      unfold ShadowOf
      simp [cmGet_cmModify, cmGet_cons, hk, hk2]

/-- A release that could map its cells leaves every security cell with its
descriptor or frees it. -/
theorem free_shadow_cases (env : Env) (h : CMHIVE) (Cell : HCELL_INDEX)
    (hmapped : ReleaseMapped env h Cell = true) (k : HCELL_INDEX) :
    ShadowOf (CmpFreeSecurityDescriptor env h Cell).SecurityCells k =
        ShadowOf h.SecurityCells k ∨
      ShadowOf (CmpFreeSecurityDescriptor env h Cell).SecurityCells k = none := by
  obtain ⟨Node, S, _, hsec, hcase⟩ := CmpFreeSecurityDescriptor_of_mapped env h Cell hmapped
  rcases hcase with ⟨_, _, _, heq⟩ | ⟨_, heq⟩
  · rw [heq]
    simp only [WriteNode_SecurityCells, WriteSecurity_SecurityCells, HvFreeCell_SecurityCells,
      CmpRemoveFromSecurityCache_SecurityCells]
    rw [ShadowOf_cmErase, ShadowOf_cmModify_keep, ShadowOf_cmModify_keep]
    by_cases hkS : k = Node.Security
    · right
      simp [hkS]
    · left
      simp [hkS]
  · left
    rw [heq]
    simp only [WriteNode_SecurityCells, WriteSecurity_SecurityCells]
    rw [ShadowOf_cmModify_keep]

/-- Descriptor uniqueness from a check of the stored cells, pair by pair. -/
theorem DescriptorsUnique_of_forall_mem (h : CMHIVE)
    (hall : ∀ x ∈ h.SecurityCells, ∀ y ∈ h.SecurityCells,
      HvGetCellType x.1 = HvGetCellType y.1 →
      (x.2.DescriptorLength, x.2.Descriptor) = (y.2.DescriptorLength, y.2.Descriptor) →
      x.1 = y.1) : DescriptorsUnique h := by
  intro a b p ha hb ht
  unfold ShadowOf at ha hb
  cases hA : cmGet h.SecurityCells a with
  | none => simp [hA] at ha
  | some A =>
    cases hB : cmGet h.SecurityCells b with
    | none => simp [hB] at hb
    | some B =>
      simp only [hA, hB, Option.map_some', Option.some.injEq] at ha hb
      exact hall _ (cmGet_mem _ _ _ hA) _ (cmGet_mem _ _ _ hB) ht (ha.trans hb.symm)

/-- Typed references from a check of the stored key nodes, one by one. -/
theorem TypedReferences_of_forall_mem (h : CMHIVE)
    (hall : ∀ e ∈ h.KeyNodes, (cmGet h.SecurityCells e.2.Security).isSome = true →
      HvGetCellType e.2.Security = HvGetCellType e.1) : TypedReferences h := by
  intro k N S hN hS
  exact hall _ (cmGet_mem _ _ _ hN) (by simp [hS])

/-- Sized descriptors from a check of the stored cells, one by one. -/
theorem DescriptorsSized_of_forall_mem (h : CMHIVE)
    (hall : ∀ e ∈ h.SecurityCells, e.2.Descriptor.length = e.2.DescriptorLength) :
    DescriptorsSized h := by
  intro c S hS
  exact hall _ (cmGet_mem _ _ _ hS)

/-- In `ExampleHiveSplit` under `ExampleEnv` the matching routine is exact. -/
theorem MatchingExact_ExampleHiveSplit : MatchingExact ExampleEnv ExampleHiveSplit := by
  intro D t
  constructor
  · intro hs
    obtain ⟨M, hM⟩ := Option.isSome_iff_exists.1 hs
    obtain ⟨e, he, -, htype, hlen, hdesc⟩ :=
      CmpFindMatchingDescriptorCell_some ExampleEnv ExampleHiveSplit D t M hM
    have hmem := cmGet_mem _ _ _ he
    simp only [ExampleHiveSplit, List.mem_cons, Prod.mk.injEq, List.mem_singleton,
      List.not_mem_nil, or_false] at hmem
    rcases hmem with ⟨-, rfl⟩ | ⟨-, rfl⟩
    · refine ⟨1022, htype, ?_⟩
      rw [← hdesc]
      decide
    · refine ⟨1023, htype, ?_⟩
      rw [← hdesc]
      decide
  · rintro ⟨c, ht, hc⟩
    unfold ShadowOf at hc
    cases hC : cmGet ExampleHiveSplit.SecurityCells c with
    | none => simp [hC] at hc
    | some C =>
      simp only [hC, Option.map_some', Option.some.injEq, Prod.mk.injEq] at hc
      have hmem := cmGet_mem _ _ _ hC
      simp only [ExampleHiveSplit, List.mem_cons, Prod.mk.injEq, List.mem_singleton,
        List.not_mem_nil, or_false] at hmem
      rcases hmem with ⟨rfl, rfl⟩ | ⟨rfl, rfl⟩
      · rw [← hc.2, ← ht]
        decide
      · rw [← hc.2, ← ht]
        decide

theorem WalkIterations_done (env : Env) (acc : AccessEnv) (Hive : CMHIVE) (pm da : Nat)
    (fuel : Nat) (s : WalkState) (h : s.StackIndex < 0) :
    WalkIterations env acc Hive pm da fuel s = [] := by
  unfold WalkIterations
  simp [h]

theorem WalkIterations_zero (env : Env) (acc : AccessEnv) (Hive : CMHIVE) (pm da : Nat)
    (s : WalkState) : WalkIterations env acc Hive pm da 0 s = [] := by
  unfold WalkIterations
  simp

theorem WalkIterations_succ (env : Env) (acc : AccessEnv) (Hive : CMHIVE) (pm da : Nat)
    (fuel : Nat) (s : WalkState) (h : 0 ≤ s.StackIndex) :
    WalkIterations env acc Hive pm da (fuel + 1) s =
      s ::
        (if (WalkIteration env acc Hive pm da s).1 = true then
          WalkIterations env acc Hive pm da fuel (WalkIteration env acc Hive pm da s).2
        else []) := by
  rw [WalkIterations]
  simp [not_lt.2 h]

/-- The list of iterations is no longer than the fuel. -/
theorem WalkIterations_length (env : Env) (acc : AccessEnv) (Hive : CMHIVE) (pm da : Nat)
    (fuel : Nat) : ∀ s, (WalkIterations env acc Hive pm da fuel s).length ≤ fuel := by
  induction fuel with
  | zero =>
    intro s
    rw [WalkIterations_zero]
    simp
  | succ fuel ih =>
    intro s
    by_cases h : s.StackIndex < 0
    · rw [WalkIterations_done _ _ _ _ _ _ _ h]
      simp
    · rw [WalkIterations_succ _ _ _ _ _ _ _ (not_lt.1 h)]
      split
      · simp only [List.length_cons]
        exact Nat.succ_le_succ (ih _)
      · simp

/-- Once the loop has ended, more fuel adds no iteration. -/
theorem WalkIterations_stable (env : Env) (acc : AccessEnv) (Hive : CMHIVE) (pm da : Nat)
    (more : Nat) (fuel : Nat) : ∀ s t, WalkLoop env acc Hive pm da fuel s = some t →
      WalkIterations env acc Hive pm da (fuel + more) s =
        WalkIterations env acc Hive pm da fuel s := by
  induction fuel with
  | zero =>
    intro s t h
    by_cases hs : s.StackIndex < 0
    · rw [WalkIterations_done _ _ _ _ _ _ _ hs, WalkIterations_done _ _ _ _ _ _ _ hs]
    · unfold WalkLoop at h
      simp [hs] at h
  | succ fuel ih =>
    intro s t h
    by_cases hs : s.StackIndex < 0
    · rw [WalkIterations_done _ _ _ _ _ _ _ hs, WalkIterations_done _ _ _ _ _ _ _ hs]
    · have he : fuel + 1 + more = (fuel + more) + 1 := by omega
      rw [he, WalkIterations_succ _ _ _ _ _ _ _ (not_lt.1 hs),
        WalkIterations_succ _ _ _ _ _ _ _ (not_lt.1 hs)]
      rw [WalkLoop_succ _ _ _ _ _ _ _ (not_lt.1 hs)] at h
      by_cases hi : (WalkIteration env acc Hive pm da s).1 = true
      · rw [if_pos hi] at h ⊢
        rw [if_pos hi, ih _ _ h]
      · rw [if_neg hi, if_neg hi]

theorem TopsFrom_done (env : Env) (acc : AccessEnv) (Hive : CMHIVE) (d : Nat)
    (c : HCELL_INDEX) (j n : Nat) (h : n ≤ j) : TopsFrom env acc Hive d c j n = [] := by
  simp [TopsFrom, Nat.sub_eq_zero_of_le h]

theorem TopsFrom_step (env : Env) (acc : AccessEnv) (Hive : CMHIVE) (d : Nat)
    (c : HCELL_INDEX) (j n : Nat) (h : j < n) :
    TopsFrom env acc Hive d c j n =
      TopsOf env acc Hive d (acc.CmpFindSubKeyByNumber c j) false ++
        ((c, true) :: TopsFrom env acc Hive d c (j + 1) n) := by
  unfold TopsFrom
  have : n - j = (n - (j + 1)) + 1 := by omega
  rw [this, List.range'_succ]
  simp

theorem TopsOf_succ (env : Env) (acc : AccessEnv) (Hive : CMHIVE) (d : Nat)
    (c : HCELL_INDEX) (b : Bool) (Node : CM_KEY_NODE)
    (hn : HvGetCellNode env Hive c = some Node) :
    TopsOf env acc Hive (d + 1) c b = (c, b) :: TopsFrom env acc Hive d c 0 (SubKeyCount Node) := by
  simp [TopsOf, hn, TopsFrom]

/-- The second part of the body, case by case: it leaves the loop, goes back
up, or pushes the next subkey. -/
theorem WalkDescend_cases (env : Env) (acc : AccessEnv) (Hive : CMHIVE) (s : WalkState)
    (c : HCELL_INDEX) (j k : Nat) (b : Bool) (Node : CM_KEY_NODE)
    (hidx : s.StackIndex = (k : Int))
    (hlen : s.CheckStack.length = acc.CMP_MAX_REGISTRY_DEPTH)
    (hk : k < acc.CMP_MAX_REGISTRY_DEPTH)
    (htop : s.Top = { Cell := c, ChildIndex := j, CellChecked := b })
    (hn : HvGetCellNode env Hive c = some Node) :
    (WalkDescend env acc Hive s).1 = false ∨
    (∃ t, WalkDescend env acc Hive s = (true, t) ∧ SubKeyCount Node ≤ j ∧
      t.StackIndex = (k : Int) - 1 ∧ t.CheckStack = s.CheckStack) ∨
    (∃ t, WalkDescend env acc Hive s = (true, t) ∧ j < SubKeyCount Node ∧
      k + 1 < acc.CMP_MAX_REGISTRY_DEPTH ∧ t.StackIndex = ((k + 1 : Nat) : Int) ∧
      t.CheckStack.length = acc.CMP_MAX_REGISTRY_DEPTH ∧
      t.Top = { Cell := acc.CmpFindSubKeyByNumber c j, ChildIndex := 0, CellChecked := false } ∧
      t.CheckStack.getD k default = { Cell := c, ChildIndex := j + 1, CellChecked := b } ∧
      ∀ i, i < k → t.CheckStack.getD i default = s.CheckStack.getD i default) := by
  have hc : s.Top.Cell = c := by rw [htop]
  have hi : s.Top.ChildIndex = j := by rw [htop]
  by_cases hj : j < SubKeyCount Node
  · have hj2 : s.Top.ChildIndex <
        (Node.SubKeyCounts.getD Stable 0 + Node.SubKeyCounts.getD Volatile 0) % 4294967296 := by
      rw [hi]
      exact hj
    by_cases hsub : acc.CmpFindSubKeyByNumber c j = HCELL_NIL
    · left
      unfold WalkDescend
      simp only [hc, hn]
      rw [if_pos hj2, hi, if_pos hsub]
    · by_cases hd : k + 1 < acc.CMP_MAX_REGISTRY_DEPTH
      · right
        right
        obtain ⟨t, ht, h1, h2, h3, h4, h5, -, -⟩ :=
          WalkDescend_push_spec env acc Hive s c j k b Node hidx hlen htop hn hj hsub hd
        exact ⟨t, ht, hj, hd, h1, h2, h3, h4, h5⟩
      · left
        have hdepth : s.StackIndex + 1 = (acc.CMP_MAX_REGISTRY_DEPTH : Int) := by
          rw [hidx]
          omega
        unfold WalkDescend
        simp only [hc, hn]
        rw [if_pos hj2, hi, if_neg hsub, if_pos hdepth]
  · right
    left
    obtain ⟨t, ht, h1, h2, -, -⟩ :=
      WalkDescend_pop_spec env acc Hive s c j b Node htop hn (not_lt.1 hj)
    exact ⟨t, ht, not_lt.1 hj, by rw [h1, hidx], h2⟩

/-- One iteration of the loop, case by case: it leaves the loop, goes back up,
or pushes the next subkey. -/
theorem WalkIteration_cases (env : Env) (acc : AccessEnv) (Hive : CMHIVE) (pm da : Nat)
    (s : WalkState) (c : HCELL_INDEX) (j k : Nat) (b : Bool) (Node : CM_KEY_NODE)
    (hidx : s.StackIndex = (k : Int))
    (hlen : s.CheckStack.length = acc.CMP_MAX_REGISTRY_DEPTH)
    (hk : k < acc.CMP_MAX_REGISTRY_DEPTH)
    (htop : s.Top = { Cell := c, ChildIndex := j, CellChecked := b })
    (hn : HvGetCellNode env Hive c = some Node) :
    (WalkIteration env acc Hive pm da s).1 = false ∨
    (∃ t, WalkIteration env acc Hive pm da s = (true, t) ∧ SubKeyCount Node ≤ j ∧
      t.StackIndex = (k : Int) - 1 ∧ t.CheckStack.length = s.CheckStack.length ∧
      ∀ i, i < k → t.CheckStack.getD i default = s.CheckStack.getD i default) ∨
    (∃ t, WalkIteration env acc Hive pm da s = (true, t) ∧ j < SubKeyCount Node ∧
      k + 1 < acc.CMP_MAX_REGISTRY_DEPTH ∧ t.StackIndex = ((k + 1 : Nat) : Int) ∧
      t.CheckStack.length = acc.CMP_MAX_REGISTRY_DEPTH ∧
      t.Top = { Cell := acc.CmpFindSubKeyByNumber c j, ChildIndex := 0, CellChecked := false } ∧
      t.CheckStack.getD k default = { Cell := c, ChildIndex := j + 1, CellChecked := true } ∧
      ∀ i, i < k → t.CheckStack.getD i default = s.CheckStack.getD i default) := by
  have hc : s.Top.Cell = c := by rw [htop]
  have hi : s.Top.ChildIndex = j := by rw [htop]
  have hb : s.Top.CellChecked = b := by rw [htop]
  have h0 : s.StackIndex.toNat = k := by
    rw [hidx]
    omega
  have hmid : (WalkCheckCell env acc Hive pm da s).1 = false ∨
      ((WalkCheckCell env acc Hive pm da s).1 = true ∧
        (WalkCheckCell env acc Hive pm da s).2.StackIndex = (k : Int) ∧
        (WalkCheckCell env acc Hive pm da s).2.CheckStack.length = acc.CMP_MAX_REGISTRY_DEPTH ∧
        (WalkCheckCell env acc Hive pm da s).2.Top =
          { Cell := c, ChildIndex := j, CellChecked := true } ∧
        ∀ i, i < k → (WalkCheckCell env acc Hive pm da s).2.CheckStack.getD i default =
          s.CheckStack.getD i default) := by
    cases b with
    | true =>
      right
      have hw : WalkCheckCell env acc Hive pm da s =
          (true, { s with Trace := s.Trace ++ [CheckEvent.StackRead s.StackIndex] }) := by
        simp [WalkCheckCell, hb]
      rw [hw]
      exact ⟨rfl, hidx, hlen, (WalkState_Top_congr _ s rfl rfl).trans htop, fun i _ => rfl⟩
    | false =>
      have hw : WalkCheckCell env acc Hive pm da s =
          (NT_SUCCESS (CmpCheckKeyAccess env acc Hive s.Top.Cell pm da).1,
            { s with
              CheckStack :=
                s.CheckStack.set s.StackIndex.toNat { s.Top with CellChecked := true },
              Status := (CmpCheckKeyAccess env acc Hive s.Top.Cell pm da).1,
              Trace := s.Trace ++
                [CheckEvent.StackRead s.StackIndex, CheckEvent.StackWrite s.StackIndex,
                 CheckEvent.StackRead s.StackIndex] ++
                (CmpCheckKeyAccess env acc Hive s.Top.Cell pm da).2 }) := by
        simp [WalkCheckCell, hb]
      rw [hw]
      cases hs : NT_SUCCESS (CmpCheckKeyAccess env acc Hive s.Top.Cell pm da).1 with
      | false => exact Or.inl rfl
      | true =>
        right
        refine ⟨rfl, hidx, ?_, ?_, ?_⟩
        · show (List.set _ _ _).length = _
          rw [List.length_set]
          exact hlen
        · show WalkState.Top _ = _
          rw [WalkState_Top_eq _ k hidx]
          show List.getD (List.set _ _ _) _ _ = _
          rw [h0, getD_set_eq _ _ _ _ (by omega)]
          rw [← WalkState_Top_eq s k hidx]
          show ({ Cell := s.Top.Cell, ChildIndex := s.Top.ChildIndex, CellChecked := true } :
            CMP_CHECK_REGISTRY_STACK_ENTRY) = _
          rw [hc, hi]
        · intro i hik
          show List.getD (List.set _ _ _) _ _ = _
          rw [h0, getD_set_ne _ _ _ _ _ (by omega)]
  rcases hmid with hf | ⟨ht, m1, m2, m3, m4⟩
  · left
    unfold WalkIteration
    rw [if_pos hf]
  · have hw : WalkIteration env acc Hive pm da s =
        WalkDescend env acc Hive (WalkCheckCell env acc Hive pm da s).2 := by
      unfold WalkIteration
      rw [if_neg (by rw [ht]; simp)]
    rw [hw]
    rcases WalkDescend_cases env acc Hive _ c j k true Node m1 m2 hk m3 hn with
      hbr | ⟨t, e, hj, t1, t2⟩ | ⟨t, e, hj, hd, t1, t2, t3, t4, t5⟩
    · exact Or.inl hbr
    · right
      left
      refine ⟨t, e, hj, t1, ?_, ?_⟩
      · rw [t2, m2, hlen]
      · intro i hik
        rw [t2]
        exact m4 i hik
    · right
      right
      exact ⟨t, e, hj, hd, t1, t2, t3, t4, fun i hik => (t5 i hik).trans (m4 i hik)⟩

theorem IterationTops_cons (s : WalkState) (I : List WalkState) :
    IterationTops (s :: I) = (s.Top.Cell, s.Top.CellChecked) :: IterationTops I := rfl

/-- The iterations on a node from its subkey number `j` on follow the tops of
the walk through its subkeys, given that the iterations on a subtree of at
most `d` levels follow the tops of that subtree. -/
theorem WalkFollows_children (env : Env) (acc : AccessEnv) (Hive : CMHIVE) (pm da : Nat) (d : Nat)
    (hA : ∀ (c : HCELL_INDEX) (k : Nat) (s : WalkState) (fuel : Nat),
      TreeWithin env acc Hive d c = true → s.StackIndex = (k : Int) →
      s.CheckStack.length = acc.CMP_MAX_REGISTRY_DEPTH → k < acc.CMP_MAX_REGISTRY_DEPTH →
      s.Top = { Cell := c, ChildIndex := 0, CellChecked := false } →
      WalkFollows env acc Hive pm da fuel s k (TopsOf env acc Hive d c false))
    (c : HCELL_INDEX) (Node : CM_KEY_NODE) (hn : HvGetCellNode env Hive c = some Node)
    (hsub : ∀ i, i < SubKeyCount Node →
      acc.CmpFindSubKeyByNumber c i ≠ HCELL_NIL ∧
        TreeWithin env acc Hive d (acc.CmpFindSubKeyByNumber c i) = true)
    (k : Nat) (hk : k < acc.CMP_MAX_REGISTRY_DEPTH) :
    ∀ (m j : Nat) (b : Bool) (s : WalkState) (fuel : Nat), SubKeyCount Node - j = m →
      s.StackIndex = (k : Int) → s.CheckStack.length = acc.CMP_MAX_REGISTRY_DEPTH →
      s.Top = { Cell := c, ChildIndex := j, CellChecked := b } →
      WalkFollows env acc Hive pm da fuel s k
        ((c, b) :: TopsFrom env acc Hive d c j (SubKeyCount Node)) := by
  intro m
  induction m using Nat.strong_induction_on with
  | _ m ih =>
    intro j b s fuel hm hidx hlen htop
    have hc : s.Top.Cell = c := by rw [htop]
    have hb : s.Top.CellChecked = b := by rw [htop]
    cases fuel with
    | zero =>
      left
      rw [WalkIterations_zero]
      exact List.nil_prefix
    | succ fuel =>
      rw [WalkFollows, WalkIterations_succ _ _ _ _ _ _ _ (by rw [hidx]; omega),
        IterationTops_cons, hc, hb]
      rcases WalkIteration_cases env acc Hive pm da s c j k b Node hidx hlen hk htop hn with
        hbr | ⟨t, e, hj, t1, t2, t3⟩ | ⟨t, e, hj, hd, t1, t2, t3, t4, t5⟩
      · left
        rw [if_neg (by rw [hbr]; simp)]
        exact (List.prefix_cons_inj _).2 List.nil_prefix
      · right
        rw [e, if_pos rfl, TopsFrom_done _ _ _ _ _ _ _ hj]
        exact ⟨fuel, t, rfl, t1, t2, t3⟩
      · rw [e, if_pos rfl, TopsFrom_step _ _ _ _ _ _ _ hj]
        have hchild := hsub j hj
        rcases hA _ (k + 1) t fuel hchild.2 t1 t2 hd t3 with hP | ⟨rest, u, hX, u1, u2, u3⟩
        · left
          exact (List.prefix_cons_inj _).2 (hP.trans (List.prefix_append _ _))
        · have u1k : u.StackIndex = (k : Int) := by
            rw [u1]
            omega
          have ulen : u.CheckStack.length = acc.CMP_MAX_REGISTRY_DEPTH := by rw [u2, t2]
          have utop : u.Top = { Cell := c, ChildIndex := j + 1, CellChecked := true } := by
            rw [WalkState_Top_eq _ k u1k, u3 k (by omega), t4]
          rcases ih (m - 1) (by omega) (j + 1) true u rest (by omega) u1k ulen utop with
            hQ | ⟨rest2, v, hY, v1, v2, v3⟩
          · left
            rw [hX]
            exact (List.prefix_cons_inj _).2 ((List.prefix_append_right_inj _).2 hQ)
          · right
            refine ⟨rest2, v, ?_, v1, ?_, ?_⟩
            · rw [hX, hY]
              simp
            · rw [v2, ulen, hlen]
            · intro i hik
              rw [v3 i hik, u3 i (by omega), t5 i hik]

/-- The iterations on a finite key tree follow the tops of the tree. -/
theorem WalkFollows_subtree (env : Env) (acc : AccessEnv) (Hive : CMHIVE) (pm da : Nat) (d : Nat) :
    ∀ (c : HCELL_INDEX) (b : Bool) (k : Nat) (s : WalkState) (fuel : Nat),
      TreeWithin env acc Hive d c = true → s.StackIndex = (k : Int) →
      s.CheckStack.length = acc.CMP_MAX_REGISTRY_DEPTH → k < acc.CMP_MAX_REGISTRY_DEPTH →
      s.Top = { Cell := c, ChildIndex := 0, CellChecked := b } →
      WalkFollows env acc Hive pm da fuel s k (TopsOf env acc Hive d c b) := by
  induction d with
  | zero =>
    intro c b k s fuel htree
    simp [TreeWithin] at htree
  | succ d ih =>
    intro c b k s fuel htree hidx hlen hk htop
    obtain ⟨Node, hn, hsub⟩ := TreeWithin_succ env acc Hive d c htree
    rw [TopsOf_succ _ _ _ _ _ _ _ hn]
    exact WalkFollows_children env acc Hive pm da d
      (fun c1 k1 s1 fuel1 h1 h2 h3 h4 h5 => ih c1 false k1 s1 fuel1 h1 h2 h3 h4 h5)
      c Node hn hsub k hk _ 0 b s fuel rfl hidx hlen htop

/-- The tops of the iterations of the walk from its start are a prefix of the
tops of the tree. -/
theorem WalkIterations_tops (env : Env) (acc : AccessEnv) (Hive : CMHIVE) (pm da : Nat) (d : Nat)
    (Cell : HCELL_INDEX) (CheckRoot : Bool) (fuel : Nat)
    (hpos : 0 < acc.CMP_MAX_REGISTRY_DEPTH)
    (htree : TreeWithin env acc Hive d Cell = true) :
    IterationTops (WalkIterations env acc Hive pm da fuel (WalkStart acc Cell CheckRoot)) <+:
      TopsOf env acc Hive d Cell (!CheckRoot) := by
  rcases WalkFollows_subtree env acc Hive pm da d Cell (!CheckRoot) 0
      (WalkStart acc Cell CheckRoot) fuel htree rfl (by simp [WalkStart]) hpos
      (WalkStart_Top acc Cell CheckRoot hpos) with hP | ⟨rest, t, hX, t1, -, -⟩
  · exact hP
  · rw [hX, WalkIterations_done _ _ _ _ _ _ _ (by rw [t1]; omega)]
    simp [IterationTops]

/-- In the tops of a tree a cell is on top at most (its subkey count + 1) times
for each time it is in the tree. -/
theorem TopsOf_count (env : Env) (acc : AccessEnv) (Hive : CMHIVE) (x : HCELL_INDEX)
    (Node : CM_KEY_NODE) (hx : HvGetCellNode env Hive x = some Node) (d : Nat) :
    ∀ (c : HCELL_INDEX) (b : Bool),
      (TopsOf env acc Hive d c b).countP (fun e => decide (e.1 = x)) ≤
        (SubtreeCells env acc Hive d c).count x * (SubKeyCount Node + 1) := by
  induction d with
  | zero =>
    intro c b
    simp [TopsOf]
  | succ d ih =>
    intro c b
    cases hn : HvGetCellNode env Hive c with
    | none =>
      by_cases hcx : c = x
      · rw [hcx, hx] at hn
        cases hn
      · simp [TopsOf, SubtreeCells, hn, hcx, List.countP_cons, List.count_cons]
    | some N =>
      have key : ∀ (l : List Nat),
          (l.flatMap (fun i =>
              TopsOf env acc Hive d (acc.CmpFindSubKeyByNumber c i) false ++ [(c, true)])).countP
            (fun e => decide (e.1 = x)) ≤
          (l.flatMap (fun i =>
              SubtreeCells env acc Hive d (acc.CmpFindSubKeyByNumber c i))).count x *
            (SubKeyCount Node + 1) + l.length * (if c = x then 1 else 0) := by
        intro l
        induction l with
        | nil => simp
        | cons i l ihl =>
          rw [List.flatMap_cons, List.flatMap_cons, List.countP_append, List.countP_append,
            List.count_append, Nat.add_mul, List.length_cons]
          have h1 := ih (acc.CmpFindSubKeyByNumber c i) false
          have h2 : List.countP (fun e => decide (e.1 = x)) [((c, true) : HCELL_INDEX × Bool)] =
              if c = x then 1 else 0 := by
            by_cases hcx : c = x <;> simp [hcx]
          rw [h2]
          have h3 : (l.length + 1) * (if c = x then 1 else 0) =
              l.length * (if c = x then 1 else 0) + (if c = x then 1 else 0) := by
            rw [Nat.add_mul, Nat.one_mul]
          rw [h3]
          omega
      have hk := key (List.range' 0 (SubKeyCount N))
      rw [List.length_range'] at hk
      simp only [TopsOf, SubtreeCells, hn, List.countP_cons, List.count_cons]
      by_cases hcx : c = x
      · have hN : N = Node := by
          rw [hcx, hx] at hn
          exact (Option.some.inj hn).symm
        rw [hN] at hk ⊢
        simp only [hcx, if_true, Nat.mul_one, decide_True, beq_self_eq_true] at hk ⊢
        rw [Nat.add_mul, Nat.one_mul]
        omega
      · have hcx2 : (c == x) = false := by simpa using hcx
        simp only [hcx, if_false, Nat.mul_zero, Nat.add_zero, decide_False, hcx2] at hk ⊢
        simpa using hk

/-- In the tops of a tree a cell is on top and not checked before at most once
for each time it is in the tree. -/
theorem TopsOf_unchecked (env : Env) (acc : AccessEnv) (Hive : CMHIVE) (x : HCELL_INDEX)
    (d : Nat) :
    ∀ (c : HCELL_INDEX) (b : Bool),
      (TopsOf env acc Hive d c b).countP (fun e => decide (e.1 = x) && !e.2) ≤
        (SubtreeCells env acc Hive d c).count x := by
  induction d with
  | zero =>
    intro c b
    simp [TopsOf]
  | succ d ih =>
    intro c b
    have hfirst : (if (decide (c = x) && !b) = true then 1 else 0) ≤
        (if (c == x) = true then 1 else 0) := by
      by_cases hcx : c = x <;> cases b <;> simp [hcx]
    cases hn : HvGetCellNode env Hive c with
    | none =>
      simp only [TopsOf, SubtreeCells, hn, List.countP_cons, List.count_cons, List.countP_nil,
        List.count_nil, Nat.zero_add]
      exact hfirst
    | some N =>
      have key : ∀ (l : List Nat),
          (l.flatMap (fun i =>
              TopsOf env acc Hive d (acc.CmpFindSubKeyByNumber c i) false ++ [(c, true)])).countP
            (fun e => decide (e.1 = x) && !e.2) ≤
          (l.flatMap (fun i =>
              SubtreeCells env acc Hive d (acc.CmpFindSubKeyByNumber c i))).count x := by
        intro l
        induction l with
        | nil => simp
        | cons i l ihl =>
          rw [List.flatMap_cons, List.flatMap_cons, List.countP_append, List.countP_append,
            List.count_append]
          have h1 := ih (acc.CmpFindSubKeyByNumber c i) false
          have h2 : List.countP (fun e => decide (e.1 = x) && !e.2)
              [((c, true) : HCELL_INDEX × Bool)] = 0 := by simp
          rw [h2]
          omega
      have hk := key (List.range' 0 (SubKeyCount N))
      simp only [TopsOf, SubtreeCells, hn, List.countP_cons, List.count_cons]
      omega
/-! ## The claims -/

/-- C1 (reference-count conservation). Start from a store whose counts are
right (`RefCountsConserved`: the `ReferenceCount` of every live security cell is
the number of key nodes whose `Security` holds its index and is not 0, and no
node refers to a cell that is not live) and whose ring is linked.  Then every
successful `CmpAssignSecurityDescriptor` on a node that has no security yet (the
assertion of line 1073), every successful `CmpSetSecurityDescriptorInfo`,
whichever branch it takes, and every `CmpFreeSecurityDescriptor` leaves the
counts right: each live cell again counts its referencing nodes, none holds 0,
and so no decrement went below zero (the count is kept modulo 2^32, a wrapped
count would not be the number of nodes). -/
theorem C1_reference_counts_conserved (env : Env) (h : CMHIVE)
    (hinv : RefCountsConserved h) (hring : RingLinked h) :
    (∀ Cell SecurityDescriptor,
      (cmGet h.KeyNodes Cell).map CM_KEY_NODE.Security = some HCELL_NIL →
      (CmpAssignSecurityDescriptor env h Cell SecurityDescriptor).1 = STATUS_SUCCESS →
      RefCountsConserved (CmpAssignSecurityDescriptor env h Cell SecurityDescriptor).2) ∧
    (∀ Key SecurityInformation ModificationDescriptor,
      (CmpSetSecurityDescriptorInfo env h Key SecurityInformation
          ModificationDescriptor).Status = Outcome.Returned STATUS_SUCCESS →
      RefCountsConserved
        (CmpSetSecurityDescriptorInfo env h Key SecurityInformation
          ModificationDescriptor).Hive) ∧
    (∀ Cell, RefCountsConserved (CmpFreeSecurityDescriptor env h Cell)) :=
  ⟨fun Cell D hnew hok => assign_conserves_refcounts env h Cell D hinv hnew hok,
   fun Key info md hok => set_conserves_refcounts env h Key info md hinv hring hok,
   fun Cell => free_conserves_refcounts env h Cell hinv⟩

theorem C1_reference_counts_conserved_witness :
    RefCountsConserved (CmpAssignSecurityDescriptor ExampleEnv ExampleHiveShared 48 [1, 2, 3]).2 ∧
    RefCountsConserved
      (CmpSetSecurityDescriptorInfo ExampleEnv ExampleHiveShared ExampleKcb 4 [9, 9]).Hive ∧
    RefCountsConserved (CmpFreeSecurityDescriptor ExampleEnv ExampleHiveShared 40) :=
  have H := C1_reference_counts_conserved ExampleEnv ExampleHiveShared
    (RefCountsConserved_of_forall_mem _ (by decide) (by decide) (by decide) (by decide)
      (by decide))
    (RingLinked_of_forall_mem _ (by decide))
  ⟨H.1 48 [1, 2, 3] (by decide) (by decide), H.2.1 ExampleKcb 4 [9, 9] (by decide),
    H.2.2 40⟩

/-- C2 counterexample. On a hive without security cells, the root (cell 32, a
stable cell) and the volatile subkey (cell 0x80000020) are assigned the same
descriptor `[1, 2, 3]`, one right after the other; both assigns succeed.  The
matching routine is asked for a cell of the storage type of the node, so the
second assign does not take the stable cell 1023 of the first: the two nodes
end on different security cells. -/
theorem C2_stable_and_volatile_nodes_do_not_share :
    (CmpAssignSecurityDescriptor ExampleEnvTyped ExampleHiveFresh 32 [1, 2, 3]).1
      = STATUS_SUCCESS ∧
    (CmpAssignSecurityDescriptor ExampleEnvTyped
      (CmpAssignSecurityDescriptor ExampleEnvTyped ExampleHiveFresh 32 [1, 2, 3]).2
      0x80000020 [1, 2, 3]).1 = STATUS_SUCCESS ∧
    (cmGet (CmpAssignSecurityDescriptor ExampleEnvTyped
      (CmpAssignSecurityDescriptor ExampleEnvTyped ExampleHiveFresh 32 [1, 2, 3]).2
      0x80000020 [1, 2, 3]).2.KeyNodes 32).map CM_KEY_NODE.Security = some 1023 ∧
    (cmGet (CmpAssignSecurityDescriptor ExampleEnvTyped
      (CmpAssignSecurityDescriptor ExampleEnvTyped ExampleHiveFresh 32 [1, 2, 3]).2
      0x80000020 [1, 2, 3]).2.KeyNodes 0x80000020).map CM_KEY_NODE.Security
      = some 0x800003FF := by
  decide

/-- C2 (dedup on assign), amended to nodes of one storage type. In a store whose
counts are right, two distinct nodes of the same storage type (stable or
volatile) that have no security yet are assigned byte-identical descriptors,
one right after the other, both assigns succeeding (the two calls hash
descriptors alike).  Afterwards both nodes' `Security` fields hold the same
cell index, that cell is live, and its `ReferenceCount` is the number of key
nodes whose `Security` holds its index. -/
theorem C2_dedup_on_assign_same_type (env1 env2 : Env) (h : CMHIVE) (c1 c2 : HCELL_INDEX)
    (D : List Nat)
    (hinv : RefCountsConserved h)
    (hkey : env2.CmpSecConvKey = env1.CmpSecConvKey)
    (hsize : env2.CmpSecHashTableSize = env1.CmpSecHashTableSize)
    (htype : HvGetCellType c2 = HvGetCellType c1)
    (hne : c1 ≠ c2)
    (hnew1 : (cmGet h.KeyNodes c1).map CM_KEY_NODE.Security = some HCELL_NIL)
    (hnew2 : (cmGet h.KeyNodes c2).map CM_KEY_NODE.Security = some HCELL_NIL)
    (hok1 : (CmpAssignSecurityDescriptor env1 h c1 D).1 = STATUS_SUCCESS)
    (hok2 : (CmpAssignSecurityDescriptor env2 (CmpAssignSecurityDescriptor env1 h c1 D).2
      c2 D).1 = STATUS_SUCCESS) :
    ∃ M S,
      (cmGet (CmpAssignSecurityDescriptor env2 (CmpAssignSecurityDescriptor env1 h c1 D).2
        c2 D).2.KeyNodes c1).map CM_KEY_NODE.Security = some M ∧
      (cmGet (CmpAssignSecurityDescriptor env2 (CmpAssignSecurityDescriptor env1 h c1 D).2
        c2 D).2.KeyNodes c2).map CM_KEY_NODE.Security = some M ∧
      cmGet (CmpAssignSecurityDescriptor env2 (CmpAssignSecurityDescriptor env1 h c1 D).2
        c2 D).2.SecurityCells M = some S ∧
      S.ReferenceCount =
        ReferencesTo (CmpAssignSecurityDescriptor env2
          (CmpAssignSecurityDescriptor env1 h c1 D).2 c2 D).2 M := by
  have hsome1 : (cmGet h.KeyNodes c1).isSome = true := by
    cases hx : cmGet h.KeyNodes c1 <;> simp [hx] at hnew1 ⊢
  obtain ⟨M, hfind, hM1, hother⟩ := assign_then_match env1 env2 h c1 D hkey hsize hsome1 hok1
  have hnew2' : (cmGet (CmpAssignSecurityDescriptor env1 h c1 D).2.KeyNodes c2).map
      CM_KEY_NODE.Security = some HCELL_NIL := by
    rw [hother c2 (fun e => hne e.symm)]
    exact hnew2
  have hinv1 := assign_conserves_refcounts env1 h c1 D hinv hnew1 hok1
  have hinv2 := assign_conserves_refcounts env2 _ c2 D hinv1 hnew2' hok2
  obtain ⟨_, hcase⟩ := CmpAssignSecurityDescriptor_of_success env2 _ c2 D hok2
  rw [htype, hfind] at hcase
  rcases hcase with ⟨M2, X, hM2, hX, _, _, heq⟩ | ⟨hcontra, _⟩
  · simp only [Option.some.injEq] at hM2
    subst hM2
    have hcell : cmGet (CmpAssignSecurityDescriptor env2
        (CmpAssignSecurityDescriptor env1 h c1 D).2 c2 D).2.SecurityCells M =
        some { X with ReferenceCount := ULONG_INC X.ReferenceCount } := by
      rw [heq]
      simp [cmGet_cmModify, hX]
    refine ⟨M, _, ?_, ?_, hcell, (hinv2.2.2.2.1 _ _ hcell).1⟩
    · rw [heq]
      simp only [WriteNode_KeyNodes, WriteSecurity_KeyNodes, Dirtied_KeyNodes, cmGet_cmModify,
        if_neg hne]
      exact hM1
    · rw [heq]
      cases hx : cmGet (CmpAssignSecurityDescriptor env1 h c1 D).2.KeyNodes c2 with
      | none => simp [hx] at hnew2'
      | some Node2 => simp [cmGet_cmModify, hx]
  · cases hcontra

theorem C2_dedup_on_assign_same_type_witness :
    ∃ M S,
      (cmGet (CmpAssignSecurityDescriptor ExampleEnv
        (CmpAssignSecurityDescriptor ExampleEnv ExampleHiveFresh 32 [1, 2, 3]).2
        40 [1, 2, 3]).2.KeyNodes 32).map CM_KEY_NODE.Security = some M ∧
      (cmGet (CmpAssignSecurityDescriptor ExampleEnv
        (CmpAssignSecurityDescriptor ExampleEnv ExampleHiveFresh 32 [1, 2, 3]).2
        40 [1, 2, 3]).2.KeyNodes 40).map CM_KEY_NODE.Security = some M ∧
      cmGet (CmpAssignSecurityDescriptor ExampleEnv
        (CmpAssignSecurityDescriptor ExampleEnv ExampleHiveFresh 32 [1, 2, 3]).2
        40 [1, 2, 3]).2.SecurityCells M = some S ∧
      S.ReferenceCount =
        ReferencesTo (CmpAssignSecurityDescriptor ExampleEnv
          (CmpAssignSecurityDescriptor ExampleEnv ExampleHiveFresh 32 [1, 2, 3]).2
          40 [1, 2, 3]).2 M :=
  C2_dedup_on_assign_same_type ExampleEnv ExampleEnv ExampleHiveFresh 32 40 [1, 2, 3]
    (RefCountsConserved_of_forall_mem _ (by decide) (by decide) (by decide) (by decide)
      (by decide))
    rfl rfl (by decide) (by decide) (by decide) (by decide) (by decide) (by decide)

/-- C3 (set postcondition). In a hive whose cache is consistent and whose ring
is linked, for a node whose security cell stores as many bytes as its length
says, every successful set, whichever branch it takes, leaves the node pointing
to a security cell that holds exactly the merged descriptor `D`, with
`DescriptorLength` the length of `D`. -/
theorem C3_set_stores_merged_descriptor (env : Env) (h : CMHIVE) (Key : CM_KEY_CONTROL_BLOCK)
    (info : Nat) (md : List Nat) (Node : CM_KEY_NODE) (S : CM_KEY_SECURITY) (D : List Nat)
    (hnode : cmGet h.KeyNodes Key.KeyCell = some Node)
    (hsec : cmGet h.SecurityCells Node.Security = some S)
    (hcache : CacheConsistent h) (hring : RingLinked h)
    (hwf : S.Descriptor.length = S.DescriptorLength)
    (hD : (env.SeSetSecurityDescriptorInfo info md S.Descriptor).2 = D)
    (hok : (CmpSetSecurityDescriptorInfo env h Key info md).Status
      = Outcome.Returned STATUS_SUCCESS) :
    ∃ Node1 Cell1,
      cmGet (CmpSetSecurityDescriptorInfo env h Key info md).Hive.KeyNodes Key.KeyCell
        = some Node1 ∧
      cmGet (CmpSetSecurityDescriptorInfo env h Key info md).Hive.SecurityCells Node1.Security
        = some Cell1 ∧
      Cell1.Descriptor = D ∧ Cell1.DescriptorLength = RtlLengthSecurityDescriptor D := by
  obtain ⟨⟨F, hflink, _⟩, ⟨B, hblink, _⟩⟩ := hring _ _ hsec
  cases hfind : CmpFindMatchingDescriptorCell env h D (HvGetCellType Key.KeyCell) with
  | some M =>
    obtain ⟨e, he, _, _, helen, hedesc⟩ := CmpFindMatchingDescriptorCell_some env h D _ M hfind
    by_cases hM : M = Node.Security
    · -- the merged descriptor is already in the node's cell
      subst hM
      obtain ⟨Node', S', hnode', hsec', hmN, hmS, hdN, hdS, heq⟩ :=
        CmpSetSecurityDescriptorInfo_of_success env h Key info md hok
      rw [hnode] at hnode'
      cases hnode'
      rw [hsec] at hsec'
      cases hsec'
      rw [hD] at heq
      obtain ⟨e', he', _, hlen', hdesc'⟩ := hcache.1 _ _ hsec
      rw [he] at he'
      cases he'
      rw [heq]
      refine ⟨{ Node with LastWriteTime := env.SystemTime }, S, ?_, ?_, ?_, ?_⟩
      · simp [SetSecurityStore, hfind, cmGet_cmModify, hnode]
      · simp [SetSecurityStore, hfind, hsec]
      · rw [← hdesc', hedesc]
      · rw [← hlen', helen]
    · -- the merged descriptor is in another cell
      obtain ⟨_, _, hMlive, hHive, _⟩ :=
        set_share_existing_effect env h Key info md Node S D M hnode hsec hD hfind hM hok
      have hcont := ShareExistingReleased_contents env (SetSecurityDirtied h Key Node.Security)
        Node.Security S M M
      simp only [if_neg hM, SetSecurityDirtied_SecurityCells] at hcont
      cases hMc : cmGet (ShareExistingReleased env (SetSecurityDirtied h Key Node.Security)
          Node.Security S M).SecurityCells M with
      | none => simp [hMc] at hMlive
      | some Mc =>
        cases hMc0 : cmGet h.SecurityCells M with
        | none => simp [hMc, hMc0] at hcont
        | some Mc0 =>
          obtain ⟨e', he', _, hlen', hdesc'⟩ := hcache.1 _ _ hMc0
          rw [he] at he'
          cases he'
          simp only [hMc, hMc0, Option.map_some', Option.some.injEq, CellContents,
            Prod.mk.injEq] at hcont
          rw [hHive]
          refine ⟨{ Node with Security := M, LastWriteTime := env.SystemTime },
            { Mc with ReferenceCount := ULONG_INC Mc.ReferenceCount }, ?_, ?_, ?_, ?_⟩
          · simp [cmGet_cmModify, hnode]
          · simp [cmGet_cmModify, hMc]
          · show Mc.Descriptor = D
            rw [hcont.2.2, ← hdesc', hedesc]
          · show Mc.DescriptorLength = RtlLengthSecurityDescriptor D
            rw [hcont.2.1, ← hlen', helen]
  | none =>
    by_cases hrc : 1 < S.ReferenceCount
    · -- copy on write
      obtain ⟨hfree, _, hNodes, hCells, _⟩ :=
        set_copy_on_write_effect env h Key info md Node S F D _ hnode hsec hflink hD rfl hfind
          hrc hok
      obtain ⟨_, _, hnone, _⟩ := CellIsFree_spec h _ _ hfree
      have hget := cmGet_CopyOnWriteCells h.SecurityCells _ Node.Security S F D hnone hsec
        hflink
      refine ⟨{ Node with
          Security := env.AllocIndex (SECURITY_CELL_LENGTH D) (HvGetCellType Key.KeyCell),
          LastWriteTime := env.SystemTime },
        { Signature := CM_KEY_SECURITY_SIGNATURE, Flink := S.Flink, Blink := Node.Security,
          ReferenceCount := 1, DescriptorLength := RtlLengthSecurityDescriptor D,
          Descriptor := D }, ?_, ?_, rfl, rfl⟩
      · rw [hNodes]
        simp [cmGet_cmModify, hnode]
      · rw [hCells, hget]
        simp
    · by_cases hlen : RtlLengthSecurityDescriptor D = S.DescriptorLength
      · -- in place
        obtain ⟨_, hN, hC, _⟩ :=
          set_in_place_effect env h Key info md Node S D hnode hsec hD hfind hrc hlen hok
        have hle : S.Descriptor.length ≤ D.length := by
          have : D.length = S.DescriptorLength := hlen
          omega
        refine ⟨{ Node with LastWriteTime := env.SystemTime },
          { S with Descriptor := D }, ?_, ?_, rfl, hlen.symm⟩
        · rw [hN]
          simp [cmGet_cmModify, hnode]
        · rw [hC]
          simp [cmGet_cmModify, hsec, RtlCopyMemory_exact _ _ hle]
      · -- reallocation
        obtain ⟨hnew, _, hNodes, hCells, _⟩ :=
          set_reallocate_effect env h Key info md Node S F B D _ hnode hsec hflink hblink hD
            rfl hfind hrc hlen hok
        have hnew' : env.ReallocIndex Node.Security (SECURITY_CELL_LENGTH D) = Node.Security ∨
            cmGet h.SecurityCells (env.ReallocIndex Node.Security (SECURITY_CELL_LENGTH D))
              = none := by
          rcases hnew with hn | hn
          · exact Or.inl hn
          · exact Or.inr (CellIsFree_spec h _ _ hn).2.2.1
        have hget := cmGet_ReallocatedCells h.SecurityCells Node.Security _ S F B D hsec
          hflink hblink hnew'
        refine ⟨{ Node with
            Security := env.ReallocIndex Node.Security (SECURITY_CELL_LENGTH D),
            LastWriteTime := env.SystemTime },
          { S with
            Flink := RenameCell Node.Security
              (env.ReallocIndex Node.Security (SECURITY_CELL_LENGTH D)) S.Flink,
            Blink := RenameCell Node.Security
              (env.ReallocIndex Node.Security (SECURITY_CELL_LENGTH D)) S.Blink,
            DescriptorLength := RtlLengthSecurityDescriptor D, Descriptor := D },
          ?_, ?_, rfl, rfl⟩
        · rw [hNodes]
          simp [cmGet_cmModify, hnode]
        · rw [hCells, hget]
          simp

theorem C3_set_stores_merged_descriptor_witness :
    ∃ Node1 Cell1,
      cmGet (CmpSetSecurityDescriptorInfo ExampleEnv ExampleHiveShared ExampleKcb 4
        [9, 9]).Hive.KeyNodes ExampleKcb.KeyCell = some Node1 ∧
      cmGet (CmpSetSecurityDescriptorInfo ExampleEnv ExampleHiveShared ExampleKcb 4
        [9, 9]).Hive.SecurityCells Node1.Security = some Cell1 ∧
      Cell1.Descriptor = [9, 9] ∧ Cell1.DescriptorLength = RtlLengthSecurityDescriptor [9, 9] :=
  C3_set_stores_merged_descriptor ExampleEnv ExampleHiveShared ExampleKcb 4 [9, 9]
    { Flags := 0, LastWriteTime := 0, Parent := 32, Security := 1023 }
    { Signature := CM_KEY_SECURITY_SIGNATURE, Flink := 1023, Blink := 1023,
      ReferenceCount := 2, DescriptorLength := 3, Descriptor := [1, 2, 3] }
    [9, 9] (by decide) (by decide)
    (CacheConsistent_of_forall_mem _ (by decide) (by decide))
    (RingLinked_of_forall_mem _ (by decide)) (by decide) (by decide) (by decide)

/-- C4 (cache consistency). Start from a well-formed store (counts right, ring
links consistent, cache consistent) and run any sequence of successful assign,
set and release operations, in environments where a cell marked dirty can be
mapped.  Afterwards the cache is consistent: every live security cell has a
cache entry under its own index with the length and the bytes of the cell, and
every cache entry belongs to a live cell, so none is left for a freed or
relocated-away index. -/
theorem C4_cache_consistent_after_operations (ops : List (Env × StoreOp)) (h h1 : CMHIVE)
    (hwf : StoreWellFormed h) (hpin : ∀ p ∈ ops, DirtyMeansPinned p.1)
    (hrun : RunOps ops h = some h1) :
    (∀ c S, cmGet h1.SecurityCells c = some S →
      ∃ e, cmGet h1.SecurityCache c = some e ∧ e.Cell = c ∧
        e.DescriptorLength = S.DescriptorLength ∧ e.Descriptor = S.Descriptor) ∧
    (∀ c e, cmGet h1.SecurityCache c = some e → (cmGet h1.SecurityCells c).isSome = true) :=
  (StoreWellFormed_run ops h h1 hwf hpin hrun).2.2

theorem C4_cache_consistent_after_operations_witness :
    ∃ h1, RunOps [(ExampleEnv, StoreOp.Assign 48 [1, 2, 3]),
        (ExampleEnv, StoreOp.Set ExampleKcb 4 [9, 9]),
        (ExampleEnv, StoreOp.Release 32), (ExampleEnv, StoreOp.Release 48)]
        ExampleHiveShared = some h1 ∧
      (∀ c e, cmGet h1.SecurityCache c = some e → (cmGet h1.SecurityCells c).isSome = true) := by
  have hsome : (RunOps [(ExampleEnv, StoreOp.Assign 48 [1, 2, 3]),
        (ExampleEnv, StoreOp.Set ExampleKcb 4 [9, 9]),
        (ExampleEnv, StoreOp.Release 32), (ExampleEnv, StoreOp.Release 48)]
        ExampleHiveShared).isSome = true := by decide
  obtain ⟨h1, hrun⟩ := Option.isSome_iff_exists.1 hsome
  exact ⟨h1, hrun,
    (C4_cache_consistent_after_operations _ ExampleHiveShared h1
      ⟨RefCountsConserved_of_forall_mem _ (by decide) (by decide) (by decide) (by decide)
          (by decide),
        RingLinked_of_forall_mem _ (by decide),
        CacheConsistent_of_forall_mem _ (by decide) (by decide)⟩
      (fun p hp => by
        simp only [List.mem_cons, List.mem_singleton, List.not_mem_nil, or_false] at hp
        rcases hp with hp | hp | hp | hp <;> subst hp <;> exact DirtyMeansPinned_ExampleEnv)
      hrun).2⟩

/-- C5 counterexample. On a hive without security cells (well-formed, its ring
trivially closed), the root (cell 32) is
assigned the descriptor `[1, 2, 3]` and then the volatile subkey (cell
0x80000020) the descriptor `[7, 7]`; both assigns succeed.  The root's security
cell 1023 and the volatile security cell 0x800003FE are then both live, each
linked to itself, and following `Flink` from 1023 never reaches 0x800003FE. -/
theorem C5_volatile_cell_starts_own_ring :
    StoreWellFormed ExampleHiveFresh ∧ RingClosed ExampleHiveFresh ∧
    ∃ h1,
      RunOps [(ExampleEnvTyped, StoreOp.Assign 32 [1, 2, 3]),
        (ExampleEnvTyped, StoreOp.Assign 0x80000020 [7, 7])] ExampleHiveFresh = some h1 ∧
      (cmGet h1.SecurityCells 1023).isSome = true ∧
      (cmGet h1.SecurityCells 0x800003FE).isSome = true ∧
      ¬ Relation.ReflTransGen
        (fun x y => ∃ X, cmGet h1.SecurityCells x = some X ∧ X.Flink = y) 1023 0x800003FE := by
  have hsome : (RunOps [(ExampleEnvTyped, StoreOp.Assign 32 [1, 2, 3]),
      (ExampleEnvTyped, StoreOp.Assign 0x80000020 [7, 7])] ExampleHiveFresh).isSome = true := by
    decide
  obtain ⟨h1, hrun⟩ := Option.isSome_iff_exists.1 hsome
  have hcells : h1.SecurityCells =
      [(0x800003FE,
        { Signature := CM_KEY_SECURITY_SIGNATURE, Flink := 0x800003FE, Blink := 0x800003FE,
          ReferenceCount := 1, DescriptorLength := 2, Descriptor := [7, 7] }),
       (1023,
        { Signature := CM_KEY_SECURITY_SIGNATURE, Flink := 1023, Blink := 1023,
          ReferenceCount := 1, DescriptorLength := 3, Descriptor := [1, 2, 3] })] := by
    have hc : (RunOps [(ExampleEnvTyped, StoreOp.Assign 32 [1, 2, 3]),
        (ExampleEnvTyped, StoreOp.Assign 0x80000020 [7, 7])] ExampleHiveFresh).map
          CMHIVE.SecurityCells =
        some [(0x800003FE,
          { Signature := CM_KEY_SECURITY_SIGNATURE, Flink := 0x800003FE, Blink := 0x800003FE,
            ReferenceCount := 1, DescriptorLength := 2, Descriptor := [7, 7] }),
         (1023,
          { Signature := CM_KEY_SECURITY_SIGNATURE, Flink := 1023, Blink := 1023,
            ReferenceCount := 1, DescriptorLength := 3, Descriptor := [1, 2, 3] })] := by
      decide
    rw [hrun] at hc
    simpa using hc
  refine ⟨⟨RefCountsConserved_of_forall_mem _ (by decide) (by decide) (by decide) (by decide)
      (by decide), RingLinked_of_forall_mem _ (by decide),
      CacheConsistent_of_forall_mem _ (by decide) (by decide)⟩,
    RingClosed_of_nil _ rfl, h1, hrun, by rw [hcells]; decide, by rw [hcells]; decide, ?_⟩
  intro hreach
  have hstay : ∀ y, Relation.ReflTransGen
      (fun x y => ∃ X, cmGet h1.SecurityCells x = some X ∧ X.Flink = y) 1023 y → y = 1023 := by
    intro y hy
    induction hy with
    | refl => rfl
    | tail _ hstep ih =>
      obtain ⟨X, hX, hf⟩ := hstep
      rw [ih, hcells] at hX
      have hX2 : X.Flink = 1023 := by
        simp [cmGet_cons] at hX
        rw [← hX]
      rw [← hf, hX2]
  exact absurd (hstay _ hreach) (by decide)

/-- C5 (ring closure), amended. Start from a well-formed store whose ring is
closed and run any sequence of successful assign, set and release operations
(in environments where a cell marked dirty can be mapped) in which no assign
creates a cell for a volatile node or for the root node of the hive while the
hive has other security cells.  Afterwards every live security cell is reached
from every other live security cell by following `Flink` a finite number of
times. -/
theorem C5_ring_closed_after_operations (ops : List (Env × StoreOp)) (h h1 : CMHIVE)
    (hwf : StoreWellFormed h) (hclosed : RingClosed h)
    (hpin : ∀ p ∈ ops, DirtyMeansPinned p.1)
    (hone : NoSeparateRing ops h = true)
    (hrun : RunOps ops h = some h1) :
    ∀ a b A B, cmGet h1.SecurityCells a = some A → cmGet h1.SecurityCells b = some B →
      Relation.ReflTransGen
        (fun x y => ∃ X, cmGet h1.SecurityCells x = some X ∧ X.Flink = y) a b :=
  (RingClosed_iff h1).1 (RingClosed_run ops h h1 hwf hclosed hpin hone hrun)

theorem C5_ring_closed_after_operations_witness :
    ∃ h1, RunOps [(ExampleEnv, StoreOp.Assign 32 [1, 2, 3]),
        (ExampleEnv, StoreOp.Assign 40 [9, 9]),
        (ExampleEnv, StoreOp.Set ExampleKcb 4 [9, 8, 7]),
        (ExampleEnv, StoreOp.Release 40)] ExampleHiveFresh = some h1 ∧
      ∀ a b A B, cmGet h1.SecurityCells a = some A → cmGet h1.SecurityCells b = some B →
        Relation.ReflTransGen
          (fun x y => ∃ X, cmGet h1.SecurityCells x = some X ∧ X.Flink = y) a b := by
  have hsome : (RunOps [(ExampleEnv, StoreOp.Assign 32 [1, 2, 3]),
        (ExampleEnv, StoreOp.Assign 40 [9, 9]),
        (ExampleEnv, StoreOp.Set ExampleKcb 4 [9, 8, 7]),
        (ExampleEnv, StoreOp.Release 40)] ExampleHiveFresh).isSome = true := by decide
  obtain ⟨h1, hrun⟩ := Option.isSome_iff_exists.1 hsome
  exact ⟨h1, hrun,
    C5_ring_closed_after_operations _ ExampleHiveFresh h1
      ⟨RefCountsConserved_of_forall_mem _ (by decide) (by decide) (by decide) (by decide)
          (by decide),
        RingLinked_of_forall_mem _ (by decide),
        CacheConsistent_of_forall_mem _ (by decide) (by decide)⟩
      (RingClosed_of_nil _ rfl)
      (fun p hp => by
        simp only [List.mem_cons, List.mem_singleton, List.not_mem_nil, or_false] at hp
        rcases hp with hp | hp | hp | hp <;> subst hp <;> exact DirtyMeansPinned_ExampleEnv)
      (by decide) hrun⟩

/-- C6 (no-op set). When every step up to the matching succeeds and the merged
descriptor matches the node's current security cell, the set returns
STATUS_SUCCESS and changes only the last-write time of the node and of the key
control block: the security cells (indices, counts, links, bytes), the cache
and the hash table are the same, and the key nodes are the same but for the
time stamp of the node. -/
theorem C6_noop_set_changes_only_time (env : Env) (h : CMHIVE) (Key : CM_KEY_CONTROL_BLOCK)
    (info : Nat) (md : List Nat) (Node : CM_KEY_NODE) (S : CM_KEY_SECURITY)
    (hnode : HvGetCellNode env h Key.KeyCell = some Node)
    (htrackN : env.TrackOk Key.KeyCell = true)
    (hsec : HvGetCellSecurity env h Node.Security = some S)
    (htrackS : env.TrackOk Node.Security = true)
    (hmerge : NT_SUCCESS (env.SeSetSecurityDescriptorInfo info md S.Descriptor).1 = true)
    (hdirtyN : env.DirtyOk Key.KeyCell = true) (hdirtyS : env.DirtyOk Node.Security = true)
    (hmatch : CmpFindMatchingDescriptorCell env h
        (env.SeSetSecurityDescriptorInfo info md S.Descriptor).2 (HvGetCellType Key.KeyCell)
      = some Node.Security) :
    (CmpSetSecurityDescriptorInfo env h Key info md).Status = Outcome.Returned STATUS_SUCCESS ∧
    (CmpSetSecurityDescriptorInfo env h Key info md).Hive.SecurityCells = h.SecurityCells ∧
    (CmpSetSecurityDescriptorInfo env h Key info md).Hive.SecurityCache = h.SecurityCache ∧
    (CmpSetSecurityDescriptorInfo env h Key info md).Hive.SecurityHash = h.SecurityHash ∧
    (CmpSetSecurityDescriptorInfo env h Key info md).Hive.KeyNodes =
      cmModify h.KeyNodes Key.KeyCell
        (fun N => { N with LastWriteTime := env.SystemTime }) ∧
    (CmpSetSecurityDescriptorInfo env h Key info md).Kcb =
      { Key with KcbLastWriteTime := env.SystemTime } := by
  have hmapN : env.MapOk Key.KeyCell = true := by
    cases hm : env.MapOk Key.KeyCell with
    | false => simp [HvGetCellNode, hm] at hnode
    | true => rfl
  have hmapS : env.MapOk Node.Security = true := by
    cases hm : env.MapOk Node.Security with
    | false => simp [HvGetCellSecurity, hm] at hsec
    | true => rfl
  have hnode' : cmGet h.KeyNodes Key.KeyCell = some Node := by
    simpa [HvGetCellNode, hmapN] using hnode
  have hsec' : cmGet h.SecurityCells Node.Security = some S := by
    simpa [HvGetCellSecurity, hmapS] using hsec
  have hfind : CmpFindMatchingDescriptorCell env (SetSecurityDirtied h Key Node.Security)
        (env.SeSetSecurityDescriptorInfo info md S.Descriptor).2 (HvGetCellType Key.KeyCell)
      = some Node.Security := by
    rw [CmpFindMatchingDescriptorCell_SetSecurityDirtied]
    exact hmatch
  rw [CmpSetSecurityDescriptorInfo_eq_store env h Key info md Node S hnode' hsec' hmapN htrackN
    hmapS htrackS hmerge hdirtyN hdirtyS]
  simp [SetSecurityStore, hfind]

theorem C6_noop_set_changes_only_time_witness :
    (CmpSetSecurityDescriptorInfo ExampleEnv ExampleHiveShared ExampleKcb 4 [1, 2, 3]).Status
      = Outcome.Returned STATUS_SUCCESS :=
  (C6_noop_set_changes_only_time ExampleEnv ExampleHiveShared ExampleKcb 4 [1, 2, 3]
    { Flags := 0, LastWriteTime := 0, Parent := 32, Security := 1023 }
    { Signature := CM_KEY_SECURITY_SIGNATURE, Flink := 1023, Blink := 1023,
      ReferenceCount := 2, DescriptorLength := 3, Descriptor := [1, 2, 3] }
    (by decide) (by decide) (by decide) (by decide) (by decide) (by decide) (by decide)
    (by decide)).1

/-- C7 (set onto an existing other cell). When the merged descriptor matches a
live cell `M` other than the node's current cell `S` and the set succeeds, the
node points to `M` afterwards, the count of `M` is one higher and no cell is
allocated.  If the count of `S` was 1, `S` is freed, its cache entry and its
hash link are removed, and it is unlinked from the ring (its predecessor's
`Flink` is the former `S.Flink`, its successor's `Blink` the former `S.Blink`);
otherwise the count of `S` is one lower and the links, the cache and the hash
table are as before. -/
theorem C7_set_onto_existing_cell (env : Env) (h : CMHIVE) (Key : CM_KEY_CONTROL_BLOCK)
    (info : Nat) (md : List Nat) (Node : CM_KEY_NODE) (S F B Mc : CM_KEY_SECURITY)
    (D : List Nat) (M : HCELL_INDEX)
    (hnode : cmGet h.KeyNodes Key.KeyCell = some Node)
    (hsec : cmGet h.SecurityCells Node.Security = some S)
    (hflink : cmGet h.SecurityCells S.Flink = some F)
    (hblink : cmGet h.SecurityCells S.Blink = some B)
    (hMc : cmGet h.SecurityCells M = some Mc)
    (hD : (env.SeSetSecurityDescriptorInfo info md S.Descriptor).2 = D)
    (hmatch : CmpFindMatchingDescriptorCell env h D (HvGetCellType Key.KeyCell) = some M)
    (hne : M ≠ Node.Security)
    (hpin : ∀ c, env.DirtyOk c = true → env.MapOk c = true)
    (hSpos : 0 < S.ReferenceCount) (hSulong : S.ReferenceCount < 4294967296)
    (hMulong : Mc.ReferenceCount < 4294967295)
    (hok : (CmpSetSecurityDescriptorInfo env h Key info md).Status
      = Outcome.Returned STATUS_SUCCESS) :
    (cmGet (CmpSetSecurityDescriptorInfo env h Key info md).Hive.KeyNodes Key.KeyCell).map
        CM_KEY_NODE.Security = some M ∧
    (cmGet (CmpSetSecurityDescriptorInfo env h Key info md).Hive.SecurityCells M).map
        CM_KEY_SECURITY.ReferenceCount = some (Mc.ReferenceCount + 1) ∧
    (∀ c, (cmGet (CmpSetSecurityDescriptorInfo env h Key info md).Hive.SecurityCells c).isSome
        = true → (cmGet h.SecurityCells c).isSome = true) ∧
    (S.ReferenceCount = 1 →
      cmGet (CmpSetSecurityDescriptorInfo env h Key info md).Hive.SecurityCells Node.Security
        = none ∧
      (CmpSetSecurityDescriptorInfo env h Key info md).Hive.SecurityCache
        = cmErase h.SecurityCache Node.Security ∧
      (CmpSetSecurityDescriptorInfo env h Key info md).Hive.SecurityHash
        = CmpRemoveEntryList h.SecurityHash Node.Security ∧
      ∀ k, k ≠ Node.Security →
        cmGet (CmpSetSecurityDescriptorInfo env h Key info md).Hive.SecurityCells k =
          (cmGet h.SecurityCells k).map (fun X =>
            { X with
              Flink := if k = S.Blink then S.Flink else X.Flink,
              Blink := if k = S.Flink then S.Blink else X.Blink,
              ReferenceCount := if k = M then X.ReferenceCount + 1 else X.ReferenceCount })) ∧
    (S.ReferenceCount ≠ 1 →
      (CmpSetSecurityDescriptorInfo env h Key info md).Hive.SecurityCache = h.SecurityCache ∧
      (CmpSetSecurityDescriptorInfo env h Key info md).Hive.SecurityHash = h.SecurityHash ∧
      ∀ k,
        cmGet (CmpSetSecurityDescriptorInfo env h Key info md).Hive.SecurityCells k =
          (cmGet h.SecurityCells k).map (fun X =>
            { X with
              ReferenceCount :=
                if k = Node.Security then X.ReferenceCount - 1
                else if k = M then X.ReferenceCount + 1 else X.ReferenceCount })) := by
  obtain ⟨hmS, hdFB, _, hHive, _⟩ :=
    set_share_existing_effect env h Key info md Node S D M hnode hsec hD hmatch hne hok
  have hinc : ULONG_INC Mc.ReferenceCount = Mc.ReferenceCount + 1 := ULONG_INC_eq _ hMulong
  have hdec : ULONG_DEC S.ReferenceCount = S.ReferenceCount - 1 :=
    ULONG_DEC_eq _ hSpos hSulong
  have hSM : Node.Security ≠ M := fun hc => hne hc.symm
  have hnodes : (cmGet (CmpSetSecurityDescriptorInfo env h Key info md).Hive.KeyNodes
      Key.KeyCell).map CM_KEY_NODE.Security = some M := by
    rw [hHive]
    by_cases hrc : S.ReferenceCount = 1 <;>
      simp [ShareExistingReleased, hrc, cmGet_cmModify, hnode]
  by_cases hrc : S.ReferenceCount = 1
  · obtain ⟨hdF, hdB⟩ := hdFB hrc
    have hrem := CmpRemoveSecurityCellList_of_mapped env
      (Dirtied (Dirtied (Dirtied (SetSecurityDirtied h Key Node.Security) M) S.Flink) S.Blink)
      Node.Security S F B (by simpa using hsec) (by simpa using hflink) (by simpa using hblink)
      hmS (hpin _ hdF) (hpin _ hdB)
    have hcells : ∀ k,
        cmGet (CmpSetSecurityDescriptorInfo env h Key info md).Hive.SecurityCells k =
          if k = Node.Security then none else
          (cmGet h.SecurityCells k).map (fun X =>
            { X with
              Flink := if k = S.Blink then S.Flink else X.Flink,
              Blink := if k = S.Flink then S.Blink else X.Blink,
              ReferenceCount := if k = M then X.ReferenceCount + 1 else X.ReferenceCount }) := by
      intro k
      rw [hHive]
      simp only [ShareExistingReleased, hrc, if_true, hrem, WriteNode_SecurityCells,
        WriteSecurity_SecurityCells, HvFreeCell_SecurityCells,
        CmpRemoveFromSecurityCache_SecurityCells, Dirtied_SecurityCells,
        SetSecurityDirtied_SecurityCells]
      rw [cmGet_cmModify]
      simp only [cmGet_cmErase, cmGet_unlink]
      by_cases hkS : k = Node.Security
      · subst hkS
        simp [hSM]
      · by_cases hkM : k = M
        · subst hkM
          simp [hkS, hMc, hinc]
        · cases hk : cmGet h.SecurityCells k <;> simp [hkS, hkM, hk]
    refine ⟨hnodes, ?_, ?_, ?_, ?_⟩
    · rw [hcells]
      simp [hne, hMc]
    · intro c
      rw [hcells]
      by_cases hcS : c = Node.Security
      · simp [hcS]
      · cases hc : cmGet h.SecurityCells c <;> simp [hcS, hc]
    · intro _
      refine ⟨by rw [hcells]; simp, ?_, ?_, ?_⟩
      · rw [hHive]
        simp [ShareExistingReleased, hrc, hrem]
      · rw [hHive]
        simp [ShareExistingReleased, hrc, hrem]
      · intro k hk
        rw [hcells]
        simp [hk]
    · intro hc
      exact absurd hrc hc
  · have hcells : ∀ k,
        cmGet (CmpSetSecurityDescriptorInfo env h Key info md).Hive.SecurityCells k =
          (cmGet h.SecurityCells k).map (fun X =>
            { X with
              ReferenceCount :=
                if k = Node.Security then X.ReferenceCount - 1
                else if k = M then X.ReferenceCount + 1 else X.ReferenceCount }) := by
      intro k
      rw [hHive]
      simp only [ShareExistingReleased, hrc, if_false, WriteNode_SecurityCells,
        WriteSecurity_SecurityCells, Dirtied_SecurityCells,
        SetSecurityDirtied_SecurityCells, cmGet_cmModify]
      by_cases hkS : k = Node.Security
      · subst hkS
        simp [hSM, hsec, hdec]
      · by_cases hkM : k = M
        · subst hkM
          simp [hkS, hMc, hinc]
        · cases hk : cmGet h.SecurityCells k <;> simp [hkS, hkM, hk]
    refine ⟨hnodes, ?_, ?_, ?_, ?_⟩
    · rw [hcells]
      simp [hne, hMc]
    · intro c
      rw [hcells]
      cases hc : cmGet h.SecurityCells c <;> simp [hc]
    · intro hc
      exact absurd hc hrc
    · intro _
      refine ⟨?_, ?_, hcells⟩
      · rw [hHive]
        simp [ShareExistingReleased, hrc]
      · rw [hHive]
        simp [ShareExistingReleased, hrc]

theorem C7_set_onto_existing_cell_witness :
    (cmGet (CmpSetSecurityDescriptorInfo ExampleEnv ExampleHiveSplit ExampleKcb 4
        [1, 2, 3]).Hive.KeyNodes ExampleKcb.KeyCell).map CM_KEY_NODE.Security = some 1023 :=
  (C7_set_onto_existing_cell ExampleEnv ExampleHiveSplit ExampleKcb 4 [1, 2, 3]
    { Flags := 0, LastWriteTime := 0, Parent := 32, Security := 1022 }
    { Signature := CM_KEY_SECURITY_SIGNATURE, Flink := 1023, Blink := 1023,
      ReferenceCount := 1, DescriptorLength := 2, Descriptor := [9, 9] }
    { Signature := CM_KEY_SECURITY_SIGNATURE, Flink := 1022, Blink := 1022,
      ReferenceCount := 1, DescriptorLength := 3, Descriptor := [1, 2, 3] }
    { Signature := CM_KEY_SECURITY_SIGNATURE, Flink := 1022, Blink := 1022,
      ReferenceCount := 1, DescriptorLength := 3, Descriptor := [1, 2, 3] }
    { Signature := CM_KEY_SECURITY_SIGNATURE, Flink := 1022, Blink := 1022,
      ReferenceCount := 1, DescriptorLength := 3, Descriptor := [1, 2, 3] }
    [1, 2, 3] 1023
    (by decide) (by decide) (by decide) (by decide) (by decide) (by decide) (by decide)
    (by decide) (fun _ _ => rfl) (by decide) (by decide) (by decide) (by decide)).1

/-- C8 (copy-on-write split). When no cell matches the merged descriptor `D` and
the node's current cell `S` is shared (count above 1), a successful set
allocates a new cell `N` with count 1 holding `D`, lowers the count of `S` by
one and keeps `S`, points the node at `N`, adds a cache entry for `N`, and
splices `N` right after `S` in the ring: `N.Blink = S`, `N.Flink` is the former
`S.Flink`, `S.Flink = N` and the former successor's `Blink` is `N` (when `S` was
alone, that successor is `S` itself, so `S` and `N` point to each other both
ways).  Every other security cell is unchanged. -/
theorem C8_copy_on_write_split (env : Env) (h : CMHIVE) (Key : CM_KEY_CONTROL_BLOCK)
    (info : Nat) (md : List Nat) (Node : CM_KEY_NODE) (S F : CM_KEY_SECURITY) (D : List Nat)
    (hnode : cmGet h.KeyNodes Key.KeyCell = some Node)
    (hsec : cmGet h.SecurityCells Node.Security = some S)
    (hflink : cmGet h.SecurityCells S.Flink = some F)
    (hD : (env.SeSetSecurityDescriptorInfo info md S.Descriptor).2 = D)
    (hnomatch : CmpFindMatchingDescriptorCell env h D (HvGetCellType Key.KeyCell) = none)
    (hshared : 1 < S.ReferenceCount)
    (hulong : S.ReferenceCount < 4294967296)
    (hok : (CmpSetSecurityDescriptorInfo env h Key info md).Status
      = Outcome.Returned STATUS_SUCCESS) :
    ∃ N, cmGet h.SecurityCells N = none ∧
      (cmGet (CmpSetSecurityDescriptorInfo env h Key info md).Hive.KeyNodes Key.KeyCell).map
        CM_KEY_NODE.Security = some N ∧
      cmGet (CmpSetSecurityDescriptorInfo env h Key info md).Hive.SecurityCells N =
        some { Signature := CM_KEY_SECURITY_SIGNATURE, Flink := S.Flink, Blink := Node.Security,
               ReferenceCount := 1, DescriptorLength := RtlLengthSecurityDescriptor D,
               Descriptor := D } ∧
      cmGet (CmpSetSecurityDescriptorInfo env h Key info md).Hive.SecurityCells Node.Security =
        some { S with ReferenceCount := S.ReferenceCount - 1, Flink := N,
                      Blink := if S.Flink = Node.Security then N else S.Blink } ∧
      (S.Flink ≠ Node.Security →
        cmGet (CmpSetSecurityDescriptorInfo env h Key info md).Hive.SecurityCells S.Flink =
          some { F with Blink := N }) ∧
      (∀ c, c ≠ N → c ≠ Node.Security → c ≠ S.Flink →
        cmGet (CmpSetSecurityDescriptorInfo env h Key info md).Hive.SecurityCells c =
          cmGet h.SecurityCells c) ∧
      cmGet (CmpSetSecurityDescriptorInfo env h Key info md).Hive.SecurityCache N =
        some { Cell := N, ConvKey := env.CmpSecConvKey (RtlLengthSecurityDescriptor D) D,
               DescriptorLength := RtlLengthSecurityDescriptor D, Descriptor := D } ∧
      (env.CmpSecConvKey (RtlLengthSecurityDescriptor D) D % env.CmpSecHashTableSize, N) ∈
        (CmpSetSecurityDescriptorInfo env h Key info md).Hive.SecurityHash := by
  obtain ⟨hfree, ⟨X, hX, hK, hH⟩, hNodes, hCells, _⟩ :=
    set_copy_on_write_effect env h Key info md Node S F D _ hnode hsec hflink hD rfl hnomatch
      hshared hok
  obtain ⟨_, _, hnone, _⟩ := CellIsFree_spec h _ _ hfree
  have hget := cmGet_CopyOnWriteCells h.SecurityCells _ Node.Security S F D hnone hsec hflink
  have hNS : env.AllocIndex (SECURITY_CELL_LENGTH D) (HvGetCellType Key.KeyCell)
      ≠ Node.Security := by
    intro hc; rw [hc, hsec] at hnone; cases hnone
  have hSN : Node.Security
      ≠ env.AllocIndex (SECURITY_CELL_LENGTH D) (HvGetCellType Key.KeyCell) :=
    fun hc => hNS hc.symm
  have hNF : env.AllocIndex (SECURITY_CELL_LENGTH D) (HvGetCellType Key.KeyCell)
      ≠ S.Flink := by
    intro hc; rw [hc, hflink] at hnone; cases hnone
  have hFN : S.Flink ≠ env.AllocIndex (SECURITY_CELL_LENGTH D) (HvGetCellType Key.KeyCell) :=
    fun hc => hNF hc.symm
  have hdec : ULONG_DEC S.ReferenceCount = S.ReferenceCount - 1 :=
    ULONG_DEC_eq _ (by omega) hulong
  rw [hget] at hX
  simp only [if_true] at hX
  cases hX
  refine ⟨_, hnone, ?_, ?_, ?_, ?_, ?_, ?_, ?_⟩
  · rw [hNodes, cmGet_cmModify, cmGet_cmModify]
    simp [hnode]
  · rw [hCells, hget]
    simp
  · rw [hCells, hget]
    by_cases hFS : S.Flink = Node.Security
    · simp [hSN, hsec, hdec, hFS]
    · have hSF : ¬ Node.Security = S.Flink := fun hc => hFS hc.symm
      simp [hSN, hsec, hdec, hFS, hSF]
  · intro hFS
    rw [hCells, hget]
    simp [hFN, hflink, hFS]
  · intro c hcN hcS hcF
    rw [hCells, hget]
    cases hc : cmGet h.SecurityCells c <;> simp [hcN, hcS, hcF, hc]
  · rw [hK]
    simp [cmGet_cons, SecurityCacheEntry, RtlLengthSecurityDescriptor]
  · rw [hH]
    simp [InsertTailList, SecurityCacheEntry, RtlLengthSecurityDescriptor]

theorem C8_copy_on_write_split_witness :
    ∃ N, cmGet ExampleHiveShared.SecurityCells N = none ∧
      (cmGet (CmpSetSecurityDescriptorInfo ExampleEnv ExampleHiveShared ExampleKcb 4
        [9, 9]).Hive.KeyNodes ExampleKcb.KeyCell).map CM_KEY_NODE.Security = some N := by
  obtain ⟨N, h1, h2, _⟩ := C8_copy_on_write_split ExampleEnv ExampleHiveShared ExampleKcb 4
    [9, 9]
    { Flags := 0, LastWriteTime := 0, Parent := 32, Security := 1023 }
    { Signature := CM_KEY_SECURITY_SIGNATURE, Flink := 1023, Blink := 1023,
      ReferenceCount := 2, DescriptorLength := 3, Descriptor := [1, 2, 3] }
    { Signature := CM_KEY_SECURITY_SIGNATURE, Flink := 1023, Blink := 1023,
      ReferenceCount := 2, DescriptorLength := 3, Descriptor := [1, 2, 3] }
    [9, 9]
    (by decide) (by decide) (by decide) (by decide) (by decide) (by decide) (by decide)
    (by decide)
  exact ⟨N, h1, h2⟩

/-- C9 (in-place set). When no cell matches the merged descriptor `D1`, the
node's security cell is private (count 1) and `D1` has the stored length, a
successful set keeps the node's security index, allocates and frees no cell,
leaves every count and link as it was, overwrites the bytes of the cell and of
its cache entry with `D1`, and leaves the entry under the content hash of `D1`,
linked in exactly the bucket of that hash.  The same holds again for a second
such set, with merged descriptor `D2`, right after the first. -/
theorem C9_in_place_set_twice (env1 env2 : Env) (h : CMHIVE) (Key : CM_KEY_CONTROL_BLOCK)
    (info1 info2 : Nat) (md1 md2 : List Nat) (Node : CM_KEY_NODE) (S : CM_KEY_SECURITY)
    (e : CM_KEY_SECURITY_CACHE) (D1 D2 : List Nat)
    (hnode : cmGet h.KeyNodes Key.KeyCell = some Node)
    (hsec : cmGet h.SecurityCells Node.Security = some S)
    (hcache : cmGet h.SecurityCache Node.Security = some e)
    (hshadow : e.Descriptor = S.Descriptor)
    (hwf : S.Descriptor.length = S.DescriptorLength)
    (hprivate : S.ReferenceCount = 1)
    (hD1 : (env1.SeSetSecurityDescriptorInfo info1 md1 S.Descriptor).2 = D1)
    (hnomatch1 : CmpFindMatchingDescriptorCell env1 h D1 (HvGetCellType Key.KeyCell) = none)
    (hlen1 : RtlLengthSecurityDescriptor D1 = S.DescriptorLength)
    (hok1 : (CmpSetSecurityDescriptorInfo env1 h Key info1 md1).Status
      = Outcome.Returned STATUS_SUCCESS)
    (hD2 : (env2.SeSetSecurityDescriptorInfo info2 md2 D1).2 = D2)
    (hnomatch2 : CmpFindMatchingDescriptorCell env2
        (CmpSetSecurityDescriptorInfo env1 h Key info1 md1).Hive D2
        (HvGetCellType Key.KeyCell) = none)
    (hlen2 : RtlLengthSecurityDescriptor D2 = S.DescriptorLength)
    (hok2 : (CmpSetSecurityDescriptorInfo env2
        (CmpSetSecurityDescriptorInfo env1 h Key info1 md1).Hive
        (CmpSetSecurityDescriptorInfo env1 h Key info1 md1).Kcb info2 md2).Status
      = Outcome.Returned STATUS_SUCCESS) :
    InPlaceOutcome env1 h Key.KeyCell Node.Security D1
      (CmpSetSecurityDescriptorInfo env1 h Key info1 md1).Hive ∧
    InPlaceOutcome env2 (CmpSetSecurityDescriptorInfo env1 h Key info1 md1).Hive
      Key.KeyCell Node.Security D2
      (CmpSetSecurityDescriptorInfo env2
        (CmpSetSecurityDescriptorInfo env1 h Key info1 md1).Hive
        (CmpSetSecurityDescriptorInfo env1 h Key info1 md1).Kcb info2 md2).Hive := by
  have hrc : ¬ 1 < S.ReferenceCount := by omega
  have hout1 := set_in_place_outcome env1 h Key info1 md1 Node S e D1 hnode hsec hcache hshadow
    hwf hD1 hnomatch1 hrc hlen1 hok1
  obtain ⟨_, hN, _, _, _, hKcb⟩ :=
    set_in_place_effect env1 h Key info1 md1 Node S D1 hnode hsec hD1 hnomatch1 hrc hlen1 hok1
  refine ⟨hout1, ?_⟩
  obtain ⟨_, hC1, ⟨e0, he0, hK1⟩, _⟩ := hout1
  rw [hcache] at he0
  cases he0
  have hkc : (CmpSetSecurityDescriptorInfo env1 h Key info1 md1).Kcb.KeyCell = Key.KeyCell := by
    rw [hKcb]
  have hnode2 : cmGet (CmpSetSecurityDescriptorInfo env1 h Key info1 md1).Hive.KeyNodes
      (CmpSetSecurityDescriptorInfo env1 h Key info1 md1).Kcb.KeyCell
      = some { Node with LastWriteTime := env1.SystemTime } := by
    rw [hkc, hN, cmGet_cmModify]
    simp [hnode]
  have hsec2 : cmGet (CmpSetSecurityDescriptorInfo env1 h Key info1 md1).Hive.SecurityCells
      Node.Security = some { S with Descriptor := D1 } := by
    rw [hC1]
    simp [hsec]
  have hwf2 : D1.length = S.DescriptorLength := hlen1
  have := set_in_place_outcome env2 (CmpSetSecurityDescriptorInfo env1 h Key info1 md1).Hive
    (CmpSetSecurityDescriptorInfo env1 h Key info1 md1).Kcb info2 md2
    { Node with LastWriteTime := env1.SystemTime } { S with Descriptor := D1 }
    { e with Descriptor := D1,
             ConvKey := env1.CmpSecConvKey (RtlLengthSecurityDescriptor D1) D1 } D2
    hnode2 hsec2 hK1 rfl hwf2 hD2 (by rw [hkc]; exact hnomatch2) (by simpa using hrc) hlen2 hok2
  rw [hkc] at this
  exact this

theorem C9_in_place_set_twice_witness :
    InPlaceOutcome ExampleEnv ExampleHiveSplit 40 1022 [9, 8]
      (CmpSetSecurityDescriptorInfo ExampleEnv ExampleHiveSplit ExampleKcb 4 [9, 8]).Hive :=
  (C9_in_place_set_twice ExampleEnv ExampleEnv ExampleHiveSplit ExampleKcb 4 4 [9, 8] [7, 7]
    { Flags := 0, LastWriteTime := 0, Parent := 32, Security := 1022 }
    { Signature := CM_KEY_SECURITY_SIGNATURE, Flink := 1023, Blink := 1023,
      ReferenceCount := 1, DescriptorLength := 2, Descriptor := [9, 9] }
    { Cell := 1022, ConvKey := 18, DescriptorLength := 2, Descriptor := [9, 9] }
    [9, 8] [7, 7]
    (by decide) (by decide) (by decide) (by decide) (by decide) (by decide) (by decide)
    (by decide) (by decide) (by decide) (by decide) (by decide) (by decide) (by decide)).1

/-- C10 (relocating set). When no cell matches the merged descriptor `D`, the
node's cell `S` is private (count 1) and `D` has another length, a successful
set reallocates the cell from index `Old` to an index `New`; afterwards the
security cells are the previous ones with `Old` replaced by `New` everywhere:
the moved cell is at `New` with its count still 1 and with length and bytes of
`D`, every `Flink` and `Blink` that was `Old` (those of the two neighbours, or
of the cell itself when it was alone) is `New`, and all else is unchanged; the
node points to `New`; the cache has an entry for `New` shadowing `D`, linked in
the bucket of its hash, and, when `New` differs from `Old`, no entry and no
hash link for `Old`. -/
theorem C10_relocating_set (env : Env) (h : CMHIVE) (Key : CM_KEY_CONTROL_BLOCK)
    (info : Nat) (md : List Nat) (Node : CM_KEY_NODE) (S : CM_KEY_SECURITY) (D : List Nat)
    (hnode : cmGet h.KeyNodes Key.KeyCell = some Node)
    (hsec : cmGet h.SecurityCells Node.Security = some S)
    (hring : RingLinked h)
    (hD : (env.SeSetSecurityDescriptorInfo info md S.Descriptor).2 = D)
    (hnomatch : CmpFindMatchingDescriptorCell env h D (HvGetCellType Key.KeyCell) = none)
    (hprivate : S.ReferenceCount = 1)
    (hlen : RtlLengthSecurityDescriptor D ≠ S.DescriptorLength)
    (hok : (CmpSetSecurityDescriptorInfo env h Key info md).Status
      = Outcome.Returned STATUS_SUCCESS) :
    ∃ New, (New = Node.Security ∨ cmGet h.SecurityCells New = none) ∧
      (cmGet (CmpSetSecurityDescriptorInfo env h Key info md).Hive.KeyNodes Key.KeyCell).map
        CM_KEY_NODE.Security = some New ∧
      (∀ k, cmGet (CmpSetSecurityDescriptorInfo env h Key info md).Hive.SecurityCells k =
        if k = New then
          some { S with Flink := RenameCell Node.Security New S.Flink,
                        Blink := RenameCell Node.Security New S.Blink,
                        ReferenceCount := 1,
                        DescriptorLength := RtlLengthSecurityDescriptor D, Descriptor := D }
        else if k = Node.Security then none
        else
          (cmGet h.SecurityCells k).map (fun X =>
            { X with Flink := RenameCell Node.Security New X.Flink,
                     Blink := RenameCell Node.Security New X.Blink })) ∧
      cmGet (CmpSetSecurityDescriptorInfo env h Key info md).Hive.SecurityCache New =
        some { Cell := New, ConvKey := env.CmpSecConvKey (RtlLengthSecurityDescriptor D) D,
               DescriptorLength := RtlLengthSecurityDescriptor D, Descriptor := D } ∧
      (env.CmpSecConvKey (RtlLengthSecurityDescriptor D) D % env.CmpSecHashTableSize, New) ∈
        (CmpSetSecurityDescriptorInfo env h Key info md).Hive.SecurityHash ∧
      (New ≠ Node.Security →
        cmGet (CmpSetSecurityDescriptorInfo env h Key info md).Hive.SecurityCache Node.Security
          = none ∧
        ∀ b, (b, Node.Security) ∉
          (CmpSetSecurityDescriptorInfo env h Key info md).Hive.SecurityHash) := by
  obtain ⟨⟨F, hflink, hFB⟩, ⟨B, hblink, hBF⟩⟩ := hring _ _ hsec
  have hrc : ¬ 1 < S.ReferenceCount := by omega
  obtain ⟨hnew, ⟨X, hX, hK, hH⟩, hNodes, hCells, _⟩ :=
    set_reallocate_effect env h Key info md Node S F B D _ hnode hsec hflink hblink hD rfl
      hnomatch hrc hlen hok
  have hnew' : env.ReallocIndex Node.Security (SECURITY_CELL_LENGTH D) = Node.Security ∨
      cmGet h.SecurityCells (env.ReallocIndex Node.Security (SECURITY_CELL_LENGTH D)) = none := by
    rcases hnew with hn | hn
    · exact Or.inl hn
    · exact Or.inr (CellIsFree_spec h _ _ hn).2.2.1
  have hget := cmGet_ReallocatedCells h.SecurityCells Node.Security _ S F B D hsec hflink
    hblink hnew'
  rw [hget] at hX
  simp only [if_true] at hX
  cases hX
  refine ⟨_, hnew', ?_, ?_, ?_, ?_, ?_⟩
  · rw [hNodes, cmGet_cmModify, cmGet_cmModify]
    simp [hnode]
  · intro k
    rw [hCells, hget]
    by_cases hkN : k = env.ReallocIndex Node.Security (SECURITY_CELL_LENGTH D)
    · simp [hkN, hprivate]
    · by_cases hkO : k = Node.Security
      · subst hkO
        simp [hkN]
      · simp only [hkN, hkO, if_false]
        cases hk : cmGet h.SecurityCells k with
        | none => rfl
        | some Xk =>
          obtain ⟨⟨Fk, hFk, hFkB⟩, ⟨Bk, hBk, hBkF⟩⟩ := hring _ _ hk
          have h1 : (k = S.Blink) ↔ (Xk.Flink = Node.Security) := by
            constructor
            · intro hc
              rw [← hc, hk] at hblink
              cases hblink
              exact hBF
            · intro hc
              rw [hc, hsec] at hFk
              cases hFk
              exact hFkB.symm
          have h2 : (k = S.Flink) ↔ (Xk.Blink = Node.Security) := by
            constructor
            · intro hc
              rw [← hc, hk] at hflink
              cases hflink
              exact hFB
            · intro hc
              rw [hc, hsec] at hBk
              cases hBk
              exact hBkF.symm
          simp only [Option.map_some', RenameCell]
          by_cases hc1 : k = S.Blink <;> by_cases hc2 : k = S.Flink
          · simp [if_pos hc1, if_pos hc2, if_pos (h1.mp hc1), if_pos (h2.mp hc2)]
          · simp [if_pos hc1, if_neg hc2, if_pos (h1.mp hc1), if_neg (fun hc => hc2 (h2.mpr hc))]
          · simp [if_neg hc1, if_pos hc2, if_neg (fun hc => hc1 (h1.mpr hc)), if_pos (h2.mp hc2)]
          · simp [if_neg hc1, if_neg hc2, if_neg (fun hc => hc1 (h1.mpr hc)),
              if_neg (fun hc => hc2 (h2.mpr hc))]
  · rw [hK]
    simp [cmGet_cons, SecurityCacheEntry, RtlLengthSecurityDescriptor]
  · rw [hH]
    simp [InsertTailList, SecurityCacheEntry, RtlLengthSecurityDescriptor]
  · intro hne
    have hne' : ¬ Node.Security = env.ReallocIndex Node.Security (SECURITY_CELL_LENGTH D) :=
      fun hc => hne hc.symm
    constructor
    · rw [hK]
      simp [cmGet_cons, cmGet_cmErase, hne, hne']
    · intro b
      rw [hH]
      simp [InsertTailList, CmpRemoveEntryList, hne']

theorem C10_relocating_set_witness :
    ∃ New, (New = 1022 ∨ cmGet ExampleHiveSplit.SecurityCells New = none) ∧
      (cmGet (CmpSetSecurityDescriptorInfo ExampleEnv ExampleHiveSplit ExampleKcb 4
        [9, 8, 7]).Hive.KeyNodes ExampleKcb.KeyCell).map CM_KEY_NODE.Security = some New := by
  obtain ⟨New, h1, h2, _⟩ := C10_relocating_set ExampleEnv ExampleHiveSplit ExampleKcb 4
    [9, 8, 7]
    { Flags := 0, LastWriteTime := 0, Parent := 32, Security := 1022 }
    { Signature := CM_KEY_SECURITY_SIGNATURE, Flink := 1023, Blink := 1023,
      ReferenceCount := 1, DescriptorLength := 2, Descriptor := [9, 9] }
    [9, 8, 7]
    (by decide) (by decide) (RingLinked_of_forall_mem _ (by decide)) (by decide) (by decide)
    (by decide) (by decide) (by decide)
  exact ⟨New, h1, h2⟩

/-- C11 (release). Let the node at `Cell` reference the live security cell `S`
(index `Node.Security`, count at least 1), with every cell the release touches
mappable. After `CmpFreeSecurityDescriptor` the node's `Security` is
`HCELL_NIL` and the other nodes are as before. If the count of `S` was 1, `S`
is no longer allocated, it has no cache entry and no hash link, its former
predecessor has the former successor as `Flink` and the former successor has
the former predecessor as `Blink` (for each of the two that is not `S`
itself), and every other security cell is unchanged. Otherwise `S` is
unchanged but for its count, which is one less, every other security cell is
unchanged (so the ring is), and the cache and its hash links are unchanged. -/
theorem C11_release_effect (env : Env) (h : CMHIVE) (Cell : HCELL_INDEX)
    (Node : CM_KEY_NODE) (S : CM_KEY_SECURITY)
    (hnode : cmGet h.KeyNodes Cell = some Node)
    (hsec : cmGet h.SecurityCells Node.Security = some S)
    (hmapped : ReleaseMapped env h Cell = true)
    (hlive : 0 < S.ReferenceCount) (hulong : S.ReferenceCount < 4294967296) :
    cmGet (CmpFreeSecurityDescriptor env h Cell).KeyNodes Cell =
        some { Node with Security := HCELL_NIL } ∧
      (∀ k, k ≠ Cell →
        cmGet (CmpFreeSecurityDescriptor env h Cell).KeyNodes k = cmGet h.KeyNodes k) ∧
      (S.ReferenceCount = 1 →
        cmGet (CmpFreeSecurityDescriptor env h Cell).SecurityCells Node.Security = none ∧
        cmGet (CmpFreeSecurityDescriptor env h Cell).SecurityCache Node.Security = none ∧
        (∀ l, l ∈ (CmpFreeSecurityDescriptor env h Cell).SecurityHash → l.2 ≠ Node.Security) ∧
        (S.Blink ≠ Node.Security →
          (cmGet (CmpFreeSecurityDescriptor env h Cell).SecurityCells S.Blink).map
            CM_KEY_SECURITY.Flink = some S.Flink) ∧
        (S.Flink ≠ Node.Security →
          (cmGet (CmpFreeSecurityDescriptor env h Cell).SecurityCells S.Flink).map
            CM_KEY_SECURITY.Blink = some S.Blink) ∧
        (∀ k, k ≠ Node.Security → k ≠ S.Flink → k ≠ S.Blink →
          cmGet (CmpFreeSecurityDescriptor env h Cell).SecurityCells k =
            cmGet h.SecurityCells k)) ∧
      (S.ReferenceCount ≠ 1 →
        cmGet (CmpFreeSecurityDescriptor env h Cell).SecurityCells Node.Security =
          some { S with ReferenceCount := S.ReferenceCount - 1 } ∧
        (∀ k, k ≠ Node.Security →
          cmGet (CmpFreeSecurityDescriptor env h Cell).SecurityCells k =
            cmGet h.SecurityCells k) ∧
        (CmpFreeSecurityDescriptor env h Cell).SecurityCache = h.SecurityCache ∧
        (CmpFreeSecurityDescriptor env h Cell).SecurityHash = h.SecurityHash) := by
  obtain ⟨Node1, S1, hnode1, hsec1, hcase⟩ :=
    CmpFreeSecurityDescriptor_of_mapped env h Cell hmapped
  have hN : Node1 = Node := Option.some.inj (hnode1.symm.trans hnode)
  subst hN
  have hS : S1 = S := Option.some.inj (hsec1.symm.trans hsec)
  subst hS
  have hnodes : (CmpFreeSecurityDescriptor env h Cell).KeyNodes =
      cmModify h.KeyNodes Cell (fun N => { N with Security := HCELL_NIL }) := by
    rcases hcase with ⟨_, _, _, heq⟩ | ⟨_, heq⟩ <;> rw [heq] <;> rfl
  refine ⟨?_, ?_, ?_, ?_⟩
  · rw [hnodes, cmGet_cmModify]
    simp [hnode1]
  · intro k hk
    rw [hnodes, cmGet_cmModify]
    simp [hk]
  · intro h1
    rcases hcase with ⟨_, ⟨F, hF⟩, ⟨B, hB⟩, heq⟩ | ⟨hne, _⟩
    · rw [heq]
      simp only [WriteNode_SecurityCells, WriteSecurity_SecurityCells, HvFreeCell_SecurityCells,
        CmpRemoveFromSecurityCache_SecurityCells, WriteNode_SecurityCache,
        HvFreeCell_SecurityCache, CmpRemoveFromSecurityCache_SecurityCache,
        WriteSecurity_SecurityCache, WriteNode_SecurityHash, HvFreeCell_SecurityHash,
        CmpRemoveFromSecurityCache_SecurityHash, WriteSecurity_SecurityHash, cmGet_cmErase,
        cmGet_unlink]
      refine ⟨by simp, by simp, ?_, ?_, ?_, ?_⟩
      · intro l hl
        have := (List.mem_filter.1 hl).2
        simpa using this
      · intro hb
        simp [hb, hB]
      · intro hf
        simp [hf, hF]
      · intro k hk hkf hkb
        cases hc : cmGet h.SecurityCells k <;> simp [hk, hkf, hkb, hc]
    · exact absurd h1 hne
  · intro hne
    rcases hcase with ⟨h1, _⟩ | ⟨_, heq⟩
    · exact absurd h1 hne
    · rw [heq]
      simp only [WriteNode_SecurityCells, WriteSecurity_SecurityCells, WriteNode_SecurityCache,
        WriteSecurity_SecurityCache, WriteNode_SecurityHash, WriteSecurity_SecurityHash,
        cmGet_cmModify]
      refine ⟨?_, ?_, trivial, trivial⟩
      · simp [hsec1, ULONG_DEC_eq _ hlive hulong]
      · intro k hk
        simp [hk]

theorem C11_release_effect_witness :
    cmGet (CmpFreeSecurityDescriptor ExampleEnv ExampleHiveSplit 40).KeyNodes 40 =
        some { Flags := 0, LastWriteTime := 0, Parent := 32, Security := HCELL_NIL } ∧
      cmGet (CmpFreeSecurityDescriptor ExampleEnv ExampleHiveSplit 40).SecurityCells 1022 = none ∧
      (cmGet (CmpFreeSecurityDescriptor ExampleEnv ExampleHiveSplit 40).SecurityCells 1023).map
        CM_KEY_SECURITY.Flink = some 1023 :=
  have key := C11_release_effect ExampleEnv ExampleHiveSplit 40
    { Flags := 0, LastWriteTime := 0, Parent := 32, Security := 1022 }
    { Signature := CM_KEY_SECURITY_SIGNATURE, Flink := 1023, Blink := 1023,
      ReferenceCount := 1, DescriptorLength := 2, Descriptor := [9, 9] }
    (by decide) (by decide) (by decide) (by decide) (by decide)
  ⟨key.1, (key.2.2.1 rfl).1, (key.2.2.1 rfl).2.2.2.1 (by decide)⟩

/-- C12 (assign on a dedup hit). When the lookup finds the cell `M` for the
descriptor and `CmpAssignSecurityDescriptor` succeeds, the cell store saw, in
this order, the node marked dirty, `M` marked dirty, `M` written and the node
written, and nothing else: no cell was allocated, and `M` was marked dirty
before it was changed. The allocated security cells are the same, `M` is
unchanged but for its count, which is one more, every other security cell is
unchanged, so every `Flink` and `Blink` is, the node's `Security` is `M`, and
the cache and its hash links are unchanged. -/
theorem C12_assign_dedup_hit (env : Env) (h : CMHIVE) (Cell : HCELL_INDEX) (D : List Nat)
    (M : HCELL_INDEX) (Node : CM_KEY_NODE) (X : CM_KEY_SECURITY)
    (hfind : CmpFindMatchingDescriptorCell env h D (HvGetCellType Cell) = some M)
    (hnode : cmGet h.KeyNodes Cell = some Node)
    (hX : cmGet h.SecurityCells M = some X)
    (hrc : X.ReferenceCount < 4294967295)
    (hok : (CmpAssignSecurityDescriptor env h Cell D).1 = STATUS_SUCCESS) :
    (CmpAssignSecurityDescriptor env h Cell D).2.Log =
        CellEvent.Write Cell :: CellEvent.Write M :: CellEvent.Dirty M ::
          CellEvent.Dirty Cell :: h.Log ∧
      cmKeys (CmpAssignSecurityDescriptor env h Cell D).2.SecurityCells =
        cmKeys h.SecurityCells ∧
      cmGet (CmpAssignSecurityDescriptor env h Cell D).2.SecurityCells M =
        some { X with ReferenceCount := X.ReferenceCount + 1 } ∧
      (∀ k, k ≠ M →
        cmGet (CmpAssignSecurityDescriptor env h Cell D).2.SecurityCells k =
          cmGet h.SecurityCells k) ∧
      (∀ k, LinksOf (CmpAssignSecurityDescriptor env h Cell D).2.SecurityCells k =
        LinksOf h.SecurityCells k) ∧
      cmGet (CmpAssignSecurityDescriptor env h Cell D).2.KeyNodes Cell =
        some { Node with Security := M } ∧
      (CmpAssignSecurityDescriptor env h Cell D).2.SecurityCache = h.SecurityCache ∧
      (CmpAssignSecurityDescriptor env h Cell D).2.SecurityHash = h.SecurityHash := by
  obtain ⟨_, hcase⟩ := CmpAssignSecurityDescriptor_of_success env h Cell D hok
  rcases hcase with ⟨M1, X1, hfind1, _, _, _, heq⟩ | ⟨hnone, _⟩
  · have hM : M1 = M := Option.some.inj (hfind1.symm.trans hfind)
    subst hM
    rw [heq]
    refine ⟨rfl, ?_, ?_, ?_, ?_, ?_, rfl, rfl⟩
    · simp only [WriteNode_SecurityCells, WriteSecurity_SecurityCells]
      exact cmKeys_cmModify _ _ _
    · simp only [WriteNode_SecurityCells, WriteSecurity_SecurityCells, cmGet_cmModify]
      simp [Dirtied, hX, ULONG_INC_eq _ hrc]
    · intro k hk
      simp only [WriteNode_SecurityCells, WriteSecurity_SecurityCells, cmGet_cmModify]
      simp [Dirtied, hk]
    · intro k
      simp only [WriteNode_SecurityCells, WriteSecurity_SecurityCells]
      rw [LinksOf_cmModify_keep]
      rfl
    · simp only [WriteNode_KeyNodes, cmGet_cmModify]
      simp [Dirtied, hnode]
  · rw [hnone] at hfind
    exact absurd hfind (by simp)

theorem C12_assign_dedup_hit_witness :
    (CmpAssignSecurityDescriptor ExampleEnv ExampleHiveShared 48 [1, 2, 3]).2.Log =
        [CellEvent.Write 48, CellEvent.Write 1023, CellEvent.Dirty 1023, CellEvent.Dirty 48] ∧
      cmGet (CmpAssignSecurityDescriptor ExampleEnv ExampleHiveShared 48 [1, 2, 3]).2.SecurityCells
          1023 =
        some { Signature := CM_KEY_SECURITY_SIGNATURE, Flink := 1023, Blink := 1023,
               ReferenceCount := 3, DescriptorLength := 3, Descriptor := [1, 2, 3] } :=
  have key := C12_assign_dedup_hit ExampleEnv ExampleHiveShared 48 [1, 2, 3] 1023
    { Flags := 0, LastWriteTime := 0, Parent := 32, Security := HCELL_NIL }
    { Signature := CM_KEY_SECURITY_SIGNATURE, Flink := 1023, Blink := 1023,
      ReferenceCount := 2, DescriptorLength := 3, Descriptor := [1, 2, 3] }
    (by decide) (by decide) (by decide) (by decide) (by decide)
  ⟨key.1, key.2.2.1⟩

/-- C13 (assign is all-or-nothing), evaluated where the code departs from it.
The node at cell 48 of `ExampleHiveShared` is given the new descriptor
`[7, 7]` while the pool allocation for the cache entry fails: the new cell
1022 has been spliced into the ring after the parent's cell 1023 when
`CmpAddSecurityCellToCache` fails, `CmpInsertSecurityCellList` returns FALSE
without undoing the splice, and `CmpAssignSecurityDescriptor` frees the new
cell and returns `STATUS_NO_LOG_SPACE`. The node's `Security` is still
`HCELL_NIL` and the allocated security cells and the cache are as before,
but `Flink` and `Blink` of cell 1023, which were 1023, now hold the index of
the freed cell. -/
theorem C13_failed_assign_leaves_links_to_freed_cell :
    (CmpAssignSecurityDescriptor ExampleEnvNoPool ExampleHiveShared 48 [7, 7]).1 =
        STATUS_NO_LOG_SPACE ∧
      cmGet (CmpAssignSecurityDescriptor ExampleEnvNoPool ExampleHiveShared 48 [7, 7]).2.KeyNodes
          48 =
        some { Flags := 0, LastWriteTime := 0, Parent := 32, Security := HCELL_NIL } ∧
      cmKeys (CmpAssignSecurityDescriptor ExampleEnvNoPool ExampleHiveShared 48
          [7, 7]).2.SecurityCells = cmKeys ExampleHiveShared.SecurityCells ∧
      (CmpAssignSecurityDescriptor ExampleEnvNoPool ExampleHiveShared 48 [7, 7]).2.SecurityCache =
        ExampleHiveShared.SecurityCache ∧
      LinksOf ExampleHiveShared.SecurityCells 1023 = some (1023, 1023) ∧
      LinksOf (CmpAssignSecurityDescriptor ExampleEnvNoPool ExampleHiveShared 48
          [7, 7]).2.SecurityCells 1023 = some (1022, 1022) ∧
      cmGet (CmpAssignSecurityDescriptor ExampleEnvNoPool ExampleHiveShared 48
          [7, 7]).2.SecurityCells 1022 = none := by
  decide

/-- C14 (set leaves no partial state after a failed dirty-mark or allocation),
evaluated where the code departs from it. The node at cell 40 of
`ExampleHivePair` shares cell 1023 with the root; a set to the new descriptor
`[7, 7]` takes the copy-on-write branch, `HvAllocateCell` hands out cell 1022,
and then `HvMarkCellDirty` fails on the `Flink` neighbour 1020 (line 708): the
set returns `STATUS_NO_LOG_SPACE` with the node, the two old cells and the
cache as before, but with cell 1022 still allocated. -/
theorem C14_failed_set_keeps_allocated_cell :
    (CmpSetSecurityDescriptorInfo ExampleEnvNoLog ExampleHivePair ExampleKcb 4 [7, 7]).Status =
        Outcome.Returned STATUS_NO_LOG_SPACE ∧
      (CmpSetSecurityDescriptorInfo ExampleEnvNoLog ExampleHivePair ExampleKcb 4
          [7, 7]).Hive.KeyNodes = ExampleHivePair.KeyNodes ∧
      (CmpSetSecurityDescriptorInfo ExampleEnvNoLog ExampleHivePair ExampleKcb 4
          [7, 7]).Hive.SecurityCache = ExampleHivePair.SecurityCache ∧
      (∀ k, k ∈ cmKeys ExampleHivePair.SecurityCells →
        cmGet (CmpSetSecurityDescriptorInfo ExampleEnvNoLog ExampleHivePair ExampleKcb 4
            [7, 7]).Hive.SecurityCells k = cmGet ExampleHivePair.SecurityCells k) ∧
      cmKeys ExampleHivePair.SecurityCells = [1020, 1023] ∧
      cmKeys (CmpSetSecurityDescriptorInfo ExampleEnvNoLog ExampleHivePair ExampleKcb 4
          [7, 7]).Hive.SecurityCells = [1022, 1020, 1023] ∧
      (CmpSetSecurityDescriptorInfo ExampleEnvNoLog ExampleHivePair ExampleKcb 4
          [7, 7]).Hive.Log =
        [CellEvent.Allocate 1022, CellEvent.Dirty 1023, CellEvent.Dirty 40] := by
  decide

/-- C15 (single-node check result). `CmpCheckKeyAccess` returns
`STATUS_SUCCESS` if and only if the node cell and its security cell are
mapped, the buffers are allocated, the query for the full descriptor (owner,
group, DACL and SACL) answers `STATUS_SUCCESS` and the evaluation of
`DesiredAccess` on the queried descriptor returns TRUE. Given that the query
primitive does not itself answer `STATUS_ACCESS_DENIED`, the check returns
`STATUS_ACCESS_DENIED` if and only if the evaluation ran (once, on this node)
and returned FALSE. When the node cell or the security cell cannot be mapped
or a buffer cannot be allocated, the check returns
`STATUS_INSUFFICIENT_RESOURCES` and no evaluation ran. -/
theorem C15_single_node_check (env : Env) (acc : AccessEnv) (Hive : CMHIVE)
    (NodeCell : HCELL_INDEX) (PreviousMode DesiredAccess : Nat)
    (hquery : QueryNeverDenies acc) :
    ((CmpCheckKeyAccess env acc Hive NodeCell PreviousMode DesiredAccess).1 = STATUS_SUCCESS ↔
      ∃ Node S, HvGetCellNode env Hive NodeCell = some Node ∧
        HvGetCellSecurity env Hive Node.Security = some S ∧
        BuffersAllocated acc S = true ∧
        (FullDescriptorQuery acc S).1 = STATUS_SUCCESS ∧
        acc.SeAccessCheck (FullDescriptorQuery acc S).2.2 DesiredAccess PreviousMode = true) ∧
    ((CmpCheckKeyAccess env acc Hive NodeCell PreviousMode DesiredAccess).1 =
        STATUS_ACCESS_DENIED ↔
      ∃ Node S, HvGetCellNode env Hive NodeCell = some Node ∧
        HvGetCellSecurity env Hive Node.Security = some S ∧
        AccessChecks (CmpCheckKeyAccess env acc Hive NodeCell PreviousMode DesiredAccess).2 =
          [NodeCell] ∧
        acc.SeAccessCheck (FullDescriptorQuery acc S).2.2 DesiredAccess PreviousMode = false) ∧
    ((HvGetCellNode env Hive NodeCell = none ∨
        ∃ Node, HvGetCellNode env Hive NodeCell = some Node ∧
          (HvGetCellSecurity env Hive Node.Security = none ∨
            ∃ S, HvGetCellSecurity env Hive Node.Security = some S ∧
              BuffersAllocated acc S = false)) →
      (CmpCheckKeyAccess env acc Hive NodeCell PreviousMode DesiredAccess).1 =
          STATUS_INSUFFICIENT_RESOURCES ∧
        AccessChecks (CmpCheckKeyAccess env acc Hive NodeCell PreviousMode DesiredAccess).2 =
          []) := by
  have hI := STATUS_INSUFFICIENT_RESOURCES_ne
  have hID := STATUS_INSUFFICIENT_RESOURCES_ne_denied
  have hD := STATUS_ACCESS_DENIED_ne
  cases hn : HvGetCellNode env Hive NodeCell with
  | none =>
    obtain ⟨h1, h2⟩ := CmpCheckKeyAccess_no_node env acc Hive NodeCell PreviousMode
      DesiredAccess hn
    simp [h1, h2, hI, hID]
  | some Node =>
    cases hs : HvGetCellSecurity env Hive Node.Security with
    | none =>
      obtain ⟨h1, h2⟩ := CmpCheckKeyAccess_no_security env acc Hive NodeCell PreviousMode
        DesiredAccess Node hn hs
      simp [h1, h2, hI, hID, hs]
    | some S =>
      have hqd := FullDescriptorQuery_ne_denied acc S hquery
      rcases CmpCheckKeyAccess_mapped env acc Hive NodeCell PreviousMode DesiredAccess Node S
        hn hs with ⟨hb, h1, h2⟩ | ⟨hb, hq, h1, h2⟩ | ⟨hb, hq, he, h1, h2⟩ | ⟨hb, hq, he, h1, h2⟩
      · simp [h1, h2, hI, hID, hs, hb]
      · have hqs : (FullDescriptorQuery acc S).1 ≠ STATUS_SUCCESS := not_NT_SUCCESS_ne _ hq
        simp [h1, h2, hs, hb, hqs, hqd]
      · simp [h1, h2, hs, hb, he, hqd]
      · simp [h1, h2, hs, hb, he, hD]

theorem C15_single_node_check_witness :
    (CmpCheckKeyAccess ExampleEnv ExampleAccessEnv ExampleTreeHive 56 1 1).1 =
        STATUS_ACCESS_DENIED ↔
      ∃ Node S, HvGetCellNode ExampleEnv ExampleTreeHive 56 = some Node ∧
        HvGetCellSecurity ExampleEnv ExampleTreeHive Node.Security = some S ∧
        AccessChecks (CmpCheckKeyAccess ExampleEnv ExampleAccessEnv ExampleTreeHive 56 1 1).2 =
          [56] ∧
        ExampleAccessEnv.SeAccessCheck (FullDescriptorQuery ExampleAccessEnv S).2.2 1 1 = false :=
  (C15_single_node_check ExampleEnv ExampleAccessEnv ExampleTreeHive 56 1 1
    QueryNeverDenies_ExampleAccessEnv).2.1

/-- C16 (subtree check with the root included). Let the subtree below `Cell`
be a finite key tree of at most `CMP_MAX_REGISTRY_DEPTH` levels whose node
cells can all be mapped, let the check stack be allocated, and let a
successful answer of the query primitive be `STATUS_SUCCESS`. Then
`CmpDoAccessCheckOnSubtree` with `CheckRoot = TRUE` returns, within `WalkFuel`
iterations of its loop, and it returns `STATUS_SUCCESS` if and only if
`CmpCheckKeyAccess` returns `STATUS_SUCCESS` on every node of the subtree;
otherwise it returns the status of the first node in pre-order (a node before
its subkeys, the subkeys in index order) whose check does not return
`STATUS_SUCCESS`. -/
theorem C16_subtree_check_with_root (env : Env) (acc : AccessEnv) (H : CMHIVE)
    (Cell : HCELL_INDEX) (PreviousMode DesiredAccess : Nat)
    (halloc : acc.CheckStackAllocated = true)
    (htree : TreeWithin env acc H acc.CMP_MAX_REGISTRY_DEPTH Cell = true)
    (hquery : QuerySucceedsPlainly acc) :
    ∀ fuel, WalkFuel acc ≤ fuel →
      ∃ r,
        CmpDoAccessCheckOnSubtree env acc fuel H Cell PreviousMode DesiredAccess true = some r ∧
        (r.Status = STATUS_SUCCESS ↔
          ∀ c, c ∈ SubtreeCells env acc H acc.CMP_MAX_REGISTRY_DEPTH Cell →
            (CmpCheckKeyAccess env acc H c PreviousMode DesiredAccess).1 = STATUS_SUCCESS) ∧
        (∀ pre x post,
          SubtreeCells env acc H acc.CMP_MAX_REGISTRY_DEPTH Cell = pre ++ x :: post →
          (∀ c, c ∈ pre →
            (CmpCheckKeyAccess env acc H c PreviousMode DesiredAccess).1 = STATUS_SUCCESS) →
          (CmpCheckKeyAccess env acc H x PreviousMode DesiredAccess).1 ≠ STATUS_SUCCESS →
          r.Status = (CmpCheckKeyAccess env acc H x PreviousMode DesiredAccess).1) := by
  have hpos := TreeWithin_pos env acc H _ Cell htree
  obtain ⟨rest, hcells⟩ := SubtreeCells_ne_nil env acc H _ Cell hpos
  have hne : SubtreeCells env acc H acc.CMP_MAX_REGISTRY_DEPTH Cell ≠ [] := by
    rw [hcells]
    simp
  have hplain : ∀ c, NT_SUCCESS (CmpCheckKeyAccess env acc H c PreviousMode DesiredAccess).1 = true →
      (CmpCheckKeyAccess env acc H c PreviousMode DesiredAccess).1 = STATUS_SUCCESS :=
    fun c => CmpCheckKeyAccess_success_plain env acc H c PreviousMode DesiredAccess hquery
  have hfails : ∀ c, (CmpCheckKeyAccess env acc H c PreviousMode DesiredAccess).1 ≠
      STATUS_SUCCESS →
      NT_SUCCESS (CmpCheckKeyAccess env acc H c PreviousMode DesiredAccess).1 = false := by
    intro c hc
    cases hs : NT_SUCCESS (CmpCheckKeyAccess env acc H c PreviousMode DesiredAccess).1 with
    | false => rfl
    | true => exact absurd (hplain c hs) hc
  have hsucc : ∀ c, (CmpCheckKeyAccess env acc H c PreviousMode DesiredAccess).1 =
      STATUS_SUCCESS →
      NT_SUCCESS (CmpCheckKeyAccess env acc H c PreviousMode DesiredAccess).1 = true := by
    intro c hc
    rw [hc]
    rfl
  intro fuel hfuel
  obtain ⟨r, hr, hst, _, _⟩ := CmpDoAccessCheckOnSubtree_result env acc H Cell PreviousMode
    DesiredAccess true halloc htree fuel hfuel
  rw [if_pos rfl] at hst
  have hfirst : ∀ pre x post,
      SubtreeCells env acc H acc.CMP_MAX_REGISTRY_DEPTH Cell = pre ++ x :: post →
      (∀ c, c ∈ pre →
        (CmpCheckKeyAccess env acc H c PreviousMode DesiredAccess).1 = STATUS_SUCCESS) →
      (CmpCheckKeyAccess env acc H x PreviousMode DesiredAccess).1 ≠ STATUS_SUCCESS →
      r.Status = (CmpCheckKeyAccess env acc H x PreviousMode DesiredAccess).1 := by
    intro pre x post hl hpre hx
    rw [hst, hl, CheckAll_of_first_failure _ pre post x _ (fun c hc => hsucc c (hpre c hc))
      (hfails x hx)]
  refine ⟨r, hr, ⟨fun hs => ?_, fun hall => ?_⟩, hfirst⟩
  · by_contra hnot
    have hnot2 : ¬ ∀ c, c ∈ SubtreeCells env acc H acc.CMP_MAX_REGISTRY_DEPTH Cell →
        NT_SUCCESS (CmpCheckKeyAccess env acc H c PreviousMode DesiredAccess).1 = true :=
      fun h => hnot (fun c hc => hplain c (h c hc))
    obtain ⟨pre, x, post, hl, hpre, hx⟩ := exists_first_failure
      (fun c => (CmpCheckKeyAccess env acc H c PreviousMode DesiredAccess).1) _ hnot2
    have := hfirst pre x post hl (fun c hc => hplain c (hpre c hc))
      (not_NT_SUCCESS_ne _ hx)
    rw [this] at hs
    exact not_NT_SUCCESS_ne _ hx hs
  · rw [hst]
    exact (CheckAll_of_all _ _ _ (fun c hc => hsucc c (hall c hc))).2.2 hall (Or.inr hne)

theorem C16_subtree_check_with_root_witness :
    ∃ r,
      CmpDoAccessCheckOnSubtree ExampleEnv ExampleAccessEnv (WalkFuel ExampleAccessEnv)
          ExampleTreeHive 32 1 1 true = some r ∧
      (r.Status = STATUS_SUCCESS ↔
        ∀ c, c ∈ SubtreeCells ExampleEnv ExampleAccessEnv ExampleTreeHive
            ExampleAccessEnv.CMP_MAX_REGISTRY_DEPTH 32 →
          (CmpCheckKeyAccess ExampleEnv ExampleAccessEnv ExampleTreeHive c 1 1).1 =
            STATUS_SUCCESS) ∧
      (∀ pre x post,
        SubtreeCells ExampleEnv ExampleAccessEnv ExampleTreeHive
            ExampleAccessEnv.CMP_MAX_REGISTRY_DEPTH 32 = pre ++ x :: post →
        (∀ c, c ∈ pre →
          (CmpCheckKeyAccess ExampleEnv ExampleAccessEnv ExampleTreeHive c 1 1).1 =
            STATUS_SUCCESS) →
        (CmpCheckKeyAccess ExampleEnv ExampleAccessEnv ExampleTreeHive x 1 1).1 ≠
          STATUS_SUCCESS →
        r.Status = (CmpCheckKeyAccess ExampleEnv ExampleAccessEnv ExampleTreeHive x 1 1).1) :=
  C16_subtree_check_with_root ExampleEnv ExampleAccessEnv ExampleTreeHive 32 1 1
    (by decide) (by decide) QuerySucceedsPlainly_ExampleAccessEnv (WalkFuel ExampleAccessEnv)
    (le_refl _)

/-- C17 (root-inclusion flag), evaluated where the code departs from it. The
node at cell 48 of `ExampleTreeHive` has no subkey and its descriptor grants
the access. With `CheckRoot = TRUE` the walk evaluates the node and returns
`STATUS_SUCCESS`. With `CheckRoot = FALSE` it evaluates nothing, as claimed,
but returns `STATUS_INSUFFICIENT_RESOURCES`: `Status` still holds the value it
was initialised with (line 2233), since no check ran and nothing failed. -/
theorem C17_unchecked_root_without_subkeys_fails :
    TreeWithin ExampleEnv ExampleAccessEnv ExampleTreeHive
        ExampleAccessEnv.CMP_MAX_REGISTRY_DEPTH 48 = true ∧
      (CmpCheckKeyAccess ExampleEnv ExampleAccessEnv ExampleTreeHive 48 1 1).1 =
        STATUS_SUCCESS ∧
      (CmpDoAccessCheckOnSubtree ExampleEnv ExampleAccessEnv 2 ExampleTreeHive 48 1 1 true).map
          (fun r => (r.Status, AccessChecks r.Trace)) = some (STATUS_SUCCESS, [48]) ∧
      (CmpDoAccessCheckOnSubtree ExampleEnv ExampleAccessEnv 2 ExampleTreeHive 48 1 1 false).map
          (fun r => (r.Status, AccessChecks r.Trace)) =
        some (STATUS_INSUFFICIENT_RESOURCES, []) := by
  decide

/-- C18 counterexample. In the key tree of
`ExampleTreeHive`, in pre-order 32, 40, 56, 48, only the node 56 (at depth 2)
denies access. With `CheckRoot = FALSE` the walk returns that denial after
evaluating 40 and 56: the root 32, which comes before the denying node, is
not evaluated. -/
theorem C18_unchecked_root_is_not_evaluated :
    SubtreeCells ExampleEnv ExampleAccessEnv ExampleTreeHive
        ExampleAccessEnv.CMP_MAX_REGISTRY_DEPTH 32 = [32, 40, 56, 48] ∧
      [32, 40, 56, 48].filter
          (fun c => decide ((CmpCheckKeyAccess ExampleEnv ExampleAccessEnv ExampleTreeHive c 1 1).1 =
            STATUS_ACCESS_DENIED)) = [56] ∧
      (CmpDoAccessCheckOnSubtree ExampleEnv ExampleAccessEnv 8 ExampleTreeHive 32 1 1 false).map
          (fun r => (r.Status, AccessChecks r.Trace)) = some (STATUS_ACCESS_DENIED, [40, 56]) ∧
      (CmpDoAccessCheckOnSubtree ExampleEnv ExampleAccessEnv 8 ExampleTreeHive 32 1 1 false).map
          (fun r => List.count 32 (AccessChecks r.Trace)) = some 0 := by
  decide

/-- C18 (subtree short-circuit), amended. Let the subtree below `Cell` be a
finite key tree of at most `CMP_MAX_REGISTRY_DEPTH` levels with distinct,
mappable node cells, in pre-order `pre`, then `x`, then `post`, where `x` is
not the root (`pre` is not empty), the check of `x` runs the evaluation and
returns `STATUS_ACCESS_DENIED`, and the check of every other node succeeds.
Then `CmpDoAccessCheckOnSubtree` returns, within `WalkFuel` iterations of its
loop, the status `STATUS_ACCESS_DENIED`; the
evaluations it makes are, in this order, one on each node of `pre` (without
the root when `CheckRoot` is FALSE) and one on `x`; so no node of `post` is
evaluated, every node before `x` is evaluated exactly once, except that with
`CheckRoot = FALSE` the root is not evaluated. -/
theorem C18_short_circuit (env : Env) (acc : AccessEnv) (H : CMHIVE) (Cell : HCELL_INDEX)
    (PreviousMode DesiredAccess : Nat) (CheckRoot : Bool) (pre post : List HCELL_INDEX)
    (x : HCELL_INDEX)
    (halloc : acc.CheckStackAllocated = true)
    (htree : TreeWithin env acc H acc.CMP_MAX_REGISTRY_DEPTH Cell = true)
    (hcells : SubtreeCells env acc H acc.CMP_MAX_REGISTRY_DEPTH Cell = pre ++ x :: post)
    (hdepth : pre ≠ [])
    (hnodup : (SubtreeCells env acc H acc.CMP_MAX_REGISTRY_DEPTH Cell).Nodup)
    (hgrant : ∀ c, c ∈ pre ++ post →
      NT_SUCCESS (CmpCheckKeyAccess env acc H c PreviousMode DesiredAccess).1 = true)
    (hdeny : (CmpCheckKeyAccess env acc H x PreviousMode DesiredAccess).1 = STATUS_ACCESS_DENIED)
    (hran : AccessChecks (CmpCheckKeyAccess env acc H x PreviousMode DesiredAccess).2 = [x]) :
    ∀ fuel, WalkFuel acc ≤ fuel →
      ∃ r,
        CmpDoAccessCheckOnSubtree env acc fuel H Cell PreviousMode DesiredAccess CheckRoot =
          some r ∧
        r.Status = STATUS_ACCESS_DENIED ∧
        AccessChecks r.Trace = (if CheckRoot = true then pre else pre.tail) ++ [x] ∧
        (∀ c, c ∈ post → c ∉ AccessChecks r.Trace) ∧
        (∀ c, c ∈ (if CheckRoot = true then pre else pre.tail) →
          List.count c (AccessChecks r.Trace) = 1) ∧
        List.count x (AccessChecks r.Trace) = 1 ∧
        (CheckRoot = false → Cell ∉ AccessChecks r.Trace) := by
  have hpos := TreeWithin_pos env acc H _ Cell htree
  obtain ⟨rest, hroot⟩ := SubtreeCells_ne_nil env acc H _ Cell hpos
  obtain ⟨p, ptail, hp⟩ := List.exists_cons_of_ne_nil hdepth
  have hpc : p = Cell := by
    rw [hcells, hp] at hroot
    exact (List.cons.inj hroot).1
  have hL : (if CheckRoot = true then SubtreeCells env acc H acc.CMP_MAX_REGISTRY_DEPTH Cell
      else (SubtreeCells env acc H acc.CMP_MAX_REGISTRY_DEPTH Cell).tail) =
      (if CheckRoot = true then pre else pre.tail) ++ x :: post := by
    rw [hcells, hp]
    cases CheckRoot <;> rfl
  have hsub : ∀ c, c ∈ (if CheckRoot = true then pre else pre.tail) → c ∈ pre := by
    intro c hc
    cases CheckRoot with
    | true => exact hc
    | false => exact List.mem_of_mem_tail hc
  have hx : NT_SUCCESS (CmpCheckKeyAccess env acc H x PreviousMode DesiredAccess).1 = false := by
    rw [hdeny]
    rfl
  have hnd : (pre ++ x :: post).Nodup := by
    rw [← hcells]
    exact hnodup
  have hnd1 : ((if CheckRoot = true then pre else pre.tail) ++ [x]).Nodup := by
    have h1 : (pre ++ [x]).Nodup := by
      have : pre ++ x :: post = (pre ++ [x]) ++ post := by simp
      rw [this] at hnd
      exact hnd.of_append_left
    cases CheckRoot with
    | true => exact h1
    | false =>
      refine h1.sublist ?_
      exact List.Sublist.append (List.tail_sublist pre) (List.Sublist.refl _)
  intro fuel hfuel
  obtain ⟨r, hr, hst, htr, _⟩ := CmpDoAccessCheckOnSubtree_result env acc H Cell PreviousMode
    DesiredAccess CheckRoot halloc htree fuel hfuel
  rw [hL] at hst htr
  rw [CheckAll_of_first_failure _ _ post x _
    (fun c hc => hgrant c (List.mem_append_left _ (hsub c hc))) hx] at hst
  rw [ChecksOf_of_first_failure _ _ post x
    (fun c hc => ⟨hgrant c (List.mem_append_left _ (hsub c hc)),
      CmpCheckKeyAccess_success_evaluates env acc H c PreviousMode DesiredAccess
        (hgrant c (List.mem_append_left _ (hsub c hc)))⟩) hx, hran] at htr
  refine ⟨r, hr, hst.trans hdeny, htr, ?_, ?_, ?_, ?_⟩
  · intro c hc hmem
    rw [htr] at hmem
    have hcx : c ≠ x := by
      rintro rfl
      have := (List.nodup_append.1 hnd).2.1
      exact (List.nodup_cons.1 this).1 hc
    rcases List.mem_append.1 hmem with h | h
    · exact (List.nodup_append.1 hnd).2.2 (hsub c h) (List.mem_cons_of_mem _ hc)
    · exact hcx (List.mem_singleton.1 h)
  · intro c hc
    rw [htr]
    exact List.count_eq_one_of_mem hnd1 (List.mem_append_left _ hc)
  · rw [htr]
    exact List.count_eq_one_of_mem hnd1 (List.mem_append_right _ (List.mem_singleton_self x))
  · intro hroot2 hmem
    rw [htr, hroot2] at hmem
    simp only [Bool.false_eq_true, if_false] at hmem
    rw [hp, hpc] at hnd
    have hnot : Cell ∉ ptail ++ x :: post := (List.nodup_cons.1 hnd).1
    apply hnot
    rw [hp] at hmem
    rcases List.mem_append.1 hmem with h | h
    · exact List.mem_append_left _ h
    · exact List.mem_append_right _ (List.mem_cons.2 (Or.inl (List.mem_singleton.1 h)))

theorem C18_short_circuit_witness :
    ∃ r,
      CmpDoAccessCheckOnSubtree ExampleEnv ExampleAccessEnv (WalkFuel ExampleAccessEnv)
          ExampleTreeHive 32 1 1 true = some r ∧
      r.Status = STATUS_ACCESS_DENIED ∧ AccessChecks r.Trace = [32, 40, 56] :=
  (C18_short_circuit ExampleEnv ExampleAccessEnv ExampleTreeHive 32 1 1 true
    [32, 40] [48] 56 (by decide) (by decide) (by decide) (by decide) (by decide) (by decide)
    (by decide) (by decide) (WalkFuel ExampleAccessEnv) (le_refl _)).imp
    fun _ hr => ⟨hr.1, hr.2.1, hr.2.2.1⟩

/-- C19 (the depth bound is a checked failure). With a check stack of
`CMP_MAX_REGISTRY_DEPTH` entries, at least one: (1) `CmpDoAccessCheckOnSubtree`
returns, within `WalkFuel` iterations of its loop whatever the hive holds, and
on every path every read and write of `CheckStack` uses an index from 0 up
to, not including, `CMP_MAX_REGISTRY_DEPTH`; (2) when the loop is at a node on
the last level of the stack, `StackIndex` being `CMP_MAX_REGISTRY_DEPTH - 1`,
and that node, if it can be mapped, has a subkey left, the loop ends in this
iteration with a status that is not a success; (3) on a finite key tree of at
most `CMP_MAX_REGISTRY_DEPTH` levels whose node cells can all be mapped, with
the stack allocated, the status the walk returns comes from the checks alone:
a success when every check it is to make succeeds (and there is one), else
the status of the first check that fails. -/
theorem C19_depth_bound_checked (env : Env) (acc : AccessEnv) (H : CMHIVE) (Cell : HCELL_INDEX)
    (PreviousMode DesiredAccess : Nat) (CheckRoot : Bool)
    (hpos : 0 < acc.CMP_MAX_REGISTRY_DEPTH) :
    (∀ fuel, WalkFuel acc ≤ fuel →
      ∃ r,
        CmpDoAccessCheckOnSubtree env acc fuel H Cell PreviousMode DesiredAccess CheckRoot =
          some r) ∧
    (∀ fuel r,
      CmpDoAccessCheckOnSubtree env acc fuel H Cell PreviousMode DesiredAccess CheckRoot =
        some r →
      StackAccessesWithin acc.CMP_MAX_REGISTRY_DEPTH r.Trace) ∧
    (∀ (Hive : CMHIVE) (s : WalkState),
      s.StackIndex = (acc.CMP_MAX_REGISTRY_DEPTH : Int) - 1 →
      (HvGetCellNode env Hive s.Top.Cell).all
        (fun Node => decide (s.Top.ChildIndex < SubKeyCount Node)) = true →
      ∀ fuel, ∃ t,
        WalkLoop env acc Hive PreviousMode DesiredAccess (fuel + 1) s = some t ∧
          NT_SUCCESS t.Status = false) ∧
    (acc.CheckStackAllocated = true →
      TreeWithin env acc H acc.CMP_MAX_REGISTRY_DEPTH Cell = true →
      ∀ fuel, WalkFuel acc ≤ fuel →
        ∃ r,
          CmpDoAccessCheckOnSubtree env acc fuel H Cell PreviousMode DesiredAccess CheckRoot =
            some r ∧
          ((if CheckRoot = true then SubtreeCells env acc H acc.CMP_MAX_REGISTRY_DEPTH Cell
              else (SubtreeCells env acc H acc.CMP_MAX_REGISTRY_DEPTH Cell).tail) ≠ [] →
            (∀ c, c ∈ (if CheckRoot = true then
                  SubtreeCells env acc H acc.CMP_MAX_REGISTRY_DEPTH Cell
                else (SubtreeCells env acc H acc.CMP_MAX_REGISTRY_DEPTH Cell).tail) →
              NT_SUCCESS (CmpCheckKeyAccess env acc H c PreviousMode DesiredAccess).1 = true) →
            NT_SUCCESS r.Status = true) ∧
          (∀ pre x post,
            (if CheckRoot = true then SubtreeCells env acc H acc.CMP_MAX_REGISTRY_DEPTH Cell
              else (SubtreeCells env acc H acc.CMP_MAX_REGISTRY_DEPTH Cell).tail) =
              pre ++ x :: post →
            (∀ c, c ∈ pre →
              NT_SUCCESS (CmpCheckKeyAccess env acc H c PreviousMode DesiredAccess).1 = true) →
            NT_SUCCESS (CmpCheckKeyAccess env acc H x PreviousMode DesiredAccess).1 = false →
            r.Status = (CmpCheckKeyAccess env acc H x PreviousMode DesiredAccess).1)) := by
  refine ⟨fun fuel hfuel => ?_, fun fuel r hrun => ?_, fun Hive s hidx hsub fuel => ?_,
    fun halloc htree fuel hfuel => ?_⟩
  · exact CmpDoAccessCheckOnSubtree_returns env acc H Cell PreviousMode DesiredAccess CheckRoot
      hpos fuel hfuel
  · obtain ⟨_, hok⟩ := CmpDoAccessCheckOnSubtree_ok env acc fuel H Cell PreviousMode
      DesiredAccess CheckRoot r hpos hrun
    intro i hi
    rcases hi with hi | hi
    · exact hok _ hi
    · exact hok _ hi
  · exact WalkLoop_at_bound env acc Hive PreviousMode DesiredAccess s hpos hidx hsub fuel
  · obtain ⟨r, hr, hst, _, _⟩ := CmpDoAccessCheckOnSubtree_result env acc H Cell PreviousMode
      DesiredAccess CheckRoot halloc htree fuel hfuel
    refine ⟨r, hr, fun hne hall => ?_, fun pre x post hl hpre hx => ?_⟩
    · rw [hst]
      exact (CheckAll_of_all _ _ _ hall).2.1 (Or.inr hne)
    · rw [hst, hl, CheckAll_of_first_failure _ pre post x _ hpre hx]

theorem C19_depth_bound_checked_witness :
    (∀ fuel r,
      CmpDoAccessCheckOnSubtree ExampleEnv ExampleAccessEnvShallow fuel ExampleTreeHive 32 1 1
        true = some r →
      StackAccessesWithin ExampleAccessEnvShallow.CMP_MAX_REGISTRY_DEPTH r.Trace) ∧
    (CmpDoAccessCheckOnSubtree ExampleEnv ExampleAccessEnvShallow 8 ExampleTreeHive 32 1 1
        true).map (fun r => r.Status) = some STATUS_INSUFFICIENT_RESOURCES ∧
    ∃ t,
      WalkLoop ExampleEnv ExampleAccessEnvShallow ExampleTreeHive 1 1 (0 + 1)
          { CheckStack :=
              [{ Cell := 32, ChildIndex := 1, CellChecked := true },
               { Cell := 40, ChildIndex := 0, CellChecked := false }],
            StackIndex := 1,
            Status := STATUS_SUCCESS,
            Trace := [] } = some t ∧
        NT_SUCCESS t.Status = false :=
  have key := C19_depth_bound_checked ExampleEnv ExampleAccessEnvShallow ExampleTreeHive 32 1 1
    true (by decide)
  ⟨key.2.1, by decide,
    key.2.2.1 ExampleTreeHive
      { CheckStack :=
          [{ Cell := 32, ChildIndex := 1, CellChecked := true },
           { Cell := 40, ChildIndex := 0, CellChecked := false }],
        StackIndex := 1,
        Status := STATUS_SUCCESS,
        Trace := [] }
      (by decide) (by decide) 0⟩

/-- C20 (release callback restored). `CmpDoAccessCheckOnSubtree` returns,
within `WalkFuel` iterations of its loop whatever the hive holds (the check
stack having at least one entry). On every return path, whatever the status
(success, denial, mapping failure, subkey lookup failure, depth bound
exceeded, stack allocation failure), the hive's `ReleaseCellRoutine` is what
it was at entry, the hive being as at entry altogether, and every cell access
the walk made was made while `ReleaseCellRoutine` was NULL. -/
theorem C20_release_routine_restored (env : Env) (acc : AccessEnv) (H : CMHIVE)
    (Cell : HCELL_INDEX) (PreviousMode DesiredAccess : Nat) (CheckRoot : Bool) :
    (0 < acc.CMP_MAX_REGISTRY_DEPTH →
      ∀ fuel, WalkFuel acc ≤ fuel →
        ∃ r,
          CmpDoAccessCheckOnSubtree env acc fuel H Cell PreviousMode DesiredAccess CheckRoot =
            some r) ∧
    (∀ fuel r,
      CmpDoAccessCheckOnSubtree env acc fuel H Cell PreviousMode DesiredAccess CheckRoot =
        some r →
      r.Hive.ReleaseCellRoutine = H.ReleaseCellRoutine ∧ r.Hive = H ∧
        CellsStayPinned r.Trace) := by
  refine ⟨fun hpos fuel hfuel => ?_, fun fuel r hrun => ?_⟩
  · exact CmpDoAccessCheckOnSubtree_returns env acc H Cell PreviousMode DesiredAccess CheckRoot
      hpos fuel hfuel
  · obtain ⟨h1, h2⟩ := CmpDoAccessCheckOnSubtree_pinned env acc fuel H Cell PreviousMode
      DesiredAccess CheckRoot r hrun
    exact ⟨by rw [h1], h1, h2⟩

theorem C20_release_routine_restored_witness :
    ∃ r,
      CmpDoAccessCheckOnSubtree ExampleEnv ExampleAccessEnv 8 ExampleTreeHive 32 1 1 true =
        some r ∧
      r.Status = STATUS_ACCESS_DENIED ∧ r.Hive.ReleaseCellRoutine = some 1 ∧
      CellsStayPinned r.Trace := by
  have hsome : ((CmpDoAccessCheckOnSubtree ExampleEnv ExampleAccessEnv 8 ExampleTreeHive 32 1 1
      true).map (fun r => r.Status)) = some STATUS_ACCESS_DENIED := by decide
  obtain ⟨r, hr, hst⟩ := Option.map_eq_some'.1 hsome
  have key := (C20_release_routine_restored ExampleEnv ExampleAccessEnv ExampleTreeHive 32 1 1
    true).2 8 r hr
  exact ⟨r, hr, hst, key.1, key.2.2⟩

/-- C21. Deleted key: whatever the operation code, when the key control block
is marked deleted `CmpSecurityMethod` returns `STATUS_KEY_DELETED` and leaves
the hive (cells, ring links, cache) and the block as they were; its trace is the
registry lock, the lock of the block (shared for a query, exclusive otherwise,
none when a query finds the tag bit set), the release of that lock and the
release of the registry lock: no flusher or security lock, no call of the
set, query or assign routine. -/
theorem C21_deleted_key_fails_fast (env : Env) (acc : AccessEnv) (menv : MethodEnv)
    (Hive : CMHIVE) (P Op Info : Nat) (D : List Nat) (Len : Nat)
    (hdel : (menv.KcbAt (MethodKcb P Op)).Delete = true) :
    (CmpSecurityMethod env acc menv Hive P Op Info D Len).Status =
        Outcome.Returned STATUS_KEY_DELETED ∧
      (CmpSecurityMethod env acc menv Hive P Op Info D Len).Hive = Hive ∧
      (CmpSecurityMethod env acc menv Hive P Op Info D Len).Kcb =
        menv.KcbAt (MethodKcb P Op) ∧
      (Op ≠ QuerySecurityDescriptor →
        (CmpSecurityMethod env acc menv Hive P Op Info D Len).Trace =
          [MethodEvent.CmpLockRegistry, MethodEvent.CmpLockKCBExclusive P,
           MethodEvent.CmpUnlockKCB P, MethodEvent.CmpUnlockRegistry]) ∧
      (Op = QuerySecurityDescriptor → P &&& 1 = 0 →
        (CmpSecurityMethod env acc menv Hive P Op Info D Len).Trace =
          [MethodEvent.CmpLockRegistry, MethodEvent.CmpLockKCBShared P,
           MethodEvent.CmpUnlockKCB P, MethodEvent.CmpUnlockRegistry]) ∧
      (Op = QuerySecurityDescriptor → P &&& 1 ≠ 0 →
        (CmpSecurityMethod env acc menv Hive P Op Info D Len).Trace =
          [MethodEvent.CmpLockRegistry, MethodEvent.CmpUnlockRegistry]) := by
  rw [CmpSecurityMethod_deleted env acc menv Hive P Op Info D Len hdel]
  refine ⟨rfl, rfl, rfl, ?_, ?_, ?_⟩
  · intro hop
    show MethodLock P Op ++ _ ++ _ = _
    rw [MethodLock_exclusive P Op hop, MethodUnlockKcb_untagged P Op (Or.inl hop),
      MethodKcb_untagged P Op (Or.inl hop)]
    rfl
  · intro hop htag
    subst hop
    show MethodLock P _ ++ _ ++ _ = _
    rw [MethodLock_shared P htag, MethodUnlockKcb_untagged P _ (Or.inr htag),
      MethodKcb_untagged P _ (Or.inr htag)]
    rfl
  · intro hop htag
    subst hop
    show MethodLock P _ ++ _ ++ _ = _
    rw [MethodLock_tagged P htag, MethodUnlockKcb_tagged P htag]
    rfl

theorem C21_deleted_key_fails_fast_witness :
    (ExampleMethodEnv.KcbAt (MethodKcb 257 QuerySecurityDescriptor)).Delete = true ∧
      (CmpSecurityMethod ExampleEnv ExampleAccessEnv ExampleMethodEnv ExampleHiveSplit 257
          QuerySecurityDescriptor 7 [] 16).Status = Outcome.Returned STATUS_KEY_DELETED ∧
      (CmpSecurityMethod ExampleEnv ExampleAccessEnv ExampleMethodEnv ExampleHiveSplit 257
          QuerySecurityDescriptor 7 [] 16).Trace =
        [MethodEvent.CmpLockRegistry, MethodEvent.CmpUnlockRegistry] :=
  ⟨by decide,
   (C21_deleted_key_fails_fast ExampleEnv ExampleAccessEnv ExampleMethodEnv ExampleHiveSplit 257
      QuerySecurityDescriptor 7 [] 16 (by decide)).1,
   (C21_deleted_key_fails_fast ExampleEnv ExampleAccessEnv ExampleMethodEnv ExampleHiveSplit 257
      QuerySecurityDescriptor 7 [] 16 (by decide)).2.2.2.2.2 rfl (by decide)⟩

/-- C22. Lock order for mutations: on a set or an assign request for a key that
is not deleted, the trace of `CmpSecurityMethod` starts with the registry
lock, the lock of the key control block taken exclusively, the flusher lock
taken shared and the hive security lock taken exclusively, in this order,
followed at once by the call of the mutation routine, at which point these
four locks are held; nothing after the call takes a lock. -/
theorem C22_mutation_lock_order (env : Env) (acc : AccessEnv) (menv : MethodEnv)
    (Hive : CMHIVE) (P Op Info : Nat) (D : List Nat) (Len : Nat)
    (hop : Op = SetSecurityDescriptor ∨ Op = AssignSecurityDescriptor)
    (hlive : (menv.KcbAt P).Delete = false) :
    ∃ Rest,
      (CmpSecurityMethod env acc menv Hive P Op Info D Len).Trace =
        [MethodEvent.CmpLockRegistry, MethodEvent.CmpLockKCBExclusive P,
         MethodEvent.CmpLockHiveFlusherShared, MethodEvent.CmLockHiveSecurityExclusive,
         MutationCall Op] ++ Rest ∧
      (∀ e, e ∈ Rest → e.Acquires = false) ∧
      HeldAfter []
        [MethodEvent.CmpLockRegistry, MethodEvent.CmpLockKCBExclusive P,
         MethodEvent.CmpLockHiveFlusherShared, MethodEvent.CmLockHiveSecurityExclusive] =
        some [CmLock.HiveSecurity, CmLock.HiveFlusher, CmLock.Kcb P, CmLock.Registry] := by
  have hq : Op ≠ QuerySecurityDescriptor := by
    rcases hop with h | h <;> subst h <;> decide
  have hk : MethodKcb P Op = P := MethodKcb_untagged P Op (Or.inl hq)
  have hlive1 : (menv.KcbAt (MethodKcb P Op)).Delete = false := by rw [hk]; exact hlive
  have hT := (CmpSecurityMethod_live env acc menv Hive P Op Info D Len hlive1).2.2.2.2.2
  rw [hk, MethodLock_exclusive P Op hq, if_pos hq] at hT
  have hunlock : ∀ b e, e ∈ MethodUnlock P Op b → e.Acquires = false := by
    intro b e he
    unfold MethodUnlock at he
    rw [if_pos hq, MethodUnlockKcb_untagged P Op (Or.inl hq), hk] at he
    cases b
    · simp only [Bool.false_eq_true, if_false, if_true, List.cons_append, List.nil_append,
        List.mem_cons, List.mem_singleton, List.not_mem_nil, or_false] at he
      rcases he with rfl | rfl | rfl <;> rfl
    · simp only [if_true, List.cons_append, List.nil_append,
        List.mem_cons, List.mem_singleton, List.not_mem_nil, or_false] at he
      rcases he with rfl | rfl | rfl | rfl <;> rfl
  have htail : ∀ e, e ∈ (match (MethodSwitch env acc menv Hive (menv.KcbAt P) Op Info D
        Len).Status with
      | Outcome.Returned _ =>
        MethodUnlock P Op
          (MethodSwitch env acc menv Hive (menv.KcbAt P) Op Info D Len).UnlockSecurity
      | Outcome.BugCheck _ _ => []) → e.Acquires = false := by
    intro e he
    cases hs : (MethodSwitch env acc menv Hive (menv.KcbAt P) Op Info D Len).Status with
    | Returned s =>
      rw [hs] at he
      exact hunlock _ e he
    | BugCheck a b =>
      rw [hs] at he
      exact absurd he (by simp)
  rcases hop with h | h
  · subst h
    rw [(MethodSwitch_set env acc menv Hive (menv.KcbAt P) Info D Len).2.2.2.1] at hT
    by_cases hs : SetSucceeds env Hive (menv.KcbAt P) Info D = true
    · rw [if_pos hs] at hT
      refine ⟨_, hT.trans (by simp only [MutationCall, if_true, List.cons_append,
        List.nil_append, List.append_assoc]; rfl), ?_, rfl⟩
      intro e he
      simp only [List.mem_cons, List.mem_append, List.not_mem_nil, false_or] at he
      rcases he with rfl | rfl | he
      · rfl
      · rfl
      · exact htail e he
    · rw [if_neg hs] at hT
      refine ⟨_, hT.trans (by simp only [MutationCall, if_true, List.cons_append,
        List.nil_append, List.append_assoc]; rfl), ?_, rfl⟩
      intro e he
      exact htail e he
  · subst h
    have htr : (MethodSwitch env acc menv Hive (menv.KcbAt P) AssignSecurityDescriptor Info D
        Len).Trace = [MethodEvent.CmpAssignSecurityDescriptorWrapper] := by
      rw [MethodSwitch_assign]
    rw [htr] at hT
    refine ⟨_, hT.trans (by
      simp only [MutationCall,
        if_neg (by decide : ¬ AssignSecurityDescriptor = SetSecurityDescriptor),
        List.cons_append, List.nil_append, List.append_assoc]; rfl), ?_, rfl⟩
    intro e he
    exact htail e he

theorem C22_mutation_lock_order_witness :
    ∃ Rest,
      (CmpSecurityMethod ExampleEnv ExampleAccessEnv ExampleMethodEnv ExampleHiveSplit 64
          SetSecurityDescriptor 4 [9, 9] 0).Trace =
        [MethodEvent.CmpLockRegistry, MethodEvent.CmpLockKCBExclusive 64,
         MethodEvent.CmpLockHiveFlusherShared, MethodEvent.CmLockHiveSecurityExclusive,
         MutationCall SetSecurityDescriptor] ++ Rest ∧
      (∀ e, e ∈ Rest → e.Acquires = false) ∧
      HeldAfter []
        [MethodEvent.CmpLockRegistry, MethodEvent.CmpLockKCBExclusive 64,
         MethodEvent.CmpLockHiveFlusherShared, MethodEvent.CmLockHiveSecurityExclusive] =
        some [CmLock.HiveSecurity, CmLock.HiveFlusher, CmLock.Kcb 64, CmLock.Registry] :=
  C22_mutation_lock_order ExampleEnv ExampleAccessEnv ExampleMethodEnv ExampleHiveSplit 64
    SetSecurityDescriptor 4 [9, 9] 0 (Or.inl rfl) (by decide)

/-- C23 counterexample. A query on the live key at address 64 takes the
registry lock and the lock of the key control block (shared), reads the
descriptor and releases the two locks: the hive security lock is never taken.
With the tag bit set (address 65) not even the lock of the block is taken. -/
theorem C23_query_takes_no_security_lock :
    (CmpSecurityMethod ExampleEnv ExampleAccessEnv ExampleMethodEnv ExampleHiveShared 64
        QuerySecurityDescriptor 15 [] 16).Status = Outcome.Returned STATUS_SUCCESS ∧
      (CmpSecurityMethod ExampleEnv ExampleAccessEnv ExampleMethodEnv ExampleHiveShared 64
        QuerySecurityDescriptor 15 [] 16).Buffer = [1, 2, 3] ∧
      (CmpSecurityMethod ExampleEnv ExampleAccessEnv ExampleMethodEnv ExampleHiveShared 64
        QuerySecurityDescriptor 15 [] 16).Trace =
        [MethodEvent.CmpLockRegistry, MethodEvent.CmpLockKCBShared 64,
         MethodEvent.CmpQuerySecurityDescriptorInfo, MethodEvent.CmpUnlockKCB 64,
         MethodEvent.CmpUnlockRegistry] ∧
      MethodEvent.CmLockHiveSecurityShared ∉
        (CmpSecurityMethod ExampleEnv ExampleAccessEnv ExampleMethodEnv ExampleHiveShared 64
          QuerySecurityDescriptor 15 [] 16).Trace ∧
      (CmpSecurityMethod ExampleEnv ExampleAccessEnv ExampleMethodEnv ExampleHiveShared 65
        QuerySecurityDescriptor 15 [] 16).Trace =
        [MethodEvent.CmpLockRegistry, MethodEvent.CmpQuerySecurityDescriptorInfo,
         MethodEvent.CmpUnlockRegistry] := by
  decide

/-- C23 (lock order for reads), amended. A query request for a key that is not
deleted takes the registry lock, then the lock of the key control block shared
unless the pointer to the block carries the tag bit, then reads the descriptor
and releases what it took; it takes neither the hive security lock nor the
flusher lock. -/
theorem C23_query_lock_order (env : Env) (acc : AccessEnv) (menv : MethodEnv)
    (Hive : CMHIVE) (P Info : Nat) (D : List Nat) (Len : Nat)
    (hlive : (menv.KcbAt (MethodKcb P QuerySecurityDescriptor)).Delete = false) :
    (P &&& 1 = 0 →
      (CmpSecurityMethod env acc menv Hive P QuerySecurityDescriptor Info D Len).Trace =
        [MethodEvent.CmpLockRegistry, MethodEvent.CmpLockKCBShared P,
         MethodEvent.CmpQuerySecurityDescriptorInfo, MethodEvent.CmpUnlockKCB P,
         MethodEvent.CmpUnlockRegistry]) ∧
    (P &&& 1 ≠ 0 →
      (CmpSecurityMethod env acc menv Hive P QuerySecurityDescriptor Info D Len).Trace =
        [MethodEvent.CmpLockRegistry, MethodEvent.CmpQuerySecurityDescriptorInfo,
         MethodEvent.CmpUnlockRegistry]) := by
  have hT := (CmpSecurityMethod_live env acc menv Hive P QuerySecurityDescriptor Info D Len
    hlive).2.2.2.2.2
  obtain ⟨⟨s, hs⟩, _, _, htr⟩ := MethodSwitch_query env acc menv Hive
    (menv.KcbAt (MethodKcb P QuerySecurityDescriptor)) Info D Len
  rw [htr, hs] at hT
  rw [hT]
  constructor
  · intro htag
    unfold MethodUnlock
    rw [MethodLock_shared P htag, MethodUnlockKcb_untagged P _ (Or.inr htag),
      MethodKcb_untagged P _ (Or.inr htag)]
    simp
  · intro htag
    unfold MethodUnlock
    rw [MethodLock_tagged P htag, MethodUnlockKcb_tagged P htag]
    simp

theorem C23_query_lock_order_witness :
    (ExampleMethodEnv.KcbAt (MethodKcb 64 QuerySecurityDescriptor)).Delete = false ∧
      (CmpSecurityMethod ExampleEnv ExampleAccessEnv ExampleMethodEnv ExampleHiveShared 64
          QuerySecurityDescriptor 15 [] 16).Trace =
        [MethodEvent.CmpLockRegistry, MethodEvent.CmpLockKCBShared 64,
         MethodEvent.CmpQuerySecurityDescriptorInfo, MethodEvent.CmpUnlockKCB 64,
         MethodEvent.CmpUnlockRegistry] :=
  ⟨by decide,
   (C23_query_lock_order ExampleEnv ExampleAccessEnv ExampleMethodEnv ExampleHiveShared 64 15 []
      16 (by decide)).1 (by decide)⟩

/-- C24 counterexample. In a hive whose cache has no entry for the security cell
1022, `CmpCheckNotifyAccess` on a node with that cell finds no cache index,
releases the hive security lock and returns `FALSE` to its caller: an
ordinary result, not a bugcheck. -/
theorem C24_notify_check_returns_on_missing_entry :
    CmpFindSecurityCellCacheIndex ExampleHiveNoEntry 1022 = none ∧
      CmpCheckNotifyAccess ExampleAccessEnv ExampleHiveNoEntry
          { Flags := 0, LastWriteTime := 0, Parent := 32, Security := 1022 } =
        { AccessAllowed := false,
          Trace := [MethodEvent.CmLockHiveSecurityShared, MethodEvent.CmUnlockHiveSecurity] } := by
  decide

/-- C24 (corrupt cache), amended. When a set reaches its in-place path (the
merged descriptor `D` matches no cell, the cell of the node is not shared and
has the length of `D`) and the cache has no entry for the security cell of the
node, `CmpSetSecurityDescriptorInfo` ends in the bugcheck `REGISTRY_ERROR`
and returns nothing.  `CmpCheckNotifyAccess`, when the cache has no entry for
the security cell of its node, releases the hive security lock and returns
`FALSE` without evaluating access. -/
theorem C24_corrupt_cache (env : Env) (h : CMHIVE) (Key : CM_KEY_CONTROL_BLOCK)
    (info : Nat) (md : List Nat) (Node : CM_KEY_NODE) (S : CM_KEY_SECURITY)
    (acc : AccessEnv) (Hive : CMHIVE) (NotifyNode : CM_KEY_NODE)
    (hnode : cmGet h.KeyNodes Key.KeyCell = some Node)
    (hsec : cmGet h.SecurityCells Node.Security = some S)
    (hmapN : env.MapOk Key.KeyCell = true) (htrackN : env.TrackOk Key.KeyCell = true)
    (hmapS : env.MapOk Node.Security = true) (htrackS : env.TrackOk Node.Security = true)
    (hmerge : NT_SUCCESS (env.SeSetSecurityDescriptorInfo info md S.Descriptor).1 = true)
    (hdirtyN : env.DirtyOk Key.KeyCell = true) (hdirtyS : env.DirtyOk Node.Security = true)
    (hnomatch : CmpFindMatchingDescriptorCell env h
      (env.SeSetSecurityDescriptorInfo info md S.Descriptor).2 (HvGetCellType Key.KeyCell) = none)
    (hrc : S.ReferenceCount ≤ 1)
    (hlen : RtlLengthSecurityDescriptor (env.SeSetSecurityDescriptorInfo info md S.Descriptor).2
      = S.DescriptorLength)
    (hcorrupt : CmpFindSecurityCellCacheIndex h Node.Security = none)
    (hnotify : CmpFindSecurityCellCacheIndex Hive NotifyNode.Security = none) :
    (CmpSetSecurityDescriptorInfo env h Key info md).Status =
        Outcome.BugCheck REGISTRY_ERROR 2 ∧
      CmpCheckNotifyAccess acc Hive NotifyNode =
        { AccessAllowed := false,
          Trace := [MethodEvent.CmLockHiveSecurityShared, MethodEvent.CmUnlockHiveSecurity] } := by
  constructor
  · rw [CmpSetSecurityDescriptorInfo_eq_store env h Key info md Node S hnode hsec hmapN htrackN
      hmapS htrackS hmerge hdirtyN hdirtyS]
    have hm : CmpFindMatchingDescriptorCell env (SetSecurityDirtied h Key Node.Security)
        (env.SeSetSecurityDescriptorInfo info md S.Descriptor).2 (HvGetCellType Key.KeyCell)
        = none := by
      rw [← hnomatch]
      exact CmpFindMatchingDescriptorCell_congr env _ _ _ _ rfl rfl
    have hc : CmpFindSecurityCellCacheIndex (SetSecurityDirtied h Key Node.Security)
        Node.Security = none := hcorrupt
    unfold SetSecurityStore
    rw [hm]
    simp only
    rw [if_neg (by omega), if_neg (by simpa using hlen)]
    unfold SetSecurityInPlace
    rw [hc]
  · unfold CmpCheckNotifyAccess
    rw [hnotify]

theorem C24_corrupt_cache_witness :
    (CmpSetSecurityDescriptorInfo ExampleEnv ExampleHiveNoEntry ExampleKcb 4 [5, 5]).Status =
        Outcome.BugCheck REGISTRY_ERROR 2 ∧
      CmpCheckNotifyAccess ExampleAccessEnv ExampleHiveNoEntry
          { Flags := 0, LastWriteTime := 0, Parent := 32, Security := 1022 } =
        { AccessAllowed := false,
          Trace := [MethodEvent.CmLockHiveSecurityShared, MethodEvent.CmUnlockHiveSecurity] } :=
  C24_corrupt_cache ExampleEnv ExampleHiveNoEntry ExampleKcb 4 [5, 5]
    { Flags := 0, LastWriteTime := 0, Parent := 32, Security := 1022 }
    { Signature := CM_KEY_SECURITY_SIGNATURE, Flink := 1023, Blink := 1023,
      ReferenceCount := 1, DescriptorLength := 2, Descriptor := [9, 9] }
    ExampleAccessEnv ExampleHiveNoEntry
    { Flags := 0, LastWriteTime := 0, Parent := 32, Security := 1022 }
    (by decide) (by decide) (by decide) (by decide) (by decide) (by decide) (by decide)
    (by decide) (by decide) (by decide) (by decide) (by decide) (by decide) (by decide)

/-- C25 counterexample. On the key tree of three levels, a walk with a check
stack of two entries stops at the depth bound with
`STATUS_INSUFFICIENT_RESOURCES`; this is the status the routine returns when
the check stack cannot be allocated, and the status of a walk on which a cell
(here cell 56) cannot be mapped. -/
theorem C25_depth_overflow_reports_resource_status :
    (CmpDoAccessCheckOnSubtree ExampleEnv ExampleAccessEnvShallow 8 ExampleTreeHive 32 1 1
        true).map (fun r => r.Status) = some STATUS_INSUFFICIENT_RESOURCES ∧
      (CmpDoAccessCheckOnSubtree ExampleEnv ExampleAccessEnvNoStack 8 ExampleTreeHive 32 1 1
        true).map (fun r => r.Status) = some STATUS_INSUFFICIENT_RESOURCES ∧
      (CmpDoAccessCheckOnSubtree ExampleEnvNoMap ExampleAccessEnv 16 ExampleTreeHive 32 1 1
        true).map (fun r => r.Status) = some STATUS_INSUFFICIENT_RESOURCES := by
  decide

/-- C25 (status of a walk that is too deep), amended. When the loop body finds
a further subkey of the node on top of the stack and the stack is full, it
leaves the loop with `STATUS_INSUFFICIENT_RESOURCES`.  This is also the status
with which the body leaves the loop when the cell of the node cannot be
mapped, and the status `CmpDoAccessCheckOnSubtree` returns when the check
stack cannot be allocated: the status does not tell the three apart. -/
theorem C25_depth_bound_status (env : Env) (acc : AccessEnv) (Hive : CMHIVE) (s : WalkState)
    (Node : CM_KEY_NODE)
    (hnode : HvGetCellNode env Hive s.Top.Cell = some Node)
    (hchild : s.Top.ChildIndex < SubKeyCount Node)
    (hsub : acc.CmpFindSubKeyByNumber s.Top.Cell s.Top.ChildIndex ≠ HCELL_NIL)
    (hdepth : s.StackIndex + 1 = (acc.CMP_MAX_REGISTRY_DEPTH : Int)) :
    (WalkDescend env acc Hive s).1 = false ∧
      (WalkDescend env acc Hive s).2.Status = STATUS_INSUFFICIENT_RESOURCES ∧
      (∀ (env2 : Env) (s2 : WalkState), HvGetCellNode env2 Hive s2.Top.Cell = none →
        (WalkDescend env2 acc Hive s2).1 = false ∧
        (WalkDescend env2 acc Hive s2).2.Status = (WalkDescend env acc Hive s).2.Status) ∧
      (∀ (acc2 : AccessEnv) (fuel : Nat) (H : CMHIVE) (Cell : HCELL_INDEX)
          (PreviousMode DesiredAccess : Nat) (CheckRoot : Bool),
        acc2.CheckStackAllocated = false →
        (CmpDoAccessCheckOnSubtree env acc2 fuel H Cell PreviousMode DesiredAccess
          CheckRoot).map (fun r => r.Status) = some (WalkDescend env acc Hive s).2.Status) := by
  have h1 : (WalkDescend env acc Hive s).1 = false := by
    have hchild1 : s.Top.ChildIndex <
        (Node.SubKeyCounts.getD Stable 0 + Node.SubKeyCounts.getD Volatile 0) % 4294967296 :=
      hchild
    unfold WalkDescend
    simp only [hnode]
    rw [if_pos hchild1, if_neg hsub, if_pos hdepth]
  have h2 := WalkDescend_break env acc Hive s h1
  refine ⟨h1, h2, ?_, ?_⟩
  · intro env2 s2 hn
    have h3 : (WalkDescend env2 acc Hive s2).1 = false := by
      unfold WalkDescend
      simp only [hn]
    exact ⟨h3, (WalkDescend_break env2 acc Hive s2 h3).trans h2.symm⟩
  · intro acc2 fuel H Cell pm da cr hno
    unfold CmpDoAccessCheckOnSubtree
    rw [if_pos hno, h2]
    rfl

theorem C25_depth_bound_status_witness :
    (WalkDescend ExampleEnv ExampleAccessEnvShallow ExampleTreeHive
        { CheckStack :=
            [{ Cell := 32, ChildIndex := 1, CellChecked := true },
             { Cell := 40, ChildIndex := 0, CellChecked := true }],
          StackIndex := 1, Status := STATUS_SUCCESS, Trace := [] }).1 = false ∧
      (WalkDescend ExampleEnv ExampleAccessEnvShallow ExampleTreeHive
        { CheckStack :=
            [{ Cell := 32, ChildIndex := 1, CellChecked := true },
             { Cell := 40, ChildIndex := 0, CellChecked := true }],
          StackIndex := 1, Status := STATUS_SUCCESS, Trace := [] }).2.Status =
        STATUS_INSUFFICIENT_RESOURCES :=
  have key := C25_depth_bound_status ExampleEnv ExampleAccessEnvShallow ExampleTreeHive
    { CheckStack :=
        [{ Cell := 32, ChildIndex := 1, CellChecked := true },
         { Cell := 40, ChildIndex := 0, CellChecked := true }],
      StackIndex := 1, Status := STATUS_SUCCESS, Trace := [] }
    { Flags := 0, LastWriteTime := 0, Parent := 32, Security := 1023, SubKeyCounts := [1, 0] }
    (by decide) (by decide) (by decide) (by decide)
  ⟨key.1, key.2.1⟩

/-- C26. Ring link consistency is kept by every step that rewrites links.
(1) A successful `CmpInsertSecurityCellList` of a new cell `c`, into a hive
whose other cells are linked consistently and in which the parent of the node
does not refer to `c`, leaves all live cells, `c` among them, linked
consistently.  (2) `CmpRemoveSecurityCellList` followed by `HvFreeCell` of the
removed cell, the cell and its neighbours mapped, keeps consistency, also when
the cell is alone in its ring or has one neighbour.  (3) Every successful
`CmpSetSecurityDescriptorInfo`, whichever branch it takes (copy-on-write
splice and relocation included), keeps consistency.  (4) In a hive with
consistent links the two assertions at the start of the unlink hold: the
forward neighbour's `Blink` and the backward neighbour's `Flink` are the
index of the cell. -/
theorem C26_ring_links_stay_consistent :
    (∀ (env : Env) (H : CMHIVE) (n c : HCELL_INDEX),
      RingLinked { H with SecurityCells := cmErase H.SecurityCells c } →
      (∀ Node ParentNode, cmGet H.KeyNodes n = some Node →
        cmGet H.KeyNodes Node.Parent = some ParentNode → ParentNode.Security ≠ c) →
      (CmpInsertSecurityCellList env H n c).1 = true →
      RingLinked (CmpInsertSecurityCellList env H n c).2) ∧
    (∀ (env : Env) (H : CMHIVE) (c : HCELL_INDEX) (S : CM_KEY_SECURITY),
      RingLinked H → cmGet H.SecurityCells c = some S →
      env.MapOk c = true → env.MapOk S.Flink = true → env.MapOk S.Blink = true →
      RingLinked (HvFreeCell (CmpRemoveSecurityCellList env H c) c)) ∧
    (∀ (env : Env) (h : CMHIVE) (Key : CM_KEY_CONTROL_BLOCK) (info : Nat) (md : List Nat),
      RingLinked h → DirtyMeansPinned env →
      (CmpSetSecurityDescriptorInfo env h Key info md).Status =
        Outcome.Returned STATUS_SUCCESS →
      RingLinked (CmpSetSecurityDescriptorInfo env h Key info md).Hive) ∧
    (∀ (env : Env) (H : CMHIVE) (c : HCELL_INDEX) (Cell FlinkCell BlinkCell : CM_KEY_SECURITY),
      RingLinked H → HvGetCellSecurity env H c = some Cell →
      HvGetCellSecurity env H Cell.Flink = some FlinkCell →
      HvGetCellSecurity env H Cell.Blink = some BlinkCell →
      FlinkCell.Blink = c ∧ BlinkCell.Flink = c) := by
  refine ⟨?_, ?_, ?_, ?_⟩
  · intro env H n c hring hpar hok
    exact CmpInsertSecurityCellList_ring env H n c ((RingLinked_iff _).1 hring) hpar hok
  · intro env H c S hring hS hmS hmF hmB
    exact unlink_free_ring env H c S hring hS hmS hmF hmB
  · intro env h Key info md hring hpin hok
    exact set_preserves_ring env h Key info md hring hpin hok
  · intro env H c Cell FlinkCell BlinkCell hring hC hF hB
    obtain ⟨⟨F, hF1, hFb⟩, ⟨B, hB1, hBf⟩⟩ :=
      hring c Cell (HvGetCellSecurity_eq_some _ _ _ _ hC).2
    rw [(HvGetCellSecurity_eq_some _ _ _ _ hF).2] at hF1
    rw [(HvGetCellSecurity_eq_some _ _ _ _ hB).2] at hB1
    cases hF1
    cases hB1
    exact ⟨hFb, hBf⟩

theorem C26_ring_links_stay_consistent_witness :
    RingLinked (CmpSetSecurityDescriptorInfo ExampleEnv ExampleHiveShared ExampleKcb 4
        [9, 9]).Hive ∧
      RingLinked (HvFreeCell (CmpRemoveSecurityCellList ExampleEnv ExampleHiveSplit 1022) 1022) :=
  ⟨C26_ring_links_stay_consistent.2.2.1 ExampleEnv ExampleHiveShared ExampleKcb 4 [9, 9]
      (RingLinked_of_forall_mem _ (by decide)) (fun _ _ => rfl) (by decide),
   C26_ring_links_stay_consistent.2.1 ExampleEnv ExampleHiveSplit 1022
      { Signature := CM_KEY_SECURITY_SIGNATURE, Flink := 1023, Blink := 1023,
        ReferenceCount := 1, DescriptorLength := 2, Descriptor := [9, 9] }
      (RingLinked_of_forall_mem _ (by decide)) (by decide) rfl rfl rfl⟩

/-- C27. Placement of a newly created cell: on success
`CmpInsertSecurityCellList` leaves the new cell `c` linked to itself when its
storage type is volatile or when the node has `KEY_HIVE_ENTRY` set, the other
cells being as they were.  Otherwise, for the security cell `P` of the parent
node (a cell other than `c`, whose forward neighbour is not `c` and points
back to `P`), afterwards `P.Flink` is `c`, the links of `c` are the former
`P.Flink` forward and `P` backward, and the `Blink` of the former forward
neighbour of `P` is `c`.  In every case the cache has an entry for `c` that
shadows the length and the bytes of the cell. -/
theorem C27_new_cell_placement (env : Env) (H : CMHIVE) (n c : HCELL_INDEX)
    (hok : (CmpInsertSecurityCellList env H n c).1 = true) :
    ((HvGetCellType c = Volatile ∨
        ∃ Node, cmGet H.KeyNodes n = some Node ∧ Node.Flags &&& KEY_HIVE_ENTRY ≠ 0) →
      LinksOf (CmpInsertSecurityCellList env H n c).2.SecurityCells c = some (c, c) ∧
      ∀ k, k ≠ c → cmGet (CmpInsertSecurityCellList env H n c).2.SecurityCells k =
        cmGet H.SecurityCells k) ∧
    (HvGetCellType c ≠ Volatile →
      ∀ Node ParentNode P F, cmGet H.KeyNodes n = some Node →
        Node.Flags &&& KEY_HIVE_ENTRY = 0 →
        cmGet H.KeyNodes Node.Parent = some ParentNode →
        cmGet H.SecurityCells ParentNode.Security = some P →
        cmGet H.SecurityCells P.Flink = some F →
        ParentNode.Security ≠ c → P.Flink ≠ c → F.Blink = ParentNode.Security →
        (cmGet (CmpInsertSecurityCellList env H n c).2.SecurityCells
            ParentNode.Security).map CM_KEY_SECURITY.Flink = some c ∧
          LinksOf (CmpInsertSecurityCellList env H n c).2.SecurityCells c =
            some (P.Flink, ParentNode.Security) ∧
          (cmGet (CmpInsertSecurityCellList env H n c).2.SecurityCells P.Flink).map
            CM_KEY_SECURITY.Blink = some c) ∧
    (∃ S e, cmGet H.SecurityCells c = some S ∧
      cmGet (CmpInsertSecurityCellList env H n c).2.SecurityCache c = some e ∧
      e.Cell = c ∧ e.DescriptorLength = S.DescriptorLength ∧
      e.Descriptor = S.Descriptor.take S.DescriptorLength) := by
  obtain ⟨X, hX⟩ := CmpInsertSecurityCellList_live env H n c hok
  refine ⟨?_, ?_, ?_⟩
  · intro hown
    rcases CmpInsertSecurityCellList_cases env H n c with
      ⟨hf, _⟩ | ⟨_, hi⟩ | ⟨Node, _, _, _, hv, hN, hflag, _⟩
    · rw [hf] at hok
      cases hok
    · rw [hi]
      simp only [CmpInsertSecurityCellListCache_SecurityCells, WriteSecurity_SecurityCells]
      refine ⟨by simp [LinksOf, cmGet_cmModify, hX], fun k hk => ?_⟩
      simp [cmGet_cmModify, hk]
    · exfalso
      rcases hown with h | ⟨Node2, hN2, hflag2⟩
      · exact hv h
      · rw [hN] at hN2
        cases hN2
        exact hflag2 hflag
  · intro hv Node ParentNode P F hN hflag hPN hP hF hPc hFc hFb
    rcases CmpInsertSecurityCellList_cases env H n c with
      ⟨hf, _⟩ | ⟨hown, _⟩ |
      ⟨Node2, ParentNode2, BlinkCell, FlinkCell, _, hN2, _, hPN2, hB, hF2, _, _, hi⟩
    · rw [hf] at hok
      cases hok
    · exfalso
      rcases hown with h | ⟨Node2, hN2, hflag2⟩
      · exact hv h
      · rw [hN] at hN2
        cases hN2
        exact hflag2 hflag
    · rw [hN] at hN2
      cases hN2
      rw [hPN] at hPN2
      cases hPN2
      rw [hP] at hB
      cases hB
      rw [hF] at hF2
      cases hF2
      rw [hi]
      simp only [CmpInsertSecurityCellListCache_SecurityCells, WriteSecurity_SecurityCells,
        Dirtied_SecurityCells]
      have hcP : ¬ c = ParentNode.Security := fun e => hPc e.symm
      have hcF : ¬ c = P.Flink := fun e => hFc e.symm
      refine ⟨?_, ?_, ?_⟩
      · by_cases hPF : ParentNode.Security = P.Flink
        · simp [cmGet_cmModify, hPc, ← hPF, hP]
        · simp [cmGet_cmModify, hPc, hPF, hP]
      · simp [LinksOf, cmGet_cmModify, hX, hcP, hcF, hFb]
      · by_cases hPF : P.Flink = ParentNode.Security
        · simp [cmGet_cmModify, hFc, hPc, hPF, hP]
        · simp [cmGet_cmModify, hFc, hPc, hPF, hF]
  · obtain ⟨S, hS, hcache, _⟩ := CmpInsertSecurityCellList_cache env H n c hok
    cases he : cmGet (CmpInsertSecurityCellList env H n c).2.SecurityCache c with
    | none => simp [he] at hcache
    | some e =>
      simp only [he, Option.map_some', Option.some.injEq, Prod.mk.injEq] at hcache
      exact ⟨S, e, hS, rfl, hcache.1, hcache.2.1, hcache.2.2⟩

theorem C27_new_cell_placement_witness :
    (CmpInsertSecurityCellList ExampleEnv
        (HvAllocateCell ExampleEnv ExampleHiveSplit 25 Stable).2 48 1025).1 = true ∧
      (cmGet (CmpInsertSecurityCellList ExampleEnv
          (HvAllocateCell ExampleEnv ExampleHiveSplit 25 Stable).2 48 1025).2.SecurityCells
          1023).map CM_KEY_SECURITY.Flink = some 1025 ∧
      LinksOf (CmpInsertSecurityCellList ExampleEnv
          (HvAllocateCell ExampleEnv ExampleHiveSplit 25 Stable).2 48 1025).2.SecurityCells
          1025 = some (1022, 1023) ∧
      (cmGet (CmpInsertSecurityCellList ExampleEnv
          (HvAllocateCell ExampleEnv ExampleHiveSplit 25 Stable).2 48 1025).2.SecurityCells
          1022).map CM_KEY_SECURITY.Blink = some 1025 :=
  ⟨by decide,
   (C27_new_cell_placement ExampleEnv (HvAllocateCell ExampleEnv ExampleHiveSplit 25 Stable).2
      48 1025 (by decide)).2.1 (by decide)
      { Flags := 0, LastWriteTime := 0, Parent := 32, Security := HCELL_NIL }
      { Flags := 4, LastWriteTime := 0, Parent := 0, Security := 1023 }
      { Signature := CM_KEY_SECURITY_SIGNATURE, Flink := 1022, Blink := 1022,
        ReferenceCount := 1, DescriptorLength := 3, Descriptor := [1, 2, 3] }
      { Signature := CM_KEY_SECURITY_SIGNATURE, Flink := 1023, Blink := 1023,
        ReferenceCount := 1, DescriptorLength := 2, Descriptor := [9, 9] }
      (by decide) (by decide) (by decide) (by decide) (by decide) (by decide) (by decide)
      (by decide)⟩

/-- C28. Dirty before write: on every exit of `CmpSetSecurityDescriptorInfo`
(all branches, failures included) and of `CmpAssignSecurityDescriptor` (with
`CmpInsertSecurityCellList`), among the events the call added to the log of the
hive every write to a cell comes after a successful dirty mark of that cell or
after the allocation of that cell within the call.  `CmpInsertSecurityCellList`
by itself keeps this, given that its new cell was allocated or marked dirty
before. -/
theorem C28_dirty_before_write (env : Env) (H : CMHIVE) (Key : CM_KEY_CONTROL_BLOCK)
    (info : Nat) (md : List Nat) (Cell : HCELL_INDEX) (D : List Nat) (n c : HCELL_INDEX) :
    WritesCovered H (CmpSetSecurityDescriptorInfo env H Key info md).Hive ∧
      WritesCovered H (CmpAssignSecurityDescriptor env H Cell D).2 ∧
      (∀ (Base : List CellEvent) (Marked : List HCELL_INDEX),
        Tracked Base H Marked → c ∈ Marked →
        Tracked Base (CmpInsertSecurityCellList env H n c).2 Marked) :=
  ⟨Tracked_covered H _ [] (Tracked_CmpSetSecurityDescriptorInfo env H Key info md),
   Tracked_covered H _ [] (Tracked_CmpAssignSecurityDescriptor env H Cell D),
   fun Base Marked h hc => Tracked_CmpInsertSecurityCellList env Base H Marked n c h hc⟩

theorem C28_dirty_before_write_witness :
    WritesCovered ExampleHiveShared
        (CmpSetSecurityDescriptorInfo ExampleEnv ExampleHiveShared ExampleKcb 4 [9, 9]).Hive ∧
      (CmpSetSecurityDescriptorInfo ExampleEnv ExampleHiveShared ExampleKcb 4 [9, 9]).Hive.Log =
        [CellEvent.Write 40, CellEvent.Write 40, CellEvent.Write 1022, CellEvent.Write 1023,
         CellEvent.Write 1023, CellEvent.Write 1022, CellEvent.Write 1023,
         CellEvent.Dirty 1023, CellEvent.Allocate 1022, CellEvent.Dirty 1023,
         CellEvent.Dirty 40] ∧
      DirtyBeforeWrite
        (CmpSetSecurityDescriptorInfo ExampleEnv ExampleHiveShared ExampleKcb 4 [9, 9]).Hive.Log =
        true :=
  ⟨(C28_dirty_before_write ExampleEnv ExampleHiveShared ExampleKcb 4 [9, 9] 48 [1, 2, 3] 48
      1023).1, by decide, by decide⟩

/-- C29. Retry once on an undersized buffer: `CmpCheckKeyAccess` queries the
descriptor at most twice.  With the node and its security cell mapped and the
first buffer allocated, the first query is made on a buffer of
`DescriptorLength` bytes; when its status is not `STATUS_BUFFER_TOO_SMALL` it
is the only query; when it is, and the second buffer is allocated, there is one
more query, on a buffer of exactly the length the first query reported, and if
that query fails (with `STATUS_BUFFER_TOO_SMALL` again or otherwise) its
status is returned and no access evaluation is made. -/
theorem C29_retry_once (env : Env) (acc : AccessEnv) (Hive : CMHIVE) (NodeCell : HCELL_INDEX)
    (PreviousMode DesiredAccess : Nat) :
    (Queries (CmpCheckKeyAccess env acc Hive NodeCell PreviousMode DesiredAccess).2).length ≤ 2 ∧
    ∀ Node S, HvGetCellNode env Hive NodeCell = some Node →
      HvGetCellSecurity env Hive Node.Security = some S →
      acc.ExAllocatePool S.DescriptorLength = true →
      ((acc.SeQuerySecurityDescriptorInfo FULL_SECURITY_INFORMATION S.DescriptorLength
          S.Descriptor).1 ≠ STATUS_BUFFER_TOO_SMALL →
        Queries (CmpCheckKeyAccess env acc Hive NodeCell PreviousMode DesiredAccess).2 =
          [S.DescriptorLength]) ∧
      ((acc.SeQuerySecurityDescriptorInfo FULL_SECURITY_INFORMATION S.DescriptorLength
          S.Descriptor).1 = STATUS_BUFFER_TOO_SMALL →
        (acc.ExAllocatePool (acc.SeQuerySecurityDescriptorInfo FULL_SECURITY_INFORMATION
            S.DescriptorLength S.Descriptor).2.1 = false →
          Queries (CmpCheckKeyAccess env acc Hive NodeCell PreviousMode DesiredAccess).2 =
            [S.DescriptorLength] ∧
          (CmpCheckKeyAccess env acc Hive NodeCell PreviousMode DesiredAccess).1 =
            STATUS_INSUFFICIENT_RESOURCES) ∧
        (acc.ExAllocatePool (acc.SeQuerySecurityDescriptorInfo FULL_SECURITY_INFORMATION
            S.DescriptorLength S.Descriptor).2.1 = true →
          Queries (CmpCheckKeyAccess env acc Hive NodeCell PreviousMode DesiredAccess).2 =
            [S.DescriptorLength,
              (acc.SeQuerySecurityDescriptorInfo FULL_SECURITY_INFORMATION S.DescriptorLength
                S.Descriptor).2.1] ∧
          (NT_SUCCESS (acc.SeQuerySecurityDescriptorInfo FULL_SECURITY_INFORMATION
              (acc.SeQuerySecurityDescriptorInfo FULL_SECURITY_INFORMATION S.DescriptorLength
                S.Descriptor).2.1 S.Descriptor).1 = false →
            (CmpCheckKeyAccess env acc Hive NodeCell PreviousMode DesiredAccess).1 =
              (acc.SeQuerySecurityDescriptorInfo FULL_SECURITY_INFORMATION
                (acc.SeQuerySecurityDescriptorInfo FULL_SECURITY_INFORMATION S.DescriptorLength
                  S.Descriptor).2.1 S.Descriptor).1 ∧
            AccessChecks
              (CmpCheckKeyAccess env acc Hive NodeCell PreviousMode DesiredAccess).2 = []))) := by
  refine ⟨Queries_CmpCheckKeyAccess_le env acc Hive NodeCell PreviousMode DesiredAccess, ?_⟩
  intro Node S hn hs ha
  have hQ := Queries_CmpCheckKeyAccess env acc Hive NodeCell PreviousMode DesiredAccess Node S
    hn hs ha
  refine ⟨fun hb => ?_, fun hb => ⟨fun ha2 => ⟨?_, ?_⟩, fun ha2 => ⟨?_, fun hf => ?_⟩⟩⟩
  · rw [hQ, if_neg (fun h => hb h.1)]
  · rw [hQ, if_neg (by rw [ha2]; simp)]
  · have hinfo : OWNER_SECURITY_INFORMATION ||| GROUP_SECURITY_INFORMATION |||
        DACL_SECURITY_INFORMATION ||| SACL_SECURITY_INFORMATION = FULL_SECURITY_INFORMATION := rfl
    simp [CmpCheckKeyAccess, hn, hs, ha, CmpCheckKeyAccessQueried, hinfo, hb, ha2]
  · rw [hQ, if_pos ⟨hb, ha2⟩]
  · have hinfo : OWNER_SECURITY_INFORMATION ||| GROUP_SECURITY_INFORMATION |||
        DACL_SECURITY_INFORMATION ||| SACL_SECURITY_INFORMATION = FULL_SECURITY_INFORMATION := rfl
    simp [CmpCheckKeyAccess, hn, hs, ha, CmpCheckKeyAccessQueried, hinfo, hb, ha2, hf,
      AccessChecks]

theorem C29_retry_once_witness :
    (Queries (CmpCheckKeyAccess ExampleEnv ExampleAccessEnv ExampleTreeHive 32 1 1).2).length
        ≤ 2 ∧
      Queries (CmpCheckKeyAccess ExampleEnv ExampleAccessEnv ExampleTreeHive 32 1 1).2 = [3] :=
  ⟨(C29_retry_once ExampleEnv ExampleAccessEnv ExampleTreeHive 32 1 1).1,
   ((C29_retry_once ExampleEnv ExampleAccessEnv ExampleTreeHive 32 1 1).2
      { Flags := 4, LastWriteTime := 0, Parent := 0, Security := 1023, SubKeyCounts := [2, 0] }
      { Signature := CM_KEY_SECURITY_SIGNATURE, Flink := 1022, Blink := 1022,
        ReferenceCount := 3, DescriptorLength := 3, Descriptor := [1, 2, 3] }
      (by decide) (by decide) (by decide)).1 (by decide)⟩

/-- C30. Re-entrancy escape: the tag bit of the pointer to the key control
block counts only for a query.  A query that finds the bit set works on the
block at the pointer without the bit, and no event of its trace takes or
releases the lock of a key control block, whether the key is deleted or not.
Every other request (set, assign, delete, or an unknown code) works on the
block at the pointer as given, takes its lock exclusively right after the
registry lock, and, whenever the routine returns, releases it right before the
registry lock; in between nothing touches the lock of a key control block. -/
theorem C30_tag_bit_only_for_query (env : Env) (acc : AccessEnv) (menv : MethodEnv)
    (Hive : CMHIVE) (P Op Info : Nat) (D : List Nat) (Len : Nat) :
    (Op = QuerySecurityDescriptor → P &&& 1 ≠ 0 →
      MethodKcb P Op = P ^^^ 1 ∧
      (∀ e, e ∈ (CmpSecurityMethod env acc menv Hive P Op Info D Len).Trace →
        e.OnKcbLock = false) ∧
      (CmpSecurityMethod env acc menv Hive P Op Info D Len).Kcb = menv.KcbAt (P ^^^ 1)) ∧
    (Op ≠ QuerySecurityDescriptor →
      MethodKcb P Op = P ∧
      ∃ Mid, (∀ e, e ∈ Mid → e.OnKcbLock = false) ∧
        (CmpSecurityMethod env acc menv Hive P Op Info D Len).Trace =
          [MethodEvent.CmpLockRegistry, MethodEvent.CmpLockKCBExclusive P] ++ Mid ++
            (match (CmpSecurityMethod env acc menv Hive P Op Info D Len).Status with
              | Outcome.Returned _ => [MethodEvent.CmpUnlockKCB P, MethodEvent.CmpUnlockRegistry]
              | Outcome.BugCheck _ _ => [])) := by
  constructor
  · intro hop htag
    subst hop
    have hk := MethodKcb_tagged P htag
    refine ⟨hk, ?_, ?_⟩
    · by_cases hdel : (menv.KcbAt (MethodKcb P QuerySecurityDescriptor)).Delete = true
      · rw [(CmpSecurityMethod_deleted_tagged env acc menv Hive P Info D Len hdel htag)]
        intro e he
        simp only [List.mem_cons, List.mem_singleton, List.not_mem_nil, or_false] at he
        rcases he with rfl | rfl <;> rfl
      · have hlive : (menv.KcbAt (MethodKcb P QuerySecurityDescriptor)).Delete = false := by
          simpa using hdel
        have hT := (CmpSecurityMethod_live env acc menv Hive P QuerySecurityDescriptor Info D
          Len hlive).2.2.2.2.2
        obtain ⟨⟨s, hs⟩, _, _, htr⟩ := MethodSwitch_query env acc menv Hive
          (menv.KcbAt (MethodKcb P QuerySecurityDescriptor)) Info D Len
        rw [htr, hs] at hT
        rw [hT]
        unfold MethodUnlock
        rw [MethodLock_tagged P htag, MethodUnlockKcb_tagged P htag]
        intro e he
        simp only [ne_eq, not_true_eq_false, if_false, Bool.false_eq_true, List.nil_append,
          List.append_nil, List.cons_append, List.mem_cons, List.mem_singleton,
          List.not_mem_nil, or_false] at he
        rcases he with rfl | rfl | rfl <;> rfl
    · by_cases hdel : (menv.KcbAt (MethodKcb P QuerySecurityDescriptor)).Delete = true
      · rw [CmpSecurityMethod_deleted env acc menv Hive P _ Info D Len hdel, hk]
      · have hlive : (menv.KcbAt (MethodKcb P QuerySecurityDescriptor)).Delete = false := by
          simpa using hdel
        rw [(CmpSecurityMethod_live env acc menv Hive P QuerySecurityDescriptor Info D
          Len hlive).2.2.1,
          (MethodSwitch_query env acc menv Hive _ Info D Len).2.2.1, hk]
  · intro hop
    have hk : MethodKcb P Op = P := MethodKcb_untagged P Op (Or.inl hop)
    refine ⟨hk, ?_⟩
    by_cases hdel : (menv.KcbAt (MethodKcb P Op)).Delete = true
    · refine ⟨[], fun e he => absurd he (by simp), ?_⟩
      rw [CmpSecurityMethod_deleted env acc menv Hive P Op Info D Len hdel,
        MethodLock_exclusive P Op hop, MethodUnlockKcb_untagged P Op (Or.inl hop), hk]
      rfl
    · have hlive : (menv.KcbAt (MethodKcb P Op)).Delete = false := by simpa using hdel
      obtain ⟨hS, _, _, _, _, hT⟩ := CmpSecurityMethod_live env acc menv Hive P Op Info D Len
        hlive
      rw [hk] at hS hT
      rw [hS, hT, MethodLock_exclusive P Op hop, if_pos hop]
      cases hs : (MethodSwitch env acc menv Hive (menv.KcbAt P) Op Info D Len).Status with
      | Returned s =>
        refine ⟨[MethodEvent.CmpLockHiveFlusherShared, MethodEvent.CmLockHiveSecurityExclusive]
          ++ (MethodSwitch env acc menv Hive (menv.KcbAt P) Op Info D Len).Trace ++
          (MethodEvent.CmpUnlockHiveFlusher ::
            (if (MethodSwitch env acc menv Hive (menv.KcbAt P) Op Info D Len).UnlockSecurity
              then [MethodEvent.CmUnlockHiveSecurity] else [])), ?_, ?_⟩
        · intro e he
          simp only [List.mem_append, List.mem_cons, List.mem_singleton, List.not_mem_nil,
            or_false] at he
          rcases he with ((rfl | rfl) | he) | rfl | he
          · rfl
          · rfl
          · exact (MethodSwitch_events env acc menv Hive _ Op Info D Len e he).2.1
          · rfl
          · split at he
            · rw [List.mem_singleton] at he
              subst he
              rfl
            · exact absurd he (by simp)
        · unfold MethodUnlock
          rw [if_pos hop, MethodUnlockKcb_untagged P Op (Or.inl hop), hk]
          simp only [if_true, List.append_assoc, List.cons_append, List.nil_append]
      | BugCheck a b =>
        refine ⟨[MethodEvent.CmpLockHiveFlusherShared, MethodEvent.CmLockHiveSecurityExclusive]
          ++ (MethodSwitch env acc menv Hive (menv.KcbAt P) Op Info D Len).Trace, ?_, ?_⟩
        · intro e he
          simp only [List.mem_append, List.mem_cons, List.mem_singleton, List.not_mem_nil,
            or_false] at he
          rcases he with (rfl | rfl) | he
          · rfl
          · rfl
          · exact (MethodSwitch_events env acc menv Hive _ Op Info D Len e he).2.1
        · simp only [List.append_assoc, List.cons_append, List.nil_append, List.append_nil]

theorem C30_tag_bit_only_for_query_witness :
    MethodKcb 65 QuerySecurityDescriptor = 65 ^^^ 1 ∧
      (∀ e, e ∈ (CmpSecurityMethod ExampleEnv ExampleAccessEnv ExampleMethodEnv
          ExampleHiveShared 65 QuerySecurityDescriptor 15 [] 16).Trace →
        e.OnKcbLock = false) ∧
      (CmpSecurityMethod ExampleEnv ExampleAccessEnv ExampleMethodEnv ExampleHiveShared 65
          QuerySecurityDescriptor 15 [] 16).Kcb = ExampleMethodEnv.KcbAt (65 ^^^ 1) :=
  (C30_tag_bit_only_for_query ExampleEnv ExampleAccessEnv ExampleMethodEnv ExampleHiveShared 65
    QuerySecurityDescriptor 15 [] 16).1 rfl (by decide)

/-- C31. Change notification: the trace of `CmpSecurityMethod` has a change
notification exactly when the request is a set on a key that is not deleted
and `CmpSetSecurityDescriptorInfo` returned a success status.  In that case
the notification carries the filter for attributes and security, comes right
after the release of the hive security lock, and is made while the registry
lock, the lock of the key control block and the flusher lock are held and the
hive security lock is not. -/
theorem C31_change_notification (env : Env) (acc : AccessEnv) (menv : MethodEnv)
    (Hive : CMHIVE) (P Op Info : Nat) (D : List Nat) (Len : Nat) :
    ((∃ e, e ∈ (CmpSecurityMethod env acc menv Hive P Op Info D Len).Trace ∧
        e.IsNotify = true) ↔
      (Op = SetSecurityDescriptor ∧ (menv.KcbAt P).Delete = false ∧
        SetSucceeds env Hive (menv.KcbAt P) Info D = true)) ∧
    (Op = SetSecurityDescriptor → (menv.KcbAt P).Delete = false →
      SetSucceeds env Hive (menv.KcbAt P) Info D = true →
      (CmpSecurityMethod env acc menv Hive P Op Info D Len).Trace =
        [MethodEvent.CmpLockRegistry, MethodEvent.CmpLockKCBExclusive P,
         MethodEvent.CmpLockHiveFlusherShared, MethodEvent.CmLockHiveSecurityExclusive,
         MethodEvent.CmpSetSecurityDescriptorInfo, MethodEvent.CmUnlockHiveSecurity] ++
        [MethodEvent.CmpReportNotify
           (REG_NOTIFY_CHANGE_ATTRIBUTES ||| REG_NOTIFY_CHANGE_SECURITY)] ++
        [MethodEvent.CmpUnlockHiveFlusher, MethodEvent.CmpUnlockKCB P,
         MethodEvent.CmpUnlockRegistry] ∧
      HeldAfter []
        [MethodEvent.CmpLockRegistry, MethodEvent.CmpLockKCBExclusive P,
         MethodEvent.CmpLockHiveFlusherShared, MethodEvent.CmLockHiveSecurityExclusive,
         MethodEvent.CmpSetSecurityDescriptorInfo, MethodEvent.CmUnlockHiveSecurity] =
        some [CmLock.HiveFlusher, CmLock.Kcb P, CmLock.Registry]) := by
  have hset : Op = SetSecurityDescriptor → (menv.KcbAt P).Delete = false →
      SetSucceeds env Hive (menv.KcbAt P) Info D = true →
      (CmpSecurityMethod env acc menv Hive P Op Info D Len).Trace =
        [MethodEvent.CmpLockRegistry, MethodEvent.CmpLockKCBExclusive P,
         MethodEvent.CmpLockHiveFlusherShared, MethodEvent.CmLockHiveSecurityExclusive,
         MethodEvent.CmpSetSecurityDescriptorInfo, MethodEvent.CmUnlockHiveSecurity] ++
        [MethodEvent.CmpReportNotify
           (REG_NOTIFY_CHANGE_ATTRIBUTES ||| REG_NOTIFY_CHANGE_SECURITY)] ++
        [MethodEvent.CmpUnlockHiveFlusher, MethodEvent.CmpUnlockKCB P,
         MethodEvent.CmpUnlockRegistry] := by
    intro hop hlive hs
    subst hop
    exact (CmpSecurityMethod_set_trace env acc menv Hive P Info D Len hlive).1 hs
  refine ⟨⟨?_, ?_⟩, fun hop hlive hs => ⟨hset hop hlive hs, ?_⟩⟩
  · rintro ⟨e, he, hn⟩
    by_cases hdel : (menv.KcbAt (MethodKcb P Op)).Delete = true
    · exfalso
      rw [CmpSecurityMethod_deleted env acc menv Hive P Op Info D Len hdel] at he
      simp only [List.mem_append, List.mem_singleton] at he
      rcases he with (he | he) | rfl
      · unfold MethodLock at he
        rw [List.mem_cons] at he
        rcases he with rfl | he
        · cases hn
        · split at he
          · split at he
            · exact absurd he (by simp)
            · rw [List.mem_singleton] at he
              subst he
              cases hn
          · rw [List.mem_singleton] at he
            subst he
            cases hn
      · split at he
        · rw [List.mem_singleton] at he
          subst he
          cases hn
        · exact absurd he (by simp)
      · cases hn
    · have hlive : (menv.KcbAt (MethodKcb P Op)).Delete = false := by simpa using hdel
      by_cases h0 : Op = SetSecurityDescriptor
      · subst h0
        have hk : MethodKcb P SetSecurityDescriptor = P :=
          MethodKcb_untagged P _ (Or.inl (by decide))
        rw [hk] at hlive
        refine ⟨rfl, hlive, ?_⟩
        by_contra hs
        have hs1 : SetSucceeds env Hive (menv.KcbAt P) Info D = false := by simpa using hs
        rw [(CmpSecurityMethod_set_trace env acc menv Hive P Info D Len hlive).2 hs1] at he
        rw [List.mem_append] at he
        rcases he with he | he
        · simp only [List.mem_cons, List.mem_singleton, List.not_mem_nil, or_false] at he
          rcases he with rfl | rfl | rfl | rfl | rfl <;> cases hn
        · split at he
          · simp only [List.mem_cons, List.mem_singleton, List.not_mem_nil, or_false] at he
            rcases he with rfl | rfl | rfl | rfl <;> cases hn
          · exact absurd he (by simp)
      · exfalso
        rw [(CmpSecurityMethod_live env acc menv Hive P Op Info D Len hlive).2.2.2.2.2] at he
        simp only [List.mem_append] at he
        rcases he with ((he | he) | he) | he
        · unfold MethodLock at he
          rw [List.mem_cons] at he
          rcases he with rfl | he
          · cases hn
          · split at he
            · split at he
              · exact absurd he (by simp)
              · rw [List.mem_singleton] at he
                subst he
                cases hn
            · rw [List.mem_singleton] at he
              subst he
              cases hn
        · split at he
          · simp only [List.mem_cons, List.mem_singleton, List.not_mem_nil, or_false] at he
            rcases he with rfl | rfl <;> cases hn
          · exact absurd he (by simp)
        · by_cases h1 : Op = QuerySecurityDescriptor
          · subst h1
            rw [(MethodSwitch_query env acc menv Hive _ Info D Len).2.2.2,
              List.mem_singleton] at he
            subst he
            cases hn
          · by_cases h2 : Op = DeleteSecurityDescriptor
            · subst h2
              rw [MethodSwitch_delete] at he
              exact absurd he (by simp)
            · by_cases h3 : Op = AssignSecurityDescriptor
              · subst h3
                rw [MethodSwitch_assign] at he
                simp only [List.mem_singleton] at he
                subst he
                cases hn
              · rw [MethodSwitch_other env acc menv Hive _ Op Info D Len h0 h1 h2 h3] at he
                exact absurd he (by simp)
        · split at he
          · unfold MethodUnlock at he
            simp only [List.mem_append, List.mem_singleton] at he
            rcases he with (he | he) | rfl
            · split at he
              · rw [List.mem_cons] at he
                rcases he with rfl | he
                · cases hn
                · split at he
                  · rw [List.mem_singleton] at he
                    subst he
                    cases hn
                  · exact absurd he (by simp)
              · exact absurd he (by simp)
            · split at he
              · rw [List.mem_singleton] at he
                subst he
                cases hn
              · exact absurd he (by simp)
            · cases hn
          · exact absurd he (by simp)
  · rintro ⟨hop, hlive, hs⟩
    refine ⟨MethodEvent.CmpReportNotify
      (REG_NOTIFY_CHANGE_ATTRIBUTES ||| REG_NOTIFY_CHANGE_SECURITY), ?_, rfl⟩
    rw [hset hop hlive hs]
    simp
  · simp [HeldAfter, MethodEvent.Acquired, MethodEvent.Released]

theorem C31_change_notification_witness :
    (ExampleMethodEnv.KcbAt 64).Delete = false ∧
      SetSucceeds ExampleEnv ExampleHiveSplit (ExampleMethodEnv.KcbAt 64) 4 [9, 9] = true ∧
      (CmpSecurityMethod ExampleEnv ExampleAccessEnv ExampleMethodEnv ExampleHiveSplit 64
          SetSecurityDescriptor 4 [9, 9] 0).Trace =
        [MethodEvent.CmpLockRegistry, MethodEvent.CmpLockKCBExclusive 64,
         MethodEvent.CmpLockHiveFlusherShared, MethodEvent.CmLockHiveSecurityExclusive,
         MethodEvent.CmpSetSecurityDescriptorInfo, MethodEvent.CmUnlockHiveSecurity] ++
        [MethodEvent.CmpReportNotify
           (REG_NOTIFY_CHANGE_ATTRIBUTES ||| REG_NOTIFY_CHANGE_SECURITY)] ++
        [MethodEvent.CmpUnlockHiveFlusher, MethodEvent.CmpUnlockKCB 64,
         MethodEvent.CmpUnlockRegistry] :=
  ⟨by decide, by decide,
   ((C31_change_notification ExampleEnv ExampleAccessEnv ExampleMethodEnv ExampleHiveSplit 64
      SetSecurityDescriptor 4 [9, 9] 0).2 rfl (by decide) (by decide)).1⟩

/-- C32 (status mapping in set), the failing input.  The node at cell 40 has the
private security cell 1022 of length 2, in a ring with cell 1023, which cannot
be marked dirty.  A set to the descriptor `[5, 5, 5]` (another length, no
matching cell) takes the reallocating branch; `HvMarkCellDirty` fails on the
neighbour and the routine returns `STATUS_INSUFFICIENT_RESOURCES`, not
`STATUS_NO_LOG_SPACE`.  A set to `[1, 2, 3]` (which matches cell 1023) fails on
the same dirty mark in the sharing branch and returns `STATUS_NO_LOG_SPACE`. -/
theorem C32_relocating_set_misreports_dirty_failure :
    (CmpSetSecurityDescriptorInfo ExampleEnvNoNeighbourLog ExampleHiveSplit ExampleKcb 4
        [5, 5, 5]).Status = Outcome.Returned STATUS_INSUFFICIENT_RESOURCES ∧
      STATUS_INSUFFICIENT_RESOURCES ≠ STATUS_NO_LOG_SPACE ∧
      HvMarkCellDirty ExampleEnvNoNeighbourLog ExampleHiveSplit 1023 = none ∧
      (CmpSetSecurityDescriptorInfo ExampleEnvNoNeighbourLog ExampleHiveSplit ExampleKcb 4
        [1, 2, 3]).Status = Outcome.Returned STATUS_NO_LOG_SPACE := by
  decide

/-- C33. Set then query round trip: in a store with a consistent cache and
consistent ring links, for a key control block whose cached security is the
cache entry of the cell of its node (the cell storing as many bytes as its
length says), after a successful `CmpSetSecurityDescriptorInfo`, whichever
branch it took, the cached security of the block is the cache entry of the
cell the node points to, that entry shadows the merged descriptor `D`, and a
following `CmpQuerySecurityDescriptorInfo` (the caller's buffer staying in
place) completes with what the query primitive gives on `D`, for owner,
group, DACL and SACL as for any other selection.  The query reads the security
cache only: on any hive with the same cache it gives the same. -/
theorem C33_set_then_query (env : Env) (acc : AccessEnv) (menv : MethodEnv) (h : CMHIVE)
    (Key : CM_KEY_CONTROL_BLOCK) (info : Nat) (md : List Nat) (Node : CM_KEY_NODE)
    (S : CM_KEY_SECURITY) (D : List Nat) (Length : Nat)
    (hnode : cmGet h.KeyNodes Key.KeyCell = some Node)
    (hsec : cmGet h.SecurityCells Node.Security = some S)
    (hcache : CacheConsistent h) (hring : RingLinked h) (hpin : DirtyMeansPinned env)
    (hwf : S.Descriptor.length = S.DescriptorLength)
    (hkcb : Key.CachedSecurity = some Node.Security)
    (hD : (env.SeSetSecurityDescriptorInfo info md S.Descriptor).2 = D)
    (hbuffer : menv.BufferFault = none)
    (hok : (CmpSetSecurityDescriptorInfo env h Key info md).Status
      = Outcome.Returned STATUS_SUCCESS) :
    (∃ c1 e,
      SecurityOf (CmpSetSecurityDescriptorInfo env h Key info md).Hive Key.KeyCell = some c1 ∧
      (CmpSetSecurityDescriptorInfo env h Key info md).Kcb.CachedSecurity = some c1 ∧
      cmGet (CmpSetSecurityDescriptorInfo env h Key info md).Hive.SecurityCache c1 = some e ∧
      e.Cell = c1 ∧ e.DescriptorLength = RtlLengthSecurityDescriptor D ∧ e.Descriptor = D) ∧
    CmpQuerySecurityDescriptorInfo acc menv (CmpSetSecurityDescriptorInfo env h Key info md).Hive
        (CmpSetSecurityDescriptorInfo env h Key info md).Kcb FULL_SECURITY_INFORMATION Length =
      QueryOutcome.Completed
        (acc.SeQuerySecurityDescriptorInfo FULL_SECURITY_INFORMATION Length D).1
        (acc.SeQuerySecurityDescriptorInfo FULL_SECURITY_INFORMATION Length D).2.1
        (acc.SeQuerySecurityDescriptorInfo FULL_SECURITY_INFORMATION Length D).2.2 ∧
    (∀ (Other : CMHIVE) (Kcb : CM_KEY_CONTROL_BLOCK) (SecurityInformation : Nat),
      Other.SecurityCache =
        (CmpSetSecurityDescriptorInfo env h Key info md).Hive.SecurityCache →
      CmpQuerySecurityDescriptorInfo acc menv Other Kcb SecurityInformation Length =
        CmpQuerySecurityDescriptorInfo acc menv
          (CmpSetSecurityDescriptorInfo env h Key info md).Hive Kcb SecurityInformation
          Length) := by
  obtain ⟨c1, hc1, hk, hsh⟩ :=
    set_shadow_of_node env h Key info md Node S D hnode hsec hcache hring hwf hD hok
  have hk1 : (CmpSetSecurityDescriptorInfo env h Key info md).Kcb.CachedSecurity = some c1 := by
    rcases hk with hk | ⟨he, hk⟩
    · exact hk
    · rw [hk, hkcb, he]
  have hC := (CacheConsistent_iff _).1
    (set_preserves_cache env h Key info md hring hcache hpin hok) c1
  rw [hsh] at hC
  cases he : cmGet (CmpSetSecurityDescriptorInfo env h Key info md).Hive.SecurityCache c1 with
  | none => simp [he] at hC
  | some e =>
    simp only [he, Option.map_some', Option.some.injEq, Prod.mk.injEq] at hC
    refine ⟨⟨c1, e, hc1, hk1, he, hC.1, hC.2.1, hC.2.2⟩, ?_, ?_⟩
    · unfold CmpQuerySecurityDescriptorInfo
      rw [hk1]
      simp only [Option.some_bind, he, hbuffer, hC.2.2]
    · intro Other Kcb SecurityInformation hother
      unfold CmpQuerySecurityDescriptorInfo
      rw [hother]

theorem C33_set_then_query_witness :
    CmpQuerySecurityDescriptorInfo ExampleAccessEnv ExampleMethodEnv
        (CmpSetSecurityDescriptorInfo ExampleEnv ExampleHiveSplit ExampleKcbCached 4
          [5, 5, 5]).Hive
        (CmpSetSecurityDescriptorInfo ExampleEnv ExampleHiveSplit ExampleKcbCached 4
          [5, 5, 5]).Kcb FULL_SECURITY_INFORMATION 16 =
      QueryOutcome.Completed
        (ExampleAccessEnv.SeQuerySecurityDescriptorInfo FULL_SECURITY_INFORMATION 16
          [5, 5, 5]).1
        (ExampleAccessEnv.SeQuerySecurityDescriptorInfo FULL_SECURITY_INFORMATION 16
          [5, 5, 5]).2.1
        (ExampleAccessEnv.SeQuerySecurityDescriptorInfo FULL_SECURITY_INFORMATION 16
          [5, 5, 5]).2.2 :=
  (C33_set_then_query ExampleEnv ExampleAccessEnv ExampleMethodEnv ExampleHiveSplit
    ExampleKcbCached 4 [5, 5, 5]
    { Flags := 0, LastWriteTime := 0, Parent := 32, Security := 1022 }
    { Signature := CM_KEY_SECURITY_SIGNATURE, Flink := 1023, Blink := 1023,
      ReferenceCount := 1, DescriptorLength := 2, Descriptor := [9, 9] }
    [5, 5, 5] 16 (by decide) (by decide)
    (CacheConsistent_of_forall_mem _ (by decide) (by decide))
    (RingLinked_of_forall_mem _ (by decide)) DirtyMeansPinned_ExampleEnv (by decide)
    (by decide) (by decide) (by decide) (by decide)).2.1

/-- C34. Root descriptor contents: when every pool allocation and every call of
the descriptor primitive succeeds, `CmpHiveRootSecurityDescriptor` returns a
descriptor whose DACL is present and not defaulted and holds exactly four
access-allowed entries, in this order: Local System with `KEY_ALL_ACCESS`,
builtin Administrators with `KEY_ALL_ACCESS`, World with `KEY_READ`,
Restricted Code with `KEY_READ`, each with the flag `CONTAINER_INHERIT_ACE`;
when an allocation or a construction step fails it does not return but
bugchecks with `REGISTRY_ERROR` at one of its eight sites.  Both cases occur:
the first in `ExampleRootEnv`, the second in `ExampleRootEnvNoAcl`. -/
theorem C34_root_descriptor_contents (renv : RootEnv) :
    ((RootFailure renv = false ∧
      ∃ SecurityDescriptor Acl,
        CmpHiveRootSecurityDescriptor renv = RootOutcome.Returned SecurityDescriptor ∧
        SecurityDescriptor.Control &&& SE_DACL_PRESENT = SE_DACL_PRESENT ∧
        SecurityDescriptor.Control &&& SE_DACL_DEFAULTED = 0 ∧
        SecurityDescriptor.Dacl = some Acl ∧
        Acl.Aces =
          [{ AceType := ACCESS_ALLOWED_ACE_TYPE, AceFlags := CONTAINER_INHERIT_ACE,
             Mask := KEY_ALL_ACCESS,
             Sid := { IdentifierAuthority := SECURITY_NT_AUTHORITY,
                      SubAuthority := [SECURITY_LOCAL_SYSTEM_RID] } },
           { AceType := ACCESS_ALLOWED_ACE_TYPE, AceFlags := CONTAINER_INHERIT_ACE,
             Mask := KEY_ALL_ACCESS,
             Sid := { IdentifierAuthority := SECURITY_NT_AUTHORITY,
                      SubAuthority :=
                        [SECURITY_BUILTIN_DOMAIN_RID, DOMAIN_ALIAS_RID_ADMINS] } },
           { AceType := ACCESS_ALLOWED_ACE_TYPE, AceFlags := CONTAINER_INHERIT_ACE,
             Mask := KEY_READ,
             Sid := { IdentifierAuthority := SECURITY_WORLD_SID_AUTHORITY,
                      SubAuthority := [SECURITY_WORLD_RID] } },
           { AceType := ACCESS_ALLOWED_ACE_TYPE, AceFlags := CONTAINER_INHERIT_ACE,
             Mask := KEY_READ,
             Sid := { IdentifierAuthority := SECURITY_NT_AUTHORITY,
                      SubAuthority := [SECURITY_RESTRICTED_CODE_RID] } }]) ∨
     (RootFailure renv = true ∧
      ∃ Site Status, 1 ≤ Site ∧ Site ≤ 8 ∧
        CmpHiveRootSecurityDescriptor renv =
          RootOutcome.BugCheckAllocateSecurityDescriptor REGISTRY_ERROR Site Status)) ∧
    RootFailure ExampleRootEnv = false ∧ RootFailure ExampleRootEnvNoAcl = true := by
  refine ⟨?_, by decide, by decide⟩
  have hsids : RootSidsBuilt =
      { WorldSid := WorldSid, RestrictedSid := RestrictedCodeSid, SystemSid := LocalSystemSid,
        AdminSid := AdministratorsSid } := by decide
  have hlen : (((SeLengthSid WorldSid - SIZEOF_ULONG + SIZEOF_ACCESS_ALLOWED_ACE) +
        (SeLengthSid RestrictedCodeSid - SIZEOF_ULONG + SIZEOF_ACCESS_ALLOWED_ACE) +
        (SeLengthSid LocalSystemSid - SIZEOF_ULONG + SIZEOF_ACCESS_ALLOWED_ACE) +
        (SeLengthSid AdministratorsSid - SIZEOF_ULONG + SIZEOF_ACCESS_ALLOWED_ACE))
          % 4294967296 + SIZEOF_ACL) % 4294967296 = 92 := by decide
  have hsd : (SIZEOF_SECURITY_DESCRIPTOR + 92) % 4294967296 = 112 := by decide
  have h12 : RtlLengthRequiredSid 1 = 12 := by decide
  have h16 : RtlLengthRequiredSid 2 = 16 := by decide
  have t1 : (RootAces 0).take 1 = [AccessAllowed 0 KEY_ALL_ACCESS LocalSystemSid] := rfl
  have t2 : (RootAces 0).take 2 = [AccessAllowed 0 KEY_ALL_ACCESS LocalSystemSid,
      AccessAllowed 0 KEY_ALL_ACCESS AdministratorsSid] := rfl
  have t3 : (RootAces 0).take 3 = [AccessAllowed 0 KEY_ALL_ACCESS LocalSystemSid,
      AccessAllowed 0 KEY_ALL_ACCESS AdministratorsSid,
      AccessAllowed 0 KEY_READ WorldSid] := rfl
  have e4 : AclOrAceFlags (AclOrAceFlags (AclOrAceFlags (AclOrAceFlags
      ({ AclRevision := ACL_REVISION, AclSize := 92,
          Aces :=
            [{ AceType := ACCESS_ALLOWED_ACE_TYPE, AceFlags := 0, Mask := KEY_ALL_ACCESS, Sid := LocalSystemSid },
             { AceType := ACCESS_ALLOWED_ACE_TYPE, AceFlags := 0, Mask := KEY_ALL_ACCESS, Sid := AdministratorsSid },
             { AceType := ACCESS_ALLOWED_ACE_TYPE, AceFlags := 0, Mask := KEY_READ, Sid := WorldSid },
             { AceType := ACCESS_ALLOWED_ACE_TYPE, AceFlags := 0, Mask := KEY_READ, Sid := RestrictedCodeSid }] } : ACL)
      0 CONTAINER_INHERIT_ACE) 1 CONTAINER_INHERIT_ACE) 2 CONTAINER_INHERIT_ACE)
      3 CONTAINER_INHERIT_ACE =
      { AclRevision := ACL_REVISION, AclSize := 92, Aces := RootAces CONTAINER_INHERIT_ACE } := by
    decide
  unfold CmpHiveRootSecurityDescriptor RootFailure
  simp only [hsids, hlen, hsd, h12, h16, t1, t2, t3, AccessAllowed, RootAddAces_eq]
  generalize
      renv.ExAllocatePool 0 12 = p0
  generalize
      renv.ExAllocatePool 1 12 = p1
  generalize
      renv.ExAllocatePool 2 12 = p2
  generalize
      renv.ExAllocatePool 3 16 = p3
  generalize
      renv.ExAllocatePool 4 92 = p4
  generalize
      renv.ExAllocatePool 5 112 = p5
  generalize
      renv.RtlInitializeSid SECURITY_WORLD_SID_AUTHORITY 1 = i0
  generalize
      renv.RtlInitializeSid SECURITY_NT_AUTHORITY 1 = i1
  generalize
      renv.RtlInitializeSid SECURITY_NT_AUTHORITY 2 = i2
  generalize
      renv.RtlCreateAcl 92 ACL_REVISION = ca
  generalize
      renv.RtlCreateSecurityDescriptor SECURITY_DESCRIPTOR_REVISION = cs
  generalize
      renv.RtlAddAccessAllowedAce
        { AclRevision := ACL_REVISION, AclSize := 92, Aces := [] }
        ACL_REVISION KEY_ALL_ACCESS LocalSystemSid = a1
  generalize
      renv.RtlAddAccessAllowedAce
        { AclRevision := ACL_REVISION, AclSize := 92,
          Aces :=
            [{ AceType := ACCESS_ALLOWED_ACE_TYPE, AceFlags := 0, Mask := KEY_ALL_ACCESS, Sid := LocalSystemSid }] }
        ACL_REVISION KEY_ALL_ACCESS AdministratorsSid = a2
  generalize
      renv.RtlAddAccessAllowedAce
        { AclRevision := ACL_REVISION, AclSize := 92,
          Aces :=
            [{ AceType := ACCESS_ALLOWED_ACE_TYPE, AceFlags := 0, Mask := KEY_ALL_ACCESS, Sid := LocalSystemSid },
             { AceType := ACCESS_ALLOWED_ACE_TYPE, AceFlags := 0, Mask := KEY_ALL_ACCESS, Sid := AdministratorsSid }] }
        ACL_REVISION KEY_READ WorldSid = a3
  generalize
      renv.RtlAddAccessAllowedAce
        { AclRevision := ACL_REVISION, AclSize := 92,
          Aces :=
            [{ AceType := ACCESS_ALLOWED_ACE_TYPE, AceFlags := 0, Mask := KEY_ALL_ACCESS, Sid := LocalSystemSid },
             { AceType := ACCESS_ALLOWED_ACE_TYPE, AceFlags := 0, Mask := KEY_ALL_ACCESS, Sid := AdministratorsSid },
             { AceType := ACCESS_ALLOWED_ACE_TYPE, AceFlags := 0, Mask := KEY_READ, Sid := WorldSid }] }
        ACL_REVISION KEY_READ RestrictedCodeSid = a4
  cases p0
  · exact Or.inr ⟨by simp, 1, 0, by omega, by omega, by simp⟩
  cases p1
  · exact Or.inr ⟨by simp, 1, 0, by omega, by omega, by simp⟩
  cases p2
  · exact Or.inr ⟨by simp, 1, 0, by omega, by omega, by simp⟩
  cases p3
  · exact Or.inr ⟨by simp, 1, 0, by omega, by omega, by simp⟩
  rcases Bool.eq_false_or_eq_true (NT_SUCCESS i0) with ci0 | ci0
  swap
  · exact Or.inr ⟨by simp [ci0], 2, 0, by omega, by omega, by simp [ci0]⟩
  simp only [ci0, if_true]
  rcases Bool.eq_false_or_eq_true (NT_SUCCESS i1) with ci1 | ci1
  swap
  · exact Or.inr ⟨by simp [ci1], 2, 0, by omega, by omega, by simp [ci1]⟩
  simp only [ci1, if_true]
  rcases Bool.eq_false_or_eq_true (NT_SUCCESS i2) with ci2 | ci2
  swap
  · exact Or.inr ⟨by simp [ci2], 2, 0, by omega, by omega, by simp [ci2]⟩
  simp only [ci2, if_true]
  cases p4
  · exact Or.inr ⟨by simp, 3, 0, by omega, by omega, by simp⟩
  rcases Bool.eq_false_or_eq_true (NT_SUCCESS ca) with cca | cca
  swap
  · exact Or.inr ⟨by simp [cca], 4, ca, by omega, by omega, by simp [cca]⟩
  simp only [cca, if_true]
  rcases Bool.eq_false_or_eq_true (NT_SUCCESS a1) with ca1 | ca1
  swap
  · exact Or.inr ⟨by simp [ca1], 5, a1, by omega, by omega, by simp [ca1]⟩
  simp only [ca1, if_true]
  rcases Bool.eq_false_or_eq_true (NT_SUCCESS a2) with ca2 | ca2
  swap
  · exact Or.inr ⟨by simp [ca2], 5, a2, by omega, by omega, by simp [ca2]⟩
  simp only [ca2, if_true]
  rcases Bool.eq_false_or_eq_true (NT_SUCCESS a3) with ca3 | ca3
  swap
  · exact Or.inr ⟨by simp [ca3], 5, a3, by omega, by omega, by simp [ca3]⟩
  simp only [ca3, if_true]
  rcases Bool.eq_false_or_eq_true (NT_SUCCESS a4) with ca4 | ca4
  swap
  · exact Or.inr ⟨by simp [ca4], 5, a4, by omega, by omega, by simp [ca4]⟩
  simp only [ca4, if_true, e4, RtlSetDaclSecurityDescriptor]
  generalize
      renv.RtlSetDaclSecurityDescriptor
        (CreatedSecurityDescriptor SECURITY_DESCRIPTOR_REVISION) true
        (some { AclRevision := ACL_REVISION, AclSize := 92,
                Aces := RootAces CONTAINER_INHERIT_ACE })
        false = sd
  cases p5
  · exact Or.inr ⟨by simp, 6, 0, by omega, by omega, by simp⟩
  rcases Bool.eq_false_or_eq_true (NT_SUCCESS cs) with ccs | ccs
  swap
  · exact Or.inr ⟨by simp [ccs], 7, cs, by omega, by omega, by simp [ccs]⟩
  simp only [ccs, if_true]
  rcases Bool.eq_false_or_eq_true (NT_SUCCESS sd) with csd | csd
  swap
  · exact Or.inr ⟨by simp [csd], 8, sd, by omega, by omega, by simp [csd]⟩
  refine Or.inl ⟨by simp [csd],
    { Revision := SECURITY_DESCRIPTOR_REVISION, Control := SE_DACL_PRESENT, Owner := none,
      Group := none, Sacl := none,
      Dacl := some { AclRevision := ACL_REVISION, AclSize := 92,
                     Aces := RootAces CONTAINER_INHERIT_ACE } },
    { AclRevision := ACL_REVISION, AclSize := 92, Aces := RootAces CONTAINER_INHERIT_ACE },
    ?_, by decide, by decide, rfl, rfl⟩
  simp only [csd, if_true, Bool.not_true, Bool.false_eq_true, if_false]
  decide

/-- C35. Isolation between nodes: in a store with conserved reference counts
(and consistent ring links), a successful `CmpSetSecurityDescriptorInfo` on the
node `N` of the key control block, in any branch, leaves every other node `M`
as it was, its `Security` field included, and leaves the length and the bytes
of the security cell that `M` refers to unchanged; also when `N` and `M`
shared that cell before the call. -/
theorem C35_isolation_between_nodes (env : Env) (h : CMHIVE) (Key : CM_KEY_CONTROL_BLOCK)
    (info : Nat) (md : List Nat) (M : HCELL_INDEX) (NodeM : CM_KEY_NODE)
    (SM : CM_KEY_SECURITY)
    (hrefs : RefCountsConserved h) (hring : RingLinked h)
    (hM : M ≠ Key.KeyCell)
    (hnodeM : cmGet h.KeyNodes M = some NodeM)
    (hsecM : cmGet h.SecurityCells NodeM.Security = some SM)
    (hok : (CmpSetSecurityDescriptorInfo env h Key info md).Status
      = Outcome.Returned STATUS_SUCCESS) :
    cmGet (CmpSetSecurityDescriptorInfo env h Key info md).Hive.KeyNodes M = some NodeM ∧
    SecurityOf (CmpSetSecurityDescriptorInfo env h Key info md).Hive M = some NodeM.Security ∧
    (cmGet (CmpSetSecurityDescriptorInfo env h Key info md).Hive.SecurityCells
        NodeM.Security).map (fun X => (X.DescriptorLength, X.Descriptor)) =
      some (SM.DescriptorLength, SM.Descriptor) := by
  obtain ⟨Node, S, hnode, hsec, -⟩ :=
    CmpSetSecurityDescriptorInfo_of_success env h Key info md hok
  obtain ⟨c1, -, hnodes, -, hsh⟩ :=
    set_shadow_cases env h Key info md Node S _ hnode hsec hring rfl hok
  have hshM : ShadowOf h.SecurityCells NodeM.Security
      = some (SM.DescriptorLength, SM.Descriptor) := by
    simp [ShadowOf, hsecM]
  have hshared : NodeM.Security = Node.Security → 1 < S.ReferenceCount := by
    intro he
    have h2 := ReferencesTo_two h Key.KeyCell M Node NodeM (Ne.symm hM) hnode hnodeM he
    have h3 := (hrefs.2.2.2.1 _ _ hsec).1
    omega
  have hkeep : ShadowOf (CmpSetSecurityDescriptorInfo env h Key info md).Hive.SecurityCells
      NodeM.Security = ShadowOf h.SecurityCells NodeM.Security := by
    rcases hsh with ⟨-, hs⟩ | ⟨-, -, hfresh, -, hs⟩ | ⟨-, hrc, -, -, hs⟩ | ⟨-, hrc, hc1, hs⟩
    · rw [hs, if_neg]
      rintro ⟨he, -, h1⟩
      have := hshared he
      omega
    · rw [hs, if_neg]
      intro he
      rw [he, hfresh] at hsecM
      cases hsecM
    · rw [hs, if_neg]
      intro he
      exact hrc (hshared he)
    · have hne : NodeM.Security ≠ Node.Security := fun he => hrc (hshared he)
      rw [hs, if_neg, if_neg hne]
      intro he
      rcases hc1 with hc1 | ⟨hfresh, -⟩
      · exact hne (he.trans hc1)
      · rw [he, hfresh] at hsecM
        cases hsecM
  refine ⟨?_, ?_, ?_⟩
  · rw [hnodes M hM, hnodeM]
  · unfold SecurityOf
    rw [hnodes M hM, hnodeM]
    rfl
  · have := hkeep
    rw [hshM] at this
    exact this

theorem C35_isolation_between_nodes_witness :
    (cmGet (CmpSetSecurityDescriptorInfo ExampleEnv ExampleHiveShared ExampleKcb 4
        [5, 5]).Hive.SecurityCells 1023).map (fun X => (X.DescriptorLength, X.Descriptor)) =
      some (3, [1, 2, 3]) :=
  (C35_isolation_between_nodes ExampleEnv ExampleHiveShared ExampleKcb 4 [5, 5] 32
    { Flags := 4, LastWriteTime := 0, Parent := 0, Security := 1023 }
    { Signature := CM_KEY_SECURITY_SIGNATURE, Flink := 1023, Blink := 1023,
      ReferenceCount := 2, DescriptorLength := 3, Descriptor := [1, 2, 3] }
    (RefCountsConserved_of_forall_mem _ (by decide) (by decide) (by decide) (by decide)
      (by decide))
    (RingLinked_of_forall_mem _ (by decide)) (by decide) (by decide) (by decide)
    (by decide)).2.2

/-- C36. Descriptor uniqueness: in a store with consistent ring links, in which
every node refers to a security cell of its own storage type and every cell
stores as many bytes as its length says, if no two distinct live security
cells of one storage type hold the same descriptor and the matching routine
finds a cell exactly when one of the type holds the descriptor, then no two
do after a successful assign, a successful set (whichever branch it takes, the
in-place overwrite and the relocation included) or a release. -/
theorem C36_descriptor_uniqueness (env : Env) (h h1 : CMHIVE) (op : StoreOp)
    (hring : RingLinked h) (htyped : TypedReferences h) (hsized : DescriptorsSized h)
    (hmatch : MatchingExact env h) (huniq : DescriptorsUnique h)
    (hstep : op.Successful env h = some h1) : DescriptorsUnique h1 := by
  cases op with
  | Assign Cell D =>
    simp only [StoreOp.Successful] at hstep
    split at hstep
    · rename_i hc
      cases hstep
      rcases assign_shadow_cases env h Cell D hc.2 with ⟨-, hs⟩ | ⟨hfind, N, htype, -, hs⟩
      · exact DescriptorsUnique_of_sub _ _ (fun k => Or.inl (hs k)) huniq
      · refine DescriptorsUnique_of_new h _ N (RtlLengthSecurityDescriptor D, D) ?_ ?_ ?_ huniq
        · intro k hk
          left
          rw [hs, if_neg hk]
        · rw [hs, if_pos rfl]
        · intro c hc1
          exact MatchingExact_none env h D _ hmatch hfind c (hc1.trans htype)
    · cases hstep
  | Set Key info md =>
    simp only [StoreOp.Successful] at hstep
    split at hstep
    · rename_i hok
      cases hstep
      obtain ⟨Node, S, hnode, hsec, -⟩ :=
        CmpSetSecurityDescriptorInfo_of_success env h Key info md hok
      have hty := htyped _ _ _ hnode hsec
      have hsz := hsized _ _ hsec
      obtain ⟨c1, -, -, -, hsh⟩ :=
        set_shadow_cases env h Key info md Node S _ hnode hsec hring rfl hok
      rcases hsh with ⟨-, hs⟩ | ⟨hfind, -, -, htype, hs⟩ | ⟨hfind, -, hlen, hc1, hs⟩ |
        ⟨hfind, -, hc1, hs⟩
      · refine DescriptorsUnique_of_sub _ _ (fun k => ?_) huniq
        rw [hs]
        split
        · exact Or.inr rfl
        · exact Or.inl rfl
      · refine DescriptorsUnique_of_new h _ c1
          (RtlLengthSecurityDescriptor (env.SeSetSecurityDescriptorInfo info md S.Descriptor).2,
            (env.SeSetSecurityDescriptorInfo info md S.Descriptor).2) ?_ ?_ ?_ huniq
        · intro k hk
          left
          rw [hs, if_neg hk]
        · rw [hs, if_pos rfl]
        · intro c hc
          exact MatchingExact_none env h _ _ hmatch hfind c (hc.trans htype)
      · refine DescriptorsUnique_of_new h _ Node.Security
          (RtlLengthSecurityDescriptor (env.SeSetSecurityDescriptorInfo info md S.Descriptor).2,
            (env.SeSetSecurityDescriptorInfo info md S.Descriptor).2) ?_ ?_ ?_ huniq
        · intro k hk
          left
          rw [hs, if_neg hk]
        · rw [hs, if_pos rfl, ← hlen, RtlCopyMemory_exact]
          rw [hsz, ← hlen]
          rfl
        · intro c hc
          exact MatchingExact_none env h _ _ hmatch hfind c (hc.trans hty)
      · refine DescriptorsUnique_of_new h _ c1
          (RtlLengthSecurityDescriptor (env.SeSetSecurityDescriptorInfo info md S.Descriptor).2,
            (env.SeSetSecurityDescriptorInfo info md S.Descriptor).2) ?_ ?_ ?_ huniq
        · intro k hk
          rw [hs, if_neg hk]
          split
          · exact Or.inr rfl
          · exact Or.inl rfl
        · rw [hs, if_pos rfl]
        · intro c hc
          refine MatchingExact_none env h _ _ hmatch hfind c (hc.trans ?_)
          rcases hc1 with hc1 | ⟨-, hc1⟩
          · rw [hc1]
            exact hty
          · exact hc1.trans hty
    · cases hstep
  | Release Cell =>
    simp only [StoreOp.Successful] at hstep
    split at hstep
    · rename_i hm
      cases hstep
      exact DescriptorsUnique_of_sub _ _ (free_shadow_cases env h Cell hm) huniq
    · cases hstep

theorem C36_descriptor_uniqueness_witness :
    DescriptorsUnique
      (CmpSetSecurityDescriptorInfo ExampleEnv ExampleHiveSplit ExampleKcb 4 [5, 5, 5]).Hive :=
  C36_descriptor_uniqueness ExampleEnv ExampleHiveSplit _ (StoreOp.Set ExampleKcb 4 [5, 5, 5])
    (RingLinked_of_forall_mem _ (by decide))
    (TypedReferences_of_forall_mem _ (by decide))
    (DescriptorsSized_of_forall_mem _ (by decide))
    MatchingExact_ExampleHiveSplit
    (DescriptorsUnique_of_forall_mem _ (by decide))
    (by decide)

/-- C37. Lock balance: whenever `CmpSecurityMethod` returns (deleted key,
success, failure, or an exception caught by its handler), its trace releases
only locks that are held and ends with no lock held, so every lock it took is
released once.  After a successful set the hive security lock is released
once, right before the notification, and not again.  `CmpCheckNotifyAccess`
takes the hive security lock and releases it once, whether the cache has the
entry or not. -/
theorem C37_lock_balance (env : Env) (acc : AccessEnv) (menv : MethodEnv)
    (Hive : CMHIVE) (P Op Info : Nat) (D : List Nat) (Len : Nat) (Node : CM_KEY_NODE) :
    (∀ s, (CmpSecurityMethod env acc menv Hive P Op Info D Len).Status = Outcome.Returned s →
      HeldAfter [] (CmpSecurityMethod env acc menv Hive P Op Info D Len).Trace = some []) ∧
    (Op = SetSecurityDescriptor → (menv.KcbAt P).Delete = false →
      SetSucceeds env Hive (menv.KcbAt P) Info D = true →
      (CmpSecurityMethod env acc menv Hive P Op Info D Len).Trace.count
          MethodEvent.CmUnlockHiveSecurity = 1 ∧
      ∃ A B, (CmpSecurityMethod env acc menv Hive P Op Info D Len).Trace =
          A ++ [MethodEvent.CmUnlockHiveSecurity,
            MethodEvent.CmpReportNotify
              (REG_NOTIFY_CHANGE_ATTRIBUTES ||| REG_NOTIFY_CHANGE_SECURITY)] ++ B ∧
        MethodEvent.CmUnlockHiveSecurity ∉ A ∧ MethodEvent.CmUnlockHiveSecurity ∉ B) ∧
    (HeldAfter [] (CmpCheckNotifyAccess acc Hive Node).Trace = some [] ∧
      (CmpCheckNotifyAccess acc Hive Node).Trace.count MethodEvent.CmUnlockHiveSecurity = 1 ∧
      (CmpCheckNotifyAccess acc Hive Node).Trace.count
        MethodEvent.CmLockHiveSecurityShared = 1) := by
  refine ⟨?_, ?_, ?_⟩
  · intro s hs
    by_cases hdel : (menv.KcbAt (MethodKcb P Op)).Delete = true
    · have h21 := CmpSecurityMethod_deleted env acc menv Hive P Op Info D Len hdel
      rw [h21]
      show HeldAfter [] (MethodLock P Op ++ _ ++ _) = _
      by_cases hq : Op = QuerySecurityDescriptor
      · subst hq
        by_cases htag : P &&& 1 = 0
        · rw [MethodLock_shared P htag, MethodUnlockKcb_untagged P _ (Or.inr htag),
            MethodKcb_untagged P _ (Or.inr htag)]
          simp [HeldAfter, MethodEvent.Acquired, MethodEvent.Released]
        · rw [MethodLock_tagged P htag, MethodUnlockKcb_tagged P htag]
          simp [HeldAfter, MethodEvent.Acquired, MethodEvent.Released]
      · rw [MethodLock_exclusive P Op hq, MethodUnlockKcb_untagged P Op (Or.inl hq),
          MethodKcb_untagged P Op (Or.inl hq)]
        simp [HeldAfter, MethodEvent.Acquired, MethodEvent.Released]
    · have hlive : (menv.KcbAt (MethodKcb P Op)).Delete = false := by simpa using hdel
      by_cases h1 : Op = QuerySecurityDescriptor
      · subst h1
        have hT := (CmpSecurityMethod_live env acc menv Hive P QuerySecurityDescriptor Info D
          Len hlive).2.2.2.2.2
        obtain ⟨⟨s1, hs1⟩, _, _, htr⟩ := MethodSwitch_query env acc menv Hive
          (menv.KcbAt (MethodKcb P QuerySecurityDescriptor)) Info D Len
        rw [htr, hs1] at hT
        rw [hT]
        unfold MethodUnlock
        by_cases htag : P &&& 1 = 0
        · rw [MethodLock_shared P htag, MethodUnlockKcb_untagged P _ (Or.inr htag),
            MethodKcb_untagged P _ (Or.inr htag)]
          simp [HeldAfter, MethodEvent.Acquired, MethodEvent.Released]
        · rw [MethodLock_tagged P htag, MethodUnlockKcb_tagged P htag]
          simp [HeldAfter, MethodEvent.Acquired, MethodEvent.Released]
      · have hk : MethodKcb P Op = P := MethodKcb_untagged P Op (Or.inl h1)
        rw [hk] at hlive
        by_cases h0 : Op = SetSecurityDescriptor
        · subst h0
          have hS : (CmpSecurityMethod env acc menv Hive P SetSecurityDescriptor Info D
              Len).Status = (CmpSetSecurityDescriptorInfo env Hive (menv.KcbAt P) Info D).Status := by
            rw [(CmpSecurityMethod_live env acc menv Hive P SetSecurityDescriptor Info D Len
              (by rw [hk]; exact hlive)).1, hk]
            exact (MethodSwitch_set env acc menv Hive (menv.KcbAt P) Info D Len).1
          rw [hS] at hs
          by_cases hok : SetSucceeds env Hive (menv.KcbAt P) Info D = true
          · rw [(CmpSecurityMethod_set_trace env acc menv Hive P Info D Len hlive).1 hok]
            simp [HeldAfter, MethodEvent.Acquired, MethodEvent.Released]
          · have hok1 : SetSucceeds env Hive (menv.KcbAt P) Info D = false := by simpa using hok
            rw [(CmpSecurityMethod_set_trace env acc menv Hive P Info D Len hlive).2 hok1, hs]
            simp [HeldAfter, MethodEvent.Acquired, MethodEvent.Released]
        · by_cases h2 : Op = DeleteSecurityDescriptor
          · subst h2
            rw [CmpSecurityMethod_delete_trace env acc menv Hive P Info D Len hlive]
            simp [HeldAfter, MethodEvent.Acquired, MethodEvent.Released]
          · by_cases h3 : Op = AssignSecurityDescriptor
            · subst h3
              rw [CmpSecurityMethod_assign_trace env acc menv Hive P Info D Len hlive, hs]
              simp [HeldAfter, MethodEvent.Acquired, MethodEvent.Released]
            · rw [(CmpSecurityMethod_other env acc menv Hive P Op Info D Len h0 h1 h2 h3
                hlive).1] at hs
              cases hs
  · intro hop hlive hok
    subst hop
    rw [(CmpSecurityMethod_set_trace env acc menv Hive P Info D Len hlive).1 hok]
    refine ⟨by simp [List.count_cons], [MethodEvent.CmpLockRegistry,
      MethodEvent.CmpLockKCBExclusive P, MethodEvent.CmpLockHiveFlusherShared,
      MethodEvent.CmLockHiveSecurityExclusive, MethodEvent.CmpSetSecurityDescriptorInfo],
      [MethodEvent.CmpUnlockHiveFlusher, MethodEvent.CmpUnlockKCB P,
        MethodEvent.CmpUnlockRegistry], rfl, by simp, by simp⟩
  · unfold CmpCheckNotifyAccess
    cases CmpFindSecurityCellCacheIndex Hive Node.Security with
    | none => exact ⟨rfl, rfl, rfl⟩
    | some c => exact ⟨rfl, rfl, rfl⟩

theorem C37_lock_balance_witness :
    (CmpSecurityMethod ExampleEnv ExampleAccessEnv ExampleMethodEnv ExampleHiveSplit 64
        SetSecurityDescriptor 4 [9, 9] 0).Status = Outcome.Returned STATUS_SUCCESS ∧
      HeldAfter [] (CmpSecurityMethod ExampleEnv ExampleAccessEnv ExampleMethodEnv
        ExampleHiveSplit 64 SetSecurityDescriptor 4 [9, 9] 0).Trace = some [] :=
  ⟨by decide,
   (C37_lock_balance ExampleEnv ExampleAccessEnv ExampleMethodEnv ExampleHiveSplit 64
      SetSecurityDescriptor 4 [9, 9] 0 ⟨0, 0, 0, 1023, [0, 0]⟩).1 STATUS_SUCCESS (by decide)⟩

/-- C38. The subtree walk terminates: on a finite key tree (of `d` levels, its
nodes at distinct cells) and with a check stack of at least one entry,
`CmpDoAccessCheckOnSubtree` returns within `WalkFuel` iterations of its loop;
the list of the iterations of the loop is complete by then (more fuel adds
none) and has at most `WalkFuel` entries; `CmpCheckKeyAccess` is called at
most once on any cell (at most one iteration is entered with the cell on top
of the stack and not checked before); and at most (subkey count + 1)
iterations are entered with any given node on top of the stack. -/
theorem C38_subtree_walk_terminates (env : Env) (acc : AccessEnv) (H : CMHIVE)
    (Cell : HCELL_INDEX) (PreviousMode DesiredAccess : Nat) (CheckRoot : Bool) (d : Nat)
    (hpos : 0 < acc.CMP_MAX_REGISTRY_DEPTH)
    (htree : TreeWithin env acc H d Cell = true)
    (hnodup : (SubtreeCells env acc H d Cell).Nodup) :
    (∃ r, CmpDoAccessCheckOnSubtree env acc (WalkFuel acc) H Cell PreviousMode DesiredAccess
      CheckRoot = some r) ∧
    (∀ more,
      WalkIterations env acc { H with ReleaseCellRoutine := none } PreviousMode DesiredAccess
          (WalkFuel acc + more) (WalkStart acc Cell CheckRoot) =
        WalkIterations env acc { H with ReleaseCellRoutine := none } PreviousMode DesiredAccess
          (WalkFuel acc) (WalkStart acc Cell CheckRoot)) ∧
    (WalkIterations env acc { H with ReleaseCellRoutine := none } PreviousMode DesiredAccess
      (WalkFuel acc) (WalkStart acc Cell CheckRoot)).length ≤ WalkFuel acc ∧
    (∀ c,
      ChecksOnCell
        (WalkIterations env acc { H with ReleaseCellRoutine := none } PreviousMode DesiredAccess
          (WalkFuel acc) (WalkStart acc Cell CheckRoot)) c ≤ 1) ∧
    (∀ c Node, HvGetCellNode env H c = some Node →
      IterationsOnTop
        (WalkIterations env acc { H with ReleaseCellRoutine := none } PreviousMode DesiredAccess
          (WalkFuel acc) (WalkStart acc Cell CheckRoot)) c ≤ SubKeyCount Node + 1) := by
  have htree0 : TreeWithin env acc { H with ReleaseCellRoutine := none } d Cell = true := by
    rw [TreeWithin_release]
    exact htree
  have hnodup0 : (SubtreeCells env acc { H with ReleaseCellRoutine := none } d Cell).Nodup := by
    rw [SubtreeCells_release]
    exact hnodup
  have htops := WalkIterations_tops env acc { H with ReleaseCellRoutine := none }
    PreviousMode DesiredAccess d Cell CheckRoot (WalkFuel acc) hpos htree0
  obtain ⟨t, ht⟩ := WalkLoop_ends env acc { H with ReleaseCellRoutine := none } PreviousMode
    DesiredAccess (WalkFuel acc) (WalkStart acc Cell CheckRoot)
    (by rw [WalkMeasure_WalkStart acc Cell CheckRoot hpos])
    (by show (0 : Int) < _; exact_mod_cast hpos) (by simp [WalkStart])
  refine ⟨CmpDoAccessCheckOnSubtree_returns env acc H Cell PreviousMode DesiredAccess CheckRoot
    hpos _ (Nat.le_refl _), ?_, WalkIterations_length _ _ _ _ _ _ _, ?_, ?_⟩
  · intro more
    exact WalkIterations_stable _ _ _ _ _ more _ _ t ht
  · intro c
    unfold ChecksOnCell
    exact ((htops.sublist.countP_le _).trans (TopsOf_unchecked _ _ _ c d Cell _)).trans
      (List.nodup_iff_count_le_one.1 hnodup0 c)
  · intro c Node hn
    unfold IterationsOnTop
    have h1 := (htops.sublist.countP_le (fun e => decide (e.1 = c))).trans
      (TopsOf_count env acc { H with ReleaseCellRoutine := none } c Node hn d Cell _)
    have h2 := List.nodup_iff_count_le_one.1 hnodup0 c
    calc _ ≤ _ := h1
      _ ≤ 1 * (SubKeyCount Node + 1) := Nat.mul_le_mul_right _ h2
      _ = SubKeyCount Node + 1 := Nat.one_mul _

theorem C38_subtree_walk_terminates_witness :
    IterationsOnTop
      (WalkIterations ExampleEnv ExampleAccessEnv
        { ExampleTreeHive with ReleaseCellRoutine := none } 1 1 (WalkFuel ExampleAccessEnv)
        (WalkStart ExampleAccessEnv 32 true)) 32 ≤
      SubKeyCount
        { Flags := 4, LastWriteTime := 0, Parent := 0, Security := 1023,
          SubKeyCounts := [2, 0] } + 1 :=
  (C38_subtree_walk_terminates ExampleEnv ExampleAccessEnv ExampleTreeHive 32 1 1 true 3
    (by decide) (by decide) (by decide)).2.2.2.2 32 _ (by decide)
